import Mathlib

/-!
The qpDUNES dual Newton solver: block-tridiagonal Cholesky, Newton system assembly, driver

Shallow embedding of `ccs-c66x/qpDUNES/dual_qp.c` and `matrix_vector.c`.
`real_t` is modelled by an arbitrary linearly ordered field `α` (exact arithmetic);
the square root `sqrt_f` of `c66math.h` is a parameter of every definition that uses it.
The stage solver and the helpers whose code is not among the sources are the fields of
`collaborators_t`; a failed `assert` is the result `none`.
-/

namespace QpDunes

/-! ## Loops -/

/-- Loop `for (i = lo; i < lo + n; ++i) s = body i s`. -/
def forUp {σ : Type} (body : Nat → σ → σ) (lo : Nat) : Nat → σ → σ
  | 0, s => s
  | n + 1, s => body (lo + n) (forUp body lo n s)

/-- Loop `for (i = lo + n - 1; i >= lo; --i) s = body i s`. -/
def forDown {σ : Type} (body : Nat → σ → σ) (lo : Nat) : Nat → σ → σ
  | 0, s => s
  | n + 1, s => forDown body lo n (body (lo + n) s)

/-- Ascending loop whose body may leave the enclosing function (`return`): the error
side carries what the function returns. -/
def forUpM {σ ε : Type} (body : Nat → σ → Except ε σ) (lo : Nat) : Nat → σ → Except ε σ
  | 0, s => Except.ok s
  | n + 1, s =>
    match forUpM body lo n s with
    | Except.ok s1 => body (lo + n) s1
    | Except.error e => Except.error e

/-- Descending loop whose body may leave the enclosing function. -/
def forDownM {σ ε : Type} (body : Nat → σ → Except ε σ) (lo : Nat) : Nat → σ → Except ε σ
  | 0, s => Except.ok s
  | n + 1, s =>
    match body (lo + n) s with
    | Except.ok s1 => forDownM body lo n s1
    | Except.error e => Except.error e

/-! ## Types (types.h is not among the sources; enumerations follow their use) -/

/-- Status codes used by the dual Newton solver. -/
inductive return_t
  | QPDUNES_OK
  | QPDUNES_SUCC_OPTIMAL_SOLUTION_FOUND
  | QPDUNES_ERR_STAGE_QP_INFEASIBLE
  | QPDUNES_ERR_ITERATION_LIMIT_REACHED
  | QPDUNES_ERR_DIVISION_BY_ZERO
  | QPDUNES_ERR_NUMBER_OF_MAX_LINESEARCH_ITERATIONS_REACHED
  | QPDUNES_ERR_DECEEDED_MIN_LINESEARCH_STEPSIZE
  | QPDUNES_ERR_EXCEEDED_MAX_LINESEARCH_STEPSIZE
  | QPDUNES_ERR_NEWTON_SYSTEM_NO_ASCENT_DIRECTION
  | QPDUNES_ERR_UNKNOWN_ERROR
  | QPDUNES_ERR_INVALID_ARGUMENT
  | QPDUNES_ERR_UNKNOWN_MATRIX_SPARSITY_TYPE
  | QPDUNES_ERR_UNKNOWN_LS_TYPE
  deriving DecidableEq, Repr

/-- Regularization strategies (`options.regType`). -/
inductive regType_t
  | QPDUNES_REG_LEVENBERG_MARQUARDT
  | QPDUNES_REG_NORMALIZED_LEVENBERG_MARQUARDT
  | QPDUNES_REG_SINGULAR_DIRECTIONS
  | QPDUNES_REG_UNCONSTRAINED_HESSIAN
  | QPDUNES_REG_GRADIENT_STEP
  deriving DecidableEq, Repr

/-- Newton Hessian factorization algorithms (`options.nwtnHssnFacAlg`). -/
inductive nwtnHssnFacAlg_t
  | QPDUNES_NH_FAC_BAND_FORWARD
  | QPDUNES_NH_FAC_BAND_REVERSE
  | QPDUNES_NH_FAC_OTHER
  deriving DecidableEq, Repr

/-- Matrix sparsity tags. -/
inductive sparsityType_t
  | QPDUNES_DENSE
  | QPDUNES_SPARSE
  | QPDUNES_MATRIX_UNDEFINED
  | QPDUNES_ALLZEROS
  | QPDUNES_DIAGONAL
  | QPDUNES_IDENTITY
  deriving DecidableEq, Repr

/-- Line search strategies (`options.lsType`). -/
inductive lsType_t
  | QPDUNES_LS_BACKTRACKING_LS
  | QPDUNES_LS_BACKTRACKING_LS_WITH_AS_CHANGE
  | QPDUNES_LS_GOLDEN_SECTION_LS
  | QPDUNES_LS_GRADIENT_BISECTION_LS
  | QPDUNES_LS_ACCELERATED_GRADIENT_BISECTION_LS
  | QPDUNES_LS_GRID_LS
  | QPDUNES_LS_ACCELERATED_GRID_LS
  | QPDUNES_LS_OTHER
  deriving DecidableEq, Repr

/-- Logging levels (`options.logLevel`), in increasing order. -/
inductive logLevel_t
  | QPDUNES_LOG_OFF
  | QPDUNES_LOG_ITERATIONS
  | QPDUNES_LOG_ALL_DATA
  deriving DecidableEq, Repr

/-- Numeric value of a logging level, for the comparison `logLevel >= QPDUNES_LOG_ITERATIONS`. -/
def logLevel_t.toNat : logLevel_t → Nat
  | logLevel_t.QPDUNES_LOG_OFF => 0
  | logLevel_t.QPDUNES_LOG_ITERATIONS => 1
  | logLevel_t.QPDUNES_LOG_ALL_DATA => 2

/-- Stage QP solvers (`interval->qpSolverSpecification`). -/
inductive qp_solver_t
  | QPDUNES_STAGE_QP_SOLVER_UNDEFINED
  | QPDUNES_STAGE_QP_SOLVER_CLIPPING
  | QPDUNES_STAGE_QP_SOLVER_QPOASES
  deriving DecidableEq, Repr

/-- The options read by the dual Newton solver. -/
structure qpOptions_t (α : Type) where
  maxIter : Int
  maxNumLineSearchIterations : Nat
  maxNumLineSearchRefinementIterations : Nat
  logLevel : logLevel_t
  stationarityTolerance : α
  equalityTolerance : α
  newtonHessDiagRegTolerance : α
  QPDUNES_ZERO : α
  QPDUNES_INFTY : α
  nbrInitialGradientSteps : Int
  regType : regType_t
  regParam : α
  nwtnHssnFacAlg : nwtnHssnFacAlg_t
  lsType : lsType_t
  lineSearchReductionFactor : α
  lineSearchIncreaseFactor : α
  lineSearchMinAbsProgress : α
  lineSearchMinRelProgress : α
  lineSearchStationarityTolerance : α
  lineSearchMaxStepSize : α
  lineSearchNbrGridPoints : Nat

/-- Modelled from the spec: the block-tridiagonal storage behind the access macros
`accHessian( K, L, I, J )` and `accCholHessian( K, L, I, J )` (types.h is missing): one
array holding per block-column `K` the sub-diagonal block (`L = -1`) and then the
diagonal block (`L = 0`), each `_NX_ x _NX_` with row `I` and column `J`; an entry is
addressed by the four macro arguments. -/
abbrev xn2x_matrix_t (α : Type) := Nat × Int × Nat × Nat → α

/-- Read access `accHessian( K, L, I, J )`. -/
abbrev accHessian {α : Type} (hessian : xn2x_matrix_t α) (K : Nat) (L : Int) (I J : Nat) : α :=
  hessian (K, L, I, J)

/-- Read access `accCholHessian( K, L, I, J )`. -/
abbrev accCholHessian {α : Type} (cholHessian : xn2x_matrix_t α) (K : Nat) (L : Int)
    (I J : Nat) : α :=
  cholHessian (K, L, I, J)

/-- Write access `accCholHessian( K, L, I, J ) = v` (also used for `accHessian`). -/
abbrev setAcc {α : Type} (m : xn2x_matrix_t α) (K : Nat) (L : Int) (I J : Nat) (v : α) :
    xn2x_matrix_t α :=
  Function.update m (K, L, I, J) v

/-- Modelled from the spec: `divide_f` of c66math.h (missing), the quotient `a / b`. -/
def divide_f {α : Type} [LinearOrderedField α] (a b : α) : α := a / b

/-- The two outputs of a factorization: the factor and the regularization flag. -/
structure cholState_t (α : Type) where
  cholHessian : xn2x_matrix_t α
  isHessianRegularized : Bool

section Factorization

variable {α : Type} [LinearOrderedField α]

/-- Step 1 of a forward column: the pivot `sum` before the tolerance check
(dual_qp.c 584-596). -/
def factorizeNewtonHessian_pivot (nX : Nat) (hessian c : xn2x_matrix_t α) (kk jj : Nat) : α :=
  let sum := accHessian hessian kk 0 jj jj
  let sum := forUp (fun ll sum =>
    sum - accCholHessian c kk 0 jj ll * accCholHessian c kk 0 jj ll) 0 jj sum
  if kk > 0 then
    forUp (fun ll sum =>
      sum - accCholHessian c kk (-1) jj ll * accCholHessian c kk (-1) jj ll) 0 nX sum
  else sum

/-- Steps 2b and 3 of a forward column: write the diagonal entry and the remainder of
column `jj` (dual_qp.c 611-661; the unused temporaries colMax, colSum are left out). -/
def factorizeNewtonHessian_writeColumn (sqrt_f : α → α) (N nX : Nat) (hessian : xn2x_matrix_t α)
    (kk jj : Nat) (sum : α) (c : xn2x_matrix_t α) : xn2x_matrix_t α :=
  let c := setAcc c kk 0 jj jj (sqrt_f sum)
  let c := forUp (fun ii c =>
    let sum := accHessian hessian kk 0 ii jj
    let sum := forUp (fun ll sum =>
      sum - accCholHessian c kk 0 ii ll * accCholHessian c kk 0 jj ll) 0 jj sum
    let sum := if kk > 0 then
        forUp (fun ll sum =>
          sum - accCholHessian c kk (-1) ii ll * accCholHessian c kk (-1) jj ll) 0 nX sum
      else sum
    setAcc c kk 0 ii jj (divide_f sum (accCholHessian c kk 0 jj jj))) (jj + 1) (nX - (jj + 1)) c
  if kk + 1 < N then
    forUp (fun ii c =>
      let sum := accHessian hessian (kk + 1) (-1) ii jj
      let sum := forUp (fun ll sum =>
        sum - accCholHessian c (kk + 1) (-1) ii ll * accCholHessian c kk 0 jj ll) 0 jj sum
      setAcc c (kk + 1) (-1) ii jj (divide_f sum (accCholHessian c kk 0 jj jj))) 0 nX c
  else c

/-- Body of the in-block column loop of `qpDUNES_factorizeNewtonHessian`
(dual_qp.c 581-662). -/
def factorizeNewtonHessian_column (sqrt_f : α → α) (opt : qpOptions_t α) (N nX : Nat)
    (hessian : xn2x_matrix_t α) (kk jj : Nat) (st : cholState_t α) :
    Except (return_t × cholState_t α) (cholState_t α) :=
  let sum := factorizeNewtonHessian_pivot nX hessian st.cholHessian kk jj
  if opt.regType = regType_t.QPDUNES_REG_SINGULAR_DIRECTIONS ∧
      sum < opt.newtonHessDiagRegTolerance then
    Except.ok ⟨factorizeNewtonHessian_writeColumn sqrt_f N nX hessian kk jj
      (sum + (opt.QPDUNES_INFTY * opt.QPDUNES_INFTY + 1)) st.cholHessian, true⟩
  else if sum < opt.newtonHessDiagRegTolerance then
    Except.error (return_t.QPDUNES_ERR_DIVISION_BY_ZERO, st)
  else
    Except.ok ⟨factorizeNewtonHessian_writeColumn sqrt_f N nX hessian kk jj sum st.cholHessian,
      st.isHessianRegularized⟩

/-- Function `qpDUNES_factorizeNewtonHessian` (dual_qp.c 564-668): forward block-tridiagonal
Cholesky. Returns the status with the factor and flag as left at the return. -/
def qpDUNES_factorizeNewtonHessian (sqrt_f : α → α) (opt : qpOptions_t α) (N nX : Nat)
    (cholHessian hessian : xn2x_matrix_t α) (isHessianRegularized : Bool) :
    return_t × cholState_t α :=
  match forUpM (fun kk st =>
      forUpM (fun jj st => factorizeNewtonHessian_column sqrt_f opt N nX hessian kk jj st)
        0 nX st) 0 N ⟨cholHessian, isHessianRegularized⟩ with
  | Except.ok st => (return_t.QPDUNES_OK, st)
  | Except.error e => e

/-- Step 1 of a reverse column: the pivot `sum` before the tolerance check
(dual_qp.c 693-706). -/
def factorizeNewtonHessianBottomUp_pivot (N nX : Nat) (hessian c : xn2x_matrix_t α)
    (kk jj : Nat) : α :=
  let sum := accHessian hessian kk 0 jj jj
  let sum := forUp (fun ll sum =>
    sum - accCholHessian c kk 0 ll jj * accCholHessian c kk 0 ll jj) (jj + 1) (nX - (jj + 1)) sum
  if kk + 1 < N then
    forUp (fun ll sum =>
      sum - accCholHessian c (kk + 1) (-1) ll jj * accCholHessian c (kk + 1) (-1) ll jj) 0 nX sum
  else sum

/-- Steps 2b and 3 of a reverse column: write the diagonal entry and, by transposed
access, the remainder of row `jj` (dual_qp.c 722-760). -/
def factorizeNewtonHessianBottomUp_writeRow (sqrt_f : α → α) (N nX : Nat)
    (hessian : xn2x_matrix_t α) (kk jj : Nat) (sum : α) (c : xn2x_matrix_t α) :
    xn2x_matrix_t α :=
  let c := setAcc c kk 0 jj jj (sqrt_f sum)
  let c := forDown (fun ii c =>
    let sum := accHessian hessian kk 0 jj ii
    let sum := forUp (fun ll sum =>
      sum - accCholHessian c kk 0 ll ii * accCholHessian c kk 0 ll jj)
      (jj + 1) (nX - (jj + 1)) sum
    let sum := if kk + 1 < N then
        forUp (fun ll sum =>
          sum - accCholHessian c (kk + 1) (-1) ll ii * accCholHessian c (kk + 1) (-1) ll jj)
          0 nX sum
      else sum
    setAcc c kk 0 jj ii (divide_f sum (accCholHessian c kk 0 jj jj))) 0 jj c
  if kk > 0 then
    forDown (fun ii c =>
      let sum := accHessian hessian kk (-1) jj ii
      let sum := forUp (fun ll sum =>
        sum - accCholHessian c kk (-1) ll ii * accCholHessian c kk 0 ll jj)
        (jj + 1) (nX - (jj + 1)) sum
      setAcc c kk (-1) jj ii (divide_f sum (accCholHessian c kk 0 jj jj))) 0 nX c
  else c

/-- Body of the in-block column loop of `qpDUNES_factorizeNewtonHessianBottomUp`
(dual_qp.c 690-761). -/
def factorizeNewtonHessianBottomUp_column (sqrt_f : α → α) (opt : qpOptions_t α) (N nX : Nat)
    (hessian : xn2x_matrix_t α) (kk jj : Nat) (st : cholState_t α) :
    Except (return_t × cholState_t α) (cholState_t α) :=
  let sum := factorizeNewtonHessianBottomUp_pivot N nX hessian st.cholHessian kk jj
  if opt.regType = regType_t.QPDUNES_REG_SINGULAR_DIRECTIONS ∧
      sum < opt.newtonHessDiagRegTolerance then
    Except.ok ⟨factorizeNewtonHessianBottomUp_writeRow sqrt_f N nX hessian kk jj
      (sum + opt.regParam) st.cholHessian, true⟩
  else if sum < 100 * opt.equalityTolerance then
    Except.error (return_t.QPDUNES_ERR_DIVISION_BY_ZERO, st)
  else
    Except.ok ⟨factorizeNewtonHessianBottomUp_writeRow sqrt_f N nX hessian kk jj sum
      st.cholHessian, st.isHessianRegularized⟩

/-- The block index the reverse factorization starts from (dual_qp.c 685). -/
def blockIdxStart (N : Nat) (lastActSetChangeIdx : Int) : Int :=
  if lastActSetChangeIdx ≥ 0 then
    (if lastActSetChangeIdx < (N : Int) - 1 then lastActSetChangeIdx else (N : Int) - 1)
  else -1

/-- Function `qpDUNES_factorizeNewtonHessianBottomUp` (dual_qp.c 675-766): reverse
block-tridiagonal Cholesky, restarted from block `lastActSetChangeIdx`. -/
def qpDUNES_factorizeNewtonHessianBottomUp (sqrt_f : α → α) (opt : qpOptions_t α) (N nX : Nat)
    (cholHessian hessian : xn2x_matrix_t α) (lastActSetChangeIdx : Int)
    (isHessianRegularized : Bool) : return_t × cholState_t α :=
  match forDownM (fun kk st =>
      forDownM (fun jj st => factorizeNewtonHessianBottomUp_column sqrt_f opt N nX hessian kk jj st)
        0 nX st) 0 (blockIdxStart N lastActSetChangeIdx + 1).toNat
      ⟨cholHessian, isHessianRegularized⟩ with
  | Except.ok st => (return_t.QPDUNES_OK, st)
  | Except.error e => e

end Factorization



/-! ## Back-substitution -/

section Solve

variable {α : Type} [LinearOrderedField α]

/-- Function `qpDUNES_solveNewtonEquation` (dual_qp.c 775-830): back-substitution for the
forward factor, first `L x = g` top down, then `L^T res = x` bottom up, both in `res`. -/
def qpDUNES_solveNewtonEquation (opt : qpOptions_t α) (N nX : Nat) (res : Nat → α)
    (cholHessian : xn2x_matrix_t α) (gradient : Nat → α) : return_t × (Nat → α) :=
  let res := forUp (fun kk res =>
    forUp (fun ii res =>
      let sum := gradient (kk * nX + ii)
      let sum := if kk > 0 then
          forUp (fun jj sum =>
            sum - accCholHessian cholHessian kk (-1) ii jj * res ((kk - 1) * nX + jj)) 0 nX sum
        else sum
      let sum := forUp (fun jj sum =>
        sum - accCholHessian cholHessian kk 0 ii jj * res (kk * nX + jj)) 0 ii sum
      if accCholHessian cholHessian kk 0 ii ii > opt.QPDUNES_INFTY then
        Function.update res (kk * nX + ii) 0
      else
        Function.update res (kk * nX + ii)
          (divide_f sum (accCholHessian cholHessian kk 0 ii ii))) 0 nX res) 0 N res
  let res := forDown (fun kk res =>
    forDown (fun ii res =>
      let sum := res (kk * nX + ii)
      let sum := forUp (fun jj sum =>
        sum - accCholHessian cholHessian kk 0 jj ii * res (kk * nX + jj))
        (ii + 1) (nX - (ii + 1)) sum
      let sum := if kk + 1 < N then
          forUp (fun jj sum =>
            sum - accCholHessian cholHessian (kk + 1) (-1) jj ii * res ((kk + 1) * nX + jj))
            0 nX sum
        else sum
      Function.update res (kk * nX + ii)
        (divide_f sum (accCholHessian cholHessian kk 0 ii ii))) 0 nX res) 0 N res
  (return_t.QPDUNES_OK, res)

/-- Function `qpDUNES_solveNewtonEquationBottomUp` (dual_qp.c 838-890): back-substitution
for the reverse factor, first `L^T x = g` bottom up, then `L res = x` top down. -/
def qpDUNES_solveNewtonEquationBottomUp (N nX : Nat) (res : Nat → α)
    (cholHessian : xn2x_matrix_t α) (gradient : Nat → α) : return_t × (Nat → α) :=
  let res := forDown (fun kk res =>
    forDown (fun ii res =>
      let sum := gradient (kk * nX + ii)
      let sum := forUp (fun jj sum =>
        sum - accCholHessian cholHessian kk 0 jj ii * res (kk * nX + jj))
        (ii + 1) (nX - (ii + 1)) sum
      let sum := if kk + 1 < N then
          forUp (fun jj sum =>
            sum - accCholHessian cholHessian (kk + 1) (-1) jj ii * res ((kk + 1) * nX + jj))
            0 nX sum
        else sum
      Function.update res (kk * nX + ii)
        (divide_f sum (accCholHessian cholHessian kk 0 ii ii))) 0 nX res) 0 N res
  let res := forUp (fun kk res =>
    forUp (fun ii res =>
      let sum := res (kk * nX + ii)
      let sum := if kk > 0 then
          forUp (fun jj sum =>
            sum - accCholHessian cholHessian kk (-1) ii jj * res ((kk - 1) * nX + jj)) 0 nX sum
        else sum
      let sum := forUp (fun jj sum =>
        sum - accCholHessian cholHessian kk 0 ii jj * res (kk * nX + jj)) 0 ii sum
      Function.update res (kk * nX + ii)
        (divide_f sum (accCholHessian cholHessian kk 0 ii ii))) 0 nX res) 0 N res
  (return_t.QPDUNES_OK, res)

/-- What a lower-triangular row solve subtracts from the right-hand side in row `(kk, ii)`. -/
def lowPart (nX : Nat) (c : xn2x_matrix_t α) (res : Nat → α) (kk ii : Nat) : α :=
  (if kk > 0 then ∑ jj in Finset.range nX, c (kk, -1, ii, jj) * res ((kk - 1) * nX + jj) else 0)
    + ∑ jj in Finset.range ii, c (kk, 0, ii, jj) * res (kk * nX + jj)

/-- What an upper-triangular row solve subtracts from the right-hand side in row `(kk, ii)`. -/
def upPart (N nX : Nat) (c : xn2x_matrix_t α) (res : Nat → α) (kk ii : Nat) : α :=
  ∑ t in Finset.range (nX - (ii + 1)), c (kk, 0, ii + 1 + t, ii) * res (kk * nX + (ii + 1 + t))
    + (if kk + 1 < N then
        ∑ jj in Finset.range nX, c (kk + 1, -1, jj, ii) * res ((kk + 1) * nX + jj) else 0)

/-- One row of a lower-triangular solve, right-hand side read through `src`. -/
def lowerRow (src : (Nat → α) → Nat → α) (nX : Nat) (c : xn2x_matrix_t α) (kk ii : Nat)
    (res : Nat → α) : Nat → α :=
  Function.update res (kk * nX + ii)
    ((src res (kk * nX + ii) - lowPart nX c res kk ii) / c (kk, 0, ii, ii))

/-- One row of an upper-triangular solve, right-hand side read through `src`. -/
def upperRow (src : (Nat → α) → Nat → α) (N nX : Nat) (c : xn2x_matrix_t α) (kk ii : Nat)
    (res : Nat → α) : Nat → α :=
  Function.update res (kk * nX + ii)
    ((src res (kk * nX + ii) - upPart N nX c res kk ii) / c (kk, 0, ii, ii))

/-- Lower-triangular solve, rows top down. -/
def lowerSweep (src : (Nat → α) → Nat → α) (N nX : Nat) (c : xn2x_matrix_t α)
    (res : Nat → α) : Nat → α :=
  forUp (fun kk res => forUp (fun ii res => lowerRow src nX c kk ii res) 0 nX res) 0 N res

/-- Upper-triangular solve, rows bottom up. -/
def upperSweep (src : (Nat → α) → Nat → α) (N nX : Nat) (c : xn2x_matrix_t α)
    (res : Nat → α) : Nat → α :=
  forDown (fun kk res => forDown (fun ii res => upperRow src N nX c kk ii res) 0 nX res) 0 N res

/-- Invariant of the lower solve before row `(kk, n)`: the rows before it satisfy their
equation, the other rows still hold the initial content. -/
def LowInv (src : (Nat → α) → Nat → α) (N nX : Nat) (c : xn2x_matrix_t α)
    (res0 res : Nat → α) (kk n : Nat) : Prop :=
  (∀ k i, k < N → i < nX → (k < kk ∨ (k = kk ∧ i < n)) →
    res (k * nX + i) = (src res0 (k * nX + i) - lowPart nX c res k i) / c (k, 0, i, i)) ∧
  (∀ k i, k < N → i < nX → ¬ (k < kk ∨ (k = kk ∧ i < n)) → res (k * nX + i) = res0 (k * nX + i))

/-- Invariant of the upper solve when the rows `(k, i)` with `k > kk` or `k = kk`, `i >= n`
are done. -/
def UpInv (src : (Nat → α) → Nat → α) (N nX : Nat) (c : xn2x_matrix_t α)
    (res0 res : Nat → α) (kk n : Nat) : Prop :=
  (∀ k i, k < N → i < nX → (kk < k ∨ (k = kk ∧ n ≤ i)) →
    res (k * nX + i) = (src res0 (k * nX + i) - upPart N nX c res k i) / c (k, 0, i, i)) ∧
  (∀ k i, k < N → i < nX → ¬ (kk < k ∨ (k = kk ∧ n ≤ i)) → res (k * nX + i) = res0 (k * nX + i))

/-- The factor as one block lower-bidiagonal matrix: lower-triangular diagonal blocks
`L[k,0]` and sub-diagonal blocks `L[k,-1]`. -/
def cholFull (N nX : Nat) (c : xn2x_matrix_t α) : Matrix (Fin N × Fin nX) (Fin N × Fin nX) α :=
  Matrix.of fun p q =>
    if (q.1 : Nat) = (p.1 : Nat) then
      (if (q.2 : Nat) ≤ (p.2 : Nat) then c ((p.1 : Nat), 0, (p.2 : Nat), (q.2 : Nat)) else 0)
    else if (q.1 : Nat) + 1 = (p.1 : Nat) then c ((p.1 : Nat), -1, (p.2 : Nat), (q.2 : Nat))
    else 0

/-- The symmetric block-tridiagonal matrix whose lower part is stored in `m`: diagonal
blocks `M[k,0]` (lower triangle mirrored), sub-diagonal blocks `M[k,-1]`, super-diagonal
blocks `M[k+1,-1]^T`. -/
def symFull (N nX : Nat) (m : xn2x_matrix_t α) : Matrix (Fin N × Fin nX) (Fin N × Fin nX) α :=
  Matrix.of fun p q =>
    if (q.1 : Nat) = (p.1 : Nat) then
      (if (q.2 : Nat) ≤ (p.2 : Nat) then m ((p.1 : Nat), 0, (p.2 : Nat), (q.2 : Nat))
        else m ((p.1 : Nat), 0, (q.2 : Nat), (p.2 : Nat)))
    else if (q.1 : Nat) + 1 = (p.1 : Nat) then m ((p.1 : Nat), -1, (p.2 : Nat), (q.2 : Nat))
    else if (p.1 : Nat) + 1 = (q.1 : Nat) then m ((q.1 : Nat), -1, (q.2 : Nat), (p.2 : Nat))
    else 0

/-- Column `(b, jq)` of the block lower-bidiagonal factor as a stacked vector. -/
def cholColVec (nX : Nat) (c : xn2x_matrix_t α) (b jq : Nat) : Nat → α :=
  fun n =>
    if b = n / nX then (if jq ≤ n % nX then c (n / nX, 0, n % nX, jq) else 0)
    else if b + 1 = n / nX then c (n / nX, -1, n % nX, jq)
    else 0

/-- Row `(b, jq)` of the block lower-bidiagonal factor as a stacked vector. -/
def cholRowVec (nX : Nat) (c : xn2x_matrix_t α) (b jq : Nat) : Nat → α :=
  fun n =>
    if n / nX = b then (if n % nX ≤ jq then c (b, 0, jq, n % nX) else 0)
    else if n / nX + 1 = b then c (b, -1, jq, n % nX)
    else 0

/-- A stacked vector `v[k * nX + i]` indexed by block `k` and in-block index `i`. -/
def blockVec (N nX : Nat) (v : Nat → α) : Fin N × Fin nX → α :=
  fun p => v ((p.1 : Nat) * nX + (p.2 : Nat))

end Solve

/-! ## Specification-level sums and predicates for the forward factorization -/

section ForwardSpec

variable {α : Type} [LinearOrderedField α]

/-- The value `sum` holds before the division when entry `(ii, jj)` of diagonal block `kk`
is computed by the forward factorization (`ii = jj`: the pivot). -/
def fwdSum (nX : Nat) (h c : xn2x_matrix_t α) (kk ii jj : Nat) : α :=
  h (kk, 0, ii, jj) - ∑ l in Finset.range jj, c (kk, 0, ii, l) * c (kk, 0, jj, l)
    - (if kk > 0 then ∑ l in Finset.range nX, c (kk, -1, ii, l) * c (kk, -1, jj, l) else 0)

/-- The value `sum` holds before the division when entry `(ii, jj)` of the sub-diagonal
block `kk + 1` is computed by the forward factorization. -/
def fwdSubSum (h c : xn2x_matrix_t α) (kk ii jj : Nat) : α :=
  h (kk + 1, -1, ii, jj) - ∑ l in Finset.range jj, c (kk + 1, -1, ii, l) * c (kk, 0, jj, l)

/-- The pivot after the on-the-fly regularization of the forward variant. -/
def fwdReg (opt : qpOptions_t α) (s : α) : α :=
  if opt.regType = regType_t.QPDUNES_REG_SINGULAR_DIRECTIONS ∧
      s < opt.newtonHessDiagRegTolerance then
    s + (opt.QPDUNES_INFTY * opt.QPDUNES_INFTY + 1)
  else s

/-- Column `(kk, jj)` of the factor `c` is what the forward factorization writes. -/
def FwdColOK (sqrt_f : α → α) (opt : qpOptions_t α) (N nX : Nat) (h c : xn2x_matrix_t α)
    (kk jj : Nat) : Prop :=
  (opt.regType = regType_t.QPDUNES_REG_SINGULAR_DIRECTIONS ∨
      ¬ fwdSum nX h c kk jj jj < opt.newtonHessDiagRegTolerance) ∧
  c (kk, 0, jj, jj) = sqrt_f (fwdReg opt (fwdSum nX h c kk jj jj)) ∧
  (∀ ii, jj < ii → ii < nX → c (kk, 0, ii, jj) = fwdSum nX h c kk ii jj / c (kk, 0, jj, jj)) ∧
  (kk + 1 < N → ∀ ii, ii < nX →
    c (kk + 1, -1, ii, jj) = fwdSubSum h c kk ii jj / c (kk, 0, jj, jj))

/-- The entries a forward column `(kk, jj)` condition reads are equal in `c` and `c1`. -/
def FwdAgree (c c1 : xn2x_matrix_t α) (kk jj : Nat) : Prop :=
  ∀ i l, (l ≤ jj → c1 (kk, 0, i, l) = c (kk, 0, i, l)) ∧ c1 (kk, -1, i, l) = c (kk, -1, i, l) ∧
    (l ≤ jj → c1 (kk + 1, -1, i, l) = c (kk + 1, -1, i, l))

/-- All columns before `(kk, n)` in forward order are as the factorization writes them. -/
def FwdDone (sqrt_f : α → α) (opt : qpOptions_t α) (N nX : Nat) (h c : xn2x_matrix_t α)
    (kk n : Nat) : Prop :=
  ∀ k j, k < N → j < nX → (k < kk ∨ (k = kk ∧ j < n)) → FwdColOK sqrt_f opt N nX h c k j

/-- Diagonal block `k` of a factor, read as a lower-triangular matrix. -/
def cholDiagBlock (nX : Nat) (c : xn2x_matrix_t α) (k : Nat) : Matrix (Fin nX) (Fin nX) α :=
  Matrix.of fun i j => if (j : Nat) ≤ (i : Nat) then c (k, 0, (i : Nat), (j : Nat)) else 0

/-- Sub-diagonal block `k` of a stored block-tridiagonal matrix. -/
def subDiagBlock (nX : Nat) (m : xn2x_matrix_t α) (k : Nat) : Matrix (Fin nX) (Fin nX) α :=
  Matrix.of fun i j => m (k, -1, (i : Nat), (j : Nat))

/-- Diagonal block `k` of a stored block-tridiagonal matrix. -/
def diagBlock (nX : Nat) (m : xn2x_matrix_t α) (k : Nat) : Matrix (Fin nX) (Fin nX) α :=
  Matrix.of fun i j => m (k, 0, (i : Nat), (j : Nat))

/-- Diagonal-block factor identity of the testable properties:
`(L[k,0] L[k,0]^T + (k>0 ? L[k,-1] L[k,-1]^T : 0))[i,j] = M[k,0][i,j]` for all `i >= j`,
`L[k,0]` read as lower-triangular. -/
def DiagBlockIdentity (N nX : Nat) (L M : xn2x_matrix_t α) : Prop :=
  ∀ k, k < N → ∀ i j : Fin nX, j ≤ i →
    (cholDiagBlock nX L k * (cholDiagBlock nX L k).transpose
      + (if k > 0 then subDiagBlock nX L k * (subDiagBlock nX L k).transpose else 0)) i j
    = diagBlock nX M k i j

/-- Sub-diagonal factor identity: `L[k+1,-1] L[k,0]^T = M[k+1,-1]` for `k < N-1`. -/
def SubBlockIdentity (N nX : Nat) (L M : xn2x_matrix_t α) : Prop :=
  ∀ k, k + 1 < N →
    subDiagBlock nX L (k + 1) * (cholDiagBlock nX L k).transpose = subDiagBlock nX M (k + 1)

end ForwardSpec

/-! ## Specification-level sums and predicates for the reverse factorization -/

section ReverseSpec

variable {α : Type} [LinearOrderedField α]

/-- The value `sum` holds before the division when entry `(jj, ii)` of diagonal block `kk`
is computed by the reverse factorization (`ii = jj`: the pivot). -/
def revSum (N nX : Nat) (h c : xn2x_matrix_t α) (kk jj ii : Nat) : α :=
  h (kk, 0, jj, ii)
    - ∑ t in Finset.range (nX - (jj + 1)), c (kk, 0, jj + 1 + t, ii) * c (kk, 0, jj + 1 + t, jj)
    - (if kk + 1 < N then
        ∑ l in Finset.range nX, c (kk + 1, -1, l, ii) * c (kk + 1, -1, l, jj) else 0)

/-- The value `sum` holds before the division when entry `(jj, ii)` of the sub-diagonal
block `kk` is computed by the reverse factorization. -/
def revSubSum (nX : Nat) (h c : xn2x_matrix_t α) (kk jj ii : Nat) : α :=
  h (kk, -1, jj, ii)
    - ∑ t in Finset.range (nX - (jj + 1)), c (kk, -1, jj + 1 + t, ii) * c (kk, 0, jj + 1 + t, jj)

/-- The pivot after the on-the-fly regularization of the reverse variant. -/
def revReg (opt : qpOptions_t α) (s : α) : α :=
  if opt.regType = regType_t.QPDUNES_REG_SINGULAR_DIRECTIONS ∧
      s < opt.newtonHessDiagRegTolerance then
    s + opt.regParam
  else s

/-- The reverse variant leaves with DIVISION_BY_ZERO at pivot `s`. -/
def revFails (opt : qpOptions_t α) (s : α) : Prop :=
  ¬ (opt.regType = regType_t.QPDUNES_REG_SINGULAR_DIRECTIONS ∧
      s < opt.newtonHessDiagRegTolerance) ∧ s < 100 * opt.equalityTolerance

/-- Row `jj` of block-column `kk` of the factor `c` is what the reverse factorization
writes. -/
def RevRowOK (sqrt_f : α → α) (opt : qpOptions_t α) (N nX : Nat) (h c : xn2x_matrix_t α)
    (kk jj : Nat) : Prop :=
  ¬ revFails opt (revSum N nX h c kk jj jj) ∧
  c (kk, 0, jj, jj) = sqrt_f (revReg opt (revSum N nX h c kk jj jj)) ∧
  (∀ ii, ii < jj → c (kk, 0, jj, ii) = revSum N nX h c kk jj ii / c (kk, 0, jj, jj)) ∧
  (kk > 0 → ∀ ii, ii < nX → c (kk, -1, jj, ii) = revSubSum nX h c kk jj ii / c (kk, 0, jj, jj))

/-- The entries a reverse row `(kk, jj)` condition reads are equal in `c` and `c1`. -/
def RevAgree (c c1 : xn2x_matrix_t α) (kk jj : Nat) : Prop :=
  ∀ l i, (jj ≤ l → c1 (kk, 0, l, i) = c (kk, 0, l, i)) ∧
    (jj ≤ l → c1 (kk, -1, l, i) = c (kk, -1, l, i)) ∧
    c1 (kk + 1, -1, l, i) = c (kk + 1, -1, l, i)

/-- All rows after `(kk, n)` in reverse order (blocks above `kk`, and rows `n` and up of
block `kk`) are as the reverse factorization writes them. -/
def RevDone (sqrt_f : α → α) (opt : qpOptions_t α) (N nX : Nat) (h c : xn2x_matrix_t α)
    (kk n : Nat) : Prop :=
  ∀ k j, k < N → j < nX → (kk < k ∨ (k = kk ∧ n ≤ j)) → RevRowOK sqrt_f opt N nX h c k j

/-- Diagonal-block identity of the reverse factor:
`(L[k,0]^T L[k,0] + (k<N-1 ? L[k+1,-1]^T L[k+1,-1] : 0))[j,i] = M[k,0][j,i]` for all `j >= i`,
`L[k,0]` read as lower-triangular. -/
def RevDiagBlockIdentity (N nX : Nat) (L M : xn2x_matrix_t α) : Prop :=
  ∀ k, k < N → ∀ i j : Fin nX, i ≤ j →
    ((cholDiagBlock nX L k).transpose * cholDiagBlock nX L k
      + (if k + 1 < N then (subDiagBlock nX L (k + 1)).transpose * subDiagBlock nX L (k + 1)
          else 0)) j i
    = diagBlock nX M k j i

/-- Two factorization outcomes carry the same status and the same factor. -/
def SameChol : Except (return_t × cholState_t α) (cholState_t α) →
    Except (return_t × cholState_t α) (cholState_t α) → Prop
  | Except.ok a, Except.ok b => a.cholHessian = b.cholHessian
  | Except.error a, Except.error b => a.1 = b.1 ∧ a.2.cholHessian = b.2.cholHessian
  | _, _ => False

/-- The options with the on-the-fly regularization switched off. -/
def noSing (opt : qpOptions_t α) : qpOptions_t α :=
  { opt with regType := regType_t.QPDUNES_REG_LEVENBERG_MARQUARDT }

end ReverseSpec

/-! ## Stage data and solver state -/

/-- A matrix with its sparsity tag (`matrix_t`); `data` is the flat array. -/
structure matrix_t (α : Type) where
  sparsityType : sparsityType_t
  data : Nat → α

/-- A vector (`vector_t`); `data` is the array. -/
structure vector_t (α : Type) where
  isDefined : Bool
  data : Nat → α

/-- Assignment `v->data[i] = x`. -/
def vector_t.set {α : Type} (v : vector_t α) (i : Nat) (x : α) : vector_t α :=
  { v with data := Function.update v.data i x }

/-- Assignment `M->data[i] = x`. -/
def matrix_t.set {α : Type} (M : matrix_t α) (i : Nat) (x : α) : matrix_t α :=
  { M with data := Function.update M.data i x }

/-- Workspace of the clipping stage solver (`interval->qpSolverClipping`). -/
structure qpSolverClipping_t (α : Type) where
  zUnconstrained : vector_t α
  dz : vector_t α
  qStep : vector_t α

/-- One stage (`interval_t`): the fields the dual Newton solver uses; `nD` and `nV` are
what the macros `_ND(kk)` and `_NV(kk)` read, `id` is the stage number that
`qpDUNES_shiftIntervals` rewrites, and `g`, `D`, `dLow`, `dUpp` are set up by
`qpDUNES_setupRegularInterval`. -/
structure interval_t (α : Type) where
  nD : Nat
  nV : Nat
  H : matrix_t α
  cholH : matrix_t α
  q : vector_t α
  p : α
  C : matrix_t α
  c : vector_t α
  zLow : vector_t α
  zUpp : vector_t α
  z : vector_t α
  y : vector_t α
  lambdaK : vector_t α
  lambdaK1 : vector_t α
  optObjVal : α
  actSetHasChanged : Bool
  qpSolverSpecification : qp_solver_t
  qpSolverClipping : qpSolverClipping_t α
  zVecTmp : vector_t α
  id : Int
  g : vector_t α
  D : matrix_t α
  dLow : vector_t α
  dUpp : vector_t α

/-- One iteration log entry (`itLog_t`). The two active set tables are pointers
(`int_t**`); they are modelled by their addresses in `log_t.ieqTables`. -/
structure itLog_t (α : Type) where
  itNbr : Int
  isHessianRegularized : Bool
  numLineSearchIter : Nat
  nActConstr : Nat
  nChgdConstr : Nat
  ieqStatus : Nat
  prevIeqStatus : Nat
  gradNorm : α
  stepNorm : α
  stepSize : α
  lambdaNorm : α
  objVal : α
  lastActSetChangeIdx : Int

/-- The log (`qpData->log`): the iteration counter, the entries, and the memory that the
active set table pointers of the entries point into (`ieqTables addr kk ii`). -/
structure log_t (α : Type) where
  numIter : Int
  itLog : Nat → itLog_t α
  ieqTables : Nat → Nat → Nat → Int

/-- The solver state (`qpData_t`): the fields the dual Newton solver uses. -/
structure qpData_t (α : Type) where
  options : qpOptions_t α
  intervals : Nat → interval_t α
  lambda : vector_t α
  deltaLambda : vector_t α
  gradient : vector_t α
  hessian : xn2x_matrix_t α
  cholHessian : xn2x_matrix_t α
  alpha : α
  xVecTmp : vector_t α
  xnVecTmp : vector_t α
  xnVecTmp2 : vector_t α
  xxMatTmp : matrix_t α
  zxMatTmp : matrix_t α
  log : log_t α

/-- Assignment `*(qpData->intervals[kk]) = v`. -/
def qpData_t.setInterval {α : Type} (qpData : qpData_t α) (kk : Nat) (v : interval_t α) :
    qpData_t α :=
  { qpData with intervals := Function.update qpData.intervals kk v }

/-- The functions the solver calls whose code is not among the sources (the clipping stage
solver of stage_qp_solver_clipping and the helpers of utils), as parameters. Each one reads
the solver state and produces the objects it is handed a pointer to:
`directQpSolver_doStep` is the call on `(dz, alpha, zUnconstrained, z, y, q, p)` of stage
`kk` and yields the stage; `directQpSolver_doStepTry` is the trial call on
`(dz, alpha, z, z, y, zVecTmp, pTry)` and also yields `pTry`;
`directQpSolver_saturateVector` yields the clipped vector and the multipliers;
`return_value` is the number a status code of types.h converts to. -/
structure collaborators_t (α : Type) where
  directQpSolver_doStep : qpData_t α → Nat → α → return_t × interval_t α
  directQpSolver_doStepTry : qpData_t α → Nat → α → return_t × interval_t α × α
  directQpSolver_getMinStepsize : interval_t α → α → α
  directQpSolver_saturateVector : qpData_t α → vector_t α → vector_t α → vector_t α →
    vector_t α → Nat → vector_t α × vector_t α
  directQpSolver_solveUnconstrained : qpData_t α → Nat → return_t × interval_t α
  clippingQpSolver_updateStageData : qpData_t α → Nat → interval_t α
  qpDUNES_updateVector : vector_t α → (Nat → α) → Nat → vector_t α
  qpDUNES_copyVector : vector_t α → vector_t α → Nat → vector_t α
  qpDUNES_makeMatrixDense : matrix_t α → Nat → Nat → matrix_t α
  qpDUNES_fmin : α → α → α
  return_value : return_t → α

/-- Ascending loop whose body may abort the program (a failed `assert`): `none`. -/
def forUpO {σ : Type} (body : Nat → σ → Option σ) (lo : Nat) : Nat → σ → Option σ
  | 0, s => some s
  | n + 1, s =>
    match forUpO body lo n s with
    | some s1 => body (lo + n) s1
    | none => none

section MatrixVector

variable {α : Type} [LinearOrderedField α]

/-- Modelled from the spec: `abs_f` of c66math.h (missing), the absolute value. -/
def abs_f (a : α) : α := |a|

/-- Access macro `accC( i, j )` (types.h is missing): entry `(i, j)` of the row-major
`_NX_ x _NZ_` matrix `C`, the layout `addCInvHCT` reads the same array with
(`M2->data[i * _NZ_ + l]`). -/
def accC (nZ : Nat) (C : matrix_t α) (i j : Nat) : α := C.data (i * nZ + j)

/-- Matrix-vector product `res = C*z` (matrix_vector.c 48-68). -/
def multiplyCz (nX nZ : Nat) (res : vector_t α) (C : matrix_t α) (z : vector_t α) :
    vector_t α :=
  forUp (fun i res =>
    let res := res.set i 0
    forUp (fun j res => res.set i (res.data i + accC nZ C i j * z.data j)) 0 nZ res) 0 nX res

/-- Vector update `res += scalingFactor * update` (matrix_vector.c `addScaledVector`). -/
def addScaledVector (res : vector_t α) (scalingFactor : α) (update : vector_t α) (len : Nat) :
    vector_t α :=
  forUp (fun i res => res.set i (res.data i + scalingFactor * update.data i)) 0 len res

/-- Vector operation `res = x + a*y`, where `res` may be the object `x`
(matrix_vector.c `addVectorScaledVector`): entry `i` of `x` is read before entry `i` of
`res` is written, so `x` is passed as the data it holds at the call. -/
def addVectorScaledVector (res : vector_t α) (x : vector_t α) (scalingFactor : α)
    (y : vector_t α) (len : Nat) : vector_t α :=
  forUp (fun i res => res.set i (x.data i + scalingFactor * y.data i)) 0 len res

/-- Vector update `res += update` (matrix_vector.c `addToVector`). -/
def addToVector (res update : vector_t α) (len : Nat) : vector_t α :=
  forUp (fun i res => res.set i (res.data i + update.data i)) 0 len res

/-- Vector update `res -= update` (matrix_vector.c `subtractFromVector`). -/
def subtractFromVector (res update : vector_t α) (len : Nat) : vector_t α :=
  forUp (fun i res => res.set i (res.data i - update.data i)) 0 len res

/-- Low level scalar product (matrix_vector.c `scalarProd`). -/
def scalarProd (x y : vector_t α) (len : Nat) : α :=
  forUp (fun i res => res + x.data i * y.data i) 0 len 0

/-- Euclidean norm `sqrt_f(scalarProd(vec, vec, len))` (matrix_vector.c `vectorNorm`). -/
def vectorNorm (sqrt_f : α → α) (vec : vector_t α) (len : Nat) : α :=
  sqrt_f (scalarProd vec vec len)

/-- Diagonal product `x'*M*x` with the diagonal in the first line
(matrix_vector.c `multiplyVectorMatrixVectorDiagonal`; `accM(0, j, dim0)` is `M[j]`). -/
def multiplyVectorMatrixVectorDiagonal (M x : Nat → α) (dim0 : Nat) : α :=
  forUp (fun j result => result + M j * x j * x j) 0 dim0 0

/-- Generic product `x'*M*x` (matrix_vector.c `multiplyVectorMatrixVector`); an invalid
sparsity type fails the assertion. -/
def multiplyVectorMatrixVector (M : matrix_t α) (x : vector_t α) (dim0 : Nat) : Option α :=
  match M.sparsityType with
  | sparsityType_t.QPDUNES_DIAGONAL => some (multiplyVectorMatrixVectorDiagonal M.data x.data dim0)
  | sparsityType_t.QPDUNES_IDENTITY => some (scalarProd x x dim0)
  | _ => none

/-- Product `z'*H*z` (matrix_vector.c `multiplyzHz`). -/
def multiplyzHz (H : matrix_t α) (z : vector_t α) (nV : Nat) : Option α :=
  multiplyVectorMatrixVector H z nV

/-- Backsolve `M1*res = I` for diagonal `M1` holding reciprocals
(matrix_vector.c `backsolveMatrixDiagonalIdentity`); leaves at the first small entry. -/
def backsolveMatrixDiagonalIdentity (opt : qpOptions_t α) (res M1 : Nat → α) (dim0 : Nat) :
    return_t × (Nat → α) :=
  match forUpM (fun i (res : Nat → α) =>
      if abs_f (M1 i) ≥ opt.QPDUNES_ZERO then Except.ok (Function.update res i (M1 i))
      else Except.error (return_t.QPDUNES_ERR_DIVISION_BY_ZERO, res)) 0 dim0 res with
  | Except.ok res => (return_t.QPDUNES_OK, res)
  | Except.error e => e

/-- Backsolve `L*res = M2^T` for diagonal `L = M1` holding reciprocals and dense `M2`
(matrix_vector.c `backsolveMatrixTDiagonalDense`). -/
def backsolveMatrixTDiagonalDense (opt : qpOptions_t α) (res M1 M2 : Nat → α)
    (dim0 dim1 : Nat) : return_t × (Nat → α) :=
  match forUpM (fun i (res : Nat → α) =>
      forUpM (fun j (res : Nat → α) =>
        if abs_f (M1 i) ≥ opt.QPDUNES_ZERO * abs_f (M2 (j * dim1 + i)) then
          Except.ok (Function.update res (i * dim0 + j) (M2 (j * dim1 + i) * M1 i))
        else Except.error (return_t.QPDUNES_ERR_DIVISION_BY_ZERO, res)) 0 dim0 res)
      0 dim1 res with
  | Except.ok res => (return_t.QPDUNES_OK, res)
  | Except.error e => e

/-- Product `res = Q^-1 * I` (matrix_vector.c `getInvQ`); an invalid sparsity type of
`cholH` fails the assertion. -/
def getInvQ (opt : qpOptions_t α) (res cholH : matrix_t α) (nV : Nat) :
    Option (return_t × matrix_t α) :=
  match cholH.sparsityType with
  | sparsityType_t.QPDUNES_DIAGONAL =>
    let r := backsolveMatrixDiagonalIdentity opt res.data cholH.data nV
    some (r.1, { sparsityType := sparsityType_t.QPDUNES_DIAGONAL, data := r.2 })
  | sparsityType_t.QPDUNES_IDENTITY =>
    some (return_t.QPDUNES_OK, { res with sparsityType := sparsityType_t.QPDUNES_IDENTITY })
  | _ => none

/-- Update `res += M2 * M1^-1 * M2.T` over the columns whose two bound multipliers do not
exceed `equalityTolerance` (matrix_vector.c `addCInvHCT`); yields `res` and `zxMatTmp`.
The status of the backsolve is not looked at. -/
def addCInvHCT (opt : qpOptions_t α) (ext : collaborators_t α) (nX nZ : Nat)
    (res cholM1 M2 : matrix_t α) (y : vector_t α) (zxMatTmp : matrix_t α) :
    Option (return_t × matrix_t α × matrix_t α) :=
  if cholM1.sparsityType = sparsityType_t.QPDUNES_DIAGONAL then
    let zxMatTmp : matrix_t α := { zxMatTmp with
      data := (backsolveMatrixTDiagonalDense opt zxMatTmp.data cholM1.data M2.data nX nZ).2 }
    let res := ext.qpDUNES_makeMatrixDense res nX nX
    let res := forUp (fun l (res : matrix_t α) =>
      if y.data (2 * l) ≤ opt.equalityTolerance ∧ y.data (2 * l + 1) ≤ opt.equalityTolerance then
        forUp (fun i (res : matrix_t α) =>
          forUp (fun j (res : matrix_t α) =>
            res.set (i * nX + j)
              (res.data (i * nX + j) + M2.data (i * nZ + l) * zxMatTmp.data (l * nX + j)))
            0 nX res) 0 nX res
      else res) 0 nZ res
    some (return_t.QPDUNES_OK, res, zxMatTmp)
  else none

/-- Product `res = A * Q^-1` over the state columns of `C` (matrix_vector.c
`multiplyAInvQ`); an invalid sparsity type of `cholH` fails the assertion. -/
def multiplyAInvQ (nX nZ : Nat) (res C cholH : matrix_t α) : Option (return_t × matrix_t α) :=
  let res : matrix_t α := { res with sparsityType := sparsityType_t.QPDUNES_DENSE }
  match cholH.sparsityType with
  | sparsityType_t.QPDUNES_DIAGONAL =>
    some (return_t.QPDUNES_OK,
      forUp (fun i (res : matrix_t α) =>
        forUp (fun j (res : matrix_t α) =>
          res.set (i * nX + j) (accC nZ C i j * cholH.data j)) 0 nX res) 0 nX res)
  | sparsityType_t.QPDUNES_IDENTITY =>
    some (return_t.QPDUNES_OK,
      forUp (fun i (res : matrix_t α) =>
        forUp (fun j (res : matrix_t α) =>
          res.set (i * nX + j) (accC nZ C i j)) 0 nX res) 0 nX res)
  | _ => none

end MatrixVector

/-! ## Newton gradient and Newton Hessian assembly -/

section Assembly

variable {α : Type} [LinearOrderedField α]

/-- The dual gradient (dual_qp.c 433-457): block `kk` is `C_kk z_kk + c_kk - z_(kk+1)`.
Yields the status, `gradient` and the scratch vector `gradPiece`. -/
def qpDUNES_computeNewtonGradient (N nX nZ : Nat) (qpData : qpData_t α)
    (gradient gradPiece : vector_t α) : return_t × vector_t α × vector_t α :=
  let s := forUp (fun kk (s : vector_t α × vector_t α) =>
    let gradPiece := multiplyCz nX nZ s.2 (qpData.intervals kk).C (qpData.intervals kk).z
    let gradPiece := addToVector gradPiece (qpData.intervals kk).c nX
    let gradPiece := subtractFromVector gradPiece (qpData.intervals (kk + 1)).z nX
    let gradient := forUp (fun ii (gradient : vector_t α) =>
      gradient.set (kk * nX + ii) (gradPiece.data ii)) 0 nX s.1
    (gradient, gradPiece)) 0 N (gradient, gradPiece)
  (return_t.QPDUNES_OK, s.1, s.2)

/-- The block `E P E' + C P C'` in `xxMatTmp` before it is written into the Hessian
(dual_qp.c 375-388): `getInvQ`, the dense form, the annihilation of the columns of active
state bounds of stage `kk + 1`, and `addCInvHCT`. Yields `xxMatTmp` and `zxMatTmp`; the
statuses of `getInvQ` and `addCInvHCT` are not looked at. -/
def setupNewtonSystem_diagTmp (ext : collaborators_t α) (nX nZ : Nat) (kk : Nat)
    (qpData : qpData_t α) : Option (matrix_t α × matrix_t α) :=
  match getInvQ qpData.options qpData.xxMatTmp (qpData.intervals (kk + 1)).cholH
      (qpData.intervals (kk + 1)).nV with
  | none => none
  | some r1 =>
    let xxMatTmp := ext.qpDUNES_makeMatrixDense r1.2 nX nX
    let xxMatTmp := forUp (fun ii (xxMatTmp : matrix_t α) =>
      if (qpData.intervals (kk + 1)).y.data (2 * ii) ≥ qpData.options.equalityTolerance ∨
          (qpData.intervals (kk + 1)).y.data (2 * ii + 1) ≥ qpData.options.equalityTolerance
      then xxMatTmp.set (ii * nX + ii) 0
      else xxMatTmp) 0 nX xxMatTmp
    match addCInvHCT qpData.options ext nX nZ xxMatTmp (qpData.intervals kk).cholH
        (qpData.intervals kk).C (qpData.intervals kk).y qpData.zxMatTmp with
    | none => none
    | some r2 => some (r2.2.1, r2.2.2)

/-- The loop that writes `xxMatTmp` into the diagonal block `kk` of the Hessian and cleans
`xxMatTmp` (dual_qp.c 391-397). -/
def setupNewtonSystem_writeDiag (nX : Nat) (kk : Nat) (s : xn2x_matrix_t α × matrix_t α) :
    xn2x_matrix_t α × matrix_t α :=
  forUp (fun ii (s : xn2x_matrix_t α × matrix_t α) =>
    forUp (fun jj (s : xn2x_matrix_t α × matrix_t α) =>
      (setAcc s.1 kk 0 ii jj (s.2.data (ii * nX + jj)), s.2.set (ii * nX + jj) 0))
      0 nX s) 0 nX s

/-- One pass of the diagonal block loop of `qpDUNES_setupNewtonSystem`
(dual_qp.c 371-399). -/
def setupNewtonSystem_diagBlock (ext : collaborators_t α) (nX nZ : Nat) (kk : Nat)
    (qpData : qpData_t α) : Option (qpData_t α) :=
  if (qpData.intervals kk).actSetHasChanged = true ∨
      (qpData.intervals (kk + 1)).actSetHasChanged = true then
    match setupNewtonSystem_diagTmp ext nX nZ kk qpData with
    | none => none
    | some t =>
      let s := setupNewtonSystem_writeDiag nX kk (qpData.hessian, t.1)
      some { qpData with hessian := s.1, xxMatTmp := s.2, zxMatTmp := t.2 }
  else some qpData

/-- One pass of the sub-diagonal block loop of `qpDUNES_setupNewtonSystem`
(dual_qp.c 402-422). -/
def setupNewtonSystem_subBlock (nX nZ : Nat) (kk : Nat) (qpData : qpData_t α) :
    Option (qpData_t α) :=
  if (qpData.intervals kk).actSetHasChanged = true then
    match multiplyAInvQ nX nZ qpData.xxMatTmp (qpData.intervals kk).C
        (qpData.intervals kk).cholH with
    | none => none
    | some r =>
      let hessian := forUp (fun ii (hessian : xn2x_matrix_t α) =>
        forUp (fun jj (hessian : xn2x_matrix_t α) =>
          if (qpData.intervals kk).y.data (2 * jj) ≤ qpData.options.equalityTolerance ∧
              (qpData.intervals kk).y.data (2 * jj + 1) ≤ qpData.options.equalityTolerance
          then setAcc hessian kk (-1) ii jj (- r.2.data (ii * nX + jj))
          else setAcc hessian kk (-1) ii jj 0) 0 nX hessian) 0 nX qpData.hessian
      some { qpData with hessian := hessian, xxMatTmp := r.2 }
  else some qpData

/-- The state after the gradient computation at the top of `qpDUNES_setupNewtonSystem`
(dual_qp.c 360): `gradient` and the scratch vector `xVecTmp` are written. -/
def setupNewtonSystem_gradient (N nX nZ : Nat) (qpData : qpData_t α) : qpData_t α :=
  let g := qpDUNES_computeNewtonGradient N nX nZ qpData qpData.gradient qpData.xVecTmp
  { qpData with gradient := g.2.1, xVecTmp := g.2.2 }

/-- Assembly of the Newton system (dual_qp.c 335-426): the gradient and its norm test, the
diagonal blocks, the sub-diagonal blocks. `none` is a failed assertion. -/
def qpDUNES_setupNewtonSystem (sqrt_f : α → α) (ext : collaborators_t α) (N nX nZ : Nat)
    (qpData : qpData_t α) : Option (return_t × qpData_t α) :=
  let qpData := setupNewtonSystem_gradient N nX nZ qpData
  if vectorNorm sqrt_f qpData.gradient (nX * N) < qpData.options.stationarityTolerance then
    some (return_t.QPDUNES_SUCC_OPTIMAL_SOLUTION_FOUND, qpData)
  else
    match forUpO (setupNewtonSystem_diagBlock ext nX nZ) 0 N qpData with
    | none => none
    | some qpData =>
      match forUpO (setupNewtonSystem_subBlock nX nZ) 1 (N - 1) qpData with
      | none => none
      | some qpData => some (return_t.QPDUNES_OK, qpData)

/-- Stage `k` or stage `k + 1` reports a changed active set (the test of dual_qp.c 373). -/
def diagChanged (qpData : qpData_t α) (k : Nat) : Prop :=
  (qpData.intervals k).actSetHasChanged = true ∨
    (qpData.intervals (k + 1)).actSetHasChanged = true

/-- The stored entry `(K, L, I, J)` lies in a block that this call recomputes: a diagonal
block `K < N` with a change in stage `K` or `K + 1`, or a sub-diagonal block `1 ≤ K < N`
with a change in stage `K`; `I, J < nX`. -/
def Recomputed (N nX : Nat) (qpData : qpData_t α) (K : Nat) (L : Int) (I J : Nat) : Prop :=
  ((L = 0 ∧ K < N ∧ diagChanged qpData K) ∨
    (L = -1 ∧ 1 ≤ K ∧ K < N ∧ (qpData.intervals K).actSetHasChanged = true)) ∧
  I < nX ∧ J < nX

/-- The state with the stored Hessian replaced. -/
def setHessian (qpData : qpData_t α) (hessian : xn2x_matrix_t α) : qpData_t α :=
  { qpData with hessian := hessian }

/-- Entry `(i, j)` of the diagonal block `k` in the closed form of what the assembly
computes (dual_qp.c 375-397): the reciprocal stored in `cholH` of stage `k + 1` on the
diagonal unless a bound multiplier of state `i` of stage `k + 1` is at least
`equalityTolerance`, plus the products over the columns `l` of `C_k` whose two bound
multipliers in stage `k` do not exceed `equalityTolerance`. -/
def assembledDiagEntry (nZ : Nat) (qpData : qpData_t α) (k i j : Nat) : α :=
  (if i = j ∧
      ¬ ((qpData.intervals (k + 1)).y.data (2 * i) ≥ qpData.options.equalityTolerance ∨
        (qpData.intervals (k + 1)).y.data (2 * i + 1) ≥ qpData.options.equalityTolerance)
    then (qpData.intervals (k + 1)).cholH.data i else 0) +
  ∑ l in Finset.range nZ,
    (if (qpData.intervals k).y.data (2 * l) ≤ qpData.options.equalityTolerance ∧
        (qpData.intervals k).y.data (2 * l + 1) ≤ qpData.options.equalityTolerance
      then (qpData.intervals k).C.data (i * nZ + l) *
        ((qpData.intervals k).C.data (j * nZ + l) * (qpData.intervals k).cholH.data l)
      else 0)

/-- A variable of a stage counts as active exactly when its lower or its upper bound
multiplier exceeds `equalityTolerance` (the test of `qpDUNES_getActSet`,
dual_qp.c 1405-1410). -/
def isActive (qpData : qpData_t α) (k l : Nat) : Prop :=
  (qpData.intervals k).y.data (2 * l) > qpData.options.equalityTolerance ∨
    (qpData.intervals k).y.data (2 * l + 1) > qpData.options.equalityTolerance

/-- Entry `(i, j)` of the diagonal block `k` as the specification states it for diagonal
stage Hessians: `[i = j and state variable i of stage k + 1 inactive] / H_(k+1),ii` plus the
sum over the variables `l` inactive in stage `k` of `C_k[i,l] * C_k[j,l] / H_k,ll`, with
`isActive` as the activity test of both terms. -/
def claimedDiagEntry (nZ : Nat) (qpData : qpData_t α) (k i j : Nat) : α :=
  (if i = j ∧ ¬ ((qpData.intervals (k + 1)).y.data (2 * i) > qpData.options.equalityTolerance ∨
      (qpData.intervals (k + 1)).y.data (2 * i + 1) > qpData.options.equalityTolerance)
    then 1 / (qpData.intervals (k + 1)).H.data i else 0) +
  ∑ l in Finset.range nZ,
    (if ¬ ((qpData.intervals k).y.data (2 * l) > qpData.options.equalityTolerance ∨
        (qpData.intervals k).y.data (2 * l + 1) > qpData.options.equalityTolerance)
      then (qpData.intervals k).C.data (i * nZ + l) * (qpData.intervals k).C.data (j * nZ + l) /
        (qpData.intervals k).H.data l
      else 0)

/-- The stage data under which every guarded division of the assembly goes through:
`cholH` of every stage is diagonal, holds at least `nX` entries, none of them smaller in
absolute value than `QPDUNES_ZERO` (the guard of `backsolveMatrixDiagonalIdentity`), and
for a stage with a coupling matrix each dominates `QPDUNES_ZERO` times the entries of its
column of `C` (the guard of `backsolveMatrixTDiagonalDense`). -/
def AssemblyGuards (N nX nZ : Nat) (qpData : qpData_t α) : Prop :=
  ∀ k, k ≤ N →
    (qpData.intervals k).cholH.sparsityType = sparsityType_t.QPDUNES_DIAGONAL ∧
    nX ≤ (qpData.intervals k).nV ∧
    (∀ i, i < (qpData.intervals k).nV →
      abs_f ((qpData.intervals k).cholH.data i) ≥ qpData.options.QPDUNES_ZERO) ∧
    (∀ l j, k < N → l < nZ → j < nX →
      abs_f ((qpData.intervals k).cholH.data l) ≥
        qpData.options.QPDUNES_ZERO * abs_f ((qpData.intervals k).C.data (j * nZ + l)))

/-- What the assembly needs of the missing `qpDUNES_makeMatrixDense`: a diagonal matrix
stored in its first line becomes the dense `nX x nX` matrix with that diagonal, and a
dense matrix is left as it is. -/
def MakesDense (ext : collaborators_t α) (nX : Nat) : Prop :=
  (∀ M : matrix_t α, M.sparsityType = sparsityType_t.QPDUNES_DIAGONAL →
    (ext.qpDUNES_makeMatrixDense M nX nX).sparsityType = sparsityType_t.QPDUNES_DENSE ∧
    ∀ i j, i < nX → j < nX →
      (ext.qpDUNES_makeMatrixDense M nX nX).data (i * nX + j) = if i = j then M.data i else 0) ∧
  (∀ M : matrix_t α, M.sparsityType = sparsityType_t.QPDUNES_DENSE →
    ext.qpDUNES_makeMatrixDense M nX nX = M)

end Assembly

/-! ## The outer driver -/

section Driver

variable {α : Type} [LinearOrderedField α]

/-- Assignment to the log entry `itLogPtr` of `qpDUNES_solve`, which is `log.itLog[0]`
throughout. -/
def qpData_t.setItLog (qpData : qpData_t α) (e : itLog_t α) : qpData_t α :=
  { qpData with log := { qpData.log with itLog := Function.update qpData.log.itLog 0 e } }

/-- Assignment `table[kk][ii] = v` in an active set table. -/
def setStatus (table : Nat → Nat → Int) (kk ii : Nat) (v : Int) : Nat → Nat → Int :=
  Function.update table kk (Function.update (table kk) ii v)

/-- Active set of the local constraints (dual_qp.c 1391-1422): writes the table and
yields the number of active constraints. -/
def qpDUNES_getActSet (N : Nat) (qpData : qpData_t α) (actSetStatus : Nat → Nat → Int) :
    Nat × (Nat → Nat → Int) :=
  forUp (fun kk (s : Nat × (Nat → Nat → Int)) =>
    forUp (fun ii (s : Nat × (Nat → Nat → Int)) =>
      if (qpData.intervals kk).y.data (2 * ii) > qpData.options.equalityTolerance then
        (s.1 + 1, setStatus s.2 kk ii (-1))
      else if (qpData.intervals kk).y.data (2 * ii + 1) > qpData.options.equalityTolerance then
        (s.1 + 1, setStatus s.2 kk ii 1)
      else (s.1, setStatus s.2 kk ii 0))
      0 ((qpData.intervals kk).nD + (qpData.intervals kk).nV) s) 0 (N + 1) (0, actSetStatus)

/-- Differences between two active sets (dual_qp.c 1431-1454): sets the change flags of
the stages and yields the number of changes and `lastActSetChangeIdx`. -/
def qpDUNES_compareActSets (N : Nat) (qpData : qpData_t α)
    (newActSetStatus oldActSetStatus : Nat → Nat → Int) : Nat × qpData_t α × Int :=
  forUp (fun kk (s : Nat × qpData_t α × Int) =>
    let qpData := s.2.1.setInterval kk { s.2.1.intervals kk with actSetHasChanged := false }
    forUp (fun ii (s : Nat × qpData_t α × Int) =>
      if newActSetStatus kk ii ≠ oldActSetStatus kk ii then
        (s.1 + 1,
          s.2.1.setInterval kk { s.2.1.intervals kk with actSetHasChanged := true },
          (kk : Int))
      else s)
      0 ((qpData.intervals kk).nD + (qpData.intervals kk).nV) (s.1, qpData, s.2.2))
    0 (N + 1) (0, qpData, -1)

/-- The log of an iteration (dual_qp.c 204-218). -/
def qpDUNES_logIteration (sqrt_f : α → α) (N nX : Nat) (qpData : qpData_t α)
    (objValIncumbent : α) (lastActSetChangeIdx : Int) : qpData_t α :=
  qpData.setItLog { qpData.log.itLog 0 with
    gradNorm := vectorNorm sqrt_f qpData.gradient (N * nX),
    stepNorm := vectorNorm sqrt_f qpData.deltaLambda (N * nX),
    stepSize := qpData.alpha,
    lambdaNorm := vectorNorm sqrt_f qpData.lambda (N * nX),
    objVal := objValIncumbent,
    lastActSetChangeIdx := lastActSetChangeIdx }

/-- Objective value at the current point (dual_qp.c 1307-1331); `none` is the failed
assertion of `multiplyVectorMatrixVector`. -/
def qpDUNES_computeObjectiveValue (N : Nat) (qpData : qpData_t α) : Option (α × qpData_t α) :=
  forUpO (fun kk (s : α × qpData_t α) =>
    match multiplyzHz (s.2.intervals kk).H (s.2.intervals kk).z (s.2.intervals kk).nV with
    | none => none
    | some zHz =>
      let optObjVal := 1 / 2 * zHz
      let optObjVal := optObjVal +
        scalarProd (s.2.intervals kk).q (s.2.intervals kk).z (s.2.intervals kk).nV
      let optObjVal := optObjVal + (s.2.intervals kk).p
      some (s.1 + optObjVal,
        s.2.setInterval kk { s.2.intervals kk with optObjVal := optObjVal }))
    0 (N + 1) (0, qpData)

/-- Objective value at the trial step length `alpha` (dual_qp.c 1338-1381). -/
def qpDUNES_computeParametricObjectiveValue (ext : collaborators_t α) (N : Nat)
    (qpData : qpData_t α) (alpha : α) : Option (α × qpData_t α) :=
  match forUpM (fun kk (s : α × qpData_t α) =>
      match (s.2.intervals kk).qpSolverSpecification with
      | qp_solver_t.QPDUNES_STAGE_QP_SOLVER_CLIPPING =>
        let r := ext.directQpSolver_doStepTry s.2 kk alpha
        let qpData := s.2.setInterval kk r.2.1
        let pTry := r.2.2
        match multiplyzHz (qpData.intervals kk).H (qpData.intervals kk).z
            (qpData.intervals kk).nV with
        | none => Except.error none
        | some zHz =>
          let optObjVal := 1 / 2 * zHz
          let optObjVal := optObjVal +
            scalarProd (qpData.intervals kk).zVecTmp (qpData.intervals kk).z
              (qpData.intervals kk).nV
          let optObjVal := optObjVal + pTry
          Except.ok (s.1 + optObjVal,
            qpData.setInterval kk { qpData.intervals kk with optObjVal := optObjVal })
      | qp_solver_t.QPDUNES_STAGE_QP_SOLVER_QPOASES => Except.error none
      | qp_solver_t.QPDUNES_STAGE_QP_SOLVER_UNDEFINED =>
        Except.error (some (ext.return_value return_t.QPDUNES_ERR_UNKNOWN_ERROR, s.2)))
      0 (N + 1) (0, qpData) with
  | Except.ok s => some s
  | Except.error e => e

/-- Update of the multiplier parts and stage data of all local QPs (dual_qp.c 226-262). -/
def qpDUNES_updateAllLocalQPs (ext : collaborators_t α) (N nX : Nat) (qpData : qpData_t α)
    (lambda : vector_t α) : Option (return_t × qpData_t α) :=
  let qpData := qpData.setInterval 0 { qpData.intervals 0 with
    lambdaK1 := ext.qpDUNES_updateVector (qpData.intervals 0).lambdaK1
      (fun i => lambda.data (0 + i)) nX }
  let qpData := forUp (fun kk (qpData : qpData_t α) =>
    let qpData := qpData.setInterval kk { qpData.intervals kk with
      lambdaK := ext.qpDUNES_updateVector (qpData.intervals kk).lambdaK
        (fun i => lambda.data ((kk - 1) * nX + i)) nX }
    qpData.setInterval kk { qpData.intervals kk with
      lambdaK1 := ext.qpDUNES_updateVector (qpData.intervals kk).lambdaK1
        (fun i => lambda.data (kk * nX + i)) nX }) 1 (N - 1) qpData
  let qpData := qpData.setInterval N { qpData.intervals N with
    lambdaK := ext.qpDUNES_updateVector (qpData.intervals N).lambdaK
      (fun i => lambda.data ((N - 1) * nX + i)) nX }
  match forUpM (fun kk (qpData : qpData_t α) =>
      match (qpData.intervals kk).qpSolverSpecification with
      | qp_solver_t.QPDUNES_STAGE_QP_SOLVER_CLIPPING =>
        Except.ok (qpData.setInterval kk (ext.clippingQpSolver_updateStageData qpData kk))
      | qp_solver_t.QPDUNES_STAGE_QP_SOLVER_QPOASES => Except.error none
      | qp_solver_t.QPDUNES_STAGE_QP_SOLVER_UNDEFINED =>
        Except.error (some (return_t.QPDUNES_ERR_UNKNOWN_ERROR, qpData)))
      0 (N + 1) qpData with
  | Except.ok qpData => some (return_t.QPDUNES_OK, qpData)
  | Except.error e => e

/-- Solution of one local QP (dual_qp.c 303-328). -/
def qpDUNES_solveLocalQP (ext : collaborators_t α) (qpData : qpData_t α) (kk : Nat) :
    Option (return_t × qpData_t α) :=
  match (qpData.intervals kk).qpSolverSpecification with
  | qp_solver_t.QPDUNES_STAGE_QP_SOLVER_CLIPPING =>
    let r := ext.directQpSolver_solveUnconstrained qpData kk
    let qpData := qpData.setInterval kk r.2
    if r.1 ≠ return_t.QPDUNES_OK then some (r.1, qpData)
    else some (return_t.QPDUNES_OK, qpData)
  | qp_solver_t.QPDUNES_STAGE_QP_SOLVER_QPOASES => none
  | qp_solver_t.QPDUNES_STAGE_QP_SOLVER_UNDEFINED =>
    some (return_t.QPDUNES_ERR_UNKNOWN_ERROR, qpData)

/-- Solution of all local QPs for a multiplier guess (dual_qp.c 269-296); the status of the
update is not looked at. -/
def qpDUNES_solveAllLocalQPs (ext : collaborators_t α) (N nX : Nat) (qpData : qpData_t α)
    (lambda : vector_t α) : Option (return_t × qpData_t α) :=
  match qpDUNES_updateAllLocalQPs ext N nX qpData lambda with
  | none => none
  | some u =>
    match forUpO (fun kk (s : Nat × qpData_t α) =>
        match qpDUNES_solveLocalQP ext s.2 kk with
        | none => none
        | some r => some (if r.1 ≠ return_t.QPDUNES_OK then s.1 + 1 else s.1, r.2))
        0 (N + 1) (0, u.2) with
    | none => none
    | some s =>
      if s.1 > 0 then some (return_t.QPDUNES_ERR_STAGE_QP_INFEASIBLE, s.2)
      else some (return_t.QPDUNES_OK, s.2)

/-- The factorization call selected by `nwtnHssnFacAlg` (dual_qp.c 476-487 and 533-544);
`none` is the `default` case. -/
def factorNewtonSystem_factorize (sqrt_f : α → α) (N nX : Nat) (qpData : qpData_t α)
    (lastActSetChangeIdx : Int) (isHessianRegularized : Bool) :
    Option (return_t × cholState_t α) :=
  match qpData.options.nwtnHssnFacAlg with
  | nwtnHssnFacAlg_t.QPDUNES_NH_FAC_BAND_FORWARD =>
    some (qpDUNES_factorizeNewtonHessian sqrt_f qpData.options N nX qpData.cholHessian
      qpData.hessian isHessianRegularized)
  | nwtnHssnFacAlg_t.QPDUNES_NH_FAC_BAND_REVERSE =>
    some (qpDUNES_factorizeNewtonHessianBottomUp sqrt_f qpData.options N nX qpData.cholHessian
      qpData.hessian lastActSetChangeIdx isHessianRegularized)
  | nwtnHssnFacAlg_t.QPDUNES_NH_FAC_OTHER => none

/-- The refactorization after a regularization (dual_qp.c 530-547). -/
def factorNewtonSystem_refactor (sqrt_f : α → α) (N nX : Nat) (qpData : qpData_t α) :
    return_t × qpData_t α × Bool :=
  match factorNewtonSystem_factorize sqrt_f N nX qpData ((N : Int) + 1) true with
  | none => (return_t.QPDUNES_ERR_INVALID_ARGUMENT, qpData, true)
  | some r =>
    if r.1 ≠ return_t.QPDUNES_OK then
      (r.1, { qpData with cholHessian := r.2.cholHessian }, r.2.isHessianRegularized)
    else
      (return_t.QPDUNES_OK, { qpData with cholHessian := r.2.cholHessian },
        r.2.isHessianRegularized)

/-- The smallest diagonal entry of the factor, looked for after a factorization that
returned QPDUNES_OK (dual_qp.c 470 and 489-498). -/
def factorNewtonSystem_minDiagElem (N nX : Nat) (qpData : qpData_t α) (statusFlag : return_t) :
    α :=
  if statusFlag = return_t.QPDUNES_OK then
    forUp (fun kk (minDiagElem : α) =>
      forUp (fun ii (minDiagElem : α) =>
        if minDiagElem > accCholHessian qpData.cholHessian kk 0 ii ii then
          accCholHessian qpData.cholHessian kk 0 ii ii
        else minDiagElem) 0 nX minDiagElem) 0 N qpData.options.QPDUNES_INFTY
  else qpData.options.QPDUNES_INFTY

/-- Factorization of the Newton system with regularization (dual_qp.c 461-557); yields the
status, the state and the flag `*isHessianRegularized`. -/
def qpDUNES_factorNewtonSystem (sqrt_f : α → α) (N nX : Nat) (qpData : qpData_t α)
    (isHessianRegularized : Bool) (lastActSetChangeIdx : Int) :
    return_t × qpData_t α × Bool :=
  match factorNewtonSystem_factorize sqrt_f N nX qpData lastActSetChangeIdx
      isHessianRegularized with
  | none => (return_t.QPDUNES_ERR_INVALID_ARGUMENT, qpData, isHessianRegularized)
  | some r =>
    let statusFlag := r.1
    let qpData : qpData_t α := { qpData with cholHessian := r.2.cholHessian }
    let isHessianRegularized := r.2.isHessianRegularized
    let minDiagElem := factorNewtonSystem_minDiagElem N nX qpData statusFlag
    if statusFlag = return_t.QPDUNES_ERR_DIVISION_BY_ZERO ∨
        minDiagElem < qpData.options.newtonHessDiagRegTolerance then
      match qpData.options.regType with
      | regType_t.QPDUNES_REG_LEVENBERG_MARQUARDT =>
        factorNewtonSystem_refactor sqrt_f N nX { qpData with
          hessian := forUp (fun kk (hessian : xn2x_matrix_t α) =>
            forUp (fun jj (hessian : xn2x_matrix_t α) =>
              setAcc hessian kk 0 jj jj
                (accHessian hessian kk 0 jj jj + qpData.options.regParam)) 0 nX hessian)
            0 N qpData.hessian }
      | regType_t.QPDUNES_REG_NORMALIZED_LEVENBERG_MARQUARDT =>
        factorNewtonSystem_refactor sqrt_f N nX qpData
      | regType_t.QPDUNES_REG_SINGULAR_DIRECTIONS =>
        (return_t.QPDUNES_OK, qpData, isHessianRegularized)
      | regType_t.QPDUNES_REG_UNCONSTRAINED_HESSIAN =>
        (return_t.QPDUNES_ERR_UNKNOWN_ERROR, qpData, isHessianRegularized)
      | regType_t.QPDUNES_REG_GRADIENT_STEP =>
        (return_t.QPDUNES_ERR_DIVISION_BY_ZERO, qpData, true)
    else
      if statusFlag ≠ return_t.QPDUNES_OK then (statusFlag, qpData, isHessianRegularized)
      else (return_t.QPDUNES_OK, qpData, isHessianRegularized)


/-- Assignment `*itCntr = i` to the line search counter, which `qpDUNES_solve` keeps in
`itLogPtr->numLineSearchIter`. -/
def qpData_t.setNumLineSearchIter (qpData : qpData_t α) (i : Nat) : qpData_t α :=
  qpData.setItLog { qpData.log.itLog 0 with numLineSearchIter := i }

/-- Backtracking line search (dual_qp.c 1069-1110); the step length is left in
`qpData->alpha`. -/
def qpDUNES_backTrackingLineSearch (sqrt_f : α → α) (ext : collaborators_t α) (N : Nat)
    (qpData : qpData_t α) (deltaLambdaFS : vector_t α) (nV : Nat)
    (alphaMin alphaMax objValIncumbent : α) : Option (return_t × qpData_t α) :=
  let minimumProgress := qpData.options.lineSearchMinRelProgress * abs_f objValIncumbent +
    qpData.options.lineSearchMinAbsProgress
  let normDeltaLambda := vectorNorm sqrt_f deltaLambdaFS nV
  let itCntr := (qpData.log.itLog 0).numLineSearchIter
  match forUpM (fun i (qpData : qpData_t α) =>
      match qpDUNES_computeParametricObjectiveValue ext N (qpData.setNumLineSearchIter i)
          qpData.alpha with
      | none => Except.error none
      | some r =>
        if r.1 > objValIncumbent + minimumProgress then
          Except.error (some (return_t.QPDUNES_OK, r.2))
        else
          let qpData : qpData_t α :=
            { r.2 with alpha := r.2.alpha * qpData.options.lineSearchReductionFactor }
          if normDeltaLambda * (qpData.alpha - alphaMin) < qpData.options.equalityTolerance then
            Except.error (some (return_t.QPDUNES_ERR_DECEEDED_MIN_LINESEARCH_STEPSIZE,
              { qpData with alpha := alphaMin }))
          else Except.ok qpData)
      itCntr (qpData.options.maxNumLineSearchIterations - itCntr)
      { qpData with alpha := alphaMax } with
  | Except.ok qpData =>
    some (return_t.QPDUNES_ERR_NUMBER_OF_MAX_LINESEARCH_ITERATIONS_REACHED,
      qpData.setNumLineSearchIter
        (itCntr + (qpData.options.maxNumLineSearchIterations - itCntr)))
  | Except.error e => e

/-- The trial point and its gradient in the bisection search (dual_qp.c 1145-1169 and
1201-1225): `zVecTmp` of every stage at the step length `alphaTry`, clipped by the stage
solver, and the dual gradient at these points in `xnVecTmp2`. -/
def bisectionIntervalSearch_gradient (ext : collaborators_t α) (N nX nZ : Nat)
    (qpData : qpData_t α) (alphaTry : α) : qpData_t α :=
  let qpData := forUp (fun kk (qpData : qpData_t α) =>
    let zTry := addVectorScaledVector (qpData.intervals kk).zVecTmp
      (qpData.intervals kk).qpSolverClipping.zUnconstrained alphaTry
      (qpData.intervals kk).qpSolverClipping.dz (qpData.intervals kk).nV
    let qpData := qpData.setInterval kk { qpData.intervals kk with zVecTmp := zTry }
    let r := ext.directQpSolver_saturateVector qpData zTry (qpData.intervals kk).y
      (qpData.intervals kk).zLow (qpData.intervals kk).zUpp (qpData.intervals kk).nV
    qpData.setInterval kk { qpData.intervals kk with zVecTmp := r.1, y := r.2 }) 0 (N + 1) qpData
  forUp (fun kk (qpData : qpData_t α) =>
    let xVecTmp := multiplyCz nX nZ qpData.xVecTmp (qpData.intervals kk).C
      (qpData.intervals kk).zVecTmp
    let xVecTmp := addToVector xVecTmp (qpData.intervals kk).c nX
    let xVecTmp := subtractFromVector xVecTmp (qpData.intervals (kk + 1)).zVecTmp nX
    { qpData with
      xVecTmp := xVecTmp,
      xnVecTmp2 := forUp (fun ii (gradientTry : vector_t α) =>
        gradientTry.set (kk * nX + ii) (xVecTmp.data ii)) 0 nX qpData.xnVecTmp2 }) 0 N qpData

/-- How the first loop of the bisection search is left early: by `return` or by `break`
(with the interval at that point). -/
inductive bisectionExit_t (α : Type)
  | ret (statusFlag : return_t) (qpData : qpData_t α)
  | brk (qpData : qpData_t α) (alphaMin alphaMax : α)

/-- The second loop of the bisection search (dual_qp.c 1197-1246). -/
def bisectionIntervalSearch_bisect (ext : collaborators_t α) (N nX nZ : Nat)
    (qpData : qpData_t α) (deltaLambdaFS : vector_t α) (nV : Nat)
    (slopeNormalization alphaMin alphaMax : α) : return_t × qpData_t α :=
  let itCntr := (qpData.log.itLog 0).numLineSearchIter
  match forUpM (fun i (s : qpData_t α × α × α × α) =>
      let alphaC := 1 / 2 * (s.2.1 + s.2.2.1)
      let qpData := bisectionIntervalSearch_gradient ext N nX nZ
        (s.1.setNumLineSearchIter i) alphaC
      let alphaSlope := scalarProd qpData.xnVecTmp2 deltaLambdaFS nV
      if abs_f (divide_f alphaSlope slopeNormalization) ≤
          qpData.options.lineSearchStationarityTolerance then
        Except.error (return_t.QPDUNES_OK, { qpData with alpha := alphaC })
      else if alphaSlope > 0 then Except.ok (qpData, alphaC, s.2.2.1, alphaC)
      else Except.ok (qpData, s.2.1, alphaC, alphaC))
      itCntr (qpData.options.maxNumLineSearchRefinementIterations - itCntr)
      (qpData, alphaMin, alphaMax, 1) with
  | Except.ok s =>
    (return_t.QPDUNES_ERR_NUMBER_OF_MAX_LINESEARCH_ITERATIONS_REACHED,
      ({ s.1 with alpha := s.2.2.2 } : qpData_t α).setNumLineSearchIter
        (itCntr + (qpData.options.maxNumLineSearchRefinementIterations - itCntr)))
  | Except.error e => e

/-- Bisection interval search on the slope (dual_qp.c 1116-1248). -/
def qpDUNES_bisectionIntervalSearch (sqrt_f : α → α) (ext : collaborators_t α)
    (N nX nZ : Nat) (qpData : qpData_t α) (deltaLambdaFS : vector_t α) (nV : Nat)
    (alphaMin alphaMax : α) : return_t × qpData_t α :=
  let slopeNormalization := ext.qpDUNES_fmin 1 (vectorNorm sqrt_f deltaLambdaFS nV)
  let itCntr := (qpData.log.itLog 0).numLineSearchIter
  match forUpM (fun i (s : qpData_t α × α × α) =>
      let qpData := bisectionIntervalSearch_gradient ext N nX nZ
        (s.1.setNumLineSearchIter i) s.2.2
      let alphaSlope := scalarProd qpData.xnVecTmp2 deltaLambdaFS nV
      if abs_f (divide_f alphaSlope slopeNormalization) ≤
          qpData.options.lineSearchStationarityTolerance then
        Except.error (bisectionExit_t.ret return_t.QPDUNES_OK { qpData with alpha := s.2.2 })
      else if divide_f alphaSlope slopeNormalization < 0 then
        Except.error (bisectionExit_t.brk qpData s.2.1 s.2.2)
      else
        let alphaMin := s.2.2
        let alphaMax := s.2.2 * qpData.options.lineSearchIncreaseFactor
        if alphaMax > qpData.options.lineSearchMaxStepSize then
          Except.error (bisectionExit_t.ret
            return_t.QPDUNES_ERR_EXCEEDED_MAX_LINESEARCH_STEPSIZE
            { qpData with alpha := alphaMin })
        else Except.ok (qpData, alphaMin, alphaMax))
      itCntr (qpData.options.maxNumLineSearchRefinementIterations - itCntr)
      (qpData, alphaMin, alphaMax) with
  | Except.error (bisectionExit_t.ret statusFlag qpData) => (statusFlag, qpData)
  | Except.error (bisectionExit_t.brk qpData alphaMin alphaMax) =>
    bisectionIntervalSearch_bisect ext N nX nZ qpData deltaLambdaFS nV slopeNormalization
      alphaMin alphaMax
  | Except.ok s =>
    bisectionIntervalSearch_bisect ext N nX nZ
      (s.1.setNumLineSearchIter
        (itCntr + (qpData.options.maxNumLineSearchRefinementIterations - itCntr)))
      deltaLambdaFS nV slopeNormalization s.2.1 s.2.2

/-- Grid search (dual_qp.c 1255-1283); yields the status, the state and `*objValIncumbent`. -/
def qpDUNES_gridSearch (ext : collaborators_t α) (N : Nat) (qpData : qpData_t α)
    (objValIncumbent alphaMin alphaMax : α) : Option (return_t × qpData_t α × α) :=
  match forUpO (fun kk (s : qpData_t α × α) =>
      let alphaTry := alphaMin + (kk : α) * divide_f (alphaMax - alphaMin)
        ((qpData.options.lineSearchNbrGridPoints : α) - 1)
      match qpDUNES_computeParametricObjectiveValue ext N s.1 alphaTry with
      | none => none
      | some r =>
        if r.1 > s.2 then some ({ r.2 with alpha := alphaTry }, r.1)
        else some (r.2, s.2))
      0 qpData.options.lineSearchNbrGridPoints (qpData, objValIncumbent) with
  | none => none
  | some s =>
    some (return_t.QPDUNES_OK,
      s.1.setNumLineSearchIter
        ((s.1.log.itLog 0).numLineSearchIter + qpData.options.lineSearchNbrGridPoints),
      s.2)

/-- The loop that takes the step of length `qpData->alpha` in every stage
(dual_qp.c 948-967 and 1036-1056); the status of `directQpSolver_doStep` is not looked
at. -/
def determineStepLength_doSteps (ext : collaborators_t α) (N : Nat) (qpData : qpData_t α) :
    Except (Option (return_t × qpData_t α)) (qpData_t α) :=
  forUpM (fun kk (qpData : qpData_t α) =>
    match (qpData.intervals kk).qpSolverSpecification with
    | qp_solver_t.QPDUNES_STAGE_QP_SOLVER_CLIPPING =>
      Except.ok (qpData.setInterval kk (ext.directQpSolver_doStep qpData kk qpData.alpha).2)
    | qp_solver_t.QPDUNES_STAGE_QP_SOLVER_QPOASES => Except.error none
    | qp_solver_t.QPDUNES_STAGE_QP_SOLVER_UNDEFINED =>
      Except.error (some (return_t.QPDUNES_ERR_UNKNOWN_ERROR, qpData))) 0 (N + 1) qpData

/-- The line search selected by `lsType` (dual_qp.c 974-1030). `Except.error` is the early
`return statusFlag` after a backtracking search that deceeded the minimum step size;
`Except.ok` carries `statusFlag` on to the update of the variables. Both carry the state
and `*objValIncumbent`. -/
def determineStepLength_lineSearch (sqrt_f : α → α) (ext : collaborators_t α) (N nX nZ : Nat)
    (qpData : qpData_t α) (nV : Nat) (alphaMin alphaMax objValIncumbent : α) :
    Option (Except (return_t × qpData_t α × α) (return_t × qpData_t α × α)) :=
  match qpData.options.lsType with
  | lsType_t.QPDUNES_LS_BACKTRACKING_LS =>
    match qpDUNES_backTrackingLineSearch sqrt_f ext N qpData qpData.deltaLambda nV 0 alphaMax
        objValIncumbent with
    | none => none
    | some r =>
      if r.1 = return_t.QPDUNES_ERR_DECEEDED_MIN_LINESEARCH_STEPSIZE then
        some (Except.error (r.1, r.2, objValIncumbent))
      else some (Except.ok (r.1, r.2, objValIncumbent))
  | lsType_t.QPDUNES_LS_BACKTRACKING_LS_WITH_AS_CHANGE =>
    match qpDUNES_backTrackingLineSearch sqrt_f ext N qpData qpData.deltaLambda nV 0 alphaMax
        objValIncumbent with
    | none => none
    | some r =>
      if r.1 = return_t.QPDUNES_ERR_DECEEDED_MIN_LINESEARCH_STEPSIZE then
        some (Except.error (r.1, r.2, objValIncumbent))
      else if alphaMin < 1 - qpData.options.equalityTolerance ∧ r.2.alpha < alphaMin then
        some (Except.ok (r.1, { r.2 with alpha := alphaMin }, objValIncumbent))
      else some (Except.ok (r.1, r.2, objValIncumbent))
  | lsType_t.QPDUNES_LS_GOLDEN_SECTION_LS => none
  | lsType_t.QPDUNES_LS_GRADIENT_BISECTION_LS =>
    let r := qpDUNES_bisectionIntervalSearch sqrt_f ext N nX nZ qpData qpData.deltaLambda nV
      alphaMin alphaMax
    some (Except.ok (r.1, r.2, objValIncumbent))
  | lsType_t.QPDUNES_LS_ACCELERATED_GRADIENT_BISECTION_LS =>
    match qpDUNES_backTrackingLineSearch sqrt_f ext N qpData qpData.deltaLambda nV 0 alphaMax
        objValIncumbent with
    | none => none
    | some r =>
      if r.1 = return_t.QPDUNES_ERR_DECEEDED_MIN_LINESEARCH_STEPSIZE then
        some (Except.error (r.1, r.2, objValIncumbent))
      else
        let alphaMax := ext.qpDUNES_fmin alphaMax
          (divide_f r.2.alpha qpData.options.lineSearchReductionFactor)
        let b := qpDUNES_bisectionIntervalSearch sqrt_f ext N nX nZ r.2 r.2.deltaLambda nV
          alphaMin alphaMax
        some (Except.ok (b.1, b.2, objValIncumbent))
  | lsType_t.QPDUNES_LS_GRID_LS =>
    match qpDUNES_gridSearch ext N qpData objValIncumbent alphaMin alphaMax with
    | none => none
    | some r => some (Except.ok r)
  | lsType_t.QPDUNES_LS_ACCELERATED_GRID_LS =>
    match qpDUNES_backTrackingLineSearch sqrt_f ext N qpData qpData.deltaLambda nV 0 alphaMax
        objValIncumbent with
    | none => none
    | some r =>
      if r.1 = return_t.QPDUNES_ERR_DECEEDED_MIN_LINESEARCH_STEPSIZE then
        some (Except.error (r.1, r.2, objValIncumbent))
      else
        let alphaMax := ext.qpDUNES_fmin alphaMax
          (divide_f r.2.alpha qpData.options.lineSearchReductionFactor)
        match qpDUNES_gridSearch ext N r.2 objValIncumbent alphaMin alphaMax with
        | none => none
        | some g => some (Except.ok g)
  | lsType_t.QPDUNES_LS_OTHER =>
    some (Except.ok (return_t.QPDUNES_ERR_UNKNOWN_LS_TYPE, qpData, objValIncumbent))

/-- The minimum step size for an active set change (dual_qp.c 915-939): `alphaMin`. -/
def determineStepLength_alphaMin (ext : collaborators_t α) (N : Nat) (qpData : qpData_t α) :
    α :=
  let alphaMin : α :=
    if (qpData.intervals 0).qpSolverSpecification =
        qp_solver_t.QPDUNES_STAGE_QP_SOLVER_CLIPPING then qpData.options.QPDUNES_INFTY
    else 0
  (forUp (fun kk (s : α × α) =>
    if (qpData.intervals kk).qpSolverSpecification =
        qp_solver_t.QPDUNES_STAGE_QP_SOLVER_CLIPPING then
      let alphaASChange := ext.directQpSolver_getMinStepsize (qpData.intervals kk) s.2
      (if alphaASChange < s.1 then alphaASChange else s.1, alphaASChange)
    else s) 0 (N + 1) (alphaMin, qpData.options.QPDUNES_INFTY)).1

/-- The status carried by the outcome of the line search switch. -/
def lineSearchStatus
    (x : Except (return_t × qpData_t α × α) (return_t × qpData_t α × α)) : return_t :=
  match x with
  | Except.error e => e.1
  | Except.ok r => r.1

/-- Step length determination and the step itself (dual_qp.c 898-1062), called by
`qpDUNES_solve` on `lambda`, `deltaLambda`, `itLogPtr->numLineSearchIter` and `alpha` of the
state; yields the status, the state and `*objValIncumbent`. -/
def qpDUNES_determineStepLength (sqrt_f : α → α) (ext : collaborators_t α) (N nX nZ : Nat)
    (qpData : qpData_t α) (objValIncumbent : α) (newtonHessianRegularized : Bool) :
    Option (return_t × qpData_t α × α) :=
  let nV := nX * N
  let qpData := qpData.setNumLineSearchIter 0
  let alphaMin := determineStepLength_alphaMin ext N qpData
  if alphaMin > 1 - qpData.options.equalityTolerance ∧ newtonHessianRegularized = false then
    let qpData : qpData_t α := { qpData with alpha := 1 }
    let qpData : qpData_t α := { qpData with
      lambda := addVectorScaledVector qpData.lambda qpData.lambda qpData.alpha
        qpData.deltaLambda nV }
    match determineStepLength_doSteps ext N qpData with
    | Except.error none => none
    | Except.error (some e) => some (e.1, e.2, objValIncumbent)
    | Except.ok qpData =>
      match qpDUNES_computeObjectiveValue N qpData with
      | none => none
      | some r => some (return_t.QPDUNES_OK, r.2, r.1)
  else
    match determineStepLength_lineSearch sqrt_f ext N nX nZ qpData nV alphaMin 1
        objValIncumbent with
    | none => none
    | some (Except.error e) => some e
    | some (Except.ok r) =>
      let qpData : qpData_t α := { r.2.1 with
        lambda := addScaledVector r.2.1.lambda r.2.1.alpha r.2.1.deltaLambda nV }
      match determineStepLength_doSteps ext N qpData with
      | Except.error none => none
      | Except.error (some e) => some (e.1, e.2, r.2.2)
      | Except.ok qpData =>
        match qpDUNES_computeObjectiveValue N qpData with
        | none => none
        | some o => some (r.1, o.2, o.1)


/-- The call `itLogPtr->nActConstr = qpDUNES_getActSet( qpData, itLogPtr->ieqStatus )` of
`qpDUNES_solve` (dual_qp.c 78 and 183): the table that `itLogPtr->ieqStatus` points to is
written, and the count is stored. -/
def solve_getActSet (N : Nat) (qpData : qpData_t α) : qpData_t α :=
  let r := qpDUNES_getActSet N qpData (qpData.log.ieqTables (qpData.log.itLog 0).ieqStatus)
  let qpData : qpData_t α := { qpData with log := { qpData.log with
    ieqTables := Function.update qpData.log.ieqTables (qpData.log.itLog 0).ieqStatus r.2 } }
  qpData.setItLog { qpData.log.itLog 0 with nActConstr := r.1 }

/-- The active set update of `qpDUNES_solve` (dual_qp.c 78-82 and 183-187):
`qpDUNES_getActSet` into the table `itLogPtr->ieqStatus` points to, then
`qpDUNES_compareActSets` of that table with the one `itLogPtr->prevIeqStatus` points to.
Yields the state and `lastActSetChangeIdx`. -/
def solve_updateActSet (N : Nat) (qpData : qpData_t α) : qpData_t α × Int :=
  let qpData := solve_getActSet N qpData
  let c := qpDUNES_compareActSets N qpData
    (qpData.log.ieqTables (qpData.log.itLog 0).ieqStatus)
    (qpData.log.ieqTables (qpData.log.itLog 0).prevIeqStatus)
  (c.2.1.setItLog { c.2.1.log.itLog 0 with nChgdConstr := c.1 }, c.2.2)

/-- Saving the old active set in `qpDUNES_solve` (dual_qp.c 170-181): with iteration
logging the pointer `itLogPtr->prevIeqStatus` is set to the table of the log entry
`itCntr - 1`, otherwise the table is copied entry by entry. -/
def solve_savePrevIeqStatus (N : Nat) (itCntr : Nat) (qpData : qpData_t α) : qpData_t α :=
  if qpData.options.logLevel.toNat ≥ logLevel_t.QPDUNES_LOG_ITERATIONS.toNat then
    qpData.setItLog { qpData.log.itLog 0 with
      prevIeqStatus := (qpData.log.itLog (itCntr - 1)).ieqStatus }
  else
    forUp (fun kk (qpData : qpData_t α) =>
      forUp (fun ii (qpData : qpData_t α) =>
        { qpData with log := { qpData.log with
          ieqTables := Function.update qpData.log.ieqTables (qpData.log.itLog 0).prevIeqStatus
            (setStatus (qpData.log.ieqTables (qpData.log.itLog 0).prevIeqStatus) kk ii
              (qpData.log.ieqTables (qpData.log.itLog 0).ieqStatus kk ii)) } })
        0 ((qpData.intervals kk).nD + (qpData.intervals kk).nV) qpData) 0 (N + 1) qpData

/-- The step direction of a Newton iteration of `qpDUNES_solve` (dual_qp.c 105-141): the
Newton system is set up, factorized and solved into `deltaLambda`. `Except.error` is a
`return` of `qpDUNES_solve` (`none`: a failed assertion). -/
def solve_newtonDirection (sqrt_f : α → α) (ext : collaborators_t α) (N nX nZ : Nat)
    (qpData : qpData_t α) (lastActSetChangeIdx : Int) :
    Except (Option (return_t × qpData_t α)) (qpData_t α) :=
  match qpDUNES_setupNewtonSystem sqrt_f ext N nX nZ qpData with
  | none => Except.error none
  | some (return_t.QPDUNES_OK, qpData) =>
    let f := qpDUNES_factorNewtonSystem sqrt_f N nX qpData
      (qpData.log.itLog 0).isHessianRegularized lastActSetChangeIdx
    let qpData := f.2.1.setItLog { f.2.1.log.itLog 0 with isHessianRegularized := f.2.2 }
    match f.1 with
    | return_t.QPDUNES_OK =>
      match qpData.options.nwtnHssnFacAlg with
      | nwtnHssnFacAlg_t.QPDUNES_NH_FAC_BAND_FORWARD =>
        let r := qpDUNES_solveNewtonEquation qpData.options N nX qpData.deltaLambda.data
          qpData.cholHessian qpData.gradient.data
        let qpData : qpData_t α :=
          { qpData with deltaLambda := { qpData.deltaLambda with data := r.2 } }
        if r.1 ≠ return_t.QPDUNES_OK then Except.error (some (r.1, qpData))
        else Except.ok qpData
      | nwtnHssnFacAlg_t.QPDUNES_NH_FAC_BAND_REVERSE =>
        let r := qpDUNES_solveNewtonEquationBottomUp N nX qpData.deltaLambda.data
          qpData.cholHessian qpData.gradient.data
        let qpData : qpData_t α :=
          { qpData with deltaLambda := { qpData.deltaLambda with data := r.2 } }
        if r.1 ≠ return_t.QPDUNES_OK then Except.error (some (r.1, qpData))
        else Except.ok qpData
      | nwtnHssnFacAlg_t.QPDUNES_NH_FAC_OTHER =>
        Except.error (some (return_t.QPDUNES_ERR_INVALID_ARGUMENT, qpData))
    | statusFlag => Except.error (some (statusFlag, qpData))
  | some (return_t.QPDUNES_SUCC_OPTIMAL_SOLUTION_FOUND, qpData) =>
    Except.error (some (return_t.QPDUNES_SUCC_OPTIMAL_SOLUTION_FOUND, qpData))
  | some (statusFlag, qpData) => Except.error (some (statusFlag, qpData))

/-- The head of a pass of the iteration loop of `qpDUNES_solve` (dual_qp.c 87-93): the
counter `*itCntr` (which is `log.numIter`), `itLogPtr->itNbr`, and the reset of
`itLogPtr->isHessianRegularized`. -/
def solve_iterationHead (itCntr : Nat) (qpData : qpData_t α) : qpData_t α :=
  let qpData : qpData_t α := { qpData with log := { qpData.log with numIter := (itCntr : Int) } }
  let qpData := qpData.setItLog { qpData.log.itLog 0 with itNbr := (itCntr : Int) }
  qpData.setItLog { qpData.log.itLog 0 with isHessianRegularized := false }

/-- One pass of the loop of nonsmooth Newton iterations of `qpDUNES_solve`
(dual_qp.c 87-189) with `*itCntr = itCntr`, on the state and the locals
`lastActSetChangeIdx` and `objValIncumbent`. `Except.error` is a `return` of
`qpDUNES_solve` (`none`: a failed assertion). -/
def solve_iteration (sqrt_f : α → α) (ext : collaborators_t α) (N nX nZ : Nat) (itCntr : Nat)
    (s : qpData_t α × Int × α) : Except (Option (return_t × qpData_t α)) (qpData_t α × Int × α) :=
  let qpData := solve_iterationHead itCntr s.1
  let direction : Except (Option (return_t × qpData_t α)) (qpData_t α) :=
    if (itCntr : Int) > 1 ∧ (itCntr : Int) - 1 ≤ qpData.options.nbrInitialGradientSteps then
      let g := qpDUNES_computeNewtonGradient N nX nZ qpData qpData.gradient qpData.xVecTmp
      let qpData : qpData_t α := { qpData with gradient := g.2.1, xVecTmp := g.2.2 }
      Except.ok { qpData with
        deltaLambda := ext.qpDUNES_copyVector qpData.deltaLambda qpData.gradient (N * nX) }
    else solve_newtonDirection sqrt_f ext N nX nZ qpData s.2.1
  match direction with
  | Except.error e => Except.error e
  | Except.ok qpData =>
    match qpDUNES_solveAllLocalQPs ext N nX qpData qpData.deltaLambda with
    | none => Except.error none
    | some a =>
      match qpDUNES_determineStepLength sqrt_f ext N nX nZ a.2 s.2.2
          (a.2.log.itLog 0).isHessianRegularized with
      | none => Except.error none
      | some d =>
        let continue_ : Except (Option (return_t × qpData_t α)) (qpData_t α × Int × α) :=
          let qpData := solve_savePrevIeqStatus N itCntr d.2.1
          let u := solve_updateActSet N qpData
          Except.ok (qpDUNES_logIteration sqrt_f N nX u.1 d.2.2 u.2, u.2, d.2.2)
        match d.1 with
        | return_t.QPDUNES_OK => continue_
        | return_t.QPDUNES_ERR_NUMBER_OF_MAX_LINESEARCH_ITERATIONS_REACHED => continue_
        | return_t.QPDUNES_ERR_EXCEEDED_MAX_LINESEARCH_STEPSIZE => continue_
        | return_t.QPDUNES_ERR_DECEEDED_MIN_LINESEARCH_STEPSIZE =>
          Except.error (some (return_t.QPDUNES_ERR_NEWTON_SYSTEM_NO_ASCENT_DIRECTION, d.2.1))
        | statusFlag => Except.error (some (statusFlag, d.2.1))

/-- The start of `qpDUNES_solve` (dual_qp.c 43-82): the initial stage steps of length 1,
the objective value, the status test and the first active set. Yields the state with the
locals `lastActSetChangeIdx` and `objValIncumbent`, or the `return`. -/
def solve_start (ext : collaborators_t α) (N : Nat) (qpData : qpData_t α) :
    Except (Option (return_t × qpData_t α)) (qpData_t α × Int × α) :=
  let qpData : qpData_t α := { qpData with log := { qpData.log with numIter := 0 } }
  let qpData := qpData.setItLog { qpData.log.itLog 0 with itNbr := 0 }
  let s := forUp (fun ii (s : return_t × qpData_t α) =>
    let r := ext.directQpSolver_doStep s.2 ii 1
    (r.1, s.2.setInterval ii r.2)) 0 (N + 1) (return_t.QPDUNES_OK, qpData)
  match qpDUNES_computeObjectiveValue N s.2 with
  | none => Except.error none
  | some o =>
    if s.1 ≠ return_t.QPDUNES_OK then Except.error (some (s.1, o.2))
    else
      let u := solve_updateActSet N o.2
      Except.ok (u.1, u.2, o.1)

/-- The main solve function (dual_qp.c 40-196): `none` is a failed assertion, otherwise
the returned status with the state at the return. -/
def qpDUNES_solve (sqrt_f : α → α) (ext : collaborators_t α) (N nX nZ : Nat)
    (qpData : qpData_t α) : Option (return_t × qpData_t α) :=
  match solve_start ext N qpData with
  | Except.error e => e
  | Except.ok s =>
    match forUpM (solve_iteration sqrt_f ext N nX nZ) 1 s.1.options.maxIter.toNat s with
    | Except.error e => e
    | Except.ok s =>
      some (return_t.QPDUNES_ERR_ITERATION_LIMIT_REACHED,
        { s.1 with log := { s.1.log with numIter := s.1.options.maxIter } })


/-- The state `q2` has the options of `q` and, in every stage, its coupling data `C`, `c`,
its primal point `z`, its Hessian `H` and its dimensions. -/
def SameCoupling (q q2 : qpData_t α) : Prop :=
  q2.options = q.options ∧
  ∀ k, (q2.intervals k).C = (q.intervals k).C ∧ (q2.intervals k).z = (q.intervals k).z ∧
    (q2.intervals k).c = (q.intervals k).c ∧ (q2.intervals k).H = (q.intervals k).H ∧
    (q2.intervals k).nV = (q.intervals k).nV ∧ (q2.intervals k).nD = (q.intervals k).nD

end Driver

/-! ## Stage Hessian factorization and the sub-diagonal blocks -/

section StageFactor

variable {α : Type} [LinearOrderedField α]

/-- Modelled from the spec: `recip_f` of c66math.h (missing), the reciprocal `1 / a`. -/
def recip_f (a : α) : α := 1 / a

/-- Factorization of a stage matrix (matrix_vector.c `factorizePosDefMatrix`): for a
diagonal matrix the reciprocals of the diagonal, for an identity matrix only the tag; any
other sparsity type fails the assertion. -/
def factorizePosDefMatrix (cholM M : matrix_t α) (dim0 : Nat) :
    Option (return_t × matrix_t α) :=
  match M.sparsityType with
  | sparsityType_t.QPDUNES_DIAGONAL =>
    some (return_t.QPDUNES_OK,
      { sparsityType := sparsityType_t.QPDUNES_DIAGONAL,
        data := forUp (fun i (d : Nat → α) => Function.update d i (recip_f (M.data i)))
          0 dim0 cholM.data })
  | sparsityType_t.QPDUNES_IDENTITY =>
    some (return_t.QPDUNES_OK, { cholM with sparsityType := sparsityType_t.QPDUNES_IDENTITY })
  | _ => none

/-- Factorization of a stage Hessian (matrix_vector.c `factorizeH`). -/
def factorizeH (cholH H : matrix_t α) (nV : Nat) : Option (return_t × matrix_t α) :=
  factorizePosDefMatrix cholH H nV

/-- The stage carries a diagonal or identity Hessian together with what `factorizeH`
leaves in `cholH` for it: the tag, and for a diagonal Hessian the reciprocals of its first
`nV` diagonal entries. -/
def FactorizedStage (v : interval_t α) : Prop :=
  (v.H.sparsityType = sparsityType_t.QPDUNES_DIAGONAL ∧
    v.cholH.sparsityType = sparsityType_t.QPDUNES_DIAGONAL ∧
    ∀ j, j < v.nV → v.cholH.data j = recip_f (v.H.data j)) ∨
  (v.H.sparsityType = sparsityType_t.QPDUNES_IDENTITY ∧
    v.cholH.sparsityType = sparsityType_t.QPDUNES_IDENTITY)

/-- Diagonal entry `j` of a stage Hessian as a matrix: the stored entry of a diagonal
Hessian, `1` for an identity Hessian. -/
def stageHessianDiag (H : matrix_t α) (j : Nat) : α :=
  match H.sparsityType with
  | sparsityType_t.QPDUNES_IDENTITY => 1
  | _ => H.data j

/-- Entry `(i, j)` of the sub-diagonal block `k` as the specification states it:
`- C_k[i,j] / H_k,jj` when both bound multipliers of state variable `j` of stage `k` are at
most `equalityTolerance`, and `0` otherwise. -/
def claimedSubEntry (nZ : Nat) (qpData : qpData_t α) (k i j : Nat) : α :=
  if (qpData.intervals k).y.data (2 * j) ≤ qpData.options.equalityTolerance ∧
      (qpData.intervals k).y.data (2 * j + 1) ≤ qpData.options.equalityTolerance
  then - (accC nZ (qpData.intervals k).C i j / stageHessianDiag (qpData.intervals k).H j)
  else 0

end StageFactor

/-! ## Outcome of the forward factorization -/

section ForwardOutcomeSpec

variable {α : Type} [LinearOrderedField α]

/-- The columns before `(kk, n)` are written, and the flag is set when one of them was
regularized on the fly. -/
def FwdFlagDone (sqrt_f : α → α) (opt : qpOptions_t α) (N nX : Nat) (h : xn2x_matrix_t α)
    (kk n : Nat) (st : cholState_t α) : Prop :=
  FwdDone sqrt_f opt N nX h st.cholHessian kk n ∧
  ∀ k j, k < N → j < nX → (k < kk ∨ (k = kk ∧ j < n)) →
    opt.regType = regType_t.QPDUNES_REG_SINGULAR_DIRECTIONS →
    fwdSum nX h st.cholHessian k j j < opt.newtonHessDiagRegTolerance →
    st.isHessianRegularized = true

end ForwardOutcomeSpec

/-! ## The two triangular solves of the forward back-substitution -/

section SolvePhases

variable {α : Type} [LinearOrderedField α]

/-- The first triangular solve `L x = g` of `qpDUNES_solveNewtonEquation`
(dual_qp.c 784-807), with the test of the diagonal against QPDUNES_INFTY. -/
def solveNewtonEquation_forward (opt : qpOptions_t α) (N nX : Nat) (res : Nat → α)
    (cholHessian : xn2x_matrix_t α) (gradient : Nat → α) : Nat → α :=
  forUp (fun kk res =>
    forUp (fun ii res =>
      let sum := gradient (kk * nX + ii)
      let sum := if kk > 0 then
          forUp (fun jj sum =>
            sum - accCholHessian cholHessian kk (-1) ii jj * res ((kk - 1) * nX + jj)) 0 nX sum
        else sum
      let sum := forUp (fun jj sum =>
        sum - accCholHessian cholHessian kk 0 ii jj * res (kk * nX + jj)) 0 ii sum
      if accCholHessian cholHessian kk 0 ii ii > opt.QPDUNES_INFTY then
        Function.update res (kk * nX + ii) 0
      else
        Function.update res (kk * nX + ii)
          (divide_f sum (accCholHessian cholHessian kk 0 ii ii))) 0 nX res) 0 N res

/-- The second triangular solve `L^T res = x` of `qpDUNES_solveNewtonEquation`
(dual_qp.c 809-827), on the vector the first solve left in `res`. -/
def solveNewtonEquation_backward (N nX : Nat) (res : Nat → α)
    (cholHessian : xn2x_matrix_t α) : Nat → α :=
  forDown (fun kk res =>
    forDown (fun ii res =>
      let sum := res (kk * nX + ii)
      let sum := forUp (fun jj sum =>
        sum - accCholHessian cholHessian kk 0 jj ii * res (kk * nX + jj))
        (ii + 1) (nX - (ii + 1)) sum
      let sum := if kk + 1 < N then
          forUp (fun jj sum =>
            sum - accCholHessian cholHessian (kk + 1) (-1) jj ii * res ((kk + 1) * nX + jj))
            0 nX sum
        else sum
      Function.update res (kk * nX + ii)
        (divide_f sum (accCholHessian cholHessian kk 0 ii ii))) 0 nX res) 0 N res

end SolvePhases

/-! ## The step direction of an iteration -/

section Direction

variable {α : Type} [LinearOrderedField α]

/-- The gradient step of `qpDUNES_solve` (dual_qp.c 95-102): the dual gradient is computed
and copied into `deltaLambda`. -/
def solve_gradientStep (ext : collaborators_t α) (N nX nZ : Nat) (qpData : qpData_t α) :
    qpData_t α :=
  let g := qpDUNES_computeNewtonGradient N nX nZ qpData qpData.gradient qpData.xVecTmp
  let qpData : qpData_t α := { qpData with gradient := g.2.1, xVecTmp := g.2.2 }
  { qpData with
    deltaLambda := ext.qpDUNES_copyVector qpData.deltaLambda qpData.gradient (N * nX) }

/-- The step direction of the pass with `*itCntr = itCntr` (dual_qp.c 91-142), on the state
after the head of the pass: a gradient step or the Newton direction. -/
def solve_direction (sqrt_f : α → α) (ext : collaborators_t α) (N nX nZ : Nat) (itCntr : Nat)
    (qpData : qpData_t α) (lastActSetChangeIdx : Int) :
    Except (Option (return_t × qpData_t α)) (qpData_t α) :=
  if (itCntr : Int) > 1 ∧ (itCntr : Int) - 1 ≤ qpData.options.nbrInitialGradientSteps then
    Except.ok (solve_gradientStep ext N nX nZ qpData)
  else solve_newtonDirection sqrt_f ext N nX nZ qpData lastActSetChangeIdx

/-- The rest of a pass after the step direction (dual_qp.c 145-188): the stage solves for
the full step, the step length with the step, the active set update and the log. -/
def solve_iterationTail (sqrt_f : α → α) (ext : collaborators_t α) (N nX nZ : Nat)
    (itCntr : Nat) (objValIncumbent : α) (qpData : qpData_t α) :
    Except (Option (return_t × qpData_t α)) (qpData_t α × Int × α) :=
  match qpDUNES_solveAllLocalQPs ext N nX qpData qpData.deltaLambda with
  | none => Except.error none
  | some a =>
    match qpDUNES_determineStepLength sqrt_f ext N nX nZ a.2 objValIncumbent
        (a.2.log.itLog 0).isHessianRegularized with
    | none => Except.error none
    | some d =>
      let continue_ : Except (Option (return_t × qpData_t α)) (qpData_t α × Int × α) :=
        let qpData := solve_savePrevIeqStatus N itCntr d.2.1
        let u := solve_updateActSet N qpData
        Except.ok (qpDUNES_logIteration sqrt_f N nX u.1 d.2.2 u.2, u.2, d.2.2)
      match d.1 with
      | return_t.QPDUNES_OK => continue_
      | return_t.QPDUNES_ERR_NUMBER_OF_MAX_LINESEARCH_ITERATIONS_REACHED => continue_
      | return_t.QPDUNES_ERR_EXCEEDED_MAX_LINESEARCH_STEPSIZE => continue_
      | return_t.QPDUNES_ERR_DECEEDED_MIN_LINESEARCH_STEPSIZE =>
        Except.error (some (return_t.QPDUNES_ERR_NEWTON_SYSTEM_NO_ASCENT_DIRECTION, d.2.1))
      | statusFlag => Except.error (some (statusFlag, d.2.1))

end Direction

/-! ## Specification-level notions for the step length -/

section StepLengthSpec

variable {α : Type} [LinearOrderedField α]

/-- Everything of the state that the step length determination reads or reports besides
the stages is the same in `q` and `q2`. -/
def SameButStages (q q2 : qpData_t α) : Prop :=
  q2.options = q.options ∧ q2.lambda = q.lambda ∧ q2.deltaLambda = q.deltaLambda ∧
    q2.alpha = q.alpha ∧ q2.log = q.log

/-- What is asked of the missing `directQpSolver_doStep` for the objective evaluation after
a step to go through: it leaves the sparsity tag of the stage Hessian. -/
def KeepsHessianTag (ext : collaborators_t α) : Prop :=
  ∀ (q : qpData_t α) (kk : Nat) (a : α),
    ((ext.directQpSolver_doStep q kk a).2).H.sparsityType = (q.intervals kk).H.sparsityType

/-- The value `alphaASChange` holds after the call of `directQpSolver_getMinStepsize` for
stage `k` in the loop of dual_qp.c 929-939 over clipping stages: the value the stage
solver reports for stage `k`. -/
def reportedMinStepsize (ext : collaborators_t α) (qpData : qpData_t α) : Nat → α
  | 0 => ext.directQpSolver_getMinStepsize (qpData.intervals 0) qpData.options.QPDUNES_INFTY
  | k + 1 => ext.directQpSolver_getMinStepsize (qpData.intervals (k + 1))
      (reportedMinStepsize ext qpData k)

/-- The collaborators with the two functions that only the line search routines call
replaced: the trial step and the clipping of a trial point. -/
def withLineSearchCollaborators (ext : collaborators_t α)
    (doStepTry : qpData_t α → Nat → α → return_t × interval_t α × α)
    (saturateVector : qpData_t α → vector_t α → vector_t α → vector_t α → vector_t α → Nat →
      vector_t α × vector_t α) : collaborators_t α :=
  { ext with directQpSolver_doStepTry := doStepTry,
             directQpSolver_saturateVector := saturateVector }

/-- The state at the head of pass `j` of the loop of `qpDUNES_backTrackingLineSearch` when
no earlier pass has left the loop: the start state with the step length `alphaMax`, then
after every trial the step length reduced by `lineSearchReductionFactor`. `none` is a
failed assertion in a trial. -/
def backTracking_head (ext : collaborators_t α) (N : Nat) (qpData : qpData_t α)
    (alphaMax : α) : Nat → Option (qpData_t α)
  | 0 => some { qpData with alpha := alphaMax }
  | j + 1 =>
    match backTracking_head ext N qpData alphaMax j with
    | none => none
    | some s =>
      match qpDUNES_computeParametricObjectiveValue ext N
          (s.setNumLineSearchIter ((qpData.log.itLog 0).numLineSearchIter + j)) s.alpha with
      | none => none
      | some r => some { r.2 with alpha := r.2.alpha * s.options.lineSearchReductionFactor }

/-- The trial of pass `j` of the backtracking loop: the objective value at the step length
of the pass and the state the evaluation leaves. -/
def backTracking_trial (ext : collaborators_t α) (N : Nat) (qpData : qpData_t α)
    (alphaMax : α) (j : Nat) : Option (α × qpData_t α) :=
  match backTracking_head ext N qpData alphaMax j with
  | none => none
  | some s =>
    qpDUNES_computeParametricObjectiveValue ext N
      (s.setNumLineSearchIter ((qpData.log.itLog 0).numLineSearchIter + j)) s.alpha

/-- The progress the backtracking search asks for (dual_qp.c 1082). -/
def backTracking_minimumProgress (qpData : qpData_t α) (objValIncumbent : α) : α :=
  qpData.options.lineSearchMinRelProgress * abs_f objValIncumbent +
    qpData.options.lineSearchMinAbsProgress

/-- One pass of the loop of `qpDUNES_backTrackingLineSearch` (dual_qp.c 1090-1105) with
`*itCntr = i`, for the search started on the state `qpData0`. -/
def backTracking_pass (sqrt_f : α → α) (ext : collaborators_t α) (N : Nat)
    (qpData0 : qpData_t α) (deltaLambdaFS : vector_t α) (nV : Nat)
    (alphaMin objValIncumbent : α) (i : Nat) (qpData : qpData_t α) :
    Except (Option (return_t × qpData_t α)) (qpData_t α) :=
  match qpDUNES_computeParametricObjectiveValue ext N (qpData.setNumLineSearchIter i)
      qpData.alpha with
  | none => Except.error none
  | some r =>
    if r.1 > objValIncumbent + backTracking_minimumProgress qpData0 objValIncumbent then
      Except.error (some (return_t.QPDUNES_OK, r.2))
    else
      let qpData : qpData_t α :=
        { r.2 with alpha := r.2.alpha * qpData.options.lineSearchReductionFactor }
      if vectorNorm sqrt_f deltaLambdaFS nV * (qpData.alpha - alphaMin) <
          qpData.options.equalityTolerance then
        Except.error (some (return_t.QPDUNES_ERR_DECEEDED_MIN_LINESEARCH_STEPSIZE,
          { qpData with alpha := alphaMin }))
      else Except.ok qpData

/-- Pass `j` of the backtracking loop neither accepts its trial nor reduces the step length
below the minimum: the trial is evaluated, its objective value is not above
`objValIncumbent + minimumProgress`, and the reduced step length
`alphaMax * reductionFactor^(j+1)` keeps `|deltaLambda| * (alpha - alphaMin)` at or above
`equalityTolerance`. -/
def backTracking_continues (sqrt_f : α → α) (ext : collaborators_t α) (N : Nat)
    (qpData : qpData_t α) (deltaLambdaFS : vector_t α) (nV : Nat)
    (alphaMin alphaMax objValIncumbent : α) (j : Nat) : Prop :=
  ∃ r, backTracking_trial ext N qpData alphaMax j = some r ∧
    ¬ r.1 > objValIncumbent + backTracking_minimumProgress qpData objValIncumbent ∧
    ¬ vectorNorm sqrt_f deltaLambdaFS nV *
        (alphaMax * qpData.options.lineSearchReductionFactor ^ (j + 1) - alphaMin) <
      qpData.options.equalityTolerance

end StepLengthSpec

/-! ## Frame of the start of the solve -/

section StartFrame

variable {α : Type}

/-- The stage `v2` is the stage `v` but for the objective value `optObjVal` and the change
flag `actSetHasChanged`. -/
def SameStageButFlags (v v2 : interval_t α) : Prop :=
  ({ v2 with optObjVal := v.optObjVal, actSetHasChanged := v.actSetHasChanged } :
    interval_t α) = v

/-- The state `q2` is the state `q` but for the log and, in every stage, the objective value
and the change flag: what the start of `qpDUNES_solve` may write when the stage steps
leave the stages as they are. -/
def SameButStart (q q2 : qpData_t α) : Prop :=
  ({ q2 with log := q.log, intervals := q.intervals } : qpData_t α) = q ∧
  ∀ k, SameStageButFlags (q.intervals k) (q2.intervals k)

end StartFrame


/-! ## Active set tables: the entries and the differences, coordinate by coordinate -/

section ActSetEntries

variable {α : Type} [LinearOrderedField α]

/-- Number of active set coordinates of stage `kk`: `_ND(kk) + _NV(kk)`. -/
def actSetDim (qpData : qpData_t α) (kk : Nat) : Nat :=
  (qpData.intervals kk).nD + (qpData.intervals kk).nV

/-- The ternary status of coordinate `ii` of stage `kk` in words: `-1` when the lower
multiplier `y[2 ii]` exceeds the equality tolerance, else `1` when the upper multiplier
`y[2 ii + 1]` does, else `0`. -/
def ternaryStatus (qpData : qpData_t α) (kk ii : Nat) : Int :=
  if (qpData.intervals kk).y.data (2 * ii) > qpData.options.equalityTolerance then -1
  else if (qpData.intervals kk).y.data (2 * ii + 1) > qpData.options.equalityTolerance then 1
  else 0

/-- The coordinates of stage `kk`, among the first `n`, at which two tables differ. -/
def changedCoords (newActSetStatus oldActSetStatus : Nat → Nat → Int) (kk n : Nat) :
    Finset Nat :=
  (Finset.range n).filter (fun ii => newActSetStatus kk ii ≠ oldActSetStatus kk ii)

end ActSetEntries

section ActSetDifferences

variable {α : Type} [LinearOrderedField α]

/-- The last stage among the first `M` with a differing coordinate, `-1` when there is
none. -/
def lastChangedStage (qpData : qpData_t α) (newActSetStatus oldActSetStatus : Nat → Nat → Int) :
    Nat → Int
  | 0 => -1
  | M + 1 =>
    if (changedCoords newActSetStatus oldActSetStatus M (actSetDim qpData M)).Nonempty then
      (M : Int)
    else lastChangedStage qpData newActSetStatus oldActSetStatus M

/-- The state with the change flag of every stage `k < M` set to whether a coordinate of
the stage differs between the two tables. -/
def withChangeFlags (qpData : qpData_t α) (newActSetStatus oldActSetStatus : Nat → Nat → Int)
    (M : Nat) : qpData_t α :=
  { qpData with intervals := fun k =>
      if k < M then
        { qpData.intervals k with
          actSetHasChanged := Decidable.decide
            (changedCoords newActSetStatus oldActSetStatus k (actSetDim qpData k)).Nonempty }
      else qpData.intervals k }

end ActSetDifferences

section StageTags

variable {α : Type} [LinearOrderedField α]

/-- Every stage of the state is a clipping stage with a diagonal Hessian. -/
def ClippingDiagonal (qpData : qpData_t α) : Prop :=
  ∀ k, (qpData.intervals k).qpSolverSpecification =
      qp_solver_t.QPDUNES_STAGE_QP_SOLVER_CLIPPING ∧
    (qpData.intervals k).H.sparsityType = sparsityType_t.QPDUNES_DIAGONAL

end StageTags

section StepLengthContract

variable {α : Type} [LinearOrderedField α]

/-- The options, the multipliers and the step direction are the same in `q` and `q2`. -/
def SameMultipliers (q q2 : qpData_t α) : Prop :=
  q2.options = q.options ∧ q2.lambda = q.lambda ∧ q2.deltaLambda = q.deltaLambda

/-- The state before the step of stage `k` in the loop that takes the step in every stage
(dual_qp.c 948-967 and 1036-1056) over clipping stages: stages `0 .. k - 1` hold what
`directQpSolver_doStep` left for them at the step length `qpData->alpha`. -/
def doSteps_before (ext : collaborators_t α) (qpData : qpData_t α) : Nat → qpData_t α
  | 0 => qpData
  | k + 1 =>
    (doSteps_before ext qpData k).setInterval k
      (ext.directQpSolver_doStep (doSteps_before ext qpData k) k
        (doSteps_before ext qpData k).alpha).2

end StepLengthContract

section BisectionExit

variable {α : Type} [LinearOrderedField α]

/-- The state with which the first loop of the bisection search is left. -/
def bisectionExit_t.state : bisectionExit_t α → qpData_t α
  | bisectionExit_t.ret _ qpData => qpData
  | bisectionExit_t.brk qpData _ _ => qpData

end BisectionExit

section GridSearchSpec

variable {α : Type} [LinearOrderedField α]

/-- The grid point `alphaTry` of pass `kk` of `qpDUNES_gridSearch` (dual_qp.c 1270):
`alphaMin + kk * (alphaMax - alphaMin) / (nGrid - 1)`. -/
def gridSearch_point (qpData : qpData_t α) (alphaMin alphaMax : α) (kk : Nat) : α :=
  alphaMin + (kk : α) * divide_f (alphaMax - alphaMin)
    ((qpData.options.lineSearchNbrGridPoints : α) - 1)

/-- One pass of the loop of `qpDUNES_gridSearch` (dual_qp.c 1268-1276) on the state and
the incumbent. -/
def gridSearch_pass (ext : collaborators_t α) (N : Nat) (qpData : qpData_t α)
    (alphaMin alphaMax : α) (kk : Nat) (s : qpData_t α × α) : Option (qpData_t α × α) :=
  match qpDUNES_computeParametricObjectiveValue ext N s.1
      (gridSearch_point qpData alphaMin alphaMax kk) with
  | none => none
  | some r =>
    if r.1 > s.2 then
      some ({ r.2 with alpha := gridSearch_point qpData alphaMin alphaMax kk }, r.1)
    else some (r.2, s.2)

/-- The state and the incumbent before pass `kk` of the loop of `qpDUNES_gridSearch`. -/
def gridSearch_before (ext : collaborators_t α) (N : Nat) (qpData : qpData_t α)
    (objValIncumbent alphaMin alphaMax : α) (kk : Nat) : Option (qpData_t α × α) :=
  forUpO (gridSearch_pass ext N qpData alphaMin alphaMax) 0 kk (qpData, objValIncumbent)

/-- The objective value `objValTry` that pass `kk` of `qpDUNES_gridSearch` evaluates at its
grid point. -/
def gridSearch_value (ext : collaborators_t α) (N : Nat) (qpData : qpData_t α)
    (objValIncumbent alphaMin alphaMax : α) (kk : Nat) : Option α :=
  match gridSearch_before ext N qpData objValIncumbent alphaMin alphaMax kk with
  | none => none
  | some s =>
    match qpDUNES_computeParametricObjectiveValue ext N s.1
        (gridSearch_point qpData alphaMin alphaMax kk) with
    | none => none
    | some r => some r.1

end GridSearchSpec

/-! ## The bisection search as the specification words it -/

section BisectionSpec

variable {α : Type} [LinearOrderedField α]

/-- The second loop of the bisection search as the specification words it, for a given
divisor: the slope is divided by `normalization` before it is compared with the tolerance
and before its sign is tested. -/
def bisectionIntervalSearch_bisect_dividedBy (ext : collaborators_t α) (N nX nZ : Nat)
    (qpData : qpData_t α) (deltaLambdaFS : vector_t α) (nV : Nat)
    (normalization alphaMin alphaMax : α) : return_t × qpData_t α :=
  let itCntr := (qpData.log.itLog 0).numLineSearchIter
  match forUpM (fun i (s : qpData_t α × α × α × α) =>
      let alphaC := 1 / 2 * (s.2.1 + s.2.2.1)
      let qpData := bisectionIntervalSearch_gradient ext N nX nZ
        (s.1.setNumLineSearchIter i) alphaC
      let alphaSlope := scalarProd qpData.xnVecTmp2 deltaLambdaFS nV
      if abs_f (divide_f alphaSlope normalization) ≤
          qpData.options.lineSearchStationarityTolerance then
        Except.error (return_t.QPDUNES_OK, { qpData with alpha := alphaC })
      else if divide_f alphaSlope normalization > 0 then
        Except.ok (qpData, alphaC, s.2.2.1, alphaC)
      else Except.ok (qpData, s.2.1, alphaC, alphaC))
      itCntr (qpData.options.maxNumLineSearchRefinementIterations - itCntr)
      (qpData, alphaMin, alphaMax, 1) with
  | Except.ok s =>
    (return_t.QPDUNES_ERR_NUMBER_OF_MAX_LINESEARCH_ITERATIONS_REACHED,
      ({ s.1 with alpha := s.2.2.2 } : qpData_t α).setNumLineSearchIter
        (itCntr + (qpData.options.maxNumLineSearchRefinementIterations - itCntr)))
  | Except.error e => e

/-- The bisection search as the specification words it, for a given divisor: in both
phases the slope is divided by `normalization` before it is compared with the tolerance
and before its sign is tested. -/
def bisectionIntervalSearch_dividedBy (ext : collaborators_t α)
    (N nX nZ : Nat) (qpData : qpData_t α) (deltaLambdaFS : vector_t α) (nV : Nat)
    (normalization alphaMin alphaMax : α) : return_t × qpData_t α :=
  let itCntr := (qpData.log.itLog 0).numLineSearchIter
  match forUpM (fun i (s : qpData_t α × α × α) =>
      let qpData := bisectionIntervalSearch_gradient ext N nX nZ
        (s.1.setNumLineSearchIter i) s.2.2
      let alphaSlope := scalarProd qpData.xnVecTmp2 deltaLambdaFS nV
      if abs_f (divide_f alphaSlope normalization) ≤
          qpData.options.lineSearchStationarityTolerance then
        Except.error (bisectionExit_t.ret return_t.QPDUNES_OK { qpData with alpha := s.2.2 })
      else if divide_f alphaSlope normalization < 0 then
        Except.error (bisectionExit_t.brk qpData s.2.1 s.2.2)
      else
        let alphaMin := s.2.2
        let alphaMax := s.2.2 * qpData.options.lineSearchIncreaseFactor
        if alphaMax > qpData.options.lineSearchMaxStepSize then
          Except.error (bisectionExit_t.ret
            return_t.QPDUNES_ERR_EXCEEDED_MAX_LINESEARCH_STEPSIZE
            { qpData with alpha := alphaMin })
        else Except.ok (qpData, alphaMin, alphaMax))
      itCntr (qpData.options.maxNumLineSearchRefinementIterations - itCntr)
      (qpData, alphaMin, alphaMax) with
  | Except.error (bisectionExit_t.ret statusFlag qpData) => (statusFlag, qpData)
  | Except.error (bisectionExit_t.brk qpData alphaMin alphaMax) =>
    bisectionIntervalSearch_bisect_dividedBy ext N nX nZ qpData deltaLambdaFS nV normalization
      alphaMin alphaMax
  | Except.ok s =>
    bisectionIntervalSearch_bisect_dividedBy ext N nX nZ
      (s.1.setNumLineSearchIter
        (itCntr + (qpData.options.maxNumLineSearchRefinementIterations - itCntr)))
      deltaLambdaFS nV normalization s.2.1 s.2.2

/-- The bisection search of the specification: the divisor is `max(1, |deltaLambda|)`. -/
def bisectionIntervalSearch_spec (sqrt_f : α → α) (ext : collaborators_t α)
    (N nX nZ : Nat) (qpData : qpData_t α) (deltaLambdaFS : vector_t α) (nV : Nat)
    (alphaMin alphaMax : α) : return_t × qpData_t α :=
  bisectionIntervalSearch_dividedBy ext N nX nZ qpData deltaLambdaFS nV
    (max 1 (vectorNorm sqrt_f deltaLambdaFS nV)) alphaMin alphaMax

end BisectionSpec

/-! ## Data update -/

section DataUpdate

variable {α : Type} [LinearOrderedField α]

/-- The data arrays `H_`, `g_`, `C_`, `c_`, `zLow_`, `zUpp_`, `D_`, `dLow_`, `dUpp_` that
`qpDUNES_updateData` and `qpDUNES_updateIntervalData` take; a null pointer is `none`. -/
structure dataArrays_t (α : Type) where
  H_ : Option (Nat → α)
  g_ : Option (Nat → α)
  C_ : Option (Nat → α)
  c_ : Option (Nat → α)
  zLow_ : Option (Nat → α)
  zUpp_ : Option (Nat → α)
  D_ : Option (Nat → α)
  dLow_ : Option (Nat → α)
  dUpp_ : Option (Nat → α)

/-- The assignment `qpData->log.itLog[0].prevIeqStatus[kk][ii] = -42` of
`qpDUNES_indicateDataChange` (setup_qp.c 47). -/
def indicateDataChange_write (qpData : qpData_t α) (kk ii : Nat) : qpData_t α :=
  { qpData with log := { qpData.log with
    ieqTables := Function.update qpData.log.ieqTables (qpData.log.itLog 0).prevIeqStatus
      (setStatus (qpData.log.ieqTables (qpData.log.itLog 0).prevIeqStatus) kk ii (-42)) } }

/-- The function `qpDUNES_indicateDataChange` (setup_qp.c 39-50): the value `-42` is
written into every entry `[kk][ii]`, `kk <= N`, `ii < nD + nV`, of the table that
`log.itLog[0].prevIeqStatus` points to. -/
def qpDUNES_indicateDataChange (N : Nat) (qpData : qpData_t α) : qpData_t α :=
  forUp (fun kk (qpData : qpData_t α) =>
    forUp (fun ii (qpData : qpData_t α) => indicateDataChange_write qpData kk ii)
      0 ((qpData.intervals kk).nD + (qpData.intervals kk).nV) qpData) 0 (N + 1) qpData

/-- The function `qpDUNES_updateData` (setup_qp.c 56-99). The stage update
`qpDUNES_updateIntervalData` (setup_qp.c 415-473), which writes the stage through helpers
that the sources do not hold, and the macro `offsetArray` are parameters; the status of the
stage update is not looked at. -/
def qpDUNES_updateData
    (qpDUNES_updateIntervalData : qpData_t α → Nat → dataArrays_t α → interval_t α)
    (offsetArray : Option (Nat → α) → Nat → Option (Nat → α))
    (N nX nZ : Nat) (qpData : qpData_t α) (d : dataArrays_t α) : return_t × qpData_t α :=
  let s := forUp (fun kk (s : qpData_t α × Nat) =>
    let qpData := s.1.setInterval kk (qpDUNES_updateIntervalData s.1 kk
      (dataArrays_t.mk (offsetArray d.H_ (kk * nZ * nZ)) (offsetArray d.g_ (kk * nZ))
        (offsetArray d.C_ (kk * nX * nZ)) (offsetArray d.c_ (kk * nX))
        (offsetArray d.zLow_ (kk * nZ)) (offsetArray d.zUpp_ (kk * nZ))
        (offsetArray d.D_ (s.2 * nZ)) (offsetArray d.dLow_ s.2) (offsetArray d.dUpp_ s.2)))
    (qpData, s.2 + (qpData.intervals kk).nD)) 0 N (qpData, 0)
  let qpData := s.1.setInterval N (qpDUNES_updateIntervalData s.1 N
    (dataArrays_t.mk (offsetArray d.H_ (N * nZ * nZ)) (offsetArray d.g_ (N * nZ))
      none none
      (offsetArray d.zLow_ (N * nZ)) (offsetArray d.zUpp_ (N * nZ))
      (offsetArray d.D_ (s.2 * nZ)) (offsetArray d.dLow_ s.2) (offsetArray d.dUpp_ s.2)))
  let qpData :=
    if d.H_.isSome = true ∨ d.C_.isSome = true ∨ d.D_.isSome = true then
      qpDUNES_indicateDataChange N qpData
    else qpData
  (return_t.QPDUNES_OK, qpData)

/-- The active set pointers of the log entry `itLog[0]` point to the same table. -/
def AliasedActSets (qpData : qpData_t α) : Prop :=
  (qpData.log.itLog 0).prevIeqStatus = (qpData.log.itLog 0).ieqStatus

end DataUpdate
/-! ## Horizon shift (setup_qp.c) -/

section Shift

variable {α : Type}

/-- Function `qpDUNES_shiftLambda` (setup_qp.c 650-662): block by block and entry by entry
`lambda.data[kk*_NX_+ii] = lambda.data[(kk+1)*_NX_+ii]` for `kk < _NI_ - 1`, `ii < _NX_`,
in place. -/
def qpDUNES_shiftLambda (N nX : Nat) (qpData : qpData_t α) : return_t × qpData_t α :=
  (return_t.QPDUNES_OK,
    forUp (fun kk (qpData : qpData_t α) =>
      forUp (fun ii (qpData : qpData_t α) =>
        { qpData with lambda :=
            qpData.lambda.set (kk * nX + ii) (qpData.lambda.data ((kk + 1) * nX + ii)) })
        0 nX qpData) 0 (N - 1) qpData)

/-- The state in which the first `m` entries of `lambda` hold the entries `nX` places
further on of `qpData` and nothing else differs from `qpData`. -/
def shiftedLambda (nX : Nat) (qpData : qpData_t α) (m : Nat) : qpData_t α :=
  { qpData with
    lambda := { qpData.lambda with
      data := fun idx =>
        if idx < m then qpData.lambda.data (idx + nX) else qpData.lambda.data idx } }

/-- The array `qpData->intervals` of stage pointers together with the memory the pointers
point into: `intervals k` is the address held in slot `k`, `mem a` is the stage stored at
address `a`. -/
structure stagePointers_t (α : Type) where
  intervals : Nat → Nat
  mem : Nat → interval_t α

/-- The stage `*qpData->intervals[k]` that slot `k` points to. -/
def stagePointers_t.stage (s : stagePointers_t α) (k : Nat) : interval_t α :=
  s.mem (s.intervals k)

/-- Assignment `qpData->intervals[k] = p` of a pointer to a slot. -/
def stagePointers_t.setPointer (s : stagePointers_t α) (k : Nat) (p : Nat) :
    stagePointers_t α :=
  { s with intervals := Function.update s.intervals k p }

/-- Assignment `qpData->intervals[k]->id = i` through the pointer of slot `k`. -/
def stagePointers_t.setId (s : stagePointers_t α) (k : Nat) (i : Int) : stagePointers_t α :=
  { s with
    mem := Function.update s.mem (s.intervals k)
      ({ s.mem (s.intervals k) with id := i } : interval_t α) }

/-- Assignment `qpData->intervals[k]->lambdaK.isDefined = b` through the pointer of slot
`k`. -/
def stagePointers_t.setLambdaKDefined (s : stagePointers_t α) (k : Nat) (b : Bool) :
    stagePointers_t α :=
  { s with
    mem := Function.update s.mem (s.intervals k)
      ({ s.mem (s.intervals k) with
          lambdaK := { (s.mem (s.intervals k)).lambdaK with isDefined := b } } :
        interval_t α) }

/-- Function `qpDUNES_shiftIntervals` (setup_qp.c 619-642) on the pointer array: the
pointer of slot 0 is saved, the pointers of the slots `1 .. _NI_ - 1` move one slot down,
each with its `id` rewritten through the moved pointer, the saved pointer goes to slot
`_NI_ - 1`, and the two `lambdaK.isDefined` flags are written through the pointers of the
slots `0` and `_NI_ - 1`. With `_NI_ = 0` the slot `_NI_ - 1` lies outside the array: no
result. -/
def qpDUNES_shiftIntervals (N : Nat) (s : stagePointers_t α) :
    Option (return_t × stagePointers_t α) :=
  if N = 0 then none
  else
    let freeInterval := s.intervals 0
    let s := forUp (fun kk (s : stagePointers_t α) =>
      (s.setPointer kk (s.intervals (kk + 1))).setId kk (kk : Int)) 0 (N - 1) s
    let s := s.setPointer (N - 1) freeInterval
    let s := s.setId (N - 1) ((N : Int) - 1)
    let s := s.setLambdaKDefined 0 false
    let s := s.setLambdaKDefined (N - 1) true
    some (return_t.QPDUNES_OK, s)

end Shift

/-! ## Solves with a factorized stage Hessian (matrix_vector.c) -/

section StageSolve

variable {α : Type} [LinearOrderedField α]

/-- Backsolve `M*res = b` for a diagonal `M` stored by its reciprocals
(matrix_vector.c `backsolveDiagonal`, 352-368; `accM(0, i, n)` is `M[i]`); `n = 0` fails
the assertion `assert(n)`. -/
def backsolveDiagonal (res M b : Nat → α) (n : Nat) : Option (return_t × (Nat → α)) :=
  if n = 0 then none
  else some (return_t.QPDUNES_OK,
    forUp (fun i (res : Nat → α) => Function.update res i (b i * M i)) 0 n res)

/-- Solve `H*res = x` with the factorized stage Hessian `cholH`
(matrix_vector.c `multiplyInvMatrixVector`, 462-486); an invalid sparsity type of `cholH`
fails the assertion. -/
def multiplyInvMatrixVector (ext : collaborators_t α) (res : vector_t α) (cholH : matrix_t α)
    (x : vector_t α) (dim0 : Nat) : Option (return_t × vector_t α) :=
  match cholH.sparsityType with
  | sparsityType_t.QPDUNES_DIAGONAL =>
    match backsolveDiagonal res.data cholH.data x.data dim0 with
    | some r => some (r.1, { res with data := r.2 })
    | none => none
  | sparsityType_t.QPDUNES_IDENTITY =>
    some (return_t.QPDUNES_OK, ext.qpDUNES_copyVector res x dim0)
  | _ => none

end StageSolve

/-! ## Stage setup (setup_qp.c) -/

section StageSetup

variable {α : Type} [LinearOrderedField α]

/-- What `qpDUNES_setupRegularInterval` uses and the sources do not hold, as parameters:
`sparsityRank` is the number a sparsity tag stands for in the enumeration of types.h, which
the comparison `H->sparsityType < QPDUNES_DIAGONAL` reads; `accH i j` is the index in
`H->data` that the macro `accH( i, j )` addresses; the other fields are the helpers of
utils, each yielding the object it is handed a pointer to (a null array is `none`). -/
structure setupHelpers_t (α : Type) where
  sparsityRank : sparsityType_t → Int
  accH : Nat → Nat → Nat
  qpDUNES_detectMatrixSparsity : (Nat → α) → Nat → Nat → sparsityType_t
  qpDUNES_updateMatrixData : matrix_t α → (Nat → α) → Nat → Nat → matrix_t α
  qpDUNES_setupVector : vector_t α → (Nat → α) → Nat → vector_t α
  qpDUNES_setupZeroVector : vector_t α → Nat → vector_t α
  qpDUNES_setupUniformVector : vector_t α → α → Nat → vector_t α
  qpDUNES_updateSimpleBoundVector : qpData_t α → vector_t α → Option (Nat → α) →
    Option (Nat → α) → Option (Nat → α) → vector_t α
  qpDUNES_setMatrixNull : matrix_t α → matrix_t α
  qpDUNES_updateVector : vector_t α → Option (Nat → α) → Nat → vector_t α

/-- The data arrays that `qpDUNES_setupRegularInterval` takes; a null pointer is `none`. -/
structure setupArrays_t (α : Type) where
  H_ : Option (Nat → α)
  Q_ : Option (Nat → α)
  R_ : Option (Nat → α)
  S_ : Option (Nat → α)
  g_ : Option (Nat → α)
  C_ : Option (Nat → α)
  A_ : Option (Nat → α)
  B_ : Option (Nat → α)
  c_ : Option (Nat → α)
  zLow_ : Option (Nat → α)
  zUpp_ : Option (Nat → α)
  xLow_ : Option (Nat → α)
  xUpp_ : Option (Nat → α)
  uLow_ : Option (Nat → α)
  uUpp_ : Option (Nat → α)
  D_ : Option (Nat → α)
  dLow_ : Option (Nat → α)
  dUpp_ : Option (Nat → α)

/-- The sparsity of `Q_` or `R_` as `qpDUNES_setupRegularInterval` takes it
(setup_qp.c 150-151): the detected one, or identity for a null array. -/
def setupRegularInterval_sparsity (hp : setupHelpers_t α) (M_ : Option (Nat → α)) (n : Nat) :
    sparsityType_t :=
  match M_ with
  | some M_ => hp.qpDUNES_detectMatrixSparsity M_ n n
  | none => sparsityType_t.QPDUNES_IDENTITY

/-- The full Hessian assembled from `Q_`, `R_` and `S_` (setup_qp.c 153-180). -/
def setupRegularInterval_full (hp : setupHelpers_t α) (nX nU : Nat) (regParam : α)
    (H : matrix_t α) (Q_ R_ : Option (Nat → α)) (S_ : Nat → α) : matrix_t α :=
  let H : matrix_t α := { H with sparsityType := sparsityType_t.QPDUNES_DENSE }
  let H := forUp (fun ii (H : matrix_t α) =>
    let H := match Q_ with
      | some Q_ => forUp (fun jj (H : matrix_t α) =>
          H.set (hp.accH ii jj) (Q_ (ii * nX + jj))) 0 nX H
      | none => H.set (hp.accH ii ii) regParam
    forUp (fun jj (H : matrix_t α) =>
      H.set (hp.accH ii (nX + jj)) (S_ (ii * nU + jj))) 0 nU H) 0 nX H
  forUp (fun ii (H : matrix_t α) =>
    let H := forUp (fun jj (H : matrix_t α) =>
      H.set (hp.accH (nX + ii) jj) (S_ (jj * nX + ii))) 0 nX H
    match R_ with
    | some R_ => forUp (fun jj (H : matrix_t α) =>
        H.set (hp.accH (nX + ii) (nX + jj)) (R_ (ii * nU + jj))) 0 nU H
    | none => H.set (hp.accH (nX + ii) (nX + ii)) regParam) 0 nU H

/-- The dense Hessian written block by block when `Q_` or `R_` is detected as dense
(setup_qp.c 183-225). -/
def setupRegularInterval_blocks (hp : setupHelpers_t α) (nX nU nZ : Nat) (regParam : α)
    (H : matrix_t α) (Q_ R_ : Option (Nat → α)) : matrix_t α :=
  let H : matrix_t α := { H with sparsityType := sparsityType_t.QPDUNES_DENSE }
  let H := forUp (fun ii (H : matrix_t α) =>
    let H := match Q_ with
      | some Q_ => forUp (fun jj (H : matrix_t α) =>
          H.set (hp.accH ii jj) (Q_ (ii * nX + jj))) 0 nX H
      | none =>
        let H := forUp (fun jj (H : matrix_t α) => H.set (hp.accH ii jj) 0) 0 ii H
        let H := H.set (hp.accH ii ii) regParam
        forUp (fun jj (H : matrix_t α) => H.set (hp.accH ii jj) 0) (ii + 1) (nX - (ii + 1)) H
    forUp (fun jj (H : matrix_t α) => H.set (hp.accH ii jj) 0) nX (nZ - nX) H) 0 nX H
  forUp (fun ii (H : matrix_t α) =>
    let H := forUp (fun jj (H : matrix_t α) => H.set (hp.accH (nX + ii) jj) 0) 0 nX H
    match R_ with
    | some R_ => forUp (fun jj (H : matrix_t α) =>
        H.set (hp.accH (nX + ii) (nX + jj)) (R_ (ii * nU + jj))) 0 nU H
    | none =>
      let H := forUp (fun jj (H : matrix_t α) =>
        H.set (hp.accH (nX + ii) (nX + jj)) 0) 0 ii H
      let H := H.set (hp.accH (nX + ii) (nX + ii)) regParam
      forUp (fun jj (H : matrix_t α) =>
        H.set (hp.accH (nX + ii) (nX + jj)) 0) (ii + 1) (nX - (ii + 1)) H) 0 nU H

/-- The diagonal Hessian written into the first line when `Q_` and `R_` are diagonal or
identity, not both identity (setup_qp.c 233-254). -/
def setupRegularInterval_diagonal (hp : setupHelpers_t α) (nX nU : Nat)
    (H : matrix_t α) (Q_ R_ : Option (Nat → α)) (sparsityQ sparsityR : sparsityType_t) :
    matrix_t α :=
  let H : matrix_t α := { H with sparsityType := sparsityType_t.QPDUNES_DIAGONAL }
  let H :=
    if sparsityQ = sparsityType_t.QPDUNES_IDENTITY then
      forUp (fun ii (H : matrix_t α) => H.set (hp.accH 0 ii) 1) 0 nX H
    else
      match Q_ with
      | some Q_ => forUp (fun ii (H : matrix_t α) =>
          H.set (hp.accH 0 ii) (Q_ (ii * nX + ii))) 0 nX H
      | none => H
  if sparsityR = sparsityType_t.QPDUNES_IDENTITY then
    forUp (fun ii (H : matrix_t α) => H.set (hp.accH 0 (nX + ii)) 1) 0 nU H
  else
    match R_ with
    | some R_ => forUp (fun ii (H : matrix_t α) =>
        H.set (hp.accH 0 (nX + ii)) (R_ (ii * nU + ii))) 0 nU H
    | none => H

/-- Part (1) of `qpDUNES_setupRegularInterval`, the quadratic term (setup_qp.c 140-262):
the stage Hessian with its tag, taken from `H_` when that is given and assembled from
`Q_`, `R_`, `S_` otherwise. -/
def setupRegularInterval_hessian (hp : setupHelpers_t α) (nX nU nZ : Nat) (regParam : α)
    (H : matrix_t α) (a : setupArrays_t α) : matrix_t α :=
  match a.H_ with
  | some H_ =>
    let H : matrix_t α :=
      if H.sparsityType = sparsityType_t.QPDUNES_MATRIX_UNDEFINED then
        { H with sparsityType := hp.qpDUNES_detectMatrixSparsity H_ nZ nZ }
      else H
    hp.qpDUNES_updateMatrixData H H_ nZ nZ
  | none =>
    let sparsityQ := setupRegularInterval_sparsity hp a.Q_ nX
    let sparsityR := setupRegularInterval_sparsity hp a.R_ nU
    match a.S_ with
    | some S_ => setupRegularInterval_full hp nX nU regParam H a.Q_ a.R_ S_
    | none =>
      if sparsityQ = sparsityType_t.QPDUNES_DENSE ∨ sparsityR = sparsityType_t.QPDUNES_DENSE then
        setupRegularInterval_blocks hp nX nU nZ regParam H a.Q_ a.R_
      else if sparsityQ = sparsityType_t.QPDUNES_IDENTITY ∧
          sparsityR = sparsityType_t.QPDUNES_IDENTITY then
        { H with sparsityType := sparsityType_t.QPDUNES_IDENTITY }
      else setupRegularInterval_diagonal hp nX nU H a.Q_ a.R_ sparsityQ sparsityR

/-- Parts (3) to (5) of `qpDUNES_setupRegularInterval` after the coupling matrix is set
(setup_qp.c 302-336): `c`, the bounds, the affine constraints, status QPDUNES_OK. -/
def setupRegularInterval_finish (hp : setupHelpers_t α) (nX nZ : Nat) (qpData : qpData_t α)
    (nD nV : Nat) (interval : interval_t α) (a : setupArrays_t α) : return_t × interval_t α :=
  let interval : interval_t α := { interval with
    c := match a.c_ with
      | some c_ => hp.qpDUNES_setupVector interval.c c_ nX
      | none => hp.qpDUNES_setupZeroVector interval.c nX }
  let interval : interval_t α := { interval with
    zLow := hp.qpDUNES_setupUniformVector interval.zLow (-qpData.options.QPDUNES_INFTY) nV }
  let interval : interval_t α := { interval with
    zLow := hp.qpDUNES_updateSimpleBoundVector qpData interval.zLow a.zLow_ a.xLow_ a.uLow_ }
  let interval : interval_t α := { interval with
    zUpp := hp.qpDUNES_setupUniformVector interval.zUpp qpData.options.QPDUNES_INFTY nV }
  let interval : interval_t α := { interval with
    zUpp := hp.qpDUNES_updateSimpleBoundVector qpData interval.zUpp a.zUpp_ a.xUpp_ a.uUpp_ }
  let interval : interval_t α :=
    match a.D_ with
    | some D_ =>
      let D : matrix_t α :=
        if interval.D.sparsityType = sparsityType_t.QPDUNES_MATRIX_UNDEFINED then
          { interval.D with sparsityType := hp.qpDUNES_detectMatrixSparsity D_ nD nZ }
        else interval.D
      { interval with D := hp.qpDUNES_updateMatrixData D D_ nD nZ }
    | none => { interval with D := hp.qpDUNES_setMatrixNull interval.D }
  let interval : interval_t α := { interval with
    dLow := hp.qpDUNES_updateVector interval.dLow a.dLow_ nD }
  let interval : interval_t α := { interval with
    dUpp := hp.qpDUNES_updateVector interval.dUpp a.dUpp_ nD }
  (return_t.QPDUNES_OK, interval)

/-- Parts (2) to (5) of `qpDUNES_setupRegularInterval` (setup_qp.c 269-336): the linear
term, the coupling matrix from `C_` or from `A_` and `B_`, and the remainder; with neither
`C_` nor both of `A_` and `B_` the function leaves with QPDUNES_ERR_INVALID_ARGUMENT. -/
def setupRegularInterval_data (hp : setupHelpers_t α) (nX nU nZ : Nat) (qpData : qpData_t α)
    (nD nV : Nat) (interval : interval_t α) (a : setupArrays_t α) : return_t × interval_t α :=
  let interval : interval_t α := { interval with
    g := match a.g_ with
      | some g_ => hp.qpDUNES_setupVector interval.g g_ nV
      | none => hp.qpDUNES_setupZeroVector interval.g nV }
  let interval : interval_t α :=
    if interval.C.sparsityType = sparsityType_t.QPDUNES_MATRIX_UNDEFINED then
      { interval with C := { interval.C with sparsityType := sparsityType_t.QPDUNES_DENSE } }
    else interval
  match a.C_ with
  | some C_ =>
    setupRegularInterval_finish hp nX nZ qpData nD nV
      { interval with C := hp.qpDUNES_updateMatrixData interval.C C_ nX nZ } a
  | none =>
    match a.A_, a.B_ with
    | some A_, some B_ =>
      setupRegularInterval_finish hp nX nZ qpData nD nV
        { interval with C := forUp (fun ii (C : matrix_t α) =>
            let C := forUp (fun jj (C : matrix_t α) =>
              C.set (ii * nZ + jj) (A_ (ii * nX + jj))) 0 nX C
            forUp (fun jj (C : matrix_t α) =>
              C.set (ii * nZ + (nX + jj)) (B_ (ii * nU + jj))) 0 nU C) 0 nX interval.C } a
    | _, _ => (return_t.QPDUNES_ERR_INVALID_ARGUMENT, interval)

/-- Function `qpDUNES_setupRegularInterval` (setup_qp.c 107-340): the stage Hessian is set
up, the function leaves with QPDUNES_ERR_INVALID_ARGUMENT when its tag is below
`QPDUNES_DIAGONAL` in the enumeration (setup_qp.c 264-266), and sets up the other stage
data otherwise. -/
def qpDUNES_setupRegularInterval (hp : setupHelpers_t α) (nX nU nZ : Nat)
    (qpData : qpData_t α) (interval : interval_t α) (a : setupArrays_t α) :
    return_t × interval_t α :=
  let nD := interval.nD
  let nV := interval.nV
  let interval : interval_t α := { interval with
    H := setupRegularInterval_hessian hp nX nU nZ qpData.options.regParam interval.H a }
  if hp.sparsityRank interval.H.sparsityType <
      hp.sparsityRank sparsityType_t.QPDUNES_DIAGONAL then
    (return_t.QPDUNES_ERR_INVALID_ARGUMENT, interval)
  else setupRegularInterval_data hp nX nU nZ qpData nD nV interval a

/-- The tag the stage Hessian has when `qpDUNES_setupRegularInterval` reaches its check
(setup_qp.c 264). -/
def setupRegularInterval_tag (hp : setupHelpers_t α) (nX nU nZ : Nat)
    (qpData : qpData_t α) (interval : interval_t α) (a : setupArrays_t α) : sparsityType_t :=
  (setupRegularInterval_hessian hp nX nU nZ qpData.options.regParam interval.H a).sparsityType

/-- The enumeration of the sparsity tags puts dense, sparse, all-zeros and undefined below
diagonal, and identity not below diagonal. -/
def RejectedBelowDiagonal (hp : setupHelpers_t α) : Prop :=
  hp.sparsityRank sparsityType_t.QPDUNES_DENSE <
      hp.sparsityRank sparsityType_t.QPDUNES_DIAGONAL ∧
  hp.sparsityRank sparsityType_t.QPDUNES_SPARSE <
      hp.sparsityRank sparsityType_t.QPDUNES_DIAGONAL ∧
  hp.sparsityRank sparsityType_t.QPDUNES_ALLZEROS <
      hp.sparsityRank sparsityType_t.QPDUNES_DIAGONAL ∧
  hp.sparsityRank sparsityType_t.QPDUNES_MATRIX_UNDEFINED <
      hp.sparsityRank sparsityType_t.QPDUNES_DIAGONAL ∧
  hp.sparsityRank sparsityType_t.QPDUNES_DIAGONAL ≤
      hp.sparsityRank sparsityType_t.QPDUNES_IDENTITY

end StageSetup

/-! ## Kinematics of the vehicle state (src/state.cpp, include/state.h) -/

section StateModel

variable {α : Type} [LinearOrderedField α]

/-- A quaternion as Eigen stores it (`Quaternionr`): coefficients `x`, `y`, `z`, `w`. -/
structure Quaternionr (α : Type) where
  x : α
  y : α
  z : α
  w : α

/-- Construction `Quaternionr(v)` from a 4-vector: the coefficients in the order
`(x, y, z, w)`. -/
def Quaternionr.ofCoeffs (v : Nat → α) : Quaternionr α :=
  { x := v 0, y := v 1, z := v 2, w := v 3 }

/-- Eigen's `conjugate()`: the vector part negated. -/
def Quaternionr.conjugate (q : Quaternionr α) : Quaternionr α :=
  { x := -q.x, y := -q.y, z := -q.z, w := q.w }

/-- Eigen's quaternion product `a * b` (the Hamilton product). -/
def Quaternionr.mul (a b : Quaternionr α) : Quaternionr α :=
  { x := a.w * b.x + a.x * b.w + a.y * b.z - a.z * b.y,
    y := a.w * b.y + a.y * b.w + a.z * b.x - a.x * b.z,
    z := a.w * b.z + a.z * b.w + a.x * b.y - a.y * b.x,
    w := a.w * b.w - a.x * b.x - a.y * b.y - a.z * b.z }

/-- Cross product of two 3-vectors. -/
def cross3 (u v : Nat → α) : Nat → α :=
  fun i => if i = 0 then u 1 * v 2 - u 2 * v 1
    else if i = 1 then u 2 * v 0 - u 0 * v 2
    else u 0 * v 1 - u 1 * v 0

/-- The vector part `vec()` of a quaternion. -/
def Quaternionr.vec (q : Quaternionr α) : Nat → α :=
  fun i => if i = 0 then q.x else if i = 1 then q.y else q.z

/-- Eigen's product `q * v` of a quaternion with a 3-vector, the rotation of `v`:
`v + w * (2 vec x v) + vec x (2 vec x v)`. -/
def Quaternionr.transformVector (q : Quaternionr α) (v : Nat → α) : Nat → α :=
  let uv : Nat → α := fun i => cross3 q.vec v i + cross3 q.vec v i
  fun i => v i + q.w * uv i + cross3 q.vec uv i

/-- The block `v.segment<n>(start)` of a vector. -/
def segment (v : Nat → α) (start : Nat) : Nat → α := fun i => v (start + i)

/-- Assignment `out.segment<n>(start) = v`. -/
def setSegment (out : Nat → α) (start n : Nat) (v : Nat → α) : Nat → α :=
  fun i => if start ≤ i ∧ i < start + n then v (i - start) else out i

/-- The accessor `velocity()` of state.h. -/
def State.velocity (state : Nat → α) : Nat → α := segment state 3

/-- The accessor `attitude()` of state.h. -/
def State.attitude (state : Nat → α) : Nat → α := segment state 6

/-- The accessor `angular_velocity()` of state.h. -/
def State.angular_velocity (state : Nat → α) : Nat → α := segment state 10

/-- The 4-vector `omega_q << angular_velocity(), 0` of `State::model`. -/
def State.omega_q (state : Nat → α) : Nat → α :=
  fun i => if i < 3 then State.angular_velocity state i else 0

/-- Function `State::model` (src/state.cpp 40-67) on the state vector `state`: the
derivative of each component. The dynamics model `d->evaluate` (dynamics.h is not among
the sources) is a parameter yielding the six accelerations; `output` is the local vector
the function fills. -/
def State.model {γ : Type} (evaluate : (Nat → α) → γ → Nat → α) (state : Nat → α) (c : γ)
    (output : Nat → α) : Nat → α :=
  let a := evaluate state c
  let output := setSegment output 0 3 (State.velocity state)
  let attitude_q := Quaternionr.ofCoeffs (State.attitude state)
  let output := setSegment output 3 3 (attitude_q.conjugate.transformVector (segment a 0))
  let omega_q := State.omega_q state
  let attitude_q := (Quaternionr.ofCoeffs omega_q).conjugate.mul attitude_q
  let output := setSegment output 6 4
    (fun i => if i < 3 then attitude_q.vec i else attitude_q.w)
  let output := setSegment output 6 4 (fun i => segment output 6 i * (1 / 2))
  let output := setSegment output 10 3 (segment a 3)
  setSegment output 13 3 (fun _ => 0)

end StateModel

section IterationCounter

variable {α : Type}

/-- The state `q2` is the state `q` but for its stages. -/
def SameButIntervals (q q2 : qpData_t α) : Prop :=
  ({ q2 with intervals := q.intervals } : qpData_t α) = q

/-- The state `q2` has the iteration counter `log.numIter` and the options of `q`. -/
def SameIterationData (q q2 : qpData_t α) : Prop :=
  q2.log.numIter = q.log.numIter ∧ q2.options = q.options

/-- Counted from the spec's words, "the number of outer iterations that were completed":
of the `n` passes `lo, lo + 1, ...` of a loop, the number of passes that went through to
their end before the first pass that left the loop. -/
def completedPasses {σ ε : Type} (body : Nat → σ → Except ε σ) (lo : Nat) : Nat → σ → Nat
  | 0, _ => 0
  | n + 1, s =>
    match forUpM body lo (n + 1) s with
    | Except.ok _ => n + 1
    | Except.error _ => completedPasses body lo n s

/-- Counted from the spec's words: the number of outer iterations of a run of
`qpDUNES_solve` that were completed, that is, whose line search step, active set update and
logging were executed (the passes of the iteration loop that reached their end); 0 when the
run returns before the loop. -/
def solve_completedIterations [LinearOrderedField α] (sqrt_f : α → α)
    (ext : collaborators_t α) (N nX nZ : Nat) (qpData : qpData_t α) : Nat :=
  match solve_start ext N qpData with
  | Except.error _ => 0
  | Except.ok s =>
    completedPasses (solve_iteration sqrt_f ext N nX nZ) 1 s.1.options.maxIter.toNat s

end IterationCounter
/-! ## Agreement of two reverse factors -/

section ReverseAgreement

variable {α : Type} [LinearOrderedField α]

/-- The entries of the reverse factor are equal in `c` and `c1` on all rows after `(kk, n)`
in reverse order (blocks above `kk`, and rows `n` and up of block `kk`): the lower triangle
of `L[k,0]` and, for `k >= 1`, the row of `L[k,-1]`. -/
def RevSameDone (N nX : Nat) (c c1 : xn2x_matrix_t α) (kk n : Nat) : Prop :=
  ∀ k j i, k < N → j < nX → (kk < k ∨ (k = kk ∧ n ≤ j)) →
    (i ≤ j → c1 (k, 0, j, i) = c (k, 0, j, i)) ∧
    (0 < k → i < nX → c1 (k, -1, j, i) = c (k, -1, j, i))

/-- The buffers `c` and `c1` hold the same factor: equal lower triangles of the diagonal
blocks `L[k,0]`, `k < N`, and equal sub-diagonal blocks `L[k,-1]`, `1 <= k < N`. -/
def SameFactor (N nX : Nat) (c c1 : xn2x_matrix_t α) : Prop :=
  ∀ k j i, k < N → j < nX →
    (i ≤ j → c1 (k, 0, j, i) = c (k, 0, j, i)) ∧
    (0 < k → i < nX → c1 (k, -1, j, i) = c (k, -1, j, i))

end ReverseAgreement

/-! ## Example data -/

section Examples

/-- Example options: the default tolerances and sentinels, Levenberg-Marquardt, forward
factorization, backtracking line search. -/
def exOpt (α : Type) [LinearOrderedField α] : qpOptions_t α :=
  { maxIter := 100, maxNumLineSearchIterations := 19,
    maxNumLineSearchRefinementIterations := 40,
    logLevel := logLevel_t.QPDUNES_LOG_OFF,
    stationarityTolerance := 1 / 1000000, equalityTolerance := 1 / 1000000000000,
    newtonHessDiagRegTolerance := 1 / 10000000000, QPDUNES_ZERO := 1 / 100000000000000000000,
    QPDUNES_INFTY := 1000000000000,
    nbrInitialGradientSteps := 0,
    regType := regType_t.QPDUNES_REG_LEVENBERG_MARQUARDT, regParam := 1 / 1000000,
    nwtnHssnFacAlg := nwtnHssnFacAlg_t.QPDUNES_NH_FAC_BAND_FORWARD,
    lsType := lsType_t.QPDUNES_LS_BACKTRACKING_LS,
    lineSearchReductionFactor := 1 / 10, lineSearchIncreaseFactor := 3 / 2,
    lineSearchMinAbsProgress := 1 / 1000000000000, lineSearchMinRelProgress := 1 / 100000000000000,
    lineSearchStationarityTolerance := 1 / 1000, lineSearchMaxStepSize := 1,
    lineSearchNbrGridPoints := 5 }

/-- Example stored Hessian for `N = 2`, `nX = 1`: `M[0,0] = 4`, `M[1,-1] = 2`, `M[1,0] = 5`. -/
def exHessian (α : Type) [LinearOrderedField α] : xn2x_matrix_t α :=
  fun key => if key.2.1 = 0 then (if key.1 = 0 then 4 else 5) else 2

/-- Example factor for `N = 2`, `nX = 1`: `L[0,0] = 2`, `L[1,-1] = 1`, `L[1,0] = 2`
(the forward factor of `exHessian`). -/
def exFactor (α : Type) [LinearOrderedField α] : xn2x_matrix_t α :=
  fun key => if key.2.1 = 0 then 2 else 1

/-- Example stored Hessian for `N = 1`, `nX = 2`: the block `M[0,0] = [[2, 1], [1, 1]]`. -/
def exHessian2 (α : Type) [LinearOrderedField α] : xn2x_matrix_t α :=
  fun key => if key.2.2.1 = 0 ∧ key.2.2.2 = 0 then 2 else 1

/-- Example stored Hessian for `N = 1`, `nX = 1`: the single entry `M[0,0] = 1e26`. -/
def exHessian3 (α : Type) [LinearOrderedField α] : xn2x_matrix_t α :=
  fun _ => 100000000000000000000000000

/-- Example stored Hessian for `N = 2`, `nX = 1`: `M[0,0] = M[1,0] = 25`, `M[1,-1] = 20`. -/
def exHessian4 (α : Type) [LinearOrderedField α] : xn2x_matrix_t α :=
  fun key => if key.2.1 = 0 then 25 else 20

/-- Example stored Hessian that differs from `exHessian4` only in block 0: `M[0,0] = 32`. -/
def exHessian5 (α : Type) [LinearOrderedField α] : xn2x_matrix_t α :=
  fun key => if key.2.1 = 0 then (if key.1 = 0 then 32 else 25) else 20

/-- Example vector holding `f`. -/
def exVec {α : Type} (f : Nat → α) : vector_t α := { isDefined := true, data := f }

/-- Example stage with `nV = 2` (one state, one control): `H = diag(2, 4)` stored with its
reciprocals `(1/2, 1/4)` in `cholH`, `C = [1 1]`, `c = [1]`, primal point `(z0, z1)`, lower
bound multiplier `y0` of the state, all other multipliers zero, the given change
flag; the stage number 0, a zero `g` and no affine constraints, which no function of the
solver reads. -/
def exStage (α : Type) [LinearOrderedField α] (z0 z1 y0 : α) (changed : Bool) : interval_t α :=
  { nD := 0, nV := 2,
    H := { sparsityType := sparsityType_t.QPDUNES_DIAGONAL, data := fun i => if i = 0 then 2 else 4 },
    cholH := { sparsityType := sparsityType_t.QPDUNES_DIAGONAL,
               data := fun i => if i = 0 then 1 / 2 else 1 / 4 },
    q := exVec (fun _ => 0), p := 0,
    C := { sparsityType := sparsityType_t.QPDUNES_DENSE, data := fun _ => 1 },
    c := exVec (fun _ => 1),
    zLow := exVec (fun _ => -10), zUpp := exVec (fun _ => 10),
    z := exVec (fun i => if i = 0 then z0 else z1),
    y := exVec (fun i => if i = 0 then y0 else 0),
    lambdaK := exVec (fun _ => 0), lambdaK1 := exVec (fun _ => 0),
    optObjVal := 0, actSetHasChanged := changed,
    qpSolverSpecification := qp_solver_t.QPDUNES_STAGE_QP_SOLVER_CLIPPING,
    qpSolverClipping := { zUnconstrained := exVec (fun i => if i = 0 then z0 else z1),
                          dz := exVec (fun _ => 0), qStep := exVec (fun _ => 0) },
    zVecTmp := exVec (fun _ => 0), id := 0,
    g := exVec (fun _ => 0),
    D := { sparsityType := sparsityType_t.QPDUNES_ALLZEROS, data := fun _ => 0 },
    dLow := exVec (fun _ => 0), dUpp := exVec (fun _ => 0) }

/-- Example log entry: the active set table at address 0, the previous one at address 1. -/
def exItLog (α : Type) [LinearOrderedField α] : itLog_t α :=
  { itNbr := 0, isHessianRegularized := false, numLineSearchIter := 0, nActConstr := 0,
    nChgdConstr := 0, ieqStatus := 0, prevIeqStatus := 1, gradNorm := 0, stepNorm := 0,
    stepSize := 0, lambdaNorm := 0, objVal := 0, lastActSetChangeIdx := 0 }

/-- Example solver state over the given stages: the example options, zero multipliers and
scratch memory, and the value 7 in every entry of the stored Hessian. -/
def exQp (α : Type) [LinearOrderedField α] (stages : Nat → interval_t α) : qpData_t α :=
  { options := exOpt α, intervals := stages,
    lambda := exVec (fun _ => 0), deltaLambda := exVec (fun _ => 0),
    gradient := exVec (fun _ => 0), hessian := fun _ => 7, cholHessian := fun _ => 0,
    alpha := 0, xVecTmp := exVec (fun _ => 0), xnVecTmp := exVec (fun _ => 0),
    xnVecTmp2 := exVec (fun _ => 0),
    xxMatTmp := { sparsityType := sparsityType_t.QPDUNES_DENSE, data := fun _ => 0 },
    zxMatTmp := { sparsityType := sparsityType_t.QPDUNES_DENSE, data := fun _ => 0 },
    log := { numIter := 0, itLog := fun _ => exItLog α, ieqTables := fun _ _ _ => 0 } }

/-- Modelled from the spec: `qpDUNES_makeMatrixDense` of utils (missing), for the example
collaborators: the dense `dim0 x dim1` form of a matrix; a diagonal matrix is stored by its
diagonal in the first line, an identity matrix has no data. -/
def qpDUNES_makeMatrixDense {α : Type} [LinearOrderedField α] (M : matrix_t α)
    (dim0 dim1 : Nat) : matrix_t α :=
  match M.sparsityType with
  | sparsityType_t.QPDUNES_DIAGONAL =>
    { sparsityType := sparsityType_t.QPDUNES_DENSE,
      data := fun p => if p < dim0 * dim1 then (if p / dim1 = p % dim1 then M.data (p % dim1) else 0)
        else M.data p }
  | sparsityType_t.QPDUNES_IDENTITY =>
    { sparsityType := sparsityType_t.QPDUNES_DENSE,
      data := fun p => if p < dim0 * dim1 then (if p / dim1 = p % dim1 then 1 else 0)
        else M.data p }
  | sparsityType_t.QPDUNES_SPARSE => { M with sparsityType := sparsityType_t.QPDUNES_DENSE }
  | _ => M

/-- Example collaborators: a stage solver that leaves every stage as it is and reports
QPDUNES_OK, copying helpers, and the dense form above. -/
def exExt (α : Type) [LinearOrderedField α] : collaborators_t α :=
  { directQpSolver_doStep := fun qpData kk _ => (return_t.QPDUNES_OK, qpData.intervals kk),
    directQpSolver_doStepTry := fun qpData kk _ => (return_t.QPDUNES_OK, qpData.intervals kk, 0),
    directQpSolver_getMinStepsize := fun _ a => a,
    directQpSolver_saturateVector := fun _ v y _ _ _ => (v, y),
    directQpSolver_solveUnconstrained := fun qpData kk => (return_t.QPDUNES_OK, qpData.intervals kk),
    clippingQpSolver_updateStageData := fun qpData kk => qpData.intervals kk,
    qpDUNES_updateVector := fun v src len =>
      { v with data := fun i => if i < len then src i else v.data i },
    qpDUNES_copyVector := fun res src len =>
      { res with data := fun i => if i < len then src.data i else res.data i },
    qpDUNES_makeMatrixDense := qpDUNES_makeMatrixDense,
    qpDUNES_fmin := fun a b => min a b,
    return_value := fun _ => 0 }

/-- Example stages for `N = 1`: the point `(3, 2)` in stage 0 and `(4, 0)` in stage 1, both
stages changed, and the lower bound multiplier of the state of stage 1 equal to
`equalityTolerance`. The dual gradient is `3 + 2 + 1 - 4 = 2`. -/
def exStages1 (α : Type) [LinearOrderedField α] : Nat → interval_t α :=
  fun k => if k = 0 then exStage α 3 2 0 true
    else exStage α 4 0 (exOpt α).equalityTolerance true

/-- Example stages for `N = 2`: only stage 1 reports a changed active set, no bound is
active; the points `(3, 2)`, `(4, 0)`, `(5, 0)` give the dual gradient `(2, 0)`. -/
def exStages2 (α : Type) [LinearOrderedField α] : Nat → interval_t α :=
  fun k => if k = 0 then exStage α 3 2 0 false
    else if k = 1 then exStage α 4 0 0 true else exStage α 5 0 0 false

/-- Example stages for `N = 1` at a dual optimum: the points `(3, 2)` and `(6, 0)` give the
dual gradient `3 + 2 + 1 - 6 = 0`. -/
def exStages3 (α : Type) [LinearOrderedField α] : Nat → interval_t α :=
  fun k => if k = 0 then exStage α 3 2 0 true else exStage α 6 0 0 true

end Examples

/-! ## Example data for the factorization driver and the line search -/

section DriverExampleData

/-- Example solver state over the given stages with the given stored Hessian. -/
def exQpHessian (α : Type) [LinearOrderedField α] (stages : Nat → interval_t α)
    (hessian : xn2x_matrix_t α) : qpData_t α :=
  { exQp α stages with hessian := hessian }

/-- Example factor for `N = 1`, `nX = 2`: `L[0,0] = [[2e12, 0], [1, 1]]`, whose first
diagonal entry exceeds the default QPDUNES_INFTY. -/
def exFactor6 (α : Type) [LinearOrderedField α] : xn2x_matrix_t α :=
  fun key => if key.2.2.1 = 0 ∧ key.2.2.2 = 0 then 2000000000000
    else if key.2.2.1 = 0 then 0 else 1

/-- Example solver state over the given stages with the given options. -/
def exQpOpt (α : Type) [LinearOrderedField α] (stages : Nat → interval_t α)
    (opt : qpOptions_t α) : qpData_t α :=
  { exQp α stages with options := opt }

/-- Example options with one initial gradient step. -/
def exOptSteps (α : Type) [LinearOrderedField α] : qpOptions_t α :=
  { exOpt α with nbrInitialGradientSteps := 1 }

/-- Example collaborators for the line search: as the example collaborators, but the trial
step puts the stage of the first example and reports the offset 0 at the step length 1 and
100 at any other step length, and every stage reports the active-set-change step size
`aMin`. -/
def exExtLS (α : Type) [LinearOrderedField α] (aMin : α) : collaborators_t α :=
  { exExt α with
    directQpSolver_doStepTry := fun _ kk a =>
      (return_t.QPDUNES_OK, exStages1 α kk, if a = 1 then 0 else 100),
    directQpSolver_getMinStepsize := fun _ _ => aMin }

/-- Example options with the backtracking line search with active set change. -/
def exOptAS (α : Type) [LinearOrderedField α] : qpOptions_t α :=
  { exOpt α with lsType := lsType_t.QPDUNES_LS_BACKTRACKING_LS_WITH_AS_CHANGE }

/-- Example solver state for the line search: the stages of the first example, the given
options and the step direction `deltaLambda = (1)`. -/
def exQpLS (α : Type) [LinearOrderedField α] (opt : qpOptions_t α) : qpData_t α :=
  { exQpOpt α (exStages1 α) opt with deltaLambda := exVec (fun _ => 1) }

end DriverExampleData

/-! ## Example data for the regularization type GRADIENT_STEP -/

section GradientStepExampleData

/-- Example stage with both variables at their lower bounds: as `exStage`, with the lower
bounds at the point `(z0, z1)` and the lower bound multipliers (the even entries of `y`)
equal to 1. -/
def exStageActive (α : Type) [LinearOrderedField α] (z0 z1 : α) (changed : Bool) :
    interval_t α :=
  { exStage α z0 z1 0 changed with
    zLow := exVec (fun i => if i = 0 then z0 else z1),
    y := exVec (fun i => if i % 2 = 0 then 1 else 0) }

/-- Example stages for `N = 1` with every variable at an active lower bound: the points
`(3, 2)` and `(4, 0)`, with the dual gradient `3 + 2 + 1 - 4 = 2`. -/
def exStages4 (α : Type) [LinearOrderedField α] : Nat → interval_t α :=
  fun k => if k = 0 then exStageActive α 3 2 true else exStageActive α 4 0 true

/-- Example options with the regularization type GRADIENT_STEP. -/
def exOptGS (α : Type) [LinearOrderedField α] : qpOptions_t α :=
  { exOpt α with regType := regType_t.QPDUNES_REG_GRADIENT_STEP }

/-- Example solver state for the regularization type GRADIENT_STEP: the stages with every
variable at an active bound, the options `exOptGS` and zero in every entry of the stored
Hessian. -/
def exQpGS (α : Type) [LinearOrderedField α] : qpData_t α :=
  { exQp α (exStages4 α) with options := exOptGS α, hessian := fun _ => 0 }

end GradientStepExampleData


/-! ## Example data for a run of the solve -/

section RunExampleData

/-- Example options for a run: the example options with the given line search, iteration
limit, limit of line search iterations, reduction factor and log level. -/
def exOptRun (α : Type) [LinearOrderedField α] (ls : lsType_t) (maxIter : Int) (maxLS : Nat)
    (rf : α) (lg : logLevel_t) : qpOptions_t α :=
  { exOpt α with
    lsType := ls, maxIter := maxIter, maxNumLineSearchIterations := maxLS,
    lineSearchReductionFactor := rf, logLevel := lg }

/-- Example solver state for a run: the stages of the first example (dual gradient 2), the
given options, and the stored Newton Hessian `M[0,0] = 3/4` that the assembly computes for
these stages. -/
def exQpRun (α : Type) [LinearOrderedField α] (opt : qpOptions_t α) : qpData_t α :=
  { exQp α (exStages1 α) with options := opt, hessian := fun _ => 3 / 4 }

/-- Example collaborators with a failing stage solve: as the example collaborators, but
`directQpSolver_solveUnconstrained` reports QPDUNES_ERR_STAGE_QP_INFEASIBLE for stage 0
(and leaves the stage as it is). -/
def exExtInfeasible (α : Type) [LinearOrderedField α] : collaborators_t α :=
  { exExt α with
    directQpSolver_solveUnconstrained := fun qpData kk =>
      (if kk = 0 then return_t.QPDUNES_ERR_STAGE_QP_INFEASIBLE else return_t.QPDUNES_OK,
        qpData.intervals kk) }

/-- Example collaborators with a failing initial step: as the example collaborators, but
`directQpSolver_doStep` reports QPDUNES_ERR_STAGE_QP_INFEASIBLE for stage 0 (and leaves the
stage as it is). -/
def exExtStepFails (α : Type) [LinearOrderedField α] : collaborators_t α :=
  { exExt α with
    directQpSolver_doStep := fun qpData kk _ =>
      (if kk = 0 then return_t.QPDUNES_ERR_STAGE_QP_INFEASIBLE else return_t.QPDUNES_OK,
        qpData.intervals kk) }

/-- Example solver state for the grid search: the first example with the step length
`alpha = 7` at entry. -/
def exQpGrid (α : Type) [LinearOrderedField α] : qpData_t α :=
  { exQp α (exStages1 α) with alpha := 7 }

/-- Example stages for the bisection search (`N = 1`): the points `(0, 0)` and
`(1997/2000, 0)`, which give the dual gradient `0 + 0 + 1 - 1997/2000 = 3/2000`. -/
def exStagesBis (α : Type) [LinearOrderedField α] : Nat → interval_t α :=
  fun k => if k = 0 then exStage α 0 0 0 false else exStage α (1997 / 2000) 0 0 false

/-- Example state whose active set pointers are aliased: the first example with
`prevIeqStatus` pointing to the table of `ieqStatus` (address 0). -/
def exQpAliased (α : Type) [LinearOrderedField α] : qpData_t α :=
  { exQp α (exStages1 α) with
    log := { numIter := 0, itLog := fun _ => { exItLog α with prevIeqStatus := 0 },
             ieqTables := fun _ _ _ => 0 } }

/-- Example data for an update: a Hessian array is supplied, nothing else. -/
def exDataH (α : Type) [LinearOrderedField α] : dataArrays_t α :=
  { H_ := some (fun _ => 2), g_ := none, C_ := none, c_ := none, zLow_ := none,
    zUpp_ := none, D_ := none, dLow_ := none, dUpp_ := none }

/-- Example data for an update: only the bounds are supplied. -/
def exDataBounds (α : Type) [LinearOrderedField α] : dataArrays_t α :=
  { H_ := none, g_ := none, C_ := none, c_ := none, zLow_ := some (fun _ => -10),
    zUpp_ := some (fun _ => 10), D_ := none, dLow_ := none, dUpp_ := none }

/-- Example stage update: the stage is left as it is. -/
def exUpdateIntervalData (α : Type) [LinearOrderedField α] :
    qpData_t α → Nat → dataArrays_t α → interval_t α :=
  fun qpData kk _ => qpData.intervals kk

/-- Example `offsetArray`: a null pointer stays null, an array is read from the offset. -/
def exOffsetArray (α : Type) : Option (Nat → α) → Nat → Option (Nat → α) :=
  fun p n => p.map (fun a i => a (n + i))

end RunExampleData
/-! ## Example data for the horizon shift, the stage setup and the stage solves -/

section ShiftExamples

/-- Example pointer array: slot `k` holds the address `k + 10`, and the stage at every
address is the example stage with the point `(3, 2)`. -/
def exPointers (α : Type) [LinearOrderedField α] : stagePointers_t α :=
  { intervals := fun k => k + 10, mem := fun _ => exStage α 3 2 0 false }

/-- Example multipliers for the shift: `lambda[i] = i`. -/
def exQpShift (α : Type) [LinearOrderedField α] : qpData_t α :=
  { exQp α (exStages2 α) with lambda := exVec (fun i => (i : α)) }

end ShiftExamples

section StateExamples

/-- Example state vector: velocity `(1, 2, 3)`, attitude `(0, 0, 0, 1)`, angular velocity
`(1, 0, 0)`, position and wind velocity zero. -/
def exStateVector (α : Type) [LinearOrderedField α] : Nat → α :=
  fun i => if i = 3 then 1 else if i = 4 then 2 else if i = 5 then 3
    else if i = 9 then 1 else if i = 10 then 1 else 0

/-- Example dynamics model: no acceleration. -/
def exEvaluate (α : Type) [LinearOrderedField α] : (Nat → α) → Unit → Nat → α :=
  fun _ _ _ => 0

end StateExamples

section StageSolveExamples

/-- Example singular stage Hessian `H = diag(0, 1)`, positive semi-definite. -/
def exHSingular (α : Type) [LinearOrderedField α] : matrix_t α :=
  { sparsityType := sparsityType_t.QPDUNES_DIAGONAL, data := fun i => if i = 0 then 0 else 1 }

/-- Example matrix memory for a factor: tag undefined, entries zero. -/
def exMatEmpty (α : Type) [LinearOrderedField α] : matrix_t α :=
  { sparsityType := sparsityType_t.QPDUNES_MATRIX_UNDEFINED, data := fun _ => 0 }

end StageSolveExamples

section PivotExamples

/-- Example options with the regularization of singular directions in the factorization:
`regParam = 1e-6`, `newtonHessDiagRegTolerance = 1e-10`, `equalityTolerance = 1e-12`. -/
def exOptSing (α : Type) [LinearOrderedField α] : qpOptions_t α :=
  { exOpt α with regType := regType_t.QPDUNES_REG_SINGULAR_DIRECTIONS }

/-- Example stored Newton Hessian with the single entry `M[0,0] = -1` (`N = 1`, `nX = 1`). -/
def exHessianNeg (α : Type) [LinearOrderedField α] : xn2x_matrix_t α := fun _ => -1

end PivotExamples

section IdentityExamples

/-- Example stage with an identity Hessian: the example stage with `H` and `cholH` tagged
identity (no data, as `factorizePosDefMatrix` leaves it). -/
def exStageIdentity (α : Type) [LinearOrderedField α] (z0 z1 : α) (changed : Bool) :
    interval_t α :=
  { exStage α z0 z1 0 changed with
    H := { sparsityType := sparsityType_t.QPDUNES_IDENTITY, data := fun _ => 0 },
    cholH := { sparsityType := sparsityType_t.QPDUNES_IDENTITY, data := fun _ => 0 } }

/-- Example stages for `N = 1` with identity Hessians: the points `(3, 2)` and `(4, 0)`,
both stages changed, no bound active. The dual gradient is `3 + 2 + 1 - 4 = 2`. -/
def exStagesIdentity (α : Type) [LinearOrderedField α] : Nat → interval_t α :=
  fun k => if k = 0 then exStageIdentity α 3 2 true else exStageIdentity α 4 0 true

end IdentityExamples

section BisectionRangeExamples

/-- Example state for the range of the bisection search (`N = 1`): the stages with the dual
gradient `3/2000`, the step direction `deltaLambda = -1/2`, the gradient bisection search
selected and one line search refinement iteration allowed. -/
def exQpBisInf (α : Type) [LinearOrderedField α] : qpData_t α :=
  { exQp α (exStagesBis α) with
    options := { exOpt α with
      lsType := lsType_t.QPDUNES_LS_GRADIENT_BISECTION_LS,
      maxNumLineSearchRefinementIterations := 1 },
    deltaLambda := exVec (fun _ => -1 / 2) }

end BisectionRangeExamples

section SetupExamples

/-- Example helpers of the stage setup: the tags numbered dense 0, sparse 1, undefined 2,
all-zeros 3, diagonal 4, identity 5; row-major `accH` for `nZ = 2`; a detection that finds
every array diagonal; helpers that copy the array they are given. -/
def exHelpers (α : Type) [LinearOrderedField α] : setupHelpers_t α :=
  { sparsityRank := fun t =>
      match t with
      | sparsityType_t.QPDUNES_DENSE => 0
      | sparsityType_t.QPDUNES_SPARSE => 1
      | sparsityType_t.QPDUNES_MATRIX_UNDEFINED => 2
      | sparsityType_t.QPDUNES_ALLZEROS => 3
      | sparsityType_t.QPDUNES_DIAGONAL => 4
      | sparsityType_t.QPDUNES_IDENTITY => 5,
    accH := fun i j => i * 2 + j,
    qpDUNES_detectMatrixSparsity := fun _ _ _ => sparsityType_t.QPDUNES_DIAGONAL,
    qpDUNES_updateMatrixData := fun M d _ _ => { M with data := d },
    qpDUNES_setupVector := fun v d _ => { v with data := d },
    qpDUNES_setupZeroVector := fun v _ => { v with data := fun _ => 0 },
    qpDUNES_setupUniformVector := fun v x _ => { v with data := fun _ => x },
    qpDUNES_updateSimpleBoundVector := fun _ v _ _ _ => v,
    qpDUNES_setMatrixNull := fun _ =>
      { sparsityType := sparsityType_t.QPDUNES_ALLZEROS, data := fun _ => 0 },
    qpDUNES_updateVector := fun v _ _ => v }

/-- Example setup arrays: nothing supplied. -/
def exArraysNone (α : Type) [LinearOrderedField α] : setupArrays_t α :=
  { H_ := none, Q_ := none, R_ := none, S_ := none, g_ := none, C_ := none, A_ := none,
    B_ := none, c_ := none, zLow_ := none, zUpp_ := none, xLow_ := none, xUpp_ := none,
    uLow_ := none, uUpp_ := none, D_ := none, dLow_ := none, dUpp_ := none }

/-- Example setup arrays: the Hessian `H_ = diag(2, 4)` in the first line, the mixed term
`S_ = [1]` and the coupling matrix `C_ = [1 1]` supplied. -/
def exArraysHS (α : Type) [LinearOrderedField α] : setupArrays_t α :=
  { exArraysNone α with
    H_ := some (fun i => if i = 0 then 2 else 4), S_ := some (fun _ => 1),
    C_ := some (fun _ => 1) }

/-- Example setup arrays: the mixed term `S_ = [1]` and the coupling matrix `C_ = [1 1]`
supplied, no `H_`. -/
def exArraysS (α : Type) [LinearOrderedField α] : setupArrays_t α :=
  { exArraysNone α with S_ := some (fun _ => 1), C_ := some (fun _ => 1) }

/-- Example setup arrays: `Q_ = [2]`, `R_ = [4]` and `A_ = [1]`, `B_ = [1]` supplied. -/
def exArraysQR (α : Type) [LinearOrderedField α] : setupArrays_t α :=
  { exArraysNone α with
    Q_ := some (fun _ => 2), R_ := some (fun _ => 4), A_ := some (fun _ => 1),
    B_ := some (fun _ => 1) }

end SetupExamples

section StaleHessianExampleData

/-- Example stages after a step that meets the lower bound of the state in both stages: the
stages of the first example with the lower bound multiplier of the state equal to 1. -/
def exStagesAct (α : Type) [LinearOrderedField α] : Nat → interval_t α :=
  fun k => if k = 0 then exStage α 3 2 1 true else exStage α 4 0 1 true

/-- Example collaborators with a step that changes the active set: as the example
collaborators, but `directQpSolver_doStep` leaves the stage as it is while `lambda[0]` is 0
and puts the stage of `exStagesAct` once `lambda[0]` is not 0. -/
def exExtAct (α : Type) [LinearOrderedField α] : collaborators_t α :=
  { exExt α with
    directQpSolver_doStep := fun qpData kk _ =>
      (return_t.QPDUNES_OK,
        if qpData.lambda.data 0 = 0 then qpData.intervals kk else exStagesAct α kk) }

/-- Example options for the run with iteration logging: two passes, Newton steps only. -/
def exOptAct (α : Type) [LinearOrderedField α] : qpOptions_t α :=
  exOptRun α lsType_t.QPDUNES_LS_BACKTRACKING_LS 2 19 (1 / 10) logLevel_t.QPDUNES_LOG_ITERATIONS

end StaleHessianExampleData
/-! ## Loop lemmas -/

section LoopLemmas

variable {α : Type} [LinearOrderedField α]

theorem forUp_sub_eq (f : Nat → α) (lo n : Nat) (init : α) :
    forUp (fun ll sum => sum - f ll) lo n init = init - ∑ i in Finset.range n, f (lo + i) := by
  induction n with
  | zero => simp [forUp]
  | succ n ih => simp [forUp, ih, Finset.sum_range_succ, sub_sub]

theorem forUp_update_frame {K β : Type} [DecidableEq K] (key : Nat → K)
    (val : Nat → (K → β) → β) (lo n : Nat) (c : K → β) (k : K)
    (hk : ∀ i, lo ≤ i → i < lo + n → k ≠ key i) :
    forUp (fun i c => Function.update c (key i) (val i c)) lo n c k = c k := by
  induction n with
  | zero => simp [forUp]
  | succ n ih =>
    have h1 : k ≠ key (lo + n) := hk (lo + n) (Nat.le_add_right _ _) (by omega)
    simp only [forUp]
    rw [Function.update_noteq h1]
    exact ih (fun i h2 h3 => hk i h2 (by omega))

theorem forUp_update_val {K β : Type} [DecidableEq K] (key : Nat → K)
    (val : Nat → (K → β) → β) (lo n : Nat) (c : K → β)
    (hinj : ∀ i j, lo ≤ i → i < j → j < lo + n → key i ≠ key j)
    (hval : ∀ i c1, lo ≤ i → i < lo + n →
      (∀ k, (∀ j, lo ≤ j → j < lo + n → k ≠ key j) → c1 k = c k) → val i c1 = val i c)
    (i : Nat) (h1 : lo ≤ i) (h2 : i < lo + n) :
    forUp (fun i c => Function.update c (key i) (val i c)) lo n c (key i) = val i c := by
  induction n with
  | zero => omega
  | succ n ih =>
    simp only [forUp]
    by_cases h3 : i = lo + n
    · subst h3
      rw [Function.update_same]
      apply hval _ _ h1 h2
      intro k hk
      exact forUp_update_frame key val lo n c k (fun j h4 h5 => hk j h4 (by omega))
    · have h4 : i < lo + n := by omega
      rw [Function.update_noteq (hinj i (lo + n) h1 h4 (by omega))]
      apply ih (fun a b h5 h6 h7 => hinj a b h5 h6 (by omega)) _ h4
      intro a c1 h5 h6 h7
      exact hval a c1 h5 (by omega) (fun k hk => h7 k (fun j h8 h9 => hk j h8 (by omega)))

theorem forDown_update_frame {K β : Type} [DecidableEq K] (key : Nat → K)
    (val : Nat → (K → β) → β) (lo n : Nat) (c : K → β) (k : K)
    (hk : ∀ i, lo ≤ i → i < lo + n → k ≠ key i) :
    forDown (fun i c => Function.update c (key i) (val i c)) lo n c k = c k := by
  induction n generalizing c with
  | zero => simp [forDown]
  | succ n ih =>
    have h1 : k ≠ key (lo + n) := hk (lo + n) (Nat.le_add_right _ _) (by omega)
    simp only [forDown]
    rw [ih _ (fun i h2 h3 => hk i h2 (by omega)), Function.update_noteq h1]

theorem forDown_update_val {K β : Type} [DecidableEq K] (key : Nat → K)
    (val : Nat → (K → β) → β) (lo n : Nat) (c : K → β)
    (hinj : ∀ i j, lo ≤ i → i < j → j < lo + n → key i ≠ key j)
    (hval : ∀ i c1, lo ≤ i → i < lo + n →
      (∀ k, (∀ j, lo ≤ j → j < lo + n → k ≠ key j) → c1 k = c k) → val i c1 = val i c)
    (i : Nat) (h1 : lo ≤ i) (h2 : i < lo + n) :
    forDown (fun i c => Function.update c (key i) (val i c)) lo n c (key i) = val i c := by
  induction n generalizing c with
  | zero => omega
  | succ n ih =>
    simp only [forDown]
    have hfr : ∀ k, (∀ j, lo ≤ j → j < lo + (n + 1) → k ≠ key j) →
        Function.update c (key (lo + n)) (val (lo + n) c) k = c k := by
      intro k hk
      exact Function.update_noteq (hk (lo + n) (Nat.le_add_right _ _) (by omega)) _ _
    by_cases h3 : i = lo + n
    · subst h3
      rw [forDown_update_frame key val lo n _ _
        (fun j h4 h5 => (hinj j (lo + n) h4 h5 (by omega)).symm), Function.update_same]
    · have h4 : i < lo + n := by omega
      rw [ih _ (fun a b h5 h6 h7 => hinj a b h5 h6 (by omega)) _ h4]
      · exact hval i _ h1 h2 hfr
      · intro a c1 h5 h6 h7
        rw [hval a c1 h5 (by omega), hval a _ h5 (by omega) hfr]
        intro k hk
        rw [h7 k (fun j h8 h9 => hk j h8 (by omega))]
        exact hfr k hk

theorem forUpM_error {σ ε : Type} (body : Nat → σ → Except ε σ) (P : ε → Prop)
    (hbody : ∀ i s e, body i s = Except.error e → P e) (lo n : Nat) (s : σ) (e : ε)
    (hrun : forUpM body lo n s = Except.error e) : P e := by
  induction n with
  | zero => simp [forUpM] at hrun
  | succ n ih =>
    simp only [forUpM] at hrun
    cases hmid : forUpM body lo n s with
    | error e1 =>
      rw [hmid] at hrun
      simp only [Except.error.injEq] at hrun
      subst hrun
      exact ih hmid
    | ok s1 =>
      rw [hmid] at hrun
      exact hbody _ _ _ hrun

theorem forDownM_error {σ ε : Type} (body : Nat → σ → Except ε σ) (P : ε → Prop)
    (hbody : ∀ i s e, body i s = Except.error e → P e) (lo n : Nat) (s : σ) (e : ε)
    (hrun : forDownM body lo n s = Except.error e) : P e := by
  induction n generalizing s with
  | zero => simp [forDownM] at hrun
  | succ n ih =>
    simp only [forDownM] at hrun
    cases hmid : body (lo + n) s with
    | error e1 =>
      rw [hmid] at hrun
      simp only [Except.error.injEq] at hrun
      rw [← hrun]; exact hbody _ _ _ hmid
    | ok s1 =>
      rw [hmid] at hrun
      exact ih s1 hrun

theorem forUp_congr {σ : Type} (body body1 : Nat → σ → σ) (lo n : Nat) (s : σ)
    (h : ∀ i s, lo ≤ i → i < lo + n → body i s = body1 i s) :
    forUp body lo n s = forUp body1 lo n s := by
  induction n with
  | zero => rfl
  | succ n ih =>
    simp only [forUp]
    rw [ih (fun i s h1 h2 => h i s h1 (by omega)), h _ _ (Nat.le_add_right _ _) (by omega)]

theorem forDown_congr {σ : Type} (body body1 : Nat → σ → σ) (lo n : Nat) (s : σ)
    (h : ∀ i s, lo ≤ i → i < lo + n → body i s = body1 i s) :
    forDown body lo n s = forDown body1 lo n s := by
  induction n generalizing s with
  | zero => rfl
  | succ n ih =>
    simp only [forDown]
    rw [h _ _ (Nat.le_add_right _ _) (by omega), ih _ (fun i s h1 h2 => h i s h1 (by omega))]

theorem sum_range_ite_le (g : Nat → α) (j nX : Nat) (hj : j < nX) :
    ∑ l in Finset.range nX, (if l ≤ j then g l else 0) = ∑ l in Finset.range (j + 1), g l := by
  rw [← Finset.sum_filter]
  apply Finset.sum_congr _ (fun _ _ => rfl)
  ext l
  simp only [Finset.mem_filter, Finset.mem_range]
  omega

theorem sum_range_pick (N k : Nat) (hk : k < N) (A B : Nat → α) :
    ∑ x in Finset.range N, (if x = k then A x else if x + 1 = k then B x else 0)
      = A k + (if k > 0 then B (k - 1) else 0) := by
  have e : ∀ x, (if x = k then A x else if x + 1 = k then B x else 0)
      = (if x = k then A x else 0) + (if x + 1 = k then B x else 0) := by
    intro x
    split_ifs <;> first | omega | simp
  simp only [e, Finset.sum_add_distrib]
  congr 1
  · rw [Finset.sum_ite_eq' (Finset.range N) k A, if_pos (Finset.mem_range.mpr hk)]
  · by_cases h0 : k > 0
    · rw [if_pos h0, Finset.sum_eq_single (k - 1)]
      · rw [if_pos (by omega)]
      · intro b _ hb
        rw [if_neg (by omega)]
      · intro hb
        exact absurd (Finset.mem_range.mpr (by omega)) hb
    · rw [if_neg h0]
      apply Finset.sum_eq_zero
      intro x _
      rw [if_neg (by omega)]

theorem sum_range_pick_up (N k : Nat) (hk : k < N) (A B : Nat → α) :
    ∑ x in Finset.range N, (if k = x then A x else if k + 1 = x then B x else 0)
      = A k + (if k + 1 < N then B (k + 1) else 0) := by
  have e : ∀ x, (if k = x then A x else if k + 1 = x then B x else 0)
      = (if k = x then A x else 0) + (if k + 1 = x then B x else 0) := by
    intro x
    split_ifs <;> first | omega | simp
  simp only [e, Finset.sum_add_distrib]
  congr 1
  · rw [Finset.sum_ite_eq (Finset.range N) k A, if_pos (Finset.mem_range.mpr hk)]
  · rw [Finset.sum_ite_eq (Finset.range N) (k + 1) B]
    simp only [Finset.mem_range]

theorem sum_range_ite_ge (f : Nat → α) (i nX : Nat) (hi : i < nX) :
    ∑ j in Finset.range nX, (if i ≤ j then f j else 0)
      = f i + ∑ t in Finset.range (nX - (i + 1)), f (i + 1 + t) := by
  have e : nX = (i + 1) + (nX - (i + 1)) := by omega
  conv_lhs => rw [e]
  rw [Finset.sum_range_add, Finset.sum_range_succ]
  have z : ∑ x in Finset.range i, (if i ≤ x then f x else 0) = 0 := by
    apply Finset.sum_eq_zero
    intro x hx
    rw [if_neg (by have := Finset.mem_range.mp hx; omega)]
  rw [z, zero_add, if_pos (le_refl _)]
  congr 1
  apply Finset.sum_congr rfl
  intro t _
  rw [if_pos (by omega)]

theorem forUpM_mono {σ ε : Type} (body : Nat → σ → Except ε σ) (good : σ → Prop)
    (hmono : ∀ i s s1, body i s = Except.ok s1 → good s1 → good s)
    (lo n : Nat) (s s1 : σ) (hrun : forUpM body lo n s = Except.ok s1) (hg : good s1) :
    good s := by
  induction n generalizing s1 with
  | zero =>
    simp only [forUpM, Except.ok.injEq] at hrun
    rw [hrun]; exact hg
  | succ n ih =>
    simp only [forUpM] at hrun
    cases hmid : forUpM body lo n s with
    | error e => rw [hmid] at hrun; cases hrun
    | ok s2 =>
      rw [hmid] at hrun
      exact ih s2 hmid (hmono _ _ _ hrun hg)

theorem forUpM_transfer {σ ε : Type} (body body1 : Nat → σ → Except ε σ) (good : σ → Prop)
    (hmono : ∀ i s s1, body i s = Except.ok s1 → good s1 → good s)
    (htr : ∀ i s s1, body i s = Except.ok s1 → good s1 → body1 i s = Except.ok s1)
    (lo n : Nat) (s s1 : σ) (hrun : forUpM body lo n s = Except.ok s1) (hg : good s1) :
    forUpM body1 lo n s = Except.ok s1 := by
  induction n generalizing s1 with
  | zero => exact hrun
  | succ n ih =>
    simp only [forUpM] at hrun ⊢
    cases hmid : forUpM body lo n s with
    | error e => rw [hmid] at hrun; cases hrun
    | ok s2 =>
      rw [hmid] at hrun
      rw [ih s2 hmid (hmono _ _ _ hrun hg)]
      exact htr _ _ _ hrun hg

theorem forDownM_mono {σ ε : Type} (body : Nat → σ → Except ε σ) (good : σ → Prop)
    (hmono : ∀ i s s1, body i s = Except.ok s1 → good s1 → good s)
    (lo n : Nat) (s s1 : σ) (hrun : forDownM body lo n s = Except.ok s1) (hg : good s1) :
    good s := by
  induction n generalizing s with
  | zero =>
    simp only [forDownM, Except.ok.injEq] at hrun
    rw [hrun]; exact hg
  | succ n ih =>
    simp only [forDownM] at hrun
    cases hmid : body (lo + n) s with
    | error e => rw [hmid] at hrun; cases hrun
    | ok s2 =>
      rw [hmid] at hrun
      exact hmono _ _ _ hmid (ih s2 hrun)

theorem forDownM_transfer {σ ε : Type} (body body1 : Nat → σ → Except ε σ) (good : σ → Prop)
    (hmono : ∀ i s s1, body i s = Except.ok s1 → good s1 → good s)
    (htr : ∀ i s s1, body i s = Except.ok s1 → good s1 → body1 i s = Except.ok s1)
    (lo n : Nat) (s s1 : σ) (hrun : forDownM body lo n s = Except.ok s1) (hg : good s1) :
    forDownM body1 lo n s = Except.ok s1 := by
  induction n generalizing s with
  | zero => exact hrun
  | succ n ih =>
    simp only [forDownM] at hrun ⊢
    cases hmid : body (lo + n) s with
    | error e => rw [hmid] at hrun; cases hrun
    | ok s2 =>
      rw [hmid] at hrun
      rw [htr _ _ _ hmid (forDownM_mono body good hmono lo n s2 s1 hrun hg)]
      exact ih s2 hrun

theorem forDownM_split {σ ε : Type} (body : Nat → σ → Except ε σ) (lo n m : Nat) (s : σ) :
    forDownM body lo (n + m) s =
      match forDownM body (lo + n) m s with
      | Except.ok s1 => forDownM body lo n s1
      | Except.error e => Except.error e := by
  induction m generalizing s with
  | zero => simp [forDownM]
  | succ m ih =>
    have e : n + (m + 1) = (n + m) + 1 := by omega
    rw [e]
    simp only [forDownM]
    have e2 : lo + (n + m) = lo + n + m := by omega
    rw [e2]
    cases body (lo + n + m) s with
    | error e1 => rfl
    | ok s1 => exact ih s1

theorem forDownM_invariant {σ ε : Type} (body : Nat → σ → Except ε σ) (P : σ → Prop)
    (Q : ε → Prop) (lo n : Nat)
    (hok : ∀ i s s1, lo ≤ i → i < lo + n → P s → body i s = Except.ok s1 → P s1)
    (herr : ∀ i s e, lo ≤ i → i < lo + n → P s → body i s = Except.error e → Q e)
    (s : σ) (hP : P s) :
    (∀ s1, forDownM body lo n s = Except.ok s1 → P s1) ∧
    (∀ e, forDownM body lo n s = Except.error e → Q e) := by
  induction n generalizing s with
  | zero =>
    constructor
    · intro s1 h
      simp only [forDownM, Except.ok.injEq] at h
      rw [← h]; exact hP
    · intro e h
      simp [forDownM] at h
  | succ n ih =>
    simp only [forDownM]
    cases hmid : body (lo + n) s with
    | error e1 =>
      constructor
      · intro s1 h; cases h
      · intro e h
        simp only [Except.error.injEq] at h
        rw [← h]
        exact herr _ _ _ (Nat.le_add_right _ _) (by omega) hP hmid
    | ok s2 =>
      exact ih (fun i a b h1 h2 => hok i a b h1 (by omega))
        (fun i a b h1 h2 => herr i a b h1 (by omega)) s2
        (hok _ _ _ (Nat.le_add_right _ _) (by omega) hP hmid)

end LoopLemmas


/-! ## Forward factorization -/

section ForwardLemmas

variable {α : Type} [LinearOrderedField α]

theorem factorizeNewtonHessian_pivot_eq (nX : Nat) (h c : xn2x_matrix_t α) (kk jj : Nat) :
    factorizeNewtonHessian_pivot nX h c kk jj = fwdSum nX h c kk jj jj := by
  unfold factorizeNewtonHessian_pivot fwdSum
  simp only [accHessian, accCholHessian, forUp_sub_eq, Nat.zero_add]
  split_ifs <;> simp

theorem fwdSum_congr (nX : Nat) (h c c1 : xn2x_matrix_t α) (kk ii jj : Nat)
    (h1 : ∀ l, l < jj → c1 (kk, 0, ii, l) = c (kk, 0, ii, l))
    (h2 : ∀ l, l < jj → c1 (kk, 0, jj, l) = c (kk, 0, jj, l))
    (h3 : ∀ i l, c1 (kk, -1, i, l) = c (kk, -1, i, l)) :
    fwdSum nX h c1 kk ii jj = fwdSum nX h c kk ii jj := by
  unfold fwdSum
  have e1 : ∑ l in Finset.range jj, c1 (kk, 0, ii, l) * c1 (kk, 0, jj, l)
      = ∑ l in Finset.range jj, c (kk, 0, ii, l) * c (kk, 0, jj, l) :=
    Finset.sum_congr rfl (fun l hl => by
      rw [h1 l (Finset.mem_range.mp hl), h2 l (Finset.mem_range.mp hl)])
  have e2 : ∑ l in Finset.range nX, c1 (kk, -1, ii, l) * c1 (kk, -1, jj, l)
      = ∑ l in Finset.range nX, c (kk, -1, ii, l) * c (kk, -1, jj, l) :=
    Finset.sum_congr rfl (fun l _ => by rw [h3, h3])
  rw [e1, e2]

theorem fwdSubSum_congr (h c c1 : xn2x_matrix_t α) (kk ii jj : Nat)
    (h1 : ∀ l, l < jj → c1 (kk + 1, -1, ii, l) = c (kk + 1, -1, ii, l))
    (h2 : ∀ l, l < jj → c1 (kk, 0, jj, l) = c (kk, 0, jj, l)) :
    fwdSubSum h c1 kk ii jj = fwdSubSum h c kk ii jj := by
  unfold fwdSubSum
  have e1 : ∑ l in Finset.range jj, c1 (kk + 1, -1, ii, l) * c1 (kk, 0, jj, l)
      = ∑ l in Finset.range jj, c (kk + 1, -1, ii, l) * c (kk, 0, jj, l) :=
    Finset.sum_congr rfl (fun l hl => by
      rw [h1 l (Finset.mem_range.mp hl), h2 l (Finset.mem_range.mp hl)])
  rw [e1]


theorem factorizeNewtonHessian_writeColumn_eq (sqrt_f : α → α) (N nX : Nat)
    (h : xn2x_matrix_t α) (kk jj : Nat) (s : α) (c : xn2x_matrix_t α) :
    factorizeNewtonHessian_writeColumn sqrt_f N nX h kk jj s c =
      if kk + 1 < N then
        forUp (fun ii c => Function.update c (kk + 1, -1, ii, jj)
          (fwdSubSum h c kk ii jj / c (kk, 0, jj, jj))) 0 nX
          (forUp (fun ii c => Function.update c (kk, 0, ii, jj)
            (fwdSum nX h c kk ii jj / c (kk, 0, jj, jj))) (jj + 1) (nX - (jj + 1))
            (Function.update c (kk, 0, jj, jj) (sqrt_f s)))
      else
        forUp (fun ii c => Function.update c (kk, 0, ii, jj)
            (fwdSum nX h c kk ii jj / c (kk, 0, jj, jj))) (jj + 1) (nX - (jj + 1))
            (Function.update c (kk, 0, jj, jj) (sqrt_f s)) := by
  have hb1 : (fun (ii : Nat) (c : xn2x_matrix_t α) =>
      setAcc c kk 0 ii jj (divide_f
        (if kk > 0 then
          forUp (fun ll sum =>
            sum - accCholHessian c kk (-1) ii ll * accCholHessian c kk (-1) jj ll) 0 nX
            (forUp (fun ll sum =>
              sum - accCholHessian c kk 0 ii ll * accCholHessian c kk 0 jj ll) 0 jj
              (accHessian h kk 0 ii jj))
        else
          forUp (fun ll sum =>
              sum - accCholHessian c kk 0 ii ll * accCholHessian c kk 0 jj ll) 0 jj
              (accHessian h kk 0 ii jj))
        (accCholHessian c kk 0 jj jj)))
      = fun ii c => Function.update c (kk, 0, ii, jj)
          (fwdSum nX h c kk ii jj / c (kk, 0, jj, jj)) := by
    funext ii c
    simp only [setAcc, accHessian, accCholHessian, forUp_sub_eq, Nat.zero_add, divide_f, fwdSum]
    split_ifs <;> simp
  have hb2 : (fun (ii : Nat) (c : xn2x_matrix_t α) =>
      setAcc c (kk + 1) (-1) ii jj (divide_f
        (forUp (fun ll sum =>
          sum - accCholHessian c (kk + 1) (-1) ii ll * accCholHessian c kk 0 jj ll) 0 jj
          (accHessian h (kk + 1) (-1) ii jj))
        (accCholHessian c kk 0 jj jj)))
      = fun ii c => Function.update c (kk + 1, -1, ii, jj)
          (fwdSubSum h c kk ii jj / c (kk, 0, jj, jj)) := by
    funext ii c
    simp only [setAcc, accHessian, accCholHessian, forUp_sub_eq, Nat.zero_add, divide_f,
      fwdSubSum]
  unfold factorizeNewtonHessian_writeColumn
  simp only [hb1, hb2, setAcc]


/-- State after the diagonal entry and the rest of the diagonal block column are written. -/
theorem fwd_loop1_frame (sqrt_f : α → α) (nX : Nat) (h : xn2x_matrix_t α) (kk jj : Nat)
    (s : α) (c : xn2x_matrix_t α) (key : Nat × Int × Nat × Nat)
    (h1 : ∀ ii, jj ≤ ii → key ≠ (kk, 0, ii, jj)) :
    forUp (fun ii c => Function.update c (kk, 0, ii, jj)
      (fwdSum nX h c kk ii jj / c (kk, 0, jj, jj))) (jj + 1) (nX - (jj + 1))
      (Function.update c (kk, 0, jj, jj) (sqrt_f s)) key = c key := by
  rw [forUp_update_frame (fun ii => ((kk, 0, ii, jj) : Nat × Int × Nat × Nat))
    (fun ii c => fwdSum nX h c kk ii jj / c (kk, 0, jj, jj)) (jj + 1) (nX - (jj + 1)) _ key
    (fun i h2 _ => h1 i (by omega))]
  exact Function.update_noteq (h1 jj (le_refl _)) _ _

theorem fwd_loop1_diag (sqrt_f : α → α) (nX : Nat) (h : xn2x_matrix_t α) (kk jj : Nat)
    (s : α) (c : xn2x_matrix_t α) :
    forUp (fun ii c => Function.update c (kk, 0, ii, jj)
      (fwdSum nX h c kk ii jj / c (kk, 0, jj, jj))) (jj + 1) (nX - (jj + 1))
      (Function.update c (kk, 0, jj, jj) (sqrt_f s)) (kk, 0, jj, jj) = sqrt_f s := by
  rw [forUp_update_frame (fun ii => ((kk, 0, ii, jj) : Nat × Int × Nat × Nat))
    (fun ii c => fwdSum nX h c kk ii jj / c (kk, 0, jj, jj)) (jj + 1) (nX - (jj + 1)) _ _
    (fun i h2 _ => by simp; omega)]
  exact Function.update_same _ _ _

theorem fwd_loop1_val (sqrt_f : α → α) (nX : Nat) (h : xn2x_matrix_t α) (kk jj : Nat)
    (s : α) (c : xn2x_matrix_t α) (ii : Nat) (h1 : jj < ii) (h2 : ii < nX) :
    forUp (fun ii c => Function.update c (kk, 0, ii, jj)
      (fwdSum nX h c kk ii jj / c (kk, 0, jj, jj))) (jj + 1) (nX - (jj + 1))
      (Function.update c (kk, 0, jj, jj) (sqrt_f s)) (kk, 0, ii, jj)
      = fwdSum nX h c kk ii jj / sqrt_f s := by
  rw [forUp_update_val (fun ii => ((kk, 0, ii, jj) : Nat × Int × Nat × Nat))
    (fun ii c => fwdSum nX h c kk ii jj / c (kk, 0, jj, jj)) (jj + 1) (nX - (jj + 1)) _
    (fun a b _ h4 _ => by simp; omega) _ ii (by omega) (by omega)]
  · rw [Function.update_same]
    congr 1
    apply fwdSum_congr
    · intro l hl
      exact Function.update_noteq (by simp; omega) _ _
    · intro l hl
      exact Function.update_noteq (by simp; omega) _ _
    · intro i l
      exact Function.update_noteq (by simp) _ _
  · intro i c1 h3 h4 h5
    have e1 : c1 (kk, 0, jj, jj) = Function.update c (kk, 0, jj, jj) (sqrt_f s) (kk, 0, jj, jj) :=
      h5 _ (fun j h6 _ => by simp; omega)
    beta_reduce
    rw [e1]
    congr 1
    apply fwdSum_congr
    · intro l hl
      exact h5 _ (fun j _ _ => by simp; omega)
    · intro l hl
      exact h5 _ (fun j _ _ => by simp; omega)
    · intro a l
      exact h5 _ (fun j _ _ => by simp)

theorem factorizeNewtonHessian_writeColumn_frame (sqrt_f : α → α) (N nX : Nat)
    (h : xn2x_matrix_t α) (kk jj : Nat) (s : α) (c : xn2x_matrix_t α)
    (key : Nat × Int × Nat × Nat)
    (h1 : ∀ ii, jj ≤ ii → key ≠ (kk, 0, ii, jj)) (h2 : ∀ ii, key ≠ (kk + 1, -1, ii, jj)) :
    factorizeNewtonHessian_writeColumn sqrt_f N nX h kk jj s c key = c key := by
  rw [factorizeNewtonHessian_writeColumn_eq]
  split_ifs
  · rw [forUp_update_frame (fun ii => ((kk + 1, -1, ii, jj) : Nat × Int × Nat × Nat))
      (fun ii c => fwdSubSum h c kk ii jj / c (kk, 0, jj, jj)) 0 nX _ key (fun i _ _ => h2 i)]
    exact fwd_loop1_frame sqrt_f nX h kk jj s c key h1
  · exact fwd_loop1_frame sqrt_f nX h kk jj s c key h1

theorem factorizeNewtonHessian_writeColumn_diag (sqrt_f : α → α) (N nX : Nat)
    (h : xn2x_matrix_t α) (kk jj : Nat) (s : α) (c : xn2x_matrix_t α) :
    factorizeNewtonHessian_writeColumn sqrt_f N nX h kk jj s c (kk, 0, jj, jj) = sqrt_f s := by
  rw [factorizeNewtonHessian_writeColumn_eq]
  split_ifs
  · rw [forUp_update_frame (fun ii => ((kk + 1, -1, ii, jj) : Nat × Int × Nat × Nat))
      (fun ii c => fwdSubSum h c kk ii jj / c (kk, 0, jj, jj)) 0 nX _ _
      (fun i _ _ => by simp)]
    exact fwd_loop1_diag sqrt_f nX h kk jj s c
  · exact fwd_loop1_diag sqrt_f nX h kk jj s c

theorem factorizeNewtonHessian_writeColumn_below (sqrt_f : α → α) (N nX : Nat)
    (h : xn2x_matrix_t α) (kk jj : Nat) (s : α) (c : xn2x_matrix_t α)
    (ii : Nat) (h1 : jj < ii) (h2 : ii < nX) :
    factorizeNewtonHessian_writeColumn sqrt_f N nX h kk jj s c (kk, 0, ii, jj)
      = fwdSum nX h c kk ii jj / sqrt_f s := by
  rw [factorizeNewtonHessian_writeColumn_eq]
  split_ifs
  · rw [forUp_update_frame (fun ii => ((kk + 1, -1, ii, jj) : Nat × Int × Nat × Nat))
      (fun ii c => fwdSubSum h c kk ii jj / c (kk, 0, jj, jj)) 0 nX _ _
      (fun i _ _ => by simp)]
    exact fwd_loop1_val sqrt_f nX h kk jj s c ii h1 h2
  · exact fwd_loop1_val sqrt_f nX h kk jj s c ii h1 h2

theorem factorizeNewtonHessian_writeColumn_sub (sqrt_f : α → α) (N nX : Nat)
    (h : xn2x_matrix_t α) (kk jj : Nat) (s : α) (c : xn2x_matrix_t α)
    (ii : Nat) (h1 : kk + 1 < N) (h2 : ii < nX) :
    factorizeNewtonHessian_writeColumn sqrt_f N nX h kk jj s c (kk + 1, -1, ii, jj)
      = fwdSubSum h c kk ii jj / sqrt_f s := by
  rw [factorizeNewtonHessian_writeColumn_eq, if_pos h1]
  rw [forUp_update_val (fun ii => ((kk + 1, -1, ii, jj) : Nat × Int × Nat × Nat))
    (fun ii c => fwdSubSum h c kk ii jj / c (kk, 0, jj, jj)) 0 nX _
    (fun a b _ h4 _ => by simp; omega) _ ii (by omega) (by omega)]
  · rw [fwd_loop1_diag]
    congr 1
    apply fwdSubSum_congr
    · intro l hl
      exact fwd_loop1_frame sqrt_f nX h kk jj s c _ (fun i _ => by simp)
    · intro l hl
      exact fwd_loop1_frame sqrt_f nX h kk jj s c _ (fun i _ => by simp; omega)
  · intro i c1 h3 h4 h5
    beta_reduce
    rw [h5 (kk, 0, jj, jj) (fun j _ _ => by simp)]
    congr 1
    apply fwdSubSum_congr
    · intro l hl
      exact h5 _ (fun j _ _ => by simp; omega)
    · intro l hl
      exact h5 _ (fun j _ _ => by simp)


theorem FwdColOK_congr (sqrt_f : α → α) (opt : qpOptions_t α) (N nX : Nat)
    (h c c1 : xn2x_matrix_t α) (kk jj : Nat) (hag : FwdAgree c c1 kk jj)
    (hc : FwdColOK sqrt_f opt N nX h c kk jj) : FwdColOK sqrt_f opt N nX h c1 kk jj := by
  have hs : ∀ ii, fwdSum nX h c1 kk ii jj = fwdSum nX h c kk ii jj := fun ii =>
    fwdSum_congr nX h c c1 kk ii jj (fun l hl => (hag ii l).1 (by omega))
      (fun l hl => (hag jj l).1 (by omega)) (fun i l => (hag i l).2.1)
  have hb : ∀ ii, fwdSubSum h c1 kk ii jj = fwdSubSum h c kk ii jj := fun ii =>
    fwdSubSum_congr h c c1 kk ii jj (fun l hl => (hag ii l).2.2 (by omega))
      (fun l hl => (hag jj l).1 (by omega))
  have hd : ∀ ii, c1 (kk, 0, ii, jj) = c (kk, 0, ii, jj) := fun ii => (hag ii jj).1 (le_refl _)
  obtain ⟨h1, h2, h3, h4⟩ := hc
  refine ⟨?_, ?_, ?_, ?_⟩
  · rw [hs]; exact h1
  · rw [hs, hd]; exact h2
  · intro ii h5 h6
    rw [hs, hd, hd]; exact h3 ii h5 h6
  · intro h5 ii h6
    rw [hb, hd, (hag ii jj).2.2 (le_refl _)]; exact h4 h5 ii h6

theorem factorizeNewtonHessian_column_ok (sqrt_f : α → α) (opt : qpOptions_t α) (N nX : Nat)
    (h : xn2x_matrix_t α) (kk jj : Nat) (st st1 : cholState_t α)
    (hstep : factorizeNewtonHessian_column sqrt_f opt N nX h kk jj st = Except.ok st1) :
    FwdColOK sqrt_f opt N nX h st1.cholHessian kk jj ∧
    (∀ key : Nat × Int × Nat × Nat, (∀ ii, jj ≤ ii → key ≠ (kk, 0, ii, jj)) →
      (∀ ii, key ≠ (kk + 1, -1, ii, jj)) → st1.cholHessian key = st.cholHessian key) := by
  have key : (opt.regType = regType_t.QPDUNES_REG_SINGULAR_DIRECTIONS ∨
        ¬ fwdSum nX h st.cholHessian kk jj jj < opt.newtonHessDiagRegTolerance) ∧
      st1.cholHessian = factorizeNewtonHessian_writeColumn sqrt_f N nX h kk jj
        (fwdReg opt (fwdSum nX h st.cholHessian kk jj jj)) st.cholHessian := by
    unfold factorizeNewtonHessian_column at hstep
    simp only [factorizeNewtonHessian_pivot_eq] at hstep
    unfold fwdReg
    split_ifs at hstep with h1 h2
    · rw [if_pos h1]
      simp only [Except.ok.injEq] at hstep
      exact ⟨Or.inl h1.1, by rw [← hstep]⟩
    · have h3 : ¬ (opt.regType = regType_t.QPDUNES_REG_SINGULAR_DIRECTIONS ∧
          fwdSum nX h st.cholHessian kk jj jj < opt.newtonHessDiagRegTolerance) := h1
      rw [if_neg h3]
      simp only [Except.ok.injEq] at hstep
      exact ⟨Or.inr h2, by rw [← hstep]⟩
  obtain ⟨hchk, hc⟩ := key
  have hfr : ∀ key : Nat × Int × Nat × Nat, (∀ ii, jj ≤ ii → key ≠ (kk, 0, ii, jj)) →
      (∀ ii, key ≠ (kk + 1, -1, ii, jj)) → st1.cholHessian key = st.cholHessian key := by
    intro key h1 h2
    rw [hc]
    exact factorizeNewtonHessian_writeColumn_frame sqrt_f N nX h kk jj _ _ key h1 h2
  have hs : ∀ ii, fwdSum nX h st1.cholHessian kk ii jj = fwdSum nX h st.cholHessian kk ii jj :=
    fun ii => fwdSum_congr nX h _ _ kk ii jj
      (fun l hl => hfr _ (fun i _ => by simp; omega) (fun i => by simp))
      (fun l hl => hfr _ (fun i _ => by simp; omega) (fun i => by simp))
      (fun i l => hfr _ (fun i _ => by simp) (fun i => by simp))
  have hb : ∀ ii, fwdSubSum h st1.cholHessian kk ii jj = fwdSubSum h st.cholHessian kk ii jj :=
    fun ii => fwdSubSum_congr h _ _ kk ii jj
      (fun l hl => hfr _ (fun i _ => by simp) (fun i => by simp; omega))
      (fun l hl => hfr _ (fun i _ => by simp; omega) (fun i => by simp))
  have hd : st1.cholHessian (kk, 0, jj, jj)
      = sqrt_f (fwdReg opt (fwdSum nX h st.cholHessian kk jj jj)) := by
    rw [hc]; exact factorizeNewtonHessian_writeColumn_diag sqrt_f N nX h kk jj _ _
  refine ⟨⟨?_, ?_, ?_, ?_⟩, hfr⟩
  · rw [hs]; exact hchk
  · rw [hs]; exact hd
  · intro ii h1 h2
    rw [hs, hd, hc]
    exact factorizeNewtonHessian_writeColumn_below sqrt_f N nX h kk jj _ _ ii h1 h2
  · intro h1 ii h2
    rw [hb, hd, hc]
    exact factorizeNewtonHessian_writeColumn_sub sqrt_f N nX h kk jj _ _ ii h1 h2

theorem factorizeNewtonHessian_column_error (sqrt_f : α → α) (opt : qpOptions_t α) (N nX : Nat)
    (h : xn2x_matrix_t α) (kk jj : Nat) (st : cholState_t α) (e : return_t × cholState_t α)
    (hstep : factorizeNewtonHessian_column sqrt_f opt N nX h kk jj st = Except.error e) :
    e.1 = return_t.QPDUNES_ERR_DIVISION_BY_ZERO := by
  unfold factorizeNewtonHessian_column at hstep
  dsimp only at hstep
  split_ifs at hstep
  simp only [Except.error.injEq] at hstep
  rw [← hstep]

theorem fwd_inner_loop (sqrt_f : α → α) (opt : qpOptions_t α) (N nX : Nat)
    (h : xn2x_matrix_t α) (kk : Nat) (n : Nat) (st st1 : cholState_t α)
    (hrun : forUpM (fun jj st => factorizeNewtonHessian_column sqrt_f opt N nX h kk jj st)
      0 n st = Except.ok st1)
    (hinv : FwdDone sqrt_f opt N nX h st.cholHessian kk 0) :
    FwdDone sqrt_f opt N nX h st1.cholHessian kk n := by
  induction n generalizing st1 with
  | zero =>
    simp only [forUpM, Except.ok.injEq] at hrun
    rw [← hrun]; exact hinv
  | succ n ih =>
    simp only [forUpM] at hrun
    cases hmid : forUpM (fun jj st => factorizeNewtonHessian_column sqrt_f opt N nX h kk jj st)
        0 n st with
    | error e => rw [hmid] at hrun; cases hrun
    | ok s1 =>
      rw [hmid] at hrun
      simp only [Nat.zero_add] at hrun
      have h1 := ih s1 hmid
      obtain ⟨h2, h3⟩ := factorizeNewtonHessian_column_ok sqrt_f opt N nX h kk n s1 st1 hrun
      intro k j hk hj hlt
      by_cases h4 : k = kk ∧ j = n
      · rw [h4.1, h4.2]; exact h2
      · have h5 : k < kk ∨ (k = kk ∧ j < n) := by omega
        apply FwdColOK_congr sqrt_f opt N nX h s1.cholHessian _ k j _ (h1 k j hk hj h5)
        intro i l
        refine ⟨fun h6 => ?_, ?_, fun h6 => ?_⟩
        · exact h3 _ (fun a _ => by simp; omega) (fun a => by simp)
        · exact h3 _ (fun a _ => by simp) (fun a => by simp; omega)
        · exact h3 _ (fun a _ => by simp) (fun a => by simp; omega)

theorem fwd_outer_loop (sqrt_f : α → α) (opt : qpOptions_t α) (N nX : Nat)
    (h : xn2x_matrix_t α) (m : Nat) (st st1 : cholState_t α)
    (hrun : forUpM (fun kk st =>
      forUpM (fun jj st => factorizeNewtonHessian_column sqrt_f opt N nX h kk jj st) 0 nX st)
      0 m st = Except.ok st1) :
    FwdDone sqrt_f opt N nX h st1.cholHessian m 0 := by
  induction m generalizing st1 with
  | zero => intro k j _ _ hlt; omega
  | succ m ih =>
    simp only [forUpM] at hrun
    cases hmid : forUpM (fun kk st =>
        forUpM (fun jj st => factorizeNewtonHessian_column sqrt_f opt N nX h kk jj st) 0 nX st)
        0 m st with
    | error e => rw [hmid] at hrun; cases hrun
    | ok s1 =>
      rw [hmid] at hrun
      simp only [Nat.zero_add] at hrun
      have h1 := fwd_inner_loop sqrt_f opt N nX h m nX s1 st1 hrun (ih s1 hmid)
      intro k j hk hj hlt
      exact h1 k j hk hj (by omega)

theorem factorizeNewtonHessian_ok_cols (sqrt_f : α → α) (opt : qpOptions_t α) (N nX : Nat)
    (c0 h : xn2x_matrix_t α) (flag : Bool)
    (hOK : (qpDUNES_factorizeNewtonHessian sqrt_f opt N nX c0 h flag).1
      = return_t.QPDUNES_OK) :
    ∀ k j, k < N → j < nX → FwdColOK sqrt_f opt N nX h
      (qpDUNES_factorizeNewtonHessian sqrt_f opt N nX c0 h flag).2.cholHessian k j := by
  unfold qpDUNES_factorizeNewtonHessian at hOK ⊢
  cases hrun : forUpM (fun kk st =>
      forUpM (fun jj st => factorizeNewtonHessian_column sqrt_f opt N nX h kk jj st) 0 nX st)
      0 N (⟨c0, flag⟩ : cholState_t α) with
  | error e =>
    rw [hrun] at hOK
    exfalso
    have h1 : e.1 = return_t.QPDUNES_ERR_DIVISION_BY_ZERO :=
      forUpM_error _ (fun e => e.1 = return_t.QPDUNES_ERR_DIVISION_BY_ZERO)
        (fun kk s e1 he1 => forUpM_error _ (fun e => e.1 = return_t.QPDUNES_ERR_DIVISION_BY_ZERO)
          (fun jj s2 e2 he2 => factorizeNewtonHessian_column_error sqrt_f opt N nX h kk jj s2 e2 he2)
          0 nX s e1 he1) 0 N _ e hrun
    simp only at hOK
    rw [h1] at hOK
    cases hOK
  | ok s1 =>
    intro k j hk hj
    exact fwd_outer_loop sqrt_f opt N nX h N _ s1 hrun k j hk hj (Or.inl hk)


theorem fwd_row_identity (sqrt_f : α → α) (hsqrt : ∀ x, 0 ≤ x → sqrt_f x * sqrt_f x = x)
    (opt : qpOptions_t α) (N nX : Nat) (h c : xn2x_matrix_t α) (k i j : Nat)
    (hreg : opt.regType ≠ regType_t.QPDUNES_REG_SINGULAR_DIRECTIONS)
    (htol : 0 < opt.newtonHessDiagRegTolerance)
    (hcol : FwdColOK sqrt_f opt N nX h c k j) (hji : j ≤ i) (hi : i < nX) :
    ∑ l in Finset.range (j + 1), c (k, 0, i, l) * c (k, 0, j, l)
      + (if k > 0 then ∑ l in Finset.range nX, c (k, -1, i, l) * c (k, -1, j, l) else 0)
      = h (k, 0, i, j) := by
  obtain ⟨h1, h2, h3, _⟩ := hcol
  have h4 : ¬ fwdSum nX h c k j j < opt.newtonHessDiagRegTolerance := by
    rcases h1 with h1 | h1
    · exact absurd h1 hreg
    · exact h1
  have h5 : fwdReg opt (fwdSum nX h c k j j) = fwdSum nX h c k j j := by
    unfold fwdReg
    rw [if_neg (fun hh => hreg hh.1)]
  rw [h5] at h2
  have h6 : 0 < fwdSum nX h c k j j := lt_of_lt_of_le htol (not_lt.mp h4)
  have h7 : c (k, 0, j, j) * c (k, 0, j, j) = fwdSum nX h c k j j := by
    rw [h2]; exact hsqrt _ (le_of_lt h6)
  have h8 : c (k, 0, j, j) ≠ 0 := by
    intro h9
    rw [h9, mul_zero] at h7
    rw [← h7] at h6
    exact lt_irrefl _ h6
  have h9 : c (k, 0, i, j) * c (k, 0, j, j) = fwdSum nX h c k i j := by
    rcases Nat.eq_or_lt_of_le hji with h10 | h10
    · subst h10; exact h7
    · rw [h3 i h10 hi, div_mul_cancel₀ _ h8]
  rw [Finset.sum_range_succ, h9]
  unfold fwdSum
  ring

theorem fwd_sub_identity (sqrt_f : α → α) (hsqrt : ∀ x, 0 ≤ x → sqrt_f x * sqrt_f x = x)
    (opt : qpOptions_t α) (N nX : Nat) (h c : xn2x_matrix_t α) (k i j : Nat)
    (hreg : opt.regType ≠ regType_t.QPDUNES_REG_SINGULAR_DIRECTIONS)
    (htol : 0 < opt.newtonHessDiagRegTolerance)
    (hcol : FwdColOK sqrt_f opt N nX h c k j) (hk : k + 1 < N) (hi : i < nX) :
    ∑ l in Finset.range (j + 1), c (k + 1, -1, i, l) * c (k, 0, j, l)
      = h (k + 1, -1, i, j) := by
  obtain ⟨h1, h2, _, h3⟩ := hcol
  have h4 : ¬ fwdSum nX h c k j j < opt.newtonHessDiagRegTolerance := by
    rcases h1 with h1 | h1
    · exact absurd h1 hreg
    · exact h1
  have h5 : fwdReg opt (fwdSum nX h c k j j) = fwdSum nX h c k j j := by
    unfold fwdReg
    rw [if_neg (fun hh => hreg hh.1)]
  rw [h5] at h2
  have h6 : 0 < fwdSum nX h c k j j := lt_of_lt_of_le htol (not_lt.mp h4)
  have h7 : c (k, 0, j, j) * c (k, 0, j, j) = fwdSum nX h c k j j := by
    rw [h2]; exact hsqrt _ (le_of_lt h6)
  have h8 : c (k, 0, j, j) ≠ 0 := by
    intro h9
    rw [h9, mul_zero] at h7
    rw [← h7] at h6
    exact lt_irrefl _ h6
  rw [Finset.sum_range_succ, h3 hk i hi, div_mul_cancel₀ _ h8]
  unfold fwdSubSum
  ring

theorem cholDiag_mul_transpose_apply (nX : Nat) (c : xn2x_matrix_t α) (k : Nat)
    (i j : Fin nX) (hji : j ≤ i) :
    (cholDiagBlock nX c k * (cholDiagBlock nX c k).transpose) i j
      = ∑ l in Finset.range ((j : Nat) + 1), c (k, 0, (i : Nat), l) * c (k, 0, (j : Nat), l) := by
  rw [Matrix.mul_apply]
  simp only [Matrix.transpose_apply, cholDiagBlock, Matrix.of_apply]
  rw [← sum_range_ite_le (fun l => c (k, 0, (i : Nat), l) * c (k, 0, (j : Nat), l)) j nX j.2]
  rw [← Fin.sum_univ_eq_sum_range (fun l => if l ≤ (j : Nat) then
    c (k, 0, (i : Nat), l) * c (k, 0, (j : Nat), l) else 0) nX]
  apply Finset.sum_congr rfl
  intro l _
  have h1 : (j : Nat) ≤ (i : Nat) := hji
  split_ifs <;> first | rfl | omega | simp

theorem sub_mul_transpose_apply (nX : Nat) (c : xn2x_matrix_t α) (k : Nat) (i j : Fin nX) :
    (subDiagBlock nX c k * (subDiagBlock nX c k).transpose) i j
      = ∑ l in Finset.range nX, c (k, -1, (i : Nat), l) * c (k, -1, (j : Nat), l) := by
  rw [Matrix.mul_apply]
  simp only [Matrix.transpose_apply, subDiagBlock, Matrix.of_apply]
  rw [← Fin.sum_univ_eq_sum_range (fun l => c (k, -1, (i : Nat), l) * c (k, -1, (j : Nat), l)) nX]

theorem sub_mul_cholDiag_transpose_apply (nX : Nat) (c : xn2x_matrix_t α) (k : Nat)
    (i j : Fin nX) :
    (subDiagBlock nX c (k + 1) * (cholDiagBlock nX c k).transpose) i j
      = ∑ l in Finset.range ((j : Nat) + 1), c (k + 1, -1, (i : Nat), l) * c (k, 0, (j : Nat), l) := by
  rw [Matrix.mul_apply]
  simp only [Matrix.transpose_apply, subDiagBlock, cholDiagBlock, Matrix.of_apply]
  rw [← sum_range_ite_le (fun l => c (k + 1, -1, (i : Nat), l) * c (k, 0, (j : Nat), l)) j nX j.2]
  rw [← Fin.sum_univ_eq_sum_range (fun l => if l ≤ (j : Nat) then
    c (k + 1, -1, (i : Nat), l) * c (k, 0, (j : Nat), l) else 0) nX]
  apply Finset.sum_congr rfl
  intro l _
  split_ifs <;> simp

end ForwardLemmas

/-! ## Reverse factorization -/

section ReverseLemmas

variable {α : Type} [LinearOrderedField α]

theorem factorizeNewtonHessianBottomUp_pivot_eq (N nX : Nat) (h c : xn2x_matrix_t α)
    (kk jj : Nat) :
    factorizeNewtonHessianBottomUp_pivot N nX h c kk jj = revSum N nX h c kk jj jj := by
  unfold factorizeNewtonHessianBottomUp_pivot revSum
  simp only [accHessian, accCholHessian, forUp_sub_eq, Nat.zero_add]
  split_ifs <;> simp

theorem revSum_congr (N nX : Nat) (h c c1 : xn2x_matrix_t α) (kk jj ii : Nat)
    (h1 : ∀ l, jj < l → c1 (kk, 0, l, ii) = c (kk, 0, l, ii))
    (h2 : ∀ l, jj < l → c1 (kk, 0, l, jj) = c (kk, 0, l, jj))
    (h3 : ∀ l i, c1 (kk + 1, -1, l, i) = c (kk + 1, -1, l, i)) :
    revSum N nX h c1 kk jj ii = revSum N nX h c kk jj ii := by
  unfold revSum
  have e1 : ∑ t in Finset.range (nX - (jj + 1)),
        c1 (kk, 0, jj + 1 + t, ii) * c1 (kk, 0, jj + 1 + t, jj)
      = ∑ t in Finset.range (nX - (jj + 1)),
        c (kk, 0, jj + 1 + t, ii) * c (kk, 0, jj + 1 + t, jj) :=
    Finset.sum_congr rfl (fun t _ => by rw [h1 _ (by omega), h2 _ (by omega)])
  have e2 : ∑ l in Finset.range nX, c1 (kk + 1, -1, l, ii) * c1 (kk + 1, -1, l, jj)
      = ∑ l in Finset.range nX, c (kk + 1, -1, l, ii) * c (kk + 1, -1, l, jj) :=
    Finset.sum_congr rfl (fun l _ => by rw [h3, h3])
  rw [e1, e2]

theorem revSubSum_congr (nX : Nat) (h c c1 : xn2x_matrix_t α) (kk jj ii : Nat)
    (h1 : ∀ l, jj < l → c1 (kk, -1, l, ii) = c (kk, -1, l, ii))
    (h2 : ∀ l, jj < l → c1 (kk, 0, l, jj) = c (kk, 0, l, jj)) :
    revSubSum nX h c1 kk jj ii = revSubSum nX h c kk jj ii := by
  unfold revSubSum
  have e1 : ∑ t in Finset.range (nX - (jj + 1)),
        c1 (kk, -1, jj + 1 + t, ii) * c1 (kk, 0, jj + 1 + t, jj)
      = ∑ t in Finset.range (nX - (jj + 1)),
        c (kk, -1, jj + 1 + t, ii) * c (kk, 0, jj + 1 + t, jj) :=
    Finset.sum_congr rfl (fun t _ => by rw [h1 _ (by omega), h2 _ (by omega)])
  rw [e1]

theorem factorizeNewtonHessianBottomUp_writeRow_eq (sqrt_f : α → α) (N nX : Nat)
    (h : xn2x_matrix_t α) (kk jj : Nat) (s : α) (c : xn2x_matrix_t α) :
    factorizeNewtonHessianBottomUp_writeRow sqrt_f N nX h kk jj s c =
      if kk > 0 then
        forDown (fun ii c => Function.update c (kk, -1, jj, ii)
          (revSubSum nX h c kk jj ii / c (kk, 0, jj, jj))) 0 nX
          (forDown (fun ii c => Function.update c (kk, 0, jj, ii)
            (revSum N nX h c kk jj ii / c (kk, 0, jj, jj))) 0 jj
            (Function.update c (kk, 0, jj, jj) (sqrt_f s)))
      else
        forDown (fun ii c => Function.update c (kk, 0, jj, ii)
            (revSum N nX h c kk jj ii / c (kk, 0, jj, jj))) 0 jj
            (Function.update c (kk, 0, jj, jj) (sqrt_f s)) := by
  have hb1 : (fun (ii : Nat) (c : xn2x_matrix_t α) =>
      setAcc c kk 0 jj ii (divide_f
        (if kk + 1 < N then
          forUp (fun ll sum =>
            sum - accCholHessian c (kk + 1) (-1) ll ii * accCholHessian c (kk + 1) (-1) ll jj)
            0 nX
            (forUp (fun ll sum =>
              sum - accCholHessian c kk 0 ll ii * accCholHessian c kk 0 ll jj)
              (jj + 1) (nX - (jj + 1)) (accHessian h kk 0 jj ii))
        else
          forUp (fun ll sum =>
              sum - accCholHessian c kk 0 ll ii * accCholHessian c kk 0 ll jj)
              (jj + 1) (nX - (jj + 1)) (accHessian h kk 0 jj ii))
        (accCholHessian c kk 0 jj jj)))
      = fun ii c => Function.update c (kk, 0, jj, ii)
          (revSum N nX h c kk jj ii / c (kk, 0, jj, jj)) := by
    funext ii c
    simp only [setAcc, accHessian, accCholHessian, forUp_sub_eq, Nat.zero_add, divide_f, revSum]
    split_ifs <;> simp
  have hb2 : (fun (ii : Nat) (c : xn2x_matrix_t α) =>
      setAcc c kk (-1) jj ii (divide_f
        (forUp (fun ll sum =>
          sum - accCholHessian c kk (-1) ll ii * accCholHessian c kk 0 ll jj)
          (jj + 1) (nX - (jj + 1)) (accHessian h kk (-1) jj ii))
        (accCholHessian c kk 0 jj jj)))
      = fun ii c => Function.update c (kk, -1, jj, ii)
          (revSubSum nX h c kk jj ii / c (kk, 0, jj, jj)) := by
    funext ii c
    simp only [setAcc, accHessian, accCholHessian, forUp_sub_eq, divide_f, revSubSum]
  unfold factorizeNewtonHessianBottomUp_writeRow
  simp only [hb1, hb2, setAcc]

theorem rev_loop1_frame (sqrt_f : α → α) (N nX : Nat) (h : xn2x_matrix_t α) (kk jj : Nat)
    (s : α) (c : xn2x_matrix_t α) (key : Nat × Int × Nat × Nat)
    (h1 : ∀ ii, ii ≤ jj → key ≠ (kk, 0, jj, ii)) :
    forDown (fun ii c => Function.update c (kk, 0, jj, ii)
      (revSum N nX h c kk jj ii / c (kk, 0, jj, jj))) 0 jj
      (Function.update c (kk, 0, jj, jj) (sqrt_f s)) key = c key := by
  rw [forDown_update_frame (fun ii => ((kk, 0, jj, ii) : Nat × Int × Nat × Nat))
    (fun ii c => revSum N nX h c kk jj ii / c (kk, 0, jj, jj)) 0 jj _ key
    (fun i _ h3 => h1 i (by omega))]
  exact Function.update_noteq (h1 jj (le_refl _)) _ _

theorem rev_loop1_diag (sqrt_f : α → α) (N nX : Nat) (h : xn2x_matrix_t α) (kk jj : Nat)
    (s : α) (c : xn2x_matrix_t α) :
    forDown (fun ii c => Function.update c (kk, 0, jj, ii)
      (revSum N nX h c kk jj ii / c (kk, 0, jj, jj))) 0 jj
      (Function.update c (kk, 0, jj, jj) (sqrt_f s)) (kk, 0, jj, jj) = sqrt_f s := by
  rw [forDown_update_frame (fun ii => ((kk, 0, jj, ii) : Nat × Int × Nat × Nat))
    (fun ii c => revSum N nX h c kk jj ii / c (kk, 0, jj, jj)) 0 jj _ _
    (fun i _ h3 => by simp; omega)]
  exact Function.update_same _ _ _

theorem rev_loop1_val (sqrt_f : α → α) (N nX : Nat) (h : xn2x_matrix_t α) (kk jj : Nat)
    (s : α) (c : xn2x_matrix_t α) (ii : Nat) (h1 : ii < jj) :
    forDown (fun ii c => Function.update c (kk, 0, jj, ii)
      (revSum N nX h c kk jj ii / c (kk, 0, jj, jj))) 0 jj
      (Function.update c (kk, 0, jj, jj) (sqrt_f s)) (kk, 0, jj, ii)
      = revSum N nX h c kk jj ii / sqrt_f s := by
  rw [forDown_update_val (fun ii => ((kk, 0, jj, ii) : Nat × Int × Nat × Nat))
    (fun ii c => revSum N nX h c kk jj ii / c (kk, 0, jj, jj)) 0 jj _
    (fun a b _ h4 _ => by simp; omega) _ ii (by omega) (by omega)]
  · rw [Function.update_same]
    congr 1
    apply revSum_congr
    · intro l hl
      exact Function.update_noteq (by simp; omega) _ _
    · intro l hl
      exact Function.update_noteq (by simp; omega) _ _
    · intro l i
      exact Function.update_noteq (by simp) _ _
  · intro i c1 h3 h4 h5
    beta_reduce
    rw [h5 (kk, 0, jj, jj) (fun j _ _ => by simp; omega)]
    congr 1
    apply revSum_congr
    · intro l hl
      exact h5 _ (fun j _ _ => by simp; omega)
    · intro l hl
      exact h5 _ (fun j _ _ => by simp; omega)
    · intro a l
      exact h5 _ (fun j _ _ => by simp)

theorem factorizeNewtonHessianBottomUp_writeRow_frame (sqrt_f : α → α) (N nX : Nat)
    (h : xn2x_matrix_t α) (kk jj : Nat) (s : α) (c : xn2x_matrix_t α)
    (key : Nat × Int × Nat × Nat)
    (h1 : ∀ ii, ii ≤ jj → key ≠ (kk, 0, jj, ii))
    (h2 : ∀ ii, ii < nX → kk > 0 → key ≠ (kk, -1, jj, ii)) :
    factorizeNewtonHessianBottomUp_writeRow sqrt_f N nX h kk jj s c key = c key := by
  rw [factorizeNewtonHessianBottomUp_writeRow_eq]
  split_ifs with hk
  · rw [forDown_update_frame (fun ii => ((kk, -1, jj, ii) : Nat × Int × Nat × Nat))
      (fun ii c => revSubSum nX h c kk jj ii / c (kk, 0, jj, jj)) 0 nX _ key
      (fun i _ h3 => h2 i (by omega) hk)]
    exact rev_loop1_frame sqrt_f N nX h kk jj s c key h1
  · exact rev_loop1_frame sqrt_f N nX h kk jj s c key h1

theorem factorizeNewtonHessianBottomUp_writeRow_diag (sqrt_f : α → α) (N nX : Nat)
    (h : xn2x_matrix_t α) (kk jj : Nat) (s : α) (c : xn2x_matrix_t α) :
    factorizeNewtonHessianBottomUp_writeRow sqrt_f N nX h kk jj s c (kk, 0, jj, jj)
      = sqrt_f s := by
  rw [factorizeNewtonHessianBottomUp_writeRow_eq]
  split_ifs
  · rw [forDown_update_frame (fun ii => ((kk, -1, jj, ii) : Nat × Int × Nat × Nat))
      (fun ii c => revSubSum nX h c kk jj ii / c (kk, 0, jj, jj)) 0 nX _ _
      (fun i _ _ => by simp)]
    exact rev_loop1_diag sqrt_f N nX h kk jj s c
  · exact rev_loop1_diag sqrt_f N nX h kk jj s c

theorem factorizeNewtonHessianBottomUp_writeRow_left (sqrt_f : α → α) (N nX : Nat)
    (h : xn2x_matrix_t α) (kk jj : Nat) (s : α) (c : xn2x_matrix_t α)
    (ii : Nat) (h1 : ii < jj) :
    factorizeNewtonHessianBottomUp_writeRow sqrt_f N nX h kk jj s c (kk, 0, jj, ii)
      = revSum N nX h c kk jj ii / sqrt_f s := by
  rw [factorizeNewtonHessianBottomUp_writeRow_eq]
  split_ifs
  · rw [forDown_update_frame (fun ii => ((kk, -1, jj, ii) : Nat × Int × Nat × Nat))
      (fun ii c => revSubSum nX h c kk jj ii / c (kk, 0, jj, jj)) 0 nX _ _
      (fun i _ _ => by simp)]
    exact rev_loop1_val sqrt_f N nX h kk jj s c ii h1
  · exact rev_loop1_val sqrt_f N nX h kk jj s c ii h1

theorem factorizeNewtonHessianBottomUp_writeRow_sub (sqrt_f : α → α) (N nX : Nat)
    (h : xn2x_matrix_t α) (kk jj : Nat) (s : α) (c : xn2x_matrix_t α)
    (ii : Nat) (h1 : kk > 0) (h2 : ii < nX) :
    factorizeNewtonHessianBottomUp_writeRow sqrt_f N nX h kk jj s c (kk, -1, jj, ii)
      = revSubSum nX h c kk jj ii / sqrt_f s := by
  rw [factorizeNewtonHessianBottomUp_writeRow_eq, if_pos h1]
  rw [forDown_update_val (fun ii => ((kk, -1, jj, ii) : Nat × Int × Nat × Nat))
    (fun ii c => revSubSum nX h c kk jj ii / c (kk, 0, jj, jj)) 0 nX _
    (fun a b _ h4 _ => by simp; omega) _ ii (by omega) (by omega)]
  · rw [rev_loop1_diag]
    congr 1
    apply revSubSum_congr
    · intro l hl
      exact rev_loop1_frame sqrt_f N nX h kk jj s c _ (fun i _ => by simp)
    · intro l hl
      exact rev_loop1_frame sqrt_f N nX h kk jj s c _ (fun i _ => by simp; omega)
  · intro i c1 h3 h4 h5
    beta_reduce
    rw [h5 (kk, 0, jj, jj) (fun j _ _ => by simp)]
    congr 1
    apply revSubSum_congr
    · intro l hl
      exact h5 _ (fun j _ _ => by simp; omega)
    · intro l hl
      exact h5 _ (fun j _ _ => by simp)

theorem factorizeNewtonHessianBottomUp_column_spec (sqrt_f : α → α) (opt : qpOptions_t α)
    (N nX : Nat) (h : xn2x_matrix_t α) (kk jj : Nat) (st : cholState_t α) :
    (revFails opt (revSum N nX h st.cholHessian kk jj jj) ∧
      factorizeNewtonHessianBottomUp_column sqrt_f opt N nX h kk jj st
        = Except.error (return_t.QPDUNES_ERR_DIVISION_BY_ZERO, st)) ∨
    (¬ revFails opt (revSum N nX h st.cholHessian kk jj jj) ∧
      ∃ flag, factorizeNewtonHessianBottomUp_column sqrt_f opt N nX h kk jj st
        = Except.ok ⟨factorizeNewtonHessianBottomUp_writeRow sqrt_f N nX h kk jj
            (revReg opt (revSum N nX h st.cholHessian kk jj jj)) st.cholHessian, flag⟩) := by
  unfold factorizeNewtonHessianBottomUp_column revFails revReg
  simp only [factorizeNewtonHessianBottomUp_pivot_eq]
  by_cases h1 : opt.regType = regType_t.QPDUNES_REG_SINGULAR_DIRECTIONS ∧
      revSum N nX h st.cholHessian kk jj jj < opt.newtonHessDiagRegTolerance
  · right
    rw [if_pos h1, if_pos h1]
    exact ⟨fun hh => hh.1 h1, true, rfl⟩
  · rw [if_neg h1, if_neg h1]
    by_cases h2 : revSum N nX h st.cholHessian kk jj jj < 100 * opt.equalityTolerance
    · left
      rw [if_pos h2]
      exact ⟨⟨h1, h2⟩, rfl⟩
    · right
      rw [if_neg h2]
      exact ⟨fun hh => h2 hh.2, st.isHessianRegularized, rfl⟩

theorem RevRowOK_congr (sqrt_f : α → α) (opt : qpOptions_t α) (N nX : Nat)
    (h h1 c c1 : xn2x_matrix_t α) (kk jj : Nat) (hag : RevAgree c c1 kk jj)
    (hh : ∀ l i j, h1 (kk, l, i, j) = h (kk, l, i, j))
    (hc : RevRowOK sqrt_f opt N nX h c kk jj) : RevRowOK sqrt_f opt N nX h1 c1 kk jj := by
  have hs0 : ∀ ii, revSum N nX h1 c1 kk jj ii = revSum N nX h c1 kk jj ii := by
    intro ii; unfold revSum; rw [hh]
  have hb0 : ∀ ii, revSubSum nX h1 c1 kk jj ii = revSubSum nX h c1 kk jj ii := by
    intro ii; unfold revSubSum; rw [hh]
  have hs : ∀ ii, revSum N nX h1 c1 kk jj ii = revSum N nX h c kk jj ii := fun ii => by
    rw [hs0]
    exact revSum_congr N nX h c c1 kk jj ii (fun l hl => (hag l ii).1 (by omega))
      (fun l hl => (hag l jj).1 (by omega)) (fun l i => (hag l i).2.2)
  have hb : ∀ ii, revSubSum nX h1 c1 kk jj ii = revSubSum nX h c kk jj ii := fun ii => by
    rw [hb0]
    exact revSubSum_congr nX h c c1 kk jj ii (fun l hl => (hag l ii).2.1 (by omega))
      (fun l hl => (hag l jj).1 (by omega))
  have hd : ∀ ii, c1 (kk, 0, jj, ii) = c (kk, 0, jj, ii) := fun ii => (hag jj ii).1 (le_refl _)
  obtain ⟨h2, h3, h4, h5⟩ := hc
  refine ⟨?_, ?_, ?_, ?_⟩
  · rw [hs]; exact h2
  · rw [hs, hd]; exact h3
  · intro ii h6
    rw [hs, hd, hd]; exact h4 ii h6
  · intro h6 ii h7
    rw [hb, hd, (hag jj ii).2.1 (le_refl _)]; exact h5 h6 ii h7

theorem factorizeNewtonHessianBottomUp_column_ok (sqrt_f : α → α) (opt : qpOptions_t α)
    (N nX : Nat) (h : xn2x_matrix_t α) (kk jj : Nat) (st st1 : cholState_t α)
    (hstep : factorizeNewtonHessianBottomUp_column sqrt_f opt N nX h kk jj st = Except.ok st1) :
    RevRowOK sqrt_f opt N nX h st1.cholHessian kk jj ∧
    (∀ key : Nat × Int × Nat × Nat, (∀ ii, ii ≤ jj → key ≠ (kk, 0, jj, ii)) →
      (∀ ii, ii < nX → kk > 0 → key ≠ (kk, -1, jj, ii)) →
      st1.cholHessian key = st.cholHessian key) := by
  have key : ¬ revFails opt (revSum N nX h st.cholHessian kk jj jj) ∧
      st1.cholHessian = factorizeNewtonHessianBottomUp_writeRow sqrt_f N nX h kk jj
        (revReg opt (revSum N nX h st.cholHessian kk jj jj)) st.cholHessian := by
    rcases factorizeNewtonHessianBottomUp_column_spec sqrt_f opt N nX h kk jj st with
      ⟨_, h2⟩ | ⟨h1, flag, h2⟩
    · rw [h2] at hstep; cases hstep
    · rw [h2] at hstep
      simp only [Except.ok.injEq] at hstep
      exact ⟨h1, by rw [← hstep]⟩
  obtain ⟨hchk, hc⟩ := key
  have hfr : ∀ key : Nat × Int × Nat × Nat, (∀ ii, ii ≤ jj → key ≠ (kk, 0, jj, ii)) →
      (∀ ii, ii < nX → kk > 0 → key ≠ (kk, -1, jj, ii)) →
      st1.cholHessian key = st.cholHessian key := by
    intro key h1 h2
    rw [hc]
    exact factorizeNewtonHessianBottomUp_writeRow_frame sqrt_f N nX h kk jj _ _ key h1 h2
  have hs : ∀ ii, revSum N nX h st1.cholHessian kk jj ii
      = revSum N nX h st.cholHessian kk jj ii :=
    fun ii => revSum_congr N nX h _ _ kk jj ii
      (fun l hl => hfr _ (fun i _ => by simp; omega) (fun i _ _ => by simp))
      (fun l hl => hfr _ (fun i _ => by simp; omega) (fun i _ _ => by simp))
      (fun l i => hfr _ (fun i _ => by simp) (fun i _ _ => by simp))
  have hb : ∀ ii, revSubSum nX h st1.cholHessian kk jj ii
      = revSubSum nX h st.cholHessian kk jj ii :=
    fun ii => revSubSum_congr nX h _ _ kk jj ii
      (fun l hl => hfr _ (fun i _ => by simp) (fun i _ _ => by simp; omega))
      (fun l hl => hfr _ (fun i _ => by simp; omega) (fun i _ _ => by simp))
  have hd : st1.cholHessian (kk, 0, jj, jj)
      = sqrt_f (revReg opt (revSum N nX h st.cholHessian kk jj jj)) := by
    rw [hc]; exact factorizeNewtonHessianBottomUp_writeRow_diag sqrt_f N nX h kk jj _ _
  refine ⟨⟨?_, ?_, ?_, ?_⟩, hfr⟩
  · rw [hs]; exact hchk
  · rw [hs]; exact hd
  · intro ii h1
    rw [hs, hd, hc]
    exact factorizeNewtonHessianBottomUp_writeRow_left sqrt_f N nX h kk jj _ _ ii h1
  · intro h1 ii h2
    rw [hb, hd, hc]
    exact factorizeNewtonHessianBottomUp_writeRow_sub sqrt_f N nX h kk jj _ _ ii h1 h2

theorem factorizeNewtonHessianBottomUp_column_error (sqrt_f : α → α) (opt : qpOptions_t α)
    (N nX : Nat) (h : xn2x_matrix_t α) (kk jj : Nat) (st : cholState_t α)
    (e : return_t × cholState_t α)
    (hstep : factorizeNewtonHessianBottomUp_column sqrt_f opt N nX h kk jj st
      = Except.error e) :
    e = (return_t.QPDUNES_ERR_DIVISION_BY_ZERO, st) := by
  rcases factorizeNewtonHessianBottomUp_column_spec sqrt_f opt N nX h kk jj st with
    ⟨_, h2⟩ | ⟨_, flag, h2⟩
  · rw [h2] at hstep
    simp only [Except.error.injEq] at hstep
    exact hstep.symm
  · rw [h2] at hstep; cases hstep

theorem rev_inner_loop (sqrt_f : α → α) (opt : qpOptions_t α) (N nX : Nat)
    (h : xn2x_matrix_t α) (kk : Nat) (n : Nat) (st st1 : cholState_t α)
    (hrun : forDownM (fun jj st =>
      factorizeNewtonHessianBottomUp_column sqrt_f opt N nX h kk jj st) 0 n st = Except.ok st1)
    (hinv : RevDone sqrt_f opt N nX h st.cholHessian kk n) :
    RevDone sqrt_f opt N nX h st1.cholHessian kk 0 := by
  induction n generalizing st with
  | zero =>
    simp only [forDownM, Except.ok.injEq] at hrun
    rw [← hrun]; exact hinv
  | succ n ih =>
    simp only [forDownM, Nat.zero_add] at hrun
    cases hmid : factorizeNewtonHessianBottomUp_column sqrt_f opt N nX h kk n st with
    | error e => rw [hmid] at hrun; cases hrun
    | ok s1 =>
      rw [hmid] at hrun
      obtain ⟨h2, h3⟩ := factorizeNewtonHessianBottomUp_column_ok sqrt_f opt N nX h kk n st s1 hmid
      apply ih s1 hrun
      intro k j hk hj hlt
      by_cases h4 : k = kk ∧ j = n
      · rw [h4.1, h4.2]; exact h2
      · have h5 : kk < k ∨ (k = kk ∧ n + 1 ≤ j) := by omega
        apply RevRowOK_congr sqrt_f opt N nX h h st.cholHessian _ k j _ (fun _ _ _ => rfl)
          (hinv k j hk hj h5)
        intro l i
        refine ⟨fun h6 => ?_, fun h6 => ?_, ?_⟩
        · exact h3 _ (fun a _ => by simp; omega) (fun a _ _ => by simp)
        · exact h3 _ (fun a _ => by simp) (fun a _ _ => by simp; omega)
        · exact h3 _ (fun a _ => by simp) (fun a _ _ => by simp; omega)

theorem rev_outer_loop (sqrt_f : α → α) (opt : qpOptions_t α) (N nX : Nat)
    (h : xn2x_matrix_t α) (m : Nat) (st st1 : cholState_t α)
    (hrun : forDownM (fun kk st =>
      forDownM (fun jj st =>
        factorizeNewtonHessianBottomUp_column sqrt_f opt N nX h kk jj st) 0 nX st)
      0 m st = Except.ok st1)
    (hinv : ∀ k j, k < N → j < nX → m ≤ k → RevRowOK sqrt_f opt N nX h st.cholHessian k j) :
    ∀ k j, k < N → j < nX → RevRowOK sqrt_f opt N nX h st1.cholHessian k j := by
  induction m generalizing st with
  | zero =>
    simp only [forDownM, Except.ok.injEq] at hrun
    rw [← hrun]
    exact fun k j hk hj => hinv k j hk hj (Nat.zero_le _)
  | succ m ih =>
    simp only [forDownM, Nat.zero_add] at hrun
    cases hmid : forDownM (fun jj st =>
        factorizeNewtonHessianBottomUp_column sqrt_f opt N nX h m jj st) 0 nX st with
    | error e => rw [hmid] at hrun; cases hrun
    | ok s1 =>
      rw [hmid] at hrun
      have h1 := rev_inner_loop sqrt_f opt N nX h m nX st s1 hmid
        (fun k j hk hj hlt => hinv k j hk hj (by omega))
      exact ih s1 hrun (fun k j hk hj hlt => h1 k j hk hj (by omega))

theorem blockIdxStart_full (N : Nat) :
    (blockIdxStart N ((N : Int) - 1) + 1).toNat = N := by
  unfold blockIdxStart
  split_ifs <;> omega

theorem factorizeNewtonHessianBottomUp_ok_rows (sqrt_f : α → α) (opt : qpOptions_t α)
    (N nX : Nat) (c0 h : xn2x_matrix_t α) (idx : Int) (flag : Bool)
    (hfull : N ≤ (blockIdxStart N idx + 1).toNat)
    (hOK : (qpDUNES_factorizeNewtonHessianBottomUp sqrt_f opt N nX c0 h idx flag).1
      = return_t.QPDUNES_OK) :
    ∀ k j, k < N → j < nX → RevRowOK sqrt_f opt N nX h
      (qpDUNES_factorizeNewtonHessianBottomUp sqrt_f opt N nX c0 h idx flag).2.cholHessian
      k j := by
  unfold qpDUNES_factorizeNewtonHessianBottomUp at hOK ⊢
  cases hrun : forDownM (fun kk st =>
      forDownM (fun jj st =>
        factorizeNewtonHessianBottomUp_column sqrt_f opt N nX h kk jj st) 0 nX st)
      0 (blockIdxStart N idx + 1).toNat (⟨c0, flag⟩ : cholState_t α) with
  | error e =>
    rw [hrun] at hOK
    exfalso
    have h1 : e.1 = return_t.QPDUNES_ERR_DIVISION_BY_ZERO :=
      forDownM_error _ (fun e => e.1 = return_t.QPDUNES_ERR_DIVISION_BY_ZERO)
        (fun kk s e1 he1 => forDownM_error _
          (fun e => e.1 = return_t.QPDUNES_ERR_DIVISION_BY_ZERO)
          (fun jj s2 e2 he2 => by
            rw [factorizeNewtonHessianBottomUp_column_error sqrt_f opt N nX h kk jj s2 e2 he2])
          0 nX s e1 he1) 0 _ _ e hrun
    simp only at hOK
    rw [h1] at hOK
    cases hOK
  | ok s1 =>
    exact rev_outer_loop sqrt_f opt N nX h _ _ s1 hrun (fun k j hk _ hm => by omega)

theorem rev_pivot_facts (sqrt_f : α → α) (hsqrt : ∀ x, 0 ≤ x → sqrt_f x * sqrt_f x = x)
    (opt : qpOptions_t α) (N nX : Nat) (h c : xn2x_matrix_t α) (k j : Nat)
    (hreg : opt.regType ≠ regType_t.QPDUNES_REG_SINGULAR_DIRECTIONS)
    (htol : 0 < opt.equalityTolerance)
    (hrow : RevRowOK sqrt_f opt N nX h c k j) :
    c (k, 0, j, j) * c (k, 0, j, j) = revSum N nX h c k j j ∧ c (k, 0, j, j) ≠ 0 := by
  obtain ⟨h1, h2, _, _⟩ := hrow
  have h4 : ¬ revSum N nX h c k j j < 100 * opt.equalityTolerance := by
    intro hh
    exact h1 ⟨fun h5 => hreg h5.1, hh⟩
  have h5 : revReg opt (revSum N nX h c k j j) = revSum N nX h c k j j := by
    unfold revReg
    rw [if_neg (fun hh => hreg hh.1)]
  rw [h5] at h2
  have h6 : 0 < revSum N nX h c k j j :=
    lt_of_lt_of_le (by positivity) (not_lt.mp h4)
  have h7 : c (k, 0, j, j) * c (k, 0, j, j) = revSum N nX h c k j j := by
    rw [h2]; exact hsqrt _ (le_of_lt h6)
  refine ⟨h7, ?_⟩
  intro h9
  rw [h9, mul_zero] at h7
  rw [← h7] at h6
  exact lt_irrefl _ h6

theorem rev_row_identity (sqrt_f : α → α) (hsqrt : ∀ x, 0 ≤ x → sqrt_f x * sqrt_f x = x)
    (opt : qpOptions_t α) (N nX : Nat) (h c : xn2x_matrix_t α) (k i j : Nat)
    (hreg : opt.regType ≠ regType_t.QPDUNES_REG_SINGULAR_DIRECTIONS)
    (htol : 0 < opt.equalityTolerance)
    (hrow : RevRowOK sqrt_f opt N nX h c k j) (hij : i ≤ j) :
    c (k, 0, j, i) * c (k, 0, j, j)
      + ∑ t in Finset.range (nX - (j + 1)), c (k, 0, j + 1 + t, i) * c (k, 0, j + 1 + t, j)
      + (if k + 1 < N then
          ∑ l in Finset.range nX, c (k + 1, -1, l, i) * c (k + 1, -1, l, j) else 0)
      = h (k, 0, j, i) := by
  obtain ⟨h7, h8⟩ := rev_pivot_facts sqrt_f hsqrt opt N nX h c k j hreg htol hrow
  obtain ⟨_, _, h3, _⟩ := hrow
  have h9 : c (k, 0, j, i) * c (k, 0, j, j) = revSum N nX h c k j i := by
    rcases Nat.eq_or_lt_of_le hij with h10 | h10
    · subst h10; exact h7
    · rw [h3 i h10, div_mul_cancel₀ _ h8]
  rw [h9]
  unfold revSum
  ring

theorem rev_sub_identity (sqrt_f : α → α) (hsqrt : ∀ x, 0 ≤ x → sqrt_f x * sqrt_f x = x)
    (opt : qpOptions_t α) (N nX : Nat) (h c : xn2x_matrix_t α) (k i j : Nat)
    (hreg : opt.regType ≠ regType_t.QPDUNES_REG_SINGULAR_DIRECTIONS)
    (htol : 0 < opt.equalityTolerance)
    (hrow : RevRowOK sqrt_f opt N nX h c k j) (hk : k > 0) (hi : i < nX) :
    c (k, -1, j, i) * c (k, 0, j, j)
      + ∑ t in Finset.range (nX - (j + 1)), c (k, -1, j + 1 + t, i) * c (k, 0, j + 1 + t, j)
      = h (k, -1, j, i) := by
  obtain ⟨_, h8⟩ := rev_pivot_facts sqrt_f hsqrt opt N nX h c k j hreg htol hrow
  obtain ⟨_, _, _, h3⟩ := hrow
  rw [h3 hk i hi, div_mul_cancel₀ _ h8]
  unfold revSubSum
  ring

theorem cholDiag_transpose_mul_apply (nX : Nat) (c : xn2x_matrix_t α) (k : Nat)
    (i j : Fin nX) (hij : i ≤ j) :
    ((cholDiagBlock nX c k).transpose * cholDiagBlock nX c k) j i
      = c (k, 0, (j : Nat), (i : Nat)) * c (k, 0, (j : Nat), (j : Nat))
        + ∑ t in Finset.range (nX - ((j : Nat) + 1)),
          c (k, 0, (j : Nat) + 1 + t, (i : Nat)) * c (k, 0, (j : Nat) + 1 + t, (j : Nat)) := by
  rw [Matrix.mul_apply]
  simp only [Matrix.transpose_apply, cholDiagBlock, Matrix.of_apply]
  have e := sum_range_ite_ge (fun l => c (k, 0, l, (i : Nat)) * c (k, 0, l, (j : Nat))) j nX j.2
  simp only at e
  rw [← e, ← Fin.sum_univ_eq_sum_range (fun l => if (j : Nat) ≤ l then
    c (k, 0, l, (i : Nat)) * c (k, 0, l, (j : Nat)) else 0) nX]
  apply Finset.sum_congr rfl
  intro l _
  have h1 : (i : Nat) ≤ (j : Nat) := hij
  split_ifs <;> first | omega | ring

theorem sub_transpose_mul_apply (nX : Nat) (c : xn2x_matrix_t α) (k : Nat) (i j : Fin nX) :
    ((subDiagBlock nX c k).transpose * subDiagBlock nX c k) j i
      = ∑ l in Finset.range nX, c (k, -1, l, (i : Nat)) * c (k, -1, l, (j : Nat)) := by
  rw [Matrix.mul_apply]
  simp only [Matrix.transpose_apply, subDiagBlock, Matrix.of_apply]
  rw [← Fin.sum_univ_eq_sum_range (fun l => c (k, -1, l, (i : Nat)) * c (k, -1, l, (j : Nat))) nX]
  apply Finset.sum_congr rfl
  intro l _
  ring

theorem rev_diag_identity_of_rows (sqrt_f : α → α)
    (hsqrt : ∀ x, 0 ≤ x → sqrt_f x * sqrt_f x = x)
    (opt : qpOptions_t α) (N nX : Nat) (h L : xn2x_matrix_t α)
    (hreg : opt.regType ≠ regType_t.QPDUNES_REG_SINGULAR_DIRECTIONS)
    (htol : 0 < opt.equalityTolerance)
    (hrows : ∀ k j, k < N → j < nX → RevRowOK sqrt_f opt N nX h L k j) :
    RevDiagBlockIdentity N nX L h := by
  intro k hk i j hij
  have h1 := rev_row_identity sqrt_f hsqrt opt N nX h L k i j hreg htol (hrows k j hk j.2) hij
  rw [Matrix.add_apply, cholDiag_transpose_mul_apply nX L k i j hij]
  by_cases hk0 : k + 1 < N
  · rw [if_pos hk0] at h1 ⊢
    rw [sub_transpose_mul_apply, h1]
    rfl
  · rw [if_neg hk0] at h1 ⊢
    rw [Matrix.zero_apply, h1]
    rfl

end ReverseLemmas

/-! ## Triangular solves -/

section SolveLemmas

variable {α : Type} [LinearOrderedField α]

theorem flat_inj (nX k i l j : Nat) (hi : i < nX) (hj : j < nX)
    (h : k * nX + i = l * nX + j) : k = l ∧ i = j := by
  have hpos : 0 < nX := by omega
  have e1 : (k * nX + i) / nX = k := by
    rw [Nat.mul_comm, Nat.mul_add_div hpos, Nat.div_eq_of_lt hi, Nat.add_zero]
  have e2 : (l * nX + j) / nX = l := by
    rw [Nat.mul_comm, Nat.mul_add_div hpos, Nat.div_eq_of_lt hj, Nat.add_zero]
  have e3 : k = l := by rw [← e1, ← e2, h]
  subst e3
  exact ⟨rfl, Nat.add_left_cancel h⟩

theorem flat_ne (nX k i l j : Nat) (hi : i < nX) (hj : j < nX) (h : ¬ (k = l ∧ i = j)) :
    k * nX + i ≠ l * nX + j :=
  fun e => h (flat_inj nX k i l j hi hj e)

theorem lowPart_congr (nX : Nat) (c : xn2x_matrix_t α) (r r1 : Nat → α) (kk ii : Nat)
    (h1 : 0 < kk → ∀ jj, jj < nX → r1 ((kk - 1) * nX + jj) = r ((kk - 1) * nX + jj))
    (h2 : ∀ jj, jj < ii → r1 (kk * nX + jj) = r (kk * nX + jj)) :
    lowPart nX c r1 kk ii = lowPart nX c r kk ii := by
  unfold lowPart
  have e2 : ∑ jj in Finset.range ii, c (kk, 0, ii, jj) * r1 (kk * nX + jj)
      = ∑ jj in Finset.range ii, c (kk, 0, ii, jj) * r (kk * nX + jj) :=
    Finset.sum_congr rfl (fun jj hjj => by rw [h2 jj (Finset.mem_range.mp hjj)])
  rw [e2]
  by_cases hk : kk > 0
  · rw [if_pos hk, if_pos hk]
    have e1 : ∑ jj in Finset.range nX, c (kk, -1, ii, jj) * r1 ((kk - 1) * nX + jj)
        = ∑ jj in Finset.range nX, c (kk, -1, ii, jj) * r ((kk - 1) * nX + jj) :=
      Finset.sum_congr rfl (fun jj hjj => by rw [h1 hk jj (Finset.mem_range.mp hjj)])
    rw [e1]
  · rw [if_neg hk, if_neg hk]

theorem upPart_congr (N nX : Nat) (c : xn2x_matrix_t α) (r r1 : Nat → α) (kk ii : Nat)
    (h1 : ∀ jj, ii < jj → jj < nX → r1 (kk * nX + jj) = r (kk * nX + jj))
    (h2 : kk + 1 < N → ∀ jj, jj < nX → r1 ((kk + 1) * nX + jj) = r ((kk + 1) * nX + jj)) :
    upPart N nX c r1 kk ii = upPart N nX c r kk ii := by
  unfold upPart
  have e1 : ∑ t in Finset.range (nX - (ii + 1)),
        c (kk, 0, ii + 1 + t, ii) * r1 (kk * nX + (ii + 1 + t))
      = ∑ t in Finset.range (nX - (ii + 1)),
        c (kk, 0, ii + 1 + t, ii) * r (kk * nX + (ii + 1 + t)) :=
    Finset.sum_congr rfl (fun t ht => by
      have := Finset.mem_range.mp ht
      rw [h1 (ii + 1 + t) (by omega) (by omega)])
  rw [e1]
  by_cases hk : kk + 1 < N
  · rw [if_pos hk, if_pos hk]
    have e2 : ∑ jj in Finset.range nX, c (kk + 1, -1, jj, ii) * r1 ((kk + 1) * nX + jj)
        = ∑ jj in Finset.range nX, c (kk + 1, -1, jj, ii) * r ((kk + 1) * nX + jj) :=
      Finset.sum_congr rfl (fun jj hjj => by rw [h2 hk jj (Finset.mem_range.mp hjj)])
    rw [e2]
  · rw [if_neg hk, if_neg hk]

theorem lowerRow_step (src : (Nat → α) → Nat → α)
    (hsrc : ∀ (r r1 : Nat → α) (i : Nat), r i = r1 i → src r i = src r1 i)
    (N nX : Nat) (c : xn2x_matrix_t α) (res0 res : Nat → α) (kk n : Nat)
    (hkk : kk < N) (hn : n < nX) (hinv : LowInv src N nX c res0 res kk n) :
    LowInv src N nX c res0 (lowerRow src nX c kk n res) kk (n + 1) := by
  obtain ⟨h1, h2⟩ := hinv
  have hne : ∀ k i, i < nX → ¬ (k = kk ∧ i = n) →
      lowerRow src nX c kk n res (k * nX + i) = res (k * nX + i) := by
    intro k i hi hki
    unfold lowerRow
    exact Function.update_noteq (flat_ne nX k i kk n hi hn hki) _ _
  have hlow : ∀ k i, k < N → i < nX → (k < kk ∨ (k = kk ∧ i < n + 1)) →
      lowPart nX c (lowerRow src nX c kk n res) k i = lowPart nX c res k i := by
    intro k i hk hi hd
    apply lowPart_congr
    · intro hk0 jj hjj
      have e : (k - 1) * nX + jj ≠ kk * nX + n := flat_ne nX _ _ _ _ hjj hn (by omega)
      unfold lowerRow
      exact Function.update_noteq e _ _
    · intro jj hjj
      exact hne k jj (by omega) (by omega)
  constructor
  · intro k i hk hi hd
    rw [hlow k i hk hi hd]
    by_cases hki : k = kk ∧ i = n
    · obtain ⟨e1, e2⟩ := hki
      subst e1; subst e2
      unfold lowerRow
      rw [Function.update_same, hsrc res res0 _ (h2 k i hk hi (by omega))]
    · rw [hne k i hi hki]
      exact h1 k i hk hi (by omega)
  · intro k i hk hi hd
    rw [hne k i hi (by omega)]
    exact h2 k i hk hi (by omega)

theorem lowerSweep_inner (src : (Nat → α) → Nat → α)
    (hsrc : ∀ (r r1 : Nat → α) (i : Nat), r i = r1 i → src r i = src r1 i)
    (N nX : Nat) (c : xn2x_matrix_t α) (res0 res : Nat → α) (kk n : Nat)
    (hkk : kk < N) (hn : n ≤ nX) (hinv : LowInv src N nX c res0 res kk 0) :
    LowInv src N nX c res0
      (forUp (fun ii res => lowerRow src nX c kk ii res) 0 n res) kk n := by
  induction n with
  | zero => exact hinv
  | succ n ih =>
    simp only [forUp, Nat.zero_add]
    exact lowerRow_step src hsrc N nX c res0 _ kk n hkk (by omega) (ih (by omega))

theorem lowerSweep_outer (src : (Nat → α) → Nat → α)
    (hsrc : ∀ (r r1 : Nat → α) (i : Nat), r i = r1 i → src r i = src r1 i)
    (N nX : Nat) (c : xn2x_matrix_t α) (res0 : Nat → α) (m : Nat) (hm : m ≤ N) :
    LowInv src N nX c res0
      (forUp (fun kk res => forUp (fun ii res => lowerRow src nX c kk ii res) 0 nX res)
        0 m res0) m 0 := by
  induction m with
  | zero => exact ⟨fun k i _ _ hd => by omega, fun k i _ _ _ => rfl⟩
  | succ m ih =>
    simp only [forUp, Nat.zero_add]
    obtain ⟨h1, h2⟩ := lowerSweep_inner src hsrc N nX c res0 _ m nX (by omega) (le_refl _)
      (ih (by omega))
    exact ⟨fun k i hk hi hd => h1 k i hk hi (by omega),
      fun k i hk hi hd => h2 k i hk hi (by omega)⟩

theorem lowerSweep_spec (src : (Nat → α) → Nat → α)
    (hsrc : ∀ (r r1 : Nat → α) (i : Nat), r i = r1 i → src r i = src r1 i)
    (N nX : Nat) (c : xn2x_matrix_t α) (res0 : Nat → α) (k i : Nat) (hk : k < N) (hi : i < nX) :
    lowerSweep src N nX c res0 (k * nX + i)
      = (src res0 (k * nX + i) - lowPart nX c (lowerSweep src N nX c res0) k i)
        / c (k, 0, i, i) :=
  (lowerSweep_outer src hsrc N nX c res0 N (le_refl _)).1 k i hk hi (Or.inl hk)

theorem upperRow_step (src : (Nat → α) → Nat → α)
    (hsrc : ∀ (r r1 : Nat → α) (i : Nat), r i = r1 i → src r i = src r1 i)
    (N nX : Nat) (c : xn2x_matrix_t α) (res0 res : Nat → α) (kk n : Nat)
    (hkk : kk < N) (hn : n < nX) (hinv : UpInv src N nX c res0 res kk (n + 1)) :
    UpInv src N nX c res0 (upperRow src N nX c kk n res) kk n := by
  obtain ⟨h1, h2⟩ := hinv
  have hne : ∀ k i, i < nX → ¬ (k = kk ∧ i = n) →
      upperRow src N nX c kk n res (k * nX + i) = res (k * nX + i) := by
    intro k i hi hki
    unfold upperRow
    exact Function.update_noteq (flat_ne nX k i kk n hi hn hki) _ _
  have hup : ∀ k i, k < N → i < nX → (kk < k ∨ (k = kk ∧ n ≤ i)) →
      upPart N nX c (upperRow src N nX c kk n res) k i = upPart N nX c res k i := by
    intro k i hk hi hd
    apply upPart_congr
    · intro jj h3 hjj
      exact hne k jj hjj (by omega)
    · intro hk1 jj hjj
      exact hne (k + 1) jj hjj (by omega)
  constructor
  · intro k i hk hi hd
    rw [hup k i hk hi hd]
    by_cases hki : k = kk ∧ i = n
    · obtain ⟨e1, e2⟩ := hki
      subst e1; subst e2
      unfold upperRow
      rw [Function.update_same, hsrc res res0 _ (h2 k i hk hi (by omega))]
    · rw [hne k i hi hki]
      exact h1 k i hk hi (by omega)
  · intro k i hk hi hd
    rw [hne k i hi (by omega)]
    exact h2 k i hk hi (by omega)

theorem upperSweep_inner (src : (Nat → α) → Nat → α)
    (hsrc : ∀ (r r1 : Nat → α) (i : Nat), r i = r1 i → src r i = src r1 i)
    (N nX : Nat) (c : xn2x_matrix_t α) (res0 : Nat → α) (kk n : Nat)
    (hkk : kk < N) (hn : n ≤ nX) (res : Nat → α) (hinv : UpInv src N nX c res0 res kk n) :
    UpInv src N nX c res0
      (forDown (fun ii res => upperRow src N nX c kk ii res) 0 n res) kk 0 := by
  induction n generalizing res with
  | zero => exact hinv
  | succ n ih =>
    simp only [forDown, Nat.zero_add]
    exact ih (by omega) _ (upperRow_step src hsrc N nX c res0 res kk n hkk (by omega) hinv)

theorem upperSweep_outer (src : (Nat → α) → Nat → α)
    (hsrc : ∀ (r r1 : Nat → α) (i : Nat), r i = r1 i → src r i = src r1 i)
    (N nX : Nat) (c : xn2x_matrix_t α) (res0 : Nat → α) (m : Nat) (hm : m ≤ N)
    (res : Nat → α) (hinv : UpInv src N nX c res0 res m 0) :
    UpInv src N nX c res0
      (forDown (fun kk res => forDown (fun ii res => upperRow src N nX c kk ii res) 0 nX res)
        0 m res) 0 0 := by
  induction m generalizing res with
  | zero => exact hinv
  | succ m ih =>
    simp only [forDown, Nat.zero_add]
    apply ih (by omega)
    obtain ⟨h1, h2⟩ := hinv
    have h3 : UpInv src N nX c res0 res m nX :=
      ⟨fun k i hk hi hd => h1 k i hk hi (by omega), fun k i hk hi hd => h2 k i hk hi (by omega)⟩
    exact upperSweep_inner src hsrc N nX c res0 m nX (by omega) (le_refl _) res h3

theorem upperSweep_spec (src : (Nat → α) → Nat → α)
    (hsrc : ∀ (r r1 : Nat → α) (i : Nat), r i = r1 i → src r i = src r1 i)
    (N nX : Nat) (c : xn2x_matrix_t α) (res0 : Nat → α) (k i : Nat) (hk : k < N) (hi : i < nX) :
    upperSweep src N nX c res0 (k * nX + i)
      = (src res0 (k * nX + i) - upPart N nX c (upperSweep src N nX c res0) k i)
        / c (k, 0, i, i) := by
  have h0 : UpInv src N nX c res0 res0 N 0 :=
    ⟨fun k i hk _ hd => by omega, fun k i _ _ _ => rfl⟩
  have h1 := upperSweep_outer src hsrc N nX c res0 N (le_refl _) res0 h0
  by_cases h : 0 < k
  · exact h1.1 k i hk hi (Or.inl h)
  · exact h1.1 k i hk hi (Or.inr ⟨by omega, by omega⟩)

theorem lower_body_eq (nX : Nat) (c : xn2x_matrix_t α) (rhs : α) (kk ii : Nat) (res : Nat → α) :
    divide_f (forUp (fun jj sum =>
        sum - accCholHessian c kk 0 ii jj * res (kk * nX + jj)) 0 ii
      (if kk > 0 then
        forUp (fun jj sum =>
          sum - accCholHessian c kk (-1) ii jj * res ((kk - 1) * nX + jj)) 0 nX rhs
      else rhs)) (accCholHessian c kk 0 ii ii)
    = (rhs - lowPart nX c res kk ii) / c (kk, 0, ii, ii) := by
  simp only [accCholHessian, forUp_sub_eq, Nat.zero_add, divide_f, lowPart]
  split_ifs <;> ring

theorem upper_body_eq (N nX : Nat) (c : xn2x_matrix_t α) (rhs : α) (kk ii : Nat)
    (res : Nat → α) :
    divide_f (if kk + 1 < N then
        forUp (fun jj sum =>
          sum - accCholHessian c (kk + 1) (-1) jj ii * res ((kk + 1) * nX + jj)) 0 nX
          (forUp (fun jj sum =>
            sum - accCholHessian c kk 0 jj ii * res (kk * nX + jj)) (ii + 1) (nX - (ii + 1)) rhs)
      else
        forUp (fun jj sum =>
            sum - accCholHessian c kk 0 jj ii * res (kk * nX + jj)) (ii + 1) (nX - (ii + 1)) rhs)
      (accCholHessian c kk 0 ii ii)
    = (rhs - upPart N nX c res kk ii) / c (kk, 0, ii, ii) := by
  simp only [accCholHessian, forUp_sub_eq, Nat.zero_add, divide_f, upPart]
  split_ifs <;> ring

theorem solveNewtonEquation_eq_sweeps (opt : qpOptions_t α) (N nX : Nat) (res : Nat → α)
    (c : xn2x_matrix_t α) (g : Nat → α)
    (hinf : ∀ k i, k < N → i < nX → ¬ c (k, 0, i, i) > opt.QPDUNES_INFTY) :
    qpDUNES_solveNewtonEquation opt N nX res c g
      = (return_t.QPDUNES_OK,
          upperSweep (fun r => r) N nX c (lowerSweep (fun _ => g) N nX c res)) := by
  unfold qpDUNES_solveNewtonEquation upperSweep lowerSweep
  simp only [Prod.mk.injEq, true_and]
  have e1 : forUp (fun kk res =>
      forUp (fun ii res =>
        if accCholHessian c kk 0 ii ii > opt.QPDUNES_INFTY then
          Function.update res (kk * nX + ii) 0
        else
          Function.update res (kk * nX + ii)
            (divide_f (forUp (fun jj sum =>
                sum - accCholHessian c kk 0 ii jj * res (kk * nX + jj)) 0 ii
              (if kk > 0 then
                forUp (fun jj sum =>
                  sum - accCholHessian c kk (-1) ii jj * res ((kk - 1) * nX + jj)) 0 nX
                  (g (kk * nX + ii))
              else g (kk * nX + ii))) (accCholHessian c kk 0 ii ii))) 0 nX res) 0 N res
      = forUp (fun kk res =>
          forUp (fun ii res => lowerRow (fun _ => g) nX c kk ii res) 0 nX res) 0 N res := by
    apply forUp_congr
    intro kk r _ hkk
    apply forUp_congr
    intro ii r1 _ hii
    rw [if_neg (hinf kk ii (by omega) (by omega)), lower_body_eq]
    rfl
  have e2 : ∀ r0 : Nat → α, forDown (fun kk res =>
      forDown (fun ii res =>
        Function.update res (kk * nX + ii)
          (divide_f (if kk + 1 < N then
              forUp (fun jj sum =>
                sum - accCholHessian c (kk + 1) (-1) jj ii * res ((kk + 1) * nX + jj)) 0 nX
                (forUp (fun jj sum =>
                  sum - accCholHessian c kk 0 jj ii * res (kk * nX + jj))
                  (ii + 1) (nX - (ii + 1)) (res (kk * nX + ii)))
            else
              forUp (fun jj sum =>
                  sum - accCholHessian c kk 0 jj ii * res (kk * nX + jj))
                  (ii + 1) (nX - (ii + 1)) (res (kk * nX + ii)))
            (accCholHessian c kk 0 ii ii))) 0 nX res) 0 N r0
      = forDown (fun kk res =>
          forDown (fun ii res => upperRow (fun r => r) N nX c kk ii res) 0 nX res) 0 N r0 := by
    intro r0
    apply forDown_congr
    intro kk r _ hkk
    apply forDown_congr
    intro ii r1 _ hii
    rw [upper_body_eq]
    rfl
  rw [e1, e2]

theorem solveNewtonEquationBottomUp_eq_sweeps (N nX : Nat) (res : Nat → α)
    (c : xn2x_matrix_t α) (g : Nat → α) :
    qpDUNES_solveNewtonEquationBottomUp N nX res c g
      = (return_t.QPDUNES_OK,
          lowerSweep (fun r => r) N nX c (upperSweep (fun _ => g) N nX c res)) := by
  unfold qpDUNES_solveNewtonEquationBottomUp upperSweep lowerSweep
  simp only [Prod.mk.injEq, true_and]
  have e1 : forDown (fun kk res =>
      forDown (fun ii res =>
        Function.update res (kk * nX + ii)
          (divide_f (if kk + 1 < N then
              forUp (fun jj sum =>
                sum - accCholHessian c (kk + 1) (-1) jj ii * res ((kk + 1) * nX + jj)) 0 nX
                (forUp (fun jj sum =>
                  sum - accCholHessian c kk 0 jj ii * res (kk * nX + jj))
                  (ii + 1) (nX - (ii + 1)) (g (kk * nX + ii)))
            else
              forUp (fun jj sum =>
                  sum - accCholHessian c kk 0 jj ii * res (kk * nX + jj))
                  (ii + 1) (nX - (ii + 1)) (g (kk * nX + ii)))
            (accCholHessian c kk 0 ii ii))) 0 nX res) 0 N res
      = forDown (fun kk res =>
          forDown (fun ii res => upperRow (fun _ => g) N nX c kk ii res) 0 nX res) 0 N res := by
    apply forDown_congr
    intro kk r _ hkk
    apply forDown_congr
    intro ii r1 _ hii
    rw [upper_body_eq]
    rfl
  have e2 : ∀ r0 : Nat → α, forUp (fun kk res =>
      forUp (fun ii res =>
          Function.update res (kk * nX + ii)
            (divide_f (forUp (fun jj sum =>
                sum - accCholHessian c kk 0 ii jj * res (kk * nX + jj)) 0 ii
              (if kk > 0 then
                forUp (fun jj sum =>
                  sum - accCholHessian c kk (-1) ii jj * res ((kk - 1) * nX + jj)) 0 nX
                  (res (kk * nX + ii))
              else res (kk * nX + ii))) (accCholHessian c kk 0 ii ii))) 0 nX res) 0 N r0
      = forUp (fun kk res =>
          forUp (fun ii res => lowerRow (fun r => r) nX c kk ii res) 0 nX res) 0 N r0 := by
    intro r0
    apply forUp_congr
    intro kk r _ hkk
    apply forUp_congr
    intro ii r1 _ hii
    rw [lower_body_eq]
    rfl
  rw [e1, e2]

theorem cholFull_mulVec (N nX : Nat) (c : xn2x_matrix_t α) (v : Nat → α) (k : Fin N)
    (i : Fin nX) :
    (cholFull N nX c).mulVec (blockVec N nX v) (k, i)
      = lowPart nX c v k i + c ((k : Nat), 0, (i : Nat), (i : Nat)) * v ((k : Nat) * nX + (i : Nat)) := by
  unfold Matrix.mulVec Matrix.dotProduct
  rw [Fintype.sum_prod_type]
  simp only [cholFull, blockVec, Matrix.of_apply]
  have e1 : ∀ x : Fin N, ∑ y : Fin nX,
      (if (x : Nat) = (k : Nat) then
        (if (y : Nat) ≤ (i : Nat) then c ((k : Nat), 0, (i : Nat), (y : Nat)) else 0)
      else if (x : Nat) + 1 = (k : Nat) then c ((k : Nat), -1, (i : Nat), (y : Nat)) else 0)
        * v ((x : Nat) * nX + (y : Nat))
      = (fun x : Nat => if x = (k : Nat) then
          ∑ y in Finset.range nX, (if y ≤ (i : Nat) then
            c ((k : Nat), 0, (i : Nat), y) * v ((k : Nat) * nX + y) else 0)
        else if x + 1 = (k : Nat) then
          ∑ y in Finset.range nX, c ((k : Nat), -1, (i : Nat), y) * v (x * nX + y)
        else 0) (x : Nat) := by
    intro x
    by_cases h1 : (x : Nat) = (k : Nat)
    · simp only [h1, if_true]
      rw [← Fin.sum_univ_eq_sum_range (fun y => if y ≤ (i : Nat) then
        c ((k : Nat), 0, (i : Nat), y) * v ((k : Nat) * nX + y) else 0) nX]
      apply Finset.sum_congr rfl
      intro y _
      split_ifs <;> simp
    · simp only [h1, if_false]
      by_cases h2 : (x : Nat) + 1 = (k : Nat)
      · simp only [h2, if_true]
        rw [← Fin.sum_univ_eq_sum_range (fun y =>
          c ((k : Nat), -1, (i : Nat), y) * v ((x : Nat) * nX + y)) nX]
      · simp only [h2, if_false, zero_mul, Finset.sum_const_zero]
  simp only [e1]
  rw [Fin.sum_univ_eq_sum_range (fun x : Nat => if x = (k : Nat) then
          ∑ y in Finset.range nX, (if y ≤ (i : Nat) then
            c ((k : Nat), 0, (i : Nat), y) * v ((k : Nat) * nX + y) else 0)
        else if x + 1 = (k : Nat) then
          ∑ y in Finset.range nX, c ((k : Nat), -1, (i : Nat), y) * v (x * nX + y)
        else 0) N]
  rw [sum_range_pick N k k.2
    (fun _ => ∑ y in Finset.range nX, (if y ≤ (i : Nat) then
            c ((k : Nat), 0, (i : Nat), y) * v ((k : Nat) * nX + y) else 0))
    (fun x => ∑ y in Finset.range nX, c ((k : Nat), -1, (i : Nat), y) * v (x * nX + y))]
  rw [sum_range_ite_le _ i nX i.2, Finset.sum_range_succ]
  unfold lowPart
  ring

theorem cholFull_transpose_mulVec (N nX : Nat) (c : xn2x_matrix_t α) (v : Nat → α) (k : Fin N)
    (i : Fin nX) :
    (cholFull N nX c).transpose.mulVec (blockVec N nX v) (k, i)
      = upPart N nX c v k i + c ((k : Nat), 0, (i : Nat), (i : Nat)) * v ((k : Nat) * nX + (i : Nat)) := by
  unfold Matrix.mulVec Matrix.dotProduct
  rw [Fintype.sum_prod_type]
  simp only [cholFull, blockVec, Matrix.of_apply, Matrix.transpose_apply]
  have e1 : ∀ x : Fin N, ∑ y : Fin nX,
      (if (k : Nat) = (x : Nat) then
        (if (i : Nat) ≤ (y : Nat) then c ((x : Nat), 0, (y : Nat), (i : Nat)) else 0)
      else if (k : Nat) + 1 = (x : Nat) then c ((x : Nat), -1, (y : Nat), (i : Nat)) else 0)
        * v ((x : Nat) * nX + (y : Nat))
      = (fun x : Nat => if (k : Nat) = x then
          ∑ y in Finset.range nX, (if (i : Nat) ≤ y then
            c ((k : Nat), 0, y, (i : Nat)) * v ((k : Nat) * nX + y) else 0)
        else if (k : Nat) + 1 = x then
          ∑ y in Finset.range nX, c (x, -1, y, (i : Nat)) * v (x * nX + y)
        else 0) (x : Nat) := by
    intro x
    by_cases h1 : (k : Nat) = (x : Nat)
    · simp only [← h1, if_true]
      rw [← Fin.sum_univ_eq_sum_range (fun y => if (i : Nat) ≤ y then
        c ((k : Nat), 0, y, (i : Nat)) * v ((k : Nat) * nX + y) else 0) nX]
      apply Finset.sum_congr rfl
      intro y _
      split_ifs <;> simp
    · simp only [h1, if_false]
      by_cases h2 : (k : Nat) + 1 = (x : Nat)
      · simp only [h2, if_true]
        rw [← Fin.sum_univ_eq_sum_range (fun y =>
          c ((x : Nat), -1, y, (i : Nat)) * v ((x : Nat) * nX + y)) nX]
      · simp only [h2, if_false, zero_mul, Finset.sum_const_zero]
  simp only [e1]
  rw [Fin.sum_univ_eq_sum_range (fun x : Nat => if (k : Nat) = x then
          ∑ y in Finset.range nX, (if (i : Nat) ≤ y then
            c ((k : Nat), 0, y, (i : Nat)) * v ((k : Nat) * nX + y) else 0)
        else if (k : Nat) + 1 = x then
          ∑ y in Finset.range nX, c (x, -1, y, (i : Nat)) * v (x * nX + y)
        else 0) N]
  rw [sum_range_pick_up N k k.2
    (fun _ => ∑ y in Finset.range nX, (if (i : Nat) ≤ y then
            c ((k : Nat), 0, y, (i : Nat)) * v ((k : Nat) * nX + y) else 0))
    (fun x => ∑ y in Finset.range nX, c (x, -1, y, (i : Nat)) * v (x * nX + y))]
  rw [sum_range_ite_ge (fun y => c ((k : Nat), 0, y, (i : Nat)) * v ((k : Nat) * nX + y))
    i nX i.2]
  unfold upPart
  ring

/-- The lower sweep solves `L x = rhs` when the diagonal is nonzero. -/
theorem lowerSweep_mulVec (src : (Nat → α) → Nat → α)
    (hsrc : ∀ (r r1 : Nat → α) (i : Nat), r i = r1 i → src r i = src r1 i)
    (N nX : Nat) (c : xn2x_matrix_t α) (res0 : Nat → α)
    (hd : ∀ k i, k < N → i < nX → c (k, 0, i, i) ≠ 0) :
    (cholFull N nX c).mulVec (blockVec N nX (lowerSweep src N nX c res0))
      = blockVec N nX (src res0) := by
  funext p
  obtain ⟨k, i⟩ := p
  rw [cholFull_mulVec, lowerSweep_spec src hsrc N nX c res0 k i k.2 i.2]
  unfold blockVec
  field_simp [hd k i k.2 i.2]

/-- The upper sweep solves `L^T x = rhs` when the diagonal is nonzero. -/
theorem upperSweep_mulVec (src : (Nat → α) → Nat → α)
    (hsrc : ∀ (r r1 : Nat → α) (i : Nat), r i = r1 i → src r i = src r1 i)
    (N nX : Nat) (c : xn2x_matrix_t α) (res0 : Nat → α)
    (hd : ∀ k i, k < N → i < nX → c (k, 0, i, i) ≠ 0) :
    (cholFull N nX c).transpose.mulVec (blockVec N nX (upperSweep src N nX c res0))
      = blockVec N nX (src res0) := by
  funext p
  obtain ⟨k, i⟩ := p
  rw [cholFull_transpose_mulVec, upperSweep_spec src hsrc N nX c res0 k i k.2 i.2]
  unfold blockVec
  field_simp [hd k i k.2 i.2]

end SolveLemmas

/-! ## The factor identities as matrix equations -/

section FullIdentity

variable {α : Type} [LinearOrderedField α]

theorem flat_div (nX x l : Nat) (hl : l < nX) : (x * nX + l) / nX = x := by
  rw [Nat.mul_comm, Nat.mul_add_div (by omega), Nat.div_eq_of_lt hl, Nat.add_zero]

theorem flat_mod (nX x l : Nat) (hl : l < nX) : (x * nX + l) % nX = l := by
  rw [Nat.mul_comm, Nat.mul_add_mod, Nat.mod_eq_of_lt hl]

theorem cholColVec_at (nX : Nat) (c : xn2x_matrix_t α) (b jq x l : Nat) (hl : l < nX) :
    cholColVec nX c b jq (x * nX + l)
      = if b = x then (if jq ≤ l then c (x, 0, l, jq) else 0)
        else if b + 1 = x then c (x, -1, l, jq) else 0 := by
  unfold cholColVec
  rw [flat_div nX x l hl, flat_mod nX x l hl]

theorem cholRowVec_at (nX : Nat) (c : xn2x_matrix_t α) (b jq x l : Nat) (hl : l < nX) :
    cholRowVec nX c b jq (x * nX + l)
      = if x = b then (if l ≤ jq then c (b, 0, jq, l) else 0)
        else if x + 1 = b then c (b, -1, jq, l) else 0 := by
  unfold cholRowVec
  rw [flat_div nX x l hl, flat_mod nX x l hl]

theorem cholFull_transpose_mul_apply (N nX : Nat) (c : xn2x_matrix_t α)
    (p q : Fin N × Fin nX) :
    ((cholFull N nX c).transpose * cholFull N nX c) p q
      = upPart N nX c (cholColVec nX c q.1 q.2) p.1 p.2
        + c ((p.1 : Nat), 0, (p.2 : Nat), (p.2 : Nat))
          * cholColVec nX c q.1 q.2 ((p.1 : Nat) * nX + (p.2 : Nat)) := by
  rw [← cholFull_transpose_mulVec N nX c (cholColVec nX c q.1 q.2) p.1 p.2]
  rw [Matrix.mul_apply]
  unfold Matrix.mulVec Matrix.dotProduct
  apply Finset.sum_congr rfl
  intro r _
  congr 1
  unfold blockVec
  rw [cholColVec_at nX c _ _ _ _ r.2.2]
  simp only [cholFull, Matrix.of_apply]

theorem cholFull_mul_transpose_apply (N nX : Nat) (c : xn2x_matrix_t α)
    (p q : Fin N × Fin nX) :
    (cholFull N nX c * (cholFull N nX c).transpose) p q
      = lowPart nX c (cholRowVec nX c q.1 q.2) p.1 p.2
        + c ((p.1 : Nat), 0, (p.2 : Nat), (p.2 : Nat))
          * cholRowVec nX c q.1 q.2 ((p.1 : Nat) * nX + (p.2 : Nat)) := by
  rw [← cholFull_mulVec N nX c (cholRowVec nX c q.1 q.2) p.1 p.2]
  rw [Matrix.mul_apply]
  unfold Matrix.mulVec Matrix.dotProduct
  apply Finset.sum_congr rfl
  intro r _
  congr 1
  unfold blockVec
  rw [cholRowVec_at nX c _ _ _ _ r.2.2]
  simp only [cholFull, Matrix.of_apply, Matrix.transpose_apply]

theorem rev_entry_identity (sqrt_f : α → α) (hsqrt : ∀ x, 0 ≤ x → sqrt_f x * sqrt_f x = x)
    (opt : qpOptions_t α) (N nX : Nat) (h c : xn2x_matrix_t α)
    (hreg : opt.regType ≠ regType_t.QPDUNES_REG_SINGULAR_DIRECTIONS)
    (htol : 0 < opt.equalityTolerance)
    (hrows : ∀ k j, k < N → j < nX → RevRowOK sqrt_f opt N nX h c k j)
    (a i b jq : Nat) (ha : a < N) (hi : i < nX) (hb : b < N) (hjq : jq < nX) :
    upPart N nX c (cholColVec nX c b jq) a i + c (a, 0, i, i) * cholColVec nX c b jq (a * nX + i)
      = if b = a then (if jq ≤ i then h (a, 0, i, jq) else h (a, 0, jq, i))
        else if b + 1 = a then h (a, -1, i, jq)
        else if a + 1 = b then h (b, -1, jq, i) else 0 := by
  unfold upPart
  have e1 : ∑ t in Finset.range (nX - (i + 1)),
      c (a, 0, i + 1 + t, i) * cholColVec nX c b jq (a * nX + (i + 1 + t))
      = ∑ t in Finset.range (nX - (i + 1)), c (a, 0, i + 1 + t, i) *
          (if b = a then (if jq ≤ i + 1 + t then c (a, 0, i + 1 + t, jq) else 0)
            else if b + 1 = a then c (a, -1, i + 1 + t, jq) else 0) :=
    Finset.sum_congr rfl (fun t ht => by
      have := Finset.mem_range.mp ht
      rw [cholColVec_at nX c b jq a (i + 1 + t) (by omega)])
  have e2 : ∑ jj in Finset.range nX, c (a + 1, -1, jj, i) * cholColVec nX c b jq ((a + 1) * nX + jj)
      = ∑ jj in Finset.range nX, c (a + 1, -1, jj, i) *
          (if b = a + 1 then (if jq ≤ jj then c (a + 1, 0, jj, jq) else 0)
            else if b + 1 = a + 1 then c (a + 1, -1, jj, jq) else 0) :=
    Finset.sum_congr rfl (fun t ht => by
      rw [cholColVec_at nX c b jq (a + 1) t (Finset.mem_range.mp ht)])
  rw [e1, e2, cholColVec_at nX c b jq a i hi]
  by_cases hab : b = a
  · subst hab
    have hne : ¬ (b = b + 1) := by omega
    simp only [if_true, hne, if_false]
    have hmul : ∀ (x : α) (P : Prop) [Decidable P] (y : α),
        x * (if P then y else 0) = if P then x * y else 0 := by
      intro x P _ y; split_ifs <;> simp
    by_cases hji : jq ≤ i
    · have key := rev_row_identity sqrt_f hsqrt opt N nX h c b jq i hreg htol
        (hrows b i hb hi) hji
      rw [if_pos hji, if_pos hji, ← key]
      have s1 : ∑ t in Finset.range (nX - (i + 1)), c (b, 0, i + 1 + t, i) *
            (if jq ≤ i + 1 + t then c (b, 0, i + 1 + t, jq) else 0)
          = ∑ t in Finset.range (nX - (i + 1)),
            c (b, 0, i + 1 + t, jq) * c (b, 0, i + 1 + t, i) :=
        Finset.sum_congr rfl (fun t _ => by rw [if_pos (by omega)]; ring)
      have s2 : ∑ jj in Finset.range nX, c (b + 1, -1, jj, i) * c (b + 1, -1, jj, jq)
          = ∑ l in Finset.range nX, c (b + 1, -1, l, jq) * c (b + 1, -1, l, i) :=
        Finset.sum_congr rfl (fun t _ => by ring)
      rw [s1, s2]
      ring
    · have key := rev_row_identity sqrt_f hsqrt opt N nX h c b i jq hreg htol
        (hrows b jq hb hjq) (by omega)
      rw [if_neg hji, if_neg hji, ← key]
      have A := sum_range_ite_ge
        (fun l => if jq ≤ l then c (b, 0, l, i) * c (b, 0, l, jq) else 0) i nX hi
      have B := sum_range_ite_ge (fun l => c (b, 0, l, i) * c (b, 0, l, jq)) jq nX hjq
      have C : ∑ l in Finset.range nX,
            (if i ≤ l then (if jq ≤ l then c (b, 0, l, i) * c (b, 0, l, jq) else 0) else 0)
          = ∑ l in Finset.range nX,
            (if jq ≤ l then c (b, 0, l, i) * c (b, 0, l, jq) else 0) :=
        Finset.sum_congr rfl (fun l _ => by split_ifs <;> first | rfl | omega)
      simp only at A B
      rw [if_neg hji, zero_add, C, B] at A
      simp only [hmul]
      rw [← A]
      ring
  · by_cases hba : b + 1 = a
    · subst hba
      have hne1 : ¬ (b = b + 1) := by omega
      have hne2 : ¬ (b = b + 1 + 1) := by omega
      have hne3 : ¬ (b + 1 = b + 1 + 1) := by omega
      simp only [if_true, hne1, hne2, hne3, if_false, mul_zero, Finset.sum_const_zero, ite_self,
        add_zero]
      have key := rev_sub_identity sqrt_f hsqrt opt N nX h c (b + 1) jq i hreg htol
        (hrows (b + 1) i ha hi) (by omega) hjq
      rw [← key]
      have s1 : ∑ t in Finset.range (nX - (i + 1)),
            c (b + 1, 0, i + 1 + t, i) * c (b + 1, -1, i + 1 + t, jq)
          = ∑ t in Finset.range (nX - (i + 1)),
            c (b + 1, -1, i + 1 + t, jq) * c (b + 1, 0, i + 1 + t, i) :=
        Finset.sum_congr rfl (fun t _ => by ring)
      rw [s1]
      ring
    · by_cases hab1 : a + 1 = b
      · subst hab1
        have hne1 : ¬ (a + 1 = a) := by omega
        have hne2 : ¬ (a + 1 + 1 = a) := by omega
        have hne3 : ¬ (a + 1 + 1 = a + 1) := by omega
        simp only [if_true, hne1, hne2, hne3, if_false, mul_zero, Finset.sum_const_zero,
          add_zero, zero_add, if_pos hb]
        have key := rev_sub_identity sqrt_f hsqrt opt N nX h c (a + 1) i jq hreg htol
          (hrows (a + 1) jq hb hjq) (by omega) hi
        rw [← key]
        have B := sum_range_ite_ge (fun l => c (a + 1, -1, l, i) * c (a + 1, 0, l, jq)) jq nX hjq
        simp only at B
        rw [← B]
        apply Finset.sum_congr rfl
        intro l _
        split_ifs <;> simp
      · have hne1 : ¬ (b = a + 1) := fun e => hab1 e.symm
        have hne2 : ¬ (b + 1 = a + 1) := by omega
        simp only [hab, hba, hab1, hne1, hne2, if_false, mul_zero, Finset.sum_const_zero,
          ite_self, add_zero]

theorem fwd_entry_identity (sqrt_f : α → α) (hsqrt : ∀ x, 0 ≤ x → sqrt_f x * sqrt_f x = x)
    (opt : qpOptions_t α) (N nX : Nat) (h c : xn2x_matrix_t α)
    (hreg : opt.regType ≠ regType_t.QPDUNES_REG_SINGULAR_DIRECTIONS)
    (htol : 0 < opt.newtonHessDiagRegTolerance)
    (hcols : ∀ k j, k < N → j < nX → FwdColOK sqrt_f opt N nX h c k j)
    (a i b jq : Nat) (ha : a < N) (hi : i < nX) (hb : b < N) (hjq : jq < nX) :
    lowPart nX c (cholRowVec nX c b jq) a i + c (a, 0, i, i) * cholRowVec nX c b jq (a * nX + i)
      = if b = a then (if jq ≤ i then h (a, 0, i, jq) else h (a, 0, jq, i))
        else if b + 1 = a then h (a, -1, i, jq)
        else if a + 1 = b then h (b, -1, jq, i) else 0 := by
  unfold lowPart
  have e1 : ∑ jj in Finset.range nX, c (a, -1, i, jj) * cholRowVec nX c b jq ((a - 1) * nX + jj)
      = ∑ jj in Finset.range nX, c (a, -1, i, jj) *
          (if a - 1 = b then (if jj ≤ jq then c (b, 0, jq, jj) else 0)
            else if a - 1 + 1 = b then c (b, -1, jq, jj) else 0) :=
    Finset.sum_congr rfl (fun t ht => by
      rw [cholRowVec_at nX c b jq (a - 1) t (Finset.mem_range.mp ht)])
  have e2 : ∑ jj in Finset.range i, c (a, 0, i, jj) * cholRowVec nX c b jq (a * nX + jj)
      = ∑ jj in Finset.range i, c (a, 0, i, jj) *
          (if a = b then (if jj ≤ jq then c (b, 0, jq, jj) else 0)
            else if a + 1 = b then c (b, -1, jq, jj) else 0) :=
    Finset.sum_congr rfl (fun t ht => by
      have := Finset.mem_range.mp ht
      rw [cholRowVec_at nX c b jq a t (by omega)])
  rw [e1, e2, cholRowVec_at nX c b jq a i hi]
  have hmul : ∀ (x : α) (P : Prop) [Decidable P] (y : α),
      x * (if P then y else 0) = if P then x * y else 0 := by
    intro x P _ y; split_ifs <;> simp
  by_cases hab : b = a
  · subst hab
    have hne1 : ¬ (b - 1 = b ∧ b > 0) := by omega
    have hne : ¬ (b = b + 1) := by omega
    simp only [if_true, hne, if_false]
    have e3 : (if b > 0 then ∑ jj in Finset.range nX, c (b, -1, i, jj) *
          (if b - 1 = b then (if jj ≤ jq then c (b, 0, jq, jj) else 0)
            else if b - 1 + 1 = b then c (b, -1, jq, jj) else 0) else 0)
        = (if b > 0 then ∑ jj in Finset.range nX, c (b, -1, i, jj) * c (b, -1, jq, jj) else 0) := by
      by_cases hb0 : b > 0
      · rw [if_pos hb0, if_pos hb0]
        apply Finset.sum_congr rfl
        intro t _
        rw [if_neg (by omega), if_pos (by omega)]
      · rw [if_neg hb0, if_neg hb0]
    rw [e3]
    by_cases hji : jq ≤ i
    · have key := fwd_row_identity sqrt_f hsqrt opt N nX h c b i jq hreg htol
        (hcols b jq hb hjq) hji hi
      rw [if_pos hji, ← key]
      have A := sum_range_ite_le (fun l => c (b, 0, i, l) * c (b, 0, jq, l)) jq (i + 1)
        (by omega)
      simp only at A
      rw [← A, Finset.sum_range_succ]
      simp only [hmul]
      ring
    · have key := fwd_row_identity sqrt_f hsqrt opt N nX h c b jq i hreg htol
        (hcols b i hb hi) (by omega) hjq
      rw [if_neg hji, ← key, Finset.sum_range_succ, if_pos (show i ≤ jq by omega)]
      have s1 : ∑ jj in Finset.range i, c (b, 0, i, jj) *
            (if jj ≤ jq then c (b, 0, jq, jj) else 0)
          = ∑ l in Finset.range i, c (b, 0, jq, l) * c (b, 0, i, l) :=
        Finset.sum_congr rfl (fun t ht => by
          have := Finset.mem_range.mp ht
          rw [if_pos (by omega)]; ring)
      have s2 : ∑ jj in Finset.range nX, c (b, -1, i, jj) * c (b, -1, jq, jj)
          = ∑ l in Finset.range nX, c (b, -1, jq, l) * c (b, -1, i, l) :=
        Finset.sum_congr rfl (fun t _ => by ring)
      rw [s1, s2]
      ring
  · by_cases hba : b + 1 = a
    · subst hba
      have hne1 : ¬ (b = b + 1) := by omega
      have hne2 : ¬ (b + 1 = b) := by omega
      have hne3 : ¬ (b + 1 + 1 = b) := by omega
      have hpos : b + 1 > 0 := by omega
      simp only [if_true, hne1, hne2, hne3, if_false, mul_zero, Finset.sum_const_zero,
        add_zero, Nat.add_sub_cancel, if_pos hpos]
      have key := fwd_sub_identity sqrt_f hsqrt opt N nX h c b i jq hreg htol
        (hcols b jq hb hjq) ha hi
      rw [← key]
      have A := sum_range_ite_le (fun l => c (b + 1, -1, i, l) * c (b, 0, jq, l)) jq nX hjq
      simp only at A
      rw [← A]
      apply Finset.sum_congr rfl
      intro l _
      split_ifs <;> simp
    · by_cases hab1 : a + 1 = b
      · subst hab1
        have hne1 : ¬ (a = a + 1) := by omega
        have e3 : (if a > 0 then ∑ jj in Finset.range nX, c (a, -1, i, jj) *
              (if a - 1 = a + 1 then (if jj ≤ jq then c (a + 1, 0, jq, jj) else 0)
                else if a - 1 + 1 = a + 1 then c (a + 1, -1, jq, jj) else 0) else 0) = 0 := by
          by_cases ha0 : a > 0
          · rw [if_pos ha0]
            apply Finset.sum_eq_zero
            intro t _
            rw [if_neg (by omega), if_neg (by omega), mul_zero]
          · rw [if_neg ha0]
        rw [e3]
        simp only [if_true, hne1, hab, hba, if_false, zero_add]
        have key := fwd_sub_identity sqrt_f hsqrt opt N nX h c a jq i hreg htol
          (hcols a i ha hi) hb hjq
        rw [← key, Finset.sum_range_succ]
        have s1 : ∑ jj in Finset.range i, c (a, 0, i, jj) * c (a + 1, -1, jq, jj)
            = ∑ l in Finset.range i, c (a + 1, -1, jq, l) * c (a, 0, i, l) :=
          Finset.sum_congr rfl (fun t _ => by ring)
        rw [s1]
        ring
      · have e3 : (if a > 0 then ∑ jj in Finset.range nX, c (a, -1, i, jj) *
              (if a - 1 = b then (if jj ≤ jq then c (b, 0, jq, jj) else 0)
                else if a - 1 + 1 = b then c (b, -1, jq, jj) else 0) else 0) = 0 := by
          by_cases ha0 : a > 0
          · rw [if_pos ha0]
            apply Finset.sum_eq_zero
            intro t _
            rw [if_neg (by omega), if_neg (by omega), mul_zero]
          · rw [if_neg ha0]
        have hne1 : ¬ (a = b) := fun e => hab e.symm
        rw [e3]
        simp only [hab, hba, hab1, hne1, if_false, mul_zero, Finset.sum_const_zero, add_zero]

theorem rev_full_identity (sqrt_f : α → α) (hsqrt : ∀ x, 0 ≤ x → sqrt_f x * sqrt_f x = x)
    (opt : qpOptions_t α) (N nX : Nat) (h c : xn2x_matrix_t α)
    (hreg : opt.regType ≠ regType_t.QPDUNES_REG_SINGULAR_DIRECTIONS)
    (htol : 0 < opt.equalityTolerance)
    (hrows : ∀ k j, k < N → j < nX → RevRowOK sqrt_f opt N nX h c k j) :
    (cholFull N nX c).transpose * cholFull N nX c = symFull N nX h := by
  ext p q
  rw [cholFull_transpose_mul_apply,
    rev_entry_identity sqrt_f hsqrt opt N nX h c hreg htol hrows p.1 p.2 q.1 q.2
      p.1.2 p.2.2 q.1.2 q.2.2]
  simp only [symFull, Matrix.of_apply]

theorem fwd_full_identity (sqrt_f : α → α) (hsqrt : ∀ x, 0 ≤ x → sqrt_f x * sqrt_f x = x)
    (opt : qpOptions_t α) (N nX : Nat) (h c : xn2x_matrix_t α)
    (hreg : opt.regType ≠ regType_t.QPDUNES_REG_SINGULAR_DIRECTIONS)
    (htol : 0 < opt.newtonHessDiagRegTolerance)
    (hcols : ∀ k j, k < N → j < nX → FwdColOK sqrt_f opt N nX h c k j) :
    cholFull N nX c * (cholFull N nX c).transpose = symFull N nX h := by
  ext p q
  rw [cholFull_mul_transpose_apply,
    fwd_entry_identity sqrt_f hsqrt opt N nX h c hreg htol hcols p.1 p.2 q.1 q.2
      p.1.2 p.2.2 q.1.2 q.2.2]
  simp only [symFull, Matrix.of_apply]

end FullIdentity

/-! ## Factorizations that did not regularize -/

section NoRegularization

variable {α : Type} [LinearOrderedField α]

theorem fwd_column_flag (sqrt_f : α → α) (opt : qpOptions_t α) (N nX : Nat)
    (h : xn2x_matrix_t α) (kk jj : Nat) (st st1 : cholState_t α)
    (hstep : factorizeNewtonHessian_column sqrt_f opt N nX h kk jj st = Except.ok st1)
    (hflag : st1.isHessianRegularized = false) :
    st.isHessianRegularized = false ∧
    factorizeNewtonHessian_column sqrt_f (noSing opt) N nX h kk jj st = Except.ok st1 := by
  unfold factorizeNewtonHessian_column at hstep ⊢
  have hns : ¬ ((noSing opt).regType = regType_t.QPDUNES_REG_SINGULAR_DIRECTIONS ∧
      factorizeNewtonHessian_pivot nX h st.cholHessian kk jj
        < (noSing opt).newtonHessDiagRegTolerance) := by
    intro hh
    have := hh.1
    simp [noSing] at this
  have htol : (noSing opt).newtonHessDiagRegTolerance = opt.newtonHessDiagRegTolerance := rfl
  dsimp only at hstep ⊢
  rw [if_neg hns, htol]
  split_ifs at hstep with h1 h2
  · simp only [Except.ok.injEq] at hstep
    rw [← hstep] at hflag
    cases hflag
  · rw [if_neg h2]
    simp only [Except.ok.injEq] at hstep
    rw [← hstep] at hflag
    exact ⟨hflag, by rw [hstep]⟩

theorem rev_column_flag (sqrt_f : α → α) (opt : qpOptions_t α) (N nX : Nat)
    (h : xn2x_matrix_t α) (kk jj : Nat) (st st1 : cholState_t α)
    (hstep : factorizeNewtonHessianBottomUp_column sqrt_f opt N nX h kk jj st = Except.ok st1)
    (hflag : st1.isHessianRegularized = false) :
    st.isHessianRegularized = false ∧
    factorizeNewtonHessianBottomUp_column sqrt_f (noSing opt) N nX h kk jj st
      = Except.ok st1 := by
  unfold factorizeNewtonHessianBottomUp_column at hstep ⊢
  have hns : ¬ ((noSing opt).regType = regType_t.QPDUNES_REG_SINGULAR_DIRECTIONS ∧
      factorizeNewtonHessianBottomUp_pivot N nX h st.cholHessian kk jj
        < (noSing opt).newtonHessDiagRegTolerance) := by
    intro hh
    have := hh.1
    simp [noSing] at this
  have htol : (noSing opt).equalityTolerance = opt.equalityTolerance := rfl
  dsimp only at hstep ⊢
  rw [if_neg hns, htol]
  split_ifs at hstep with h1 h2
  · simp only [Except.ok.injEq] at hstep
    rw [← hstep] at hflag
    cases hflag
  · rw [if_neg h2]
    simp only [Except.ok.injEq] at hstep
    rw [← hstep] at hflag
    exact ⟨hflag, by rw [hstep]⟩

theorem factorizeNewtonHessian_noSing (sqrt_f : α → α) (opt : qpOptions_t α) (N nX : Nat)
    (c0 h : xn2x_matrix_t α)
    (hOK : (qpDUNES_factorizeNewtonHessian sqrt_f opt N nX c0 h false).1
      = return_t.QPDUNES_OK)
    (hflag : (qpDUNES_factorizeNewtonHessian sqrt_f opt N nX c0 h false).2.isHessianRegularized
      = false) :
    qpDUNES_factorizeNewtonHessian sqrt_f (noSing opt) N nX c0 h false
      = qpDUNES_factorizeNewtonHessian sqrt_f opt N nX c0 h false := by
  unfold qpDUNES_factorizeNewtonHessian at hOK hflag ⊢
  cases hrun : forUpM (fun kk st =>
      forUpM (fun jj st => factorizeNewtonHessian_column sqrt_f opt N nX h kk jj st) 0 nX st)
      0 N (⟨c0, false⟩ : cholState_t α) with
  | error e =>
    rw [hrun] at hOK
    exfalso
    have h1 : e.1 = return_t.QPDUNES_ERR_DIVISION_BY_ZERO :=
      forUpM_error _ (fun e => e.1 = return_t.QPDUNES_ERR_DIVISION_BY_ZERO)
        (fun kk s e1 he1 => forUpM_error _ (fun e => e.1 = return_t.QPDUNES_ERR_DIVISION_BY_ZERO)
          (fun jj s2 e2 he2 => factorizeNewtonHessian_column_error sqrt_f opt N nX h kk jj s2 e2 he2)
          0 nX s e1 he1) 0 N _ e hrun
    simp only at hOK
    rw [h1] at hOK
    cases hOK
  | ok s1 =>
    rw [hrun] at hflag
    simp only at hflag
    have good_mono : ∀ kk (s s2 : cholState_t α),
        forUpM (fun jj st => factorizeNewtonHessian_column sqrt_f opt N nX h kk jj st) 0 nX s
          = Except.ok s2 → s2.isHessianRegularized = false → s.isHessianRegularized = false :=
      fun kk s s2 hr hg => forUpM_mono _ (fun s => s.isHessianRegularized = false)
        (fun jj a b hab hb => (fwd_column_flag sqrt_f opt N nX h kk jj a b hab hb).1)
        0 nX s s2 hr hg
    have tr := forUpM_transfer
      (fun kk st =>
        forUpM (fun jj st => factorizeNewtonHessian_column sqrt_f opt N nX h kk jj st) 0 nX st)
      (fun kk st =>
        forUpM (fun jj st => factorizeNewtonHessian_column sqrt_f (noSing opt) N nX h kk jj st)
          0 nX st)
      (fun s => s.isHessianRegularized = false) good_mono
      (fun kk s s2 hr hg => forUpM_transfer _ _ (fun s => s.isHessianRegularized = false)
        (fun jj a b hab hb => (fwd_column_flag sqrt_f opt N nX h kk jj a b hab hb).1)
        (fun jj a b hab hb => (fwd_column_flag sqrt_f opt N nX h kk jj a b hab hb).2)
        0 nX s s2 hr hg)
      0 N _ s1 hrun hflag
    rw [tr]

theorem factorizeNewtonHessianBottomUp_noSing (sqrt_f : α → α) (opt : qpOptions_t α)
    (N nX : Nat) (c0 h : xn2x_matrix_t α) (idx : Int)
    (hOK : (qpDUNES_factorizeNewtonHessianBottomUp sqrt_f opt N nX c0 h idx false).1
      = return_t.QPDUNES_OK)
    (hflag : (qpDUNES_factorizeNewtonHessianBottomUp sqrt_f opt N nX c0 h idx
      false).2.isHessianRegularized = false) :
    qpDUNES_factorizeNewtonHessianBottomUp sqrt_f (noSing opt) N nX c0 h idx false
      = qpDUNES_factorizeNewtonHessianBottomUp sqrt_f opt N nX c0 h idx false := by
  unfold qpDUNES_factorizeNewtonHessianBottomUp at hOK hflag ⊢
  cases hrun : forDownM (fun kk st =>
      forDownM (fun jj st =>
        factorizeNewtonHessianBottomUp_column sqrt_f opt N nX h kk jj st) 0 nX st)
      0 (blockIdxStart N idx + 1).toNat (⟨c0, false⟩ : cholState_t α) with
  | error e =>
    rw [hrun] at hOK
    exfalso
    have h1 : e.1 = return_t.QPDUNES_ERR_DIVISION_BY_ZERO :=
      forDownM_error _ (fun e => e.1 = return_t.QPDUNES_ERR_DIVISION_BY_ZERO)
        (fun kk s e1 he1 => forDownM_error _
          (fun e => e.1 = return_t.QPDUNES_ERR_DIVISION_BY_ZERO)
          (fun jj s2 e2 he2 => by
            rw [factorizeNewtonHessianBottomUp_column_error sqrt_f opt N nX h kk jj s2 e2 he2])
          0 nX s e1 he1) 0 _ _ e hrun
    simp only at hOK
    rw [h1] at hOK
    cases hOK
  | ok s1 =>
    rw [hrun] at hflag
    simp only at hflag
    have good_mono : ∀ kk (s s2 : cholState_t α),
        forDownM (fun jj st =>
          factorizeNewtonHessianBottomUp_column sqrt_f opt N nX h kk jj st) 0 nX s
          = Except.ok s2 → s2.isHessianRegularized = false → s.isHessianRegularized = false :=
      fun kk s s2 hr hg => forDownM_mono _ (fun s => s.isHessianRegularized = false)
        (fun jj a b hab hb => (rev_column_flag sqrt_f opt N nX h kk jj a b hab hb).1)
        0 nX s s2 hr hg
    have tr := forDownM_transfer
      (fun kk st =>
        forDownM (fun jj st =>
          factorizeNewtonHessianBottomUp_column sqrt_f opt N nX h kk jj st) 0 nX st)
      (fun kk st =>
        forDownM (fun jj st =>
          factorizeNewtonHessianBottomUp_column sqrt_f (noSing opt) N nX h kk jj st) 0 nX st)
      (fun s => s.isHessianRegularized = false) good_mono
      (fun kk s s2 hr hg => forDownM_transfer _ _ (fun s => s.isHessianRegularized = false)
        (fun jj a b hab hb => (rev_column_flag sqrt_f opt N nX h kk jj a b hab hb).1)
        (fun jj a b hab hb => (rev_column_flag sqrt_f opt N nX h kk jj a b hab hb).2)
        0 nX s s2 hr hg)
      0 _ _ s1 hrun hflag
    rw [tr]

theorem cholFull_det_ne_zero (N nX : Nat) (c : xn2x_matrix_t α)
    (hd : ∀ k i, k < N → i < nX → c (k, 0, i, i) ≠ 0) : (cholFull N nX c).det ≠ 0 := by
  have e : (cholFull N nX c).det
      = (Matrix.reindex (toLex : Fin N × Fin nX ≃ Lex (Fin N × Fin nX)) toLex
          (cholFull N nX c)).det :=
    (Matrix.det_reindex_self _ _).symm
  rw [e, Matrix.det_of_lowerTriangular]
  · rw [Finset.prod_ne_zero_iff]
    intro p _
    simp only [Matrix.reindex_apply, Matrix.submatrix_apply, cholFull, Matrix.of_apply]
    simp
    exact hd _ _ (ofLex p).1.2 (ofLex p).2.2
  · intro p q hpq
    simp only [Matrix.reindex_apply, Matrix.submatrix_apply, cholFull, Matrix.of_apply]
    have h1 : p < q := hpq
    have h2 := (Prod.Lex.lt_iff (ofLex p) (ofLex q)).mp h1
    have e1 : toLex.symm p = ofLex p := rfl
    have e2 : toLex.symm q = ofLex q := rfl
    rw [e1, e2]
    rcases h2 with h3 | ⟨h3, h4⟩
    · have h5 : ((ofLex p).1 : Nat) < ((ofLex q).1 : Nat) := h3
      rw [if_neg (by omega), if_neg (by omega)]
    · have h5 : ((ofLex p).2 : Nat) < ((ofLex q).2 : Nat) := h4
      rw [if_pos (by rw [h3]), if_neg (by omega)]

theorem fwd_pivot_ne_zero (sqrt_f : α → α) (hsqrt : ∀ x, 0 ≤ x → sqrt_f x * sqrt_f x = x)
    (opt : qpOptions_t α) (N nX : Nat) (h c : xn2x_matrix_t α) (k j : Nat)
    (hreg : opt.regType ≠ regType_t.QPDUNES_REG_SINGULAR_DIRECTIONS)
    (htol : 0 < opt.newtonHessDiagRegTolerance)
    (hcol : FwdColOK sqrt_f opt N nX h c k j) : c (k, 0, j, j) ≠ 0 := by
  obtain ⟨h1, h2, _, _⟩ := hcol
  have h4 : ¬ fwdSum nX h c k j j < opt.newtonHessDiagRegTolerance := by
    rcases h1 with h1 | h1
    · exact absurd h1 hreg
    · exact h1
  have h5 : fwdReg opt (fwdSum nX h c k j j) = fwdSum nX h c k j j := by
    unfold fwdReg
    rw [if_neg (fun hh => hreg hh.1)]
  rw [h5] at h2
  have h6 : 0 < fwdSum nX h c k j j := lt_of_lt_of_le htol (not_lt.mp h4)
  have h7 : c (k, 0, j, j) * c (k, 0, j, j) = fwdSum nX h c k j j := by
    rw [h2]; exact hsqrt _ (le_of_lt h6)
  intro h9
  rw [h9, mul_zero] at h7
  rw [← h7] at h6
  exact lt_irrefl _ h6

theorem solveNewtonEquation_mulVec (opt : qpOptions_t α) (N nX : Nat) (res : Nat → α)
    (c : xn2x_matrix_t α) (g : Nat → α)
    (hd : ∀ k i, k < N → i < nX → c (k, 0, i, i) ≠ 0 ∧ c (k, 0, i, i) ≤ opt.QPDUNES_INFTY) :
    (cholFull N nX c * (cholFull N nX c).transpose).mulVec
        (blockVec N nX (qpDUNES_solveNewtonEquation opt N nX res c g).2)
      = blockVec N nX g := by
  rw [solveNewtonEquation_eq_sweeps opt N nX res c g
    (fun k i hk hi => not_lt.mpr (hd k i hk hi).2)]
  rw [← Matrix.mulVec_mulVec]
  rw [upperSweep_mulVec (fun r => r) (fun _ _ _ h => h) N nX c _
    (fun k i hk hi => (hd k i hk hi).1)]
  exact lowerSweep_mulVec (fun _ => g) (fun _ _ _ _ => rfl) N nX c res
    (fun k i hk hi => (hd k i hk hi).1)

theorem solveNewtonEquationBottomUp_mulVec (N nX : Nat) (res : Nat → α)
    (c : xn2x_matrix_t α) (g : Nat → α)
    (hd : ∀ k i, k < N → i < nX → c (k, 0, i, i) ≠ 0) :
    ((cholFull N nX c).transpose * cholFull N nX c).mulVec
        (blockVec N nX (qpDUNES_solveNewtonEquationBottomUp N nX res c g).2)
      = blockVec N nX g := by
  rw [solveNewtonEquationBottomUp_eq_sweeps, ← Matrix.mulVec_mulVec,
    lowerSweep_mulVec (fun r => r) (fun _ _ _ h => h) N nX c _ hd]
  exact upperSweep_mulVec (fun _ => g) (fun _ _ _ _ => rfl) N nX c res hd

theorem same_direction (sqrt_f : α → α) (hsqrt : ∀ x, 0 ≤ x → sqrt_f x * sqrt_f x = x)
    (opt : qpOptions_t α) (N nX : Nat) (M LF LR : xn2x_matrix_t α) (rF rR g : Nat → α)
    (hreg : opt.regType ≠ regType_t.QPDUNES_REG_SINGULAR_DIRECTIONS)
    (htolN : 0 < opt.newtonHessDiagRegTolerance) (htolE : 0 < opt.equalityTolerance)
    (hcols : ∀ k j, k < N → j < nX → FwdColOK sqrt_f opt N nX M LF k j)
    (hrows : ∀ k j, k < N → j < nX → RevRowOK sqrt_f opt N nX M LR k j)
    (hinf : ∀ k i, k < N → i < nX → LF (k, 0, i, i) ≤ opt.QPDUNES_INFTY)
    (k i : Nat) (hk : k < N) (hi : i < nX) :
    (qpDUNES_solveNewtonEquation opt N nX rF LF g).2 (k * nX + i)
      = (qpDUNES_solveNewtonEquationBottomUp N nX rR LR g).2 (k * nX + i) := by
  have hdF : ∀ k i, k < N → i < nX → LF (k, 0, i, i) ≠ 0 := fun k i hk hi =>
    fwd_pivot_ne_zero sqrt_f hsqrt opt N nX M LF k i hreg htolN (hcols k i hk hi)
  have hdR : ∀ k i, k < N → i < nX → LR (k, 0, i, i) ≠ 0 := fun k i hk hi =>
    (rev_pivot_facts sqrt_f hsqrt opt N nX M LR k i hreg htolE (hrows k i hk hi)).2
  have e1 := solveNewtonEquation_mulVec opt N nX rF LF g
    (fun k i hk hi => ⟨hdF k i hk hi, hinf k i hk hi⟩)
  have e2 := solveNewtonEquationBottomUp_mulVec N nX rR LR g hdR
  rw [fwd_full_identity sqrt_f hsqrt opt N nX M LF hreg htolN hcols] at e1
  rw [rev_full_identity sqrt_f hsqrt opt N nX M LR hreg htolE hrows] at e2
  have hdet : (symFull N nX M).det ≠ 0 := by
    rw [← fwd_full_identity sqrt_f hsqrt opt N nX M LF hreg htolN hcols, Matrix.det_mul,
      Matrix.det_transpose]
    exact mul_ne_zero (cholFull_det_ne_zero N nX LF hdF) (cholFull_det_ne_zero N nX LF hdF)
  have hunit : IsUnit (symFull N nX M) :=
    (Matrix.isUnit_iff_isUnit_det _).mpr (isUnit_iff_ne_zero.mpr hdet)
  have hinj := Matrix.mulVec_injective_iff_isUnit.mpr hunit
  have e3 := hinj (e1.trans e2.symm)
  exact congrFun e3 (⟨k, hk⟩, ⟨i, hi⟩)

end NoRegularization

/-! ## Partial reverse refactorization -/

section PartialRefactorization

variable {α : Type} [LinearOrderedField α]

theorem rev_writeRow_fixed (sqrt_f : α → α) (opt : qpOptions_t α) (N nX : Nat)
    (h c : xn2x_matrix_t α) (kk jj : Nat)
    (hrow : RevRowOK sqrt_f opt N nX h c kk jj) :
    factorizeNewtonHessianBottomUp_writeRow sqrt_f N nX h kk jj
      (revReg opt (revSum N nX h c kk jj jj)) c = c := by
  obtain ⟨_, h2, h3, h4⟩ := hrow
  funext key
  by_cases c1 : ∃ ii, ii ≤ jj ∧ key = (kk, 0, jj, ii)
  · obtain ⟨ii, hii, rfl⟩ := c1
    rcases Nat.eq_or_lt_of_le hii with e | e
    · subst e
      rw [factorizeNewtonHessianBottomUp_writeRow_diag]
      exact h2.symm
    · rw [factorizeNewtonHessianBottomUp_writeRow_left sqrt_f N nX h kk jj _ c ii e, ← h2]
      exact (h3 ii e).symm
  · by_cases c2 : ∃ ii, ii < nX ∧ kk > 0 ∧ key = (kk, -1, jj, ii)
    · obtain ⟨ii, hii, hk, rfl⟩ := c2
      rw [factorizeNewtonHessianBottomUp_writeRow_sub sqrt_f N nX h kk jj _ c ii hk hii, ← h2]
      exact (h4 hk ii hii).symm
    · apply factorizeNewtonHessianBottomUp_writeRow_frame
      · intro ii hii e
        exact c1 ⟨ii, hii, e⟩
      · intro ii hii hk e
        exact c2 ⟨ii, hii, hk, e⟩

theorem rev_column_fixed (sqrt_f : α → α) (opt : qpOptions_t α) (N nX : Nat)
    (h c : xn2x_matrix_t α) (kk jj : Nat) (f : Bool)
    (hrow : RevRowOK sqrt_f opt N nX h c kk jj) :
    ∃ f1, factorizeNewtonHessianBottomUp_column sqrt_f opt N nX h kk jj ⟨c, f⟩
      = Except.ok ⟨c, f1⟩ := by
  rcases factorizeNewtonHessianBottomUp_column_spec sqrt_f opt N nX h kk jj ⟨c, f⟩ with
    ⟨hfail, _⟩ | ⟨_, flag, hstep⟩
  · exact absurd hfail hrow.1
  · refine ⟨flag, ?_⟩
    rw [hstep]
    simp only [rev_writeRow_fixed sqrt_f opt N nX h c kk jj hrow]

theorem rev_inner_fixed (sqrt_f : α → α) (opt : qpOptions_t α) (N nX : Nat)
    (h c : xn2x_matrix_t α) (kk n : Nat) (hn : n ≤ nX)
    (hrows : ∀ j, j < nX → RevRowOK sqrt_f opt N nX h c kk j) (f : Bool) :
    ∃ f1, forDownM (fun jj st =>
      factorizeNewtonHessianBottomUp_column sqrt_f opt N nX h kk jj st) 0 n ⟨c, f⟩
      = Except.ok ⟨c, f1⟩ := by
  induction n generalizing f with
  | zero => exact ⟨f, rfl⟩
  | succ n ih =>
    obtain ⟨f1, h1⟩ := rev_column_fixed sqrt_f opt N nX h c kk n f (hrows n (by omega))
    obtain ⟨f2, h2⟩ := ih (by omega) f1
    refine ⟨f2, ?_⟩
    simp only [forDownM, Nat.zero_add]
    rw [h1]
    exact h2

theorem rev_outer_fixed (sqrt_f : α → α) (opt : qpOptions_t α) (N nX : Nat)
    (h c : xn2x_matrix_t α) (lo m : Nat)
    (hrows : ∀ k j, lo ≤ k → k < lo + m → j < nX → RevRowOK sqrt_f opt N nX h c k j)
    (f : Bool) :
    ∃ f1, forDownM (fun kk st =>
      forDownM (fun jj st =>
        factorizeNewtonHessianBottomUp_column sqrt_f opt N nX h kk jj st) 0 nX st) lo m ⟨c, f⟩
      = Except.ok ⟨c, f1⟩ := by
  induction m generalizing f with
  | zero => exact ⟨f, rfl⟩
  | succ m ih =>
    obtain ⟨f1, h1⟩ := rev_inner_fixed sqrt_f opt N nX h c (lo + m) nX (le_refl _)
      (fun j hj => hrows (lo + m) j (Nat.le_add_right _ _) (by omega) hj) f
    obtain ⟨f2, h2⟩ := ih (fun k j hk1 hk2 hj => hrows k j hk1 (by omega) hj) f1
    refine ⟨f2, ?_⟩
    simp only [forDownM]
    rw [h1]
    exact h2

theorem rev_column_sameChol (sqrt_f : α → α) (opt : qpOptions_t α) (N nX : Nat)
    (h : xn2x_matrix_t α) (kk jj : Nat) (s s1 : cholState_t α)
    (hs : s.cholHessian = s1.cholHessian) :
    SameChol (factorizeNewtonHessianBottomUp_column sqrt_f opt N nX h kk jj s)
      (factorizeNewtonHessianBottomUp_column sqrt_f opt N nX h kk jj s1) := by
  rcases factorizeNewtonHessianBottomUp_column_spec sqrt_f opt N nX h kk jj s with
    ⟨hfail, h1⟩ | ⟨hnf, flag, h1⟩ <;>
  rcases factorizeNewtonHessianBottomUp_column_spec sqrt_f opt N nX h kk jj s1 with
    ⟨hfail1, h2⟩ | ⟨hnf1, flag1, h2⟩
  · rw [h1, h2]
    exact ⟨rfl, hs⟩
  · rw [hs] at hfail
    exact absurd hfail hnf1
  · rw [hs] at hnf
    exact absurd hfail1 hnf
  · rw [h1, h2]
    show factorizeNewtonHessianBottomUp_writeRow sqrt_f N nX h kk jj _ s.cholHessian
      = factorizeNewtonHessianBottomUp_writeRow sqrt_f N nX h kk jj _ s1.cholHessian
    rw [hs]

omit [LinearOrderedField α] in
theorem forDownM_sameChol
    (body : Nat → cholState_t α → Except (return_t × cholState_t α) (cholState_t α))
    (hbody : ∀ i s s1, s.cholHessian = s1.cholHessian → SameChol (body i s) (body i s1))
    (lo n : Nat) (s s1 : cholState_t α) (hs : s.cholHessian = s1.cholHessian) :
    SameChol (forDownM body lo n s) (forDownM body lo n s1) := by
  induction n generalizing s s1 with
  | zero => exact hs
  | succ n ih =>
    simp only [forDownM]
    have h1 := hbody (lo + n) s s1 hs
    cases ha : body (lo + n) s with
    | error e =>
      cases hb : body (lo + n) s1 with
      | error e1 => rw [ha, hb] at h1; exact h1
      | ok b => rw [ha, hb] at h1; exact absurd h1 id
    | ok a =>
      cases hb : body (lo + n) s1 with
      | error e1 => rw [ha, hb] at h1; exact absurd h1 id
      | ok b =>
        rw [ha, hb] at h1
        exact ih a b h1

theorem rev_run_sameChol (sqrt_f : α → α) (opt : qpOptions_t α) (N nX : Nat)
    (h : xn2x_matrix_t α) (lo n : Nat) (s s1 : cholState_t α)
    (hs : s.cholHessian = s1.cholHessian) :
    SameChol
      (forDownM (fun kk st =>
        forDownM (fun jj st =>
          factorizeNewtonHessianBottomUp_column sqrt_f opt N nX h kk jj st) 0 nX st) lo n s)
      (forDownM (fun kk st =>
        forDownM (fun jj st =>
          factorizeNewtonHessianBottomUp_column sqrt_f opt N nX h kk jj st) 0 nX st) lo n s1) :=
  forDownM_sameChol _ (fun kk a b hab => forDownM_sameChol _
    (fun jj a1 b1 hab1 => rev_column_sameChol sqrt_f opt N nX h kk jj a1 b1 hab1) 0 nX a b hab)
    lo n s s1 hs

theorem rev_run_frame (sqrt_f : α → α) (opt : qpOptions_t α) (N nX : Nat)
    (h c0 : xn2x_matrix_t α) (n : Nat) (s : cholState_t α)
    (hs : ∀ key : Nat × Int × Nat × Nat, n ≤ key.1 → s.cholHessian key = c0 key) :
    (∀ s1, forDownM (fun kk st =>
        forDownM (fun jj st =>
          factorizeNewtonHessianBottomUp_column sqrt_f opt N nX h kk jj st) 0 nX st) 0 n s
        = Except.ok s1 →
      ∀ key : Nat × Int × Nat × Nat, n ≤ key.1 → s1.cholHessian key = c0 key) ∧
    (∀ e, forDownM (fun kk st =>
        forDownM (fun jj st =>
          factorizeNewtonHessianBottomUp_column sqrt_f opt N nX h kk jj st) 0 nX st) 0 n s
        = Except.error e →
      ∀ key : Nat × Int × Nat × Nat, n ≤ key.1 → e.2.cholHessian key = c0 key) := by
  have hcol_ok : ∀ kk jj (a b : cholState_t α), kk < n →
      (∀ key : Nat × Int × Nat × Nat, n ≤ key.1 → a.cholHessian key = c0 key) →
      factorizeNewtonHessianBottomUp_column sqrt_f opt N nX h kk jj a = Except.ok b →
      (∀ key : Nat × Int × Nat × Nat, n ≤ key.1 → b.cholHessian key = c0 key) := by
    intro kk jj a b hkk ha hstep key hkey
    rw [(factorizeNewtonHessianBottomUp_column_ok sqrt_f opt N nX h kk jj a b hstep).2 key
      (fun ii _ e => by rw [e] at hkey; simp only at hkey; omega)
      (fun ii _ _ e => by rw [e] at hkey; simp only at hkey; omega)]
    exact ha key hkey
  have hcol_err : ∀ kk jj (a : cholState_t α) (e : return_t × cholState_t α),
      (∀ key : Nat × Int × Nat × Nat, n ≤ key.1 → a.cholHessian key = c0 key) →
      factorizeNewtonHessianBottomUp_column sqrt_f opt N nX h kk jj a = Except.error e →
      (∀ key : Nat × Int × Nat × Nat, n ≤ key.1 → e.2.cholHessian key = c0 key) := by
    intro kk jj a e ha hstep
    rw [factorizeNewtonHessianBottomUp_column_error sqrt_f opt N nX h kk jj a e hstep]
    exact ha
  have hin : ∀ kk, kk < n → ∀ a : cholState_t α,
      (∀ key : Nat × Int × Nat × Nat, n ≤ key.1 → a.cholHessian key = c0 key) →
      (∀ s1, forDownM (fun jj st =>
          factorizeNewtonHessianBottomUp_column sqrt_f opt N nX h kk jj st) 0 nX a
          = Except.ok s1 →
        ∀ key : Nat × Int × Nat × Nat, n ≤ key.1 → s1.cholHessian key = c0 key) ∧
      (∀ e, forDownM (fun jj st =>
          factorizeNewtonHessianBottomUp_column sqrt_f opt N nX h kk jj st) 0 nX a
          = Except.error e →
        ∀ key : Nat × Int × Nat × Nat, n ≤ key.1 → e.2.cholHessian key = c0 key) :=
    fun kk hkk a ha => forDownM_invariant
      (fun jj st => factorizeNewtonHessianBottomUp_column sqrt_f opt N nX h kk jj st)
      (fun s => ∀ key : Nat × Int × Nat × Nat, n ≤ key.1 → s.cholHessian key = c0 key)
      (fun e => ∀ key : Nat × Int × Nat × Nat, n ≤ key.1 → e.2.cholHessian key = c0 key) 0 nX
      (fun jj a1 b1 _ _ ha1 hs1 => hcol_ok kk jj a1 b1 hkk ha1 hs1)
      (fun jj a1 e1 _ _ ha1 hs1 => hcol_err kk jj a1 e1 ha1 hs1) a ha
  exact forDownM_invariant
    (fun kk st =>
      forDownM (fun jj st =>
        factorizeNewtonHessianBottomUp_column sqrt_f opt N nX h kk jj st) 0 nX st)
    (fun s => ∀ key : Nat × Int × Nat × Nat, n ≤ key.1 → s.cholHessian key = c0 key)
    (fun e => ∀ key : Nat × Int × Nat × Nat, n ≤ key.1 → e.2.cholHessian key = c0 key) 0 n
    (fun kk a b _ hkk ha hrun => (hin kk (by omega) a ha).1 b hrun)
    (fun kk a e _ hkk ha hrun => (hin kk (by omega) a ha).2 e hrun) s hs

theorem blockIdxStart_eq_min (N : Nat) (idx : Int) (h : 0 ≤ idx) :
    blockIdxStart N idx = min idx ((N : Int) - 1) := by
  unfold blockIdxStart
  rw [if_pos h]
  split_ifs with h1
  · exact (min_eq_left (le_of_lt h1)).symm
  · exact (min_eq_right (not_lt.mp h1)).symm

theorem blockIdxStart_neg (N : Nat) (idx : Int) (h : idx < 0) :
    (blockIdxStart N idx + 1).toNat = 0 := by
  unfold blockIdxStart
  rw [if_neg (by omega)]
  rfl

theorem blockIdxStart_le (N : Nat) (idx : Int) : (blockIdxStart N idx + 1).toNat ≤ N := by
  unfold blockIdxStart
  split_ifs <;> omega

theorem blockIdxStart_above (N : Nat) (idx : Int) (k : Nat) (hk : k < N)
    (h : (blockIdxStart N idx + 1).toNat ≤ k) : idx < (k : Int) := by
  unfold blockIdxStart at h
  split_ifs at h <;> omega

theorem blockIdxStart_above_iff (N : Nat) (idx : Int) (h0 : 0 ≤ idx) (k : Nat) :
    min idx ((N : Int) - 1) < (k : Int) ↔ (blockIdxStart N idx + 1).toNat ≤ k := by
  rw [← blockIdxStart_eq_min N idx h0]
  omega

theorem partial_eq_full (sqrt_f : α → α) (opt : qpOptions_t α) (N nX : Nat)
    (L h : xn2x_matrix_t α) (idx : Int) (f : Bool)
    (hrows : ∀ k j, (blockIdxStart N idx + 1).toNat ≤ k → k < N → j < nX →
      RevRowOK sqrt_f opt N nX h L k j) :
    (qpDUNES_factorizeNewtonHessianBottomUp sqrt_f opt N nX L h idx f).1
      = (qpDUNES_factorizeNewtonHessianBottomUp sqrt_f opt N nX L h ((N : Int) - 1) f).1 ∧
    (qpDUNES_factorizeNewtonHessianBottomUp sqrt_f opt N nX L h idx f).2.cholHessian
      = (qpDUNES_factorizeNewtonHessianBottomUp sqrt_f opt N nX L h ((N : Int) - 1)
          f).2.cholHessian := by
  unfold qpDUNES_factorizeNewtonHessianBottomUp
  rw [blockIdxStart_full]
  have hle := blockIdxStart_le N idx
  generalize (blockIdxStart N idx + 1).toNat = np at hrows hle
  have hsplit := forDownM_split (fun kk st =>
      forDownM (fun jj st =>
        factorizeNewtonHessianBottomUp_column sqrt_f opt N nX h kk jj st) 0 nX st) 0 np (N - np)
      (⟨L, f⟩ : cholState_t α)
  rw [Nat.add_sub_of_le hle] at hsplit
  rw [hsplit]
  obtain ⟨f1, h1⟩ := rev_outer_fixed sqrt_f opt N nX h L (0 + np) (N - np)
    (fun k j hk1 hk2 hj => hrows k j (by omega) (by omega) hj) f
  rw [h1]
  dsimp only
  have h2 := rev_run_sameChol sqrt_f opt N nX h 0 np ⟨L, f⟩ ⟨L, f1⟩ rfl
  cases ha : forDownM (fun kk st =>
      forDownM (fun jj st =>
        factorizeNewtonHessianBottomUp_column sqrt_f opt N nX h kk jj st) 0 nX st) 0 np
      (⟨L, f⟩ : cholState_t α) with
  | error e =>
    cases hb : forDownM (fun kk st =>
        forDownM (fun jj st =>
          factorizeNewtonHessianBottomUp_column sqrt_f opt N nX h kk jj st) 0 nX st) 0 np
        (⟨L, f1⟩ : cholState_t α) with
    | error e1 => rw [ha, hb] at h2; exact h2
    | ok b => rw [ha, hb] at h2; exact absurd h2 id
  | ok a =>
    cases hb : forDownM (fun kk st =>
        forDownM (fun jj st =>
          factorizeNewtonHessianBottomUp_column sqrt_f opt N nX h kk jj st) 0 nX st) 0 np
        (⟨L, f1⟩ : cholState_t α) with
    | error e1 => rw [ha, hb] at h2; exact absurd h2 id
    | ok b => rw [ha, hb] at h2; exact ⟨rfl, h2⟩

theorem partial_frame (sqrt_f : α → α) (opt : qpOptions_t α) (N nX : Nat)
    (L h : xn2x_matrix_t α) (idx : Int) (f : Bool) (key : Nat × Int × Nat × Nat)
    (hkey : (blockIdxStart N idx + 1).toNat ≤ key.1) :
    (qpDUNES_factorizeNewtonHessianBottomUp sqrt_f opt N nX L h idx f).2.cholHessian key
      = L key := by
  unfold qpDUNES_factorizeNewtonHessianBottomUp
  have hfr := rev_run_frame sqrt_f opt N nX h L (blockIdxStart N idx + 1).toNat ⟨L, f⟩
    (fun _ _ => rfl)
  cases ha : forDownM (fun kk st =>
      forDownM (fun jj st =>
        factorizeNewtonHessianBottomUp_column sqrt_f opt N nX h kk jj st) 0 nX st) 0
      (blockIdxStart N idx + 1).toNat (⟨L, f⟩ : cholState_t α) with
  | error e => exact hfr.2 e ha key hkey
  | ok a => exact hfr.1 a ha key hkey

end PartialRefactorization

/-! ## Vector operations and the Newton gradient -/

section GradientLemmas

variable {α : Type} [LinearOrderedField α]

omit [LinearOrderedField α] in
theorem vector_set_data (v : vector_t α) (i : Nat) (x : α) (k : Nat) :
    (v.set i x).data k = if k = i then x else v.data k := by
  simp [vector_t.set, Function.update_apply]

omit [LinearOrderedField α] in
theorem matrix_set_data (M : matrix_t α) (i : Nat) (x : α) (k : Nat) :
    (M.set i x).data k = if k = i then x else M.data k := by
  simp [matrix_t.set, Function.update_apply]

omit [LinearOrderedField α] in
theorem matrix_set_sparsity (M : matrix_t α) (i : Nat) (x : α) :
    (M.set i x).sparsityType = M.sparsityType := rfl

omit [LinearOrderedField α] in
theorem forUp_set_pointwise (g : Nat → α → α) (n : Nat) (r : vector_t α) (k : Nat) :
    (forUp (fun i (r : vector_t α) => r.set i (g i (r.data i))) 0 n r).data k =
      if k < n then g k (r.data k) else r.data k := by
  induction n generalizing k with
  | zero => simp [forUp]
  | succ n ih =>
    simp only [forUp, vector_set_data, Nat.zero_add, ih]
    by_cases h1 : k = n
    · subst h1; simp
    · by_cases h2 : k < n
      · simp [h1, h2, Nat.lt_succ_of_lt h2]
      · have h3 : ¬ k < n + 1 := by omega
        simp [h1, h2, h3]

omit [LinearOrderedField α] in
theorem forUp_set_offset (b : Nat) (v : Nat → α) (n : Nat) (r : vector_t α) (k : Nat) :
    (forUp (fun i (r : vector_t α) => r.set (b + i) (v i)) 0 n r).data k =
      if b ≤ k ∧ k < b + n then v (k - b) else r.data k := by
  induction n with
  | zero =>
    have h : ¬ (b ≤ k ∧ k < b) := by omega
    simp [forUp, h]
  | succ n ih =>
    simp only [forUp, vector_set_data, Nat.zero_add, ih]
    by_cases h1 : k = b + n
    · subst h1
      have h : b ≤ b + n ∧ b + n < b + (n + 1) := by omega
      simp [h]
    · by_cases h2 : b ≤ k ∧ k < b + n
      · have h3 : b ≤ k ∧ k < b + (n + 1) := by omega
        simp [h1, h2, h3]
      · have h3 : ¬ (b ≤ k ∧ k < b + (n + 1)) := by omega
        simp [h1, h2, h3]

theorem forUp_set_accumulate (i : Nat) (f : Nat → α) (n : Nat) (r : vector_t α) (k : Nat) :
    (forUp (fun j (r : vector_t α) => r.set i (r.data i + f j)) 0 n r).data k =
      if k = i then r.data i + ∑ j in Finset.range n, f j else r.data k := by
  induction n generalizing k with
  | zero => by_cases h1 : k = i <;> simp [forUp, h1]
  | succ n ih =>
    simp only [forUp, vector_set_data, Nat.zero_add, ih]
    by_cases h1 : k = i
    · simp [h1, Finset.sum_range_succ, add_assoc]
    · simp [h1]

theorem multiplyCz_data (nX nZ : Nat) (res : vector_t α) (C : matrix_t α) (z : vector_t α)
    (k : Nat) :
    (multiplyCz nX nZ res C z).data k =
      if k < nX then ∑ j in Finset.range nZ, accC nZ C k j * z.data j else res.data k := by
  unfold multiplyCz
  induction nX with
  | zero => simp [forUp]
  | succ n ih =>
    rw [forUp]
    simp only [Nat.zero_add]
    rw [forUp_set_accumulate]
    by_cases h1 : k = n
    · subst h1
      simp [vector_set_data]
    · rw [if_neg h1, vector_set_data, if_neg h1, ih]
      by_cases h2 : k < n
      · simp [h2, Nat.lt_succ_of_lt h2]
      · have h3 : ¬ k < n + 1 := by omega
        simp [h2, h3]

theorem addToVector_data (res update : vector_t α) (len k : Nat) :
    (addToVector res update len).data k =
      if k < len then res.data k + update.data k else res.data k :=
  forUp_set_pointwise (fun i x => x + update.data i) len res k

theorem subtractFromVector_data (res update : vector_t α) (len k : Nat) :
    (subtractFromVector res update len).data k =
      if k < len then res.data k - update.data k else res.data k :=
  forUp_set_pointwise (fun i x => x - update.data i) len res k

theorem scalarProd_eq_sum (x y : vector_t α) (len : Nat) :
    scalarProd x y len = ∑ i in Finset.range len, x.data i * y.data i := by
  unfold scalarProd
  induction len with
  | zero => simp [forUp]
  | succ n ih => simp [forUp, ih, Finset.sum_range_succ]

/-- Entry `i` of block `k` of the dual gradient, `(C_k z_k)[i] + c_k[i] - z_(k+1)[i]`. -/
theorem computeNewtonGradient_entry (N nX nZ : Nat) (qpData : qpData_t α)
    (gradient gradPiece : vector_t α) (k i : Nat) (hk : k < N) (hi : i < nX) :
    (qpDUNES_computeNewtonGradient N nX nZ qpData gradient gradPiece).2.1.data (k * nX + i) =
      ∑ j in Finset.range nZ,
        (qpData.intervals k).C.data (i * nZ + j) * (qpData.intervals k).z.data j
      + (qpData.intervals k).c.data i - (qpData.intervals (k + 1)).z.data i := by
  unfold qpDUNES_computeNewtonGradient
  dsimp only
  induction N with
  | zero => omega
  | succ n ih =>
    rw [forUp]
    simp only [Nat.zero_add]
    rw [forUp_set_offset]
    by_cases h1 : k = n
    · subst h1
      have h2 : k * nX ≤ k * nX + i ∧ k * nX + i < k * nX + nX := by omega
      rw [if_pos h2, Nat.add_sub_cancel_left, subtractFromVector_data, if_pos hi,
        addToVector_data, if_pos hi, multiplyCz_data, if_pos hi]
      rfl
    · have h2 : k < n := by omega
      have h3 : k * nX + i < n * nX := by
        have : (k + 1) * nX ≤ n * nX := Nat.mul_le_mul_right _ h2
        rw [Nat.add_mul, Nat.one_mul] at this
        omega
      have h4 : ¬ (n * nX ≤ k * nX + i ∧ k * nX + i < n * nX + nX) := by omega
      rw [if_neg h4]
      exact ih h2

/-- Entries of `gradient` outside the `N * nX` written ones keep their value. -/
theorem computeNewtonGradient_frame (N nX nZ : Nat) (qpData : qpData_t α)
    (gradient gradPiece : vector_t α) (p : Nat) (hp : N * nX ≤ p) :
    (qpDUNES_computeNewtonGradient N nX nZ qpData gradient gradPiece).2.1.data p =
      gradient.data p := by
  unfold qpDUNES_computeNewtonGradient
  dsimp only
  induction N with
  | zero => simp [forUp]
  | succ n ih =>
    rw [forUp]
    simp only [Nat.zero_add]
    rw [forUp_set_offset]
    have h1 : (n + 1) * nX = n * nX + nX := by rw [Nat.add_mul, Nat.one_mul]
    have h4 : ¬ (n * nX ≤ p ∧ p < n * nX + nX) := by omega
    rw [if_neg h4]
    exact ih (by omega)

end GradientLemmas

/-! ## Newton Hessian assembly -/

section AssemblyLemmas

variable {α : Type} [LinearOrderedField α]

omit [LinearOrderedField α] in
theorem forUp_write_row {β : Type} (kk : Nat) (l : Int) (ii : Nat) (v : Nat → β) (m : Nat)
    (h : xn2x_matrix_t β) (K : Nat) (L : Int) (I J : Nat) :
    forUp (fun jj (h : xn2x_matrix_t β) => setAcc h kk l ii jj (v jj)) 0 m h (K, L, I, J) =
      if K = kk ∧ L = l ∧ I = ii ∧ J < m then v J else h (K, L, I, J) := by
  induction m with
  | zero => simp [forUp]
  | succ m ih =>
    simp only [forUp, setAcc, Function.update_apply, Prod.mk.injEq, Nat.zero_add]
    rw [ih]
    by_cases h1 : K = kk ∧ L = l ∧ I = ii ∧ J = m
    · obtain ⟨a, b, c, d⟩ := h1
      subst a b c d
      simp
    · rw [if_neg h1]
      by_cases h2 : K = kk ∧ L = l ∧ I = ii ∧ J < m
      · have h3 : K = kk ∧ L = l ∧ I = ii ∧ J < m + 1 := ⟨h2.1, h2.2.1, h2.2.2.1, by omega⟩
        rw [if_pos h2, if_pos h3]
      · have h3 : ¬ (K = kk ∧ L = l ∧ I = ii ∧ J < m + 1) := by
          rintro ⟨a, b, c, d⟩
          by_cases e : J = m
          · exact h1 ⟨a, b, c, e⟩
          · exact h2 ⟨a, b, c, by omega⟩
        rw [if_neg h2, if_neg h3]

omit [LinearOrderedField α] in
theorem forUp_write_block {β : Type} (kk : Nat) (l : Int) (v : Nat → Nat → β) (n m : Nat)
    (h : xn2x_matrix_t β) (K : Nat) (L : Int) (I J : Nat) :
    forUp (fun ii (h : xn2x_matrix_t β) =>
      forUp (fun jj (h : xn2x_matrix_t β) => setAcc h kk l ii jj (v ii jj)) 0 m h) 0 n h
        (K, L, I, J) =
      if K = kk ∧ L = l ∧ I < n ∧ J < m then v I J else h (K, L, I, J) := by
  induction n with
  | zero => simp [forUp]
  | succ n ih =>
    rw [forUp]
    simp only [Nat.zero_add]
    rw [forUp_write_row, ih]
    by_cases h1 : K = kk ∧ L = l ∧ I = n ∧ J < m
    · obtain ⟨a, b, c, d⟩ := h1
      subst a b c
      simp [d]
    · rw [if_neg h1]
      by_cases h2 : K = kk ∧ L = l ∧ I < n ∧ J < m
      · have h3 : K = kk ∧ L = l ∧ I < n + 1 ∧ J < m := ⟨h2.1, h2.2.1, by omega, h2.2.2.2⟩
        rw [if_pos h2, if_pos h3]
      · have h3 : ¬ (K = kk ∧ L = l ∧ I < n + 1 ∧ J < m) := by
          rintro ⟨a, b, c, d⟩
          by_cases e : I = n
          · exact h1 ⟨a, b, e, d⟩
          · exact h2 ⟨a, b, by omega, d⟩
        rw [if_neg h2, if_neg h3]

theorem writeDiag_inner (nX kk ii m : Nat) (s : xn2x_matrix_t α × matrix_t α) :
    (forUp (fun jj (s : xn2x_matrix_t α × matrix_t α) =>
        (setAcc s.1 kk 0 ii jj (s.2.data (ii * nX + jj)), s.2.set (ii * nX + jj) 0))
        0 m s).2.sparsityType = s.2.sparsityType ∧
    (∀ q, (forUp (fun jj (s : xn2x_matrix_t α × matrix_t α) =>
        (setAcc s.1 kk 0 ii jj (s.2.data (ii * nX + jj)), s.2.set (ii * nX + jj) 0))
        0 m s).2.data q = if ii * nX ≤ q ∧ q < ii * nX + m then 0 else s.2.data q) ∧
    (∀ (K : Nat) (L : Int) (I J : Nat),
      (forUp (fun jj (s : xn2x_matrix_t α × matrix_t α) =>
        (setAcc s.1 kk 0 ii jj (s.2.data (ii * nX + jj)), s.2.set (ii * nX + jj) 0))
        0 m s).1 (K, L, I, J) =
      if K = kk ∧ L = 0 ∧ I = ii ∧ J < m then s.2.data (ii * nX + J) else s.1 (K, L, I, J)) := by
  induction m with
  | zero =>
    refine ⟨rfl, fun q => ?_, fun K L I J => ?_⟩
    · have h : ¬ (ii * nX ≤ q ∧ q < ii * nX + 0) := by omega
      simp only [forUp]; rw [if_neg h]
    · simp [forUp]
  | succ m ih =>
    obtain ⟨ih1, ih2, ih3⟩ := ih
    simp only [forUp, Nat.zero_add]
    refine ⟨?_, fun q => ?_, fun K L I J => ?_⟩
    · rw [matrix_set_sparsity]; exact ih1
    · rw [matrix_set_data, ih2]
      by_cases h1 : q = ii * nX + m
      · have h2 : ii * nX ≤ q ∧ q < ii * nX + (m + 1) := by omega
        rw [if_pos h1, if_pos h2]
      · rw [if_neg h1]
        by_cases h2 : ii * nX ≤ q ∧ q < ii * nX + m
        · have h3 : ii * nX ≤ q ∧ q < ii * nX + (m + 1) := by omega
          rw [if_pos h2, if_pos h3]
        · have h3 : ¬ (ii * nX ≤ q ∧ q < ii * nX + (m + 1)) := by omega
          rw [if_neg h2, if_neg h3]
    · simp only [setAcc, Function.update_apply, Prod.mk.injEq]
      rw [ih3, ih2]
      have h0 : ¬ (ii * nX ≤ ii * nX + m ∧ ii * nX + m < ii * nX + m) := by omega
      rw [if_neg h0]
      by_cases h1 : K = kk ∧ L = 0 ∧ I = ii ∧ J = m
      · obtain ⟨a, b, c, d⟩ := h1
        subst a b c d
        simp
      · rw [if_neg h1]
        by_cases h2 : K = kk ∧ L = 0 ∧ I = ii ∧ J < m
        · have h3 : K = kk ∧ L = 0 ∧ I = ii ∧ J < m + 1 := ⟨h2.1, h2.2.1, h2.2.2.1, by omega⟩
          rw [if_pos h2, if_pos h3]
        · have h3 : ¬ (K = kk ∧ L = 0 ∧ I = ii ∧ J < m + 1) := by
            rintro ⟨a, b, c, d⟩
            by_cases e : J = m
            · exact h1 ⟨a, b, c, e⟩
            · exact h2 ⟨a, b, c, by omega⟩
          rw [if_neg h2, if_neg h3]


theorem writeDiag_rows (nX kk n : Nat) (s : xn2x_matrix_t α × matrix_t α) :
    (forUp (fun ii (s : xn2x_matrix_t α × matrix_t α) =>
      forUp (fun jj (s : xn2x_matrix_t α × matrix_t α) =>
        (setAcc s.1 kk 0 ii jj (s.2.data (ii * nX + jj)), s.2.set (ii * nX + jj) 0))
        0 nX s) 0 n s).2.sparsityType = s.2.sparsityType ∧
    (∀ q, (forUp (fun ii (s : xn2x_matrix_t α × matrix_t α) =>
      forUp (fun jj (s : xn2x_matrix_t α × matrix_t α) =>
        (setAcc s.1 kk 0 ii jj (s.2.data (ii * nX + jj)), s.2.set (ii * nX + jj) 0))
        0 nX s) 0 n s).2.data q = if q < n * nX then 0 else s.2.data q) ∧
    (∀ (K : Nat) (L : Int) (I J : Nat),
      (forUp (fun ii (s : xn2x_matrix_t α × matrix_t α) =>
      forUp (fun jj (s : xn2x_matrix_t α × matrix_t α) =>
        (setAcc s.1 kk 0 ii jj (s.2.data (ii * nX + jj)), s.2.set (ii * nX + jj) 0))
        0 nX s) 0 n s).1 (K, L, I, J) =
      if K = kk ∧ L = 0 ∧ I < n ∧ J < nX then s.2.data (I * nX + J) else s.1 (K, L, I, J)) := by
  induction n with
  | zero =>
    refine ⟨rfl, fun q => ?_, fun K L I J => ?_⟩
    · simp [forUp]
    · simp [forUp]
  | succ n ih =>
    obtain ⟨ih1, ih2, ih3⟩ := ih
    rw [forUp]
    simp only [Nat.zero_add]
    obtain ⟨g1, g2, g3⟩ := writeDiag_inner nX kk n nX
      (forUp (fun ii (s : xn2x_matrix_t α × matrix_t α) =>
        forUp (fun jj (s : xn2x_matrix_t α × matrix_t α) =>
          (setAcc s.1 kk 0 ii jj (s.2.data (ii * nX + jj)), s.2.set (ii * nX + jj) 0))
          0 nX s) 0 n s)
    have hmul : (n + 1) * nX = n * nX + nX := by rw [Nat.add_mul, Nat.one_mul]
    refine ⟨g1.trans ih1, fun q => ?_, fun K L I J => ?_⟩
    · rw [g2, ih2, hmul]
      by_cases h1 : n * nX ≤ q ∧ q < n * nX + nX
      · have h2 : q < n * nX + nX := h1.2
        rw [if_pos h1, if_pos h2]
      · rw [if_neg h1]
        by_cases h2 : q < n * nX
        · have h3 : q < n * nX + nX := by omega
          rw [if_pos h2, if_pos h3]
        · have h3 : ¬ q < n * nX + nX := by omega
          rw [if_neg h2, if_neg h3]
    · rw [g3, ih3, ih2]
      by_cases h1 : K = kk ∧ L = 0 ∧ I = n ∧ J < nX
      · obtain ⟨a, b, c, d⟩ := h1
        subst a b c
        have h2 : ¬ I * nX + J < I * nX := by omega
        simp [d, h2]
      · rw [if_neg h1]
        by_cases h2 : K = kk ∧ L = 0 ∧ I < n ∧ J < nX
        · have h3 : K = kk ∧ L = 0 ∧ I < n + 1 ∧ J < nX := ⟨h2.1, h2.2.1, by omega, h2.2.2.2⟩
          rw [if_pos h2, if_pos h3]
        · have h3 : ¬ (K = kk ∧ L = 0 ∧ I < n + 1 ∧ J < nX) := by
            rintro ⟨a, b, c, d⟩
            by_cases e : I = n
            · exact h1 ⟨a, b, e, d⟩
            · exact h2 ⟨a, b, by omega, d⟩
          rw [if_neg h2, if_neg h3]

/-- The written Hessian after the write loop of a diagonal block. -/
theorem writeDiag_hessian (nX kk : Nat) (h : xn2x_matrix_t α) (xx : matrix_t α)
    (K : Nat) (L : Int) (I J : Nat) :
    (setupNewtonSystem_writeDiag nX kk (h, xx)).1 (K, L, I, J) =
      if K = kk ∧ L = 0 ∧ I < nX ∧ J < nX then xx.data (I * nX + J) else h (K, L, I, J) :=
  (writeDiag_rows nX kk nX (h, xx)).2.2 K L I J

/-- The cleaned scratch matrix after the write loop does not depend on the Hessian. -/
theorem writeDiag_tmp (nX kk : Nat) (h h2 : xn2x_matrix_t α) (xx : matrix_t α) :
    (setupNewtonSystem_writeDiag nX kk (h, xx)).2 =
      (setupNewtonSystem_writeDiag nX kk (h2, xx)).2 := by
  obtain ⟨a1, a2, _⟩ := writeDiag_rows nX kk nX (h, xx)
  obtain ⟨b1, b2, _⟩ := writeDiag_rows nX kk nX (h2, xx)
  have e1 : (setupNewtonSystem_writeDiag nX kk (h, xx)).2.sparsityType =
      (setupNewtonSystem_writeDiag nX kk (h2, xx)).2.sparsityType := a1.trans b1.symm
  have e2 : (setupNewtonSystem_writeDiag nX kk (h, xx)).2.data =
      (setupNewtonSystem_writeDiag nX kk (h2, xx)).2.data := by
    funext q
    exact (a2 q).trans (b2 q).symm
  cases hx : (setupNewtonSystem_writeDiag nX kk (h, xx)).2 with
  | mk t d =>
    cases hy : (setupNewtonSystem_writeDiag nX kk (h2, xx)).2 with
    | mk t2 d2 =>
      rw [hx, hy] at e1 e2
      simp only at e1 e2
      rw [e1, e2]


omit [LinearOrderedField α] in
/-- Two runs of a loop over block passes from states that differ only in the stored
Hessian: they abort together, and their results differ only in the stored Hessian, which
agrees on every entry that some pass writes and keeps the start value elsewhere. -/
theorem forUpO_setHessian (body : Nat → qpData_t α → Option (qpData_t α))
    (cond : Nat → Nat × Int × Nat × Nat → Prop) (Inv : qpData_t α → Prop) (lo : Nat)
    (hbody : ∀ i r h2, Inv r →
      (body i r = none → body i (setHessian r h2) = none) ∧
      (∀ r1, body i r = some r1 → Inv r1 ∧ ∃ h1, body i (setHessian r h2) =
        some (setHessian r1 h1) ∧
        ∀ key, (cond i key → h1 key = r1.hessian key) ∧ (¬ cond i key → h1 key = h2 key)))
    (n : Nat) (a : qpData_t α) (h2 : xn2x_matrix_t α) (ha : Inv a) :
    (forUpO body lo n a = none → forUpO body lo n (setHessian a h2) = none) ∧
    (∀ r, forUpO body lo n a = some r → Inv r ∧ ∃ h1, forUpO body lo n (setHessian a h2) =
      some (setHessian r h1) ∧
      ∀ key, ((∃ i, lo ≤ i ∧ i < lo + n ∧ cond i key) → h1 key = r.hessian key) ∧
        ((¬ ∃ i, lo ≤ i ∧ i < lo + n ∧ cond i key) → h1 key = h2 key)) := by
  induction n with
  | zero =>
    refine ⟨fun h => by simp [forUpO] at h, fun r hr => ?_⟩
    simp only [forUpO, Option.some.injEq] at hr
    subst hr
    refine ⟨ha, h2, rfl, fun key => ⟨?_, fun _ => rfl⟩⟩
    rintro ⟨i, h3, h4, _⟩
    omega
  | succ n ih =>
    obtain ⟨ih1, ih2⟩ := ih
    simp only [forUpO]
    cases hm : forUpO body lo n a with
    | none =>
      rw [ih1 hm]
      exact ⟨fun _ => rfl, fun r hr => by simp at hr⟩
    | some r =>
      obtain ⟨hinv, h1, hrun, hkey⟩ := ih2 r hm
      rw [hrun]
      dsimp only
      obtain ⟨b1, b2⟩ := hbody (lo + n) r h1 hinv
      refine ⟨b1, fun r1 hr1 => ?_⟩
      obtain ⟨hinv1, h3, hrun1, hkey1⟩ := b2 r1 hr1
      refine ⟨hinv1, h3, hrun1, fun key => ⟨?_, ?_⟩⟩
      · rintro ⟨i, c1, c2, c3⟩
        by_cases hc : cond (lo + n) key
        · exact (hkey1 key).1 hc
        · have hi : i ≠ lo + n := by
            rintro rfl
            exact hc c3
          rw [(hkey1 key).2 hc, (hkey key).1 ⟨i, c1, by omega, c3⟩]
          obtain ⟨_, h4, hrun4, hkey4⟩ := (hbody (lo + n) r r.hessian hinv).2 r1 hr1
          have e : setHessian r r.hessian = r := rfl
          rw [e, hr1] at hrun4
          have e2 : r1 = setHessian r1 h4 := Option.some.inj hrun4
          have e3 : r1.hessian = h4 := by
            conv_lhs => rw [e2]
            rfl
          rw [e3]
          exact ((hkey4 key).2 hc).symm
      · intro hne
        have hc : ¬ cond (lo + n) key := fun hc => hne ⟨lo + n, by omega, by omega, hc⟩
        rw [(hkey1 key).2 hc]
        exact (hkey key).2 (fun ⟨i, c1, c2, c3⟩ => hne ⟨i, c1, by omega, c3⟩)

/-- The law of one diagonal block pass under a change of the stored Hessian. -/
theorem diagBlock_setHessian (ext : collaborators_t α) (nX nZ : Nat) (a : qpData_t α)
    (i : Nat) (r : qpData_t α) (h2 : xn2x_matrix_t α) (hinv : r.intervals = a.intervals) :
    (setupNewtonSystem_diagBlock ext nX nZ i r = none →
      setupNewtonSystem_diagBlock ext nX nZ i (setHessian r h2) = none) ∧
    (∀ r1, setupNewtonSystem_diagBlock ext nX nZ i r = some r1 →
      r1.intervals = a.intervals ∧
      ∃ h1, setupNewtonSystem_diagBlock ext nX nZ i (setHessian r h2) =
        some (setHessian r1 h1) ∧
        ∀ key : Nat × Int × Nat × Nat,
          ((diagChanged a i ∧ key.1 = i ∧ key.2.1 = 0 ∧ key.2.2.1 < nX ∧ key.2.2.2 < nX) →
            h1 key = r1.hessian key) ∧
          (¬ (diagChanged a i ∧ key.1 = i ∧ key.2.1 = 0 ∧ key.2.2.1 < nX ∧ key.2.2.2 < nX) →
            h1 key = h2 key)) := by
  have htmp : setupNewtonSystem_diagTmp ext nX nZ i (setHessian r h2) =
      setupNewtonSystem_diagTmp ext nX nZ i r := rfl
  have hi1 : (setHessian r h2).intervals = r.intervals := rfl
  unfold setupNewtonSystem_diagBlock
  rw [htmp, hi1]
  by_cases hc : (r.intervals i).actSetHasChanged = true ∨
      (r.intervals (i + 1)).actSetHasChanged = true
  · simp only [if_pos hc]
    have hca : diagChanged a i := by
      unfold diagChanged
      rw [← hinv]
      exact hc
    cases ht : setupNewtonSystem_diagTmp ext nX nZ i r with
    | none => exact ⟨fun _ => rfl, fun r1 h => by simp at h⟩
    | some t =>
      dsimp only
      refine ⟨fun h => by simp at h, fun r1 h => ?_⟩
      simp only [Option.some.injEq] at h
      subst h
      refine ⟨hinv, (setupNewtonSystem_writeDiag nX i (h2, t.1)).1, ?_, fun key => ?_⟩
      · have e := writeDiag_tmp nX i (setHessian r h2).hessian r.hessian t.1
        rw [e]
        rfl
      · obtain ⟨K, L, I, J⟩ := key
        dsimp only
        have e1 := writeDiag_hessian nX i h2 t.1 K L I J
        have e2 := writeDiag_hessian nX i r.hessian t.1 K L I J
        constructor
        · rintro ⟨_, c1, c2, c3, c4⟩
          rw [e1, e2, if_pos ⟨c1, c2, c3, c4⟩, if_pos ⟨c1, c2, c3, c4⟩]
        · intro hn
          rw [e1, if_neg (fun c => hn ⟨hca, c⟩)]
  · simp only [if_neg hc]
    have hca : ¬ diagChanged a i := by
      unfold diagChanged
      rw [← hinv]
      exact hc
    refine ⟨fun h => by simp at h, fun r1 h => ?_⟩
    simp only [Option.some.injEq] at h
    subst h
    exact ⟨hinv, h2, rfl, fun key => ⟨fun c => absurd c.1 hca, fun _ => rfl⟩⟩

/-- The law of one sub-diagonal block pass under a change of the stored Hessian. -/
theorem subBlock_setHessian (nX nZ : Nat) (a : qpData_t α)
    (i : Nat) (r : qpData_t α) (h2 : xn2x_matrix_t α) (hinv : r.intervals = a.intervals) :
    (setupNewtonSystem_subBlock nX nZ i r = none →
      setupNewtonSystem_subBlock nX nZ i (setHessian r h2) = none) ∧
    (∀ r1, setupNewtonSystem_subBlock nX nZ i r = some r1 →
      r1.intervals = a.intervals ∧
      ∃ h1, setupNewtonSystem_subBlock nX nZ i (setHessian r h2) =
        some (setHessian r1 h1) ∧
        ∀ key : Nat × Int × Nat × Nat,
          (((a.intervals i).actSetHasChanged = true ∧ key.1 = i ∧ key.2.1 = -1 ∧
              key.2.2.1 < nX ∧ key.2.2.2 < nX) → h1 key = r1.hessian key) ∧
          (¬ ((a.intervals i).actSetHasChanged = true ∧ key.1 = i ∧ key.2.1 = -1 ∧
              key.2.2.1 < nX ∧ key.2.2.2 < nX) → h1 key = h2 key)) := by
  have hi1 : (setHessian r h2).intervals = r.intervals := rfl
  have hx : (setHessian r h2).xxMatTmp = r.xxMatTmp := rfl
  have ho : (setHessian r h2).options = r.options := rfl
  have hh : (setHessian r h2).hessian = h2 := rfl
  unfold setupNewtonSystem_subBlock
  rw [hi1, hx, ho, hh]
  by_cases hc : (r.intervals i).actSetHasChanged = true
  · simp only [if_pos hc]
    have hca : (a.intervals i).actSetHasChanged = true := by rw [← hinv]; exact hc
    cases ht : multiplyAInvQ nX nZ r.xxMatTmp (r.intervals i).C (r.intervals i).cholH with
    | none => exact ⟨fun _ => rfl, fun r1 h => by simp at h⟩
    | some t =>
      dsimp only
      refine ⟨fun h => by simp at h, fun r1 h => ?_⟩
      simp only [Option.some.injEq] at h
      subst h
      have hw : ∀ (h : xn2x_matrix_t α) (K : Nat) (L : Int) (I J : Nat),
          forUp (fun ii (hessian : xn2x_matrix_t α) =>
            forUp (fun jj (hessian : xn2x_matrix_t α) =>
              if (r.intervals i).y.data (2 * jj) ≤ r.options.equalityTolerance ∧
                  (r.intervals i).y.data (2 * jj + 1) ≤ r.options.equalityTolerance
              then setAcc hessian i (-1) ii jj (- t.2.data (ii * nX + jj))
              else setAcc hessian i (-1) ii jj 0) 0 nX hessian) 0 nX h (K, L, I, J) =
          if K = i ∧ L = -1 ∧ I < nX ∧ J < nX then
            (if (r.intervals i).y.data (2 * J) ≤ r.options.equalityTolerance ∧
                (r.intervals i).y.data (2 * J + 1) ≤ r.options.equalityTolerance
              then - t.2.data (I * nX + J) else 0)
          else h (K, L, I, J) := by
        intro h K L I J
        have hb : (fun ii (hessian : xn2x_matrix_t α) =>
            forUp (fun jj (hessian : xn2x_matrix_t α) =>
              if (r.intervals i).y.data (2 * jj) ≤ r.options.equalityTolerance ∧
                  (r.intervals i).y.data (2 * jj + 1) ≤ r.options.equalityTolerance
              then setAcc hessian i (-1) ii jj (- t.2.data (ii * nX + jj))
              else setAcc hessian i (-1) ii jj 0) 0 nX hessian) =
            (fun ii (hessian : xn2x_matrix_t α) =>
            forUp (fun jj (hessian : xn2x_matrix_t α) =>
              setAcc hessian i (-1) ii jj
                ((fun ii jj =>
                  if (r.intervals i).y.data (2 * jj) ≤ r.options.equalityTolerance ∧
                    (r.intervals i).y.data (2 * jj + 1) ≤ r.options.equalityTolerance
                  then - t.2.data (ii * nX + jj) else 0) ii jj)) 0 nX hessian) := by
          funext ii hs
          congr 1
          funext jj hs2
          dsimp only
          split <;> rfl
        rw [hb]
        exact forUp_write_block i (-1) _ nX nX h K L I J
      refine ⟨hinv, _, rfl, fun key => ?_⟩
      obtain ⟨K, L, I, J⟩ := key
      dsimp only
      constructor
      · rintro ⟨_, c1, c2, c3, c4⟩
        have hb : K = i ∧ L = -1 ∧ I < nX ∧ J < nX := ⟨c1, c2, c3, c4⟩
        rw [hw h2 K L I J, hw r.hessian K L I J]
        simp only [if_pos hb]
      · intro hn
        have hb : ¬ (K = i ∧ L = -1 ∧ I < nX ∧ J < nX) := fun c => hn ⟨hca, c⟩
        rw [hw h2 K L I J]
        simp only [if_neg hb]
  · simp only [if_neg hc]
    have hca : ¬ (a.intervals i).actSetHasChanged = true := by rw [← hinv]; exact hc
    refine ⟨fun h => by simp at h, fun r1 h => ?_⟩
    simp only [Option.some.injEq] at h
    subst h
    exact ⟨hinv, h2, rfl, fun key => ⟨fun c => absurd c.1 hca, fun _ => rfl⟩⟩


/-- The recomputation policy of `qpDUNES_setupNewtonSystem` on a run that returns
QPDUNES_OK: entries outside the recomputed blocks keep their value, and the entries of the
recomputed blocks do not depend on the Hessian stored before the call. -/
theorem setupNewtonSystem_policy (sqrt_f : α → α) (ext : collaborators_t α) (N nX nZ : Nat)
    (qp qp1 : qpData_t α)
    (hrun : qpDUNES_setupNewtonSystem sqrt_f ext N nX nZ qp =
      some (return_t.QPDUNES_OK, qp1)) :
    (∀ (K : Nat) (L : Int) (I J : Nat), ¬ Recomputed N nX qp K L I J →
      qp1.hessian (K, L, I, J) = qp.hessian (K, L, I, J)) ∧
    (∀ h2 : xn2x_matrix_t α, ∃ qp2,
      qpDUNES_setupNewtonSystem sqrt_f ext N nX nZ (setHessian qp h2) =
        some (return_t.QPDUNES_OK, qp2) ∧
      ∀ (K : Nat) (L : Int) (I J : Nat), Recomputed N nX qp K L I J →
        qp2.hessian (K, L, I, J) = qp1.hessian (K, L, I, J)) := by
  have hg : ∀ h2, setupNewtonSystem_gradient N nX nZ (setHessian qp h2) =
      setHessian (setupNewtonSystem_gradient N nX nZ qp) h2 := fun _ => rfl
  have hgi : (setupNewtonSystem_gradient N nX nZ qp).intervals = qp.intervals := rfl
  have hgh : (setupNewtonSystem_gradient N nX nZ qp).hessian = qp.hessian := rfl
  have hdiag := fun n a h2 ha => forUpO_setHessian (setupNewtonSystem_diagBlock ext nX nZ)
    (fun i (key : Nat × Int × Nat × Nat) =>
      diagChanged qp i ∧ key.1 = i ∧ key.2.1 = 0 ∧ key.2.2.1 < nX ∧ key.2.2.2 < nX)
    (fun r => r.intervals = qp.intervals) 0
    (fun i r h2 hinv => diagBlock_setHessian ext nX nZ qp i r h2 hinv) n a h2 ha
  have hsub := fun n a h2 ha => forUpO_setHessian (setupNewtonSystem_subBlock nX nZ)
    (fun i (key : Nat × Int × Nat × Nat) =>
      (qp.intervals i).actSetHasChanged = true ∧ key.1 = i ∧ key.2.1 = -1 ∧
        key.2.2.1 < nX ∧ key.2.2.2 < nX)
    (fun r => r.intervals = qp.intervals) 1
    (fun i r h2 hinv => subBlock_setHessian nX nZ qp i r h2 hinv) n a h2 ha
  unfold qpDUNES_setupNewtonSystem at hrun
  dsimp only at hrun
  by_cases hnorm : vectorNorm sqrt_f (setupNewtonSystem_gradient N nX nZ qp).gradient (nX * N) <
      (setupNewtonSystem_gradient N nX nZ qp).options.stationarityTolerance
  · rw [if_pos hnorm] at hrun
    simp at hrun
  · rw [if_neg hnorm] at hrun
    cases hd : forUpO (setupNewtonSystem_diagBlock ext nX nZ) 0 N
        (setupNewtonSystem_gradient N nX nZ qp) with
    | none => rw [hd] at hrun; simp at hrun
    | some q1 =>
      rw [hd] at hrun
      dsimp only at hrun
      cases hs : forUpO (setupNewtonSystem_subBlock nX nZ) 1 (N - 1) q1 with
      | none => rw [hs] at hrun; simp at hrun
      | some q2 =>
        rw [hs] at hrun
        simp only [Option.some.injEq, Prod.mk.injEq, true_and] at hrun
        subst hrun
        -- frames, from the laws at the Hessian already stored
        have fd : ∀ key : Nat × Int × Nat × Nat,
            (¬ ∃ i, 0 ≤ i ∧ i < 0 + N ∧ (diagChanged qp i ∧ key.1 = i ∧ key.2.1 = 0 ∧
              key.2.2.1 < nX ∧ key.2.2.2 < nX)) → q1.hessian key = qp.hessian key := by
          intro key hk
          obtain ⟨_, h1, hr1, hk1⟩ := (hdiag N _ qp.hessian hgi).2 q1 hd
          have e : setHessian (setupNewtonSystem_gradient N nX nZ qp) qp.hessian =
              setupNewtonSystem_gradient N nX nZ qp := rfl
          rw [e, hd] at hr1
          have e2 : q1 = setHessian q1 h1 := Option.some.inj hr1
          have e3 : q1.hessian = h1 := by
            conv_lhs => rw [e2]
            rfl
          rw [e3]
          exact (hk1 key).2 hk
        obtain ⟨hq1, _⟩ := (hdiag N _ qp.hessian hgi).2 q1 hd
        have fs : ∀ key : Nat × Int × Nat × Nat,
            (¬ ∃ i, 1 ≤ i ∧ i < 1 + (N - 1) ∧ ((qp.intervals i).actSetHasChanged = true ∧
              key.1 = i ∧ key.2.1 = -1 ∧ key.2.2.1 < nX ∧ key.2.2.2 < nX)) →
              q2.hessian key = q1.hessian key := by
          intro key hk
          obtain ⟨_, h1, hr1, hk1⟩ := (hsub (N - 1) q1 q1.hessian hq1).2 q2 hs
          have e : setHessian q1 q1.hessian = q1 := rfl
          rw [e, hs] at hr1
          have e2 : q2 = setHessian q2 h1 := Option.some.inj hr1
          have e3 : q2.hessian = h1 := by
            conv_lhs => rw [e2]
            rfl
          rw [e3]
          exact (hk1 key).2 hk
        constructor
        · intro K L I J hnot
          rw [fs (K, L, I, J), fd (K, L, I, J)]
          · rintro ⟨i, _, c2, c3, c4, c5, c6, c7⟩
            dsimp only at c4 c5 c6 c7
            subst c4
            exact hnot ⟨Or.inl ⟨c5, by omega, c3⟩, c6, c7⟩
          · rintro ⟨i, c1, c2, c3, c4, c5, c6, c7⟩
            dsimp only at c4 c5 c6 c7
            subst c4
            exact hnot ⟨Or.inr ⟨c5, c1, by omega, c3⟩, c6, c7⟩
        · intro h2
          obtain ⟨_, h1, hr1, hk1⟩ := (hdiag N _ h2 hgi).2 q1 hd
          obtain ⟨_, h3, hr3, hk3⟩ := (hsub (N - 1) q1 h1 hq1).2 q2 hs
          refine ⟨setHessian q2 h3, ?_, ?_⟩
          · unfold qpDUNES_setupNewtonSystem
            dsimp only
            rw [hg h2]
            have hn2 : ¬ vectorNorm sqrt_f
                (setHessian (setupNewtonSystem_gradient N nX nZ qp) h2).gradient (nX * N) <
                (setHessian (setupNewtonSystem_gradient N nX nZ qp) h2).options.stationarityTolerance :=
              hnorm
            rw [if_neg hn2, hr1]
            dsimp only
            rw [hr3]
          · intro K L I J hrec
            have e : (setHessian q2 h3).hessian = h3 := rfl
            rw [e]
            obtain ⟨hor, hI, hJ⟩ := hrec
            rcases hor with ⟨c1, c2, c3⟩ | ⟨c1, c2, c3, c4⟩
            · have hns : ¬ ∃ i, 1 ≤ i ∧ i < 1 + (N - 1) ∧
                  ((qp.intervals i).actSetHasChanged = true ∧
                  (K, L, I, J).1 = i ∧ (K, L, I, J).2.1 = -1 ∧ (K, L, I, J).2.2.1 < nX ∧
                  (K, L, I, J).2.2.2 < nX) := by
                rintro ⟨i, _, _, _, _, c5, _⟩
                dsimp only at c5
                omega
              rw [(hk3 (K, L, I, J)).2 hns, fs (K, L, I, J) hns]
              exact (hk1 (K, L, I, J)).1 ⟨K, by omega, by omega, c3, rfl, c1, hI, hJ⟩
            · exact (hk3 (K, L, I, J)).1 ⟨K, c2, by omega, c4, rfl, c1, hI, hJ⟩

end AssemblyLemmas

/-! ## The diagonal blocks in closed form -/

section BlockValueLemmas

variable {α : Type} [LinearOrderedField α]

omit [LinearOrderedField α] in
theorem forUpM_eq_ok_forUp {σ ε : Type} (body : Nat → σ → Except ε σ) (f : Nat → σ → σ)
    (lo n : Nat) (s : σ)
    (h : ∀ i s, lo ≤ i → i < lo + n → body i s = Except.ok (f i s)) :
    forUpM body lo n s = Except.ok (forUp f lo n s) := by
  induction n with
  | zero => rfl
  | succ n ih =>
    simp only [forUpM, forUp]
    rw [ih (fun i s h1 h2 => h i s h1 (by omega))]
    exact h _ _ (by omega) (by omega)

omit [LinearOrderedField α] in
theorem forUp_raw_row (b : Nat) (g : Nat → α → α) (m : Nat) (r : Nat → α) (q : Nat) :
    forUp (fun j (r : Nat → α) => Function.update r (b + j) (g j (r (b + j)))) 0 m r q =
      if b ≤ q ∧ q < b + m then g (q - b) (r q) else r q := by
  induction m generalizing q with
  | zero =>
    have h : ¬ (b ≤ q ∧ q < b + 0) := by omega
    rw [if_neg h]; rfl
  | succ m ih =>
    simp only [forUp, Function.update_apply, Nat.zero_add]
    by_cases h1 : q = b + m
    · subst h1
      have h2 : b ≤ b + m ∧ b + m < b + (m + 1) := by omega
      have h3 : ¬ (b ≤ b + m ∧ b + m < b + m) := by omega
      rw [if_pos rfl, if_pos h2, ih, if_neg h3, Nat.add_sub_cancel_left]
    · rw [if_neg h1, ih]
      by_cases h2 : b ≤ q ∧ q < b + m
      · have h3 : b ≤ q ∧ q < b + (m + 1) := by omega
        rw [if_pos h2, if_pos h3]
      · have h3 : ¬ (b ≤ q ∧ q < b + (m + 1)) := by omega
        rw [if_neg h2, if_neg h3]

omit [LinearOrderedField α] in
theorem forUp_raw_block (d : Nat) (g : Nat → Nat → α → α) (n : Nat) (r : Nat → α)
    (I J : Nat) (hJ : J < d) :
    forUp (fun i (r : Nat → α) =>
      forUp (fun j (r : Nat → α) =>
        Function.update r (i * d + j) (g i j (r (i * d + j)))) 0 d r) 0 n r (I * d + J) =
      if I < n then g I J (r (I * d + J)) else r (I * d + J) := by
  induction n with
  | zero => simp [forUp]
  | succ n ih =>
    rw [forUp]
    simp only [Nat.zero_add]
    rw [forUp_raw_row (n * d) (g n) d _ (I * d + J), ih]
    by_cases h1 : I = n
    · subst h1
      have h2 : I * d ≤ I * d + J ∧ I * d + J < I * d + d := by omega
      have h3 : ¬ I < I := by omega
      rw [if_pos h2, if_neg h3, if_pos (by omega : I < I + 1), Nat.add_sub_cancel_left]
    · have h2 : ¬ (n * d ≤ I * d + J ∧ I * d + J < n * d + d) := by
        rintro ⟨a, b⟩
        rcases Nat.lt_or_gt_of_ne h1 with c | c
        · have : (I + 1) * d ≤ n * d := Nat.mul_le_mul_right _ c
          rw [Nat.add_mul, Nat.one_mul] at this
          omega
        · have : (n + 1) * d ≤ I * d := Nat.mul_le_mul_right _ c
          rw [Nat.add_mul, Nat.one_mul] at this
          omega
      rw [if_neg h2]
      by_cases h3 : I < n
      · rw [if_pos h3, if_pos (by omega : I < n + 1)]
      · rw [if_neg h3, if_neg (by omega : ¬ I < n + 1)]

omit [LinearOrderedField α] in
theorem forUp_matrix_block_data (d : Nat) (g : Nat → Nat → α → α) (n m : Nat) (M : matrix_t α) :
    (forUp (fun i (M : matrix_t α) =>
      forUp (fun j (M : matrix_t α) =>
        M.set (i * d + j) (g i j (M.data (i * d + j)))) 0 m M) 0 n M).sparsityType =
      M.sparsityType ∧
    (forUp (fun i (M : matrix_t α) =>
      forUp (fun j (M : matrix_t α) =>
        M.set (i * d + j) (g i j (M.data (i * d + j)))) 0 m M) 0 n M).data =
    forUp (fun i (r : Nat → α) =>
      forUp (fun j (r : Nat → α) =>
        Function.update r (i * d + j) (g i j (r (i * d + j)))) 0 m r) 0 n M.data := by
  have hrow : ∀ (i mm : Nat) (M : matrix_t α),
      (forUp (fun j (M : matrix_t α) =>
        M.set (i * d + j) (g i j (M.data (i * d + j)))) 0 mm M).sparsityType =
        M.sparsityType ∧
      (forUp (fun j (M : matrix_t α) =>
        M.set (i * d + j) (g i j (M.data (i * d + j)))) 0 mm M).data =
      forUp (fun j (r : Nat → α) =>
        Function.update r (i * d + j) (g i j (r (i * d + j)))) 0 mm M.data := by
    intro i mm M
    induction mm with
    | zero => exact ⟨rfl, rfl⟩
    | succ mm ih =>
      simp only [forUp]
      refine ⟨ih.1, ?_⟩
      have e := ih.2
      simp only [matrix_t.set] at e ⊢
      rw [e]
  induction n with
  | zero => exact ⟨rfl, rfl⟩
  | succ n ih =>
    simp only [forUp]
    obtain ⟨a, b⟩ := hrow (0 + n) m (forUp (fun i (M : matrix_t α) =>
      forUp (fun j (M : matrix_t α) =>
        M.set (i * d + j) (g i j (M.data (i * d + j)))) 0 m M) 0 n M)
    refine ⟨a.trans ih.1, ?_⟩
    rw [b, ih.2]

omit [LinearOrderedField α] in
/-- Entry `(I, J)` after a loop nest that updates every entry of the first `n` rows of a
row-major matrix of row length `d` once. -/
theorem forUp_matrix_block (d : Nat) (g : Nat → Nat → α → α) (n : Nat) (M : matrix_t α)
    (I J : Nat) (hJ : J < d) :
    (forUp (fun i (M : matrix_t α) =>
      forUp (fun j (M : matrix_t α) =>
        M.set (i * d + j) (g i j (M.data (i * d + j)))) 0 d M) 0 n M).data (I * d + J) =
      if I < n then g I J (M.data (I * d + J)) else M.data (I * d + J) := by
  rw [(forUp_matrix_block_data d g n d M).2]
  exact forUp_raw_block d g n M.data I J hJ


theorem backsolveMatrixDiagonalIdentity_ok (opt : qpOptions_t α) (res M1 : Nat → α)
    (dim0 : Nat) (hg : ∀ i, i < dim0 → abs_f (M1 i) ≥ opt.QPDUNES_ZERO) :
    backsolveMatrixDiagonalIdentity opt res M1 dim0 =
      (return_t.QPDUNES_OK, fun i => if i < dim0 then M1 i else res i) := by
  unfold backsolveMatrixDiagonalIdentity
  rw [forUpM_eq_ok_forUp _ (fun i (res : Nat → α) => Function.update res i (M1 i)) 0 dim0 res
    (fun i s _ h2 => by
      dsimp only
      rw [if_pos (hg i (by omega))])]
  dsimp only
  congr 1
  funext q
  clear hg
  induction dim0 with
  | zero => simp [forUp]
  | succ n ih =>
    simp only [forUp, Function.update_apply, Nat.zero_add]
    by_cases h1 : q = n
    · subst h1; simp
    · rw [if_neg h1, ih]
      by_cases h2 : q < n
      · rw [if_pos h2, if_pos (by omega : q < n + 1)]
      · rw [if_neg h2, if_neg (by omega : ¬ q < n + 1)]

theorem backsolveMatrixTDiagonalDense_ok (opt : qpOptions_t α) (res M1 M2 : Nat → α)
    (dim0 dim1 : Nat)
    (hg : ∀ i j, i < dim1 → j < dim0 →
      abs_f (M1 i) ≥ opt.QPDUNES_ZERO * abs_f (M2 (j * dim1 + i)))
    (I J : Nat) (hI : I < dim1) (hJ : J < dim0) :
    (backsolveMatrixTDiagonalDense opt res M1 M2 dim0 dim1).2 (I * dim0 + J) =
      M2 (J * dim1 + I) * M1 I := by
  unfold backsolveMatrixTDiagonalDense
  have hin : ∀ i (s : Nat → α), 0 ≤ i → i < 0 + dim1 →
      forUpM (fun j (res : Nat → α) =>
        if abs_f (M1 i) ≥ opt.QPDUNES_ZERO * abs_f (M2 (j * dim1 + i)) then
          (Except.ok (Function.update res (i * dim0 + j) (M2 (j * dim1 + i) * M1 i)) :
            Except (return_t × (Nat → α)) (Nat → α))
        else Except.error (return_t.QPDUNES_ERR_DIVISION_BY_ZERO, res)) 0 dim0 s =
      Except.ok (forUp (fun j (res : Nat → α) =>
        Function.update res (i * dim0 + j)
          ((fun i j (_ : α) => M2 (j * dim1 + i) * M1 i) i j (res (i * dim0 + j)))) 0 dim0 s) := by
    intro i s _ hi
    exact forUpM_eq_ok_forUp _ _ 0 dim0 s (fun j s2 _ hj => by
      dsimp only
      rw [if_pos (hg i j (by omega) (by omega))])
  rw [forUpM_eq_ok_forUp _ _ 0 dim1 res hin]
  dsimp only
  rw [forUp_raw_block dim0 (fun i j (_ : α) => M2 (j * dim1 + i) * M1 i) dim1 res I J hJ,
    if_pos hI]

theorem getInvQ_diagonal (opt : qpOptions_t α) (res cholH : matrix_t α) (nV : Nat)
    (hd : cholH.sparsityType = sparsityType_t.QPDUNES_DIAGONAL)
    (hg : ∀ i, i < nV → abs_f (cholH.data i) ≥ opt.QPDUNES_ZERO) :
    getInvQ opt res cholH nV = some (return_t.QPDUNES_OK,
      { sparsityType := sparsityType_t.QPDUNES_DIAGONAL,
        data := fun i => if i < nV then cholH.data i else res.data i }) := by
  unfold getInvQ
  rw [hd]
  dsimp only
  rw [backsolveMatrixDiagonalIdentity_ok opt res.data cholH.data nV hg]

/-- The loop that zeroes the diagonal entries of the states with an active bound. -/
theorem annihilate_data (nX : Nat) (act : Nat → Prop) [DecidablePred act] (n : Nat)
    (M : matrix_t α) (I J : Nat) (hI : I < nX) (hJ : J < nX) :
    (forUp (fun ii (M : matrix_t α) => if act ii then M.set (ii * nX + ii) 0 else M)
        0 n M).sparsityType = M.sparsityType ∧
    (forUp (fun ii (M : matrix_t α) => if act ii then M.set (ii * nX + ii) 0 else M)
        0 n M).data (I * nX + J) =
      if I = J ∧ I < n ∧ act I then 0 else M.data (I * nX + J) := by
  induction n with
  | zero => simp [forUp]
  | succ n ih =>
    simp only [forUp, Nat.zero_add]
    by_cases ha : act n
    · rw [if_pos ha]
      refine ⟨ih.1, ?_⟩
      rw [matrix_set_data, ih.2]
      by_cases h1 : I * nX + J = n * nX + n
      · have hn : n < nX := by
          by_contra hc
          have : nX * nX ≤ n * nX := Nat.mul_le_mul_right _ (by omega)
          have : (I + 1) * nX ≤ nX * nX := Nat.mul_le_mul_right _ (by omega)
          rw [Nat.add_mul, Nat.one_mul] at this
          omega
        obtain ⟨e1, e2⟩ := flat_inj nX I J n n hJ hn h1
        subst e1 e2
        simp [ha]
      · rw [if_neg h1]
        by_cases h2 : I = J ∧ I < n ∧ act I
        · rw [if_pos h2, if_pos ⟨h2.1, by omega, h2.2.2⟩]
        · have h3 : ¬ (I = J ∧ I < n + 1 ∧ act I) := by
            rintro ⟨a, b, c⟩
            by_cases e : I = n
            · subst a e
              exact h1 rfl
            · exact h2 ⟨a, by omega, c⟩
          rw [if_neg h2, if_neg h3]
    · rw [if_neg ha]
      refine ⟨ih.1, ?_⟩
      rw [ih.2]
      by_cases h2 : I = J ∧ I < n ∧ act I
      · rw [if_pos h2, if_pos ⟨h2.1, by omega, h2.2.2⟩]
      · have h3 : ¬ (I = J ∧ I < n + 1 ∧ act I) := by
          rintro ⟨a, b, c⟩
          by_cases e : I = n
          · subst e
            exact ha c
          · exact h2 ⟨a, by omega, c⟩
        rw [if_neg h2, if_neg h3]

/-- The dyadic accumulation loop of `addCInvHCT`. -/
theorem accumulate_data (nX nZ : Nat) (inact : Nat → Prop) [DecidablePred inact]
    (M2 zx : Nat → α) (n : Nat) (M : matrix_t α) (I J : Nat) (hI : I < nX) (hJ : J < nX) :
    (forUp (fun l (res : matrix_t α) =>
      if inact l then
        forUp (fun i (res : matrix_t α) =>
          forUp (fun j (res : matrix_t α) =>
            res.set (i * nX + j)
              (res.data (i * nX + j) + M2 (i * nZ + l) * zx (l * nX + j)))
            0 nX res) 0 nX res
      else res) 0 n M).data (I * nX + J) =
    M.data (I * nX + J) +
      ∑ l in Finset.range n, (if inact l then M2 (I * nZ + l) * zx (l * nX + J) else 0) := by
  induction n with
  | zero => simp [forUp]
  | succ n ih =>
    simp only [forUp, Nat.zero_add]
    rw [Finset.sum_range_succ]
    by_cases ha : inact n
    · rw [if_pos ha, if_pos ha]
      rw [forUp_matrix_block nX (fun i j x => x + M2 (i * nZ + n) * zx (n * nX + j)) nX _ I J hJ,
        if_pos hI, ih]
      ring
    · rw [if_neg ha, if_neg ha, ih]
      ring


/-- The block in `xxMatTmp` before it is written, in closed form. -/
theorem diagTmp_value (ext : collaborators_t α) (nX nZ k : Nat) (s : qpData_t α)
    (hmd : MakesDense ext nX)
    (hd1 : (s.intervals (k + 1)).cholH.sparsityType = sparsityType_t.QPDUNES_DIAGONAL)
    (hnV : nX ≤ (s.intervals (k + 1)).nV)
    (hg1 : ∀ i, i < (s.intervals (k + 1)).nV →
      abs_f ((s.intervals (k + 1)).cholH.data i) ≥ s.options.QPDUNES_ZERO)
    (hd0 : (s.intervals k).cholH.sparsityType = sparsityType_t.QPDUNES_DIAGONAL)
    (hg0 : ∀ l j, l < nZ → j < nX → abs_f ((s.intervals k).cholH.data l) ≥
      s.options.QPDUNES_ZERO * abs_f ((s.intervals k).C.data (j * nZ + l))) :
    ∃ t, setupNewtonSystem_diagTmp ext nX nZ k s = some t ∧
      ∀ i j, i < nX → j < nX → t.1.data (i * nX + j) = assembledDiagEntry nZ s k i j := by
  unfold setupNewtonSystem_diagTmp
  rw [getInvQ_diagonal s.options s.xxMatTmp (s.intervals (k + 1)).cholH
    (s.intervals (k + 1)).nV hd1 hg1]
  dsimp only
  obtain ⟨m1, m2⟩ := hmd.1 (matrix_t.mk sparsityType_t.QPDUNES_DIAGONAL
    (fun i => if i < (s.intervals (k + 1)).nV then (s.intervals (k + 1)).cholH.data i
      else s.xxMatTmp.data i)) rfl
  have hsp : (forUp (fun ii (xxMatTmp : matrix_t α) =>
      if (s.intervals (k + 1)).y.data (2 * ii) ≥ s.options.equalityTolerance ∨
          (s.intervals (k + 1)).y.data (2 * ii + 1) ≥ s.options.equalityTolerance
      then xxMatTmp.set (ii * nX + ii) 0
      else xxMatTmp) 0 nX
        (ext.qpDUNES_makeMatrixDense (matrix_t.mk sparsityType_t.QPDUNES_DIAGONAL
          (fun i => if i < (s.intervals (k + 1)).nV then
            (s.intervals (k + 1)).cholH.data i else s.xxMatTmp.data i)) nX nX)).sparsityType =
      sparsityType_t.QPDUNES_DENSE := by
    by_cases h0 : 0 < nX
    · exact ((annihilate_data nX (fun ii =>
        (s.intervals (k + 1)).y.data (2 * ii) ≥ s.options.equalityTolerance ∨
          (s.intervals (k + 1)).y.data (2 * ii + 1) ≥ s.options.equalityTolerance) nX _ 0 0
          h0 h0).1).trans m1
    · have e : nX = 0 := by omega
      subst e
      exact m1
  unfold addCInvHCT
  rw [if_pos hd0]
  dsimp only
  rw [hmd.2 _ hsp]
  refine ⟨_, rfl, fun i j hi hj => ?_⟩
  dsimp only
  rw [accumulate_data nX nZ (fun l =>
    (s.intervals k).y.data (2 * l) ≤ s.options.equalityTolerance ∧
      (s.intervals k).y.data (2 * l + 1) ≤ s.options.equalityTolerance)
    (s.intervals k).C.data _ nZ _ i j hi hj]
  rw [(annihilate_data nX (fun ii =>
        (s.intervals (k + 1)).y.data (2 * ii) ≥ s.options.equalityTolerance ∨
          (s.intervals (k + 1)).y.data (2 * ii + 1) ≥ s.options.equalityTolerance) nX _ i j
          hi hj).2, m2 i j hi hj]
  unfold assembledDiagEntry
  congr 1
  · by_cases e : i = j
    · subst e
      by_cases ha : (s.intervals (k + 1)).y.data (2 * i) ≥ s.options.equalityTolerance ∨
          (s.intervals (k + 1)).y.data (2 * i + 1) ≥ s.options.equalityTolerance
      · simp [ha, hi]
      · have hv : i < (s.intervals (k + 1)).nV := by omega
        simp [ha, hv]
    · simp [e]
  · apply Finset.sum_congr rfl
    intro l hl
    have hl2 : l < nZ := Finset.mem_range.mp hl
    rw [backsolveMatrixTDiagonalDense_ok s.options s.zxMatTmp.data (s.intervals k).cholH.data
      (s.intervals k).C.data nX nZ hg0 l j hl2 hj]


omit [LinearOrderedField α] in
theorem forUpO_total {σ : Type} (body : Nat → σ → Option σ) (P : Nat → σ → Prop) (lo n : Nat)
    (hstep : ∀ i s, lo ≤ i → i < lo + n → P i s → ∃ s1, body i s = some s1 ∧ P (i + 1) s1)
    (s : σ) (h0 : P lo s) : ∃ s1, forUpO body lo n s = some s1 ∧ P (lo + n) s1 := by
  induction n with
  | zero => exact ⟨s, rfl, h0⟩
  | succ n ih =>
    obtain ⟨s1, h1, h2⟩ := ih (fun i s a b c => hstep i s a (by omega) c)
    obtain ⟨s2, h3, h4⟩ := hstep (lo + n) s1 (by omega) (by omega) h2
    refine ⟨s2, ?_, h4⟩
    simp only [forUpO]
    rw [h1]
    exact h3

theorem assembledDiagEntry_congr (nZ : Nat) (s qp : qpData_t α) (k i j : Nat)
    (h1 : s.intervals = qp.intervals) (h2 : s.options = qp.options) :
    assembledDiagEntry nZ s k i j = assembledDiagEntry nZ qp k i j := by
  unfold assembledDiagEntry
  rw [h1, h2]

/-- The diagonal block loop goes through under the guards, and every recomputed diagonal
block then holds the closed form. -/
theorem diagLoop_value (ext : collaborators_t α) (N nX nZ : Nat) (qp : qpData_t α)
    (hmd : MakesDense ext nX) (hg : AssemblyGuards N nX nZ qp)
    (s : qpData_t α) (hs1 : s.intervals = qp.intervals) (hs2 : s.options = qp.options) :
    ∃ q1, forUpO (setupNewtonSystem_diagBlock ext nX nZ) 0 N s = some q1 ∧
      q1.intervals = qp.intervals ∧ q1.options = qp.options ∧
      ∀ k, k < N → diagChanged qp k → ∀ i j, i < nX → j < nX →
        q1.hessian (k, 0, i, j) = assembledDiagEntry nZ qp k i j := by
  have h := forUpO_total (setupNewtonSystem_diagBlock ext nX nZ)
    (fun n (s : qpData_t α) => s.intervals = qp.intervals ∧ s.options = qp.options ∧
      ∀ k, k < n → diagChanged qp k → ∀ i j, i < nX → j < nX →
        s.hessian (k, 0, i, j) = assembledDiagEntry nZ qp k i j) 0 N ?_ s
      ⟨hs1, hs2, fun k hk => by omega⟩
  · obtain ⟨q1, a, b, c, d⟩ := h
    exact ⟨q1, a, b, c, fun k hk => d k (by omega)⟩
  · intro n r _ hn ⟨r1, r2, r3⟩
    unfold setupNewtonSystem_diagBlock
    by_cases hc : (r.intervals n).actSetHasChanged = true ∨
        (r.intervals (n + 1)).actSetHasChanged = true
    · rw [if_pos hc]
      obtain ⟨g0a, _, _, g0d⟩ := hg n (by omega)
      obtain ⟨g1a, g1b, g1c, _⟩ := hg (n + 1) (by omega)
      obtain ⟨t, ht, hv⟩ := diagTmp_value ext nX nZ n r hmd (by rw [r1]; exact g1a)
        (by rw [r1]; exact g1b) (by rw [r1, r2]; exact g1c) (by rw [r1]; exact g0a)
        (by rw [r1, r2]; exact fun l j hl hj => g0d l j (by omega) hl hj)
      rw [ht]
      dsimp only
      refine ⟨_, rfl, r1, r2, fun k hk hck i j hi hj => ?_⟩
      dsimp only
      rw [writeDiag_hessian]
      by_cases e : k = n
      · subst e
        rw [if_pos ⟨rfl, rfl, hi, hj⟩, hv i j hi hj]
        exact assembledDiagEntry_congr nZ r qp k i j r1 r2
      · rw [if_neg (fun c => e c.1)]
        exact r3 k (by omega) hck i j hi hj
    · rw [if_neg hc]
      refine ⟨r, rfl, r1, r2, fun k hk hck i j hi hj => ?_⟩
      by_cases e : k = n
      · subst e
        exact absurd (by unfold diagChanged at hck; rw [← r1] at hck; exact hck) hc
      · exact r3 k (by omega) hck i j hi hj

theorem multiplyAInvQ_diagonal (nX nZ : Nat) (res C cholH : matrix_t α)
    (hd : cholH.sparsityType = sparsityType_t.QPDUNES_DIAGONAL) :
    ∃ r, multiplyAInvQ nX nZ res C cholH = some r := by
  unfold multiplyAInvQ
  rw [hd]
  exact ⟨_, rfl⟩

/-- The sub-diagonal block loop goes through when every `cholH` is diagonal. -/
theorem subLoop_total (N nX nZ : Nat) (qp : qpData_t α)
    (hd : ∀ k, k ≤ N → (qp.intervals k).cholH.sparsityType = sparsityType_t.QPDUNES_DIAGONAL)
    (s : qpData_t α) (hs1 : s.intervals = qp.intervals) :
    ∃ q2, forUpO (setupNewtonSystem_subBlock nX nZ) 1 (N - 1) s = some q2 := by
  have h := forUpO_total (setupNewtonSystem_subBlock nX nZ)
    (fun _ (s : qpData_t α) => s.intervals = qp.intervals) 1 (N - 1) ?_ s hs1
  · obtain ⟨q2, a, _⟩ := h
    exact ⟨q2, a⟩
  · intro n r _ hn r1
    unfold setupNewtonSystem_subBlock
    by_cases hc : (r.intervals n).actSetHasChanged = true
    · rw [if_pos hc]
      obtain ⟨t, ht⟩ := multiplyAInvQ_diagonal nX nZ r.xxMatTmp (r.intervals n).C
        (r.intervals n).cholH (by rw [r1]; exact hd n (by omega))
      rw [ht]
      exact ⟨_, rfl, r1⟩
    · rw [if_neg hc]
      exact ⟨r, rfl, r1⟩

/-- The sub-diagonal block loop leaves the diagonal blocks as they are. -/
theorem subLoop_frame (nX nZ : Nat) (n : Nat) (q1 q2 : qpData_t α)
    (hs : forUpO (setupNewtonSystem_subBlock nX nZ) 1 n q1 = some q2)
    (K : Nat) (I J : Nat) : q2.hessian (K, 0, I, J) = q1.hessian (K, 0, I, J) := by
  obtain ⟨_, h1, hr1, hk1⟩ := (forUpO_setHessian (setupNewtonSystem_subBlock nX nZ)
    (fun i (key : Nat × Int × Nat × Nat) =>
      (q1.intervals i).actSetHasChanged = true ∧ key.1 = i ∧ key.2.1 = -1 ∧
        key.2.2.1 < nX ∧ key.2.2.2 < nX)
    (fun r => r.intervals = q1.intervals) 1
    (fun i r h2 hinv => subBlock_setHessian nX nZ q1 i r h2 hinv) n q1 q1.hessian rfl).2 q2 hs
  have e : setHessian q1 q1.hessian = q1 := rfl
  rw [e, hs] at hr1
  have e2 : q2 = setHessian q2 h1 := Option.some.inj hr1
  have e3 : q2.hessian = h1 := by
    conv_lhs => rw [e2]
    rfl
  rw [e3]
  refine (hk1 (K, 0, I, J)).2 ?_
  rintro ⟨i, _, _, _, _, c, _⟩
  simp at c

/-- Under the guards `qpDUNES_setupNewtonSystem` returns: with the optimality status when
the gradient norm is below the tolerance and with QPDUNES_OK otherwise; in the second case
every recomputed diagonal block holds the closed form. -/
theorem setupNewtonSystem_returns (sqrt_f : α → α) (ext : collaborators_t α)
    (N nX nZ : Nat) (qp : qpData_t α) (hmd : MakesDense ext nX)
    (hg : AssemblyGuards N nX nZ qp) :
    ∃ qp1, qpDUNES_setupNewtonSystem sqrt_f ext N nX nZ qp =
        some (if vectorNorm sqrt_f (setupNewtonSystem_gradient N nX nZ qp).gradient (nX * N) <
          qp.options.stationarityTolerance then return_t.QPDUNES_SUCC_OPTIMAL_SOLUTION_FOUND
          else return_t.QPDUNES_OK, qp1) ∧
      (¬ vectorNorm sqrt_f (setupNewtonSystem_gradient N nX nZ qp).gradient (nX * N) <
          qp.options.stationarityTolerance →
        ∀ k, k < N → diagChanged qp k → ∀ i j, i < nX → j < nX →
          qp1.hessian (k, 0, i, j) = assembledDiagEntry nZ qp k i j) := by
  unfold qpDUNES_setupNewtonSystem
  dsimp only
  have ho : (setupNewtonSystem_gradient N nX nZ qp).options = qp.options := rfl
  rw [ho]
  by_cases hnorm : vectorNorm sqrt_f (setupNewtonSystem_gradient N nX nZ qp).gradient (nX * N) <
      qp.options.stationarityTolerance
  · rw [if_pos hnorm, if_pos hnorm]
    exact ⟨_, rfl, fun h => absurd hnorm h⟩
  · rw [if_neg hnorm, if_neg hnorm]
    obtain ⟨q1, a, b, c, d⟩ := diagLoop_value ext N nX nZ qp hmd hg
      (setupNewtonSystem_gradient N nX nZ qp) rfl rfl
    obtain ⟨q2, e⟩ := subLoop_total N nX nZ qp (fun k hk => (hg k hk).1) q1 b
    rw [a]
    dsimp only
    rw [e]
    refine ⟨q2, rfl, fun _ k hk hc i j hi hj => ?_⟩
    rw [subLoop_frame nX nZ (N - 1) q1 q2 e k i j]
    exact d k hk hc i j hi hj

end BlockValueLemmas

/-! ## The optimality test of the outer driver -/

section DriverLemmas

variable {α : Type} [LinearOrderedField α]

/-- An entry of a vector whose Euclidean norm is below `tol` is below `tol` in absolute
value, and `tol` is at most `tol * sqrt n` for `n >= 1`. -/
theorem abs_entry_le_of_norm_lt (sqrt_f : α → α) (hsqrt : ∀ x, 0 ≤ x → sqrt_f x * sqrt_f x = x)
    (hsqrt0 : ∀ x, 0 ≤ x → 0 ≤ sqrt_f x) (g : Nat → α) (n : Nat) (tol : α)
    (h : sqrt_f (∑ p in Finset.range n, g p * g p) < tol) (p : Nat) (hp : p < n)
    (m : Nat) (hm : 1 ≤ m) : |g p| ≤ tol * sqrt_f (m : α) := by
  have hS : 0 ≤ ∑ p in Finset.range n, g p * g p :=
    Finset.sum_nonneg (fun i _ => mul_self_nonneg (g i))
  have hr := hsqrt _ hS
  have hr0 := hsqrt0 _ hS
  have hle : g p * g p ≤ ∑ p in Finset.range n, g p * g p :=
    Finset.single_le_sum (f := fun i => g i * g i) (fun i _ => mul_self_nonneg (g i))
      (Finset.mem_range.mpr hp)
  have h1 : |g p| ≤ sqrt_f (∑ p in Finset.range n, g p * g p) := by
    by_contra hc
    have hlt := mul_self_lt_mul_self hr0 (not_le.mp hc)
    rw [abs_mul_abs_self, hr] at hlt
    exact absurd hle (not_le.mpr hlt)
  have htol : 0 ≤ tol := le_trans hr0 (le_of_lt h)
  have hm0 : (0 : α) ≤ (m : α) := Nat.cast_nonneg m
  have hs := hsqrt _ hm0
  have hs0 := hsqrt0 _ hm0
  have hs1 : 1 ≤ sqrt_f (m : α) := by
    by_contra hc
    have hlt := mul_self_lt_mul_self hs0 (not_le.mp hc)
    rw [hs, mul_one] at hlt
    have : (1 : α) ≤ (m : α) := by exact_mod_cast hm
    exact absurd this (not_le.mpr hlt)
  calc |g p| ≤ sqrt_f (∑ p in Finset.range n, g p * g p) := h1
    _ ≤ tol := le_of_lt h
    _ ≤ tol * sqrt_f (m : α) := le_mul_of_one_le_right htol hs1

/-- The status of `qpDUNES_setupNewtonSystem` decides the norm test, and at the optimality
status the state is the one right after the gradient computation. -/
theorem setupNewtonSystem_status (sqrt_f : α → α) (ext : collaborators_t α) (N nX nZ : Nat)
    (qp : qpData_t α) (st : return_t) (q1 : qpData_t α)
    (h : qpDUNES_setupNewtonSystem sqrt_f ext N nX nZ qp = some (st, q1)) :
    (st = return_t.QPDUNES_SUCC_OPTIMAL_SOLUTION_FOUND ∧
      q1 = setupNewtonSystem_gradient N nX nZ qp ∧
      vectorNorm sqrt_f (setupNewtonSystem_gradient N nX nZ qp).gradient (nX * N) <
        qp.options.stationarityTolerance) ∨
    (st = return_t.QPDUNES_OK ∧
      ¬ vectorNorm sqrt_f (setupNewtonSystem_gradient N nX nZ qp).gradient (nX * N) <
        qp.options.stationarityTolerance) := by
  unfold qpDUNES_setupNewtonSystem at h
  dsimp only at h
  have ho : (setupNewtonSystem_gradient N nX nZ qp).options = qp.options := rfl
  rw [ho] at h
  by_cases hn : vectorNorm sqrt_f (setupNewtonSystem_gradient N nX nZ qp).gradient (nX * N) <
      qp.options.stationarityTolerance
  · rw [if_pos hn] at h
    simp only [Option.some.injEq, Prod.mk.injEq] at h
    exact Or.inl ⟨h.1.symm, h.2.symm, hn⟩
  · rw [if_neg hn] at h
    right
    refine ⟨?_, hn⟩
    cases hd : forUpO (setupNewtonSystem_diagBlock ext nX nZ) 0 N
        (setupNewtonSystem_gradient N nX nZ qp) with
    | none => rw [hd] at h; simp at h
    | some a =>
      rw [hd] at h
      dsimp only at h
      cases hs : forUpO (setupNewtonSystem_subBlock nX nZ) 1 (N - 1) a with
      | none => rw [hs] at h; simp at h
      | some b =>
        rw [hs] at h
        simp only [Option.some.injEq, Prod.mk.injEq] at h
        exact h.1.symm

/-- The optimality status comes out of `qpDUNES_setupNewtonSystem` exactly when the norm of
the gradient it computes is below `stationarityTolerance`. -/
theorem setupNewtonSystem_optimal_iff (sqrt_f : α → α) (ext : collaborators_t α)
    (N nX nZ : Nat) (qp : qpData_t α) :
    (∃ q1, qpDUNES_setupNewtonSystem sqrt_f ext N nX nZ qp =
      some (return_t.QPDUNES_SUCC_OPTIMAL_SOLUTION_FOUND, q1)) ↔
    vectorNorm sqrt_f (setupNewtonSystem_gradient N nX nZ qp).gradient (nX * N) <
      qp.options.stationarityTolerance := by
  constructor
  · rintro ⟨q1, h⟩
    rcases setupNewtonSystem_status sqrt_f ext N nX nZ qp _ q1 h with ⟨_, _, c⟩ | ⟨a, _⟩
    · exact c
    · cases a
  · intro hn
    refine ⟨setupNewtonSystem_gradient N nX nZ qp, ?_⟩
    unfold qpDUNES_setupNewtonSystem
    dsimp only
    have ho : (setupNewtonSystem_gradient N nX nZ qp).options = qp.options := rfl
    rw [ho, if_pos hn]

theorem factorizeNewtonHessian_status (sqrt_f : α → α) (opt : qpOptions_t α) (N nX : Nat)
    (c h : xn2x_matrix_t α) (flag : Bool) :
    (qpDUNES_factorizeNewtonHessian sqrt_f opt N nX c h flag).1 = return_t.QPDUNES_OK ∨
    (qpDUNES_factorizeNewtonHessian sqrt_f opt N nX c h flag).1 =
      return_t.QPDUNES_ERR_DIVISION_BY_ZERO := by
  unfold qpDUNES_factorizeNewtonHessian
  cases hr : forUpM (fun kk st =>
      forUpM (fun jj st => factorizeNewtonHessian_column sqrt_f opt N nX h kk jj st)
        0 nX st) 0 N (⟨c, flag⟩ : cholState_t α) with
  | ok st => exact Or.inl rfl
  | error e =>
    right
    exact forUpM_error _ (fun e => e.1 = return_t.QPDUNES_ERR_DIVISION_BY_ZERO)
      (fun kk s e he => forUpM_error _ (fun e => e.1 = return_t.QPDUNES_ERR_DIVISION_BY_ZERO)
        (fun jj s e he => factorizeNewtonHessian_column_error sqrt_f opt N nX h kk jj s e he)
        _ _ _ _ he) _ _ _ _ hr

theorem factorizeNewtonHessianBottomUp_status (sqrt_f : α → α) (opt : qpOptions_t α)
    (N nX : Nat) (c h : xn2x_matrix_t α) (idx : Int) (flag : Bool) :
    (qpDUNES_factorizeNewtonHessianBottomUp sqrt_f opt N nX c h idx flag).1 =
      return_t.QPDUNES_OK ∨
    (qpDUNES_factorizeNewtonHessianBottomUp sqrt_f opt N nX c h idx flag).1 =
      return_t.QPDUNES_ERR_DIVISION_BY_ZERO := by
  unfold qpDUNES_factorizeNewtonHessianBottomUp
  cases hr : forDownM (fun kk st =>
      forDownM (fun jj st => factorizeNewtonHessianBottomUp_column sqrt_f opt N nX h kk jj st)
        0 nX st) 0 (blockIdxStart N idx + 1).toNat (⟨c, flag⟩ : cholState_t α) with
  | ok st => exact Or.inl rfl
  | error e =>
    right
    exact forDownM_error _ (fun e => e.1 = return_t.QPDUNES_ERR_DIVISION_BY_ZERO)
      (fun kk s e he => forDownM_error _
        (fun e => e.1 = return_t.QPDUNES_ERR_DIVISION_BY_ZERO)
        (fun jj s e he => by
          rw [factorizeNewtonHessianBottomUp_column_error sqrt_f opt N nX h kk jj s e he])
        _ _ _ _ he) _ _ _ _ hr

theorem factorNewtonSystem_factorize_status (sqrt_f : α → α) (N nX : Nat) (qp : qpData_t α)
    (idx : Int) (flag : Bool) (r : return_t × cholState_t α)
    (h : factorNewtonSystem_factorize sqrt_f N nX qp idx flag = some r) :
    r.1 = return_t.QPDUNES_OK ∨ r.1 = return_t.QPDUNES_ERR_DIVISION_BY_ZERO := by
  unfold factorNewtonSystem_factorize at h
  split at h
  · simp only [Option.some.injEq] at h
    rw [← h]
    exact factorizeNewtonHessian_status sqrt_f _ N nX _ _ flag
  · simp only [Option.some.injEq] at h
    rw [← h]
    exact factorizeNewtonHessianBottomUp_status sqrt_f _ N nX _ _ idx flag
  · simp at h

theorem factorNewtonSystem_refactor_status (sqrt_f : α → α) (N nX : Nat) (qp : qpData_t α) :
    (factorNewtonSystem_refactor sqrt_f N nX qp).1 ≠
      return_t.QPDUNES_SUCC_OPTIMAL_SOLUTION_FOUND := by
  unfold factorNewtonSystem_refactor
  cases hf : factorNewtonSystem_factorize sqrt_f N nX qp ((N : Int) + 1) true with
  | none => simp
  | some r =>
    dsimp only
    rcases factorNewtonSystem_factorize_status sqrt_f N nX qp _ _ r hf with h | h
    · simp [h]
    · simp [h]

theorem factorNewtonSystem_status (sqrt_f : α → α) (N nX : Nat) (qp : qpData_t α)
    (flag : Bool) (idx : Int) :
    (qpDUNES_factorNewtonSystem sqrt_f N nX qp flag idx).1 ≠
      return_t.QPDUNES_SUCC_OPTIMAL_SOLUTION_FOUND := by
  unfold qpDUNES_factorNewtonSystem
  cases hf : factorNewtonSystem_factorize sqrt_f N nX qp idx flag with
  | none => simp
  | some r =>
    dsimp only
    have hr := factorNewtonSystem_factorize_status sqrt_f N nX qp _ _ r hf
    split_ifs with h1 h2
    · split
      · exact factorNewtonSystem_refactor_status sqrt_f N nX _
      · exact factorNewtonSystem_refactor_status sqrt_f N nX _
      · simp
      · simp
      · simp
    · rcases hr with h | h
      · exact absurd h h2
      · rw [h]; simp
    · simp


theorem backTrackingLineSearch_status (sqrt_f : α → α) (ext : collaborators_t α) (N : Nat)
    (qp : qpData_t α) (dL : vector_t α) (nV : Nat) (aMin aMax obj : α)
    (r : return_t × qpData_t α)
    (h : qpDUNES_backTrackingLineSearch sqrt_f ext N qp dL nV aMin aMax obj = some r) :
    r.1 ≠ return_t.QPDUNES_SUCC_OPTIMAL_SOLUTION_FOUND := by
  unfold qpDUNES_backTrackingLineSearch at h
  dsimp only at h
  split at h
  · simp only [Option.some.injEq] at h
    rw [← h]
    simp
  · rename_i e he
    subst h
    have := forUpM_error _ (fun (e : Option (return_t × qpData_t α)) =>
      ∀ r, e = some r → r.1 ≠ return_t.QPDUNES_SUCC_OPTIMAL_SOLUTION_FOUND) ?_ _ _ _ _ he
    · exact this r rfl
    · intro i s e hb r hr
      subst hr
      split at hb
      · simp at hb
      · split_ifs at hb
        · simp only [Except.error.injEq, Option.some.injEq] at hb
          rw [← hb]; simp
        · simp only [Except.error.injEq, Option.some.injEq] at hb
          rw [← hb]; simp

theorem bisectionIntervalSearch_bisect_status (ext : collaborators_t α) (N nX nZ : Nat)
    (qp : qpData_t α) (dL : vector_t α) (nV : Nat) (sn aMin aMax : α) :
    (bisectionIntervalSearch_bisect ext N nX nZ qp dL nV sn aMin aMax).1 ≠
      return_t.QPDUNES_SUCC_OPTIMAL_SOLUTION_FOUND := by
  unfold bisectionIntervalSearch_bisect
  dsimp only
  split
  · simp
  · rename_i e he
    have := forUpM_error _ (fun (e : return_t × qpData_t α) =>
      e.1 ≠ return_t.QPDUNES_SUCC_OPTIMAL_SOLUTION_FOUND) ?_ _ _ _ _ he
    · exact this
    · intro i s e hb
      split_ifs at hb
      simp only [Except.error.injEq] at hb
      rw [← hb]; simp

theorem bisectionIntervalSearch_status (sqrt_f : α → α) (ext : collaborators_t α)
    (N nX nZ : Nat) (qp : qpData_t α) (dL : vector_t α) (nV : Nat) (aMin aMax : α) :
    (qpDUNES_bisectionIntervalSearch sqrt_f ext N nX nZ qp dL nV aMin aMax).1 ≠
      return_t.QPDUNES_SUCC_OPTIMAL_SOLUTION_FOUND := by
  unfold qpDUNES_bisectionIntervalSearch
  dsimp only
  split
  · rename_i st q he
    have := forUpM_error _ (fun (e : bisectionExit_t α) =>
      ∀ st q, e = bisectionExit_t.ret st q →
        st ≠ return_t.QPDUNES_SUCC_OPTIMAL_SOLUTION_FOUND) ?_ _ _ _ _ he
    · exact this st q rfl
    · intro i s e hb st q hq
      subst hq
      split_ifs at hb
      · simp only [Except.error.injEq, bisectionExit_t.ret.injEq] at hb
        rw [← hb.1]; simp
      · simp at hb
      · simp only [Except.error.injEq, bisectionExit_t.ret.injEq] at hb
        rw [← hb.1]; simp
  · exact bisectionIntervalSearch_bisect_status ext N nX nZ _ dL nV _ _ _
  · exact bisectionIntervalSearch_bisect_status ext N nX nZ _ dL nV _ _ _

theorem gridSearch_status (ext : collaborators_t α) (N : Nat) (qp : qpData_t α)
    (obj aMin aMax : α) (r : return_t × qpData_t α × α)
    (h : qpDUNES_gridSearch ext N qp obj aMin aMax = some r) :
    r.1 = return_t.QPDUNES_OK := by
  unfold qpDUNES_gridSearch at h
  split at h
  · simp at h
  · simp only [Option.some.injEq] at h
    rw [← h]

omit [LinearOrderedField α] in
theorem determineStepLength_doSteps_status (ext : collaborators_t α) (N : Nat)
    (qp : qpData_t α) (e : return_t × qpData_t α)
    (h : determineStepLength_doSteps ext N qp = Except.error (some e)) :
    e.1 = return_t.QPDUNES_ERR_UNKNOWN_ERROR := by
  unfold determineStepLength_doSteps at h
  have := forUpM_error _ (fun (x : Option (return_t × qpData_t α)) =>
    ∀ e, x = some e → e.1 = return_t.QPDUNES_ERR_UNKNOWN_ERROR) ?_ _ _ _ _ h
  · exact this e rfl
  · intro i s x hb e he
    subst he
    split at hb
    · simp at hb
    · simp at hb
    · simp only [Except.error.injEq, Option.some.injEq] at hb
      rw [← hb]

theorem determineStepLength_lineSearch_status (sqrt_f : α → α) (ext : collaborators_t α)
    (N nX nZ : Nat) (qp : qpData_t α) (nV : Nat) (aMin aMax obj : α)
    (x : Except (return_t × qpData_t α × α) (return_t × qpData_t α × α))
    (h : determineStepLength_lineSearch sqrt_f ext N nX nZ qp nV aMin aMax obj = some x) :
    lineSearchStatus x ≠ return_t.QPDUNES_SUCC_OPTIMAL_SOLUTION_FOUND := by
  have hbt := backTrackingLineSearch_status sqrt_f ext N
  have hbi := bisectionIntervalSearch_status sqrt_f ext N nX nZ
  have hgr := gridSearch_status ext N
  unfold determineStepLength_lineSearch at h
  split at h
  · split at h
    · simp at h
    · rename_i r hr
      split_ifs at h <;> simp only [Option.some.injEq] at h <;> subst h <;>
        exact hbt _ _ _ _ _ _ _ hr
  · split at h
    · simp at h
    · rename_i r hr
      split_ifs at h <;> simp only [Option.some.injEq] at h <;> subst h <;>
        exact hbt _ _ _ _ _ _ _ hr
  · simp at h
  · simp only [Option.some.injEq] at h
    subst h
    exact hbi _ _ _ _ _
  · split at h
    · simp at h
    · rename_i r hr
      split_ifs at h <;> simp only [Option.some.injEq] at h <;> subst h
      · exact hbt _ _ _ _ _ _ _ hr
      · exact hbi _ _ _ _ _
  · split at h
    · simp at h
    · rename_i r hr
      simp only [Option.some.injEq] at h
      subst h
      show r.1 ≠ _
      rw [hgr _ _ _ _ _ hr]; simp
  · split at h
    · simp at h
    · rename_i r hr
      split_ifs at h
      · simp only [Option.some.injEq] at h
        subst h
        exact hbt _ _ _ _ _ _ _ hr
      · dsimp only at h
        split at h
        · simp at h
        · rename_i g hg
          simp only [Option.some.injEq] at h
          subst h
          show g.1 ≠ _
          rw [hgr _ _ _ _ _ hg]; simp
  · simp only [Option.some.injEq] at h
    subst h
    show return_t.QPDUNES_ERR_UNKNOWN_LS_TYPE ≠ _
    simp

theorem determineStepLength_status (sqrt_f : α → α) (ext : collaborators_t α) (N nX nZ : Nat)
    (qp : qpData_t α) (obj : α) (flag : Bool) (d : return_t × qpData_t α × α)
    (h : qpDUNES_determineStepLength sqrt_f ext N nX nZ qp obj flag = some d) :
    d.1 ≠ return_t.QPDUNES_SUCC_OPTIMAL_SOLUTION_FOUND := by
  unfold qpDUNES_determineStepLength at h
  dsimp only at h
  split_ifs at h
  · split at h
    · simp at h
    · rename_i e he
      simp only [Option.some.injEq] at h
      rw [← h]
      show e.1 ≠ _
      rw [determineStepLength_doSteps_status ext N _ e he]; simp
    · split at h
      · simp at h
      · simp only [Option.some.injEq] at h
        rw [← h]; simp
  · split at h
    · simp at h
    · rename_i e he
      simp only [Option.some.injEq] at h
      subst h
      exact determineStepLength_lineSearch_status sqrt_f ext N nX nZ _ _ _ _ _ _ he
    · rename_i r hr
      have hr1 := determineStepLength_lineSearch_status sqrt_f ext N nX nZ _ _ _ _ _ _ hr
      split at h
      · simp at h
      · rename_i e he
        simp only [Option.some.injEq] at h
        rw [← h]
        show e.1 ≠ _
        rw [determineStepLength_doSteps_status ext N _ e he]; simp
      · split at h
        · simp at h
        · simp only [Option.some.injEq] at h
          rw [← h]
          exact hr1


/-- The Newton direction step returns the optimality status exactly from the norm test
of the assembly, with the state right after the gradient computation. -/
theorem solve_newtonDirection_optimal (sqrt_f : α → α) (ext : collaborators_t α)
    (N nX nZ : Nat) (qp : qpData_t α) (idx : Int) (q1 : qpData_t α) :
    solve_newtonDirection sqrt_f ext N nX nZ qp idx =
      Except.error (some (return_t.QPDUNES_SUCC_OPTIMAL_SOLUTION_FOUND, q1)) ↔
    (q1 = setupNewtonSystem_gradient N nX nZ qp ∧
      vectorNorm sqrt_f (setupNewtonSystem_gradient N nX nZ qp).gradient (nX * N) <
        qp.options.stationarityTolerance) := by
  constructor
  · intro h
    unfold solve_newtonDirection at h
    cases hs : qpDUNES_setupNewtonSystem sqrt_f ext N nX nZ qp with
    | none => rw [hs] at h; simp at h
    | some r =>
      obtain ⟨st, q⟩ := r
      rw [hs] at h
      rcases setupNewtonSystem_status sqrt_f ext N nX nZ qp st q hs with
        ⟨a, b, c⟩ | ⟨a, _⟩
      · subst a
        simp only [Except.error.injEq, Option.some.injEq, Prod.mk.injEq, true_and] at h
        rw [← h]
        exact ⟨b, c⟩
      · subst a
        exfalso
        dsimp only at h
        have hf := factorNewtonSystem_status sqrt_f N nX q
          (q.log.itLog 0).isHessianRegularized idx
        split at h
        · split at h
          · split_ifs at h with h1
            · exact h1 rfl
          · split_ifs at h with h1
            · exact h1 rfl
          · simp at h
        · simp only [Except.error.injEq, Option.some.injEq, Prod.mk.injEq] at h
          exact hf h.1
  · rintro ⟨a, b⟩
    have hs := (setupNewtonSystem_optimal_iff sqrt_f ext N nX nZ qp).mpr b
    obtain ⟨q2, hq2⟩ := hs
    rcases setupNewtonSystem_status sqrt_f ext N nX nZ qp _ q2 hq2 with ⟨_, c, _⟩ | ⟨d, _⟩
    · unfold solve_newtonDirection
      rw [hq2, a, c]
    · cases d


/-- A pass of the iteration loop returns the optimality status exactly when it takes the
Newton branch and the norm test of the assembly succeeds. -/
theorem solve_iteration_optimal (sqrt_f : α → α) (ext : collaborators_t α)
    (N nX nZ : Nat) (itCntr : Nat) (s : qpData_t α × Int × α) (q1 : qpData_t α) :
    solve_iteration sqrt_f ext N nX nZ itCntr s =
      Except.error (some (return_t.QPDUNES_SUCC_OPTIMAL_SOLUTION_FOUND, q1)) ↔
    (¬ ((itCntr : Int) > 1 ∧
        (itCntr : Int) - 1 ≤ (solve_iterationHead itCntr s.1).options.nbrInitialGradientSteps) ∧
      q1 = setupNewtonSystem_gradient N nX nZ (solve_iterationHead itCntr s.1) ∧
      vectorNorm sqrt_f
        (setupNewtonSystem_gradient N nX nZ (solve_iterationHead itCntr s.1)).gradient (nX * N) <
        (solve_iterationHead itCntr s.1).options.stationarityTolerance) := by
  unfold solve_iteration
  dsimp only
  by_cases hc : (itCntr : Int) > 1 ∧
      (itCntr : Int) - 1 ≤ (solve_iterationHead itCntr s.1).options.nbrInitialGradientSteps
  · rw [if_pos hc]
    constructor
    · intro h
      exfalso
      dsimp only at h
      split at h
      · simp at h
      · split at h
        · simp at h
        · rename_i d hd
          have hst := determineStepLength_status sqrt_f ext N nX nZ _ _ _ d hd
          split at h
          · simp at h
          · simp at h
          · simp at h
          · simp at h
          · simp only [Except.error.injEq, Option.some.injEq, Prod.mk.injEq] at h
            exact hst h.1
    · rintro ⟨a, _⟩
      exact absurd hc a
  · rw [if_neg hc]
    cases hd : solve_newtonDirection sqrt_f ext N nX nZ (solve_iterationHead itCntr s.1) s.2.1 with
    | error e =>
      dsimp only
      constructor
      · intro h
        simp only [Except.error.injEq] at h
        subst h
        exact ⟨hc, (solve_newtonDirection_optimal sqrt_f ext N nX nZ _ _ q1).mp hd⟩
      · rintro ⟨_, a, b⟩
        have := (solve_newtonDirection_optimal sqrt_f ext N nX nZ _ s.2.1 q1).mpr ⟨a, b⟩
        rw [this] at hd
        simp only [Except.error.injEq] at hd
        rw [← hd]
    | ok q =>
      dsimp only
      constructor
      · intro h
        exfalso
        split at h
        · simp at h
        · split at h
          · simp at h
          · rename_i d hd2
            have hst := determineStepLength_status sqrt_f ext N nX nZ _ _ _ d hd2
            split at h
            · simp at h
            · simp at h
            · simp at h
            · simp at h
            · simp only [Except.error.injEq, Option.some.injEq, Prod.mk.injEq] at h
              exact hst h.1
      · rintro ⟨_, a, b⟩
        have := (solve_newtonDirection_optimal sqrt_f ext N nX nZ _ s.2.1 q1).mpr ⟨a, b⟩
        rw [this] at hd
        cases hd

theorem solve_start_status (ext : collaborators_t α)
    (hstep : ∀ q kk a, (ext.directQpSolver_doStep q kk a).1 ≠
      return_t.QPDUNES_SUCC_OPTIMAL_SOLUTION_FOUND)
    (n : Nat) (qp : qpData_t α) :
    (forUp (fun ii (s : return_t × qpData_t α) =>
      ((ext.directQpSolver_doStep s.2 ii 1).1,
        s.2.setInterval ii (ext.directQpSolver_doStep s.2 ii 1).2)) 0 n
      (return_t.QPDUNES_OK, qp)).1 ≠ return_t.QPDUNES_SUCC_OPTIMAL_SOLUTION_FOUND := by
  cases n with
  | zero => simp [forUp]
  | succ n =>
    simp only [forUp]
    exact hstep _ _ _

/-- A run of `qpDUNES_solve` that returns the optimality status leaves from a pass of the
iteration loop. -/
theorem solve_optimal_from_iteration (sqrt_f : α → α) (ext : collaborators_t α)
    (hstep : ∀ q kk a, (ext.directQpSolver_doStep q kk a).1 ≠
      return_t.QPDUNES_SUCC_OPTIMAL_SOLUTION_FOUND)
    (N nX nZ : Nat) (qp q1 : qpData_t α)
    (h : qpDUNES_solve sqrt_f ext N nX nZ qp =
      some (return_t.QPDUNES_SUCC_OPTIMAL_SOLUTION_FOUND, q1)) :
    ∃ itCntr s, solve_iteration sqrt_f ext N nX nZ itCntr s =
      Except.error (some (return_t.QPDUNES_SUCC_OPTIMAL_SOLUTION_FOUND, q1)) := by
  unfold qpDUNES_solve at h
  split at h
  · rename_i e he
    exfalso
    subst h
    unfold solve_start at he
    dsimp only at he
    split at he
    · simp at he
    · split_ifs at he
      simp only [Except.error.injEq, Option.some.injEq, Prod.mk.injEq] at he
      exact solve_start_status ext hstep _ _ he.1
  · split at h
    · rename_i e he
      subst h
      exact forUpM_error _ (fun (e : Option (return_t × qpData_t α)) =>
        ∀ q1, e = some (return_t.QPDUNES_SUCC_OPTIMAL_SOLUTION_FOUND, q1) →
          ∃ itCntr s, solve_iteration sqrt_f ext N nX nZ itCntr s =
            Except.error (some (return_t.QPDUNES_SUCC_OPTIMAL_SOLUTION_FOUND, q1)))
        (fun i s e hb q1 hq => ⟨i, s, by rw [hb, hq]⟩) _ _ _ _ he q1 rfl
    · simp at h


/-- At a state whose gradient norm passes the test of the assembly, every entry of the
coupling residual is at most `stationarityTolerance * sqrt(nX)` in absolute value. -/
theorem optimal_state_bound (sqrt_f : α → α) (hsqrt : ∀ x, 0 ≤ x → sqrt_f x * sqrt_f x = x)
    (hsqrt0 : ∀ x, 0 ≤ x → 0 ≤ sqrt_f x) (N nX nZ : Nat) (q0 : qpData_t α)
    (hnorm : vectorNorm sqrt_f (setupNewtonSystem_gradient N nX nZ q0).gradient (nX * N) <
      q0.options.stationarityTolerance) (k i : Nat) (hk : k < N) (hi : i < nX) :
    |∑ j in Finset.range nZ,
        (q0.intervals k).C.data (i * nZ + j) * (q0.intervals k).z.data j
      + (q0.intervals k).c.data i - (q0.intervals (k + 1)).z.data i| ≤
      q0.options.stationarityTolerance * sqrt_f (nX : α) := by
  unfold vectorNorm at hnorm
  rw [scalarProd_eq_sum] at hnorm
  have hp : k * nX + i < nX * N := by
    have : (k + 1) * nX ≤ N * nX := Nat.mul_le_mul_right _ hk
    rw [Nat.add_mul, Nat.one_mul] at this
    rw [Nat.mul_comm nX N]
    omega
  have h := abs_entry_le_of_norm_lt sqrt_f hsqrt hsqrt0
    (setupNewtonSystem_gradient N nX nZ q0).gradient.data (nX * N) _ hnorm (k * nX + i) hp nX
    (by omega)
  have e : (setupNewtonSystem_gradient N nX nZ q0).gradient.data (k * nX + i) =
      ∑ j in Finset.range nZ,
        (q0.intervals k).C.data (i * nZ + j) * (q0.intervals k).z.data j
      + (q0.intervals k).c.data i - (q0.intervals (k + 1)).z.data i :=
    computeNewtonGradient_entry N nX nZ q0 q0.gradient q0.xVecTmp k i hk hi
  rw [e] at h
  exact h

omit [LinearOrderedField α] in
theorem forUpM_first_error {σ ε : Type} (body : Nat → σ → Except ε σ) (lo n : Nat) (s : σ)
    (e : ε) (hn : 0 < n) (h : body lo s = Except.error e) :
    forUpM body lo n s = Except.error e := by
  induction n with
  | zero => omega
  | succ n ih =>
    simp only [forUpM]
    cases n with
    | zero =>
      simp only [forUpM, Nat.add_zero]
      exact h
    | succ m =>
      rw [ih (by omega)]

omit [LinearOrderedField α] in
theorem forUp_invariant {σ : Type} (body : Nat → σ → σ) (P : σ → Prop)
    (h : ∀ i s, P s → P (body i s)) (lo n : Nat) (s : σ) (h0 : P s) :
    P (forUp body lo n s) := by
  induction n with
  | zero => exact h0
  | succ n ih => exact h _ _ ih

omit [LinearOrderedField α] in
theorem SameCoupling.refl (q : qpData_t α) : SameCoupling q q :=
  ⟨rfl, fun _ => ⟨rfl, rfl, rfl, rfl, rfl, rfl⟩⟩

omit [LinearOrderedField α] in
theorem SameCoupling.trans {q q2 q3 : qpData_t α} (h1 : SameCoupling q q2)
    (h2 : SameCoupling q2 q3) : SameCoupling q q3 := by
  refine ⟨h2.1.trans h1.1, fun k => ?_⟩
  obtain ⟨a1, a2, a3, a4, a5, a6⟩ := h1.2 k
  obtain ⟨b1, b2, b3, b4, b5, b6⟩ := h2.2 k
  exact ⟨b1.trans a1, b2.trans a2, b3.trans a3, b4.trans a4, b5.trans a5, b6.trans a6⟩

omit [LinearOrderedField α] in
/-- Replacing a stage by one with the same coupling data keeps the coupling data. -/
theorem SameCoupling.setInterval (q : qpData_t α) (kk : Nat) (v : interval_t α)
    (h : v.C = (q.intervals kk).C ∧ v.z = (q.intervals kk).z ∧ v.c = (q.intervals kk).c ∧
      v.H = (q.intervals kk).H ∧ v.nV = (q.intervals kk).nV ∧ v.nD = (q.intervals kk).nD) :
    SameCoupling q (q.setInterval kk v) := by
  refine ⟨rfl, fun k => ?_⟩
  unfold qpData_t.setInterval
  dsimp only
  by_cases e : k = kk
  · subst e
    rw [Function.update_same]
    exact h
  · rw [Function.update_noteq e]
    exact ⟨rfl, rfl, rfl, rfl, rfl, rfl⟩

/-- The objective value evaluation goes through for diagonal stage Hessians and keeps the
coupling data. -/
theorem computeObjectiveValue_total (N : Nat) (qp : qpData_t α)
    (hH : ∀ k, (qp.intervals k).H.sparsityType = sparsityType_t.QPDUNES_DIAGONAL) :
    ∃ o, qpDUNES_computeObjectiveValue N qp = some o ∧ SameCoupling qp o.2 := by
  unfold qpDUNES_computeObjectiveValue
  refine forUpO_total _ (fun _ (s : α × qpData_t α) => SameCoupling qp s.2)
    0 (N + 1) ?_ (0, qp) (SameCoupling.refl qp)
  intro i s _ _ hs
  have e : (s.2.intervals i).H.sparsityType = sparsityType_t.QPDUNES_DIAGONAL := by
    rw [(hs.2 i).2.2.2.1]
    exact hH i
  have e2 : multiplyzHz (s.2.intervals i).H (s.2.intervals i).z (s.2.intervals i).nV =
      some (multiplyVectorMatrixVectorDiagonal (s.2.intervals i).H.data
        (s.2.intervals i).z.data (s.2.intervals i).nV) := by
    unfold multiplyzHz multiplyVectorMatrixVector
    rw [e]
  rw [e2]
  exact ⟨_, rfl, hs.trans (SameCoupling.setInterval _ _ _ ⟨rfl, rfl, rfl, rfl, rfl, rfl⟩)⟩

omit [LinearOrderedField α] in
theorem SameCoupling.of_eq (q q2 : qpData_t α) (ho : q2.options = q.options)
    (hi : q2.intervals = q.intervals) : SameCoupling q q2 := by
  refine ⟨ho, fun k => ?_⟩
  rw [hi]
  exact ⟨rfl, rfl, rfl, rfl, rfl, rfl⟩

omit [LinearOrderedField α] in
theorem compareActSets_sameCoupling (N : Nat) (qp : qpData_t α)
    (t1 t2 : Nat → Nat → Int) : SameCoupling qp (qpDUNES_compareActSets N qp t1 t2).2.1 := by
  unfold qpDUNES_compareActSets
  refine forUp_invariant _ (fun (s : Nat × qpData_t α × Int) => SameCoupling qp s.2.1)
    ?_ _ _ _ (SameCoupling.refl qp)
  intro kk s hs
  refine forUp_invariant _ (fun (s : Nat × qpData_t α × Int) => SameCoupling qp s.2.1)
    ?_ _ _ _ ?_
  · intro ii s2 hs2
    dsimp only
    split_ifs
    · exact hs2.trans (SameCoupling.setInterval _ _ _ ⟨rfl, rfl, rfl, rfl, rfl, rfl⟩)
    · exact hs2
  · exact hs.trans (SameCoupling.setInterval _ _ _ ⟨rfl, rfl, rfl, rfl, rfl, rfl⟩)

theorem solve_updateActSet_sameCoupling (N : Nat) (qp : qpData_t α) :
    SameCoupling qp (solve_updateActSet N qp).1 := by
  have h1 : SameCoupling qp (solve_getActSet N qp) := SameCoupling.of_eq _ _ rfl rfl
  have h2 := compareActSets_sameCoupling N (solve_getActSet N qp)
    ((solve_getActSet N qp).log.ieqTables ((solve_getActSet N qp).log.itLog 0).ieqStatus)
    ((solve_getActSet N qp).log.ieqTables ((solve_getActSet N qp).log.itLog 0).prevIeqStatus)
  exact (h1.trans h2).trans (SameCoupling.of_eq _ _ rfl rfl)


theorem gradient_entry_sameCoupling (N nX nZ : Nat) (q q2 : qpData_t α)
    (h : SameCoupling q q2) (k i : Nat) (hk : k < N) (hi : i < nX) :
    (setupNewtonSystem_gradient N nX nZ q2).gradient.data (k * nX + i) =
      (setupNewtonSystem_gradient N nX nZ q).gradient.data (k * nX + i) := by
  have e1 : (setupNewtonSystem_gradient N nX nZ q2).gradient.data (k * nX + i) = _ :=
    computeNewtonGradient_entry N nX nZ q2 q2.gradient q2.xVecTmp k i hk hi
  have e2 : (setupNewtonSystem_gradient N nX nZ q).gradient.data (k * nX + i) = _ :=
    computeNewtonGradient_entry N nX nZ q q.gradient q.xVecTmp k i hk hi
  rw [e1, e2, (h.2 k).1, (h.2 k).2.1, (h.2 k).2.2.1, (h.2 (k + 1)).2.1]

omit [LinearOrderedField α] in
theorem setInterval_self (q : qpData_t α) (kk : Nat) : q.setInterval kk (q.intervals kk) = q := by
  unfold qpData_t.setInterval
  rw [Function.update_eq_self]

omit [LinearOrderedField α] in
theorem solve_iterationHead_sameCoupling (itCntr : Nat) (q : qpData_t α) :
    SameCoupling q (solve_iterationHead itCntr q) :=
  SameCoupling.of_eq _ _ rfl rfl

/-- With the example collaborators and diagonal stage Hessians the start of
`qpDUNES_solve` goes through to the iteration loop and keeps the coupling data. -/
theorem solve_start_exExt (N : Nat) (qp : qpData_t α)
    (hH : ∀ k, (qp.intervals k).H.sparsityType = sparsityType_t.QPDUNES_DIAGONAL) :
    ∃ s, solve_start (exExt α) N qp = Except.ok s ∧ SameCoupling qp s.1 := by
  have hloop : ∀ (n : Nat) (q : qpData_t α),
      forUp (fun ii (s : return_t × qpData_t α) =>
        (((exExt α).directQpSolver_doStep s.2 ii 1).1,
          s.2.setInterval ii ((exExt α).directQpSolver_doStep s.2 ii 1).2)) 0 n
        (return_t.QPDUNES_OK, q) = (return_t.QPDUNES_OK, q) := by
    intro n q
    induction n with
    | zero => rfl
    | succ n ih =>
      simp only [forUp]
      rw [ih]
      simp only [exExt, setInterval_self]
  unfold solve_start
  dsimp only
  rw [hloop]
  dsimp only
  obtain ⟨o, ho, hs⟩ := computeObjectiveValue_total N
    (({ qp with log := { qp.log with numIter := 0 } } : qpData_t α).setItLog
      { ({ qp with log := { qp.log with numIter := 0 } } : qpData_t α).log.itLog 0 with
        itNbr := 0 }) hH
  rw [ho]
  dsimp only
  rw [if_neg (by simp)]
  refine ⟨_, rfl, ?_⟩
  exact ((SameCoupling.of_eq _ _ rfl rfl).trans hs).trans (solve_updateActSet_sameCoupling N o.2)

/-- A run whose first pass sees a gradient norm below the tolerance returns the
optimality status. -/
theorem solve_optimal_first_pass (sqrt_f : α → α) (ext : collaborators_t α) (N nX nZ : Nat)
    (qp : qpData_t α) (s : qpData_t α × Int × α)
    (hstart : solve_start ext N qp = Except.ok s) (hmax : 0 < s.1.options.maxIter.toNat)
    (hnorm : vectorNorm sqrt_f
      (setupNewtonSystem_gradient N nX nZ (solve_iterationHead 1 s.1)).gradient (nX * N) <
      (solve_iterationHead 1 s.1).options.stationarityTolerance) :
    qpDUNES_solve sqrt_f ext N nX nZ qp =
      some (return_t.QPDUNES_SUCC_OPTIMAL_SOLUTION_FOUND,
        setupNewtonSystem_gradient N nX nZ (solve_iterationHead 1 s.1)) := by
  unfold qpDUNES_solve
  rw [hstart]
  dsimp only
  rw [forUpM_first_error _ 1 _ s _ hmax
    ((solve_iteration_optimal sqrt_f ext N nX nZ 1 s _).mpr
      ⟨fun h => absurd h.1 (by simp), rfl, hnorm⟩)]

end DriverLemmas

/-! ## Values of the sub-diagonal blocks -/

section SubBlockLemmas

variable {α : Type} [LinearOrderedField α]

omit [LinearOrderedField α] in
theorem forUpO_invariant {σ : Type} (body : Nat → σ → Option σ) (P : σ → Prop)
    (hstep : ∀ i s s1, P s → body i s = some s1 → P s1) (lo n : Nat) (s s1 : σ)
    (h0 : P s) (hrun : forUpO body lo n s = some s1) : P s1 := by
  induction n generalizing s1 with
  | zero =>
    simp only [forUpO, Option.some.injEq] at hrun
    rw [← hrun]
    exact h0
  | succ n ih =>
    simp only [forUpO] at hrun
    cases hm : forUpO body lo n s with
    | none => rw [hm] at hrun; simp at hrun
    | some s2 =>
      rw [hm] at hrun
      exact hstep _ _ _ (ih s2 hm) hrun

/-- What `factorizeH` leaves in `cholH` is the form `FactorizedStage` asks for. -/
theorem factorizeH_form (c0 : matrix_t α) (v : interval_t α) (st : return_t)
    (h : factorizeH c0 v.H v.nV = some (st, v.cholH)) : FactorizedStage v := by
  unfold factorizeH factorizePosDefMatrix at h
  cases hH : v.H.sparsityType with
  | QPDUNES_DIAGONAL =>
    rw [hH] at h
    simp only [Option.some.injEq, Prod.mk.injEq] at h
    refine Or.inl ⟨hH, ?_, ?_⟩
    · rw [← h.2]
    · intro j hj
      rw [← h.2]
      dsimp only
      exact forUp_update_val (fun i => i) (fun i _ => recip_f (v.H.data i)) 0 v.nV c0.data
        (fun i j _ hij _ => Nat.ne_of_lt hij) (fun _ _ _ _ _ => rfl) j (Nat.zero_le _) (by omega)
  | QPDUNES_IDENTITY =>
    rw [hH] at h
    simp only [Option.some.injEq, Prod.mk.injEq] at h
    refine Or.inr ⟨hH, ?_⟩
    rw [← h.2]
  | _ =>
    rw [hH] at h
    simp at h

/-- The product `A * Q^-1` for a factorized stage: entry `(i, j)` is `C[i,j] / H_jj`. -/
theorem multiplyAInvQ_value (nX nZ : Nat) (res : matrix_t α) (v : interval_t α)
    (hf : FactorizedStage v) (hn : nX ≤ v.nV) :
    ∃ r, multiplyAInvQ nX nZ res v.C v.cholH = some r ∧
      ∀ i j, i < nX → j < nX →
        r.2.data (i * nX + j) = accC nZ v.C i j / stageHessianDiag v.H j := by
  unfold multiplyAInvQ
  rcases hf with ⟨h1, h2, h3⟩ | ⟨h1, h2⟩
  · rw [h2]
    refine ⟨_, rfl, fun i j hi hj => ?_⟩
    dsimp only
    have e := forUp_matrix_block nX (fun i j _ => accC nZ v.C i j * v.cholH.data j) nX
      (matrix_t.mk sparsityType_t.QPDUNES_DENSE res.data) i j hj
    rw [if_pos hi] at e
    rw [e]
    beta_reduce
    rw [h3 j (by omega)]
    unfold stageHessianDiag recip_f
    rw [h1]
    ring
  · rw [h2]
    refine ⟨_, rfl, fun i j hi hj => ?_⟩
    dsimp only
    have e := forUp_matrix_block nX (fun i j _ => accC nZ v.C i j) nX
      (matrix_t.mk sparsityType_t.QPDUNES_DENSE res.data) i j hj
    rw [if_pos hi] at e
    rw [e]
    beta_reduce
    unfold stageHessianDiag
    rw [h1]
    simp

/-- The write loop of a sub-diagonal block pass, entry by entry. -/
theorem subBlock_write (nX kk : Nat) (cond : Nat → Prop) [DecidablePred cond]
    (t : Nat → α) (h : xn2x_matrix_t α) (K : Nat) (L : Int) (I J : Nat) :
    forUp (fun ii (hessian : xn2x_matrix_t α) =>
      forUp (fun jj (hessian : xn2x_matrix_t α) =>
        if cond jj then setAcc hessian kk (-1) ii jj (- t (ii * nX + jj))
        else setAcc hessian kk (-1) ii jj 0) 0 nX hessian) 0 nX h (K, L, I, J) =
    if K = kk ∧ L = -1 ∧ I < nX ∧ J < nX then (if cond J then - t (I * nX + J) else 0)
    else h (K, L, I, J) := by
  have hb : (fun ii (hessian : xn2x_matrix_t α) =>
      forUp (fun jj (hessian : xn2x_matrix_t α) =>
        if cond jj then setAcc hessian kk (-1) ii jj (- t (ii * nX + jj))
        else setAcc hessian kk (-1) ii jj 0) 0 nX hessian) =
      (fun ii (hessian : xn2x_matrix_t α) =>
      forUp (fun jj (hessian : xn2x_matrix_t α) =>
        setAcc hessian kk (-1) ii jj
          ((fun ii jj => if cond jj then - t (ii * nX + jj) else 0) ii jj)) 0 nX hessian) := by
    funext ii hs
    congr 1
    funext jj hs2
    dsimp only
    split <;> rfl
  rw [hb]
  exact forUp_write_block kk (-1) _ nX nX h K L I J

/-- One sub-diagonal block pass on a factorized stage goes through, writes the stated
entries into its block and leaves every other stored entry. -/
theorem subBlock_value (nX nZ kk : Nat) (r : qpData_t α)
    (hf : (r.intervals kk).actSetHasChanged = true → FactorizedStage (r.intervals kk) ∧
      nX ≤ (r.intervals kk).nV) :
    ∃ r1, setupNewtonSystem_subBlock nX nZ kk r = some r1 ∧
      r1.intervals = r.intervals ∧ r1.options = r.options ∧
      ∀ (K : Nat) (L : Int) (I J : Nat), r1.hessian (K, L, I, J) =
        if (r.intervals kk).actSetHasChanged = true ∧ K = kk ∧ L = -1 ∧ I < nX ∧ J < nX
        then claimedSubEntry nZ r kk I J else r.hessian (K, L, I, J) := by
  unfold setupNewtonSystem_subBlock
  by_cases hc : (r.intervals kk).actSetHasChanged = true
  · rw [if_pos hc]
    obtain ⟨t, ht, hv⟩ := multiplyAInvQ_value nX nZ r.xxMatTmp (r.intervals kk) (hf hc).1
      (hf hc).2
    rw [ht]
    refine ⟨_, rfl, rfl, rfl, fun K L I J => ?_⟩
    dsimp only
    rw [subBlock_write nX kk (fun jj =>
      (r.intervals kk).y.data (2 * jj) ≤ r.options.equalityTolerance ∧
        (r.intervals kk).y.data (2 * jj + 1) ≤ r.options.equalityTolerance) t.2.data]
    by_cases hb : K = kk ∧ L = -1 ∧ I < nX ∧ J < nX
    · have hcb : (r.intervals kk).actSetHasChanged = true ∧ K = kk ∧ L = -1 ∧ I < nX ∧
          J < nX := ⟨hc, hb⟩
      rw [if_pos hb, if_pos hcb]
      unfold claimedSubEntry
      rw [hv I J hb.2.2.1 hb.2.2.2]
    · rw [if_neg hb, if_neg (fun c => hb c.2)]
  · rw [if_neg hc]
    refine ⟨r, rfl, rfl, rfl, fun K L I J => ?_⟩
    rw [if_neg (fun c => hc c.1)]

theorem claimedSubEntry_congr (nZ : Nat) (s qp : qpData_t α) (k i j : Nat)
    (h1 : s.intervals = qp.intervals) (h2 : s.options = qp.options) :
    claimedSubEntry nZ s k i j = claimedSubEntry nZ qp k i j := by
  unfold claimedSubEntry
  rw [h1, h2]

/-- The sub-diagonal block loop over factorized stages goes through, and every block it
recomputes then holds the stated entries. -/
theorem subLoop_value (nX nZ : Nat) (qp : qpData_t α) (n : Nat)
    (hf : ∀ k, 1 ≤ k → k < 1 + n → (qp.intervals k).actSetHasChanged = true →
      FactorizedStage (qp.intervals k) ∧ nX ≤ (qp.intervals k).nV)
    (s : qpData_t α) (hs1 : s.intervals = qp.intervals) (hs2 : s.options = qp.options) :
    ∃ q2, forUpO (setupNewtonSystem_subBlock nX nZ) 1 n s = some q2 ∧
      q2.intervals = qp.intervals ∧ q2.options = qp.options ∧
      ∀ k, 1 ≤ k → k < 1 + n → (qp.intervals k).actSetHasChanged = true →
        ∀ i j, i < nX → j < nX → q2.hessian (k, -1, i, j) = claimedSubEntry nZ qp k i j := by
  have h := forUpO_total (setupNewtonSystem_subBlock nX nZ)
    (fun m (s : qpData_t α) => s.intervals = qp.intervals ∧ s.options = qp.options ∧
      ∀ k, 1 ≤ k → k < m → (qp.intervals k).actSetHasChanged = true →
        ∀ i j, i < nX → j < nX → s.hessian (k, -1, i, j) = claimedSubEntry nZ qp k i j) 1 n ?_ s
      ⟨hs1, hs2, fun k hk1 hk2 => by omega⟩
  · exact h
  · intro m r hm1 hm2 ⟨r1, r2, r3⟩
    obtain ⟨q, hq, hi, ho, hv⟩ := subBlock_value nX nZ m r (by rw [r1]; exact hf m hm1 hm2)
    refine ⟨q, hq, hi.trans r1, ho.trans r2, fun k hk1 hk2 hck i j hi2 hj2 => ?_⟩
    rw [hv k (-1) i j]
    by_cases e : k = m
    · subst e
      rw [if_pos ⟨by rw [r1]; exact hck, rfl, rfl, hi2, hj2⟩]
      exact claimedSubEntry_congr nZ r qp k i j r1 r2
    · rw [if_neg (fun c => e c.2.1)]
      exact r3 k hk1 (by omega) hck i j hi2 hj2

theorem diagBlock_frame (ext : collaborators_t α) (nX nZ : Nat) (i : Nat) (s s1 : qpData_t α)
    (h : setupNewtonSystem_diagBlock ext nX nZ i s = some s1) :
    s1.intervals = s.intervals ∧ s1.options = s.options := by
  unfold setupNewtonSystem_diagBlock at h
  split_ifs at h
  · cases ht : setupNewtonSystem_diagTmp ext nX nZ i s with
    | none => rw [ht] at h; simp at h
    | some t =>
      rw [ht] at h
      simp only [Option.some.injEq] at h
      rw [← h]
      exact ⟨rfl, rfl⟩
  · simp only [Option.some.injEq] at h
    rw [← h]
    exact ⟨rfl, rfl⟩

/-- On a run of `qpDUNES_setupNewtonSystem` that returns QPDUNES_OK over factorized stages
every recomputed sub-diagonal block holds the stated entries. -/
theorem setupNewtonSystem_subValue (sqrt_f : α → α) (ext : collaborators_t α) (N nX nZ : Nat)
    (qp qp1 : qpData_t α)
    (hf : ∀ k, 1 ≤ k → k < N → (qp.intervals k).actSetHasChanged = true →
      FactorizedStage (qp.intervals k) ∧ nX ≤ (qp.intervals k).nV)
    (hrun : qpDUNES_setupNewtonSystem sqrt_f ext N nX nZ qp = some (return_t.QPDUNES_OK, qp1)) :
    ∀ k, 1 ≤ k → k < N → (qp.intervals k).actSetHasChanged = true →
      ∀ i j, i < nX → j < nX → qp1.hessian (k, -1, i, j) = claimedSubEntry nZ qp k i j := by
  unfold qpDUNES_setupNewtonSystem at hrun
  dsimp only at hrun
  by_cases hnorm : vectorNorm sqrt_f (setupNewtonSystem_gradient N nX nZ qp).gradient (nX * N) <
      (setupNewtonSystem_gradient N nX nZ qp).options.stationarityTolerance
  · rw [if_pos hnorm] at hrun
    simp at hrun
  · rw [if_neg hnorm] at hrun
    cases hd : forUpO (setupNewtonSystem_diagBlock ext nX nZ) 0 N
        (setupNewtonSystem_gradient N nX nZ qp) with
    | none => rw [hd] at hrun; simp at hrun
    | some q1 =>
      rw [hd] at hrun
      dsimp only at hrun
      have hq1 := forUpO_invariant (setupNewtonSystem_diagBlock ext nX nZ)
        (fun s => s.intervals = qp.intervals ∧ s.options = qp.options)
        (fun i s s1 hP hb => ⟨(diagBlock_frame ext nX nZ i s s1 hb).1.trans hP.1,
          (diagBlock_frame ext nX nZ i s s1 hb).2.trans hP.2⟩) 0 N
        (setupNewtonSystem_gradient N nX nZ qp) q1 ⟨rfl, rfl⟩ hd
      obtain ⟨q2, hq2, _, _, hv⟩ := subLoop_value nX nZ qp (N - 1)
        (fun k hk1 hk2 => hf k hk1 (by omega)) q1 hq1.1 hq1.2
      rw [hq2] at hrun
      simp only [Option.some.injEq, Prod.mk.injEq, true_and] at hrun
      subst hrun
      intro k hk1 hk2
      exact hv k hk1 (by omega)

end SubBlockLemmas

/-! ## Outcome of the forward factorization -/

section ForwardOutcome

variable {α : Type} [LinearOrderedField α]

omit [LinearOrderedField α] in
/-- Invariant rule for a nest of two ascending loops with early exit. -/
theorem forUpM_nested {σ ε : Type} (body : Nat → Nat → σ → Except ε σ) (N nX : Nat)
    (P : Nat → Nat → σ → Prop) (R : ε → Prop)
    (hok : ∀ kk jj s s1, kk < N → jj < nX → P kk jj s → body kk jj s = Except.ok s1 →
      P kk (jj + 1) s1)
    (hnext : ∀ kk s, kk < N → P kk nX s → P (kk + 1) 0 s)
    (herr : ∀ kk jj s e, kk < N → jj < nX → P kk jj s → body kk jj s = Except.error e → R e)
    (s : σ) (h0 : P 0 0 s) :
    (∀ s1, forUpM (fun kk st => forUpM (fun jj st => body kk jj st) 0 nX st) 0 N s =
      Except.ok s1 → P N 0 s1) ∧
    (∀ e, forUpM (fun kk st => forUpM (fun jj st => body kk jj st) 0 nX st) 0 N s =
      Except.error e → R e) := by
  have inner : ∀ kk, kk < N → ∀ (a : σ), P kk 0 a → ∀ n, n ≤ nX →
      (∀ s1, forUpM (fun jj st => body kk jj st) 0 n a = Except.ok s1 → P kk n s1) ∧
      (∀ e, forUpM (fun jj st => body kk jj st) 0 n a = Except.error e → R e) := by
    intro kk hkk a ha n
    induction n with
    | zero =>
      intro _
      refine ⟨fun s1 h => ?_, fun e h => by simp [forUpM] at h⟩
      simp only [forUpM, Except.ok.injEq] at h
      rw [← h]
      exact ha
    | succ n ih =>
      intro hn
      obtain ⟨i1, i2⟩ := ih (by omega)
      simp only [forUpM, Nat.zero_add]
      cases hm : forUpM (fun jj st => body kk jj st) 0 n a with
      | error e1 =>
        refine ⟨fun s1 h => (by cases h), fun e h => ?_⟩
        simp only [Except.error.injEq] at h
        rw [← h]
        exact i2 e1 hm
      | ok s2 =>
        exact ⟨fun s1 h => hok kk n s2 s1 hkk (by omega) (i1 s2 hm) h,
          fun e h => herr kk n s2 e hkk (by omega) (i1 s2 hm) h⟩
  have outer : ∀ m, m ≤ N →
      (∀ s1, forUpM (fun kk st => forUpM (fun jj st => body kk jj st) 0 nX st) 0 m s =
        Except.ok s1 → P m 0 s1) ∧
      (∀ e, forUpM (fun kk st => forUpM (fun jj st => body kk jj st) 0 nX st) 0 m s =
        Except.error e → R e) := by
    intro m
    induction m with
    | zero =>
      intro _
      refine ⟨fun s1 h => ?_, fun e h => by simp [forUpM] at h⟩
      simp only [forUpM, Except.ok.injEq] at h
      rw [← h]
      exact h0
    | succ m ih =>
      intro hm
      obtain ⟨i1, i2⟩ := ih (by omega)
      simp only [forUpM, Nat.zero_add]
      cases hmid : forUpM (fun kk st => forUpM (fun jj st => body kk jj st) 0 nX st) 0 m s with
      | error e1 =>
        refine ⟨fun s1 h => (by cases h), fun e h => ?_⟩
        simp only [Except.error.injEq] at h
        rw [← h]
        exact i2 e1 hmid
      | ok s2 =>
        obtain ⟨j1, j2⟩ := inner m (by omega) s2 (i1 s2 hmid) nX (le_refl _)
        exact ⟨fun s1 h => hnext m s1 (by omega) (j1 s1 h), fun e h => j2 e h⟩
  exact outer N (le_refl _)

theorem fwdSum_agree (nX : Nat) (h c c1 : xn2x_matrix_t α) (kk jj : Nat)
    (hag : FwdAgree c c1 kk jj) (ii : Nat) :
    fwdSum nX h c1 kk ii jj = fwdSum nX h c kk ii jj :=
  fwdSum_congr nX h c c1 kk ii jj (fun l hl => (hag ii l).1 (by omega))
    (fun l hl => (hag jj l).1 (by omega)) (fun i l => (hag i l).2.1)

/-- What one forward column does to the regularization flag, and when it leaves. -/
theorem fwd_column_flag_step (sqrt_f : α → α) (opt : qpOptions_t α) (N nX : Nat)
    (h : xn2x_matrix_t α) (kk jj : Nat) (st : cholState_t α) :
    (∀ st1, factorizeNewtonHessian_column sqrt_f opt N nX h kk jj st = Except.ok st1 →
      (st.isHessianRegularized = true → st1.isHessianRegularized = true) ∧
      (opt.regType = regType_t.QPDUNES_REG_SINGULAR_DIRECTIONS →
        fwdSum nX h st.cholHessian kk jj jj < opt.newtonHessDiagRegTolerance →
        st1.isHessianRegularized = true)) ∧
    (∀ e, factorizeNewtonHessian_column sqrt_f opt N nX h kk jj st = Except.error e →
      e = (return_t.QPDUNES_ERR_DIVISION_BY_ZERO, st) ∧
      opt.regType ≠ regType_t.QPDUNES_REG_SINGULAR_DIRECTIONS ∧
      fwdSum nX h st.cholHessian kk jj jj < opt.newtonHessDiagRegTolerance) := by
  unfold factorizeNewtonHessian_column
  simp only [factorizeNewtonHessian_pivot_eq]
  by_cases h1 : opt.regType = regType_t.QPDUNES_REG_SINGULAR_DIRECTIONS ∧
      fwdSum nX h st.cholHessian kk jj jj < opt.newtonHessDiagRegTolerance
  · simp only [if_pos h1]
    refine ⟨fun st1 hs => ?_, fun e he => by cases he⟩
    simp only [Except.ok.injEq] at hs
    rw [← hs]
    exact ⟨fun _ => rfl, fun _ _ => rfl⟩
  · simp only [if_neg h1]
    by_cases h2 : fwdSum nX h st.cholHessian kk jj jj < opt.newtonHessDiagRegTolerance
    · simp only [if_pos h2]
      refine ⟨fun st1 hs => (by cases hs), fun e he => ?_⟩
      simp only [Except.error.injEq] at he
      exact ⟨he.symm, fun hr => h1 ⟨hr, h2⟩, h2⟩
    · simp only [if_neg h2]
      refine ⟨fun st1 hs => ?_, fun e he => by cases he⟩
      simp only [Except.ok.injEq] at hs
      rw [← hs]
      exact ⟨fun hf => hf, fun _ hlt => absurd hlt h2⟩

theorem fwd_column_done (sqrt_f : α → α) (opt : qpOptions_t α) (N nX : Nat)
    (h : xn2x_matrix_t α) (kk jj : Nat) (st st1 : cholState_t α)
    (hP : FwdFlagDone sqrt_f opt N nX h kk jj st)
    (hstep : factorizeNewtonHessian_column sqrt_f opt N nX h kk jj st = Except.ok st1) :
    FwdFlagDone sqrt_f opt N nX h kk (jj + 1) st1 := by
  obtain ⟨h2, h3⟩ := factorizeNewtonHessian_column_ok sqrt_f opt N nX h kk jj st st1 hstep
  obtain ⟨f1, f2⟩ := (fwd_column_flag_step sqrt_f opt N nX h kk jj st).1 st1 hstep
  have hag : ∀ k j, (k < kk ∨ (k = kk ∧ j < jj)) → FwdAgree st.cholHessian st1.cholHessian k j := by
    intro k j h5 i l
    refine ⟨fun h6 => ?_, ?_, fun h6 => ?_⟩
    · exact h3 _ (fun a _ => by simp; omega) (fun a => by simp)
    · exact h3 _ (fun a _ => by simp) (fun a => by simp; omega)
    · exact h3 _ (fun a _ => by simp) (fun a => by simp; omega)
  constructor
  · intro k j hk hj hlt
    by_cases h4 : k = kk ∧ j = jj
    · rw [h4.1, h4.2]; exact h2
    · have h5 : k < kk ∨ (k = kk ∧ j < jj) := by omega
      exact FwdColOK_congr sqrt_f opt N nX h st.cholHessian _ k j (hag k j h5)
        (hP.1 k j hk hj h5)
  · intro k j hk hj hlt hreg hsmall
    by_cases h4 : k = kk ∧ j = jj
    · have e : fwdSum nX h st1.cholHessian kk jj jj = fwdSum nX h st.cholHessian kk jj jj := by
        apply fwdSum_congr
        · intro l hl
          exact h3 _ (fun a _ => by simp; omega) (fun a => by simp)
        · intro l hl
          exact h3 _ (fun a _ => by simp; omega) (fun a => by simp)
        · intro i l
          exact h3 _ (fun a _ => by simp) (fun a => by simp)
      rw [h4.1, h4.2, e] at hsmall
      exact f2 hreg hsmall
    · have h5 : k < kk ∨ (k = kk ∧ j < jj) := by omega
      rw [fwdSum_agree nX h st.cholHessian st1.cholHessian k j (hag k j h5) j] at hsmall
      exact f1 (hP.2 k j hk hj h5 hreg hsmall)

/-- The two outcomes of `qpDUNES_factorizeNewtonHessian`: QPDUNES_OK with every column
written, or DIVISION_BY_ZERO at the first column whose pivot is below the tolerance, which
only happens without the on-the-fly regularization. -/
theorem factorizeNewtonHessian_outcome (sqrt_f : α → α) (opt : qpOptions_t α) (N nX : Nat)
    (c0 h : xn2x_matrix_t α) (flag : Bool) :
    ((qpDUNES_factorizeNewtonHessian sqrt_f opt N nX c0 h flag).1 = return_t.QPDUNES_OK ∧
      FwdFlagDone sqrt_f opt N nX h N 0
        (qpDUNES_factorizeNewtonHessian sqrt_f opt N nX c0 h flag).2) ∨
    ((qpDUNES_factorizeNewtonHessian sqrt_f opt N nX c0 h flag).1 =
        return_t.QPDUNES_ERR_DIVISION_BY_ZERO ∧
      opt.regType ≠ regType_t.QPDUNES_REG_SINGULAR_DIRECTIONS ∧
      ∃ k j, k < N ∧ j < nX ∧
        FwdFlagDone sqrt_f opt N nX h k j
          (qpDUNES_factorizeNewtonHessian sqrt_f opt N nX c0 h flag).2 ∧
        fwdSum nX h (qpDUNES_factorizeNewtonHessian sqrt_f opt N nX c0 h flag).2.cholHessian
          k j j < opt.newtonHessDiagRegTolerance) := by
  obtain ⟨a, b⟩ := forUpM_nested
    (fun kk jj st => factorizeNewtonHessian_column sqrt_f opt N nX h kk jj st) N nX
    (fun kk n st => FwdFlagDone sqrt_f opt N nX h kk n st)
    (fun e => e.1 = return_t.QPDUNES_ERR_DIVISION_BY_ZERO ∧
      opt.regType ≠ regType_t.QPDUNES_REG_SINGULAR_DIRECTIONS ∧
      ∃ k j, k < N ∧ j < nX ∧ FwdFlagDone sqrt_f opt N nX h k j e.2 ∧
        fwdSum nX h e.2.cholHessian k j j < opt.newtonHessDiagRegTolerance)
    (fun kk jj s s1 _ _ hP hs => fwd_column_done sqrt_f opt N nX h kk jj s s1 hP hs)
    (fun kk s _ hP => ⟨fun k j hk hj hlt => hP.1 k j hk hj (by omega),
      fun k j hk hj hlt => hP.2 k j hk hj (by omega)⟩)
    (fun kk jj s e hkk hjj hP he => by
      obtain ⟨e1, e2, e3⟩ := (fwd_column_flag_step sqrt_f opt N nX h kk jj s).2 e he
      rw [e1]
      exact ⟨rfl, e2, kk, jj, hkk, hjj, hP, e3⟩)
    (⟨c0, flag⟩ : cholState_t α)
    ⟨fun k j _ _ hlt => by omega, fun k j _ _ hlt => by omega⟩
  unfold qpDUNES_factorizeNewtonHessian
  cases hrun : forUpM (fun kk st =>
      forUpM (fun jj st => factorizeNewtonHessian_column sqrt_f opt N nX h kk jj st) 0 nX st)
      0 N (⟨c0, flag⟩ : cholState_t α) with
  | error e => exact Or.inr (b e hrun)
  | ok s1 => exact Or.inl ⟨rfl, a s1 hrun⟩

/-- The statement of the forward factorization contract in terms of the returned factor:
without SINGULAR_DIRECTIONS the status is DIVISION_BY_ZERO exactly when a pivot, met in the
order of the columns, is below the tolerance, and otherwise QPDUNES_OK with the square
roots of the pivots on the diagonal; with SINGULAR_DIRECTIONS the status is QPDUNES_OK, a
pivot below the tolerance is increased and the flag is set. -/
theorem factorizeNewtonHessian_contract (sqrt_f : α → α) (opt : qpOptions_t α) (N nX : Nat)
    (c0 h : xn2x_matrix_t α) (flag : Bool) (st : return_t) (L : xn2x_matrix_t α) (reg : Bool)
    (hr : qpDUNES_factorizeNewtonHessian sqrt_f opt N nX c0 h flag = (st, ⟨L, reg⟩)) :
    (opt.regType ≠ regType_t.QPDUNES_REG_SINGULAR_DIRECTIONS →
      (st = return_t.QPDUNES_ERR_DIVISION_BY_ZERO ↔
        ∃ k j, k < N ∧ j < nX ∧ fwdSum nX h L k j j < opt.newtonHessDiagRegTolerance ∧
          ∀ k1 j1, k1 < N → j1 < nX → (k1 < k ∨ (k1 = k ∧ j1 < j)) →
            ¬ fwdSum nX h L k1 j1 j1 < opt.newtonHessDiagRegTolerance ∧
            L (k1, 0, j1, j1) = sqrt_f (fwdSum nX h L k1 j1 j1)) ∧
      (st ≠ return_t.QPDUNES_ERR_DIVISION_BY_ZERO →
        st = return_t.QPDUNES_OK ∧
        ∀ k j, k < N → j < nX →
          ¬ fwdSum nX h L k j j < opt.newtonHessDiagRegTolerance ∧
          L (k, 0, j, j) = sqrt_f (fwdSum nX h L k j j))) ∧
    (opt.regType = regType_t.QPDUNES_REG_SINGULAR_DIRECTIONS →
      st = return_t.QPDUNES_OK ∧
      ∀ k j, k < N → j < nX →
        (fwdSum nX h L k j j < opt.newtonHessDiagRegTolerance →
          L (k, 0, j, j) = sqrt_f (fwdSum nX h L k j j +
            (opt.QPDUNES_INFTY * opt.QPDUNES_INFTY + 1)) ∧ reg = true) ∧
        (¬ fwdSum nX h L k j j < opt.newtonHessDiagRegTolerance →
          L (k, 0, j, j) = sqrt_f (fwdSum nX h L k j j))) := by
  have ho := factorizeNewtonHessian_outcome sqrt_f opt N nX c0 h flag
  rw [hr] at ho
  dsimp only at ho
  have hcol : ∀ k j, opt.regType ≠ regType_t.QPDUNES_REG_SINGULAR_DIRECTIONS →
      FwdColOK sqrt_f opt N nX h L k j →
      ¬ fwdSum nX h L k j j < opt.newtonHessDiagRegTolerance ∧
        L (k, 0, j, j) = sqrt_f (fwdSum nX h L k j j) := by
    intro k j hreg hc
    have h1 : ¬ fwdSum nX h L k j j < opt.newtonHessDiagRegTolerance := by
      rcases hc.1 with c | c
      · exact absurd c hreg
      · exact c
    refine ⟨h1, ?_⟩
    have h2 := hc.2.1
    unfold fwdReg at h2
    rw [if_neg (fun c => hreg c.1)] at h2
    exact h2
  constructor
  · intro hreg
    rcases ho with ⟨s1, d1⟩ | ⟨s1, _, k, j, hk, hj, d1, d2⟩
    · refine ⟨⟨fun c => (by rw [s1] at c; cases c), ?_⟩, fun _ => ⟨s1, fun k j hk hj =>
        hcol k j hreg (d1.1 k j hk hj (Or.inl hk))⟩⟩
      rintro ⟨k, j, hk, hj, hs, _⟩
      exact absurd hs (hcol k j hreg (d1.1 k j hk hj (Or.inl hk))).1
    · refine ⟨⟨fun _ => ⟨k, j, hk, hj, d2, fun k1 j1 hk1 hj1 hlt =>
        hcol k1 j1 hreg (d1.1 k1 j1 hk1 hj1 hlt)⟩, fun _ => s1⟩, fun c => absurd s1 c⟩
  · intro hreg
    rcases ho with ⟨s1, d1⟩ | ⟨_, c, _⟩
    · refine ⟨s1, fun k j hk hj => ⟨fun hs => ⟨?_, d1.2 k j hk hj (Or.inl hk) hreg hs⟩,
        fun hs => ?_⟩⟩
      · have h2 := (d1.1 k j hk hj (Or.inl hk)).2.1
        unfold fwdReg at h2
        rw [if_pos ⟨hreg, hs⟩] at h2
        exact h2
      · have h2 := (d1.1 k j hk hj (Or.inl hk)).2.1
        unfold fwdReg at h2
        rw [if_neg (fun c => hs c.2)] at h2
        exact h2
    · exact absurd hreg c

end ForwardOutcome

/-! ## The regularization of the factorization driver -/

section RegularizationLemmas

variable {α : Type} [LinearOrderedField α]

theorem forUp_min_lt (f : Nat → α) (n : Nat) (m0 t : α) :
    forUp (fun ii (m : α) => if m > f ii then f ii else m) 0 n m0 < t ↔
      m0 < t ∨ ∃ i, i < n ∧ f i < t := by
  induction n with
  | zero => simp [forUp]
  | succ n ih =>
    simp only [forUp, Nat.zero_add]
    by_cases hc : forUp (fun ii (m : α) => if m > f ii then f ii else m) 0 n m0 > f n
    · rw [if_pos hc]
      constructor
      · intro h
        exact Or.inr ⟨n, by omega, h⟩
      · rintro (h | ⟨i, hi, h⟩)
        · exact lt_trans hc (ih.mpr (Or.inl h))
        · by_cases e : i = n
          · subst e
            exact h
          · exact lt_trans hc (ih.mpr (Or.inr ⟨i, by omega, h⟩))
    · rw [if_neg hc]
      constructor
      · intro h
        rcases ih.mp h with h1 | ⟨i, hi, h1⟩
        · exact Or.inl h1
        · exact Or.inr ⟨i, by omega, h1⟩
      · rintro (h | ⟨i, hi, h⟩)
        · exact ih.mpr (Or.inl h)
        · by_cases e : i = n
          · subst e
            exact lt_of_le_of_lt (not_lt.mp hc) h
          · exact ih.mpr (Or.inr ⟨i, by omega, h⟩)

/-- The scan of the factor diagonal ends below a bound exactly when its start value or a
diagonal entry is below it. -/
theorem forUp_min_nested_lt (c : xn2x_matrix_t α) (N nX : Nat) (m0 t : α) :
    forUp (fun kk (minDiagElem : α) =>
      forUp (fun ii (minDiagElem : α) =>
        if minDiagElem > accCholHessian c kk 0 ii ii then accCholHessian c kk 0 ii ii
        else minDiagElem) 0 nX minDiagElem) 0 N m0 < t ↔
      m0 < t ∨ ∃ k i, k < N ∧ i < nX ∧ c (k, 0, i, i) < t := by
  induction N with
  | zero => simp [forUp]
  | succ N ih =>
    simp only [forUp, Nat.zero_add]
    rw [forUp_min_lt (fun ii => accCholHessian c N 0 ii ii) nX _ t, ih]
    constructor
    · rintro ((h | ⟨k, i, hk, hi, h⟩) | ⟨i, hi, h⟩)
      · exact Or.inl h
      · exact Or.inr ⟨k, i, by omega, hi, h⟩
      · exact Or.inr ⟨N, i, by omega, hi, h⟩
    · rintro (h | ⟨k, i, hk, hi, h⟩)
      · exact Or.inl (Or.inl h)
      · by_cases e : k = N
        · subst e
          exact Or.inr ⟨i, hi, h⟩
        · exact Or.inl (Or.inr ⟨k, i, by omega, hi, h⟩)

theorem minDiagElem_lt (N nX : Nat) (qp : qpData_t α) (t : α)
    (ht : t ≤ qp.options.QPDUNES_INFTY) :
    factorNewtonSystem_minDiagElem N nX qp return_t.QPDUNES_OK < t ↔
      ∃ k i, k < N ∧ i < nX ∧ qp.cholHessian (k, 0, i, i) < t := by
  unfold factorNewtonSystem_minDiagElem
  rw [if_pos rfl, forUp_min_nested_lt]
  constructor
  · rintro (h | h)
    · exact absurd h (not_lt.mpr ht)
    · exact h
  · exact fun h => Or.inr h

/-- The minimum diagonal entry that `qpDUNES_factorNewtonSystem` looks for is below a bound
exactly when QPDUNES_INFTY, the start value of the search, is, or the factorization
returned QPDUNES_OK and a diagonal entry of the factor is. -/
theorem minDiagElem_lt_iff (N nX : Nat) (qp : qpData_t α) (st : return_t) (t : α) :
    factorNewtonSystem_minDiagElem N nX qp st < t ↔
      (qp.options.QPDUNES_INFTY < t ∨
        (st = return_t.QPDUNES_OK ∧ ∃ k i, k < N ∧ i < nX ∧ qp.cholHessian (k, 0, i, i) < t)) := by
  unfold factorNewtonSystem_minDiagElem
  by_cases hst : st = return_t.QPDUNES_OK
  · rw [if_pos hst, forUp_min_nested_lt]
    constructor
    · rintro (h | h)
      · exact Or.inl h
      · exact Or.inr ⟨hst, h⟩
    · rintro (h | h)
      · exact Or.inl h
      · exact Or.inr h.2
  · rw [if_neg hst]
    constructor
    · exact fun h => Or.inl h
    · rintro (h | h)
      · exact h
      · exact absurd h.1 hst

theorem minDiagElem_not_ok (N nX : Nat) (qp : qpData_t α) (st : return_t)
    (hst : st ≠ return_t.QPDUNES_OK) :
    factorNewtonSystem_minDiagElem N nX qp st = qp.options.QPDUNES_INFTY := by
  unfold factorNewtonSystem_minDiagElem
  rw [if_neg hst]

theorem lmRow_entry (kk n : Nat) (p : α) (h : xn2x_matrix_t α) (K : Nat) (L : Int) (I J : Nat) :
    forUp (fun jj (hessian : xn2x_matrix_t α) =>
      setAcc hessian kk 0 jj jj (accHessian hessian kk 0 jj jj + p)) 0 n h (K, L, I, J) =
    if K = kk ∧ L = 0 ∧ I = J ∧ I < n then h (K, L, I, J) + p else h (K, L, I, J) := by
  induction n with
  | zero => simp [forUp]
  | succ n ih =>
    simp only [forUp, Nat.zero_add, setAcc, accHessian, Function.update_apply, Prod.mk.injEq]
    by_cases h1 : K = kk ∧ L = 0 ∧ I = n ∧ J = n
    · obtain ⟨a, b, c, d⟩ := h1
      subst a b c d
      rw [if_pos ⟨rfl, rfl, rfl, rfl⟩, if_pos ⟨rfl, rfl, rfl, by omega⟩]
      have e := ih
      rw [if_neg (fun c => by omega)] at e
      rw [e]
    · rw [if_neg h1, ih]
      by_cases h2 : K = kk ∧ L = 0 ∧ I = J ∧ I < n
      · rw [if_pos h2, if_pos ⟨h2.1, h2.2.1, h2.2.2.1, by omega⟩]
      · rw [if_neg h2, if_neg]
        rintro ⟨a, b, c, d⟩
        by_cases e : I = n
        · exact h1 ⟨a, b, e, by omega⟩
        · exact h2 ⟨a, b, c, by omega⟩

/-- The Levenberg-Marquardt loop (dual_qp.c 506-510), entry by entry. -/
theorem lmLoop_entry (N nX : Nat) (p : α) (h : xn2x_matrix_t α) (K : Nat) (L : Int)
    (I J : Nat) :
    forUp (fun kk (hessian : xn2x_matrix_t α) =>
      forUp (fun jj (hessian : xn2x_matrix_t α) =>
        setAcc hessian kk 0 jj jj (accHessian hessian kk 0 jj jj + p)) 0 nX hessian) 0 N h
        (K, L, I, J) =
    if L = 0 ∧ K < N ∧ I = J ∧ I < nX then h (K, L, I, J) + p else h (K, L, I, J) := by
  induction N with
  | zero => simp [forUp]
  | succ N ih =>
    simp only [forUp, Nat.zero_add]
    rw [lmRow_entry, ih]
    by_cases h1 : K = N ∧ L = 0 ∧ I = J ∧ I < nX
    · rw [if_pos h1, if_neg (fun c => by omega), if_pos ⟨h1.2.1, by omega, h1.2.2⟩]
    · rw [if_neg h1]
      by_cases h2 : L = 0 ∧ K < N ∧ I = J ∧ I < nX
      · rw [if_pos h2, if_pos ⟨h2.1, by omega, h2.2.2⟩]
      · rw [if_neg h2, if_neg]
        rintro ⟨a, b, c, d⟩
        by_cases e : K = N
        · exact h1 ⟨e, a, c, d⟩
        · exact h2 ⟨a, by omega, c, d⟩

/-- A forward factorization that starts with the flag set leaves it set. -/
theorem factorizeNewtonHessian_flag (sqrt_f : α → α) (opt : qpOptions_t α) (N nX : Nat)
    (c0 h : xn2x_matrix_t α) :
    (qpDUNES_factorizeNewtonHessian sqrt_f opt N nX c0 h true).2.isHessianRegularized = true := by
  obtain ⟨a, b⟩ := forUpM_nested
    (fun kk jj st => factorizeNewtonHessian_column sqrt_f opt N nX h kk jj st) N nX
    (fun _ _ (st : cholState_t α) => st.isHessianRegularized = true)
    (fun e => e.2.isHessianRegularized = true)
    (fun kk jj s s1 _ _ hP hs =>
      ((fwd_column_flag_step sqrt_f opt N nX h kk jj s).1 s1 hs).1 hP)
    (fun kk s _ hP => hP)
    (fun kk jj s e _ _ hP he => by
      rw [((fwd_column_flag_step sqrt_f opt N nX h kk jj s).2 e he).1]
      exact hP)
    (⟨c0, true⟩ : cholState_t α) rfl
  unfold qpDUNES_factorizeNewtonHessian
  cases hrun : forUpM (fun kk st =>
      forUpM (fun jj st => factorizeNewtonHessian_column sqrt_f opt N nX h kk jj st) 0 nX st)
      0 N (⟨c0, true⟩ : cholState_t α) with
  | error e => exact b e hrun
  | ok s1 => exact a s1 hrun

theorem rev_column_flag_true (sqrt_f : α → α) (opt : qpOptions_t α) (N nX : Nat)
    (h : xn2x_matrix_t α) (kk jj : Nat) (st : cholState_t α)
    (hf : st.isHessianRegularized = true) :
    (∀ st1, factorizeNewtonHessianBottomUp_column sqrt_f opt N nX h kk jj st = Except.ok st1 →
      st1.isHessianRegularized = true) ∧
    (∀ e, factorizeNewtonHessianBottomUp_column sqrt_f opt N nX h kk jj st = Except.error e →
      e.2.isHessianRegularized = true) := by
  unfold factorizeNewtonHessianBottomUp_column
  dsimp only
  split_ifs
  · refine ⟨fun st1 hs => ?_, fun e he => (by cases he)⟩
    simp only [Except.ok.injEq] at hs
    rw [← hs]
  · refine ⟨fun st1 hs => (by cases hs), fun e he => ?_⟩
    simp only [Except.error.injEq] at he
    rw [← he]
    exact hf
  · refine ⟨fun st1 hs => ?_, fun e he => (by cases he)⟩
    simp only [Except.ok.injEq] at hs
    rw [← hs]
    exact hf

/-- A reverse factorization that starts with the flag set leaves it set. -/
theorem factorizeNewtonHessianBottomUp_flag (sqrt_f : α → α) (opt : qpOptions_t α)
    (N nX : Nat) (c0 h : xn2x_matrix_t α) (idx : Int) :
    (qpDUNES_factorizeNewtonHessianBottomUp sqrt_f opt N nX c0 h idx
      true).2.isHessianRegularized = true := by
  have inner : ∀ kk (s : cholState_t α), s.isHessianRegularized = true →
      (∀ s1, forDownM (fun jj st =>
          factorizeNewtonHessianBottomUp_column sqrt_f opt N nX h kk jj st) 0 nX s =
        Except.ok s1 → s1.isHessianRegularized = true) ∧
      (∀ e, forDownM (fun jj st =>
          factorizeNewtonHessianBottomUp_column sqrt_f opt N nX h kk jj st) 0 nX s =
        Except.error e → e.2.isHessianRegularized = true) :=
    fun kk s hs => forDownM_invariant _ (fun s => s.isHessianRegularized = true)
      (fun e => e.2.isHessianRegularized = true) 0 nX
      (fun jj a b _ _ hP hb => (rev_column_flag_true sqrt_f opt N nX h kk jj a hP).1 b hb)
      (fun jj a e _ _ hP he => (rev_column_flag_true sqrt_f opt N nX h kk jj a hP).2 e he) s hs
  obtain ⟨a, b⟩ := forDownM_invariant
    (fun kk st => forDownM (fun jj st =>
      factorizeNewtonHessianBottomUp_column sqrt_f opt N nX h kk jj st) 0 nX st)
    (fun s => s.isHessianRegularized = true)
    (fun e => e.2.isHessianRegularized = true) 0 (blockIdxStart N idx + 1).toNat
    (fun kk s s1 _ _ hP hb => (inner kk s hP).1 s1 hb)
    (fun kk s e _ _ hP he => (inner kk s hP).2 e he) (⟨c0, true⟩ : cholState_t α) rfl
  unfold qpDUNES_factorizeNewtonHessianBottomUp
  cases hrun : forDownM (fun kk st => forDownM (fun jj st =>
      factorizeNewtonHessianBottomUp_column sqrt_f opt N nX h kk jj st) 0 nX st) 0
      (blockIdxStart N idx + 1).toNat (⟨c0, true⟩ : cholState_t α) with
  | error e => exact b e hrun
  | ok s1 => exact a s1 hrun

theorem factorNewtonSystem_factorize_flag (sqrt_f : α → α) (N nX : Nat) (qp : qpData_t α)
    (idx : Int) (r : return_t × cholState_t α)
    (h : factorNewtonSystem_factorize sqrt_f N nX qp idx true = some r) :
    r.2.isHessianRegularized = true := by
  unfold factorNewtonSystem_factorize at h
  cases ha : qp.options.nwtnHssnFacAlg <;> rw [ha] at h <;>
    simp only [Option.some.injEq] at h
  · rw [← h]
    exact factorizeNewtonHessian_flag sqrt_f qp.options N nX _ _
  · rw [← h]
    exact factorizeNewtonHessianBottomUp_flag sqrt_f qp.options N nX _ _ idx
  · exact absurd h (by simp)

theorem blockIdxStart_refactor (N : Nat) :
    (blockIdxStart N ((N : Int) + 1) + 1).toNat = N := by
  unfold blockIdxStart
  split_ifs <;> omega

end RegularizationLemmas

/-! ## Levenberg-Marquardt regularization in the factorization driver -/

section LevenbergMarquardt

variable {α : Type} [LinearOrderedField α]

/-- The test of dual_qp.c 501-502 in terms of the first factorization attempt. -/
theorem factorNewtonSystem_trigger (N nX : Nat) (qp : qpData_t α) (r : return_t × cholState_t α)
    (htol : qp.options.newtonHessDiagRegTolerance ≤ qp.options.QPDUNES_INFTY) :
    (r.1 = return_t.QPDUNES_ERR_DIVISION_BY_ZERO ∨
      factorNewtonSystem_minDiagElem N nX
        ({ qp with cholHessian := r.2.cholHessian } : qpData_t α) r.1 <
        qp.options.newtonHessDiagRegTolerance) ↔
    (r.1 = return_t.QPDUNES_ERR_DIVISION_BY_ZERO ∨
      (r.1 = return_t.QPDUNES_OK ∧ ∃ k i, k < N ∧ i < nX ∧
        r.2.cholHessian (k, 0, i, i) < qp.options.newtonHessDiagRegTolerance)) := by
  by_cases hok : r.1 = return_t.QPDUNES_OK
  · rw [hok]
    have e := minDiagElem_lt N nX ({ qp with cholHessian := r.2.cholHessian } : qpData_t α)
      qp.options.newtonHessDiagRegTolerance htol
    rw [e]
    constructor
    · rintro (h | h)
      · exact Or.inl h
      · exact Or.inr ⟨rfl, h⟩
    · rintro (h | h)
      · exact Or.inl h
      · exact Or.inr h.2
  · rw [minDiagElem_not_ok N nX _ r.1 hok]
    constructor
    · rintro (h | h)
      · exact Or.inl h
      · exact absurd h (not_lt.mpr htol)
    · rintro (h | h)
      · exact Or.inl h
      · exact absurd h.1 hok

/-- The Levenberg-Marquardt branch of `qpDUNES_factorNewtonSystem`, on the test of
dual_qp.c 501-502. -/
theorem factorNewtonSystem_LM (sqrt_f : α → α) (N nX : Nat) (qp : qpData_t α) (flag : Bool)
    (idx : Int) (r : return_t × cholState_t α)
    (hreg : qp.options.regType = regType_t.QPDUNES_REG_LEVENBERG_MARQUARDT)
    (hfirst : factorNewtonSystem_factorize sqrt_f N nX qp idx flag = some r) :
    ((r.1 = return_t.QPDUNES_ERR_DIVISION_BY_ZERO ∨
        factorNewtonSystem_minDiagElem N nX
          ({ qp with cholHessian := r.2.cholHessian } : qpData_t α) r.1 <
          qp.options.newtonHessDiagRegTolerance) →
      (∀ (K : Nat) (L : Int) (I J : Nat),
        (qpDUNES_factorNewtonSystem sqrt_f N nX qp flag idx).2.1.hessian (K, L, I, J) =
          if L = 0 ∧ K < N ∧ I = J ∧ I < nX then qp.hessian (K, L, I, J) + qp.options.regParam
          else qp.hessian (K, L, I, J)) ∧
      (qpDUNES_factorNewtonSystem sqrt_f N nX qp flag idx).2.2 = true ∧
      ∃ r2, factorNewtonSystem_factorize sqrt_f N nX
          ({ (qpDUNES_factorNewtonSystem sqrt_f N nX qp flag idx).2.1 with
            cholHessian := r.2.cholHessian } : qpData_t α) ((N : Int) + 1) true = some r2 ∧
        (qpDUNES_factorNewtonSystem sqrt_f N nX qp flag idx).1 = r2.1 ∧
        (qpDUNES_factorNewtonSystem sqrt_f N nX qp flag idx).2.1.cholHessian =
          r2.2.cholHessian) ∧
    (¬ (r.1 = return_t.QPDUNES_ERR_DIVISION_BY_ZERO ∨
        factorNewtonSystem_minDiagElem N nX
          ({ qp with cholHessian := r.2.cholHessian } : qpData_t α) r.1 <
          qp.options.newtonHessDiagRegTolerance) →
      (qpDUNES_factorNewtonSystem sqrt_f N nX qp flag idx).2.1.hessian = qp.hessian ∧
      (qpDUNES_factorNewtonSystem sqrt_f N nX qp flag idx).1 = r.1 ∧
      (qpDUNES_factorNewtonSystem sqrt_f N nX qp flag idx).2.1.cholHessian =
        r.2.cholHessian ∧
      (qpDUNES_factorNewtonSystem sqrt_f N nX qp flag idx).2.2 = r.2.isHessianRegularized) := by
  have hout : qpDUNES_factorNewtonSystem sqrt_f N nX qp flag idx =
      if r.1 = return_t.QPDUNES_ERR_DIVISION_BY_ZERO ∨
        factorNewtonSystem_minDiagElem N nX
          ({ qp with cholHessian := r.2.cholHessian } : qpData_t α) r.1 <
          qp.options.newtonHessDiagRegTolerance then
        factorNewtonSystem_refactor sqrt_f N nX
          ({ ({ qp with cholHessian := r.2.cholHessian } : qpData_t α) with
            hessian := forUp (fun kk (hessian : xn2x_matrix_t α) =>
              forUp (fun jj (hessian : xn2x_matrix_t α) =>
                setAcc hessian kk 0 jj jj
                  (accHessian hessian kk 0 jj jj + qp.options.regParam)) 0 nX hessian)
              0 N qp.hessian } : qpData_t α)
      else
        if r.1 ≠ return_t.QPDUNES_OK then
          (r.1, ({ qp with cholHessian := r.2.cholHessian } : qpData_t α),
            r.2.isHessianRegularized)
        else (return_t.QPDUNES_OK, ({ qp with cholHessian := r.2.cholHessian } : qpData_t α),
          r.2.isHessianRegularized) := by
    unfold qpDUNES_factorNewtonSystem
    rw [hfirst]
    dsimp only
    rw [hreg]
  rw [hout]
  constructor
  · intro htrig
    rw [if_pos htrig]
    unfold factorNewtonSystem_refactor
    have hsome : ∃ r2, factorNewtonSystem_factorize sqrt_f N nX
        ({ ({ qp with cholHessian := r.2.cholHessian } : qpData_t α) with
          hessian := forUp (fun kk (hessian : xn2x_matrix_t α) =>
            forUp (fun jj (hessian : xn2x_matrix_t α) =>
              setAcc hessian kk 0 jj jj
                (accHessian hessian kk 0 jj jj + qp.options.regParam)) 0 nX hessian)
            0 N qp.hessian } : qpData_t α) ((N : Int) + 1) true = some r2 := by
      unfold factorNewtonSystem_factorize at hfirst ⊢
      dsimp only at hfirst ⊢
      cases ha : qp.options.nwtnHssnFacAlg <;> rw [ha] at hfirst
      · exact ⟨_, rfl⟩
      · exact ⟨_, rfl⟩
      · exact absurd hfirst (by simp)
    obtain ⟨r2, hr2⟩ := hsome
    rw [hr2]
    dsimp only
    have hfl := factorNewtonSystem_factorize_flag sqrt_f N nX _ _ r2 hr2
    split_ifs
    · exact ⟨fun K L I J => lmLoop_entry N nX qp.options.regParam qp.hessian K L I J, hfl,
        r2, hr2, rfl, rfl⟩
    · refine ⟨fun K L I J => lmLoop_entry N nX qp.options.regParam qp.hessian K L I J, hfl,
        r2, hr2, ?_, rfl⟩
      rename_i hne
      exact (not_not.mp hne).symm
  · intro hno
    rw [if_neg hno]
    split_ifs with h1
    · exact ⟨rfl, rfl, rfl, rfl⟩
    · exact ⟨rfl, (not_not.mp h1).symm, rfl, rfl⟩

end LevenbergMarquardt

/-! ## The sentinel of the forward back-substitution -/

section SentinelLemmas

variable {α : Type} [LinearOrderedField α]

theorem solveNewtonEquation_phases (opt : qpOptions_t α) (N nX : Nat) (res : Nat → α)
    (c : xn2x_matrix_t α) (g : Nat → α) :
    qpDUNES_solveNewtonEquation opt N nX res c g =
      (return_t.QPDUNES_OK,
        solveNewtonEquation_backward N nX (solveNewtonEquation_forward opt N nX res c g) c) :=
  rfl

/-- The second solve is the upper-triangular sweep, whatever the diagonal. -/
theorem solveNewtonEquation_backward_eq (N nX : Nat) (r0 : Nat → α) (c : xn2x_matrix_t α) :
    solveNewtonEquation_backward N nX r0 c = upperSweep (fun r => r) N nX c r0 := by
  unfold solveNewtonEquation_backward upperSweep
  apply forDown_congr
  intro kk r _ hkk
  apply forDown_congr
  intro ii r1 _ hii
  dsimp only
  rw [upper_body_eq]
  rfl

omit [LinearOrderedField α] in
/-- A row-wise loop nest leaves in row `(k, i)` a value that does not depend on the state. -/
theorem rowLoop_const (nX : Nat) (body : Nat → Nat → (Nat → α) → (Nat → α)) (k i : Nat)
    (hi : i < nX) (v : α)
    (hrow : ∀ r, body k i r (k * nX + i) = v)
    (hframe : ∀ kk ii r n, ii < nX → n ≠ kk * nX + ii → body kk ii r n = r n)
    (N : Nat) (hk : k < N) (res : Nat → α) :
    forUp (fun kk res => forUp (fun ii res => body kk ii res) 0 nX res) 0 N res (k * nX + i) =
      v := by
  have inner : ∀ kk (r : Nat → α) (n : Nat), n ≤ nX →
      forUp (fun ii res => body kk ii res) 0 n r (k * nX + i) =
        if kk = k ∧ i < n then v else r (k * nX + i) := by
    intro kk r n
    induction n with
    | zero =>
      intro _
      simp [forUp]
    | succ n ih =>
      intro hn
      simp only [forUp, Nat.zero_add]
      by_cases h1 : kk = k ∧ i = n
      · obtain ⟨a, b⟩ := h1
        subst a b
        rw [hrow, if_pos ⟨rfl, by omega⟩]
      · rw [hframe kk n _ _ (by omega) (flat_ne nX k i kk n hi (by omega)
          (fun c => h1 ⟨c.1.symm, c.2⟩)), ih (by omega)]
        by_cases h2 : kk = k ∧ i < n
        · rw [if_pos h2, if_pos ⟨h2.1, by omega⟩]
        · rw [if_neg h2, if_neg]
          rintro ⟨a, b⟩
          by_cases e : i = n
          · exact h1 ⟨a, e⟩
          · exact h2 ⟨a, by omega⟩
  induction N with
  | zero => omega
  | succ N ih =>
    simp only [forUp, Nat.zero_add]
    rw [inner N _ nX (le_refl _)]
    by_cases e : N = k
    · rw [if_pos ⟨e, hi⟩]
    · rw [if_neg (fun c => e c.1)]
      exact ih (by omega)

/-- After the first solve a coordinate whose diagonal entry exceeds QPDUNES_INFTY is 0. -/
theorem solveNewtonEquation_forward_sentinel (opt : qpOptions_t α) (N nX : Nat) (res : Nat → α)
    (c : xn2x_matrix_t α) (g : Nat → α) (k i : Nat) (hk : k < N) (hi : i < nX)
    (hbig : c (k, 0, i, i) > opt.QPDUNES_INFTY) :
    solveNewtonEquation_forward opt N nX res c g (k * nX + i) = 0 := by
  unfold solveNewtonEquation_forward
  apply rowLoop_const nX _ k i hi 0 _ _ N hk res
  · intro r
    dsimp only
    rw [if_pos hbig, Function.update_same]
  · intro kk ii r n _ hn
    dsimp only
    split_ifs <;> exact Function.update_noteq hn _ _

/-- The value the two solves leave in a coordinate whose diagonal entry exceeds
QPDUNES_INFTY: the second solve starts from 0 and subtracts the couplings with the later
coordinates. -/
theorem solveNewtonEquation_sentinel_value (opt : qpOptions_t α) (N nX : Nat) (res : Nat → α)
    (c : xn2x_matrix_t α) (g : Nat → α) (k i : Nat) (hk : k < N) (hi : i < nX)
    (hbig : c (k, 0, i, i) > opt.QPDUNES_INFTY) :
    (qpDUNES_solveNewtonEquation opt N nX res c g).2 (k * nX + i) =
      - upPart N nX c (qpDUNES_solveNewtonEquation opt N nX res c g).2 k i / c (k, 0, i, i) := by
  rw [solveNewtonEquation_phases]
  dsimp only
  rw [solveNewtonEquation_backward_eq]
  have h := upperSweep_spec (fun r => r) (fun _ _ _ h => h) N nX c
    (solveNewtonEquation_forward opt N nX res c g) k i hk hi
  beta_reduce at h
  rw [solveNewtonEquation_forward_sentinel opt N nX res c g k i hk hi hbig] at h
  rw [h, zero_sub]

theorem upPart_eq_zero (N nX : Nat) (c : xn2x_matrix_t α) (res : Nat → α) (k i : Nat)
    (h1 : ∀ j, i < j → j < nX → c (k, 0, j, i) = 0)
    (h2 : k + 1 < N → ∀ j, j < nX → c (k + 1, -1, j, i) = 0) :
    upPart N nX c res k i = 0 := by
  unfold upPart
  have e1 : ∑ t in Finset.range (nX - (i + 1)),
      c (k, 0, i + 1 + t, i) * res (k * nX + (i + 1 + t)) = 0 := by
    apply Finset.sum_eq_zero
    intro t ht
    have := Finset.mem_range.mp ht
    rw [h1 (i + 1 + t) (by omega) (by omega), zero_mul]
  rw [e1, zero_add]
  split_ifs with h3
  · apply Finset.sum_eq_zero
    intro j hj
    rw [h2 h3 j (Finset.mem_range.mp hj), zero_mul]
  · rfl

end SentinelLemmas

/-! ## The step direction of an iteration -/

section DirectionLemmas

variable {α : Type} [LinearOrderedField α]

/-- A pass of the iteration loop is its head, its step direction and its rest. -/
theorem solve_iteration_eq (sqrt_f : α → α) (ext : collaborators_t α) (N nX nZ : Nat)
    (itCntr : Nat) (s : qpData_t α × Int × α) :
    solve_iteration sqrt_f ext N nX nZ itCntr s =
      match solve_direction sqrt_f ext N nX nZ itCntr (solve_iterationHead itCntr s.1) s.2.1 with
      | Except.error e => Except.error e
      | Except.ok qpData => solve_iterationTail sqrt_f ext N nX nZ itCntr s.2.2 qpData := by
  unfold solve_iteration solve_direction solve_iterationTail solve_gradientStep
  rfl

theorem solve_direction_newton (sqrt_f : α → α) (ext : collaborators_t α) (N nX nZ : Nat)
    (itCntr : Nat) (qp : qpData_t α) (idx : Int)
    (h : itCntr = 1 ∨ (itCntr : Int) > qp.options.nbrInitialGradientSteps + 1) :
    solve_direction sqrt_f ext N nX nZ itCntr qp idx =
      solve_newtonDirection sqrt_f ext N nX nZ qp idx := by
  unfold solve_direction
  rw [if_neg]
  rintro ⟨a, b⟩
  rcases h with h | h
  · subst h
    simp at a
  · omega

theorem solve_direction_gradient (sqrt_f : α → α) (ext : collaborators_t α) (N nX nZ : Nat)
    (itCntr : Nat) (qp : qpData_t α) (idx : Int)
    (h : 2 ≤ itCntr ∧ (itCntr : Int) ≤ qp.options.nbrInitialGradientSteps + 1) :
    solve_direction sqrt_f ext N nX nZ itCntr qp idx =
      Except.ok (solve_gradientStep ext N nX nZ qp) := by
  unfold solve_direction
  rw [if_pos]
  constructor
  · omega
  · omega

end DirectionLemmas

/-! ## Frames of the step length determination -/

section StepLengthFrames

variable {α : Type} [LinearOrderedField α]

omit [LinearOrderedField α] in
theorem forUpM_total {σ ε : Type} (body : Nat → σ → Except ε σ) (P : Nat → σ → Prop)
    (lo n : Nat)
    (hstep : ∀ i s, lo ≤ i → i < lo + n → P i s → ∃ s1, body i s = Except.ok s1 ∧ P (i + 1) s1)
    (s : σ) (h0 : P lo s) : ∃ s1, forUpM body lo n s = Except.ok s1 ∧ P (lo + n) s1 := by
  induction n with
  | zero => exact ⟨s, rfl, h0⟩
  | succ n ih =>
    obtain ⟨s1, h1, h2⟩ := ih (fun i s a b c => hstep i s a (by omega) c)
    obtain ⟨s2, h3, h4⟩ := hstep (lo + n) s1 (by omega) (by omega) h2
    refine ⟨s2, ?_, h4⟩
    simp only [forUpM]
    rw [h1]
    exact h3

omit [LinearOrderedField α] in
theorem forUpM_invariant {σ ε : Type} (body : Nat → σ → Except ε σ) (P : σ → Prop)
    (Q : ε → Prop) (lo n : Nat)
    (hok : ∀ i s s1, P s → body i s = Except.ok s1 → P s1)
    (herr : ∀ i s e, P s → body i s = Except.error e → Q e)
    (s : σ) (hP : P s) :
    (∀ s1, forUpM body lo n s = Except.ok s1 → P s1) ∧
    (∀ e, forUpM body lo n s = Except.error e → Q e) := by
  induction n with
  | zero =>
    refine ⟨fun s1 h => ?_, fun e h => (by simp [forUpM] at h)⟩
    simp only [forUpM, Except.ok.injEq] at h
    rw [← h]
    exact hP
  | succ n ih =>
    obtain ⟨i1, i2⟩ := ih
    simp only [forUpM]
    cases hm : forUpM body lo n s with
    | error e1 =>
      refine ⟨fun s1 h => (by cases h), fun e h => ?_⟩
      simp only [Except.error.injEq] at h
      rw [← h]
      exact i2 e1 hm
    | ok s2 =>
      exact ⟨fun s1 h => hok _ s2 s1 (i1 s2 hm) h, fun e h => herr _ s2 e (i1 s2 hm) h⟩

omit [LinearOrderedField α] in
theorem SameButStages_refl (q : qpData_t α) : SameButStages q q :=
  ⟨rfl, rfl, rfl, rfl, rfl⟩

omit [LinearOrderedField α] in
theorem SameButStages_trans {q q2 q3 : qpData_t α} (h1 : SameButStages q q2)
    (h2 : SameButStages q2 q3) : SameButStages q q3 :=
  ⟨h2.1.trans h1.1, h2.2.1.trans h1.2.1, h2.2.2.1.trans h1.2.2.1,
    h2.2.2.2.1.trans h1.2.2.2.1, h2.2.2.2.2.trans h1.2.2.2.2⟩

omit [LinearOrderedField α] in
theorem SameButStages_setInterval (q : qpData_t α) (kk : Nat) (v : interval_t α) :
    SameButStages q (q.setInterval kk v) :=
  ⟨rfl, rfl, rfl, rfl, rfl⟩

/-- The objective value evaluation changes only the stages. -/
theorem computeObjectiveValue_frame (N : Nat) (qp : qpData_t α) (o : α × qpData_t α)
    (h : qpDUNES_computeObjectiveValue N qp = some o) : SameButStages qp o.2 := by
  unfold qpDUNES_computeObjectiveValue at h
  refine forUpO_invariant _ (fun (s : α × qpData_t α) => SameButStages qp s.2) ?_ 0 (N + 1)
    (0, qp) o (SameButStages_refl qp) h
  intro i s s1 hP hb
  dsimp only at hb
  split at hb
  · simp at hb
  · simp only [Option.some.injEq] at hb
    rw [← hb]
    exact SameButStages_trans hP (SameButStages_setInterval _ _ _)

/-- The objective value evaluation at a trial step length changes only the stages. -/
theorem computeParametricObjectiveValue_frame (ext : collaborators_t α) (N : Nat)
    (qp : qpData_t α) (a : α) (r : α × qpData_t α)
    (h : qpDUNES_computeParametricObjectiveValue ext N qp a = some r) :
    SameButStages qp r.2 := by
  unfold qpDUNES_computeParametricObjectiveValue at h
  dsimp only at h
  split at h
  · rename_i s hs
    simp only [Option.some.injEq] at h
    rw [← h]
    refine (forUpM_invariant _ (fun (s : α × qpData_t α) => SameButStages qp s.2)
      (fun (_ : Option (α × qpData_t α)) => True) 0 (N + 1) ?_ ?_ (0, qp)
      (SameButStages_refl qp)).1 s hs
    · intro i s s1 hP hb
      split at hb
      · split at hb
        · cases hb
        · simp only [Except.ok.injEq] at hb
          rw [← hb]
          exact SameButStages_trans (SameButStages_trans hP (SameButStages_setInterval _ _ _))
            (SameButStages_setInterval _ _ _)
      · cases hb
      · cases hb
    · intro _ _ _ _ _
      trivial
  · rename_i e he
    refine (forUpM_invariant _ (fun (s : α × qpData_t α) => SameButStages qp s.2)
      (fun (e : Option (α × qpData_t α)) => ∀ r, e = some r → SameButStages qp r.2)
      0 (N + 1) ?_ ?_ (0, qp) (SameButStages_refl qp)).2 e he r h
    · intro i s s1 hP hb
      split at hb
      · split at hb
        · cases hb
        · simp only [Except.ok.injEq] at hb
          rw [← hb]
          exact SameButStages_trans (SameButStages_trans hP (SameButStages_setInterval _ _ _))
            (SameButStages_setInterval _ _ _)
      · cases hb
      · cases hb
    · intro i s e hP hb r hr
      subst hr
      split at hb
      · split at hb
        · simp at hb
        · cases hb
      · simp at hb
      · simp only [Except.error.injEq, Option.some.injEq] at hb
        rw [← hb]
        exact hP

end StepLengthFrames

/-! ## The full-step shortcut and the update of the variables -/

section ShortcutLemmas

variable {α : Type} [LinearOrderedField α]

theorem addVectorScaledVector_data (res x : vector_t α) (a : α) (y : vector_t α) (len k : Nat) :
    (addVectorScaledVector res x a y len).data k =
      if k < len then x.data k + a * y.data k else res.data k := by
  unfold addVectorScaledVector
  exact forUp_set_pointwise (fun i _ => x.data i + a * y.data i) len res k

theorem addScaledVector_data (res : vector_t α) (a : α) (u : vector_t α) (len k : Nat) :
    (addScaledVector res a u len).data k =
      if k < len then res.data k + a * u.data k else res.data k := by
  unfold addScaledVector
  exact forUp_set_pointwise (fun i r => r + a * u.data i) len res k

omit [LinearOrderedField α] in
theorem setInterval_intervals (q : qpData_t α) (kk : Nat) (v : interval_t α) (k : Nat) :
    (q.setInterval kk v).intervals k = if k = kk then v else q.intervals k := by
  simp [qpData_t.setInterval, Function.update_apply]

omit [LinearOrderedField α] in
/-- The loop of the stage steps goes through over clipping stages, changes only the stages
and keeps diagonal Hessian tags. -/
theorem determineStepLength_doSteps_total (ext : collaborators_t α) (N : Nat) (q : qpData_t α)
    (hclip : ∀ k, k ≤ N → (q.intervals k).qpSolverSpecification =
      qp_solver_t.QPDUNES_STAGE_QP_SOLVER_CLIPPING)
    (hH : ∀ k, (q.intervals k).H.sparsityType = sparsityType_t.QPDUNES_DIAGONAL)
    (hk : KeepsHessianTag ext) :
    ∃ q1, determineStepLength_doSteps ext N q = Except.ok q1 ∧ SameButStages q q1 ∧
      ∀ k, (q1.intervals k).H.sparsityType = sparsityType_t.QPDUNES_DIAGONAL := by
  unfold determineStepLength_doSteps
  obtain ⟨q1, h1, h2, h3, _⟩ := forUpM_total
    (fun kk (qpData : qpData_t α) =>
      match (qpData.intervals kk).qpSolverSpecification with
      | qp_solver_t.QPDUNES_STAGE_QP_SOLVER_CLIPPING =>
        (Except.ok (qpData.setInterval kk (ext.directQpSolver_doStep qpData kk qpData.alpha).2) :
          Except (Option (return_t × qpData_t α)) (qpData_t α))
      | qp_solver_t.QPDUNES_STAGE_QP_SOLVER_QPOASES => Except.error none
      | qp_solver_t.QPDUNES_STAGE_QP_SOLVER_UNDEFINED =>
        Except.error (some (return_t.QPDUNES_ERR_UNKNOWN_ERROR, qpData)))
    (fun n (s : qpData_t α) => SameButStages q s ∧
      (∀ k, (s.intervals k).H.sparsityType = sparsityType_t.QPDUNES_DIAGONAL) ∧
      ∀ k, n ≤ k → s.intervals k = q.intervals k) 0 (N + 1)
    (fun i s _ hi hP => by
      obtain ⟨p1, p2, p3⟩ := hP
      have e : (s.intervals i).qpSolverSpecification =
          qp_solver_t.QPDUNES_STAGE_QP_SOLVER_CLIPPING := by
        rw [p3 i (le_refl _)]
        exact hclip i (by omega)
      refine ⟨s.setInterval i (ext.directQpSolver_doStep s i s.alpha).2, ?_,
        SameButStages_trans p1 (SameButStages_setInterval _ _ _), fun k => ?_, fun k hk2 => ?_⟩
      · dsimp only
        rw [e]
      · rw [setInterval_intervals]
        by_cases c : k = i
        · rw [if_pos c, hk s i s.alpha]
          exact p2 i
        · rw [if_neg c]
          exact p2 k
      · rw [setInterval_intervals, if_neg (by omega)]
        exact p3 k (by omega))
    q ⟨SameButStages_refl q, hH, fun _ _ => rfl⟩
  exact ⟨q1, h1, h2, h3⟩

/-- The update of the stage variables and the objective value after it
(dual_qp.c 1036-1057) go through over clipping stages with diagonal Hessians and change
only the stages. -/
theorem determineStepLength_tail (ext : collaborators_t α) (N : Nat) (q : qpData_t α)
    (hclip : ∀ k, k ≤ N → (q.intervals k).qpSolverSpecification =
      qp_solver_t.QPDUNES_STAGE_QP_SOLVER_CLIPPING)
    (hH : ∀ k, (q.intervals k).H.sparsityType = sparsityType_t.QPDUNES_DIAGONAL)
    (hk : KeepsHessianTag ext) :
    ∃ q1 o, determineStepLength_doSteps ext N q = Except.ok q1 ∧
      qpDUNES_computeObjectiveValue N q1 = some o ∧ SameButStages q o.2 := by
  obtain ⟨q1, h1, h2, h3⟩ := determineStepLength_doSteps_total ext N q hclip hH hk
  obtain ⟨o, ho, _⟩ := computeObjectiveValue_total N q1 h3
  exact ⟨q1, o, h1, ho, SameButStages_trans h2 (computeObjectiveValue_frame N q1 o ho)⟩

omit [LinearOrderedField α] in
theorem setNumLineSearchIter_frame (q : qpData_t α) (i : Nat) :
    (q.setNumLineSearchIter i).options = q.options ∧
    (q.setNumLineSearchIter i).intervals = q.intervals ∧
    (q.setNumLineSearchIter i).lambda = q.lambda ∧
    (q.setNumLineSearchIter i).deltaLambda = q.deltaLambda ∧
    (q.setNumLineSearchIter i).alpha = q.alpha ∧
    ((q.setNumLineSearchIter i).log.itLog 0).numLineSearchIter = i := by
  refine ⟨rfl, rfl, rfl, rfl, rfl, ?_⟩
  simp [qpData_t.setNumLineSearchIter, qpData_t.setItLog]

theorem determineStepLength_alphaMin_congr (ext : collaborators_t α) (N : Nat)
    (q q2 : qpData_t α) (h1 : q2.options = q.options) (h2 : q2.intervals = q.intervals) :
    determineStepLength_alphaMin ext N q2 = determineStepLength_alphaMin ext N q := by
  unfold determineStepLength_alphaMin
  rw [h1, h2]

/-- The full-step shortcut of `qpDUNES_determineStepLength` (dual_qp.c 943-970). -/
theorem determineStepLength_shortcut (sqrt_f : α → α) (ext : collaborators_t α)
    (N nX nZ : Nat) (qp : qpData_t α) (obj : α) (reg : Bool)
    (hclip : ∀ k, k ≤ N → (qp.intervals k).qpSolverSpecification =
      qp_solver_t.QPDUNES_STAGE_QP_SOLVER_CLIPPING)
    (hH : ∀ k, (qp.intervals k).H.sparsityType = sparsityType_t.QPDUNES_DIAGONAL)
    (hk : KeepsHessianTag ext)
    (hshort : determineStepLength_alphaMin ext N qp > 1 - qp.options.equalityTolerance)
    (hreg : reg = false) :
    ∃ q1 obj1, qpDUNES_determineStepLength sqrt_f ext N nX nZ qp obj reg =
        some (return_t.QPDUNES_OK, q1, obj1) ∧
      q1.alpha = 1 ∧ (q1.log.itLog 0).numLineSearchIter = 0 ∧
      q1.options = qp.options ∧ q1.deltaLambda = qp.deltaLambda ∧
      ∀ i, q1.lambda.data i =
        if i < nX * N then qp.lambda.data i + 1 * qp.deltaLambda.data i
        else qp.lambda.data i := by
  unfold qpDUNES_determineStepLength
  have ha : determineStepLength_alphaMin ext N (qp.setNumLineSearchIter 0) =
      determineStepLength_alphaMin ext N qp :=
    determineStepLength_alphaMin_congr ext N qp _ rfl rfl
  have hc : determineStepLength_alphaMin ext N (qp.setNumLineSearchIter 0) >
      1 - (qp.setNumLineSearchIter 0).options.equalityTolerance ∧ reg = false :=
    ⟨by rw [ha]; exact hshort, hreg⟩
  obtain ⟨q1, o, h1, h2, h3⟩ := determineStepLength_tail ext N
    ({ ({ qp.setNumLineSearchIter 0 with alpha := 1 } : qpData_t α) with
      lambda := addVectorScaledVector (qp.setNumLineSearchIter 0).lambda
        (qp.setNumLineSearchIter 0).lambda 1 (qp.setNumLineSearchIter 0).deltaLambda
        (nX * N) } : qpData_t α) hclip hH hk
  dsimp only at h1 h3 ⊢
  rw [if_pos hc, h1]
  dsimp only
  rw [h2]
  refine ⟨o.2, o.1, rfl, h3.2.2.2.1, ?_, h3.1, h3.2.2.1, fun i => ?_⟩
  · rw [h3.2.2.2.2]
    exact (setNumLineSearchIter_frame qp 0).2.2.2.2.2
  · rw [h3.2.1]
    exact addVectorScaledVector_data _ _ _ _ _ _

/-- On the shortcut the outcome does not depend on the functions that only the line search
routines call. -/
theorem determineStepLength_shortcut_indep (sqrt_f : α → α) (ext : collaborators_t α)
    (N nX nZ : Nat) (qp : qpData_t α) (obj : α) (reg : Bool)
    (hshort : determineStepLength_alphaMin ext N qp > 1 - qp.options.equalityTolerance)
    (hreg : reg = false)
    (f : qpData_t α → Nat → α → return_t × interval_t α × α)
    (g : qpData_t α → vector_t α → vector_t α → vector_t α → vector_t α → Nat →
      vector_t α × vector_t α) :
    qpDUNES_determineStepLength sqrt_f (withLineSearchCollaborators ext f g) N nX nZ qp obj reg =
      qpDUNES_determineStepLength sqrt_f ext N nX nZ qp obj reg := by
  have ha : determineStepLength_alphaMin ext N (qp.setNumLineSearchIter 0) =
      determineStepLength_alphaMin ext N qp :=
    determineStepLength_alphaMin_congr ext N qp _ rfl rfl
  have hb : determineStepLength_alphaMin (withLineSearchCollaborators ext f g) N
      (qp.setNumLineSearchIter 0) = determineStepLength_alphaMin ext N qp := by
    rw [← ha]
    rfl
  have hc : determineStepLength_alphaMin ext N (qp.setNumLineSearchIter 0) >
      1 - (qp.setNumLineSearchIter 0).options.equalityTolerance ∧ reg = false :=
    ⟨by rw [ha]; exact hshort, hreg⟩
  have hd : determineStepLength_alphaMin (withLineSearchCollaborators ext f g) N
      (qp.setNumLineSearchIter 0) >
      1 - (qp.setNumLineSearchIter 0).options.equalityTolerance ∧ reg = false :=
    ⟨by rw [hb]; exact hshort, hreg⟩
  unfold qpDUNES_determineStepLength
  dsimp only
  rw [if_pos hc, if_pos hd]
  rfl

/-- The minimum step size for an active set change over clipping stages: the minimum of
QPDUNES_INFTY and the values the stage solver reports. -/
theorem determineStepLength_alphaMin_min (ext : collaborators_t α) (N : Nat) (qp : qpData_t α)
    (hclip : ∀ k, k ≤ N → (qp.intervals k).qpSolverSpecification =
      qp_solver_t.QPDUNES_STAGE_QP_SOLVER_CLIPPING) :
    determineStepLength_alphaMin ext N qp ≤ qp.options.QPDUNES_INFTY ∧
    (∀ k, k ≤ N → determineStepLength_alphaMin ext N qp ≤ reportedMinStepsize ext qp k) ∧
    (determineStepLength_alphaMin ext N qp = qp.options.QPDUNES_INFTY ∨
      ∃ k, k ≤ N ∧ determineStepLength_alphaMin ext N qp = reportedMinStepsize ext qp k) := by
  unfold determineStepLength_alphaMin
  dsimp only
  rw [if_pos (hclip 0 (Nat.zero_le _))]
  have key : ∀ n, n ≤ N + 1 →
      (forUp (fun kk (s : α × α) =>
        if (qp.intervals kk).qpSolverSpecification =
            qp_solver_t.QPDUNES_STAGE_QP_SOLVER_CLIPPING then
          (if ext.directQpSolver_getMinStepsize (qp.intervals kk) s.2 < s.1 then
            ext.directQpSolver_getMinStepsize (qp.intervals kk) s.2 else s.1,
            ext.directQpSolver_getMinStepsize (qp.intervals kk) s.2)
        else s) 0 n (qp.options.QPDUNES_INFTY, qp.options.QPDUNES_INFTY)).2 =
        (match n with
          | 0 => qp.options.QPDUNES_INFTY
          | m + 1 => reportedMinStepsize ext qp m) ∧
      (forUp (fun kk (s : α × α) =>
        if (qp.intervals kk).qpSolverSpecification =
            qp_solver_t.QPDUNES_STAGE_QP_SOLVER_CLIPPING then
          (if ext.directQpSolver_getMinStepsize (qp.intervals kk) s.2 < s.1 then
            ext.directQpSolver_getMinStepsize (qp.intervals kk) s.2 else s.1,
            ext.directQpSolver_getMinStepsize (qp.intervals kk) s.2)
        else s) 0 n (qp.options.QPDUNES_INFTY, qp.options.QPDUNES_INFTY)).1 ≤
        qp.options.QPDUNES_INFTY ∧
      (∀ k, k < n →
        (forUp (fun kk (s : α × α) =>
          if (qp.intervals kk).qpSolverSpecification =
              qp_solver_t.QPDUNES_STAGE_QP_SOLVER_CLIPPING then
            (if ext.directQpSolver_getMinStepsize (qp.intervals kk) s.2 < s.1 then
              ext.directQpSolver_getMinStepsize (qp.intervals kk) s.2 else s.1,
              ext.directQpSolver_getMinStepsize (qp.intervals kk) s.2)
          else s) 0 n (qp.options.QPDUNES_INFTY, qp.options.QPDUNES_INFTY)).1 ≤
          reportedMinStepsize ext qp k) ∧
      ((forUp (fun kk (s : α × α) =>
        if (qp.intervals kk).qpSolverSpecification =
            qp_solver_t.QPDUNES_STAGE_QP_SOLVER_CLIPPING then
          (if ext.directQpSolver_getMinStepsize (qp.intervals kk) s.2 < s.1 then
            ext.directQpSolver_getMinStepsize (qp.intervals kk) s.2 else s.1,
            ext.directQpSolver_getMinStepsize (qp.intervals kk) s.2)
        else s) 0 n (qp.options.QPDUNES_INFTY, qp.options.QPDUNES_INFTY)).1 =
          qp.options.QPDUNES_INFTY ∨
        ∃ k, k < n ∧
          (forUp (fun kk (s : α × α) =>
            if (qp.intervals kk).qpSolverSpecification =
                qp_solver_t.QPDUNES_STAGE_QP_SOLVER_CLIPPING then
              (if ext.directQpSolver_getMinStepsize (qp.intervals kk) s.2 < s.1 then
                ext.directQpSolver_getMinStepsize (qp.intervals kk) s.2 else s.1,
                ext.directQpSolver_getMinStepsize (qp.intervals kk) s.2)
            else s) 0 n (qp.options.QPDUNES_INFTY, qp.options.QPDUNES_INFTY)).1 =
            reportedMinStepsize ext qp k) := by
    intro n
    induction n with
    | zero =>
      intro _
      exact ⟨rfl, le_refl _, fun k hk => absurd hk (Nat.not_lt_zero _), Or.inl rfl⟩
    | succ n ih =>
      intro hn
      obtain ⟨i1, i2, i3, i4⟩ := ih (by omega)
      simp only [forUp, Nat.zero_add]
      rw [if_pos (hclip n (by omega))]
      generalize forUp (fun kk (s : α × α) =>
        if (qp.intervals kk).qpSolverSpecification =
            qp_solver_t.QPDUNES_STAGE_QP_SOLVER_CLIPPING then
          (if ext.directQpSolver_getMinStepsize (qp.intervals kk) s.2 < s.1 then
            ext.directQpSolver_getMinStepsize (qp.intervals kk) s.2 else s.1,
            ext.directQpSolver_getMinStepsize (qp.intervals kk) s.2)
        else s) 0 n (qp.options.QPDUNES_INFTY, qp.options.QPDUNES_INFTY) = s at i1 i2 i3 i4
      have hrep : ext.directQpSolver_getMinStepsize (qp.intervals n) s.2 =
          reportedMinStepsize ext qp n := by
        cases n with
        | zero =>
          dsimp only at i1
          rw [i1]
          rfl
        | succ m =>
          dsimp only at i1
          rw [i1]
          rfl
      rw [hrep]
      dsimp only
      by_cases c : reportedMinStepsize ext qp n < s.1
      · rw [if_pos c]
        refine ⟨rfl, le_trans (le_of_lt c) i2, fun k hk2 => ?_, Or.inr ⟨n, by omega, rfl⟩⟩
        by_cases e : k = n
        · rw [e]
        · exact le_trans (le_of_lt c) (i3 k (by omega))
      · rw [if_neg c]
        refine ⟨rfl, i2, fun k hk2 => ?_, ?_⟩
        · by_cases e : k = n
          · rw [e]
            exact not_lt.mp c
          · exact i3 k (by omega)
        · rcases i4 with h | ⟨k, hk2, h⟩
          · exact Or.inl h
          · exact Or.inr ⟨k, by omega, h⟩
  obtain ⟨_, k2, k3, k4⟩ := key (N + 1) (le_refl _)
  refine ⟨k2, fun k hk2 => k3 k (by omega), ?_⟩
  rcases k4 with h | ⟨k, hk2, h⟩
  · exact Or.inl h
  · exact Or.inr ⟨k, by omega, h⟩

end ShortcutLemmas

/-! ## The backtracking line search -/

section BacktrackingLemmas

variable {α : Type} [LinearOrderedField α]

/-- The backtracking search is the loop over its passes. -/
theorem backTrackingLineSearch_eq (sqrt_f : α → α) (ext : collaborators_t α) (N : Nat)
    (qp : qpData_t α) (dL : vector_t α) (nV : Nat) (aMin aMax obj : α) :
    qpDUNES_backTrackingLineSearch sqrt_f ext N qp dL nV aMin aMax obj =
      match forUpM (backTracking_pass sqrt_f ext N qp dL nV aMin obj)
          (qp.log.itLog 0).numLineSearchIter
          (qp.options.maxNumLineSearchIterations - (qp.log.itLog 0).numLineSearchIter)
          { qp with alpha := aMax } with
      | Except.ok q =>
        some (return_t.QPDUNES_ERR_NUMBER_OF_MAX_LINESEARCH_ITERATIONS_REACHED,
          q.setNumLineSearchIter ((qp.log.itLog 0).numLineSearchIter +
            (q.options.maxNumLineSearchIterations - (qp.log.itLog 0).numLineSearchIter)))
      | Except.error e => e :=
  rfl

omit [LinearOrderedField α] in
theorem forUpM_exit {σ ε : Type} (body : Nat → σ → Except ε σ) (lo n j : Nat) (s0 s : σ)
    (e : ε) (hj : j < n) (hpre : forUpM body lo j s0 = Except.ok s)
    (hb : body (lo + j) s = Except.error e) : forUpM body lo n s0 = Except.error e := by
  induction n with
  | zero => omega
  | succ n ih =>
    simp only [forUpM]
    by_cases c : j = n
    · subst c
      rw [hpre]
      exact hb
    · rw [ih (by omega)]

/-- The state at the head of a pass: the options, the multipliers and the step of the
start state, and the step length `alphaMax * reductionFactor^j`. -/
theorem backTracking_head_frame (ext : collaborators_t α) (N : Nat) (qp : qpData_t α)
    (aMax : α) (j : Nat) (s : qpData_t α)
    (h : backTracking_head ext N qp aMax j = some s) :
    s.options = qp.options ∧ s.lambda = qp.lambda ∧ s.deltaLambda = qp.deltaLambda ∧
      s.alpha = aMax * qp.options.lineSearchReductionFactor ^ j := by
  induction j generalizing s with
  | zero =>
    simp only [backTracking_head, Option.some.injEq] at h
    rw [← h]
    exact ⟨rfl, rfl, rfl, by simp⟩
  | succ j ih =>
    simp only [backTracking_head] at h
    cases hh : backTracking_head ext N qp aMax j with
    | none => rw [hh] at h; simp at h
    | some s0 =>
      rw [hh] at h
      dsimp only at h
      cases ht : qpDUNES_computeParametricObjectiveValue ext N
          (s0.setNumLineSearchIter ((qp.log.itLog 0).numLineSearchIter + j)) s0.alpha with
      | none => rw [ht] at h; simp at h
      | some r =>
        rw [ht] at h
        simp only [Option.some.injEq] at h
        obtain ⟨a1, a2, a3, a4⟩ := ih s0 hh
        obtain ⟨b1, b2, b3, b4, _⟩ := computeParametricObjectiveValue_frame ext N _ _ r ht
        rw [← h]
        refine ⟨b1.trans a1, b2.trans a2, b3.trans a3, ?_⟩
        dsimp only
        rw [b4, a1]
        have e : (s0.setNumLineSearchIter ((qp.log.itLog 0).numLineSearchIter + j)).alpha =
            s0.alpha := rfl
        rw [e, a4, pow_succ]
        ring

/-- While the passes continue, the loop is at the head state. -/
theorem backTracking_prefix (sqrt_f : α → α) (ext : collaborators_t α) (N : Nat)
    (qp : qpData_t α) (dL : vector_t α) (nV : Nat) (aMin aMax obj : α) (j : Nat)
    (hc : ∀ i, i < j → backTracking_continues sqrt_f ext N qp dL nV aMin aMax obj i) :
    ∃ s, backTracking_head ext N qp aMax j = some s ∧
      forUpM (backTracking_pass sqrt_f ext N qp dL nV aMin obj)
        (qp.log.itLog 0).numLineSearchIter j { qp with alpha := aMax } = Except.ok s := by
  induction j with
  | zero => exact ⟨_, rfl, rfl⟩
  | succ j ih =>
    obtain ⟨s, h1, h2⟩ := ih (fun i hi => hc i (by omega))
    obtain ⟨r, r1, r2, r3⟩ := hc j (by omega)
    unfold backTracking_trial at r1
    rw [h1] at r1
    dsimp only at r1
    obtain ⟨a1, _, _, a4⟩ := backTracking_head_frame ext N qp aMax j s h1
    obtain ⟨b1, _, _, b4, _⟩ := computeParametricObjectiveValue_frame ext N _ _ r r1
    have e : (s.setNumLineSearchIter ((qp.log.itLog 0).numLineSearchIter + j)).alpha =
        s.alpha := rfl
    have e2 : (s.setNumLineSearchIter ((qp.log.itLog 0).numLineSearchIter + j)).options =
        s.options := rfl
    refine ⟨{ r.2 with alpha := r.2.alpha * s.options.lineSearchReductionFactor }, ?_, ?_⟩
    · simp only [backTracking_head]
      rw [h1]
      dsimp only
      rw [r1]
    · simp only [forUpM]
      rw [h2]
      dsimp only
      unfold backTracking_pass
      rw [r1]
      dsimp only
      rw [if_neg r2, if_neg]
      rw [b4, e, a4, b1, e2, a1]
      have e3 : aMax * qp.options.lineSearchReductionFactor ^ j *
          qp.options.lineSearchReductionFactor =
          aMax * qp.options.lineSearchReductionFactor ^ (j + 1) := by
        rw [pow_succ]
        ring
      rw [e3]
      exact r3

/-- The outcome of a pass that is reached: acceptance of the trial, or a step length
reduced below the minimum. -/
theorem backTracking_pass_exit (sqrt_f : α → α) (ext : collaborators_t α) (N : Nat)
    (qp : qpData_t α) (dL : vector_t α) (nV : Nat) (aMin aMax obj : α) (j : Nat)
    (s : qpData_t α) (r : α × qpData_t α)
    (h1 : backTracking_head ext N qp aMax j = some s)
    (r1 : backTracking_trial ext N qp aMax j = some r) :
    (r.1 > obj + backTracking_minimumProgress qp obj →
      backTracking_pass sqrt_f ext N qp dL nV aMin obj
        ((qp.log.itLog 0).numLineSearchIter + j) s =
        Except.error (some (return_t.QPDUNES_OK, r.2))) ∧
    (¬ r.1 > obj + backTracking_minimumProgress qp obj →
      vectorNorm sqrt_f dL nV *
        (aMax * qp.options.lineSearchReductionFactor ^ (j + 1) - aMin) <
        qp.options.equalityTolerance →
      ∃ q, backTracking_pass sqrt_f ext N qp dL nV aMin obj
          ((qp.log.itLog 0).numLineSearchIter + j) s =
          Except.error (some (return_t.QPDUNES_ERR_DECEEDED_MIN_LINESEARCH_STEPSIZE, q)) ∧
        q.alpha = aMin ∧ q.lambda = qp.lambda) ∧
    r.2.alpha = aMax * qp.options.lineSearchReductionFactor ^ j ∧
    (r.2.log.itLog 0).numLineSearchIter = (qp.log.itLog 0).numLineSearchIter + j ∧
    r.2.lambda = qp.lambda ∧ r.2.deltaLambda = qp.deltaLambda ∧ r.2.options = qp.options := by
  unfold backTracking_trial at r1
  rw [h1] at r1
  dsimp only at r1
  obtain ⟨a1, a2, a3, a4⟩ := backTracking_head_frame ext N qp aMax j s h1
  obtain ⟨b1, b2, b3, b4, b5⟩ := computeParametricObjectiveValue_frame ext N _ _ r r1
  have e : (s.setNumLineSearchIter ((qp.log.itLog 0).numLineSearchIter + j)).alpha =
      s.alpha := rfl
  have e2 : (s.setNumLineSearchIter ((qp.log.itLog 0).numLineSearchIter + j)).options =
      s.options := rfl
  have e4 : (s.setNumLineSearchIter ((qp.log.itLog 0).numLineSearchIter + j)).lambda =
      s.lambda := rfl
  have e5 : (s.setNumLineSearchIter ((qp.log.itLog 0).numLineSearchIter + j)).deltaLambda =
      s.deltaLambda := rfl
  refine ⟨fun hacc => ?_, fun hrej hsmall => ?_, by rw [b4, e, a4], ?_, by rw [b2, e4, a2],
    by rw [b3, e5, a3], by rw [b1, e2, a1]⟩
  · unfold backTracking_pass
    rw [r1]
    dsimp only
    rw [if_pos hacc]
  · refine ⟨{ ({ r.2 with alpha := r.2.alpha * s.options.lineSearchReductionFactor } :
      qpData_t α) with alpha := aMin }, ?_, rfl, ?_⟩
    · unfold backTracking_pass
      rw [r1]
      dsimp only
      rw [if_neg hrej, if_pos]
      rw [b4, e, a4, b1, e2, a1]
      have e3 : aMax * qp.options.lineSearchReductionFactor ^ j *
          qp.options.lineSearchReductionFactor =
          aMax * qp.options.lineSearchReductionFactor ^ (j + 1) := by
        rw [pow_succ]
        ring
      rw [e3]
      exact hsmall
    · dsimp only
      rw [b2, e4, a2]
  · rw [b5]
    exact (setNumLineSearchIter_frame s _).2.2.2.2.2

/-- The three outcomes of `qpDUNES_backTrackingLineSearch` in terms of its trials. -/
theorem backTrackingLineSearch_outcome (sqrt_f : α → α) (ext : collaborators_t α) (N : Nat)
    (qp : qpData_t α) (dL : vector_t α) (nV : Nat) (aMin aMax obj : α) :
    (∀ j r, j < qp.options.maxNumLineSearchIterations - (qp.log.itLog 0).numLineSearchIter →
      (∀ i, i < j → backTracking_continues sqrt_f ext N qp dL nV aMin aMax obj i) →
      backTracking_trial ext N qp aMax j = some r →
      r.1 > obj + backTracking_minimumProgress qp obj →
      qpDUNES_backTrackingLineSearch sqrt_f ext N qp dL nV aMin aMax obj =
        some (return_t.QPDUNES_OK, r.2) ∧
      r.2.alpha = aMax * qp.options.lineSearchReductionFactor ^ j ∧
      (r.2.log.itLog 0).numLineSearchIter = (qp.log.itLog 0).numLineSearchIter + j ∧
      r.2.lambda = qp.lambda ∧ r.2.deltaLambda = qp.deltaLambda ∧ r.2.options = qp.options) ∧
    (∀ j r, j < qp.options.maxNumLineSearchIterations - (qp.log.itLog 0).numLineSearchIter →
      (∀ i, i < j → backTracking_continues sqrt_f ext N qp dL nV aMin aMax obj i) →
      backTracking_trial ext N qp aMax j = some r →
      ¬ r.1 > obj + backTracking_minimumProgress qp obj →
      vectorNorm sqrt_f dL nV *
        (aMax * qp.options.lineSearchReductionFactor ^ (j + 1) - aMin) <
        qp.options.equalityTolerance →
      ∃ q, qpDUNES_backTrackingLineSearch sqrt_f ext N qp dL nV aMin aMax obj =
          some (return_t.QPDUNES_ERR_DECEEDED_MIN_LINESEARCH_STEPSIZE, q) ∧
        q.alpha = aMin ∧ q.lambda = qp.lambda) ∧
    ((∀ j, j < qp.options.maxNumLineSearchIterations - (qp.log.itLog 0).numLineSearchIter →
        backTracking_continues sqrt_f ext N qp dL nV aMin aMax obj j) →
      ∃ q, qpDUNES_backTrackingLineSearch sqrt_f ext N qp dL nV aMin aMax obj =
          some (return_t.QPDUNES_ERR_NUMBER_OF_MAX_LINESEARCH_ITERATIONS_REACHED, q) ∧
        (q.log.itLog 0).numLineSearchIter = (qp.log.itLog 0).numLineSearchIter +
          (qp.options.maxNumLineSearchIterations - (qp.log.itLog 0).numLineSearchIter) ∧
        q.alpha = aMax * qp.options.lineSearchReductionFactor ^
          (qp.options.maxNumLineSearchIterations - (qp.log.itLog 0).numLineSearchIter)) := by
  refine ⟨fun j r hj hc r1 hacc => ?_, fun j r hj hc r1 hrej hsmall => ?_, fun hc => ?_⟩
  · obtain ⟨s, h1, h2⟩ := backTracking_prefix sqrt_f ext N qp dL nV aMin aMax obj j hc
    obtain ⟨p1, _, p3, p4, p5, p6, p7⟩ :=
      backTracking_pass_exit sqrt_f ext N qp dL nV aMin aMax obj j s r h1 r1
    refine ⟨?_, p3, p4, p5, p6, p7⟩
    rw [backTrackingLineSearch_eq, forUpM_exit _ _ _ j _ s _ hj h2 (p1 hacc)]
  · obtain ⟨s, h1, h2⟩ := backTracking_prefix sqrt_f ext N qp dL nV aMin aMax obj j hc
    obtain ⟨q, p1, p2, p3⟩ :=
      (backTracking_pass_exit sqrt_f ext N qp dL nV aMin aMax obj j s r h1 r1).2.1 hrej hsmall
    refine ⟨q, ?_, p2, p3⟩
    rw [backTrackingLineSearch_eq, forUpM_exit _ _ _ j _ s _ hj h2 p1]
  · obtain ⟨s, h1, h2⟩ := backTracking_prefix sqrt_f ext N qp dL nV aMin aMax obj _ hc
    obtain ⟨a1, _, _, a4⟩ := backTracking_head_frame ext N qp aMax _ s h1
    refine ⟨s.setNumLineSearchIter ((qp.log.itLog 0).numLineSearchIter +
      (qp.options.maxNumLineSearchIterations - (qp.log.itLog 0).numLineSearchIter)), ?_,
      (setNumLineSearchIter_frame s _).2.2.2.2.2, ?_⟩
    · rw [backTrackingLineSearch_eq, h2]
      dsimp only
      rw [a1]
    · exact a4

end BacktrackingLemmas

/-! ## The line search switch of the step length determination -/

section LineSearchSwitch

variable {α : Type} [LinearOrderedField α]

/-- The backtracking search leaves the options, the multipliers and the step direction as
they were; when it reports DECEEDED_MIN_LINESEARCH_STEPSIZE the step length is
`alphaMin`. -/
theorem backTrackingLineSearch_frame (sqrt_f : α → α) (ext : collaborators_t α) (N : Nat)
    (qp : qpData_t α) (dL : vector_t α) (nV : Nat) (aMin aMax obj : α)
    (st : return_t) (q : qpData_t α)
    (h : qpDUNES_backTrackingLineSearch sqrt_f ext N qp dL nV aMin aMax obj = some (st, q)) :
    q.options = qp.options ∧ q.lambda = qp.lambda ∧ q.deltaLambda = qp.deltaLambda ∧
      (st = return_t.QPDUNES_ERR_DECEEDED_MIN_LINESEARCH_STEPSIZE → q.alpha = aMin) := by
  rw [backTrackingLineSearch_eq] at h
  have hok : ∀ (i : Nat) (s s1 : qpData_t α),
      (s.options = qp.options ∧ s.lambda = qp.lambda ∧ s.deltaLambda = qp.deltaLambda) →
      backTracking_pass sqrt_f ext N qp dL nV aMin obj i s = Except.ok s1 →
      (s1.options = qp.options ∧ s1.lambda = qp.lambda ∧ s1.deltaLambda = qp.deltaLambda) := by
    intro i s s1 hP hb
    unfold backTracking_pass at hb
    cases ht : qpDUNES_computeParametricObjectiveValue ext N (s.setNumLineSearchIter i)
        s.alpha with
    | none => rw [ht] at hb; simp at hb
    | some r =>
      rw [ht] at hb
      dsimp only at hb
      obtain ⟨b1, b2, b3, _, _⟩ := computeParametricObjectiveValue_frame ext N _ _ r ht
      by_cases c1 : r.1 > obj + backTracking_minimumProgress qp obj
      · rw [if_pos c1] at hb
        simp at hb
      · rw [if_neg c1] at hb
        by_cases c2 : vectorNorm sqrt_f dL nV *
            (r.2.alpha * s.options.lineSearchReductionFactor - aMin) <
            r.2.options.equalityTolerance
        · rw [if_pos c2] at hb
          simp at hb
        · rw [if_neg c2] at hb
          simp only [Except.ok.injEq] at hb
          rw [← hb]
          exact ⟨b1.trans hP.1, b2.trans hP.2.1, b3.trans hP.2.2⟩
  have herr : ∀ (i : Nat) (s : qpData_t α) (e : Option (return_t × qpData_t α)),
      (s.options = qp.options ∧ s.lambda = qp.lambda ∧ s.deltaLambda = qp.deltaLambda) →
      backTracking_pass sqrt_f ext N qp dL nV aMin obj i s = Except.error e →
      ∀ st q, e = some (st, q) →
        q.options = qp.options ∧ q.lambda = qp.lambda ∧ q.deltaLambda = qp.deltaLambda ∧
        (st = return_t.QPDUNES_ERR_DECEEDED_MIN_LINESEARCH_STEPSIZE → q.alpha = aMin) := by
    intro i s e hP hb st q he
    unfold backTracking_pass at hb
    cases ht : qpDUNES_computeParametricObjectiveValue ext N (s.setNumLineSearchIter i)
        s.alpha with
    | none =>
      rw [ht] at hb
      simp only [Except.error.injEq] at hb
      rw [← hb] at he
      simp at he
    | some r =>
      rw [ht] at hb
      dsimp only at hb
      obtain ⟨b1, b2, b3, _, _⟩ := computeParametricObjectiveValue_frame ext N _ _ r ht
      by_cases c1 : r.1 > obj + backTracking_minimumProgress qp obj
      · rw [if_pos c1] at hb
        simp only [Except.error.injEq] at hb
        rw [← hb] at he
        simp only [Option.some.injEq, Prod.mk.injEq] at he
        rw [← he.1, ← he.2]
        exact ⟨b1.trans hP.1, b2.trans hP.2.1, b3.trans hP.2.2, fun c => by cases c⟩
      · rw [if_neg c1] at hb
        by_cases c2 : vectorNorm sqrt_f dL nV *
            (r.2.alpha * s.options.lineSearchReductionFactor - aMin) <
            r.2.options.equalityTolerance
        · rw [if_pos c2] at hb
          simp only [Except.error.injEq] at hb
          rw [← hb] at he
          simp only [Option.some.injEq, Prod.mk.injEq] at he
          rw [← he.2]
          exact ⟨b1.trans hP.1, b2.trans hP.2.1, b3.trans hP.2.2, fun _ => rfl⟩
        · rw [if_neg c2] at hb
          simp at hb
  have inv := forUpM_invariant (backTracking_pass sqrt_f ext N qp dL nV aMin obj)
    (fun s => s.options = qp.options ∧ s.lambda = qp.lambda ∧ s.deltaLambda = qp.deltaLambda)
    (fun e => ∀ st q, e = some (st, q) →
      q.options = qp.options ∧ q.lambda = qp.lambda ∧ q.deltaLambda = qp.deltaLambda ∧
      (st = return_t.QPDUNES_ERR_DECEEDED_MIN_LINESEARCH_STEPSIZE → q.alpha = aMin))
    (qp.log.itLog 0).numLineSearchIter
    (qp.options.maxNumLineSearchIterations - (qp.log.itLog 0).numLineSearchIter)
    hok herr ({ qp with alpha := aMax } : qpData_t α) ⟨rfl, rfl, rfl⟩
  cases hl : forUpM (backTracking_pass sqrt_f ext N qp dL nV aMin obj)
      (qp.log.itLog 0).numLineSearchIter
      (qp.options.maxNumLineSearchIterations - (qp.log.itLog 0).numLineSearchIter)
      ({ qp with alpha := aMax } : qpData_t α) with
  | ok s =>
    rw [hl] at h
    simp only [Option.some.injEq, Prod.mk.injEq] at h
    obtain ⟨p1, p2, p3⟩ := inv.1 s hl
    rw [← h.1, ← h.2]
    exact ⟨p1, p2, p3, fun c => by cases c⟩
  | error e =>
    rw [hl] at h
    exact inv.2 e hl st q h

/-- The switch for the backtracking search with active set change (dual_qp.c 985-996). -/
theorem determineStepLength_lineSearch_AS (sqrt_f : α → α) (ext : collaborators_t α)
    (N nX nZ : Nat) (q : qpData_t α) (nV : Nat) (aMin aMax obj : α) (st : return_t)
    (qb : qpData_t α)
    (hls : q.options.lsType = lsType_t.QPDUNES_LS_BACKTRACKING_LS_WITH_AS_CHANGE)
    (hbt : qpDUNES_backTrackingLineSearch sqrt_f ext N q q.deltaLambda nV 0 aMax obj =
      some (st, qb)) :
    determineStepLength_lineSearch sqrt_f ext N nX nZ q nV aMin aMax obj =
      some (if st = return_t.QPDUNES_ERR_DECEEDED_MIN_LINESEARCH_STEPSIZE then
          Except.error (st, qb, obj)
        else if aMin < 1 - q.options.equalityTolerance ∧ qb.alpha < aMin then
          Except.ok (st, ({ qb with alpha := aMin } : qpData_t α), obj)
        else Except.ok (st, qb, obj)) := by
  unfold determineStepLength_lineSearch
  rw [hls]
  dsimp only
  rw [hbt]
  dsimp only
  split_ifs <;> rfl

/-- The switch for the plain backtracking search (dual_qp.c 978-983). -/
theorem determineStepLength_lineSearch_BT (sqrt_f : α → α) (ext : collaborators_t α)
    (N nX nZ : Nat) (q : qpData_t α) (nV : Nat) (aMin aMax obj : α) (st : return_t)
    (qb : qpData_t α)
    (hls : q.options.lsType = lsType_t.QPDUNES_LS_BACKTRACKING_LS)
    (hbt : qpDUNES_backTrackingLineSearch sqrt_f ext N q q.deltaLambda nV 0 aMax obj =
      some (st, qb)) :
    determineStepLength_lineSearch sqrt_f ext N nX nZ q nV aMin aMax obj =
      some (if st = return_t.QPDUNES_ERR_DECEEDED_MIN_LINESEARCH_STEPSIZE then
          Except.error (st, qb, obj)
        else Except.ok (st, qb, obj)) := by
  unfold determineStepLength_lineSearch
  rw [hls]
  dsimp only
  rw [hbt]
  dsimp only
  split_ifs <;> rfl

/-- An early return of the line search switch is the return of
`qpDUNES_determineStepLength`. -/
theorem determineStepLength_searchError (sqrt_f : α → α) (ext : collaborators_t α)
    (N nX nZ : Nat) (qp : qpData_t α) (obj : α) (reg : Bool) (e : return_t × qpData_t α × α)
    (hno : ¬ (determineStepLength_alphaMin ext N qp > 1 - qp.options.equalityTolerance ∧
      reg = false))
    (hsearch : determineStepLength_lineSearch sqrt_f ext N nX nZ (qp.setNumLineSearchIter 0)
      (nX * N) (determineStepLength_alphaMin ext N qp) 1 obj = some (Except.error e)) :
    qpDUNES_determineStepLength sqrt_f ext N nX nZ qp obj reg = some e := by
  have ha : determineStepLength_alphaMin ext N (qp.setNumLineSearchIter 0) =
      determineStepLength_alphaMin ext N qp :=
    determineStepLength_alphaMin_congr ext N qp _ rfl rfl
  have hc : ¬ (determineStepLength_alphaMin ext N (qp.setNumLineSearchIter 0) >
      1 - (qp.setNumLineSearchIter 0).options.equalityTolerance ∧ reg = false) := by
    rw [ha]
    exact hno
  unfold qpDUNES_determineStepLength
  dsimp only
  rw [if_neg hc, ha, hsearch]

/-- After a line search that does not return early the step of the found length is
taken (dual_qp.c 1034-1061). -/
theorem determineStepLength_afterSearch (sqrt_f : α → α) (ext : collaborators_t α)
    (N nX nZ : Nat) (qp : qpData_t α) (obj : α) (reg : Bool) (st : return_t)
    (qs : qpData_t α) (objs : α)
    (hno : ¬ (determineStepLength_alphaMin ext N qp > 1 - qp.options.equalityTolerance ∧
      reg = false))
    (hsearch : determineStepLength_lineSearch sqrt_f ext N nX nZ (qp.setNumLineSearchIter 0)
      (nX * N) (determineStepLength_alphaMin ext N qp) 1 obj = some (Except.ok (st, qs, objs)))
    (hclip : ∀ k, k ≤ N → (qs.intervals k).qpSolverSpecification =
      qp_solver_t.QPDUNES_STAGE_QP_SOLVER_CLIPPING)
    (hH : ∀ k, (qs.intervals k).H.sparsityType = sparsityType_t.QPDUNES_DIAGONAL)
    (hk : KeepsHessianTag ext) :
    ∃ q1 obj1, qpDUNES_determineStepLength sqrt_f ext N nX nZ qp obj reg =
        some (st, q1, obj1) ∧
      q1.alpha = qs.alpha ∧ q1.options = qs.options ∧ q1.deltaLambda = qs.deltaLambda ∧
      ∀ i, q1.lambda.data i =
        if i < nX * N then qs.lambda.data i + qs.alpha * qs.deltaLambda.data i
        else qs.lambda.data i := by
  have ha : determineStepLength_alphaMin ext N (qp.setNumLineSearchIter 0) =
      determineStepLength_alphaMin ext N qp :=
    determineStepLength_alphaMin_congr ext N qp _ rfl rfl
  have hc : ¬ (determineStepLength_alphaMin ext N (qp.setNumLineSearchIter 0) >
      1 - (qp.setNumLineSearchIter 0).options.equalityTolerance ∧ reg = false) := by
    rw [ha]
    exact hno
  obtain ⟨q1, o, h1, h2, h3⟩ := determineStepLength_tail ext N
    ({ qs with lambda := addScaledVector qs.lambda qs.alpha qs.deltaLambda (nX * N) } :
      qpData_t α) hclip hH hk
  unfold qpDUNES_determineStepLength
  dsimp only at h1 h3 ⊢
  rw [if_neg hc, ha, hsearch]
  dsimp only
  rw [h1]
  dsimp only
  rw [h2]
  refine ⟨o.2, o.1, rfl, h3.2.2.2.1, h3.1, h3.2.2.1, fun i => ?_⟩
  rw [h3.2.1]
  exact addScaledVector_data _ _ _ _ _

/-- The step length determination with the backtracking search with active set change when
the search does not report DECEEDED_MIN_LINESEARCH_STEPSIZE (dual_qp.c 985-996 and
1034-1061). -/
theorem determineStepLength_backtrackingAS (sqrt_f : α → α) (ext : collaborators_t α)
    (N nX nZ : Nat) (qp : qpData_t α) (obj : α) (reg : Bool) (st : return_t)
    (qb : qpData_t α)
    (hls : qp.options.lsType = lsType_t.QPDUNES_LS_BACKTRACKING_LS_WITH_AS_CHANGE)
    (hno : ¬ (determineStepLength_alphaMin ext N qp > 1 - qp.options.equalityTolerance ∧
      reg = false))
    (hbt : qpDUNES_backTrackingLineSearch sqrt_f ext N (qp.setNumLineSearchIter 0)
      qp.deltaLambda (nX * N) 0 1 obj = some (st, qb))
    (hst : st ≠ return_t.QPDUNES_ERR_DECEEDED_MIN_LINESEARCH_STEPSIZE)
    (hclip : ∀ k, k ≤ N → (qb.intervals k).qpSolverSpecification =
      qp_solver_t.QPDUNES_STAGE_QP_SOLVER_CLIPPING)
    (hH : ∀ k, (qb.intervals k).H.sparsityType = sparsityType_t.QPDUNES_DIAGONAL)
    (hk : KeepsHessianTag ext) :
    ∃ q1 obj1, qpDUNES_determineStepLength sqrt_f ext N nX nZ qp obj reg =
        some (st, q1, obj1) ∧
      q1.alpha =
        (if determineStepLength_alphaMin ext N qp < 1 - qp.options.equalityTolerance ∧
            qb.alpha < determineStepLength_alphaMin ext N qp then
          determineStepLength_alphaMin ext N qp
        else qb.alpha) ∧
      ∀ i, q1.lambda.data i =
        if i < nX * N then qp.lambda.data i + q1.alpha * qp.deltaLambda.data i
        else qp.lambda.data i := by
  obtain ⟨f1, f2, f3, _⟩ := backTrackingLineSearch_frame sqrt_f ext N _ _ _ _ _ _ st qb hbt
  have hs := determineStepLength_lineSearch_AS sqrt_f ext N nX nZ
    (qp.setNumLineSearchIter 0) (nX * N) (determineStepLength_alphaMin ext N qp) 1 obj st qb
    hls hbt
  rw [if_neg hst] at hs
  have f2q : qb.lambda = qp.lambda := f2
  have f3q : qb.deltaLambda = qp.deltaLambda := f3
  by_cases c : determineStepLength_alphaMin ext N qp < 1 - qp.options.equalityTolerance ∧
      qb.alpha < determineStepLength_alphaMin ext N qp
  · have c2 : determineStepLength_alphaMin ext N qp <
        1 - (qp.setNumLineSearchIter 0).options.equalityTolerance ∧
        qb.alpha < determineStepLength_alphaMin ext N qp := c
    rw [if_pos c2] at hs
    obtain ⟨q1, obj1, h1, h2, _, _, h5⟩ := determineStepLength_afterSearch sqrt_f ext N nX nZ
      qp obj reg st _ obj hno hs hclip hH hk
    refine ⟨q1, obj1, h1, ?_, fun i => ?_⟩
    · rw [if_pos c]
      exact h2
    · rw [h5 i, h2]
      dsimp only
      rw [f2q, f3q]
  · have c2 : ¬ (determineStepLength_alphaMin ext N qp <
        1 - (qp.setNumLineSearchIter 0).options.equalityTolerance ∧
        qb.alpha < determineStepLength_alphaMin ext N qp) := c
    rw [if_neg c2] at hs
    obtain ⟨q1, obj1, h1, h2, _, _, h5⟩ := determineStepLength_afterSearch sqrt_f ext N nX nZ
      qp obj reg st _ obj hno hs hclip hH hk
    refine ⟨q1, obj1, h1, ?_, fun i => ?_⟩
    · rw [if_neg c]
      exact h2
    · rw [h5 i, h2, f2q, f3q]

/-- A backtracking search that reports DECEEDED_MIN_LINESEARCH_STEPSIZE ends the step
length determination at once: the status is returned, the step length is 0 and the
multipliers are as they were (dual_qp.c 979-982 and 988-990). -/
theorem determineStepLength_deceeded (sqrt_f : α → α) (ext : collaborators_t α)
    (N nX nZ : Nat) (qp : qpData_t α) (obj : α) (reg : Bool) (qb : qpData_t α)
    (hls : qp.options.lsType = lsType_t.QPDUNES_LS_BACKTRACKING_LS ∨
      qp.options.lsType = lsType_t.QPDUNES_LS_BACKTRACKING_LS_WITH_AS_CHANGE)
    (hno : ¬ (determineStepLength_alphaMin ext N qp > 1 - qp.options.equalityTolerance ∧
      reg = false))
    (hbt : qpDUNES_backTrackingLineSearch sqrt_f ext N (qp.setNumLineSearchIter 0)
      qp.deltaLambda (nX * N) 0 1 obj =
      some (return_t.QPDUNES_ERR_DECEEDED_MIN_LINESEARCH_STEPSIZE, qb)) :
    qpDUNES_determineStepLength sqrt_f ext N nX nZ qp obj reg =
      some (return_t.QPDUNES_ERR_DECEEDED_MIN_LINESEARCH_STEPSIZE, qb, obj) ∧
    qb.alpha = 0 ∧ qb.lambda = qp.lambda := by
  obtain ⟨_, f2, _, f4⟩ := backTrackingLineSearch_frame sqrt_f ext N _ _ _ _ _ _ _ qb hbt
  refine ⟨?_, f4 rfl, f2⟩
  rcases hls with hls | hls
  · have hs := determineStepLength_lineSearch_BT sqrt_f ext N nX nZ
      (qp.setNumLineSearchIter 0) (nX * N) (determineStepLength_alphaMin ext N qp) 1 obj _ qb
      hls hbt
    rw [if_pos rfl] at hs
    exact determineStepLength_searchError sqrt_f ext N nX nZ qp obj reg _ hno hs
  · have hs := determineStepLength_lineSearch_AS sqrt_f ext N nX nZ
      (qp.setNumLineSearchIter 0) (nX * N) (determineStepLength_alphaMin ext N qp) 1 obj _ qb
      hls hbt
    rw [if_pos rfl] at hs
    exact determineStepLength_searchError sqrt_f ext N nX nZ qp obj reg _ hno hs

/-- A backtracking search whose first trial, at the step length 1, is accepted: the full
step is taken and QPDUNES_OK returned. -/
theorem determineStepLength_firstTrial (sqrt_f : α → α) (ext : collaborators_t α)
    (N nX nZ : Nat) (qp : qpData_t α) (obj : α) (reg : Bool) (r : α × qpData_t α)
    (hls : qp.options.lsType = lsType_t.QPDUNES_LS_BACKTRACKING_LS ∨
      qp.options.lsType = lsType_t.QPDUNES_LS_BACKTRACKING_LS_WITH_AS_CHANGE)
    (hno : ¬ (determineStepLength_alphaMin ext N qp > 1 - qp.options.equalityTolerance ∧
      reg = false))
    (hmin : determineStepLength_alphaMin ext N qp ≤ 1)
    (hmax : 0 < qp.options.maxNumLineSearchIterations)
    (htrial : backTracking_trial ext N (qp.setNumLineSearchIter 0) 1 0 = some r)
    (hacc : r.1 > obj + backTracking_minimumProgress qp obj)
    (hclip : ∀ k, k ≤ N → (r.2.intervals k).qpSolverSpecification =
      qp_solver_t.QPDUNES_STAGE_QP_SOLVER_CLIPPING)
    (hH : ∀ k, (r.2.intervals k).H.sparsityType = sparsityType_t.QPDUNES_DIAGONAL)
    (hk : KeepsHessianTag ext) :
    ∃ q1 obj1, qpDUNES_determineStepLength sqrt_f ext N nX nZ qp obj reg =
        some (return_t.QPDUNES_OK, q1, obj1) ∧
      q1.alpha = 1 ∧
      ∀ i, q1.lambda.data i =
        if i < nX * N then qp.lambda.data i + 1 * qp.deltaLambda.data i
        else qp.lambda.data i := by
  have hj : 0 < (qp.setNumLineSearchIter 0).options.maxNumLineSearchIterations -
      ((qp.setNumLineSearchIter 0).log.itLog 0).numLineSearchIter := by
    rw [(setNumLineSearchIter_frame qp 0).2.2.2.2.2]
    exact hmax
  obtain ⟨hbt, ha, _, hl, hd, _⟩ :=
    (backTrackingLineSearch_outcome sqrt_f ext N (qp.setNumLineSearchIter 0) qp.deltaLambda
      (nX * N) 0 1 obj).1 0 r hj (fun i hi => absurd hi (Nat.not_lt_zero _)) htrial hacc
  have ha1 : r.2.alpha = 1 := by
    rw [ha]
    simp
  have hl2 : r.2.lambda = qp.lambda := hl
  have hd2 : r.2.deltaLambda = qp.deltaLambda := hd
  have hok : ¬ (return_t.QPDUNES_OK = return_t.QPDUNES_ERR_DECEEDED_MIN_LINESEARCH_STEPSIZE) := by
    decide
  have hs : determineStepLength_lineSearch sqrt_f ext N nX nZ (qp.setNumLineSearchIter 0)
      (nX * N) (determineStepLength_alphaMin ext N qp) 1 obj =
      some (Except.ok (return_t.QPDUNES_OK, r.2, obj)) := by
    rcases hls with hls | hls
    · have hs := determineStepLength_lineSearch_BT sqrt_f ext N nX nZ
        (qp.setNumLineSearchIter 0) (nX * N) (determineStepLength_alphaMin ext N qp) 1 obj _
        r.2 hls hbt
      rw [if_neg hok] at hs
      exact hs
    · have hs := determineStepLength_lineSearch_AS sqrt_f ext N nX nZ
        (qp.setNumLineSearchIter 0) (nX * N) (determineStepLength_alphaMin ext N qp) 1 obj _
        r.2 hls hbt
      have c : ¬ (determineStepLength_alphaMin ext N qp <
          1 - (qp.setNumLineSearchIter 0).options.equalityTolerance ∧
          r.2.alpha < determineStepLength_alphaMin ext N qp) := by
        rw [ha1]
        exact fun h => absurd h.2 (not_lt.mpr hmin)
      rw [if_neg hok, if_neg c] at hs
      exact hs
  obtain ⟨q1, obj1, h1, h2, _, _, h5⟩ := determineStepLength_afterSearch sqrt_f ext N nX nZ
    qp obj reg _ r.2 obj hno hs hclip hH hk
  refine ⟨q1, obj1, h1, h2.trans ha1, fun i => ?_⟩
  rw [h5 i, ha1, hl2, hd2]

/-- After an evaluated trial the next pass starts on the stages the trial left. -/
theorem backTracking_head_of_trial (ext : collaborators_t α) (N : Nat) (qp : qpData_t α)
    (aMax : α) (j : Nat) (r : α × qpData_t α)
    (h : backTracking_trial ext N qp aMax j = some r) :
    ∃ s, backTracking_head ext N qp aMax (j + 1) = some s ∧ s.intervals = r.2.intervals := by
  unfold backTracking_trial at h
  cases hh : backTracking_head ext N qp aMax j with
  | none => rw [hh] at h; simp at h
  | some s0 =>
    rw [hh] at h
    dsimp only at h
    refine ⟨{ r.2 with alpha := r.2.alpha * s0.options.lineSearchReductionFactor }, ?_, rfl⟩
    simp only [backTracking_head]
    rw [hh]
    dsimp only
    rw [h]

end LineSearchSwitch

/-! ## The regularization type GRADIENT_STEP in the solve -/

section GradientStepType

variable {α : Type} [LinearOrderedField α]

omit [LinearOrderedField α] in
theorem SameStageButFlags_refl (v : interval_t α) : SameStageButFlags v v := rfl

omit [LinearOrderedField α] in
theorem SameStageButFlags_trans {v v2 v3 : interval_t α} (h1 : SameStageButFlags v v2)
    (h2 : SameStageButFlags v2 v3) : SameStageButFlags v v3 := by
  unfold SameStageButFlags at *
  rw [← h2] at h1
  exact h1

omit [LinearOrderedField α] in
theorem SameButStart_refl (q : qpData_t α) : SameButStart q q :=
  ⟨rfl, fun _ => SameStageButFlags_refl _⟩

omit [LinearOrderedField α] in
theorem SameButStart_trans {q q2 q3 : qpData_t α} (h1 : SameButStart q q2)
    (h2 : SameButStart q2 q3) : SameButStart q q3 := by
  refine ⟨?_, fun k => SameStageButFlags_trans (h1.2 k) (h2.2 k)⟩
  have a := h1.1
  have b := h2.1
  rw [← b] at a
  exact a

omit [LinearOrderedField α] in
/-- Writing the objective value or the change flag of a stage. -/
theorem SameButStart_setInterval (q : qpData_t α) (kk : Nat) (v : interval_t α)
    (h : SameStageButFlags (q.intervals kk) v) : SameButStart q (q.setInterval kk v) := by
  refine ⟨rfl, fun k => ?_⟩
  rw [setInterval_intervals]
  by_cases e : k = kk
  · rw [if_pos e, e]
    exact h
  · rw [if_neg e]
    exact SameStageButFlags_refl _

omit [LinearOrderedField α] in
theorem SameButStart_of_eq (q q2 : qpData_t α)
    (h : ({ q2 with log := q.log } : qpData_t α) = q) : SameButStart q q2 := by
  have hi : q2.intervals = q.intervals := congrArg (fun w => w.intervals) h
  refine ⟨?_, fun k => ?_⟩
  · rw [← hi]
    exact h
  · rw [hi]
    exact SameStageButFlags_refl _

omit [LinearOrderedField α] in
theorem SameButStart_coupling {q q2 : qpData_t α} (h : SameButStart q q2) :
    SameCoupling q q2 :=
  ⟨congrArg (fun w => w.options) h.1, fun k =>
    ⟨congrArg (fun w => w.C) (h.2 k), congrArg (fun w => w.z) (h.2 k),
      congrArg (fun w => w.c) (h.2 k), congrArg (fun w => w.H) (h.2 k),
      congrArg (fun w => w.nV) (h.2 k), congrArg (fun w => w.nD) (h.2 k)⟩⟩

theorem SameButStart_guards {q q2 : qpData_t α} (h : SameButStart q q2)
    (N nX nZ : Nat) (hg : AssemblyGuards N nX nZ q) : AssemblyGuards N nX nZ q2 := by
  intro k hk
  have ho : q2.options = q.options := congrArg (fun w => w.options) h.1
  have e1 : (q2.intervals k).cholH = (q.intervals k).cholH := congrArg (fun w => w.cholH) (h.2 k)
  have e2 : (q2.intervals k).nV = (q.intervals k).nV := congrArg (fun w => w.nV) (h.2 k)
  have e3 : (q2.intervals k).C = (q.intervals k).C := congrArg (fun w => w.C) (h.2 k)
  rw [ho, e1, e2, e3]
  exact hg k hk

theorem SameButStart_diagEntry {q q2 : qpData_t α} (h : SameButStart q q2)
    (nZ k i j : Nat) : assembledDiagEntry nZ q2 k i j = assembledDiagEntry nZ q k i j := by
  have ho : q2.options = q.options := congrArg (fun w => w.options) h.1
  have e1 : ∀ k, (q2.intervals k).cholH = (q.intervals k).cholH :=
    fun k => congrArg (fun w => w.cholH) (h.2 k)
  have e2 : ∀ k, (q2.intervals k).y = (q.intervals k).y :=
    fun k => congrArg (fun w => w.y) (h.2 k)
  have e3 : ∀ k, (q2.intervals k).C = (q.intervals k).C :=
    fun k => congrArg (fun w => w.C) (h.2 k)
  unfold assembledDiagEntry
  rw [ho, e1, e2, e3, e1, e2]

/-- The objective value evaluation writes only the objective values of the stages. -/
theorem computeObjectiveValue_sameButStart (N : Nat) (qp : qpData_t α) (o : α × qpData_t α)
    (h : qpDUNES_computeObjectiveValue N qp = some o) : SameButStart qp o.2 := by
  unfold qpDUNES_computeObjectiveValue at h
  refine forUpO_invariant _ (fun (s : α × qpData_t α) => SameButStart qp s.2) ?_ 0 (N + 1)
    (0, qp) o (SameButStart_refl qp) h
  intro i s s1 hP hb
  cases hz : multiplyzHz (s.2.intervals i).H (s.2.intervals i).z (s.2.intervals i).nV with
  | none => rw [hz] at hb; simp at hb
  | some zHz =>
    rw [hz] at hb
    simp only [Option.some.injEq] at hb
    rw [← hb]
    exact SameButStart_trans hP (SameButStart_setInterval _ _ _ rfl)

omit [LinearOrderedField α] in
/-- The comparison of the active sets writes only the change flags of the stages. -/
theorem compareActSets_sameButStart (N : Nat) (qp : qpData_t α)
    (t1 t2 : Nat → Nat → Int) : SameButStart qp (qpDUNES_compareActSets N qp t1 t2).2.1 := by
  unfold qpDUNES_compareActSets
  refine forUp_invariant _ (fun (s : Nat × qpData_t α × Int) => SameButStart qp s.2.1)
    ?_ _ _ _ (SameButStart_refl qp)
  intro kk s hs
  refine forUp_invariant _ (fun (s : Nat × qpData_t α × Int) => SameButStart qp s.2.1)
    ?_ _ _ _ ?_
  · intro ii s2 hs2
    dsimp only
    split_ifs
    · exact SameButStart_trans hs2 (SameButStart_setInterval _ _ _ rfl)
    · exact hs2
  · exact SameButStart_trans hs (SameButStart_setInterval _ _ _ rfl)

theorem solve_updateActSet_sameButStart (N : Nat) (qp : qpData_t α) :
    SameButStart qp (solve_updateActSet N qp).1 := by
  have h1 : SameButStart qp (solve_getActSet N qp) := SameButStart_of_eq _ _ rfl
  have h2 := compareActSets_sameButStart N (solve_getActSet N qp)
    ((solve_getActSet N qp).log.ieqTables ((solve_getActSet N qp).log.itLog 0).ieqStatus)
    ((solve_getActSet N qp).log.ieqTables ((solve_getActSet N qp).log.itLog 0).prevIeqStatus)
  exact SameButStart_trans (SameButStart_trans h1 h2) (SameButStart_of_eq _ _ rfl)

omit [LinearOrderedField α] in
theorem solve_iterationHead_sameButStart (itCntr : Nat) (q : qpData_t α) :
    SameButStart q (solve_iterationHead itCntr q) :=
  SameButStart_of_eq _ _ rfl

/-- With the example collaborators and diagonal stage Hessians the start of
`qpDUNES_solve` goes through to the iteration loop and writes only the log, the objective
values and the change flags of the stages. -/
theorem solve_start_exExt_sameButStart (N : Nat) (qp : qpData_t α)
    (hH : ∀ k, (qp.intervals k).H.sparsityType = sparsityType_t.QPDUNES_DIAGONAL) :
    ∃ s, solve_start (exExt α) N qp = Except.ok s ∧ SameButStart qp s.1 := by
  have hloop : ∀ (n : Nat) (q : qpData_t α),
      forUp (fun ii (s : return_t × qpData_t α) =>
        (((exExt α).directQpSolver_doStep s.2 ii 1).1,
          s.2.setInterval ii ((exExt α).directQpSolver_doStep s.2 ii 1).2)) 0 n
        (return_t.QPDUNES_OK, q) = (return_t.QPDUNES_OK, q) := by
    intro n q
    induction n with
    | zero => rfl
    | succ n ih =>
      simp only [forUp]
      rw [ih]
      simp only [exExt, setInterval_self]
  unfold solve_start
  dsimp only
  rw [hloop]
  dsimp only
  obtain ⟨o, ho, _⟩ := computeObjectiveValue_total N
    (({ qp with log := { qp.log with numIter := 0 } } : qpData_t α).setItLog
      { ({ qp with log := { qp.log with numIter := 0 } } : qpData_t α).log.itLog 0 with
        itNbr := 0 }) hH
  have hs := computeObjectiveValue_sameButStart N _ o ho
  rw [ho]
  dsimp only
  rw [if_neg (by simp)]
  refine ⟨_, rfl, ?_⟩
  exact SameButStart_trans (SameButStart_trans (by exact SameButStart_of_eq _ _ rfl) hs)
    (solve_updateActSet_sameButStart N o.2)

/-- The assembly writes only the gradient, the stored Hessian and scratch memory. -/
theorem setupNewtonSystem_frame (sqrt_f : α → α) (ext : collaborators_t α) (N nX nZ : Nat)
    (qp qp1 : qpData_t α) (st : return_t)
    (hrun : qpDUNES_setupNewtonSystem sqrt_f ext N nX nZ qp = some (st, qp1)) :
    qp1.options = qp.options ∧ qp1.intervals = qp.intervals ∧ qp1.lambda = qp.lambda ∧
      qp1.deltaLambda = qp.deltaLambda ∧ qp1.cholHessian = qp.cholHessian ∧
      qp1.log = qp.log ∧
      qp1.gradient = (setupNewtonSystem_gradient N nX nZ qp).gradient := by
  have hd : ∀ (i : Nat) (s s1 : qpData_t α),
      setupNewtonSystem_diagBlock ext nX nZ i s = some s1 →
      s1.options = s.options ∧ s1.intervals = s.intervals ∧ s1.lambda = s.lambda ∧
        s1.deltaLambda = s.deltaLambda ∧ s1.cholHessian = s.cholHessian ∧ s1.log = s.log ∧
        s1.gradient = s.gradient := by
    intro i s s1 h
    unfold setupNewtonSystem_diagBlock at h
    split_ifs at h
    · cases ht : setupNewtonSystem_diagTmp ext nX nZ i s with
      | none => rw [ht] at h; simp at h
      | some t =>
        rw [ht] at h
        simp only [Option.some.injEq] at h
        rw [← h]
        exact ⟨rfl, rfl, rfl, rfl, rfl, rfl, rfl⟩
    · simp only [Option.some.injEq] at h
      rw [← h]
      exact ⟨rfl, rfl, rfl, rfl, rfl, rfl, rfl⟩
  have hsb : ∀ (i : Nat) (s s1 : qpData_t α),
      setupNewtonSystem_subBlock nX nZ i s = some s1 →
      s1.options = s.options ∧ s1.intervals = s.intervals ∧ s1.lambda = s.lambda ∧
        s1.deltaLambda = s.deltaLambda ∧ s1.cholHessian = s.cholHessian ∧ s1.log = s.log ∧
        s1.gradient = s.gradient := by
    intro i s s1 h
    unfold setupNewtonSystem_subBlock at h
    split_ifs at h
    · cases ht : multiplyAInvQ nX nZ s.xxMatTmp (s.intervals i).C (s.intervals i).cholH with
      | none => rw [ht] at h; simp at h
      | some t =>
        rw [ht] at h
        simp only [Option.some.injEq] at h
        rw [← h]
        exact ⟨rfl, rfl, rfl, rfl, rfl, rfl, rfl⟩
    · simp only [Option.some.injEq] at h
      rw [← h]
      exact ⟨rfl, rfl, rfl, rfl, rfl, rfl, rfl⟩
  have hstep : ∀ (body : Nat → qpData_t α → Option (qpData_t α)),
      (∀ (i : Nat) (s s1 : qpData_t α), body i s = some s1 →
        s1.options = s.options ∧ s1.intervals = s.intervals ∧ s1.lambda = s.lambda ∧
          s1.deltaLambda = s.deltaLambda ∧ s1.cholHessian = s.cholHessian ∧
          s1.log = s.log ∧ s1.gradient = s.gradient) →
      ∀ (lo n : Nat) (s s1 : qpData_t α), forUpO body lo n s = some s1 →
        s1.options = s.options ∧ s1.intervals = s.intervals ∧ s1.lambda = s.lambda ∧
          s1.deltaLambda = s.deltaLambda ∧ s1.cholHessian = s.cholHessian ∧
          s1.log = s.log ∧ s1.gradient = s.gradient := by
    intro body hb lo n s s1 h
    refine forUpO_invariant body (fun t => t.options = s.options ∧
      t.intervals = s.intervals ∧ t.lambda = s.lambda ∧ t.deltaLambda = s.deltaLambda ∧
      t.cholHessian = s.cholHessian ∧ t.log = s.log ∧ t.gradient = s.gradient) ?_ lo n s s1
      ⟨rfl, rfl, rfl, rfl, rfl, rfl, rfl⟩ h
    intro i t t1 hP ht
    obtain ⟨a1, a2, a3, a4, a5, a6, a7⟩ := hb i t t1 ht
    obtain ⟨b1, b2, b3, b4, b5, b6, b7⟩ := hP
    exact ⟨a1.trans b1, a2.trans b2, a3.trans b3, a4.trans b4, a5.trans b5, a6.trans b6,
      a7.trans b7⟩
  unfold qpDUNES_setupNewtonSystem at hrun
  dsimp only at hrun
  split_ifs at hrun
  · simp only [Option.some.injEq, Prod.mk.injEq] at hrun
    rw [← hrun.2]
    exact ⟨rfl, rfl, rfl, rfl, rfl, rfl, rfl⟩
  · cases h1 : forUpO (setupNewtonSystem_diagBlock ext nX nZ) 0 N
        (setupNewtonSystem_gradient N nX nZ qp) with
    | none => rw [h1] at hrun; simp at hrun
    | some q1 =>
      rw [h1] at hrun
      dsimp only at hrun
      cases h2 : forUpO (setupNewtonSystem_subBlock nX nZ) 1 (N - 1) q1 with
      | none => rw [h2] at hrun; simp at hrun
      | some q2 =>
        rw [h2] at hrun
        simp only [Option.some.injEq, Prod.mk.injEq] at hrun
        rw [← hrun.2]
        obtain ⟨a1, a2, a3, a4, a5, a6, a7⟩ := hstep _ hd 0 N _ q1 h1
        obtain ⟨b1, b2, b3, b4, b5, b6, b7⟩ := hstep _ hsb 1 (N - 1) q1 q2 h2
        exact ⟨b1.trans a1, b2.trans a2, b3.trans a3, b4.trans a4, b5.trans a5, b6.trans a6,
          b7.trans a7⟩

/-- The regularization type GRADIENT_STEP in `qpDUNES_factorNewtonSystem`
(dual_qp.c 523-525): when the first factorization fails or leaves a diagonal entry below
the tolerance, the flag is set and QPDUNES_ERR_DIVISION_BY_ZERO returned. -/
theorem factorNewtonSystem_gradientStepType (sqrt_f : α → α) (N nX : Nat) (qp : qpData_t α)
    (flag : Bool) (idx : Int) (r : return_t × cholState_t α)
    (hreg : qp.options.regType = regType_t.QPDUNES_REG_GRADIENT_STEP)
    (hfirst : factorNewtonSystem_factorize sqrt_f N nX qp idx flag = some r)
    (htrig : r.1 = return_t.QPDUNES_ERR_DIVISION_BY_ZERO ∨
      factorNewtonSystem_minDiagElem N nX
        ({ qp with cholHessian := r.2.cholHessian } : qpData_t α) r.1 <
        qp.options.newtonHessDiagRegTolerance) :
    qpDUNES_factorNewtonSystem sqrt_f N nX qp flag idx =
      (return_t.QPDUNES_ERR_DIVISION_BY_ZERO,
        ({ qp with cholHessian := r.2.cholHessian } : qpData_t α), true) := by
  unfold qpDUNES_factorNewtonSystem
  rw [hfirst]
  dsimp only
  rw [if_pos htrig, hreg]

/-- With the regularization type GRADIENT_STEP the Newton branch of a pass ends the solve
with QPDUNES_ERR_DIVISION_BY_ZERO when the factorization meets a pivot below the tolerance
(dual_qp.c 117-124): `deltaLambda` is not written. -/
theorem solve_newtonDirection_gradientStepType (sqrt_f : α → α) (ext : collaborators_t α)
    (N nX nZ : Nat) (qp : qpData_t α) (idx : Int) (q1 : qpData_t α)
    (r : return_t × cholState_t α)
    (hsetup : qpDUNES_setupNewtonSystem sqrt_f ext N nX nZ qp = some (return_t.QPDUNES_OK, q1))
    (hreg : q1.options.regType = regType_t.QPDUNES_REG_GRADIENT_STEP)
    (hfirst : factorNewtonSystem_factorize sqrt_f N nX q1 idx
      (q1.log.itLog 0).isHessianRegularized = some r)
    (htrig : r.1 = return_t.QPDUNES_ERR_DIVISION_BY_ZERO ∨
      factorNewtonSystem_minDiagElem N nX
        ({ q1 with cholHessian := r.2.cholHessian } : qpData_t α) r.1 <
        q1.options.newtonHessDiagRegTolerance) :
    solve_newtonDirection sqrt_f ext N nX nZ qp idx =
      Except.error (some (return_t.QPDUNES_ERR_DIVISION_BY_ZERO,
        ({ q1 with cholHessian := r.2.cholHessian } : qpData_t α).setItLog
          { q1.log.itLog 0 with isHessianRegularized := true })) := by
  unfold solve_newtonDirection
  rw [hsetup]
  dsimp only
  rw [factorNewtonSystem_gradientStepType sqrt_f N nX q1 _ idx r hreg hfirst htrig]

/-- A run whose first pass returns, returns what the pass returns. -/
theorem solve_first_pass_return (sqrt_f : α → α) (ext : collaborators_t α) (N nX nZ : Nat)
    (qp : qpData_t α) (s : qpData_t α × Int × α) (e : Option (return_t × qpData_t α))
    (hstart : solve_start ext N qp = Except.ok s) (hmax : 0 < s.1.options.maxIter.toNat)
    (hit : solve_iteration sqrt_f ext N nX nZ 1 s = Except.error e) :
    qpDUNES_solve sqrt_f ext N nX nZ qp = e := by
  unfold qpDUNES_solve
  rw [hstart]
  dsimp only
  rw [forUpM_first_error _ 1 _ s _ hmax hit]

/-- The forward factorization of a `1 x 1` system whose entry is below the tolerance fails
with QPDUNES_ERR_DIVISION_BY_ZERO. -/
theorem factorizeNewtonHessian_single (sqrt_f : α → α) (opt : qpOptions_t α)
    (c h : xn2x_matrix_t α) (flag : Bool)
    (hreg : opt.regType ≠ regType_t.QPDUNES_REG_SINGULAR_DIRECTIONS)
    (hp : h (0, 0, 0, 0) < opt.newtonHessDiagRegTolerance) :
    (qpDUNES_factorizeNewtonHessian sqrt_f opt 1 1 c h flag).1 =
      return_t.QPDUNES_ERR_DIVISION_BY_ZERO := by
  have hc := factorizeNewtonHessian_contract sqrt_f opt 1 1 c h flag
    (qpDUNES_factorizeNewtonHessian sqrt_f opt 1 1 c h flag).1
    (qpDUNES_factorizeNewtonHessian sqrt_f opt 1 1 c h flag).2.cholHessian
    (qpDUNES_factorizeNewtonHessian sqrt_f opt 1 1 c h flag).2.isHessianRegularized rfl
  refine ((hc.1 hreg).1).mpr ⟨0, 0, by decide, by decide, ?_, fun k1 j1 hk hj hlt => ?_⟩
  · simp only [fwdSum, Finset.range_zero, Finset.sum_empty, sub_zero, gt_iff_lt, lt_self_iff_false,
      if_false]
    exact hp
  · omega

end GradientStepType


/-! ## The active set loops -/

section ActSetLoops

variable {α : Type} [LinearOrderedField α]

omit [LinearOrderedField α] in
theorem setStatus_apply (table : Nat → Nat → Int) (kk ii : Nat) (v : Int) (k i : Nat) :
    setStatus table kk ii v k i = if k = kk ∧ i = ii then v else table k i := by
  unfold setStatus
  by_cases hk : k = kk
  · subst hk
    by_cases hi : i = ii
    · subst hi; simp
    · simp [Function.update_noteq hi, hi]
  · simp [Function.update_noteq hk, hk]

/-- One stage of `qpDUNES_getActSet`: the first `n` coordinates of stage `kk`. -/
theorem getActSet_row (qpData : qpData_t α) (kk n : Nat) (s : Nat × (Nat → Nat → Int)) :
    forUp (fun ii (s : Nat × (Nat → Nat → Int)) =>
      if (qpData.intervals kk).y.data (2 * ii) > qpData.options.equalityTolerance then
        (s.1 + 1, setStatus s.2 kk ii (-1))
      else if (qpData.intervals kk).y.data (2 * ii + 1) > qpData.options.equalityTolerance then
        (s.1 + 1, setStatus s.2 kk ii 1)
      else (s.1, setStatus s.2 kk ii 0)) 0 n s
    = (s.1 + ((Finset.range n).filter (fun ii => ternaryStatus qpData kk ii ≠ 0)).card,
        fun k i => if k = kk ∧ i < n then ternaryStatus qpData kk i else s.2 k i) := by
  induction n with
  | zero => simp [forUp]
  | succ n ih =>
    simp only [forUp, Nat.zero_add]
    rw [ih]
    have hcard : ((Finset.range (n + 1)).filter (fun ii => ternaryStatus qpData kk ii ≠ 0)).card
        = ((Finset.range n).filter (fun ii => ternaryStatus qpData kk ii ≠ 0)).card
          + (if ternaryStatus qpData kk n ≠ 0 then 1 else 0) := by
      rw [Finset.range_succ, Finset.filter_insert]
      by_cases h : ternaryStatus qpData kk n ≠ 0
      · rw [if_pos h, if_pos h, Finset.card_insert_of_not_mem (by simp)]
      · rw [if_neg h, if_neg h]; rfl
    have htab : ∀ v : Int, v = ternaryStatus qpData kk n →
        setStatus (fun k i => if k = kk ∧ i < n then ternaryStatus qpData kk i else s.2 k i)
          kk n v
        = fun k i => if k = kk ∧ i < n + 1 then ternaryStatus qpData kk i else s.2 k i := by
      intro v hv
      funext k i
      rw [setStatus_apply]
      by_cases hk : k = kk
      · by_cases hi : i = n
        · subst hi; simp [hk, hv]
        · by_cases hlt : i < n
          · have : i < n + 1 := by omega
            simp [hk, hi, hlt, this]
          · have : ¬ i < n + 1 := by omega
            simp [hk, hi, hlt, this]
      · simp [hk]
    rw [hcard]
    by_cases h1 : (qpData.intervals kk).y.data (2 * n) > qpData.options.equalityTolerance
    · have hst : ternaryStatus qpData kk n = -1 := by unfold ternaryStatus; rw [if_pos h1]
      rw [if_pos h1, htab (-1) hst.symm, hst]
      simp [Nat.add_assoc]
    · by_cases h2 : (qpData.intervals kk).y.data (2 * n + 1) > qpData.options.equalityTolerance
      · have hst : ternaryStatus qpData kk n = 1 := by
          unfold ternaryStatus; rw [if_neg h1, if_pos h2]
        rw [if_neg h1, if_pos h2, htab 1 hst.symm, hst]
        simp [Nat.add_assoc]
      · have hst : ternaryStatus qpData kk n = 0 := by
          unfold ternaryStatus; rw [if_neg h1, if_neg h2]
        rw [if_neg h1, if_neg h2, htab 0 hst.symm, hst]
        simp

/-- The table and the count of `qpDUNES_getActSet`, coordinate by coordinate. -/
theorem getActSet_eq (N : Nat) (qpData : qpData_t α) (actSetStatus : Nat → Nat → Int) :
    qpDUNES_getActSet N qpData actSetStatus
    = (∑ kk in Finset.range (N + 1),
          ((Finset.range (actSetDim qpData kk)).filter
            (fun ii => ternaryStatus qpData kk ii ≠ 0)).card,
        fun k i => if k ≤ N ∧ i < actSetDim qpData k then ternaryStatus qpData k i
          else actSetStatus k i) := by
  unfold qpDUNES_getActSet
  have key : ∀ M : Nat,
      forUp (fun kk (s : Nat × (Nat → Nat → Int)) =>
        forUp (fun ii (s : Nat × (Nat → Nat → Int)) =>
          if (qpData.intervals kk).y.data (2 * ii) > qpData.options.equalityTolerance then
            (s.1 + 1, setStatus s.2 kk ii (-1))
          else if (qpData.intervals kk).y.data (2 * ii + 1)
              > qpData.options.equalityTolerance then
            (s.1 + 1, setStatus s.2 kk ii 1)
          else (s.1, setStatus s.2 kk ii 0))
          0 ((qpData.intervals kk).nD + (qpData.intervals kk).nV) s) 0 M (0, actSetStatus)
      = (∑ kk in Finset.range M,
            ((Finset.range (actSetDim qpData kk)).filter
              (fun ii => ternaryStatus qpData kk ii ≠ 0)).card,
          fun k i => if k < M ∧ i < actSetDim qpData k then ternaryStatus qpData k i
            else actSetStatus k i) := by
    intro M
    induction M with
    | zero => simp [forUp]
    | succ M ih =>
      simp only [forUp, Nat.zero_add]
      rw [ih, getActSet_row, Finset.sum_range_succ]
      refine Prod.ext rfl ?_
      funext k i
      show (if k = M ∧ i < (qpData.intervals M).nD + (qpData.intervals M).nV then
          ternaryStatus qpData M i
          else if k < M ∧ i < actSetDim qpData k then ternaryStatus qpData k i
            else actSetStatus k i) = _
      unfold actSetDim
      by_cases hk : k = M
      · subst hk
        by_cases hi : i < (qpData.intervals k).nD + (qpData.intervals k).nV
        · simp [hi]
        · simp [hi]
      · by_cases hlt : k < M
        · have : k < M + 1 := by omega
          simp [hk, hlt, this]
        · have : ¬ k < M + 1 := by omega
          simp [hk, hlt, this]
  rw [key (N + 1)]
  refine Prod.ext rfl ?_
  funext k i
  simp only [Nat.lt_succ_iff]

omit [LinearOrderedField α] in
theorem changedCoords_succ (newS oldS : Nat → Nat → Int) (kk n : Nat) :
    changedCoords newS oldS kk (n + 1)
    = if newS kk n ≠ oldS kk n then insert n (changedCoords newS oldS kk n)
      else changedCoords newS oldS kk n := by
  unfold changedCoords
  rw [Finset.range_succ, Finset.filter_insert]

omit [LinearOrderedField α] in
theorem changedCoords_not_mem (newS oldS : Nat → Nat → Int) (kk n : Nat) :
    n ∉ changedCoords newS oldS kk n := by
  unfold changedCoords
  simp

omit [LinearOrderedField α] in
theorem changedCoords_nonempty_iff (newS oldS : Nat → Nat → Int) (kk n : Nat) :
    (changedCoords newS oldS kk n).Nonempty ↔ ∃ ii, ii < n ∧ newS kk ii ≠ oldS kk ii := by
  unfold changedCoords
  constructor
  · rintro ⟨ii, hii⟩
    rw [Finset.mem_filter, Finset.mem_range] at hii
    exact ⟨ii, hii⟩
  · rintro ⟨ii, h1, h2⟩
    exact ⟨ii, by rw [Finset.mem_filter, Finset.mem_range]; exact ⟨h1, h2⟩⟩

omit [LinearOrderedField α] in
theorem setInterval_setInterval (q : qpData_t α) (kk : Nat) (v w : interval_t α) :
    (q.setInterval kk v).setInterval kk w = q.setInterval kk w := by
  unfold qpData_t.setInterval
  simp

omit [LinearOrderedField α] in
theorem setInterval_intervals_same (q : qpData_t α) (kk : Nat) (v : interval_t α) :
    (q.setInterval kk v).intervals kk = v := by
  unfold qpData_t.setInterval
  simp

omit [LinearOrderedField α] in
/-- One stage of `qpDUNES_compareActSets`: the first `n` coordinates of stage `kk`. -/
theorem compareActSets_row (newS oldS : Nat → Nat → Int) (kk n : Nat) (c : Nat)
    (q : qpData_t α) (idx : Int) :
    forUp (fun ii (s : Nat × qpData_t α × Int) =>
      if newS kk ii ≠ oldS kk ii then
        (s.1 + 1,
          s.2.1.setInterval kk { s.2.1.intervals kk with actSetHasChanged := true },
          (kk : Int))
      else s) 0 n (c, q, idx)
    = (c + (changedCoords newS oldS kk n).card,
        if (changedCoords newS oldS kk n).Nonempty then
          q.setInterval kk { q.intervals kk with actSetHasChanged := true }
        else q,
        if (changedCoords newS oldS kk n).Nonempty then (kk : Int) else idx) := by
  induction n with
  | zero => simp [forUp, changedCoords]
  | succ n ih =>
    simp only [forUp, Nat.zero_add]
    rw [ih, changedCoords_succ]
    by_cases h : newS kk n ≠ oldS kk n
    · rw [if_pos h, if_pos h, Finset.card_insert_of_not_mem (changedCoords_not_mem _ _ _ _),
        if_pos (Finset.insert_nonempty _ _), if_pos (Finset.insert_nonempty _ _)]
      refine Prod.ext rfl (Prod.ext ?_ rfl)
      show qpData_t.setInterval _ kk _ = _
      by_cases hne : (changedCoords newS oldS kk n).Nonempty
      · simp only [if_pos hne]
        rw [setInterval_setInterval, setInterval_intervals_same]
      · simp only [if_neg hne]
    · rw [if_neg h, if_neg h]

omit [LinearOrderedField α] in
theorem withChangeFlags_intervals_ge (qpData : qpData_t α) (newS oldS : Nat → Nat → Int)
    (M k : Nat) (h : M ≤ k) :
    (withChangeFlags qpData newS oldS M).intervals k = qpData.intervals k := by
  unfold withChangeFlags
  simp [Nat.not_lt.mpr h]

omit [LinearOrderedField α] in
theorem withChangeFlags_succ (qpData : qpData_t α) (newS oldS : Nat → Nat → Int) (M : Nat) :
    withChangeFlags qpData newS oldS (M + 1)
    = (withChangeFlags qpData newS oldS M).setInterval M
        { qpData.intervals M with
          actSetHasChanged := Decidable.decide
            (changedCoords newS oldS M (actSetDim qpData M)).Nonempty } := by
  unfold withChangeFlags qpData_t.setInterval
  congr 1
  funext k
  by_cases hk : k = M
  · subst hk; simp
  · rw [Function.update_noteq hk]
    by_cases hlt : k < M
    · have : k < M + 1 := by omega
      simp [hlt, this]
    · have : ¬ k < M + 1 := by omega
      simp [hlt, this]

omit [LinearOrderedField α] in
/-- The result of `qpDUNES_compareActSets`: the number of differing coordinates, the
change flags stage by stage, and the last stage with a difference. -/
theorem compareActSets_eq (N : Nat) (qpData : qpData_t α) (newS oldS : Nat → Nat → Int) :
    qpDUNES_compareActSets N qpData newS oldS
    = (∑ kk in Finset.range (N + 1), (changedCoords newS oldS kk (actSetDim qpData kk)).card,
        withChangeFlags qpData newS oldS (N + 1),
        lastChangedStage qpData newS oldS (N + 1)) := by
  unfold qpDUNES_compareActSets
  have key : ∀ M : Nat,
      forUp (fun kk (s : Nat × qpData_t α × Int) =>
        let qpData := s.2.1.setInterval kk { s.2.1.intervals kk with actSetHasChanged := false }
        forUp (fun ii (s : Nat × qpData_t α × Int) =>
          if newS kk ii ≠ oldS kk ii then
            (s.1 + 1,
              s.2.1.setInterval kk { s.2.1.intervals kk with actSetHasChanged := true },
              (kk : Int))
          else s)
          0 ((qpData.intervals kk).nD + (qpData.intervals kk).nV) (s.1, qpData, s.2.2))
        0 M (0, qpData, -1)
      = (∑ kk in Finset.range M, (changedCoords newS oldS kk (actSetDim qpData kk)).card,
          withChangeFlags qpData newS oldS M,
          lastChangedStage qpData newS oldS M) := by
    intro M
    induction M with
    | zero =>
      simp only [forUp, Finset.range_zero, Finset.sum_empty, lastChangedStage]
      refine Prod.ext rfl (Prod.ext ?_ rfl)
      show qpData = withChangeFlags qpData newS oldS 0
      unfold withChangeFlags
      simp
    | succ M ih =>
      simp only [forUp, Nat.zero_add]
      rw [ih]
      simp only []
      rw [compareActSets_row, Finset.sum_range_succ, setInterval_intervals_same,
        setInterval_setInterval, withChangeFlags_intervals_ge _ _ _ _ _ (le_refl M),
        withChangeFlags_succ]
      have hdim : (qpData.intervals M).nD + (qpData.intervals M).nV = actSetDim qpData M := rfl
      rw [hdim]
      refine Prod.ext rfl (Prod.ext ?_ ?_)
      · show (if _ then _ else _) = _
        by_cases hne : (changedCoords newS oldS M (actSetDim qpData M)).Nonempty
        · rw [if_pos hne]; simp [hne]
        · rw [if_neg hne]; simp [hne]
      · show (if _ then _ else _) = _
        rfl
  exact key (N + 1)

omit [LinearOrderedField α] in
/-- The index `lastChangedStage` is the largest stage with a difference, or `-1`. -/
theorem lastChangedStage_spec (qpData : qpData_t α) (newS oldS : Nat → Nat → Int) (M : Nat) :
    (∀ k, k < M → (changedCoords newS oldS k (actSetDim qpData k)).Nonempty →
        (k : Int) ≤ lastChangedStage qpData newS oldS M) ∧
    ((lastChangedStage qpData newS oldS M = -1 ∧
        ∀ k, k < M → ¬ (changedCoords newS oldS k (actSetDim qpData k)).Nonempty) ∨
      ∃ k, k < M ∧ lastChangedStage qpData newS oldS M = (k : Int) ∧
        (changedCoords newS oldS k (actSetDim qpData k)).Nonempty) := by
  induction M with
  | zero =>
    refine ⟨fun k hk => absurd hk (Nat.not_lt_zero k), Or.inl ⟨rfl, fun k hk => ?_⟩⟩
    exact absurd hk (Nat.not_lt_zero k)
  | succ M ih =>
    obtain ⟨ih1, ih2⟩ := ih
    by_cases hne : (changedCoords newS oldS M (actSetDim qpData M)).Nonempty
    · have hv : lastChangedStage qpData newS oldS (M + 1) = (M : Int) := by
        simp only [lastChangedStage]; rw [if_pos hne]
      rw [hv]
      refine ⟨fun k hk _ => ?_, Or.inr ⟨M, Nat.lt_succ_self M, rfl, hne⟩⟩
      have : k ≤ M := Nat.lt_succ_iff.mp hk
      exact_mod_cast this
    · have hv : lastChangedStage qpData newS oldS (M + 1)
          = lastChangedStage qpData newS oldS M := by
        simp only [lastChangedStage]; rw [if_neg hne]
      rw [hv]
      refine ⟨fun k hk hc => ?_, ?_⟩
      · rcases Nat.lt_succ_iff_lt_or_eq.mp hk with h | h
        · exact ih1 k h hc
        · subst h; exact absurd hc hne
      · rcases ih2 with ⟨h1, h2⟩ | ⟨k, hk, h1, h2⟩
        · refine Or.inl ⟨h1, fun k hk => ?_⟩
          rcases Nat.lt_succ_iff_lt_or_eq.mp hk with h | h
          · exact h2 k h
          · subst h; exact hne
        · exact Or.inr ⟨k, Nat.lt_succ_of_lt hk, h1, h2⟩

end ActSetLoops

/-! ## A run of the solve: start, passes and return -/

section RunLemmas

variable {α : Type} [LinearOrderedField α]

/-- The start of `qpDUNES_solve` with a stage solver whose step leaves the stages as they
are: only the status of the last stage is looked at (dual_qp.c 57-76), so the start goes
through to the iteration loop when the step of stage `N` reports QPDUNES_OK. It writes only
the log, the objective values and the change flags of the stages, and the incumbent is the
objective value of the stages. -/
theorem solve_start_keepsStages (ext : collaborators_t α) (N : Nat) (qp : qpData_t α)
    (hkeep : ∀ q k a, (ext.directQpSolver_doStep q k a).2 = q.intervals k)
    (hlast : ∀ q a, (ext.directQpSolver_doStep q N a).1 = return_t.QPDUNES_OK)
    (hH : ∀ k, (qp.intervals k).H.sparsityType = sparsityType_t.QPDUNES_DIAGONAL) :
    ∃ s o, solve_start ext N qp = Except.ok s ∧ SameButStart qp s.1 ∧
      qpDUNES_computeObjectiveValue N
        (({ qp with log := { qp.log with numIter := 0 } } : qpData_t α).setItLog
          { ({ qp with log := { qp.log with numIter := 0 } } : qpData_t α).log.itLog 0 with
            itNbr := 0 }) = some o ∧
      s.2.2 = o.1 ∧ s.2.1 = (solve_updateActSet N o.2).2 := by
  have hloop : ∀ (n : Nat) (q : qpData_t α),
      (forUp (fun ii (s : return_t × qpData_t α) =>
        ((ext.directQpSolver_doStep s.2 ii 1).1,
          s.2.setInterval ii (ext.directQpSolver_doStep s.2 ii 1).2)) 0 n
        (return_t.QPDUNES_OK, q)).2 = q := by
    intro n q
    induction n with
    | zero => rfl
    | succ n ih =>
      simp only [forUp]
      rw [ih, hkeep, setInterval_self]
  have hstat : (forUp (fun ii (s : return_t × qpData_t α) =>
        ((ext.directQpSolver_doStep s.2 ii 1).1,
          s.2.setInterval ii (ext.directQpSolver_doStep s.2 ii 1).2)) 0 (N + 1)
        (return_t.QPDUNES_OK,
          (({ qp with log := { qp.log with numIter := 0 } } : qpData_t α).setItLog
            { ({ qp with log := { qp.log with numIter := 0 } } : qpData_t α).log.itLog 0 with
              itNbr := 0 }))).1 = return_t.QPDUNES_OK := by
    simp only [forUp, Nat.zero_add]
    exact hlast _ _
  unfold solve_start
  dsimp only
  rw [hloop, hstat]
  obtain ⟨o, ho, _⟩ := computeObjectiveValue_total N
    (({ qp with log := { qp.log with numIter := 0 } } : qpData_t α).setItLog
      { ({ qp with log := { qp.log with numIter := 0 } } : qpData_t α).log.itLog 0 with
        itNbr := 0 }) hH
  have hs := computeObjectiveValue_sameButStart N _ o ho
  rw [ho]
  dsimp only
  rw [if_neg (by simp)]
  refine ⟨_, o, rfl, ?_, rfl, rfl, rfl⟩
  exact SameButStart_trans (SameButStart_trans (by exact SameButStart_of_eq _ _ rfl) hs)
    (solve_updateActSet_sameButStart N o.2)

/-- A run in which pass `1 + j` returns after `j` passes that went through, returns what
that pass returns. -/
theorem solve_pass_return (sqrt_f : α → α) (ext : collaborators_t α) (N nX nZ : Nat)
    (qp : qpData_t α) (s0 s : qpData_t α × Int × α) (j : Nat)
    (e : Option (return_t × qpData_t α))
    (hstart : solve_start ext N qp = Except.ok s0) (hj : j < s0.1.options.maxIter.toNat)
    (hpre : forUpM (solve_iteration sqrt_f ext N nX nZ) 1 j s0 = Except.ok s)
    (hit : solve_iteration sqrt_f ext N nX nZ (1 + j) s = Except.error e) :
    qpDUNES_solve sqrt_f ext N nX nZ qp = e := by
  unfold qpDUNES_solve
  rw [hstart]
  dsimp only
  rw [forUpM_exit _ 1 _ j s0 s e hj hpre hit]

/-- A run all of whose passes go through returns QPDUNES_ERR_ITERATION_LIMIT_REACHED. -/
theorem solve_iteration_limit (sqrt_f : α → α) (ext : collaborators_t α) (N nX nZ : Nat)
    (qp : qpData_t α) (s0 s : qpData_t α × Int × α)
    (hstart : solve_start ext N qp = Except.ok s0)
    (hall : forUpM (solve_iteration sqrt_f ext N nX nZ) 1 s0.1.options.maxIter.toNat s0 =
      Except.ok s) :
    qpDUNES_solve sqrt_f ext N nX nZ qp =
      some (return_t.QPDUNES_ERR_ITERATION_LIMIT_REACHED,
        { s.1 with log := { s.1.log with numIter := s.1.options.maxIter } }) := by
  unfold qpDUNES_solve
  rw [hstart]
  dsimp only
  rw [hall]

/-- The rest of a pass in terms of the status of the step length determination
(dual_qp.c 151-188): with QPDUNES_OK, NUMBER_OF_MAX_LINESEARCH_ITERATIONS_REACHED and
EXCEEDED_MAX_LINESEARCH_STEPSIZE the pass goes on to the active set update and the log,
DECEEDED_MIN_LINESEARCH_STEPSIZE returns NEWTON_SYSTEM_NO_ASCENT_DIRECTION, and every other
status is returned. The status of `qpDUNES_solveAllLocalQPs` does not enter. -/
theorem solve_iterationTail_of (sqrt_f : α → α) (ext : collaborators_t α) (N nX nZ : Nat)
    (itCntr : Nat) (obj : α) (qd : qpData_t α) (a : return_t × qpData_t α)
    (d : return_t × qpData_t α × α)
    (hloc : qpDUNES_solveAllLocalQPs ext N nX qd qd.deltaLambda = some a)
    (hdet : qpDUNES_determineStepLength sqrt_f ext N nX nZ a.2 obj
      (a.2.log.itLog 0).isHessianRegularized = some d) :
    ((d.1 = return_t.QPDUNES_OK ∨
        d.1 = return_t.QPDUNES_ERR_NUMBER_OF_MAX_LINESEARCH_ITERATIONS_REACHED ∨
        d.1 = return_t.QPDUNES_ERR_EXCEEDED_MAX_LINESEARCH_STEPSIZE) →
      solve_iterationTail sqrt_f ext N nX nZ itCntr obj qd =
        Except.ok (qpDUNES_logIteration sqrt_f N nX
          (solve_updateActSet N (solve_savePrevIeqStatus N itCntr d.2.1)).1 d.2.2
          (solve_updateActSet N (solve_savePrevIeqStatus N itCntr d.2.1)).2,
          (solve_updateActSet N (solve_savePrevIeqStatus N itCntr d.2.1)).2, d.2.2)) ∧
    (d.1 = return_t.QPDUNES_ERR_DECEEDED_MIN_LINESEARCH_STEPSIZE →
      solve_iterationTail sqrt_f ext N nX nZ itCntr obj qd =
        Except.error (some (return_t.QPDUNES_ERR_NEWTON_SYSTEM_NO_ASCENT_DIRECTION, d.2.1))) ∧
    ((d.1 ≠ return_t.QPDUNES_OK ∧
        d.1 ≠ return_t.QPDUNES_ERR_NUMBER_OF_MAX_LINESEARCH_ITERATIONS_REACHED ∧
        d.1 ≠ return_t.QPDUNES_ERR_EXCEEDED_MAX_LINESEARCH_STEPSIZE ∧
        d.1 ≠ return_t.QPDUNES_ERR_DECEEDED_MIN_LINESEARCH_STEPSIZE) →
      solve_iterationTail sqrt_f ext N nX nZ itCntr obj qd =
        Except.error (some (d.1, d.2.1))) := by
  unfold solve_iterationTail
  rw [hloc]
  dsimp only
  rw [hdet]
  dsimp only
  obtain ⟨st, q, o⟩ := d
  dsimp only
  refine ⟨?_, ?_, ?_⟩
  · rintro (h | h | h) <;> subst h <;> rfl
  · intro h
    subst h
    rfl
  · rintro ⟨h1, h2, h3, h4⟩
    cases st <;>
      (first | rfl | exact absurd rfl h1 | exact absurd rfl h2 | exact absurd rfl h3 |
        exact absurd rfl h4)

/-- The factorization driver writes only the stored Hessian and its factor. -/
theorem factorNewtonSystem_frame (sqrt_f : α → α) (N nX : Nat) (qp : qpData_t α)
    (flag : Bool) (idx : Int) :
    ({ (qpDUNES_factorNewtonSystem sqrt_f N nX qp flag idx).2.1 with
      hessian := qp.hessian, cholHessian := qp.cholHessian } : qpData_t α) = qp := by
  unfold qpDUNES_factorNewtonSystem
  cases h1 : factorNewtonSystem_factorize sqrt_f N nX qp idx flag with
  | none => rfl
  | some r =>
    dsimp only
    split_ifs
    · cases h2 : qp.options.regType
      · dsimp only
        unfold factorNewtonSystem_refactor
        split
        · rfl
        · split_ifs <;> rfl
      · dsimp only
        unfold factorNewtonSystem_refactor
        split
        · rfl
        · split_ifs <;> rfl
      all_goals rfl
    · rfl
    · rfl

/-- The Newton branch of a pass when the assembly and the factorization return QPDUNES_OK
with the forward factorization: the step direction is the solution of the Newton equation
(dual_qp.c 105-131). -/
theorem solve_newtonDirection_ok (sqrt_f : α → α) (ext : collaborators_t α) (N nX nZ : Nat)
    (qp : qpData_t α) (idx : Int) (q1 : qpData_t α)
    (hsetup : qpDUNES_setupNewtonSystem sqrt_f ext N nX nZ qp = some (return_t.QPDUNES_OK, q1))
    (halg : q1.options.nwtnHssnFacAlg = nwtnHssnFacAlg_t.QPDUNES_NH_FAC_BAND_FORWARD)
    (hfac : (qpDUNES_factorNewtonSystem sqrt_f N nX q1
      (q1.log.itLog 0).isHessianRegularized idx).1 = return_t.QPDUNES_OK) :
    ∃ qd, solve_newtonDirection sqrt_f ext N nX nZ qp idx = Except.ok qd ∧
      ({ qd with
          hessian := q1.hessian, cholHessian := q1.cholHessian,
          deltaLambda := q1.deltaLambda, log := q1.log } : qpData_t α) = q1 ∧
      qd.hessian = (qpDUNES_factorNewtonSystem sqrt_f N nX q1
        (q1.log.itLog 0).isHessianRegularized idx).2.1.hessian ∧
      qd.cholHessian = (qpDUNES_factorNewtonSystem sqrt_f N nX q1
        (q1.log.itLog 0).isHessianRegularized idx).2.1.cholHessian ∧
      qd.deltaLambda.data = (qpDUNES_solveNewtonEquation q1.options N nX q1.deltaLambda.data
        qd.cholHessian q1.gradient.data).2 ∧
      qd.log = { q1.log with
        itLog := Function.update q1.log.itLog 0
          { q1.log.itLog 0 with
            isHessianRegularized :=
              (qpDUNES_factorNewtonSystem sqrt_f N nX q1
                (q1.log.itLog 0).isHessianRegularized idx).2.2 } } := by
  have hfr := factorNewtonSystem_frame sqrt_f N nX q1 (q1.log.itLog 0).isHessianRegularized idx
  have ho : (qpDUNES_factorNewtonSystem sqrt_f N nX q1
      (q1.log.itLog 0).isHessianRegularized idx).2.1.options = q1.options :=
    congrArg (fun w => w.options) hfr
  have hd : (qpDUNES_factorNewtonSystem sqrt_f N nX q1
      (q1.log.itLog 0).isHessianRegularized idx).2.1.deltaLambda = q1.deltaLambda :=
    congrArg (fun w => w.deltaLambda) hfr
  have hg : (qpDUNES_factorNewtonSystem sqrt_f N nX q1
      (q1.log.itLog 0).isHessianRegularized idx).2.1.gradient = q1.gradient :=
    congrArg (fun w => w.gradient) hfr
  have hl : (qpDUNES_factorNewtonSystem sqrt_f N nX q1
      (q1.log.itLog 0).isHessianRegularized idx).2.1.log = q1.log :=
    congrArg (fun w => w.log) hfr
  unfold solve_newtonDirection
  rw [hsetup]
  dsimp only
  rw [hfac]
  dsimp only
  have e : ((qpDUNES_factorNewtonSystem sqrt_f N nX q1
      (q1.log.itLog 0).isHessianRegularized idx).2.1.setItLog
      { (qpDUNES_factorNewtonSystem sqrt_f N nX q1
          (q1.log.itLog 0).isHessianRegularized idx).2.1.log.itLog 0 with
        isHessianRegularized := (qpDUNES_factorNewtonSystem sqrt_f N nX q1
          (q1.log.itLog 0).isHessianRegularized idx).2.2 }).options.nwtnHssnFacAlg =
      nwtnHssnFacAlg_t.QPDUNES_NH_FAC_BAND_FORWARD := by
    rw [← halg, ← ho]
    rfl
  rw [e]
  dsimp only
  rw [if_neg (by simp [qpDUNES_solveNewtonEquation])]
  refine ⟨_, rfl, ?_, rfl, rfl, ?_, ?_⟩
  · exact congrArg (fun w : qpData_t α =>
      ({ w with deltaLambda := q1.deltaLambda, log := q1.log } : qpData_t α)) hfr
  · show (qpDUNES_solveNewtonEquation
        (qpDUNES_factorNewtonSystem sqrt_f N nX q1
          (q1.log.itLog 0).isHessianRegularized idx).2.1.options N nX
        (qpDUNES_factorNewtonSystem sqrt_f N nX q1
          (q1.log.itLog 0).isHessianRegularized idx).2.1.deltaLambda.data
        (qpDUNES_factorNewtonSystem sqrt_f N nX q1
          (q1.log.itLog 0).isHessianRegularized idx).2.1.cholHessian
        (qpDUNES_factorNewtonSystem sqrt_f N nX q1
          (q1.log.itLog 0).isHessianRegularized idx).2.1.gradient.data).2 =
      (qpDUNES_solveNewtonEquation q1.options N nX q1.deltaLambda.data
        (qpDUNES_factorNewtonSystem sqrt_f N nX q1
          (q1.log.itLog 0).isHessianRegularized idx).2.1.cholHessian q1.gradient.data).2
    rw [ho, hd, hg]
  · show qpData_t.log (qpData_t.setItLog _ _) = _
    unfold qpData_t.setItLog
    dsimp only
    rw [hl]

/-- The factorization driver on a `1 x 1` system with the forward factorization whose entry
and its root are not below the regularization tolerance: QPDUNES_OK without
regularization, and the factor is the root of the entry. -/
theorem factorNewtonSystem_single_ok (sqrt_f : α → α) (qp : qpData_t α) (flag : Bool)
    (idx : Int)
    (halg : qp.options.nwtnHssnFacAlg = nwtnHssnFacAlg_t.QPDUNES_NH_FAC_BAND_FORWARD)
    (hp : ¬ qp.hessian (0, 0, 0, 0) < qp.options.newtonHessDiagRegTolerance)
    (hs : ¬ sqrt_f (qp.hessian (0, 0, 0, 0)) < qp.options.newtonHessDiagRegTolerance)
    (hI : ¬ qp.options.QPDUNES_INFTY < qp.options.newtonHessDiagRegTolerance) :
    (qpDUNES_factorNewtonSystem sqrt_f 1 1 qp flag idx).1 = return_t.QPDUNES_OK ∧
    (qpDUNES_factorNewtonSystem sqrt_f 1 1 qp flag idx).2.1.cholHessian (0, 0, 0, 0) =
      sqrt_f (qp.hessian (0, 0, 0, 0)) ∧
    (qpDUNES_factorNewtonSystem sqrt_f 1 1 qp flag idx).2.2 = flag := by
  have hfac : factorNewtonSystem_factorize sqrt_f 1 1 qp idx flag =
      some (return_t.QPDUNES_OK,
        ⟨setAcc qp.cholHessian 0 0 0 0 (sqrt_f (qp.hessian (0, 0, 0, 0))), flag⟩) := by
    unfold factorNewtonSystem_factorize
    rw [halg]
    simp only [qpDUNES_factorizeNewtonHessian, forUpM, factorizeNewtonHessian_column,
      factorizeNewtonHessian_pivot, forUp, Nat.zero_add, lt_self_iff_false, if_false,
      gt_iff_lt, hp, and_false, factorizeNewtonHessian_writeColumn, Nat.sub_self,
      Nat.lt_irrefl]
  have hmin : ∀ c : xn2x_matrix_t α, factorNewtonSystem_minDiagElem 1 1
      ({ qp with cholHessian := c } : qpData_t α) return_t.QPDUNES_OK =
      if qp.options.QPDUNES_INFTY > c (0, 0, 0, 0) then c (0, 0, 0, 0)
      else qp.options.QPDUNES_INFTY := by
    intro c
    simp [-Prod.mk_zero_zero, factorNewtonSystem_minDiagElem, forUp]
  have htrig : ∀ c : xn2x_matrix_t α, c (0, 0, 0, 0) = sqrt_f (qp.hessian (0, 0, 0, 0)) →
      ¬ (return_t.QPDUNES_OK = return_t.QPDUNES_ERR_DIVISION_BY_ZERO ∨
        factorNewtonSystem_minDiagElem 1 1 ({ qp with cholHessian := c } : qpData_t α)
          return_t.QPDUNES_OK < qp.options.newtonHessDiagRegTolerance) := by
    intro c hc
    rw [hmin, hc]
    rintro (h | h)
    · cases h
    · split_ifs at h
      · exact hs h
      · exact hI h
  unfold qpDUNES_factorNewtonSystem
  rw [hfac]
  dsimp only
  rw [if_neg (htrig _ (Function.update_same _ _ _)), if_neg (by simp)]
  refine ⟨rfl, ?_, rfl⟩
  show setAcc qp.cholHessian 0 0 0 0 (sqrt_f (qp.hessian (0, 0, 0, 0))) (0, 0, 0, 0) = _
  exact Function.update_same _ _ _

/-- The Newton equation of a `1 x 1` system with the forward factor `c`: the step is
`g / c / c` unless `c` exceeds QPDUNES_INFTY. -/
theorem solveNewtonEquation_single (opt : qpOptions_t α) (res : Nat → α)
    (c : xn2x_matrix_t α) (g : Nat → α) (hI : ¬ c (0, 0, 0, 0) > opt.QPDUNES_INFTY) :
    (qpDUNES_solveNewtonEquation opt 1 1 res c g).2 0 = g 0 / c (0, 0, 0, 0) / c (0, 0, 0, 0) := by
  simp [-Prod.mk_zero_zero, qpDUNES_solveNewtonEquation, forUp, forDown, divide_f, hI]

omit [LinearOrderedField α] in
theorem ClippingDiagonal_setInterval (q : qpData_t α) (kk : Nat) (v : interval_t α)
    (hq : ClippingDiagonal q)
    (h1 : v.qpSolverSpecification = qp_solver_t.QPDUNES_STAGE_QP_SOLVER_CLIPPING)
    (h2 : v.H.sparsityType = sparsityType_t.QPDUNES_DIAGONAL) :
    ClippingDiagonal (q.setInterval kk v) := by
  intro k
  rw [setInterval_intervals]
  by_cases c : k = kk
  · rw [if_pos c]
    exact ⟨h1, h2⟩
  · rw [if_neg c]
    exact hq k

omit [LinearOrderedField α] in
/-- The stage solves of a pass with a stage solver that leaves the stages as they are and
reports the status `st k` for stage `k`: the call goes through, changes only the stages,
keeps clipping stages with diagonal Hessians, and reports
QPDUNES_ERR_STAGE_QP_INFEASIBLE exactly when some stage `k <= N` reports a status other
than QPDUNES_OK (dual_qp.c 269-295). -/
theorem solveAllLocalQPs_keeps (ext : collaborators_t α) (N nX : Nat) (qp : qpData_t α)
    (lam : vector_t α) (st : Nat → return_t)
    (hupd : ∀ q k, ext.clippingQpSolver_updateStageData q k = q.intervals k)
    (hsol : ∀ q k, ext.directQpSolver_solveUnconstrained q k = (st k, q.intervals k))
    (hq : ClippingDiagonal qp) :
    ∃ a, qpDUNES_solveAllLocalQPs ext N nX qp lam = some a ∧ SameButStages qp a.2 ∧
      ClippingDiagonal a.2 ∧
      (a.1 = return_t.QPDUNES_ERR_STAGE_QP_INFEASIBLE ↔
        ∃ k, k ≤ N ∧ st k ≠ return_t.QPDUNES_OK) ∧
      (a.1 = return_t.QPDUNES_OK ∨ a.1 = return_t.QPDUNES_ERR_STAGE_QP_INFEASIBLE) := by
  have hset : ∀ (s : qpData_t α) (kk : Nat) (v : interval_t α),
      (SameButStages qp s ∧ ClippingDiagonal s) →
      v.qpSolverSpecification = (s.intervals kk).qpSolverSpecification →
      v.H = (s.intervals kk).H →
      (SameButStages qp (s.setInterval kk v) ∧ ClippingDiagonal (s.setInterval kk v)) := by
    intro s kk v hP h1 h2
    refine ⟨SameButStages_trans hP.1 (SameButStages_setInterval _ _ _),
      ClippingDiagonal_setInterval s kk v hP.2 (h1.trans (hP.2 kk).1) ?_⟩
    rw [h2]
    exact (hP.2 kk).2
  have hu : ∃ u, qpDUNES_updateAllLocalQPs ext N nX qp lam = some u ∧
      SameButStages qp u.2 ∧ ClippingDiagonal u.2 := by
    have key : ∀ Q : qpData_t α, (SameButStages qp Q ∧ ClippingDiagonal Q) →
        ∃ u, (match forUpM
          (fun kk (qpData : qpData_t α) =>
            match (qpData.intervals kk).qpSolverSpecification with
            | qp_solver_t.QPDUNES_STAGE_QP_SOLVER_CLIPPING =>
              (Except.ok (qpData.setInterval kk
                (ext.clippingQpSolver_updateStageData qpData kk)) :
                Except (Option (return_t × qpData_t α)) (qpData_t α))
            | qp_solver_t.QPDUNES_STAGE_QP_SOLVER_QPOASES => Except.error none
            | qp_solver_t.QPDUNES_STAGE_QP_SOLVER_UNDEFINED =>
              Except.error (some (return_t.QPDUNES_ERR_UNKNOWN_ERROR, qpData)))
          0 (N + 1) Q with
          | Except.ok qpData => some (return_t.QPDUNES_OK, qpData)
          | Except.error e => e) = some u ∧
          SameButStages qp u.2 ∧ ClippingDiagonal u.2 := by
      intro Q hQ
      obtain ⟨u, e1, e2⟩ := forUpM_total
        (fun kk (qpData : qpData_t α) =>
          match (qpData.intervals kk).qpSolverSpecification with
          | qp_solver_t.QPDUNES_STAGE_QP_SOLVER_CLIPPING =>
            (Except.ok (qpData.setInterval kk
              (ext.clippingQpSolver_updateStageData qpData kk)) :
              Except (Option (return_t × qpData_t α)) (qpData_t α))
          | qp_solver_t.QPDUNES_STAGE_QP_SOLVER_QPOASES => Except.error none
          | qp_solver_t.QPDUNES_STAGE_QP_SOLVER_UNDEFINED =>
            Except.error (some (return_t.QPDUNES_ERR_UNKNOWN_ERROR, qpData)))
        (fun _ (s : qpData_t α) => SameButStages qp s ∧ ClippingDiagonal s) 0 (N + 1)
        (fun i s _ _ hP => by
          refine ⟨s, ?_, hP⟩
          dsimp only
          rw [(hP.2 i).1, hupd, setInterval_self]) Q hQ
      refine ⟨(return_t.QPDUNES_OK, u), ?_, e2⟩
      rw [e1]
    unfold qpDUNES_updateAllLocalQPs
    dsimp only
    refine key _ ?_
    refine hset _ _ _ ?_ rfl rfl
    refine forUp_invariant _ (fun s => SameButStages qp s ∧ ClippingDiagonal s)
      (fun i s hP => by exact hset _ _ _ (hset _ _ _ hP rfl rfl) rfl rfl) _ _ _ ?_
    exact hset _ _ _ ⟨SameButStages_refl qp, hq⟩ rfl rfl
  obtain ⟨u, hu1, hu2, hu3⟩ := hu
  obtain ⟨s, hs1, hs2, hs3⟩ := forUpO_total
    (fun kk (s : Nat × qpData_t α) =>
      match qpDUNES_solveLocalQP ext s.2 kk with
      | none => none
      | some r => some (if r.1 ≠ return_t.QPDUNES_OK then s.1 + 1 else s.1, r.2))
    (fun n (s : Nat × qpData_t α) => s.2 = u.2 ∧
      (0 < s.1 ↔ ∃ k, k < n ∧ st k ≠ return_t.QPDUNES_OK)) 0 (N + 1)
    (fun i s _ _ hP => by
      have hloc : qpDUNES_solveLocalQP ext s.2 i =
          some (if st i ≠ return_t.QPDUNES_OK then st i else return_t.QPDUNES_OK, s.2) := by
        unfold qpDUNES_solveLocalQP
        rw [hP.1, (hu3 i).1]
        dsimp only
        rw [hsol, setInterval_self]
        dsimp only
        split_ifs <;> rfl
      dsimp only at hP ⊢
      rw [hloc]
      dsimp only
      refine ⟨_, rfl, hP.1, ?_⟩
      by_cases c : st i ≠ return_t.QPDUNES_OK
      · simp only [ne_eq, c, not_false_eq_true, if_true]
        refine ⟨fun _ => ⟨i, Nat.lt_succ_self i, c⟩, fun _ => Nat.succ_pos _⟩
      · have c2 : st i = return_t.QPDUNES_OK := not_not.mp c
        simp only [c2, ne_eq, not_true_eq_false, if_false]
        rw [hP.2]
        constructor
        · rintro ⟨k, hk, hk2⟩
          exact ⟨k, Nat.lt_succ_of_lt hk, hk2⟩
        · rintro ⟨k, hk, hk2⟩
          rcases Nat.lt_succ_iff_lt_or_eq.mp hk with h | h
          · exact ⟨k, h, hk2⟩
          · subst h
            exact absurd c2 hk2)
    (0, u.2) ⟨rfl, by simp⟩
  have hiff : (0 < s.1) ↔ ∃ k, k ≤ N ∧ st k ≠ return_t.QPDUNES_OK := by
    rw [hs3]
    constructor
    · rintro ⟨k, hk, h⟩
      exact ⟨k, by omega, h⟩
    · rintro ⟨k, hk, h⟩
      exact ⟨k, by omega, h⟩
  unfold qpDUNES_solveAllLocalQPs
  rw [hu1]
  dsimp only
  split
  · rename_i heq
    have e := hs1.symm.trans heq
    cases e
  · rename_i s2 heq
    have e : s2 = s := Option.some.inj (heq.symm.trans hs1)
    subst e
    by_cases c : s2.1 > 0
    · rw [if_pos c]
      refine ⟨_, rfl, ?_, ?_, ?_, Or.inr rfl⟩
      · rw [hs2]; exact hu2
      · rw [hs2]; exact hu3
      · exact ⟨fun _ => hiff.mp c, fun _ => rfl⟩
    · rw [if_neg c]
      refine ⟨_, rfl, ?_, ?_, ?_, Or.inl rfl⟩
      · rw [hs2]; exact hu2
      · rw [hs2]; exact hu3
      · exact ⟨fun h => (by cases h), fun h => absurd (hiff.mpr h) c⟩

omit [LinearOrderedField α] in
/-- Saving the old active set writes only the log. -/
theorem solve_savePrevIeqStatus_frame (N itCntr : Nat) (q : qpData_t α) :
    ({ (solve_savePrevIeqStatus N itCntr q : qpData_t α) with log := q.log } : qpData_t α) =
      q := by
  unfold solve_savePrevIeqStatus
  split_ifs
  · rfl
  · refine forUp_invariant _ (fun (s : qpData_t α) => ({ s with log := q.log } : qpData_t α) = q)
      (fun kk s hs => ?_) _ _ _ rfl
    refine forUp_invariant _ (fun (s : qpData_t α) => ({ s with log := q.log } : qpData_t α) = q)
      (fun ii s2 hs2 => ?_) _ _ _ hs
    exact hs2

theorem logIteration_sameButStart (sqrt_f : α → α) (N nX : Nat) (q : qpData_t α) (obj : α)
    (idx : Int) : SameButStart q (qpDUNES_logIteration sqrt_f N nX q obj idx) :=
  SameButStart_of_eq _ _ rfl

/-- The end of a pass (dual_qp.c 167-188) writes only the log and the change flags of the
stages. -/
theorem solve_passEnd_frame (sqrt_f : α → α) (N nX itCntr : Nat) (q : qpData_t α) (obj : α) :
    SameButStart q (qpDUNES_logIteration sqrt_f N nX
      (solve_updateActSet N (solve_savePrevIeqStatus N itCntr q)).1 obj
      (solve_updateActSet N (solve_savePrevIeqStatus N itCntr q)).2) := by
  have h1 : SameButStart q (solve_savePrevIeqStatus N itCntr q) :=
    SameButStart_of_eq _ _ (solve_savePrevIeqStatus_frame N itCntr q)
  have h2 := solve_updateActSet_sameButStart N (solve_savePrevIeqStatus N itCntr q)
  exact SameButStart_trans (SameButStart_trans h1 h2)
    (logIteration_sameButStart sqrt_f N nX _ obj _)

/-- A backtracking search all of whose passes continue ends with
NUMBER_OF_MAX_LINESEARCH_ITERATIONS_REACHED at the head state after the last pass. -/
theorem backTrackingLineSearch_exhausted (sqrt_f : α → α) (ext : collaborators_t α) (N : Nat)
    (qp : qpData_t α) (dL : vector_t α) (nV : Nat) (aMin aMax obj : α)
    (hc : ∀ j, j < qp.options.maxNumLineSearchIterations - (qp.log.itLog 0).numLineSearchIter →
      backTracking_continues sqrt_f ext N qp dL nV aMin aMax obj j) :
    ∃ s, backTracking_head ext N qp aMax
        (qp.options.maxNumLineSearchIterations - (qp.log.itLog 0).numLineSearchIter) = some s ∧
      qpDUNES_backTrackingLineSearch sqrt_f ext N qp dL nV aMin aMax obj =
        some (return_t.QPDUNES_ERR_NUMBER_OF_MAX_LINESEARCH_ITERATIONS_REACHED,
          s.setNumLineSearchIter ((qp.log.itLog 0).numLineSearchIter +
            (qp.options.maxNumLineSearchIterations - (qp.log.itLog 0).numLineSearchIter))) := by
  obtain ⟨s, h1, h2⟩ := backTracking_prefix sqrt_f ext N qp dL nV aMin aMax obj _ hc
  obtain ⟨a1, _, _, _⟩ := backTracking_head_frame ext N qp aMax _ s h1
  refine ⟨s, h1, ?_⟩
  rw [backTrackingLineSearch_eq, h2]
  dsimp only
  rw [a1]

/-- In the four line search types that start with the backtracking search, a backtracking
search that reports DECEEDED_MIN_LINESEARCH_STEPSIZE ends the step length determination at
once: the status is returned with the state the search left, whose multipliers are as at
entry (dual_qp.c 977-1022). -/
theorem determineStepLength_deceeded_any (sqrt_f : α → α) (ext : collaborators_t α)
    (N nX nZ : Nat) (qp : qpData_t α) (obj : α) (reg : Bool) (qb : qpData_t α)
    (hls : qp.options.lsType = lsType_t.QPDUNES_LS_BACKTRACKING_LS ∨
      qp.options.lsType = lsType_t.QPDUNES_LS_BACKTRACKING_LS_WITH_AS_CHANGE ∨
      qp.options.lsType = lsType_t.QPDUNES_LS_ACCELERATED_GRADIENT_BISECTION_LS ∨
      qp.options.lsType = lsType_t.QPDUNES_LS_ACCELERATED_GRID_LS)
    (hno : ¬ (determineStepLength_alphaMin ext N qp > 1 - qp.options.equalityTolerance ∧
      reg = false))
    (hbt : qpDUNES_backTrackingLineSearch sqrt_f ext N (qp.setNumLineSearchIter 0)
      qp.deltaLambda (nX * N) 0 1 obj =
      some (return_t.QPDUNES_ERR_DECEEDED_MIN_LINESEARCH_STEPSIZE, qb)) :
    qpDUNES_determineStepLength sqrt_f ext N nX nZ qp obj reg =
      some (return_t.QPDUNES_ERR_DECEEDED_MIN_LINESEARCH_STEPSIZE, qb, obj) ∧
    qb.alpha = 0 ∧ qb.lambda = qp.lambda := by
  obtain ⟨_, f2, _, f4⟩ := backTrackingLineSearch_frame sqrt_f ext N _ _ _ _ _ _ _ qb hbt
  refine ⟨?_, f4 rfl, f2⟩
  refine determineStepLength_searchError sqrt_f ext N nX nZ qp obj reg _ hno ?_
  have hbt2 : qpDUNES_backTrackingLineSearch sqrt_f ext N (qp.setNumLineSearchIter 0)
      (qp.setNumLineSearchIter 0).deltaLambda (nX * N) 0 1 obj =
      some (return_t.QPDUNES_ERR_DECEEDED_MIN_LINESEARCH_STEPSIZE, qb) := hbt
  have hls2 : (qp.setNumLineSearchIter 0).options.lsType = qp.options.lsType := rfl
  unfold determineStepLength_lineSearch
  rcases hls with h | h | h | h <;>
  · rw [hls2, h]
    dsimp only
    rw [hbt2]
    dsimp only
    rw [if_pos rfl]

/-- A pass whose step length determination returns QPDUNES_OK,
NUMBER_OF_MAX_LINESEARCH_ITERATIONS_REACHED or EXCEEDED_MAX_LINESEARCH_STEPSIZE goes on to
the next pass: the incumbent is the objective value the determination reports, and besides
the log only the change flags of the stages are written after it. -/
theorem solve_pass_continues (sqrt_f : α → α) (ext : collaborators_t α) (N nX nZ : Nat)
    (s0 s : qpData_t α × Int × α) (j : Nat) (qd : qpData_t α) (a : return_t × qpData_t α)
    (d : return_t × qpData_t α × α)
    (hpre : forUpM (solve_iteration sqrt_f ext N nX nZ) 1 j s0 = Except.ok s)
    (hdir : solve_direction sqrt_f ext N nX nZ (1 + j) (solve_iterationHead (1 + j) s.1) s.2.1 =
      Except.ok qd)
    (hloc : qpDUNES_solveAllLocalQPs ext N nX qd qd.deltaLambda = some a)
    (hdet : qpDUNES_determineStepLength sqrt_f ext N nX nZ a.2 s.2.2
      (a.2.log.itLog 0).isHessianRegularized = some d)
    (hst : d.1 = return_t.QPDUNES_OK ∨
      d.1 = return_t.QPDUNES_ERR_NUMBER_OF_MAX_LINESEARCH_ITERATIONS_REACHED ∨
      d.1 = return_t.QPDUNES_ERR_EXCEEDED_MAX_LINESEARCH_STEPSIZE) :
    ∃ s1, solve_iteration sqrt_f ext N nX nZ (1 + j) s = Except.ok s1 ∧
      forUpM (solve_iteration sqrt_f ext N nX nZ) 1 (j + 1) s0 = Except.ok s1 ∧
      s1.2.2 = d.2.2 ∧ SameButStart d.2.1 s1.1 := by
  have hit := solve_iteration_eq sqrt_f ext N nX nZ (1 + j) s
  rw [hdir] at hit
  dsimp only at hit
  rw [(solve_iterationTail_of sqrt_f ext N nX nZ (1 + j) s.2.2 qd a d hloc hdet).1 hst] at hit
  refine ⟨_, hit, ?_, rfl, solve_passEnd_frame sqrt_f N nX (1 + j) d.2.1 d.2.2⟩
  simp only [forUpM]
  rw [hpre]
  exact hit

end RunLemmas

/-! ## Frames of the line searches and the step after them -/

section LineSearchFrames

variable {α : Type} [LinearOrderedField α]

omit [LinearOrderedField α] in
theorem SameMultipliers_refl (q : qpData_t α) : SameMultipliers q q := ⟨rfl, rfl, rfl⟩

omit [LinearOrderedField α] in
theorem SameMultipliers_trans {q q2 q3 : qpData_t α} (h1 : SameMultipliers q q2)
    (h2 : SameMultipliers q2 q3) : SameMultipliers q q3 :=
  ⟨h2.1.trans h1.1, h2.2.1.trans h1.2.1, h2.2.2.trans h1.2.2⟩

omit [LinearOrderedField α] in
theorem SameMultipliers_of_stages {q q2 : qpData_t α} (h : SameButStages q q2) :
    SameMultipliers q q2 := ⟨h.1, h.2.1, h.2.2.1⟩

/-- The trial gradient of the bisection search writes only the stages and scratch
vectors. -/
theorem bisectionIntervalSearch_gradient_frame (ext : collaborators_t α) (N nX nZ : Nat)
    (q : qpData_t α) (a : α) :
    SameMultipliers q (bisectionIntervalSearch_gradient ext N nX nZ q a) := by
  unfold bisectionIntervalSearch_gradient
  dsimp only
  refine forUp_invariant _ (fun s => SameMultipliers q s) (fun i s hs => by exact hs) _ _ _ ?_
  exact forUp_invariant _ (fun s => SameMultipliers q s) (fun i s hs => by exact hs) _ _ _
    (SameMultipliers_refl q)

/-- The second loop of the bisection search leaves the options, the multipliers and the
step direction. -/
theorem bisectionIntervalSearch_bisect_frame (ext : collaborators_t α) (N nX nZ : Nat)
    (q : qpData_t α) (dL : vector_t α) (nV : Nat) (sn aMin aMax : α) :
    SameMultipliers q (bisectionIntervalSearch_bisect ext N nX nZ q dL nV sn aMin aMax).2 := by
  unfold bisectionIntervalSearch_bisect
  dsimp only
  have inv := forUpM_invariant
    (fun i (s : qpData_t α × α × α × α) =>
      if abs_f (divide_f (scalarProd (bisectionIntervalSearch_gradient ext N nX nZ
          (s.1.setNumLineSearchIter i) (1 / 2 * (s.2.1 + s.2.2.1))).xnVecTmp2 dL nV) sn) ≤
          (bisectionIntervalSearch_gradient ext N nX nZ (s.1.setNumLineSearchIter i)
            (1 / 2 * (s.2.1 + s.2.2.1))).options.lineSearchStationarityTolerance then
        (Except.error (return_t.QPDUNES_OK,
          ({ bisectionIntervalSearch_gradient ext N nX nZ (s.1.setNumLineSearchIter i)
              (1 / 2 * (s.2.1 + s.2.2.1)) with alpha := 1 / 2 * (s.2.1 + s.2.2.1) } :
            qpData_t α)) : Except (return_t × qpData_t α) (qpData_t α × α × α × α))
      else if scalarProd (bisectionIntervalSearch_gradient ext N nX nZ
          (s.1.setNumLineSearchIter i) (1 / 2 * (s.2.1 + s.2.2.1))).xnVecTmp2 dL nV > 0 then
        Except.ok (bisectionIntervalSearch_gradient ext N nX nZ (s.1.setNumLineSearchIter i)
          (1 / 2 * (s.2.1 + s.2.2.1)), 1 / 2 * (s.2.1 + s.2.2.1), s.2.2.1,
          1 / 2 * (s.2.1 + s.2.2.1))
      else Except.ok (bisectionIntervalSearch_gradient ext N nX nZ
        (s.1.setNumLineSearchIter i) (1 / 2 * (s.2.1 + s.2.2.1)), s.2.1,
        1 / 2 * (s.2.1 + s.2.2.1), 1 / 2 * (s.2.1 + s.2.2.1)))
    (fun (s : qpData_t α × α × α × α) => SameMultipliers q s.1)
    (fun (e : return_t × qpData_t α) => SameMultipliers q e.2)
    (q.log.itLog 0).numLineSearchIter
    (q.options.maxNumLineSearchRefinementIterations - (q.log.itLog 0).numLineSearchIter)
    (fun i s s1 hP hb => by
      have hg := bisectionIntervalSearch_gradient_frame ext N nX nZ
        (s.1.setNumLineSearchIter i) (1 / 2 * (s.2.1 + s.2.2.1))
      have hP2 : SameMultipliers q (s.1.setNumLineSearchIter i) := hP
      dsimp only at hb
      split_ifs at hb
      · simp only [Except.ok.injEq] at hb
        rw [← hb]
        exact SameMultipliers_trans hP2 hg
      · simp only [Except.ok.injEq] at hb
        rw [← hb]
        exact SameMultipliers_trans hP2 hg)
    (fun i s e hP hb => by
      have hg := bisectionIntervalSearch_gradient_frame ext N nX nZ
        (s.1.setNumLineSearchIter i) (1 / 2 * (s.2.1 + s.2.2.1))
      have hP2 : SameMultipliers q (s.1.setNumLineSearchIter i) := hP
      dsimp only at hb
      split_ifs at hb
      simp only [Except.error.injEq] at hb
      rw [← hb]
      exact SameMultipliers_trans hP2 hg)
    (q, aMin, aMax, 1) (SameMultipliers_refl q)
  split
  · rename_i s hs
    exact inv.1 s hs
  · rename_i e he
    exact inv.2 e he

/-- The bisection search leaves the options, the multipliers and the step direction. -/
theorem bisectionIntervalSearch_frame (sqrt_f : α → α) (ext : collaborators_t α)
    (N nX nZ : Nat) (q : qpData_t α) (dL : vector_t α) (nV : Nat) (aMin aMax : α) :
    SameMultipliers q
      (qpDUNES_bisectionIntervalSearch sqrt_f ext N nX nZ q dL nV aMin aMax).2 := by
  unfold qpDUNES_bisectionIntervalSearch
  dsimp only
  have hstep : ∀ (i : Nat) (s : qpData_t α × α × α), SameMultipliers q s.1 →
      SameMultipliers q (bisectionIntervalSearch_gradient ext N nX nZ
        (s.1.setNumLineSearchIter i) s.2.2) := by
    intro i s hP
    have hP2 : SameMultipliers q (s.1.setNumLineSearchIter i) := hP
    exact SameMultipliers_trans hP2 (bisectionIntervalSearch_gradient_frame ext N nX nZ _ _)
  have hok : ∀ (i : Nat) (s s1 : qpData_t α × α × α), SameMultipliers q s.1 →
      (if abs_f (divide_f (scalarProd (bisectionIntervalSearch_gradient ext N nX nZ
            (s.1.setNumLineSearchIter i) s.2.2).xnVecTmp2 dL nV)
            (ext.qpDUNES_fmin 1 (vectorNorm sqrt_f dL nV))) ≤
          (bisectionIntervalSearch_gradient ext N nX nZ (s.1.setNumLineSearchIter i)
            s.2.2).options.lineSearchStationarityTolerance then
        (Except.error (bisectionExit_t.ret return_t.QPDUNES_OK
          { bisectionIntervalSearch_gradient ext N nX nZ (s.1.setNumLineSearchIter i) s.2.2
            with alpha := s.2.2 }) : Except (bisectionExit_t α) (qpData_t α × α × α))
      else if divide_f (scalarProd (bisectionIntervalSearch_gradient ext N nX nZ
            (s.1.setNumLineSearchIter i) s.2.2).xnVecTmp2 dL nV)
            (ext.qpDUNES_fmin 1 (vectorNorm sqrt_f dL nV)) < 0 then
        Except.error (bisectionExit_t.brk (bisectionIntervalSearch_gradient ext N nX nZ
          (s.1.setNumLineSearchIter i) s.2.2) s.2.1 s.2.2)
      else
        if s.2.2 * (bisectionIntervalSearch_gradient ext N nX nZ (s.1.setNumLineSearchIter i)
            s.2.2).options.lineSearchIncreaseFactor >
            (bisectionIntervalSearch_gradient ext N nX nZ (s.1.setNumLineSearchIter i)
              s.2.2).options.lineSearchMaxStepSize then
          Except.error (bisectionExit_t.ret
            return_t.QPDUNES_ERR_EXCEEDED_MAX_LINESEARCH_STEPSIZE
            { bisectionIntervalSearch_gradient ext N nX nZ (s.1.setNumLineSearchIter i) s.2.2
              with alpha := s.2.2 })
        else Except.ok (bisectionIntervalSearch_gradient ext N nX nZ
          (s.1.setNumLineSearchIter i) s.2.2, s.2.2,
          s.2.2 * (bisectionIntervalSearch_gradient ext N nX nZ (s.1.setNumLineSearchIter i)
            s.2.2).options.lineSearchIncreaseFactor)) = Except.ok s1 →
      SameMultipliers q s1.1 := by
    intro i s s1 hP hb
    split_ifs at hb
    simp only [Except.ok.injEq] at hb
    rw [← hb]
    exact hstep i s hP
  have herr : ∀ (i : Nat) (s : qpData_t α × α × α) (e : bisectionExit_t α),
      SameMultipliers q s.1 →
      (if abs_f (divide_f (scalarProd (bisectionIntervalSearch_gradient ext N nX nZ
            (s.1.setNumLineSearchIter i) s.2.2).xnVecTmp2 dL nV)
            (ext.qpDUNES_fmin 1 (vectorNorm sqrt_f dL nV))) ≤
          (bisectionIntervalSearch_gradient ext N nX nZ (s.1.setNumLineSearchIter i)
            s.2.2).options.lineSearchStationarityTolerance then
        (Except.error (bisectionExit_t.ret return_t.QPDUNES_OK
          { bisectionIntervalSearch_gradient ext N nX nZ (s.1.setNumLineSearchIter i) s.2.2
            with alpha := s.2.2 }) : Except (bisectionExit_t α) (qpData_t α × α × α))
      else if divide_f (scalarProd (bisectionIntervalSearch_gradient ext N nX nZ
            (s.1.setNumLineSearchIter i) s.2.2).xnVecTmp2 dL nV)
            (ext.qpDUNES_fmin 1 (vectorNorm sqrt_f dL nV)) < 0 then
        Except.error (bisectionExit_t.brk (bisectionIntervalSearch_gradient ext N nX nZ
          (s.1.setNumLineSearchIter i) s.2.2) s.2.1 s.2.2)
      else
        if s.2.2 * (bisectionIntervalSearch_gradient ext N nX nZ (s.1.setNumLineSearchIter i)
            s.2.2).options.lineSearchIncreaseFactor >
            (bisectionIntervalSearch_gradient ext N nX nZ (s.1.setNumLineSearchIter i)
              s.2.2).options.lineSearchMaxStepSize then
          Except.error (bisectionExit_t.ret
            return_t.QPDUNES_ERR_EXCEEDED_MAX_LINESEARCH_STEPSIZE
            { bisectionIntervalSearch_gradient ext N nX nZ (s.1.setNumLineSearchIter i) s.2.2
              with alpha := s.2.2 })
        else Except.ok (bisectionIntervalSearch_gradient ext N nX nZ
          (s.1.setNumLineSearchIter i) s.2.2, s.2.2,
          s.2.2 * (bisectionIntervalSearch_gradient ext N nX nZ (s.1.setNumLineSearchIter i)
            s.2.2).options.lineSearchIncreaseFactor)) = Except.error e →
      SameMultipliers q e.state := by
    intro i s e hP hb
    split_ifs at hb
    · simp only [Except.error.injEq] at hb
      rw [← hb]
      exact hstep i s hP
    · simp only [Except.error.injEq] at hb
      rw [← hb]
      exact hstep i s hP
    · simp only [Except.error.injEq] at hb
      rw [← hb]
      exact hstep i s hP
  split
  · rename_i st q1 he
    exact (forUpM_invariant _ (fun (s : qpData_t α × α × α) => SameMultipliers q s.1)
      (fun (e : bisectionExit_t α) => SameMultipliers q e.state) _ _
      (fun i s s1 hP hb => hok i s s1 hP hb) (fun i s e hP hb => herr i s e hP hb)
      (q, aMin, aMax) (SameMultipliers_refl q)).2 _ he
  · rename_i qb a1 a2 he
    have hb : SameMultipliers q qb :=
      (forUpM_invariant _ (fun (s : qpData_t α × α × α) => SameMultipliers q s.1)
        (fun (e : bisectionExit_t α) => SameMultipliers q e.state) _ _
        (fun i s s1 hP hb => hok i s s1 hP hb) (fun i s e hP hb => herr i s e hP hb)
        (q, aMin, aMax) (SameMultipliers_refl q)).2 _ he
    exact SameMultipliers_trans hb (bisectionIntervalSearch_bisect_frame ext N nX nZ _ _ _ _ _ _)
  · rename_i s hs
    have hb : SameMultipliers q s.1 :=
      (forUpM_invariant _ (fun (s : qpData_t α × α × α) => SameMultipliers q s.1)
        (fun (e : bisectionExit_t α) => SameMultipliers q e.state) _ _
        (fun i s s1 hP hb => hok i s s1 hP hb) (fun i s e hP hb => herr i s e hP hb)
        (q, aMin, aMax) (SameMultipliers_refl q)).1 _ hs
    have hb2 : SameMultipliers q (s.1.setNumLineSearchIter
      ((q.log.itLog 0).numLineSearchIter +
        (q.options.maxNumLineSearchRefinementIterations -
          (q.log.itLog 0).numLineSearchIter))) := hb
    exact SameMultipliers_trans hb2
      (bisectionIntervalSearch_bisect_frame ext N nX nZ _ _ _ _ _ _)

/-- The grid search is its loop of passes, then the count of the evaluations. -/
theorem gridSearch_eq (ext : collaborators_t α) (N : Nat) (qp : qpData_t α)
    (obj aMin aMax : α) :
    qpDUNES_gridSearch ext N qp obj aMin aMax =
      match gridSearch_before ext N qp obj aMin aMax qp.options.lineSearchNbrGridPoints with
      | none => none
      | some s =>
        some (return_t.QPDUNES_OK,
          s.1.setNumLineSearchIter
            ((s.1.log.itLog 0).numLineSearchIter + qp.options.lineSearchNbrGridPoints),
          s.2) := by
  unfold qpDUNES_gridSearch gridSearch_before gridSearch_pass gridSearch_point
  rfl

theorem gridSearch_before_succ (ext : collaborators_t α) (N : Nat) (qp : qpData_t α)
    (obj aMin aMax : α) (n : Nat) :
    gridSearch_before ext N qp obj aMin aMax (n + 1) =
      match gridSearch_before ext N qp obj aMin aMax n with
      | some s => gridSearch_pass ext N qp aMin aMax n s
      | none => none := by
  unfold gridSearch_before
  simp only [forUpO, Nat.zero_add]
  cases forUpO (gridSearch_pass ext N qp aMin aMax) 0 n (qp, obj) <;> rfl

/-- A pass of the grid search: the incumbent and the step length after it, and what it
leaves of the state. -/
theorem gridSearch_pass_spec (ext : collaborators_t α) (N : Nat) (qp : qpData_t α)
    (aMin aMax : α) (kk : Nat) (s s1 : qpData_t α × α)
    (h : gridSearch_pass ext N qp aMin aMax kk s = some s1) :
    ∃ r, qpDUNES_computeParametricObjectiveValue ext N s.1
        (gridSearch_point qp aMin aMax kk) = some r ∧
      ((r.1 > s.2 ∧ s1.2 = r.1 ∧ s1.1.alpha = gridSearch_point qp aMin aMax kk) ∨
        (¬ r.1 > s.2 ∧ s1.2 = s.2 ∧ s1.1.alpha = s.1.alpha)) ∧
      SameMultipliers s.1 s1.1 ∧ s1.1.log = s.1.log := by
  unfold gridSearch_pass at h
  cases hr : qpDUNES_computeParametricObjectiveValue ext N s.1
      (gridSearch_point qp aMin aMax kk) with
  | none => rw [hr] at h; simp at h
  | some r =>
    rw [hr] at h
    dsimp only at h
    have hf := computeParametricObjectiveValue_frame ext N _ _ r hr
    refine ⟨r, rfl, ?_⟩
    split_ifs at h with c
    · simp only [Option.some.injEq] at h
      rw [← h]
      exact ⟨Or.inl ⟨c, rfl, rfl⟩, ⟨hf.1, hf.2.1, hf.2.2.1⟩, hf.2.2.2.2⟩
    · simp only [Option.some.injEq] at h
      rw [← h]
      exact ⟨Or.inr ⟨c, rfl, hf.2.2.2.1⟩, ⟨hf.1, hf.2.1, hf.2.2.1⟩, hf.2.2.2.2⟩

/-- The loop of the grid search, pass by pass: the incumbent is never below its value at
entry nor below an evaluated value; it is either still the value at entry, with the step
length as at entry, or the value of the first pass that attains it, with the step length at
the grid point of that pass. -/
theorem gridSearch_before_spec (ext : collaborators_t α) (N : Nat) (qp : qpData_t α)
    (obj aMin aMax : α) (n : Nat) (s : qpData_t α × α)
    (h : gridSearch_before ext N qp obj aMin aMax n = some s) :
    SameMultipliers qp s.1 ∧ s.1.log = qp.log ∧ obj ≤ s.2 ∧
    (∀ kk, kk < n → ∃ x, gridSearch_value ext N qp obj aMin aMax kk = some x ∧ x ≤ s.2) ∧
    ((s.2 = obj ∧ s.1.alpha = qp.alpha) ∨
      ∃ kk, kk < n ∧ gridSearch_value ext N qp obj aMin aMax kk = some s.2 ∧ obj < s.2 ∧
        s.1.alpha = gridSearch_point qp aMin aMax kk ∧
        ∀ j, j < kk → ∀ x, gridSearch_value ext N qp obj aMin aMax j = some x → x < s.2) := by
  induction n generalizing s with
  | zero =>
    simp only [gridSearch_before, forUpO, Option.some.injEq] at h
    rw [← h]
    exact ⟨SameMultipliers_refl qp, rfl, le_refl _, fun kk hk => absurd hk (Nat.not_lt_zero kk),
      Or.inl ⟨rfl, rfl⟩⟩
  | succ n ih =>
    rw [gridSearch_before_succ] at h
    cases hb : gridSearch_before ext N qp obj aMin aMax n with
    | none => rw [hb] at h; simp at h
    | some s0 =>
      rw [hb] at h
      dsimp only at h
      obtain ⟨i1, i2, i3, i4, i5⟩ := ih s0 hb
      obtain ⟨r, hr, hcase, hf, hl⟩ := gridSearch_pass_spec ext N qp aMin aMax n s0 s h
      have hval : gridSearch_value ext N qp obj aMin aMax n = some r.1 := by
        unfold gridSearch_value
        rw [hb]
        dsimp only
        rw [hr]
      refine ⟨SameMultipliers_trans i1 hf, hl.trans i2, ?_, ?_, ?_⟩
      · rcases hcase with ⟨c, e, _⟩ | ⟨_, e, _⟩
        · rw [e]; exact le_trans i3 (le_of_lt c)
        · rw [e]; exact i3
      · intro kk hk
        rcases Nat.lt_succ_iff_lt_or_eq.mp hk with hlt | heq
        · obtain ⟨x, hx1, hx2⟩ := i4 kk hlt
          refine ⟨x, hx1, ?_⟩
          rcases hcase with ⟨c, e, _⟩ | ⟨_, e, _⟩
          · rw [e]; exact le_trans hx2 (le_of_lt c)
          · rw [e]; exact hx2
        · subst heq
          refine ⟨r.1, hval, ?_⟩
          rcases hcase with ⟨_, e, _⟩ | ⟨c, e, _⟩
          · rw [e]
          · rw [e]; exact not_lt.mp c
      · rcases hcase with ⟨c, e, ea⟩ | ⟨c, e, ea⟩
        · refine Or.inr ⟨n, Nat.lt_succ_self n, ?_, ?_, ea, fun j hj x hx => ?_⟩
          · rw [e]; exact hval
          · rw [e]; exact lt_of_le_of_lt i3 c
          · obtain ⟨x2, hx1, hx2⟩ := i4 j hj
            rw [hx1] at hx
            have e2 : x2 = x := Option.some.inj hx
            rw [e, ← e2]
            exact lt_of_le_of_lt hx2 c
        · rcases i5 with ⟨j1, j2⟩ | ⟨kk, k1, k2, k3, k4, k5⟩
          · exact Or.inl ⟨e.trans j1, ea.trans j2⟩
          · refine Or.inr ⟨kk, Nat.lt_succ_of_lt k1, ?_, ?_, ea.trans k4, ?_⟩
            · rw [e]; exact k2
            · rw [e]; exact k3
            · rw [e]; exact k5

/-- The loop of the grid search goes through when every evaluation does. -/
theorem gridSearch_before_total (ext : collaborators_t α) (N : Nat) (qp : qpData_t α)
    (obj aMin aMax : α) (n : Nat)
    (hval : ∀ kk, kk < n → ∃ x, gridSearch_value ext N qp obj aMin aMax kk = some x) :
    ∃ s, gridSearch_before ext N qp obj aMin aMax n = some s := by
  induction n with
  | zero => exact ⟨_, rfl⟩
  | succ n ih =>
    obtain ⟨s0, hs0⟩ := ih (fun kk hk => hval kk (Nat.lt_succ_of_lt hk))
    obtain ⟨x, hx⟩ := hval n (Nat.lt_succ_self n)
    unfold gridSearch_value at hx
    rw [hs0] at hx
    dsimp only at hx
    rw [gridSearch_before_succ, hs0]
    dsimp only
    unfold gridSearch_pass
    cases hr : qpDUNES_computeParametricObjectiveValue ext N s0.1
        (gridSearch_point qp aMin aMax n) with
    | none => rw [hr] at hx; simp at hx
    | some r =>
      dsimp only
      split_ifs
      · exact ⟨_, rfl⟩
      · exact ⟨_, rfl⟩

/-- The outcome of `qpDUNES_gridSearch` in terms of the state its loop leaves. -/
theorem gridSearch_outcome (ext : collaborators_t α) (N : Nat) (qp : qpData_t α)
    (obj aMin aMax : α) (r : return_t × qpData_t α × α)
    (h : qpDUNES_gridSearch ext N qp obj aMin aMax = some r) :
    ∃ s, gridSearch_before ext N qp obj aMin aMax qp.options.lineSearchNbrGridPoints = some s ∧
      r = (return_t.QPDUNES_OK,
        s.1.setNumLineSearchIter
          ((s.1.log.itLog 0).numLineSearchIter + qp.options.lineSearchNbrGridPoints), s.2) := by
  rw [gridSearch_eq] at h
  cases hb : gridSearch_before ext N qp obj aMin aMax qp.options.lineSearchNbrGridPoints with
  | none => rw [hb] at h; simp at h
  | some s =>
    rw [hb] at h
    exact ⟨s, rfl, (Option.some.inj h).symm⟩

/-- The grid search leaves the options, the multipliers and the step direction. -/
theorem gridSearch_frame (ext : collaborators_t α) (N : Nat) (qp : qpData_t α)
    (obj aMin aMax : α) (r : return_t × qpData_t α × α)
    (h : qpDUNES_gridSearch ext N qp obj aMin aMax = some r) :
    SameMultipliers qp r.2.1 := by
  obtain ⟨s, hs, hr⟩ := gridSearch_outcome ext N qp obj aMin aMax r h
  rw [hr]
  exact (gridSearch_before_spec ext N qp obj aMin aMax _ s hs).1

/-- The line search switch: a search that goes on to the update of the variables has left
the options, the multipliers and the step direction, and an early return carries
DECEEDED_MIN_LINESEARCH_STEPSIZE. -/
theorem determineStepLength_lineSearch_frame (sqrt_f : α → α) (ext : collaborators_t α)
    (N nX nZ : Nat) (q : qpData_t α) (nV : Nat) (aMin aMax obj : α) :
    (∀ r, determineStepLength_lineSearch sqrt_f ext N nX nZ q nV aMin aMax obj =
        some (Except.ok r) → SameMultipliers q r.2.1) ∧
    (∀ e, determineStepLength_lineSearch sqrt_f ext N nX nZ q nV aMin aMax obj =
        some (Except.error e) →
      e.1 = return_t.QPDUNES_ERR_DECEEDED_MIN_LINESEARCH_STEPSIZE) := by
  have hbt : ∀ r, qpDUNES_backTrackingLineSearch sqrt_f ext N q q.deltaLambda nV 0 aMax obj =
      some r → SameMultipliers q r.2 := by
    intro r hr
    obtain ⟨f1, f2, f3, _⟩ := backTrackingLineSearch_frame sqrt_f ext N q q.deltaLambda nV 0
      aMax obj r.1 r.2 hr
    exact ⟨f1, f2, f3⟩
  unfold determineStepLength_lineSearch
  cases hls : q.options.lsType
  · dsimp only
    cases hb : qpDUNES_backTrackingLineSearch sqrt_f ext N q q.deltaLambda nV 0 aMax obj with
    | none => exact ⟨fun r h => by simp at h, fun e h => by simp at h⟩
    | some b =>
      dsimp only
      split_ifs with c
      · refine ⟨fun r h => by simp at h, fun e h => ?_⟩
        simp only [Option.some.injEq, Except.error.injEq] at h
        rw [← h]
        exact c
      · refine ⟨fun r h => ?_, fun e h => by simp at h⟩
        simp only [Option.some.injEq, Except.ok.injEq] at h
        rw [← h]
        exact hbt b hb
  · dsimp only
    cases hb : qpDUNES_backTrackingLineSearch sqrt_f ext N q q.deltaLambda nV 0 aMax obj with
    | none => exact ⟨fun r h => by simp at h, fun e h => by simp at h⟩
    | some b =>
      dsimp only
      split_ifs with c c2
      · refine ⟨fun r h => by simp at h, fun e h => ?_⟩
        simp only [Option.some.injEq, Except.error.injEq] at h
        rw [← h]
        exact c
      · refine ⟨fun r h => ?_, fun e h => by simp at h⟩
        simp only [Option.some.injEq, Except.ok.injEq] at h
        rw [← h]
        exact hbt b hb
      · refine ⟨fun r h => ?_, fun e h => by simp at h⟩
        simp only [Option.some.injEq, Except.ok.injEq] at h
        rw [← h]
        exact hbt b hb
  · exact ⟨fun r h => by simp at h, fun e h => by simp at h⟩
  · dsimp only
    refine ⟨fun r h => ?_, fun e h => by simp at h⟩
    simp only [Option.some.injEq, Except.ok.injEq] at h
    rw [← h]
    exact bisectionIntervalSearch_frame sqrt_f ext N nX nZ q q.deltaLambda nV aMin aMax
  · dsimp only
    cases hb : qpDUNES_backTrackingLineSearch sqrt_f ext N q q.deltaLambda nV 0 aMax obj with
    | none => exact ⟨fun r h => by simp at h, fun e h => by simp at h⟩
    | some b =>
      dsimp only
      split_ifs with c
      · refine ⟨fun r h => by simp at h, fun e h => ?_⟩
        simp only [Option.some.injEq, Except.error.injEq] at h
        rw [← h]
        exact c
      · refine ⟨fun r h => ?_, fun e h => by simp at h⟩
        simp only [Option.some.injEq, Except.ok.injEq] at h
        rw [← h]
        exact SameMultipliers_trans (hbt b hb)
          (bisectionIntervalSearch_frame sqrt_f ext N nX nZ b.2 b.2.deltaLambda nV aMin _)
  · dsimp only
    cases hg : qpDUNES_gridSearch ext N q obj aMin aMax with
    | none => exact ⟨fun r h => by simp at h, fun e h => by simp at h⟩
    | some g =>
      dsimp only
      refine ⟨fun r h => ?_, fun e h => by simp at h⟩
      simp only [Option.some.injEq, Except.ok.injEq] at h
      rw [← h]
      exact gridSearch_frame ext N q obj aMin aMax g hg
  · dsimp only
    cases hb : qpDUNES_backTrackingLineSearch sqrt_f ext N q q.deltaLambda nV 0 aMax obj with
    | none => exact ⟨fun r h => by simp at h, fun e h => by simp at h⟩
    | some b =>
      dsimp only
      split_ifs with c
      · refine ⟨fun r h => by simp at h, fun e h => ?_⟩
        simp only [Option.some.injEq, Except.error.injEq] at h
        rw [← h]
        exact c
      · cases hg : qpDUNES_gridSearch ext N b.2 obj aMin
            (ext.qpDUNES_fmin aMax (divide_f b.2.alpha q.options.lineSearchReductionFactor)) with
        | none => exact ⟨fun r h => by simp at h, fun e h => by simp at h⟩
        | some g =>
          dsimp only
          refine ⟨fun r h => ?_, fun e h => by simp at h⟩
          simp only [Option.some.injEq, Except.ok.injEq] at h
          rw [← h]
          exact SameMultipliers_trans (hbt b hb) (gridSearch_frame ext N b.2 obj aMin _ g hg)
  · dsimp only
    refine ⟨fun r h => ?_, fun e h => by simp at h⟩
    simp only [Option.some.injEq, Except.ok.injEq] at h
    rw [← h]
    exact SameMultipliers_refl q

omit [LinearOrderedField α] in
theorem doSteps_before_frame (ext : collaborators_t α) (qs : qpData_t α) (k : Nat) :
    SameButStages qs (doSteps_before ext qs k) ∧
    ∀ j, k ≤ j → (doSteps_before ext qs k).intervals j = qs.intervals j := by
  induction k with
  | zero => exact ⟨SameButStages_refl qs, fun _ _ => rfl⟩
  | succ k ih =>
    refine ⟨SameButStages_trans ih.1 (SameButStages_setInterval _ _ _), fun j hj => ?_⟩
    simp only [doSteps_before]
    rw [setInterval_intervals, if_neg (by omega)]
    exact ih.2 j (by omega)

omit [LinearOrderedField α] in
/-- After the step of stage `k` the later steps leave stage `k` as that step put it. -/
theorem doSteps_before_stage (ext : collaborators_t α) (qs : qpData_t α) (k m : Nat)
    (hm : k < m) :
    (doSteps_before ext qs m).intervals k =
      (ext.directQpSolver_doStep (doSteps_before ext qs k) k qs.alpha).2 := by
  induction m with
  | zero => omega
  | succ m ih =>
    simp only [doSteps_before]
    rw [setInterval_intervals]
    by_cases c : k = m
    · subst c
      rw [if_pos rfl, (doSteps_before_frame ext qs k).1.2.2.2.1]
    · rw [if_neg c]
      exact ih (by omega)

omit [LinearOrderedField α] in
/-- A loop of the stage steps that goes through has met clipping stages only and has taken
the step of every stage in turn. -/
theorem determineStepLength_doSteps_ok (ext : collaborators_t α) (N : Nat) (qs qd : qpData_t α)
    (h : determineStepLength_doSteps ext N qs = Except.ok qd) :
    qd = doSteps_before ext qs (N + 1) ∧
    ∀ k, k ≤ N → ((doSteps_before ext qs k).intervals k).qpSolverSpecification =
      qp_solver_t.QPDUNES_STAGE_QP_SOLVER_CLIPPING := by
  have key : ∀ (n : Nat) (qd : qpData_t α),
      forUpM (fun kk (qpData : qpData_t α) =>
        match (qpData.intervals kk).qpSolverSpecification with
        | qp_solver_t.QPDUNES_STAGE_QP_SOLVER_CLIPPING =>
          (Except.ok (qpData.setInterval kk
            (ext.directQpSolver_doStep qpData kk qpData.alpha).2) :
            Except (Option (return_t × qpData_t α)) (qpData_t α))
        | qp_solver_t.QPDUNES_STAGE_QP_SOLVER_QPOASES => Except.error none
        | qp_solver_t.QPDUNES_STAGE_QP_SOLVER_UNDEFINED =>
          Except.error (some (return_t.QPDUNES_ERR_UNKNOWN_ERROR, qpData))) 0 n qs =
        Except.ok qd →
      qd = doSteps_before ext qs n ∧
      ∀ k, k < n → ((doSteps_before ext qs k).intervals k).qpSolverSpecification =
        qp_solver_t.QPDUNES_STAGE_QP_SOLVER_CLIPPING := by
    intro n
    induction n with
    | zero =>
      intro qd h
      simp only [forUpM, Except.ok.injEq] at h
      exact ⟨h.symm, fun k hk => absurd hk (Nat.not_lt_zero k)⟩
    | succ n ih =>
      intro qd h
      simp only [forUpM, Nat.zero_add] at h
      split at h
      · rename_i s1 hs1
        obtain ⟨e1, e2⟩ := ih s1 hs1
        subst e1
        split at h
        · rename_i hc
          simp only [Except.ok.injEq] at h
          refine ⟨h.symm, fun k hk => ?_⟩
          rcases Nat.lt_succ_iff_lt_or_eq.mp hk with c | c
          · exact e2 k c
          · subst c
            exact hc
        · cases h
        · cases h
      · cases h
  unfold determineStepLength_doSteps at h
  obtain ⟨k1, k2⟩ := key (N + 1) qd h
  exact ⟨k1, fun k hk => k2 k (Nat.lt_succ_of_le hk)⟩

/-- The contract of a step length determination that returns QPDUNES_OK: the multipliers
have moved by the reported step length along the step direction, and after the search the
step of that length was taken in every stage, followed by the objective evaluation. -/
theorem determineStepLength_ok_contract (sqrt_f : α → α) (ext : collaborators_t α)
    (N nX nZ : Nat) (qp : qpData_t α) (obj : α) (reg : Bool) (q1 : qpData_t α) (obj1 : α)
    (h : qpDUNES_determineStepLength sqrt_f ext N nX nZ qp obj reg =
      some (return_t.QPDUNES_OK, q1, obj1)) :
    ∃ qs, qs.alpha = q1.alpha ∧ qs.lambda = q1.lambda ∧
      (∀ i, qs.lambda.data i =
        if i < nX * N then qp.lambda.data i + qs.alpha * qp.deltaLambda.data i
        else qp.lambda.data i) ∧
      determineStepLength_doSteps ext N qs = Except.ok (doSteps_before ext qs (N + 1)) ∧
      qpDUNES_computeObjectiveValue N (doSteps_before ext qs (N + 1)) = some (obj1, q1) := by
  have hfin : ∀ (qs : qpData_t α) (st : return_t) (o2 : α),
      (match determineStepLength_doSteps ext N qs with
        | Except.error none => none
        | Except.error (some e) => some (e.1, e.2, o2)
        | Except.ok qpData =>
          match qpDUNES_computeObjectiveValue N qpData with
          | none => none
          | some o => some (st, o.2, o.1)) = some (return_t.QPDUNES_OK, q1, obj1) →
      qs.alpha = q1.alpha ∧ qs.lambda = q1.lambda ∧
      determineStepLength_doSteps ext N qs = Except.ok (doSteps_before ext qs (N + 1)) ∧
      qpDUNES_computeObjectiveValue N (doSteps_before ext qs (N + 1)) = some (obj1, q1) := by
    intro qs st o2 hm
    cases hd : determineStepLength_doSteps ext N qs with
    | error e =>
      rw [hd] at hm
      cases e with
      | none => simp at hm
      | some e =>
        simp only [Option.some.injEq, Prod.mk.injEq] at hm
        have := determineStepLength_doSteps_status ext N qs e hd
        rw [hm.1] at this
        cases this
    | ok qd =>
      rw [hd] at hm
      dsimp only at hm
      obtain ⟨e1, _⟩ := determineStepLength_doSteps_ok ext N qs qd hd
      subst e1
      cases ho : qpDUNES_computeObjectiveValue N (doSteps_before ext qs (N + 1)) with
      | none => rw [ho] at hm; simp at hm
      | some o =>
        rw [ho] at hm
        simp only [Option.some.injEq, Prod.mk.injEq] at hm
        have hf := computeObjectiveValue_frame N _ o ho
        have hb := (doSteps_before_frame ext qs (N + 1)).1
        have e2 : o = (obj1, q1) := Prod.ext hm.2.2 hm.2.1
        rw [e2] at hf
        refine ⟨?_, ?_, rfl, ?_⟩
        · exact (hf.2.2.2.1.trans hb.2.2.2.1).symm
        · exact (hf.2.1.trans hb.2.1).symm
        · rw [e2]
  unfold qpDUNES_determineStepLength at h
  dsimp only at h
  split_ifs at h with hshort
  · obtain ⟨a1, a2, a3, a4⟩ := hfin _ _ _ h
    refine ⟨_, a1, a2, fun i => ?_, a3, a4⟩
    exact addVectorScaledVector_data _ _ _ _ _ _
  · cases hsearch : determineStepLength_lineSearch sqrt_f ext N nX nZ
        (qp.setNumLineSearchIter 0) (nX * N)
        (determineStepLength_alphaMin ext N (qp.setNumLineSearchIter 0)) 1 obj with
    | none => rw [hsearch] at h; simp at h
    | some x =>
      rw [hsearch] at h
      obtain ⟨f1, f2⟩ := determineStepLength_lineSearch_frame sqrt_f ext N nX nZ
        (qp.setNumLineSearchIter 0) (nX * N)
        (determineStepLength_alphaMin ext N (qp.setNumLineSearchIter 0)) 1 obj
      cases x with
      | error e =>
        simp only [Option.some.injEq] at h
        have := f2 e hsearch
        rw [h] at this
        cases this
      | ok r =>
        dsimp only at h
        obtain ⟨a1, a2, a3, a4⟩ := hfin _ _ _ h
        obtain ⟨_, g2, g3⟩ := f1 r hsearch
        refine ⟨_, a1, a2, fun i => ?_, a3, a4⟩
        rw [addScaledVector_data]
        have e2 : r.2.1.lambda = qp.lambda := g2
        have e3 : r.2.1.deltaLambda = qp.deltaLambda := g3
        rw [e2, e3]

end LineSearchFrames

/-! ## The divisor of the bisection search -/

section BisectionDivisor

variable {α : Type} [LinearOrderedField α]

theorem divide_f_pos_iff (x d : α) (hd : 0 < d) : divide_f x d > 0 ↔ x > 0 := by
  unfold divide_f
  constructor
  · intro h
    by_contra c
    have hx : x ≤ 0 := not_lt.mp c
    exact absurd h (not_lt.mpr (div_nonpos_of_nonpos_of_nonneg hx (le_of_lt hd)))
  · intro h
    exact div_pos h hd

/-- With a positive divisor the sign test of the second loop on the undivided slope is the
test on the divided slope. -/
theorem bisect_dividedBy_eq (ext : collaborators_t α) (N nX nZ : Nat) (qp : qpData_t α)
    (dl : vector_t α) (nV : Nat) (d aMin aMax : α) (hd : 0 < d) :
    bisectionIntervalSearch_bisect_dividedBy ext N nX nZ qp dl nV d aMin aMax =
      bisectionIntervalSearch_bisect ext N nX nZ qp dl nV d aMin aMax := by
  unfold bisectionIntervalSearch_bisect_dividedBy bisectionIntervalSearch_bisect
  dsimp only
  congr 2
  funext i s
  by_cases c : scalarProd (bisectionIntervalSearch_gradient ext N nX nZ
      (s.1.setNumLineSearchIter i) (1 / 2 * (s.2.1 + s.2.2.1))).xnVecTmp2 dl nV > 0
  · rw [if_pos ((divide_f_pos_iff _ d hd).mpr c), if_pos c]
  · rw [if_neg (fun h => c ((divide_f_pos_iff _ d hd).mp h)), if_neg c]

/-- The bisection search divides the slope by `qpDUNES_fmin(1, |deltaLambda|)`: with this
divisor positive it is the search that divides before every test. -/
theorem bisectionIntervalSearch_eq_dividedBy (sqrt_f : α → α) (ext : collaborators_t α)
    (N nX nZ : Nat) (qp : qpData_t α) (dl : vector_t α) (nV : Nat) (aMin aMax : α)
    (hd : 0 < ext.qpDUNES_fmin 1 (vectorNorm sqrt_f dl nV)) :
    qpDUNES_bisectionIntervalSearch sqrt_f ext N nX nZ qp dl nV aMin aMax =
      bisectionIntervalSearch_dividedBy ext N nX nZ qp dl nV
        (ext.qpDUNES_fmin 1 (vectorNorm sqrt_f dl nV)) aMin aMax := by
  unfold bisectionIntervalSearch_dividedBy
  simp only [bisect_dividedBy_eq ext N nX nZ _ dl nV _ _ _ hd]
  rfl

/-- The first pass of the search that divides before every test: it returns QPDUNES_OK at
`alphaMax` when the divided slope there is within the tolerance, and
EXCEEDED_MAX_LINESEARCH_STEPSIZE when the divided slope is above the tolerance and the
increased step length is above `lineSearchMaxStepSize`. -/
theorem bisectionIntervalSearch_dividedBy_first (ext : collaborators_t α) (N nX nZ : Nat)
    (qp : qpData_t α) (dl : vector_t α) (nV : Nat) (d aMin aMax : α)
    (hn : 0 < qp.options.maxNumLineSearchRefinementIterations -
      (qp.log.itLog 0).numLineSearchIter) :
    (abs_f (divide_f (scalarProd (bisectionIntervalSearch_gradient ext N nX nZ
          (qp.setNumLineSearchIter (qp.log.itLog 0).numLineSearchIter) aMax).xnVecTmp2 dl nV)
          d) ≤ (bisectionIntervalSearch_gradient ext N nX nZ
          (qp.setNumLineSearchIter (qp.log.itLog 0).numLineSearchIter)
          aMax).options.lineSearchStationarityTolerance →
      bisectionIntervalSearch_dividedBy ext N nX nZ qp dl nV d aMin aMax =
        (return_t.QPDUNES_OK,
          { bisectionIntervalSearch_gradient ext N nX nZ
              (qp.setNumLineSearchIter (qp.log.itLog 0).numLineSearchIter) aMax with
            alpha := aMax })) ∧
    (¬ abs_f (divide_f (scalarProd (bisectionIntervalSearch_gradient ext N nX nZ
          (qp.setNumLineSearchIter (qp.log.itLog 0).numLineSearchIter) aMax).xnVecTmp2 dl nV)
          d) ≤ (bisectionIntervalSearch_gradient ext N nX nZ
          (qp.setNumLineSearchIter (qp.log.itLog 0).numLineSearchIter)
          aMax).options.lineSearchStationarityTolerance →
      ¬ divide_f (scalarProd (bisectionIntervalSearch_gradient ext N nX nZ
          (qp.setNumLineSearchIter (qp.log.itLog 0).numLineSearchIter) aMax).xnVecTmp2 dl nV)
          d < 0 →
      aMax * (bisectionIntervalSearch_gradient ext N nX nZ
          (qp.setNumLineSearchIter (qp.log.itLog 0).numLineSearchIter)
          aMax).options.lineSearchIncreaseFactor >
        (bisectionIntervalSearch_gradient ext N nX nZ
          (qp.setNumLineSearchIter (qp.log.itLog 0).numLineSearchIter)
          aMax).options.lineSearchMaxStepSize →
      bisectionIntervalSearch_dividedBy ext N nX nZ qp dl nV d aMin aMax =
        (return_t.QPDUNES_ERR_EXCEEDED_MAX_LINESEARCH_STEPSIZE,
          { bisectionIntervalSearch_gradient ext N nX nZ
              (qp.setNumLineSearchIter (qp.log.itLog 0).numLineSearchIter) aMax with
            alpha := aMax })) := by
  constructor
  · intro h
    unfold bisectionIntervalSearch_dividedBy
    dsimp only
    rw [forUpM_first_error _ _ _ _ (bisectionExit_t.ret return_t.QPDUNES_OK _) hn
      (by dsimp only; rw [if_pos h])]
  · intro h1 h2 h3
    unfold bisectionIntervalSearch_dividedBy
    dsimp only
    rw [forUpM_first_error _ _ _ _
      (bisectionExit_t.ret return_t.QPDUNES_ERR_EXCEEDED_MAX_LINESEARCH_STEPSIZE _) hn
      (by dsimp only; rw [if_neg h1, if_neg h2, if_pos h3])]

end BisectionDivisor

/-! ## Data change and the active set tables -/

section DataChange

variable {α : Type} [LinearOrderedField α]

omit [LinearOrderedField α] in
theorem indicateDataChange_write_table (s : qpData_t α) (kk ii : Nat) (a k i : Nat) :
    (indicateDataChange_write s kk ii).log.ieqTables a k i =
      if a = (s.log.itLog 0).prevIeqStatus ∧ k = kk ∧ i = ii then -42
      else s.log.ieqTables a k i := by
  unfold indicateDataChange_write
  dsimp only
  rw [Function.update_apply]
  by_cases ha : a = (s.log.itLog 0).prevIeqStatus
  · rw [if_pos ha, setStatus_apply]
    by_cases hc : k = kk ∧ i = ii
    · rw [if_pos hc, if_pos ⟨ha, hc⟩]
    · rw [if_neg hc, if_neg (fun h => hc h.2), ha]
  · rw [if_neg ha, if_neg (fun h => ha h.1)]

omit [LinearOrderedField α] in
/-- The writes of one stage in `qpDUNES_indicateDataChange`. -/
theorem indicateDataChange_row (q : qpData_t α) (kk n : Nat) (s : qpData_t α)
    (hs : ({ s with log := q.log } : qpData_t α) = q ∧ s.log.itLog = q.log.itLog ∧
      s.log.numIter = q.log.numIter) :
    (({ forUp (fun ii (qpData : qpData_t α) => indicateDataChange_write qpData kk ii) 0 n s
        with log := q.log } : qpData_t α) = q ∧
      (forUp (fun ii (qpData : qpData_t α) => indicateDataChange_write qpData kk ii) 0 n
        s).log.itLog = q.log.itLog ∧
      (forUp (fun ii (qpData : qpData_t α) => indicateDataChange_write qpData kk ii) 0 n
        s).log.numIter = q.log.numIter) ∧
    ∀ a k i,
      (forUp (fun ii (qpData : qpData_t α) => indicateDataChange_write qpData kk ii) 0 n
        s).log.ieqTables a k i =
      if a = (q.log.itLog 0).prevIeqStatus ∧ k = kk ∧ i < n then -42
      else s.log.ieqTables a k i := by
  induction n with
  | zero =>
    refine ⟨hs, fun a k i => ?_⟩
    rw [if_neg (fun h => Nat.not_lt_zero i h.2.2)]
    rfl
  | succ n ih =>
    obtain ⟨⟨i1, i2, i3⟩, i4⟩ := ih
    simp only [forUp, Nat.zero_add]
    refine ⟨⟨i1, i2, i3⟩, fun a k i => ?_⟩
    rw [indicateDataChange_write_table, i2, i4]
    by_cases ha : a = (q.log.itLog 0).prevIeqStatus
    · by_cases hk : k = kk
      · by_cases hi : i = n
        · rw [if_pos ⟨ha, hk, hi⟩, if_pos ⟨ha, hk, by omega⟩]
        · rw [if_neg (fun h => hi h.2.2)]
          by_cases hlt : i < n
          · rw [if_pos ⟨ha, hk, hlt⟩, if_pos ⟨ha, hk, by omega⟩]
          · rw [if_neg (fun h => hlt h.2.2), if_neg (fun h => hlt (by omega))]
      · rw [if_neg (fun h => hk h.2.1), if_neg (fun h => hk h.2.1),
          if_neg (fun h => hk h.2.1)]
    · rw [if_neg (fun h => ha h.1), if_neg (fun h => ha h.1), if_neg (fun h => ha h.1)]

omit [LinearOrderedField α] in
/-- The function `qpDUNES_indicateDataChange` writes only the table that
`itLog[0].prevIeqStatus` points to, and there the value `-42` at every coordinate `(k, i)`,
`k <= N`, `i < nD + nV`. -/
theorem indicateDataChange_spec (N : Nat) (q : qpData_t α) :
    (({ qpDUNES_indicateDataChange N q with log := q.log } : qpData_t α) = q ∧
      (qpDUNES_indicateDataChange N q).log.itLog = q.log.itLog ∧
      (qpDUNES_indicateDataChange N q).log.numIter = q.log.numIter) ∧
    ∀ a k i, (qpDUNES_indicateDataChange N q).log.ieqTables a k i =
      if a = (q.log.itLog 0).prevIeqStatus ∧ k ≤ N ∧
          i < (q.intervals k).nD + (q.intervals k).nV then -42
      else q.log.ieqTables a k i := by
  have key : ∀ M : Nat,
      (({ forUp (fun kk (qpData : qpData_t α) =>
          forUp (fun ii (qpData : qpData_t α) => indicateDataChange_write qpData kk ii)
            0 ((qpData.intervals kk).nD + (qpData.intervals kk).nV) qpData) 0 M q
          with log := q.log } : qpData_t α) = q ∧
        (forUp (fun kk (qpData : qpData_t α) =>
          forUp (fun ii (qpData : qpData_t α) => indicateDataChange_write qpData kk ii)
            0 ((qpData.intervals kk).nD + (qpData.intervals kk).nV) qpData) 0 M
          q).log.itLog = q.log.itLog ∧
        (forUp (fun kk (qpData : qpData_t α) =>
          forUp (fun ii (qpData : qpData_t α) => indicateDataChange_write qpData kk ii)
            0 ((qpData.intervals kk).nD + (qpData.intervals kk).nV) qpData) 0 M
          q).log.numIter = q.log.numIter) ∧
      ∀ a k i, (forUp (fun kk (qpData : qpData_t α) =>
          forUp (fun ii (qpData : qpData_t α) => indicateDataChange_write qpData kk ii)
            0 ((qpData.intervals kk).nD + (qpData.intervals kk).nV) qpData) 0 M
          q).log.ieqTables a k i =
        if a = (q.log.itLog 0).prevIeqStatus ∧ k < M ∧
            i < (q.intervals k).nD + (q.intervals k).nV then -42
        else q.log.ieqTables a k i := by
    intro M
    induction M with
    | zero =>
      refine ⟨⟨rfl, rfl, rfl⟩, fun a k i => ?_⟩
      rw [if_neg (fun h => Nat.not_lt_zero k h.2.1)]
      rfl
    | succ M ih =>
      obtain ⟨i1, i4⟩ := ih
      simp only [forUp, Nat.zero_add]
      have hint : (forUp (fun kk (qpData : qpData_t α) =>
          forUp (fun ii (qpData : qpData_t α) => indicateDataChange_write qpData kk ii)
            0 ((qpData.intervals kk).nD + (qpData.intervals kk).nV) qpData) 0 M
          q).intervals = q.intervals := congrArg (fun w => w.intervals) i1.1
      obtain ⟨r1, r4⟩ := indicateDataChange_row q M
        (((forUp (fun kk (qpData : qpData_t α) =>
          forUp (fun ii (qpData : qpData_t α) => indicateDataChange_write qpData kk ii)
            0 ((qpData.intervals kk).nD + (qpData.intervals kk).nV) qpData) 0 M
          q).intervals M).nD +
        ((forUp (fun kk (qpData : qpData_t α) =>
          forUp (fun ii (qpData : qpData_t α) => indicateDataChange_write qpData kk ii)
            0 ((qpData.intervals kk).nD + (qpData.intervals kk).nV) qpData) 0 M
          q).intervals M).nV) _ i1
      refine ⟨r1, fun a k i => ?_⟩
      rw [r4, i4, hint]
      by_cases ha : a = (q.log.itLog 0).prevIeqStatus
      · by_cases hk : k = M
        · subst hk
          by_cases hi : i < (q.intervals k).nD + (q.intervals k).nV
          · rw [if_pos ⟨ha, rfl, hi⟩, if_pos ⟨ha, Nat.lt_succ_self k, hi⟩]
          · rw [if_neg (fun h => hi h.2.2), if_neg (fun h => hi h.2.2),
              if_neg (fun h => hi h.2.2)]
        · rw [if_neg (fun h => hk h.2.1)]
          by_cases hc : k < M ∧ i < (q.intervals k).nD + (q.intervals k).nV
          · rw [if_pos ⟨ha, hc⟩, if_pos ⟨ha, by omega, hc.2⟩]
          · rw [if_neg (fun h => hc h.2), if_neg (fun h => hc ⟨by omega, h.2.2⟩)]
      · rw [if_neg (fun h => ha h.1), if_neg (fun h => ha h.1), if_neg (fun h => ha h.1)]
  obtain ⟨k1, k4⟩ := key (N + 1)
  refine ⟨k1, fun a k i => ?_⟩
  have e := k4 a k i
  simp only [Nat.lt_succ_iff] at e
  exact e

omit [LinearOrderedField α] in
/-- The function `qpDUNES_updateData` writes stages and then, exactly when one of `H_`,
`C_`, `D_` is supplied, calls `qpDUNES_indicateDataChange`. -/
theorem updateData_eq
    (upd : qpData_t α → Nat → dataArrays_t α → interval_t α)
    (off : Option (Nat → α) → Nat → Option (Nat → α))
    (N nX nZ : Nat) (q : qpData_t α) (d : dataArrays_t α) :
    ∃ m : qpData_t α, ({ m with intervals := q.intervals } : qpData_t α) = q ∧
      qpDUNES_updateData upd off N nX nZ q d =
        (return_t.QPDUNES_OK,
          if d.H_.isSome = true ∨ d.C_.isSome = true ∨ d.D_.isSome = true then
            qpDUNES_indicateDataChange N m
          else m) := by
  unfold qpDUNES_updateData
  dsimp only
  refine ⟨_, ?_, rfl⟩
  have h := forUp_invariant
    (fun kk (s : qpData_t α × Nat) =>
      (s.1.setInterval kk (upd s.1 kk
        (dataArrays_t.mk (off d.H_ (kk * nZ * nZ)) (off d.g_ (kk * nZ))
          (off d.C_ (kk * nX * nZ)) (off d.c_ (kk * nX))
          (off d.zLow_ (kk * nZ)) (off d.zUpp_ (kk * nZ))
          (off d.D_ (s.2 * nZ)) (off d.dLow_ s.2) (off d.dUpp_ s.2))),
        s.2 + ((s.1.setInterval kk (upd s.1 kk
        (dataArrays_t.mk (off d.H_ (kk * nZ * nZ)) (off d.g_ (kk * nZ))
          (off d.C_ (kk * nX * nZ)) (off d.c_ (kk * nX))
          (off d.zLow_ (kk * nZ)) (off d.zUpp_ (kk * nZ))
          (off d.D_ (s.2 * nZ)) (off d.dLow_ s.2) (off d.dUpp_ s.2)))).intervals kk).nD))
    (fun (s : qpData_t α × Nat) => ({ s.1 with intervals := q.intervals } : qpData_t α) = q)
    (fun kk s hs => hs) 0 N (q, 0) rfl
  exact h

omit [LinearOrderedField α] in
theorem changedCoords_self (t : Nat → Nat → Int) (kk n : Nat) :
    changedCoords t t kk n = ∅ := by
  unfold changedCoords
  simp

omit [LinearOrderedField α] in
theorem lastChangedStage_self (q : qpData_t α) (t : Nat → Nat → Int) (M : Nat) :
    lastChangedStage q t t M = -1 := by
  induction M with
  | zero => rfl
  | succ M ih =>
    simp only [lastChangedStage]
    rw [changedCoords_self, if_neg (by simp)]
    exact ih

/-- The active set update keeps the two table pointers of `itLog[0]`. -/
theorem solve_updateActSet_pointers (N : Nat) (q : qpData_t α) :
    ((solve_updateActSet N q).1.log.itLog 0).ieqStatus = (q.log.itLog 0).ieqStatus ∧
    ((solve_updateActSet N q).1.log.itLog 0).prevIeqStatus = (q.log.itLog 0).prevIeqStatus := by
  unfold solve_updateActSet
  dsimp only
  rw [compareActSets_eq]
  simp [solve_getActSet, qpData_t.setItLog, withChangeFlags]

/-- With both pointers of `itLog[0]` at the same table the active set update compares the
new table with itself: no stage is marked and `lastActSetChangeIdx` is `-1`. -/
theorem solve_updateActSet_aliased (N : Nat) (q : qpData_t α) (h : AliasedActSets q) :
    (solve_updateActSet N q).2 = -1 ∧
    ∀ k, k ≤ N → ((solve_updateActSet N q).1.intervals k).actSetHasChanged = false := by
  have hp : ((solve_getActSet N q).log.itLog 0).prevIeqStatus =
      ((solve_getActSet N q).log.itLog 0).ieqStatus := by
    have e1 : ((solve_getActSet N q).log.itLog 0).prevIeqStatus =
        (q.log.itLog 0).prevIeqStatus := by
      simp [solve_getActSet, qpData_t.setItLog]
    have e2 : ((solve_getActSet N q).log.itLog 0).ieqStatus = (q.log.itLog 0).ieqStatus := by
      simp [solve_getActSet, qpData_t.setItLog]
    rw [e1, e2]
    exact h
  unfold solve_updateActSet
  dsimp only
  rw [hp, compareActSets_eq]
  dsimp only
  refine ⟨lastChangedStage_self _ _ _, fun k hk => ?_⟩
  show ((withChangeFlags _ _ _ (N + 1)).intervals k).actSetHasChanged = false
  unfold withChangeFlags
  dsimp only
  rw [if_pos (Nat.lt_succ_of_le hk), changedCoords_self]
  simp

/-- A start of `qpDUNES_solve` from a state with both pointers of `itLog[0]` at the same
table: when it reaches the initial comparison, no stage is marked and
`lastActSetChangeIdx` is `-1`. -/
theorem solve_start_aliased (ext : collaborators_t α) (N : Nat) (q : qpData_t α)
    (s : qpData_t α × Int × α) (h : AliasedActSets q)
    (hs : solve_start ext N q = Except.ok s) :
    s.2.1 = -1 ∧ ∀ k, k ≤ N → (s.1.intervals k).actSetHasChanged = false := by
  unfold solve_start at hs
  dsimp only at hs
  have hloop : (forUp (fun ii (s : return_t × qpData_t α) =>
      ((ext.directQpSolver_doStep s.2 ii 1).1,
        s.2.setInterval ii (ext.directQpSolver_doStep s.2 ii 1).2)) 0 (N + 1)
      (return_t.QPDUNES_OK,
        (({ q with log := { q.log with numIter := 0 } } : qpData_t α).setItLog
          { ({ q with log := { q.log with numIter := 0 } } : qpData_t α).log.itLog 0 with
            itNbr := 0 }))).2.log =
      (({ q with log := { q.log with numIter := 0 } } : qpData_t α).setItLog
          { ({ q with log := { q.log with numIter := 0 } } : qpData_t α).log.itLog 0 with
            itNbr := 0 }).log :=
    forUp_invariant _ (fun (s : return_t × qpData_t α) => s.2.log =
      (({ q with log := { q.log with numIter := 0 } } : qpData_t α).setItLog
          { ({ q with log := { q.log with numIter := 0 } } : qpData_t α).log.itLog 0 with
            itNbr := 0 }).log) (fun i s hP => by exact hP) _ _ _ rfl
  cases ho : qpDUNES_computeObjectiveValue N (forUp (fun ii (s : return_t × qpData_t α) =>
      ((ext.directQpSolver_doStep s.2 ii 1).1,
        s.2.setInterval ii (ext.directQpSolver_doStep s.2 ii 1).2)) 0 (N + 1)
      (return_t.QPDUNES_OK,
        (({ q with log := { q.log with numIter := 0 } } : qpData_t α).setItLog
          { ({ q with log := { q.log with numIter := 0 } } : qpData_t α).log.itLog 0 with
            itNbr := 0 }))).2 with
  | none => rw [ho] at hs; cases hs
  | some o =>
    rw [ho] at hs
    dsimp only at hs
    have hlog : o.2.log = _ := (computeObjectiveValue_frame N _ o ho).2.2.2.2
    have hal : AliasedActSets o.2 := by
      unfold AliasedActSets
      rw [hlog, hloop]
      simp only [qpData_t.setItLog, Function.update_same]
      exact h
    split_ifs at hs
    cases hs
    exact solve_updateActSet_aliased N o.2 hal

omit [LinearOrderedField α] in
/-- The data update keeps the two table pointers of `itLog[0]`. -/
theorem updateData_aliased
    (upd : qpData_t α → Nat → dataArrays_t α → interval_t α)
    (off : Option (Nat → α) → Nat → Option (Nat → α))
    (N nX nZ : Nat) (q : qpData_t α) (d : dataArrays_t α) (h : AliasedActSets q) :
    AliasedActSets (qpDUNES_updateData upd off N nX nZ q d).2 := by
  obtain ⟨m, hm, he⟩ := updateData_eq upd off N nX nZ q d
  have hml : m.log = q.log := congrArg (fun w => w.log) hm
  rw [he]
  dsimp only
  unfold AliasedActSets
  split_ifs
  · rw [(indicateDataChange_spec N m).1.2.1, hml]
    exact h
  · rw [hml]
    exact h

/-- The end of the first pass with iteration logging leaves both pointers of `itLog[0]` at
the table of `ieqStatus` (dual_qp.c 170-172 with `*itCntr = 1`). -/
theorem solve_passEnd_aliases (sqrt_f : α → α) (N nX : Nat) (q : qpData_t α) (obj : α)
    (hlog : q.options.logLevel.toNat ≥ logLevel_t.QPDUNES_LOG_ITERATIONS.toNat) :
    AliasedActSets (qpDUNES_logIteration sqrt_f N nX
      (solve_updateActSet N (solve_savePrevIeqStatus N 1 q)).1 obj
      (solve_updateActSet N (solve_savePrevIeqStatus N 1 q)).2) := by
  obtain ⟨p1, p2⟩ := solve_updateActSet_pointers N (solve_savePrevIeqStatus N 1 q)
  have hsave : ((solve_savePrevIeqStatus N 1 q).log.itLog 0).prevIeqStatus =
      ((solve_savePrevIeqStatus N 1 q).log.itLog 0).ieqStatus := by
    unfold solve_savePrevIeqStatus
    rw [if_pos hlog]
    simp [qpData_t.setItLog]
  unfold AliasedActSets qpDUNES_logIteration
  simp only [qpData_t.setItLog, Function.update_same]
  rw [p1, p2]
  exact hsave

/-- A first pass with iteration logging that goes through leaves both pointers of
`itLog[0]` at the same table. -/
theorem solve_first_pass_aliases (sqrt_f : α → α) (ext : collaborators_t α) (N nX nZ : Nat)
    (s : qpData_t α × Int × α) (qd : qpData_t α) (a : return_t × qpData_t α)
    (d : return_t × qpData_t α × α) (s1 : qpData_t α × Int × α)
    (hdir : solve_direction sqrt_f ext N nX nZ 1 (solve_iterationHead 1 s.1) s.2.1 =
      Except.ok qd)
    (hloc : qpDUNES_solveAllLocalQPs ext N nX qd qd.deltaLambda = some a)
    (hdet : qpDUNES_determineStepLength sqrt_f ext N nX nZ a.2 s.2.2
      (a.2.log.itLog 0).isHessianRegularized = some d)
    (hst : d.1 = return_t.QPDUNES_OK ∨
      d.1 = return_t.QPDUNES_ERR_NUMBER_OF_MAX_LINESEARCH_ITERATIONS_REACHED ∨
      d.1 = return_t.QPDUNES_ERR_EXCEEDED_MAX_LINESEARCH_STEPSIZE)
    (hlog : d.2.1.options.logLevel.toNat ≥ logLevel_t.QPDUNES_LOG_ITERATIONS.toNat)
    (h1 : solve_iteration sqrt_f ext N nX nZ 1 s = Except.ok s1) :
    AliasedActSets s1.1 := by
  have hit := solve_iteration_eq sqrt_f ext N nX nZ 1 s
  rw [hdir] at hit
  dsimp only at hit
  rw [(solve_iterationTail_of sqrt_f ext N nX nZ 1 s.2.2 qd a d hloc hdet).1 hst] at hit
  rw [hit] at h1
  simp only [Except.ok.injEq] at h1
  rw [← h1]
  exact solve_passEnd_aliases sqrt_f N nX d.2.1 d.2.2 hlog

theorem ternaryStatus_ne (q : qpData_t α) (k i : Nat) : ternaryStatus q k i ≠ -42 := by
  unfold ternaryStatus
  split_ifs <;> decide

/-- With the two pointers of `itLog[0]` at different tables and the previous table
invalidated, the active set update marks every stage that has a coordinate, and
`lastActSetChangeIdx` is `N` when stage `N` has one. -/
theorem solve_updateActSet_invalidated (N : Nat) (q : qpData_t α)
    (hne : (q.log.itLog 0).prevIeqStatus ≠ (q.log.itLog 0).ieqStatus)
    (hinv : ∀ k i, k ≤ N → i < (q.intervals k).nD + (q.intervals k).nV →
      q.log.ieqTables (q.log.itLog 0).prevIeqStatus k i = -42) :
    (∀ k, k ≤ N → (((solve_updateActSet N q).1.intervals k).actSetHasChanged = true ↔
      0 < (q.intervals k).nD + (q.intervals k).nV)) ∧
    (0 < (q.intervals N).nD + (q.intervals N).nV → (solve_updateActSet N q).2 = (N : Int)) := by
  have e1 : ((solve_getActSet N q).log.itLog 0).prevIeqStatus =
      (q.log.itLog 0).prevIeqStatus := by
    simp [solve_getActSet, qpData_t.setItLog]
  have e2 : ((solve_getActSet N q).log.itLog 0).ieqStatus = (q.log.itLog 0).ieqStatus := by
    simp [solve_getActSet, qpData_t.setItLog]
  have e3 : (solve_getActSet N q).log.ieqTables (q.log.itLog 0).prevIeqStatus =
      q.log.ieqTables (q.log.itLog 0).prevIeqStatus := by
    simp [solve_getActSet, qpData_t.setItLog, Function.update_noteq hne]
  have e4 : (solve_getActSet N q).log.ieqTables (q.log.itLog 0).ieqStatus =
      (qpDUNES_getActSet N q (q.log.ieqTables (q.log.itLog 0).ieqStatus)).2 := by
    simp [solve_getActSet, qpData_t.setItLog]
  have hdim : ∀ k, actSetDim (solve_getActSet N q) k =
      (q.intervals k).nD + (q.intervals k).nV := fun _ => rfl
  have hdiff : ∀ k i, k ≤ N → i < (q.intervals k).nD + (q.intervals k).nV →
      (qpDUNES_getActSet N q (q.log.ieqTables (q.log.itLog 0).ieqStatus)).2 k i ≠
        q.log.ieqTables (q.log.itLog 0).prevIeqStatus k i := by
    intro k i hk hi
    rw [hinv k i hk hi, getActSet_eq]
    show (if k ≤ N ∧ i < actSetDim q k then ternaryStatus q k i else _) ≠ -42
    rw [if_pos ⟨hk, hi⟩]
    exact ternaryStatus_ne q k i
  have hne2 : ∀ k, k ≤ N → ((changedCoords
      (qpDUNES_getActSet N q (q.log.ieqTables (q.log.itLog 0).ieqStatus)).2
      (q.log.ieqTables (q.log.itLog 0).prevIeqStatus) k
      ((q.intervals k).nD + (q.intervals k).nV)).Nonempty ↔
      0 < (q.intervals k).nD + (q.intervals k).nV) := by
    intro k hk
    rw [changedCoords_nonempty_iff]
    constructor
    · rintro ⟨ii, h1, _⟩
      omega
    · intro h
      exact ⟨0, h, hdiff k 0 hk h⟩
  unfold solve_updateActSet
  dsimp only
  rw [e1, e2, e3, e4, compareActSets_eq]
  dsimp only
  refine ⟨fun k hk => ?_, fun hN => ?_⟩
  · show ((withChangeFlags _ _ _ (N + 1)).intervals k).actSetHasChanged = true ↔ _
    unfold withChangeFlags
    dsimp only
    rw [if_pos (Nat.lt_succ_of_le hk)]
    dsimp only
    rw [decide_eq_true_iff, hdim]
    exact hne2 k hk
  · simp only [lastChangedStage]
    rw [hdim, if_pos ((hne2 N (le_refl N)).mpr hN)]

end DataChange
/-! ## Evaluation of the examples -/

section ExampleLemmas

theorem sqrt_four : Real.sqrt 4 = 2 := by
  rw [show (4 : ℝ) = 2 ^ 2 by norm_num]
  exact Real.sqrt_sq (by norm_num)

theorem exFactorization_ok :
    (qpDUNES_factorizeNewtonHessian Real.sqrt (exOpt ℝ) 2 1 (fun _ => 0) (exHessian ℝ) false).1
      = return_t.QPDUNES_OK := by
  norm_num [qpDUNES_factorizeNewtonHessian, forUpM, factorizeNewtonHessian_column,
    factorizeNewtonHessian_pivot, factorizeNewtonHessian_writeColumn, forUp, exOpt, exHessian,
    divide_f, sqrt_four]

theorem exRev_status :
    (qpDUNES_factorizeNewtonHessianBottomUp Real.sqrt (exOpt ℝ) 1 2 (fun _ => 0) (exHessian2 ℝ)
      (((1 : Nat) : Int) - 1) false).1 = return_t.QPDUNES_OK := by
  norm_num [qpDUNES_factorizeNewtonHessianBottomUp, forDownM,
    factorizeNewtonHessianBottomUp_column, factorizeNewtonHessianBottomUp_pivot,
    factorizeNewtonHessianBottomUp_writeRow, forUp, forDown, blockIdxStart, exOpt, exHessian2,
    divide_f]

theorem exRev_entry :
    (qpDUNES_factorizeNewtonHessianBottomUp Real.sqrt (exOpt ℝ) 1 2 (fun _ => 0) (exHessian2 ℝ)
      (((1 : Nat) : Int) - 1) false).2.cholHessian (0, 0, 0, 0) = 1 := by
  norm_num [-Prod.mk_zero_zero, -Prod.mk_one_one, setAcc, accCholHessian, accHessian,
    qpDUNES_factorizeNewtonHessianBottomUp, forDownM,
    factorizeNewtonHessianBottomUp_column, factorizeNewtonHessianBottomUp_pivot,
    factorizeNewtonHessianBottomUp_writeRow, forUp, forDown, blockIdxStart, exOpt, exHessian2,
    divide_f]

theorem sqrt_1e26 : Real.sqrt 100000000000000000000000000 = 10000000000000 := by
  rw [show (100000000000000000000000000 : ℝ) = 10000000000000 ^ 2 by norm_num]
  exact Real.sqrt_sq (by norm_num)

theorem sqrt_25 : Real.sqrt 25 = 5 := by
  rw [show (25 : ℝ) = 5 ^ 2 by norm_num]
  exact Real.sqrt_sq (by norm_num)

theorem sqrt_nine : Real.sqrt 9 = 3 := by
  rw [show (9 : ℝ) = 3 ^ 2 by norm_num]
  exact Real.sqrt_sq (by norm_num)

theorem exFwd4_status :
    (qpDUNES_factorizeNewtonHessian Real.sqrt (exOpt ℝ) 2 1 (fun _ => 0) (exHessian4 ℝ)
      false).1 = return_t.QPDUNES_OK := by
  norm_num [-Prod.mk_zero_zero, -Prod.mk_one_one, setAcc, accCholHessian, accHessian,
    qpDUNES_factorizeNewtonHessian, forUpM, factorizeNewtonHessian_column,
    factorizeNewtonHessian_pivot, factorizeNewtonHessian_writeColumn, forUp, exOpt, exHessian4,
    divide_f, sqrt_25, sqrt_nine, Function.update_apply]

theorem exFwd4_flag :
    (qpDUNES_factorizeNewtonHessian Real.sqrt (exOpt ℝ) 2 1 (fun _ => 0) (exHessian4 ℝ)
      false).2.isHessianRegularized = false := by
  norm_num [-Prod.mk_zero_zero, -Prod.mk_one_one, setAcc, accCholHessian, accHessian,
    qpDUNES_factorizeNewtonHessian, forUpM, factorizeNewtonHessian_column,
    factorizeNewtonHessian_pivot, factorizeNewtonHessian_writeColumn, forUp, exOpt, exHessian4,
    divide_f, sqrt_25, sqrt_nine, Function.update_apply]

theorem exFwd4_diag (k i : Nat) (hk : k < 2) (hi : i < 1) :
    (qpDUNES_factorizeNewtonHessian Real.sqrt (exOpt ℝ) 2 1 (fun _ => 0) (exHessian4 ℝ)
      false).2.cholHessian (k, 0, i, i) ≤ (exOpt ℝ).QPDUNES_INFTY := by
  have hi0 : i = 0 := by omega
  subst hi0
  have hk01 : k = 0 ∨ k = 1 := by omega
  rcases hk01 with rfl | rfl <;>
  norm_num [-Prod.mk_zero_zero, -Prod.mk_one_one, setAcc, accCholHessian, accHessian,
    qpDUNES_factorizeNewtonHessian, forUpM, factorizeNewtonHessian_column,
    factorizeNewtonHessian_pivot, factorizeNewtonHessian_writeColumn, forUp, exOpt, exHessian4,
    divide_f, sqrt_25, sqrt_nine, Function.update_apply]

theorem exRev4_status :
    (qpDUNES_factorizeNewtonHessianBottomUp Real.sqrt (exOpt ℝ) 2 1 (fun _ => 0) (exHessian4 ℝ)
      (((2 : Nat) : Int) - 1) false).1 = return_t.QPDUNES_OK := by
  norm_num [-Prod.mk_zero_zero, -Prod.mk_one_one, setAcc, accCholHessian, accHessian,
    qpDUNES_factorizeNewtonHessianBottomUp, forDownM,
    factorizeNewtonHessianBottomUp_column, factorizeNewtonHessianBottomUp_pivot,
    factorizeNewtonHessianBottomUp_writeRow, forUp, forDown, blockIdxStart, exOpt, exHessian4,
    divide_f, sqrt_25, sqrt_nine, Function.update_apply]

theorem exRev4_flag :
    (qpDUNES_factorizeNewtonHessianBottomUp Real.sqrt (exOpt ℝ) 2 1 (fun _ => 0) (exHessian4 ℝ)
      (((2 : Nat) : Int) - 1) false).2.isHessianRegularized = false := by
  norm_num [-Prod.mk_zero_zero, -Prod.mk_one_one, setAcc, accCholHessian, accHessian,
    qpDUNES_factorizeNewtonHessianBottomUp, forDownM,
    factorizeNewtonHessianBottomUp_column, factorizeNewtonHessianBottomUp_pivot,
    factorizeNewtonHessianBottomUp_writeRow, forUp, forDown, blockIdxStart, exOpt, exHessian4,
    divide_f, sqrt_25, sqrt_nine, Function.update_apply]

theorem exHessian5_agrees (k : Nat) (l : Int) (i j : Nat) (hk : (0 : Int) < (k : Int)) :
    exHessian5 ℝ (k, l, i, j) = exHessian4 ℝ (k, l, i, j) := by
  have hk0 : k ≠ 0 := by omega
  simp [exHessian5, exHessian4, hk0]

end ExampleLemmas

section AssemblyExamples

theorem exExt_makesDense (α : Type) [LinearOrderedField α] (nX : Nat) :
    MakesDense (exExt α) nX := by
  constructor
  · intro M hM
    have e : (exExt α).qpDUNES_makeMatrixDense M nX nX =
        { sparsityType := sparsityType_t.QPDUNES_DENSE,
          data := fun p => if p < nX * nX then
            (if p / nX = p % nX then M.data (p % nX) else 0) else M.data p } := by
      simp only [exExt, qpDUNES_makeMatrixDense]
      rw [hM]
    rw [e]
    refine ⟨rfl, fun i j hi hj => ?_⟩
    dsimp only
    have hlt : i * nX + j < nX * nX := by
      have : (i + 1) * nX ≤ nX * nX := Nat.mul_le_mul_right _ (by omega)
      rw [Nat.add_mul, Nat.one_mul] at this
      omega
    rw [if_pos hlt, flat_div nX i j hj, flat_mod nX i j hj]
    by_cases h : i = j
    · subst h; simp
    · simp [h]
  · intro M hM
    simp only [exExt, qpDUNES_makeMatrixDense]
    rw [hM]

theorem exStage_guards (nZ : Nat) (N : Nat) (stages : Nat → interval_t ℝ)
    (h : ∀ k, ∃ a b c d, stages k = exStage ℝ a b c d) :
    AssemblyGuards N 1 nZ (exQp ℝ stages) := by
  intro k _
  obtain ⟨a, b, c, d, e⟩ := h k
  have e1 : (exQp ℝ stages).intervals k = exStage ℝ a b c d := e
  rw [e1]
  refine ⟨rfl, by simp [exStage], fun i _ => ?_, fun l j _ _ _ => ?_⟩
  · by_cases hi : i = 0 <;> simp [exStage, exQp, exOpt, abs_f, hi] <;>
      exact le_trans (by norm_num) (le_abs_self _)
  · by_cases hl : l = 0 <;> simp [exStage, exQp, exOpt, abs_f, hl] <;>
      exact le_trans (by norm_num) (le_abs_self _)

theorem exStages1_form : ∀ k, ∃ a b c d, exStages1 ℝ k = exStage ℝ a b c d := by
  intro k
  unfold exStages1
  by_cases h : k = 0
  · exact ⟨_, _, _, _, if_pos h⟩
  · exact ⟨_, _, _, _, if_neg h⟩

theorem exStages2_form : ∀ k, ∃ a b c d, exStages2 ℝ k = exStage ℝ a b c d := by
  intro k
  unfold exStages2
  by_cases h : k = 0
  · exact ⟨_, _, _, _, if_pos h⟩
  · rw [if_neg h]
    by_cases h1 : k = 1
    · exact ⟨_, _, _, _, if_pos h1⟩
    · exact ⟨_, _, _, _, if_neg h1⟩

theorem exStages3_form : ∀ k, ∃ a b c d, exStages3 ℝ k = exStage ℝ a b c d := by
  intro k
  unfold exStages3
  by_cases h : k = 0
  · exact ⟨_, _, _, _, if_pos h⟩
  · exact ⟨_, _, _, _, if_neg h⟩

/-- The dual gradient of the first example is `2`. -/
theorem exGradient1 (g p : vector_t ℝ) :
    (qpDUNES_computeNewtonGradient 1 1 2 (exQp ℝ (exStages1 ℝ)) g p).2.1.data 0 = 2 := by
  have h := computeNewtonGradient_entry 1 1 2 (exQp ℝ (exStages1 ℝ)) g p 0 0 (by decide)
    (by decide)
  simp only [Nat.zero_mul, Nat.zero_add] at h
  rw [h]
  simp [exQp, exStages1, exStage, exVec, Finset.sum_range_succ]
  norm_num

/-- The dual gradient of the second example is `(2, 0)`. -/
theorem exGradient2 (g p : vector_t ℝ) :
    (qpDUNES_computeNewtonGradient 2 1 2 (exQp ℝ (exStages2 ℝ)) g p).2.1.data 0 = 2 ∧
    (qpDUNES_computeNewtonGradient 2 1 2 (exQp ℝ (exStages2 ℝ)) g p).2.1.data 1 = 0 := by
  have h0 := computeNewtonGradient_entry 2 1 2 (exQp ℝ (exStages2 ℝ)) g p 0 0 (by decide)
    (by decide)
  have h1 := computeNewtonGradient_entry 2 1 2 (exQp ℝ (exStages2 ℝ)) g p 1 0 (by decide)
    (by decide)
  simp only [Nat.zero_mul, Nat.zero_add, Nat.one_mul, Nat.add_zero] at h0 h1
  rw [h0, h1]
  constructor
  · simp [exQp, exStages2, exStage, exVec, Finset.sum_range_succ]
    norm_num
  · simp [exQp, exStages2, exStage, exVec, Finset.sum_range_succ]
    norm_num

/-- The dual gradient of the third example vanishes. -/
theorem exGradient3 (g p : vector_t ℝ) :
    (qpDUNES_computeNewtonGradient 1 1 2 (exQp ℝ (exStages3 ℝ)) g p).2.1.data 0 = 0 := by
  have h := computeNewtonGradient_entry 1 1 2 (exQp ℝ (exStages3 ℝ)) g p 0 0 (by decide)
    (by decide)
  simp only [Nat.zero_mul, Nat.zero_add] at h
  rw [h]
  simp [exQp, exStages3, exStage, exVec, Finset.sum_range_succ]
  norm_num

theorem exNorm1 : vectorNorm Real.sqrt
    (setupNewtonSystem_gradient 1 1 2 (exQp ℝ (exStages1 ℝ))).gradient (1 * 1) = 2 := by
  unfold vectorNorm setupNewtonSystem_gradient
  rw [scalarProd_eq_sum]
  simp only [Nat.mul_one, Finset.sum_range_one]
  rw [exGradient1]
  have : (2 : ℝ) * 2 = 4 := by norm_num
  rw [this, sqrt_four]

theorem exNorm2 : vectorNorm Real.sqrt
    (setupNewtonSystem_gradient 2 1 2 (exQp ℝ (exStages2 ℝ))).gradient (1 * 2) = 2 := by
  unfold vectorNorm setupNewtonSystem_gradient
  rw [scalarProd_eq_sum]
  simp only [Nat.one_mul, Finset.sum_range_succ, Finset.sum_range_zero, zero_add]
  rw [(exGradient2 _ _).1, (exGradient2 _ _).2]
  have : (2 : ℝ) * 2 + 0 * 0 = 4 := by norm_num
  rw [this, sqrt_four]

theorem exNorm3 : vectorNorm Real.sqrt
    (setupNewtonSystem_gradient 1 1 2 (exQp ℝ (exStages3 ℝ))).gradient (1 * 1) = 0 := by
  unfold vectorNorm setupNewtonSystem_gradient
  rw [scalarProd_eq_sum]
  simp only [Nat.mul_one, Finset.sum_range_one]
  rw [exGradient3]
  simp

/-- The assembly of the second example returns QPDUNES_OK. -/
theorem exSetup2_ok : ∃ qp1, qpDUNES_setupNewtonSystem Real.sqrt (exExt ℝ) 2 1 2
    (exQp ℝ (exStages2 ℝ)) = some (return_t.QPDUNES_OK, qp1) := by
  obtain ⟨qp1, h, _⟩ := setupNewtonSystem_returns Real.sqrt (exExt ℝ) 2 1 2
    (exQp ℝ (exStages2 ℝ)) (exExt_makesDense ℝ 1) (exStage_guards 2 2 _ exStages2_form)
  rw [exNorm2] at h
  have hn : ¬ (2 : ℝ) < (exQp ℝ (exStages2 ℝ)).options.stationarityTolerance := by
    simp [exQp, exOpt]
    norm_num
  rw [if_neg hn] at h
  exact ⟨qp1, h⟩

/-- The assembly of the first example returns QPDUNES_OK with `M[0,0] = 3/4`. -/
theorem exSetup1_value : ∃ qp1, qpDUNES_setupNewtonSystem Real.sqrt (exExt ℝ) 1 1 2
    (exQp ℝ (exStages1 ℝ)) = some (return_t.QPDUNES_OK, qp1) ∧
    qp1.hessian (0, 0, 0, 0) = 3 / 4 := by
  obtain ⟨qp1, h, hv⟩ := setupNewtonSystem_returns Real.sqrt (exExt ℝ) 1 1 2
    (exQp ℝ (exStages1 ℝ)) (exExt_makesDense ℝ 1) (exStage_guards 2 1 _ exStages1_form)
  rw [exNorm1] at h hv
  have hn : ¬ (2 : ℝ) < (exQp ℝ (exStages1 ℝ)).options.stationarityTolerance := by
    simp [exQp, exOpt]
    norm_num
  rw [if_neg hn] at h
  refine ⟨qp1, h, ?_⟩
  rw [hv hn 0 (by decide) (Or.inl rfl) 0 0 (by decide) (by decide)]
  simp [assembledDiagEntry, exQp, exStages1, exStage, exVec, exOpt, Finset.sum_range_succ]
  norm_num


/-- The run of `qpDUNES_solve` on the third example returns the optimality status in its
first pass. -/
theorem exSolve3_optimal : ∃ q1, qpDUNES_solve Real.sqrt (exExt ℝ) 1 1 2
    (exQp ℝ (exStages3 ℝ)) = some (return_t.QPDUNES_SUCC_OPTIMAL_SOLUTION_FOUND, q1) := by
  have hH : ∀ k, ((exQp ℝ (exStages3 ℝ)).intervals k).H.sparsityType =
      sparsityType_t.QPDUNES_DIAGONAL := by
    intro k
    obtain ⟨a, b, c, d, e⟩ := exStages3_form k
    have e1 : (exQp ℝ (exStages3 ℝ)).intervals k = exStage ℝ a b c d := e
    rw [e1]
    rfl
  obtain ⟨s, hs, hc⟩ := solve_start_exExt 1 (exQp ℝ (exStages3 ℝ)) hH
  have hc2 := hc.trans (solve_iterationHead_sameCoupling 1 s.1)
  refine ⟨_, solve_optimal_first_pass Real.sqrt (exExt ℝ) 1 1 2 _ s hs ?_ ?_⟩
  · rw [hc.1]
    simp [exQp, exOpt]
  · rw [hc2.1]
    unfold vectorNorm
    rw [scalarProd_eq_sum]
    simp only [Nat.mul_one, Finset.sum_range_one]
    have e := gradient_entry_sameCoupling 1 1 2 _ _ hc2 0 0 (by decide) (by decide)
    simp only [Nat.zero_mul, Nat.zero_add] at e
    rw [e]
    have e3 : (setupNewtonSystem_gradient 1 1 2 (exQp ℝ (exStages3 ℝ))).gradient.data 0 = 0 :=
      exGradient3 _ _
    rw [e3]
    simp [exQp, exOpt]

end AssemblyExamples

/-! ## Examples for the sub-diagonal blocks and the factorization driver -/

section DriverExamples

theorem exStage_factorized (a b c : ℝ) (d : Bool) : FactorizedStage (exStage ℝ a b c d) := by
  refine Or.inl ⟨rfl, rfl, fun j hj => ?_⟩
  have hj2 : j < 2 := hj
  unfold recip_f
  interval_cases j <;> simp [exStage]

theorem exStages2_factorized (k : Nat) :
    FactorizedStage ((exQp ℝ (exStages2 ℝ)).intervals k) ∧
      1 ≤ ((exQp ℝ (exStages2 ℝ)).intervals k).nV := by
  obtain ⟨a, b, c, d, e⟩ := exStages2_form k
  have e1 : (exQp ℝ (exStages2 ℝ)).intervals k = exStage ℝ a b c d := e
  rw [e1]
  exact ⟨exStage_factorized a b c d, by simp [exStage]⟩

theorem exSub2_claimed : claimedSubEntry 2 (exQp ℝ (exStages2 ℝ)) 1 0 0 = -(1 / 2) := by
  simp [claimedSubEntry, stageHessianDiag, accC, exQp, exStages2, exStage, exVec, exOpt]

theorem lm_ne_singular : ¬ (regType_t.QPDUNES_REG_LEVENBERG_MARQUARDT =
    regType_t.QPDUNES_REG_SINGULAR_DIRECTIONS) := by decide

theorem exLM_first :
    (qpDUNES_factorizeNewtonHessian Real.sqrt (exOpt ℝ) 1 1 (fun _ => 0) (fun _ => 0) false).1 =
      return_t.QPDUNES_ERR_DIVISION_BY_ZERO := by
  norm_num [qpDUNES_factorizeNewtonHessian, forUpM, factorizeNewtonHessian_column,
    factorizeNewtonHessian_pivot, factorizeNewtonHessian_writeColumn, forUp, exOpt,
    lm_ne_singular]

theorem exLM_status :
    (qpDUNES_factorNewtonSystem Real.sqrt 1 1
      (exQpHessian ℝ (exStages1 ℝ) (fun _ => 0)) false 1).1 = return_t.QPDUNES_OK := by
  norm_num [-Prod.mk_zero_zero, -Prod.mk_one_one, qpDUNES_factorNewtonSystem,
    factorNewtonSystem_factorize, factorNewtonSystem_refactor, factorNewtonSystem_minDiagElem,
    qpDUNES_factorizeNewtonHessian, forUpM, factorizeNewtonHessian_column,
    factorizeNewtonHessian_pivot, factorizeNewtonHessian_writeColumn, forUp, exOpt, exQp,
    exQpHessian, setAcc, accHessian, accCholHessian, Function.update_apply, lm_ne_singular]

theorem exSentinel_value :
    (qpDUNES_solveNewtonEquation (exOpt ℝ) 1 2 (fun _ => 0) (exFactor6 ℝ) (fun _ => 1)).2
      (0 * 2 + 0) = -(1 / 2000000000000) := by
  norm_num [-Prod.mk_zero_zero, -Prod.mk_one_one, accCholHessian, forUp, forDown, exOpt,
    exFactor6, divide_f, qpDUNES_solveNewtonEquation, Function.update_apply]

theorem exNormSteps : vectorNorm Real.sqrt
    (setupNewtonSystem_gradient 1 1 2
      (exQpOpt ℝ (exStages3 ℝ) (exOptSteps ℝ))).gradient (1 * 1) = 0 := by
  unfold vectorNorm setupNewtonSystem_gradient
  rw [scalarProd_eq_sum]
  simp only [Nat.mul_one, Finset.sum_range_one]
  have h := computeNewtonGradient_entry 1 1 2 (exQpOpt ℝ (exStages3 ℝ) (exOptSteps ℝ))
    (exQpOpt ℝ (exStages3 ℝ) (exOptSteps ℝ)).gradient
    (exQpOpt ℝ (exStages3 ℝ) (exOptSteps ℝ)).xVecTmp 0 0 (by decide) (by decide)
  simp only [Nat.zero_mul, Nat.zero_add] at h
  rw [h]
  simp [exQpOpt, exQp, exStages3, exStage, exVec, Finset.sum_range_succ]
  norm_num

/-- On the third example with one initial gradient step the Newton branch returns the
optimality status. -/
theorem exSteps_newton (idx : Int) :
    solve_newtonDirection Real.sqrt (exExt ℝ) 1 1 2
        (exQpOpt ℝ (exStages3 ℝ) (exOptSteps ℝ)) idx =
      Except.error (some (return_t.QPDUNES_SUCC_OPTIMAL_SOLUTION_FOUND,
        setupNewtonSystem_gradient 1 1 2 (exQpOpt ℝ (exStages3 ℝ) (exOptSteps ℝ)))) := by
  refine (solve_newtonDirection_optimal Real.sqrt (exExt ℝ) 1 1 2 _ idx _).mpr ⟨rfl, ?_⟩
  rw [exNormSteps]
  norm_num [exQpOpt, exOptSteps, exOpt]

theorem exExt_keepsHessianTag : KeepsHessianTag (exExt ℝ) := fun _ _ _ => rfl

theorem exStages1_clipping (k : Nat) :
    ((exQp ℝ (exStages1 ℝ)).intervals k).qpSolverSpecification =
      qp_solver_t.QPDUNES_STAGE_QP_SOLVER_CLIPPING ∧
    ((exQp ℝ (exStages1 ℝ)).intervals k).H.sparsityType = sparsityType_t.QPDUNES_DIAGONAL := by
  obtain ⟨a, b, c, d, e⟩ := exStages1_form k
  have e1 : (exQp ℝ (exStages1 ℝ)).intervals k = exStage ℝ a b c d := e
  rw [e1]
  exact ⟨rfl, rfl⟩

theorem exAlphaMin1 :
    determineStepLength_alphaMin (exExt ℝ) 1 (exQp ℝ (exStages1 ℝ)) = 1000000000000 := by
  simp [determineStepLength_alphaMin, forUp, exExt, exQp, exStages1, exStage, exOpt]

/-- The trial evaluation with the line search example collaborators over two stages: the
objective value is `17 + 16` plus the offset of both stages, and the stages stay clipping
stages with diagonal Hessians. -/
theorem exTrial (aMin : ℝ) (q : qpData_t ℝ) (a : ℝ)
    (hq : ∀ k, (q.intervals k).qpSolverSpecification =
        qp_solver_t.QPDUNES_STAGE_QP_SOLVER_CLIPPING ∧
      (q.intervals k).H.sparsityType = sparsityType_t.QPDUNES_DIAGONAL) :
    ∃ r, qpDUNES_computeParametricObjectiveValue (exExtLS ℝ aMin) 1 q a = some r ∧
      r.1 = 33 + 2 * (if a = 1 then 0 else 100) ∧
      ∀ k, (r.2.intervals k).qpSolverSpecification =
          qp_solver_t.QPDUNES_STAGE_QP_SOLVER_CLIPPING ∧
        (r.2.intervals k).H.sparsityType = sparsityType_t.QPDUNES_DIAGONAL := by
  unfold qpDUNES_computeParametricObjectiveValue
  simp [forUpM, (hq 0).1, (hq 1).1, exExtLS, exExt, qpData_t.setInterval,
    Function.update_apply, multiplyzHz, multiplyVectorMatrixVector,
    multiplyVectorMatrixVectorDiagonal, scalarProd, forUp, exStages1, exStage, exVec]
  constructor
  · split_ifs <;> norm_num
  · intro k
    by_cases h1 : k = 1
    · rw [if_pos h1]
      exact ⟨rfl, rfl⟩
    · rw [if_neg h1]
      by_cases h0 : k = 0
      · rw [if_pos h0]
        exact ⟨rfl, rfl⟩
      · rw [if_neg h0]
        exact hq k

end DriverExamples
/-! ## Examples for the line search -/

section LineSearchExamples

theorem exLS_stages (opt : qpOptions_t ℝ) (k : Nat) :
    ((exQpLS ℝ opt).intervals k).qpSolverSpecification =
      qp_solver_t.QPDUNES_STAGE_QP_SOLVER_CLIPPING ∧
    ((exQpLS ℝ opt).intervals k).H.sparsityType = sparsityType_t.QPDUNES_DIAGONAL := by
  obtain ⟨a, b, c, d, e⟩ := exStages1_form k
  have e1 : (exQpLS ℝ opt).intervals k = exStage ℝ a b c d := e
  rw [e1]
  exact ⟨rfl, rfl⟩

theorem exAlphaMinAS :
    determineStepLength_alphaMin (exExtLS ℝ (1 / 4)) 1 (exQpLS ℝ (exOptAS ℝ)) = 1 / 4 := by
  norm_num [determineStepLength_alphaMin, forUp, exExtLS, exExt, exQpLS, exQpOpt, exQp,
    exStages1, exStage, exOptAS, exOpt]

theorem exAlphaMin0 :
    determineStepLength_alphaMin (exExtLS ℝ 0) 1 (exQpLS ℝ (exOpt ℝ)) = 0 := by
  norm_num [determineStepLength_alphaMin, forUp, exExtLS, exExt, exQpLS, exQpOpt, exQp,
    exStages1, exStage, exOpt]

theorem exNormLS (opt : qpOptions_t ℝ) :
    vectorNorm Real.sqrt (exQpLS ℝ opt).deltaLambda (1 * 1) = 1 := by
  simp [vectorNorm, scalarProd, forUp, exQpLS, exVec]

/-- The first trial of the backtracking search on the line search example, at the step
length 1, has the objective value 33. -/
theorem exTrial0 (aMin : ℝ) (opt : qpOptions_t ℝ) :
    ∃ r, backTracking_trial (exExtLS ℝ aMin) 1 ((exQpLS ℝ opt).setNumLineSearchIter 0) 1 0 =
        some r ∧ r.1 = 33 ∧
      ∀ k, (r.2.intervals k).qpSolverSpecification =
          qp_solver_t.QPDUNES_STAGE_QP_SOLVER_CLIPPING ∧
        (r.2.intervals k).H.sparsityType = sparsityType_t.QPDUNES_DIAGONAL := by
  obtain ⟨r, h1, h2, h3⟩ := exTrial aMin
    ((({ (exQpLS ℝ opt).setNumLineSearchIter 0 with alpha := 1 } : qpData_t ℝ)).setNumLineSearchIter
      ((((exQpLS ℝ opt).setNumLineSearchIter 0).log.itLog 0).numLineSearchIter + 0)) 1
    (fun k => exLS_stages opt k)
  refine ⟨r, h1, ?_, h3⟩
  rw [h2]
  simp

/-- The second trial, at the step length 1/10, has the objective value 233. -/
theorem exTrial1 (aMin : ℝ) (opt : qpOptions_t ℝ)
    (hrf : opt.lineSearchReductionFactor = 1 / 10) :
    ∃ r, backTracking_trial (exExtLS ℝ aMin) 1 ((exQpLS ℝ opt).setNumLineSearchIter 0) 1 1 =
        some r ∧ r.1 = 233 ∧
      ∀ k, (r.2.intervals k).qpSolverSpecification =
          qp_solver_t.QPDUNES_STAGE_QP_SOLVER_CLIPPING ∧
        (r.2.intervals k).H.sparsityType = sparsityType_t.QPDUNES_DIAGONAL := by
  obtain ⟨r0, t0, _, q0⟩ := exTrial0 aMin opt
  obtain ⟨s1, hs1, hi1⟩ := backTracking_head_of_trial _ _ _ _ _ r0 t0
  obtain ⟨_, _, _, a1⟩ := backTracking_head_frame _ _ _ _ _ s1 hs1
  have ha : s1.alpha = 1 / 10 := by
    rw [a1]
    have e : ((exQpLS ℝ opt).setNumLineSearchIter 0).options.lineSearchReductionFactor =
        1 / 10 := hrf
    rw [e]
    norm_num
  obtain ⟨r, h1, h2, h3⟩ := exTrial aMin
    (s1.setNumLineSearchIter
      ((((exQpLS ℝ opt).setNumLineSearchIter 0).log.itLog 0).numLineSearchIter + 1)) s1.alpha
    (fun k => by
      have e : (s1.setNumLineSearchIter
        ((((exQpLS ℝ opt).setNumLineSearchIter 0).log.itLog 0).numLineSearchIter + 1)).intervals =
        r0.2.intervals := hi1
      rw [e]
      exact q0 k)
  refine ⟨r, ?_, ?_, h3⟩
  · unfold backTracking_trial
    rw [hs1]
    exact h1
  · rw [h2, ha]
    norm_num

/-- The passes of the backtracking search of the line search example with the incumbent
40: pass 0, at the step length 1 (objective 33), continues, and the trial of pass 1, at
1/10 (objective 233), is above the incumbent. -/
theorem exBacktrackingAS_passes (aMin : ℝ) :
    ∃ r1, backTracking_trial (exExtLS ℝ aMin) 1
        ((exQpLS ℝ (exOptAS ℝ)).setNumLineSearchIter 0) 1 1 = some r1 ∧
      r1.1 > 40 + backTracking_minimumProgress
        ((exQpLS ℝ (exOptAS ℝ)).setNumLineSearchIter 0) 40 ∧
      (∀ k, (r1.2.intervals k).qpSolverSpecification =
          qp_solver_t.QPDUNES_STAGE_QP_SOLVER_CLIPPING ∧
        (r1.2.intervals k).H.sparsityType = sparsityType_t.QPDUNES_DIAGONAL) ∧
      1 < ((exQpLS ℝ (exOptAS ℝ)).setNumLineSearchIter 0).options.maxNumLineSearchIterations -
        (((exQpLS ℝ (exOptAS ℝ)).setNumLineSearchIter 0).log.itLog 0).numLineSearchIter ∧
      ∀ i, i < 1 → backTracking_continues Real.sqrt (exExtLS ℝ aMin) 1
        ((exQpLS ℝ (exOptAS ℝ)).setNumLineSearchIter 0) (exQpLS ℝ (exOptAS ℝ)).deltaLambda
        (1 * 1) 0 1 40 i := by
  obtain ⟨r0, t0, v0, _⟩ := exTrial0 aMin (exOptAS ℝ)
  obtain ⟨r1, t1, v1, q1⟩ := exTrial1 aMin (exOptAS ℝ) rfl
  have hn : (((exQpLS ℝ (exOptAS ℝ)).setNumLineSearchIter 0).log.itLog 0).numLineSearchIter =
      0 := (setNumLineSearchIter_frame _ 0).2.2.2.2.2
  refine ⟨r1, t1, ?_, q1, ?_, ?_⟩
  · rw [v1]
    norm_num [backTracking_minimumProgress, abs_f, qpData_t.setNumLineSearchIter,
      qpData_t.setItLog, exQpLS, exQpOpt, exQp, exOptAS, exOpt]
  · rw [hn]
    decide
  · intro i hi
    have e : i = 0 := by omega
    subst e
    refine ⟨r0, t0, ?_, ?_⟩
    · rw [v0]
      norm_num [backTracking_minimumProgress, abs_f, qpData_t.setNumLineSearchIter,
        qpData_t.setItLog, exQpLS, exQpOpt, exQp, exOptAS, exOpt]
    · rw [exNormLS]
      norm_num [qpData_t.setNumLineSearchIter, qpData_t.setItLog, exQpLS, exQpOpt, exQp,
        exOptAS, exOpt]

theorem exReductionAS :
    (1 : ℝ) * ((exQpLS ℝ (exOptAS ℝ)).setNumLineSearchIter 0).options.lineSearchReductionFactor ^ 1 =
      1 / 10 := by
  norm_num [qpData_t.setNumLineSearchIter, qpData_t.setItLog, exQpLS, exQpOpt, exQp,
    exOptAS, exOpt]

/-- The backtracking search of the line search example with the incumbent 40 rejects the
step length 1 (objective 33) and accepts 1/10 (objective 233). -/
theorem exBacktrackingAS (aMin : ℝ) :
    ∃ qb, qpDUNES_backTrackingLineSearch Real.sqrt (exExtLS ℝ aMin) 1
        ((exQpLS ℝ (exOptAS ℝ)).setNumLineSearchIter 0) (exQpLS ℝ (exOptAS ℝ)).deltaLambda
        (1 * 1) 0 1 40 = some (return_t.QPDUNES_OK, qb) ∧
      qb.alpha = 1 / 10 ∧
      ∀ k, (qb.intervals k).qpSolverSpecification =
          qp_solver_t.QPDUNES_STAGE_QP_SOLVER_CLIPPING ∧
        (qb.intervals k).H.sparsityType = sparsityType_t.QPDUNES_DIAGONAL := by
  obtain ⟨r1, t1, hacc, q1, hj, hc⟩ := exBacktrackingAS_passes aMin
  obtain ⟨h1, h2, _⟩ := (backTrackingLineSearch_outcome Real.sqrt (exExtLS ℝ aMin) 1
    ((exQpLS ℝ (exOptAS ℝ)).setNumLineSearchIter 0) (exQpLS ℝ (exOptAS ℝ)).deltaLambda
    (1 * 1) 0 1 40).1 1 r1 hj hc t1 hacc
  exact ⟨r1.2, h1, h2.trans exReductionAS, q1⟩

theorem exExtLS_keepsHessianTag (aMin : ℝ) : KeepsHessianTag (exExtLS ℝ aMin) :=
  fun _ _ _ => rfl

end LineSearchExamples

/-! ## Example for the regularization type GRADIENT_STEP -/

section GradientStepExample

theorem exStages4_form : ∀ k, ∃ a b c, (exQpGS ℝ).intervals k = exStageActive ℝ a b c := by
  intro k
  have e : (exQpGS ℝ).intervals k = exStages4 ℝ k := rfl
  rw [e]
  unfold exStages4
  by_cases h : k = 0
  · exact ⟨_, _, _, if_pos h⟩
  · exact ⟨_, _, _, if_neg h⟩

theorem exGS_diagonal (k : Nat) :
    ((exQpGS ℝ).intervals k).H.sparsityType = sparsityType_t.QPDUNES_DIAGONAL := by
  obtain ⟨a, b, c, e⟩ := exStages4_form k
  rw [e]
  rfl

theorem exGS_guards : AssemblyGuards 1 1 2 (exQpGS ℝ) := by
  intro k _
  obtain ⟨a, b, c, e⟩ := exStages4_form k
  rw [e]
  refine ⟨rfl, by simp [exStageActive, exStage], fun i _ => ?_, fun l j _ _ _ => ?_⟩
  · by_cases hi : i = 0 <;> simp [exStageActive, exStage, exQpGS, exOptGS, exOpt, abs_f, hi] <;>
      exact le_trans (by norm_num) (le_abs_self _)
  · by_cases hl : l = 0 <;> simp [exStageActive, exStage, exQpGS, exOptGS, exOpt, abs_f, hl] <;>
      exact le_trans (by norm_num) (le_abs_self _)

/-- The dual gradient of the example is `2`. -/
theorem exGS_gradient :
    (setupNewtonSystem_gradient 1 1 2 (exQpGS ℝ)).gradient.data (0 * 1 + 0) = 2 := by
  have h := computeNewtonGradient_entry 1 1 2 (exQpGS ℝ) (exQpGS ℝ).gradient
    (exQpGS ℝ).xVecTmp 0 0 (by decide) (by decide)
  have e : (setupNewtonSystem_gradient 1 1 2 (exQpGS ℝ)).gradient.data (0 * 1 + 0) =
      (qpDUNES_computeNewtonGradient 1 1 2 (exQpGS ℝ) (exQpGS ℝ).gradient
        (exQpGS ℝ).xVecTmp).2.1.data (0 * 1 + 0) := rfl
  rw [e, h]
  simp [exQpGS, exQp, exStages4, exStageActive, exStage, exVec, Finset.sum_range_succ]
  norm_num

/-- With every variable at an active bound the assembled Newton Hessian entry is 0. -/
theorem exGS_assembled : assembledDiagEntry 2 (exQpGS ℝ) 0 0 0 = 0 := by
  simp [assembledDiagEntry, exQpGS, exQp, exStages4, exStageActive, exStage, exVec, exOptGS,
    exOpt, Finset.sum_range_succ]
  norm_num

end GradientStepExample


/-! ## An example run of the solve -/

section RunExamples

theorem exRun_stages (opt : qpOptions_t ℝ) (k : Nat) :
    ((exQpRun ℝ opt).intervals k).qpSolverSpecification =
      qp_solver_t.QPDUNES_STAGE_QP_SOLVER_CLIPPING ∧
    ((exQpRun ℝ opt).intervals k).H.sparsityType = sparsityType_t.QPDUNES_DIAGONAL := by
  obtain ⟨a, b, c, d, e⟩ := exStages1_form k
  have e1 : (exQpRun ℝ opt).intervals k = exStage ℝ a b c d := e
  rw [e1]
  exact ⟨rfl, rfl⟩

theorem exRun_guards (opt : qpOptions_t ℝ) (hz : opt.QPDUNES_ZERO = 1 / 100000000000000000000) :
    AssemblyGuards 1 1 2 (exQpRun ℝ opt) := by
  intro k _
  obtain ⟨a, b, c, d, e⟩ := exStages1_form k
  have e1 : (exQpRun ℝ opt).intervals k = exStage ℝ a b c d := e
  have e2 : (exQpRun ℝ opt).options = opt := rfl
  rw [e1, e2, hz]
  refine ⟨rfl, by simp [exStage], fun i _ => ?_, fun l j _ _ _ => ?_⟩
  · by_cases hi : i = 0 <;> simp [exStage, abs_f, hi] <;>
      exact le_trans (by norm_num) (le_abs_self _)
  · by_cases hl : l = 0 <;> simp [exStage, abs_f, hl] <;>
      exact le_trans (by norm_num) (le_abs_self _)

/-- The dual gradient of the run example is `2`. -/
theorem exRun_gradient (opt : qpOptions_t ℝ) :
    (setupNewtonSystem_gradient 1 1 2 (exQpRun ℝ opt)).gradient.data (0 * 1 + 0) = 2 := by
  have h := computeNewtonGradient_entry 1 1 2 (exQpRun ℝ opt) (exQpRun ℝ opt).gradient
    (exQpRun ℝ opt).xVecTmp 0 0 (by decide) (by decide)
  have e : (setupNewtonSystem_gradient 1 1 2 (exQpRun ℝ opt)).gradient.data (0 * 1 + 0) =
      (qpDUNES_computeNewtonGradient 1 1 2 (exQpRun ℝ opt) (exQpRun ℝ opt).gradient
        (exQpRun ℝ opt).xVecTmp).2.1.data (0 * 1 + 0) := rfl
  rw [e, h]
  simp [exQpRun, exQp, exStages1, exStage, exVec, Finset.sum_range_succ]
  norm_num

/-- The assembled Newton Hessian entry of the run example is `3/4`. -/
theorem exRun_assembled (opt : qpOptions_t ℝ)
    (ht : opt.equalityTolerance = 1 / 1000000000000) :
    assembledDiagEntry 2 (exQpRun ℝ opt) 0 0 0 = 3 / 4 := by
  have e2 : (exQpRun ℝ opt).options = opt := rfl
  unfold assembledDiagEntry
  rw [e2, ht]
  simp [exQpRun, exQp, exStages1, exStage, exVec, exOpt, Finset.sum_range_succ]
  norm_num

/-- The objective value of the stages of the first example is `17 + 16`. -/
theorem exRun_objective (q : qpData_t ℝ) (hq : q.intervals = exStages1 ℝ) :
    ∃ o, qpDUNES_computeObjectiveValue 1 q = some o ∧ o.1 = 33 := by
  unfold qpDUNES_computeObjectiveValue
  simp [forUpO, hq, qpData_t.setInterval, Function.update_apply, multiplyzHz,
    multiplyVectorMatrixVector, multiplyVectorMatrixVectorDiagonal, scalarProd, forUp,
    exStages1, exStage, exVec]
  norm_num

theorem sqrt_three_quarters :
    Real.sqrt (3 / 4) * Real.sqrt (3 / 4) = 3 / 4 ∧ (1 / 10000000000 : ℝ) < Real.sqrt (3 / 4) ∧
      Real.sqrt (3 / 4) ≤ 1 := by
  refine ⟨Real.mul_self_sqrt (by norm_num), ?_, ?_⟩
  · exact (Real.lt_sqrt (by norm_num)).mpr (by norm_num)
  · exact Real.sqrt_le_iff.mpr ⟨by norm_num, by norm_num⟩

/-- The start and the step direction of the first pass of the example run, for
collaborators whose step leaves the stages and reports QPDUNES_OK for the last stage: the
start goes through with the incumbent `33`, the assembly finds the gradient `2` and the
Newton Hessian `3/4`, the factorization goes through without regularization, and the Newton
direction is `deltaLambda = 2 / (3/4) = 8/3`. -/
theorem exRun_direction (ext : collaborators_t ℝ)
    (hkeep : ∀ q k a, (ext.directQpSolver_doStep q k a).2 = q.intervals k)
    (hlast : ∀ q a, (ext.directQpSolver_doStep q 1 a).1 = return_t.QPDUNES_OK)
    (hmd : MakesDense ext 1)
    (ls : lsType_t) (mi : Int) (ml : Nat) (rf : ℝ) (lg : logLevel_t) :
    ∃ s0 qd, solve_start ext 1 (exQpRun ℝ (exOptRun ℝ ls mi ml rf lg)) = Except.ok s0 ∧
      s0.2.2 = 33 ∧ s0.1.options = exOptRun ℝ ls mi ml rf lg ∧
      solve_direction Real.sqrt ext 1 1 2 1 (solve_iterationHead 1 s0.1) s0.2.1 =
        Except.ok qd ∧
      qd.options = exOptRun ℝ ls mi ml rf lg ∧
      qd.lambda = (exQpRun ℝ (exOptRun ℝ ls mi ml rf lg)).lambda ∧
      qd.deltaLambda.data 0 = 8 / 3 ∧
      (qd.log.itLog 0).isHessianRegularized = false ∧
      ∀ k, (qd.intervals k).qpSolverSpecification =
          qp_solver_t.QPDUNES_STAGE_QP_SOLVER_CLIPPING ∧
        (qd.intervals k).H.sparsityType = sparsityType_t.QPDUNES_DIAGONAL := by
  obtain ⟨s0, o, hs, hf, ho, hobj, _⟩ := solve_start_keepsStages ext 1
    (exQpRun ℝ (exOptRun ℝ ls mi ml rf lg)) hkeep hlast (fun k => (exRun_stages _ k).2)
  obtain ⟨o2, ho2, hv2⟩ := exRun_objective
    (({ exQpRun ℝ (exOptRun ℝ ls mi ml rf lg) with
        log := { (exQpRun ℝ (exOptRun ℝ ls mi ml rf lg)).log with numIter := 0 } } :
      qpData_t ℝ).setItLog
      { ({ exQpRun ℝ (exOptRun ℝ ls mi ml rf lg) with
          log := { (exQpRun ℝ (exOptRun ℝ ls mi ml rf lg)).log with numIter := 0 } } :
        qpData_t ℝ).log.itLog 0 with itNbr := 0 }) rfl
  have hoo : o = o2 := by
    rw [ho] at ho2
    exact Option.some.inj ho2
  have hfh : SameButStart (exQpRun ℝ (exOptRun ℝ ls mi ml rf lg)) (solve_iterationHead 1 s0.1) :=
    SameButStart_trans hf (solve_iterationHead_sameButStart 1 s0.1)
  have hopt0 : s0.1.options = exOptRun ℝ ls mi ml rf lg := congrArg (fun w => w.options) hf.1
  have hopt : (solve_iterationHead 1 s0.1).options = exOptRun ℝ ls mi ml rf lg :=
    congrArg (fun w => w.options) hfh.1
  have hhes : (solve_iterationHead 1 s0.1).hessian =
      (exQpRun ℝ (exOptRun ℝ ls mi ml rf lg)).hessian := congrArg (fun w => w.hessian) hfh.1
  have hlam : (solve_iterationHead 1 s0.1).lambda =
      (exQpRun ℝ (exOptRun ℝ ls mi ml rf lg)).lambda := congrArg (fun w => w.lambda) hfh.1
  have hgr : (setupNewtonSystem_gradient 1 1 2 (solve_iterationHead 1 s0.1)).gradient.data
      (0 * 1 + 0) = 2 := by
    rw [gradient_entry_sameCoupling 1 1 2 _ _ (SameButStart_coupling hfh) 0 0 (by decide)
      (by decide)]
    exact exRun_gradient _
  obtain ⟨q1, h1, hv⟩ := setupNewtonSystem_returns Real.sqrt ext 1 1 2
    (solve_iterationHead 1 s0.1) hmd (SameButStart_guards hfh 1 1 2 (exRun_guards _ rfl))
  have hnorm : vectorNorm Real.sqrt
      (setupNewtonSystem_gradient 1 1 2 (solve_iterationHead 1 s0.1)).gradient (1 * 1) = 2 := by
    unfold vectorNorm
    rw [scalarProd_eq_sum]
    simp only [Nat.mul_one, Finset.sum_range_one]
    have e : (setupNewtonSystem_gradient 1 1 2 (solve_iterationHead 1 s0.1)).gradient.data 0 =
        2 := hgr
    rw [e]
    have : (2 : ℝ) * 2 = 4 := by norm_num
    rw [this, sqrt_four]
  rw [hnorm] at h1 hv
  have hn : ¬ (2 : ℝ) < (solve_iterationHead 1 s0.1).options.stationarityTolerance := by
    rw [hopt]
    norm_num [exOptRun, exOpt]
  rw [if_neg hn] at h1
  obtain ⟨o1, i1, l1, d1, _, g1, gr1⟩ := setupNewtonSystem_frame Real.sqrt ext 1 1 2
    (solve_iterationHead 1 s0.1) q1 _ h1
  have ho1 : q1.options = exOptRun ℝ ls mi ml rf lg := o1.trans hopt
  have hM : q1.hessian (0, 0, 0, 0) = 3 / 4 := by
    by_cases hc : diagChanged (solve_iterationHead 1 s0.1) 0
    · rw [hv hn 0 (by decide) hc 0 0 (by decide) (by decide), SameButStart_diagEntry hfh 2 0 0 0]
      exact exRun_assembled _ rfl
    · have hnr : ¬ Recomputed 1 1 (solve_iterationHead 1 s0.1) 0 0 0 0 := by
        intro h
        rcases h.1 with ⟨_, _, c⟩ | ⟨c, _⟩
        · exact hc c
        · exact absurd c (by decide)
      rw [(setupNewtonSystem_policy Real.sqrt ext 1 1 2 _ q1 h1).1 0 0 0 0 hnr, hhes]
      rfl
  obtain ⟨r1, r2, r3⟩ := sqrt_three_quarters
  obtain ⟨f1, f2, f3⟩ := factorNewtonSystem_single_ok Real.sqrt q1
    (q1.log.itLog 0).isHessianRegularized s0.2.1 (by rw [ho1]; rfl)
    (by rw [hM, ho1]; norm_num [exOptRun, exOpt])
    (by
      rw [hM, ho1]
      have e : (exOptRun ℝ ls mi ml rf lg).newtonHessDiagRegTolerance = 1 / 10000000000 := rfl
      rw [e]
      exact not_lt.mpr (le_of_lt r2))
    (by rw [ho1]; norm_num [exOptRun, exOpt])
  obtain ⟨qd, hd, k1, _, k3, k4, k5⟩ := solve_newtonDirection_ok Real.sqrt ext 1 1 2
    (solve_iterationHead 1 s0.1) s0.2.1 q1 h1 (by rw [ho1]; rfl) f1
  have hchol : qd.cholHessian (0, 0, 0, 0) = Real.sqrt (3 / 4) := by
    rw [k3, f2, hM]
  refine ⟨s0, qd, hs, ?_, hopt0, ?_, ?_, ?_, ?_, ?_, fun k => ?_⟩
  · rw [hobj, hoo]
    exact hv2
  · rw [solve_direction_newton Real.sqrt ext 1 1 2 1 _ _ (Or.inl rfl)]
    exact hd
  · exact (congrArg (fun w => w.options) k1).trans ho1
  · exact (congrArg (fun w => w.lambda) k1).trans (l1.trans hlam)
  · rw [k4, solveNewtonEquation_single _ _ _ _ (by
      rw [hchol, ho1]
      have e : (exOptRun ℝ ls mi ml rf lg).QPDUNES_INFTY = 1000000000000 := rfl
      rw [e]
      exact not_lt.mpr (le_trans r3 (by norm_num))), hchol, gr1]
    have e : (setupNewtonSystem_gradient 1 1 2 (solve_iterationHead 1 s0.1)).gradient.data 0 =
        2 := hgr
    rw [e, div_div, r1]
    norm_num
  · rw [k5]
    simp only [Function.update_same]
    rw [f3, g1]
    simp [solve_iterationHead, qpData_t.setItLog]
  · have e : qd.intervals = (solve_iterationHead 1 s0.1).intervals :=
      (congrArg (fun w => w.intervals) k1).trans i1
    rw [e]
    have e1 := hfh.2 k
    have e2 : ((solve_iterationHead 1 s0.1).intervals k).qpSolverSpecification =
        ((exQpRun ℝ (exOptRun ℝ ls mi ml rf lg)).intervals k).qpSolverSpecification :=
      congrArg (fun w => w.qpSolverSpecification) e1
    have e3 : ((solve_iterationHead 1 s0.1).intervals k).H =
        ((exQpRun ℝ (exOptRun ℝ ls mi ml rf lg)).intervals k).H :=
      congrArg (fun w => w.H) e1
    rw [e2, e3]
    exact exRun_stages _ k

theorem sqrt_eight_thirds : Real.sqrt (8 / 3 * (8 / 3)) = 8 / 3 :=
  Real.sqrt_mul_self (by norm_num)

/-- The first pass of the example run up to the stage solves, for collaborators that leave
the stages as they are: the stage solves go through on the Newton direction `8/3` and
report QPDUNES_ERR_STAGE_QP_INFEASIBLE exactly when a stage solve reports a status other
than QPDUNES_OK. -/
theorem exRun_localQPs (ext : collaborators_t ℝ) (st : Nat → return_t)
    (hkeep : ∀ q k a, (ext.directQpSolver_doStep q k a).2 = q.intervals k)
    (hlast : ∀ q a, (ext.directQpSolver_doStep q 1 a).1 = return_t.QPDUNES_OK)
    (hmd : MakesDense ext 1)
    (hupd : ∀ q k, ext.clippingQpSolver_updateStageData q k = q.intervals k)
    (hsol : ∀ q k, ext.directQpSolver_solveUnconstrained q k = (st k, q.intervals k))
    (ls : lsType_t) (mi : Int) (ml : Nat) (rf : ℝ) (lg : logLevel_t) :
    ∃ s0 qd a, solve_start ext 1 (exQpRun ℝ (exOptRun ℝ ls mi ml rf lg)) = Except.ok s0 ∧
      s0.2.2 = 33 ∧ s0.1.options = exOptRun ℝ ls mi ml rf lg ∧
      solve_direction Real.sqrt ext 1 1 2 1 (solve_iterationHead 1 s0.1) s0.2.1 =
        Except.ok qd ∧
      qpDUNES_solveAllLocalQPs ext 1 1 qd qd.deltaLambda = some a ∧
      (a.1 = return_t.QPDUNES_ERR_STAGE_QP_INFEASIBLE ↔
        ∃ k, k ≤ 1 ∧ st k ≠ return_t.QPDUNES_OK) ∧
      a.2.options = exOptRun ℝ ls mi ml rf lg ∧
      a.2.lambda = (exQpRun ℝ (exOptRun ℝ ls mi ml rf lg)).lambda ∧
      a.2.deltaLambda.data 0 = 8 / 3 ∧
      vectorNorm Real.sqrt a.2.deltaLambda (1 * 1) = 8 / 3 ∧
      (a.2.log.itLog 0).isHessianRegularized = false ∧
      ClippingDiagonal a.2 := by
  obtain ⟨s0, qd, h1, h2, h3, h4, h5, h6, h7, h8, h9⟩ :=
    exRun_direction ext hkeep hlast hmd ls mi ml rf lg
  obtain ⟨a, a1, a2, a3, a4, _⟩ := solveAllLocalQPs_keeps ext 1 1 qd qd.deltaLambda st hupd hsol h9
  have hdl : a.2.deltaLambda.data 0 = 8 / 3 := by
    rw [a2.2.2.1]
    exact h7
  refine ⟨s0, qd, a, h1, h2, h3, h4, a1, a4, a2.1.trans h5, a2.2.1.trans h6, hdl, ?_, ?_, a3⟩
  · unfold vectorNorm
    rw [scalarProd_eq_sum]
    simp only [Nat.mul_one, Finset.sum_range_one]
    rw [hdl]
    exact sqrt_eight_thirds
  · rw [a2.2.2.2.2]
    exact h8

/-- With the line search example collaborators every clipping stage reports `aMin`. -/
theorem exLS_alphaMin (aMin : ℝ) (q : qpData_t ℝ) (hq : ClippingDiagonal q)
    (hI : aMin < q.options.QPDUNES_INFTY) :
    determineStepLength_alphaMin (exExtLS ℝ aMin) 1 q = aMin := by
  simp [determineStepLength_alphaMin, forUp, (hq 0).1, (hq 1).1, exExtLS, hI]

/-- The first trial of a backtracking search with the line search example collaborators,
at the step length 1, has the objective value 33. -/
theorem exLS_trial0 (aMin : ℝ) (q : qpData_t ℝ) (hq : ClippingDiagonal q) :
    ∃ r, backTracking_trial (exExtLS ℝ aMin) 1 q 1 0 = some r ∧ r.1 = 33 ∧
      ClippingDiagonal r.2 := by
  obtain ⟨r, h1, h2, h3⟩ := exTrial aMin
    ((({ q with alpha := 1 } : qpData_t ℝ)).setNumLineSearchIter
      ((q.log.itLog 0).numLineSearchIter + 0)) 1 hq
  refine ⟨r, h1, ?_, h3⟩
  rw [h2]
  simp

theorem exExtLS_run (aMin : ℝ) :
    (∀ (q : qpData_t ℝ) (k : Nat) (a : ℝ),
      ((exExtLS ℝ aMin).directQpSolver_doStep q k a).2 = q.intervals k) ∧
    (∀ (q : qpData_t ℝ) (a : ℝ),
      ((exExtLS ℝ aMin).directQpSolver_doStep q 1 a).1 = return_t.QPDUNES_OK) ∧
    MakesDense (exExtLS ℝ aMin) 1 ∧
    (∀ (q : qpData_t ℝ) (k : Nat),
      (exExtLS ℝ aMin).clippingQpSolver_updateStageData q k = q.intervals k) ∧
    (∀ (q : qpData_t ℝ) (k : Nat), (exExtLS ℝ aMin).directQpSolver_solveUnconstrained q k =
      ((fun _ => return_t.QPDUNES_OK) k, q.intervals k)) :=
  ⟨fun _ _ _ => rfl, fun _ _ => rfl, exExt_makesDense ℝ 1, fun _ _ => rfl, fun _ _ => rfl⟩

/-- The first pass of the example run with the backtracking search limited to one
iteration: the trial at the step length 1 (objective 33) does not improve on the incumbent
33, the step length is reduced to 1/10, and the search ends with
NUMBER_OF_MAX_LINESEARCH_ITERATIONS_REACHED; the step length determination takes the step
of length 1/10 and returns that status. -/
theorem exRun_exhausted (mi : Int) (lg : logLevel_t) :
    ∃ s0 qd a q1 obj1,
      solve_start (exExtLS ℝ 0) 1
        (exQpRun ℝ (exOptRun ℝ lsType_t.QPDUNES_LS_BACKTRACKING_LS mi 1 (1 / 10) lg)) =
        Except.ok s0 ∧
      s0.1.options = exOptRun ℝ lsType_t.QPDUNES_LS_BACKTRACKING_LS mi 1 (1 / 10) lg ∧
      solve_direction Real.sqrt (exExtLS ℝ 0) 1 1 2 1 (solve_iterationHead 1 s0.1) s0.2.1 =
        Except.ok qd ∧
      qpDUNES_solveAllLocalQPs (exExtLS ℝ 0) 1 1 qd qd.deltaLambda = some a ∧
      qpDUNES_determineStepLength Real.sqrt (exExtLS ℝ 0) 1 1 2 a.2 s0.2.2
        (a.2.log.itLog 0).isHessianRegularized =
        some (return_t.QPDUNES_ERR_NUMBER_OF_MAX_LINESEARCH_ITERATIONS_REACHED, q1, obj1) ∧
      q1.alpha = 1 / 10 ∧ q1.lambda.data 0 = 4 / 15 ∧
      q1.options = exOptRun ℝ lsType_t.QPDUNES_LS_BACKTRACKING_LS mi 1 (1 / 10) lg := by
  obtain ⟨e1, e2, e3, e4, e5⟩ := exExtLS_run 0
  obtain ⟨s0, qd, a, h1, h2, h3, h4, h5, _, h7, h8, h9, h10, h11, h12⟩ :=
    exRun_localQPs (exExtLS ℝ 0) _ e1 e2 e3 e4 e5 lsType_t.QPDUNES_LS_BACKTRACKING_LS mi 1
      (1 / 10) lg
  have hq0 : ClippingDiagonal (a.2.setNumLineSearchIter 0) := h12
  have hopt0 : (a.2.setNumLineSearchIter 0).options =
      exOptRun ℝ lsType_t.QPDUNES_LS_BACKTRACKING_LS mi 1 (1 / 10) lg := h7
  have hamin : determineStepLength_alphaMin (exExtLS ℝ 0) 1 a.2 = 0 :=
    exLS_alphaMin 0 a.2 h12 (by rw [h7]; norm_num [exOptRun, exOpt])
  have hno : ¬ (determineStepLength_alphaMin (exExtLS ℝ 0) 1 a.2 >
      1 - a.2.options.equalityTolerance ∧ (a.2.log.itLog 0).isHessianRegularized = false) := by
    rw [hamin, h7]
    norm_num [exOptRun, exOpt]
  obtain ⟨r, t1, t2, t3⟩ := exLS_trial0 0 (a.2.setNumLineSearchIter 0) hq0
  have hnum : (a.2.setNumLineSearchIter 0).options.maxNumLineSearchIterations -
      ((a.2.setNumLineSearchIter 0).log.itLog 0).numLineSearchIter = 1 := by
    rw [hopt0, (setNumLineSearchIter_frame a.2 0).2.2.2.2.2]
    rfl
  have hcont : ∀ j, j < (a.2.setNumLineSearchIter 0).options.maxNumLineSearchIterations -
        ((a.2.setNumLineSearchIter 0).log.itLog 0).numLineSearchIter →
      backTracking_continues Real.sqrt (exExtLS ℝ 0) 1 (a.2.setNumLineSearchIter 0)
        a.2.deltaLambda (1 * 1) 0 1 s0.2.2 j := by
    intro j hj
    rw [hnum] at hj
    have e : j = 0 := by omega
    subst e
    refine ⟨r, t1, ?_, ?_⟩
    · rw [t2, h2]
      unfold backTracking_minimumProgress
      rw [hopt0]
      norm_num [exOptRun, exOpt, abs_f]
    · rw [h10, hopt0]
      norm_num [exOptRun, exOpt]
  obtain ⟨sh, hh1, hh2⟩ := backTrackingLineSearch_exhausted Real.sqrt (exExtLS ℝ 0) 1
    (a.2.setNumLineSearchIter 0) a.2.deltaLambda (1 * 1) 0 1 s0.2.2 hcont
  rw [hnum] at hh1 hh2
  obtain ⟨s1, hs1, hi1⟩ := backTracking_head_of_trial _ _ _ _ _ r t1
  have hsame : sh = s1 := Option.some.inj (hh1.symm.trans hs1)
  obtain ⟨b1, b2, b3, b4⟩ := backTracking_head_frame _ _ _ _ _ sh hh1
  have hsearch := determineStepLength_lineSearch_BT Real.sqrt (exExtLS ℝ 0) 1 1 2
    (a.2.setNumLineSearchIter 0) (1 * 1) (determineStepLength_alphaMin (exExtLS ℝ 0) 1 a.2) 1
    s0.2.2 _ _ (by rw [hopt0]; rfl) hh2
  rw [if_neg (by decide)] at hsearch
  have htags : ClippingDiagonal (sh.setNumLineSearchIter
      (((a.2.setNumLineSearchIter 0).log.itLog 0).numLineSearchIter + 1)) := by
    intro k
    have e : (sh.setNumLineSearchIter
      (((a.2.setNumLineSearchIter 0).log.itLog 0).numLineSearchIter + 1)).intervals =
        r.2.intervals := by
      rw [hsame]
      exact hi1
    rw [e]
    exact t3 k
  obtain ⟨q1, obj1, d1, d2, d3, _, d5⟩ := determineStepLength_afterSearch Real.sqrt
    (exExtLS ℝ 0) 1 1 2 a.2 s0.2.2 (a.2.log.itLog 0).isHessianRegularized _ _ _ hno hsearch
    (fun k _ => (htags k).1) (fun k => (htags k).2) (exExtLS_keepsHessianTag 0)
  have halpha : sh.alpha = 1 / 10 := by
    rw [b4, hopt0]
    norm_num [exOptRun, exOpt]
  refine ⟨s0, qd, a, q1, obj1, h1, h3, h4, h5, d1, d2.trans halpha, ?_, ?_⟩
  · rw [d5 0, if_pos (by decide)]
    have e1 : (sh.setNumLineSearchIter
      (((a.2.setNumLineSearchIter 0).log.itLog 0).numLineSearchIter + 1)).lambda.data 0 = 0 := by
      have : sh.lambda = a.2.lambda := b2
      show sh.lambda.data 0 = 0
      rw [this, h8]
      rfl
    have e2 : (sh.setNumLineSearchIter
      (((a.2.setNumLineSearchIter 0).log.itLog 0).numLineSearchIter + 1)).deltaLambda.data 0 =
        8 / 3 := by
      have : sh.deltaLambda = a.2.deltaLambda := b3
      show sh.deltaLambda.data 0 = 8 / 3
      rw [this]
      exact h9
    have e3 : (sh.setNumLineSearchIter
      (((a.2.setNumLineSearchIter 0).log.itLog 0).numLineSearchIter + 1)).alpha = 1 / 10 :=
      halpha
    rw [e1, e2, e3]
    norm_num
  · rw [d3]
    exact b1.trans hopt0

/-- The first pass of the example run with the reduction factor `1e-13`: the trial at the
step length 1 (objective 33) does not improve on the incumbent 33, the reduced step length
`1e-13` gives `|deltaLambda| * alpha = 8/3 * 1e-13 < equalityTolerance`, and the
backtracking search reports DECEEDED_MIN_LINESEARCH_STEPSIZE. -/
theorem exRun_deceeded (mi : Int) (lg : logLevel_t) :
    ∃ s0 qd a qb,
      solve_start (exExtLS ℝ 0) 1
        (exQpRun ℝ (exOptRun ℝ lsType_t.QPDUNES_LS_BACKTRACKING_LS mi 19
          (1 / 10000000000000) lg)) = Except.ok s0 ∧
      s0.1.options = exOptRun ℝ lsType_t.QPDUNES_LS_BACKTRACKING_LS mi 19
        (1 / 10000000000000) lg ∧
      solve_direction Real.sqrt (exExtLS ℝ 0) 1 1 2 1 (solve_iterationHead 1 s0.1) s0.2.1 =
        Except.ok qd ∧
      qpDUNES_solveAllLocalQPs (exExtLS ℝ 0) 1 1 qd qd.deltaLambda = some a ∧
      a.2.options.lsType = lsType_t.QPDUNES_LS_BACKTRACKING_LS ∧
      ¬ (determineStepLength_alphaMin (exExtLS ℝ 0) 1 a.2 >
        1 - a.2.options.equalityTolerance ∧ (a.2.log.itLog 0).isHessianRegularized = false) ∧
      qpDUNES_backTrackingLineSearch Real.sqrt (exExtLS ℝ 0) 1 (a.2.setNumLineSearchIter 0)
        a.2.deltaLambda (1 * 1) 0 1 s0.2.2 =
        some (return_t.QPDUNES_ERR_DECEEDED_MIN_LINESEARCH_STEPSIZE, qb) ∧
      a.2.lambda = (exQpRun ℝ (exOptRun ℝ lsType_t.QPDUNES_LS_BACKTRACKING_LS mi 19
        (1 / 10000000000000) lg)).lambda := by
  obtain ⟨e1, e2, e3, e4, e5⟩ := exExtLS_run 0
  obtain ⟨s0, qd, a, h1, h2, h3, h4, h5, _, h7, h8, h9, h10, h11, h12⟩ :=
    exRun_localQPs (exExtLS ℝ 0) _ e1 e2 e3 e4 e5 lsType_t.QPDUNES_LS_BACKTRACKING_LS mi 19
      (1 / 10000000000000) lg
  have hq0 : ClippingDiagonal (a.2.setNumLineSearchIter 0) := h12
  have hopt0 : (a.2.setNumLineSearchIter 0).options =
      exOptRun ℝ lsType_t.QPDUNES_LS_BACKTRACKING_LS mi 19 (1 / 10000000000000) lg := h7
  have hamin : determineStepLength_alphaMin (exExtLS ℝ 0) 1 a.2 = 0 :=
    exLS_alphaMin 0 a.2 h12 (by rw [h7]; norm_num [exOptRun, exOpt])
  have hno : ¬ (determineStepLength_alphaMin (exExtLS ℝ 0) 1 a.2 >
      1 - a.2.options.equalityTolerance ∧ (a.2.log.itLog 0).isHessianRegularized = false) := by
    rw [hamin, h7]
    norm_num [exOptRun, exOpt]
  obtain ⟨r, t1, t2, _⟩ := exLS_trial0 0 (a.2.setNumLineSearchIter 0) hq0
  obtain ⟨qb, hb, _, _⟩ := (backTrackingLineSearch_outcome Real.sqrt (exExtLS ℝ 0) 1
    (a.2.setNumLineSearchIter 0) a.2.deltaLambda (1 * 1) 0 1 s0.2.2).2.1 0 r
    (by
      rw [hopt0, (setNumLineSearchIter_frame a.2 0).2.2.2.2.2]
      show 0 < 19 - 0
      decide)
    (fun i hi => absurd hi (Nat.not_lt_zero i)) t1
    (by
      rw [t2, h2]
      unfold backTracking_minimumProgress
      rw [hopt0]
      norm_num [exOptRun, exOpt, abs_f])
    (by
      rw [h10, hopt0]
      norm_num [exOptRun, exOpt])
  exact ⟨s0, qd, a, qb, h1, h3, h4, h5, by rw [h7]; rfl, hno, hb, h8⟩

theorem exExtInfeasible_run :
    (∀ (q : qpData_t ℝ) (k : Nat) (a : ℝ),
      ((exExtInfeasible ℝ).directQpSolver_doStep q k a).2 = q.intervals k) ∧
    (∀ (q : qpData_t ℝ) (a : ℝ),
      ((exExtInfeasible ℝ).directQpSolver_doStep q 1 a).1 = return_t.QPDUNES_OK) ∧
    MakesDense (exExtInfeasible ℝ) 1 ∧
    (∀ (q : qpData_t ℝ) (k : Nat),
      (exExtInfeasible ℝ).clippingQpSolver_updateStageData q k = q.intervals k) ∧
    (∀ (q : qpData_t ℝ) (k : Nat), (exExtInfeasible ℝ).directQpSolver_solveUnconstrained q k =
      ((fun kk => if kk = 0 then return_t.QPDUNES_ERR_STAGE_QP_INFEASIBLE
        else return_t.QPDUNES_OK) k, q.intervals k)) ∧
    KeepsHessianTag (exExtInfeasible ℝ) :=
  ⟨fun _ _ _ => rfl, fun _ _ => rfl, exExt_makesDense ℝ 1, fun _ _ => rfl, fun _ _ => rfl,
    fun _ _ _ => rfl⟩

/-- The first pass of the example run with a stage solve that fails in stage 0:
`qpDUNES_solveAllLocalQPs` reports QPDUNES_ERR_STAGE_QP_INFEASIBLE, and the step length
determination that follows takes the full step and returns QPDUNES_OK. -/
theorem exRun_infeasible (mi : Int) (lg : logLevel_t) :
    ∃ s0 qd a q1 obj1,
      solve_start (exExtInfeasible ℝ) 1
        (exQpRun ℝ (exOptRun ℝ lsType_t.QPDUNES_LS_BACKTRACKING_LS mi 19 (1 / 10) lg)) =
        Except.ok s0 ∧
      s0.1.options = exOptRun ℝ lsType_t.QPDUNES_LS_BACKTRACKING_LS mi 19 (1 / 10) lg ∧
      solve_direction Real.sqrt (exExtInfeasible ℝ) 1 1 2 1 (solve_iterationHead 1 s0.1)
        s0.2.1 = Except.ok qd ∧
      qpDUNES_solveAllLocalQPs (exExtInfeasible ℝ) 1 1 qd qd.deltaLambda = some a ∧
      a.1 = return_t.QPDUNES_ERR_STAGE_QP_INFEASIBLE ∧
      qpDUNES_determineStepLength Real.sqrt (exExtInfeasible ℝ) 1 1 2 a.2 s0.2.2
        (a.2.log.itLog 0).isHessianRegularized = some (return_t.QPDUNES_OK, q1, obj1) ∧
      q1.alpha = 1 ∧ q1.lambda.data 0 = 8 / 3 ∧
      q1.options = exOptRun ℝ lsType_t.QPDUNES_LS_BACKTRACKING_LS mi 19 (1 / 10) lg := by
  obtain ⟨e1, e2, e3, e4, e5, e6⟩ := exExtInfeasible_run
  obtain ⟨s0, qd, a, h1, h2, h3, h4, h5, h6, h7, h8, h9, h10, h11, h12⟩ :=
    exRun_localQPs (exExtInfeasible ℝ) _ e1 e2 e3 e4 e5 lsType_t.QPDUNES_LS_BACKTRACKING_LS mi
      19 (1 / 10) lg
  have hamin : determineStepLength_alphaMin (exExtInfeasible ℝ) 1 a.2 = 1000000000000 := by
    have e : a.2.options.QPDUNES_INFTY = 1000000000000 := by rw [h7]; rfl
    simp [determineStepLength_alphaMin, forUp, (h12 0).1, (h12 1).1, exExtInfeasible, exExt, e]
  obtain ⟨q1, obj1, d1, d2, _, d4, _, d6⟩ := determineStepLength_shortcut Real.sqrt
    (exExtInfeasible ℝ) 1 1 2 a.2 s0.2.2 (a.2.log.itLog 0).isHessianRegularized
    (fun k _ => (h12 k).1) (fun k => (h12 k).2) e6
    (by rw [hamin, h7]; norm_num [exOptRun, exOpt]) h11
  refine ⟨s0, qd, a, q1, obj1, h1, h3, h4, h5, h6.mpr ⟨0, by decide, by decide⟩, d1, d2, ?_,
    d4.trans h7⟩
  rw [d6 0, if_pos (by decide), h9, h8]
  simp [exQpRun, exQp, exVec]

/-- The run on the third example (vanishing dual gradient) with the initial step failing in
stage 0: the start goes through to the iteration loop, and the first pass returns the
optimality status. -/
theorem exStepFails_optimal :
    ∃ s0 q, solve_start (exExtStepFails ℝ) 1 (exQp ℝ (exStages3 ℝ)) = Except.ok s0 ∧
      qpDUNES_solve Real.sqrt (exExtStepFails ℝ) 1 1 2 (exQp ℝ (exStages3 ℝ)) =
        some (return_t.QPDUNES_SUCC_OPTIMAL_SOLUTION_FOUND, q) := by
  have hH : ∀ k, ((exQp ℝ (exStages3 ℝ)).intervals k).H.sparsityType =
      sparsityType_t.QPDUNES_DIAGONAL := by
    intro k
    obtain ⟨a, b, c, d, e⟩ := exStages3_form k
    have e1 : (exQp ℝ (exStages3 ℝ)).intervals k = exStage ℝ a b c d := e
    rw [e1]
    rfl
  obtain ⟨s, _, hs, hf, _⟩ := solve_start_keepsStages (exExtStepFails ℝ) 1
    (exQp ℝ (exStages3 ℝ)) (fun _ _ _ => rfl) (fun _ _ => rfl) hH
  have hc := SameButStart_coupling hf
  have hc2 := hc.trans (solve_iterationHead_sameCoupling 1 s.1)
  refine ⟨s, _, hs, solve_optimal_first_pass Real.sqrt (exExtStepFails ℝ) 1 1 2 _ s hs ?_ ?_⟩
  · rw [hc.1]
    simp [exQp, exOpt]
  · rw [hc2.1]
    unfold vectorNorm
    rw [scalarProd_eq_sum]
    simp only [Nat.mul_one, Finset.sum_range_one]
    have e := gradient_entry_sameCoupling 1 1 2 _ _ hc2 0 0 (by decide) (by decide)
    simp only [Nat.zero_mul, Nat.zero_add] at e
    rw [e]
    have e3 : (setupNewtonSystem_gradient 1 1 2 (exQp ℝ (exStages3 ℝ))).gradient.data 0 = 0 :=
      exGradient3 _ _
    rw [e3]
    simp [exQp, exOpt]

end RunExamples

/-! ## The grid search on the example -/

section GridExamples

theorem exGrid_point (kk : Nat) : gridSearch_point (exQpGrid ℝ) 0 1 kk = (kk : ℝ) / 4 := by
  have e : ((exQpGrid ℝ).options.lineSearchNbrGridPoints : ℝ) = 5 := by
    norm_num [exQpGrid, exQp, exOpt]
  unfold gridSearch_point divide_f
  rw [e]
  norm_num
  ring

/-- The loop of the grid search on the example goes through any number of passes and
keeps clipping stages with diagonal Hessians. -/
theorem exGrid_before (obj : ℝ) (n : Nat) :
    ∃ s, gridSearch_before (exExtLS ℝ 0) 1 (exQpGrid ℝ) obj 0 1 n = some s ∧
      ClippingDiagonal s.1 := by
  induction n with
  | zero => exact ⟨_, rfl, fun k => exStages1_clipping k⟩
  | succ n ih =>
    obtain ⟨s, hs, hq⟩ := ih
    obtain ⟨r, hr, _, ht⟩ := exTrial 0 s.1 (gridSearch_point (exQpGrid ℝ) 0 1 n) hq
    rw [gridSearch_before_succ, hs]
    dsimp only
    unfold gridSearch_pass
    rw [hr]
    dsimp only
    split_ifs
    · exact ⟨_, rfl, ht⟩
    · exact ⟨_, rfl, ht⟩

/-- The objective values on the grid of the example: 33 at the step length 1 and 233 at
every other point. -/
theorem exGrid_value (obj : ℝ) (kk : Nat) :
    gridSearch_value (exExtLS ℝ 0) 1 (exQpGrid ℝ) obj 0 1 kk =
      some (33 + 2 * (if (kk : ℝ) / 4 = 1 then 0 else 100)) := by
  obtain ⟨s, hs, hq⟩ := exGrid_before obj kk
  obtain ⟨r, hr, hv, _⟩ := exTrial 0 s.1 (gridSearch_point (exQpGrid ℝ) 0 1 kk) hq
  unfold gridSearch_value
  rw [hs]
  dsimp only
  rw [hr]
  dsimp only
  rw [hv, exGrid_point]

theorem exGrid_value_le (obj : ℝ) (kk : Nat) (x : ℝ)
    (h : gridSearch_value (exExtLS ℝ 0) 1 (exQpGrid ℝ) obj 0 1 kk = some x) :
    x = 33 ∨ x = 233 := by
  rw [exGrid_value] at h
  have e := Option.some.inj h
  rw [← e]
  split_ifs
  · left; norm_num
  · right; norm_num

end GridExamples

/-! ## The bisection search on an example with a short step direction -/

section BisectionExamples

theorem exBis_norm : vectorNorm Real.sqrt (exVec (fun _ => (1 / 2 : ℝ))) 1 = 1 / 2 := by
  have e : scalarProd (exVec (fun _ => (1 / 2 : ℝ))) (exVec (fun _ => (1 / 2 : ℝ))) 1 =
      1 / 2 * (1 / 2) := by
    simp [scalarProd, forUp, exVec]
  unfold vectorNorm
  rw [e]
  exact Real.sqrt_mul_self (by norm_num)

/-- The slope of the example at any trial step length: the dual gradient `3/2000` times
the step direction `1/2`. -/
theorem exBis_slope (q : qpData_t ℝ) (hq : q.intervals = exStagesBis ℝ) (a : ℝ) :
    scalarProd (bisectionIntervalSearch_gradient (exExt ℝ) 1 1 2 q a).xnVecTmp2
      (exVec (fun _ => (1 / 2 : ℝ))) 1 = 3 / 4000 := by
  simp [bisectionIntervalSearch_gradient, forUp, hq, exExt, exStagesBis, exStage, exVec,
    scalarProd, multiplyCz, accC, addToVector, subtractFromVector, addVectorScaledVector,
    qpData_t.setInterval, vector_t.set, Function.update_apply]
  norm_num

theorem exBis_options (a : ℝ) :
    (bisectionIntervalSearch_gradient (exExt ℝ) 1 1 2
      ((exQp ℝ (exStagesBis ℝ)).setNumLineSearchIter
        (((exQp ℝ (exStagesBis ℝ)).log.itLog 0).numLineSearchIter)) a).options = exOpt ℝ :=
  (bisectionIntervalSearch_gradient_frame (exExt ℝ) 1 1 2 _ a).1

/-- The search that divides the slope by `1/2` leaves the example at the maximum step
size. -/
theorem exBis_half :
    (bisectionIntervalSearch_dividedBy (exExt ℝ) 1 1 2 (exQp ℝ (exStagesBis ℝ))
      (exVec (fun _ => (1 / 2 : ℝ))) 1 (1 / 2) 0 1).1 =
      return_t.QPDUNES_ERR_EXCEEDED_MAX_LINESEARCH_STEPSIZE := by
  have h := (bisectionIntervalSearch_dividedBy_first (exExt ℝ) 1 1 2 (exQp ℝ (exStagesBis ℝ))
    (exVec (fun _ => (1 / 2 : ℝ))) 1 (1 / 2) 0 1 (by decide)).2
  rw [exBis_slope _ rfl, exBis_options] at h
  rw [h (by
      rw [show abs_f (divide_f (3 / 4000 : ℝ) (1 / 2)) = 3 / 2000 by
        unfold abs_f divide_f
        rw [abs_of_pos (by norm_num)]
        norm_num]
      norm_num [exOpt]) (by norm_num [divide_f]) (by norm_num [exOpt])]

/-- The search that divides the slope by `1` finds the example stationary at the step
length 1. -/
theorem exBis_one :
    (bisectionIntervalSearch_dividedBy (exExt ℝ) 1 1 2 (exQp ℝ (exStagesBis ℝ))
      (exVec (fun _ => (1 / 2 : ℝ))) 1 1 0 1).1 = return_t.QPDUNES_OK := by
  have h := (bisectionIntervalSearch_dividedBy_first (exExt ℝ) 1 1 2 (exQp ℝ (exStagesBis ℝ))
    (exVec (fun _ => (1 / 2 : ℝ))) 1 1 0 1 (by decide)).1
  rw [exBis_slope _ rfl, exBis_options] at h
  rw [h (by
      rw [show abs_f (divide_f (3 / 4000 : ℝ) 1) = 3 / 4000 by
        unfold abs_f divide_f
        rw [abs_of_pos (by norm_num)]
        norm_num]
      norm_num [exOpt])]

end BisectionExamples

/-! ## Aliased active set tables on the example -/

section AliasExamples

/-- The example run with iteration logging and `maxIter = 1` ends with both pointers of
`itLog[0]` at the same table. -/
theorem exRun_aliased :
    ∃ q1, qpDUNES_solve Real.sqrt (exExtLS ℝ 0) 1 1 2
        (exQpRun ℝ (exOptRun ℝ lsType_t.QPDUNES_LS_BACKTRACKING_LS 1 1 (1 / 10)
          logLevel_t.QPDUNES_LOG_ITERATIONS)) =
        some (return_t.QPDUNES_ERR_ITERATION_LIMIT_REACHED, q1) ∧
      AliasedActSets q1 := by
  obtain ⟨s0, qd, a, q1, obj1, h1, h2, h3, h4, h5, _, _, h8⟩ :=
    exRun_exhausted 1 logLevel_t.QPDUNES_LOG_ITERATIONS
  obtain ⟨s1, k1, k2, _, _⟩ := solve_pass_continues Real.sqrt (exExtLS ℝ 0) 1 1 2 s0 s0 0 qd a
    (return_t.QPDUNES_ERR_NUMBER_OF_MAX_LINESEARCH_ITERATIONS_REACHED, q1, obj1) rfl h3 h4 h5
    (Or.inr (Or.inl rfl))
  have hal : AliasedActSets s1.1 := solve_first_pass_aliases Real.sqrt (exExtLS ℝ 0) 1 1 2 s0
    qd a (return_t.QPDUNES_ERR_NUMBER_OF_MAX_LINESEARCH_ITERATIONS_REACHED, q1, obj1) s1 h3 h4 h5
    (Or.inr (Or.inl rfl)) (by rw [h8]; decide) k1
  have hmax : s0.1.options.maxIter.toNat = 0 + 1 := by
    rw [h2]
    rfl
  rw [← hmax] at k2
  exact ⟨_, solve_iteration_limit Real.sqrt (exExtLS ℝ 0) 1 1 2 _ s0 s1 h1 k2, hal⟩

theorem exAliased_update :
    (qpDUNES_updateData (exUpdateIntervalData ℝ) (exOffsetArray ℝ) 1 1 2 (exQpAliased ℝ)
      (exDataH ℝ)).2 = qpDUNES_indicateDataChange 1 (exQpAliased ℝ) := by
  unfold qpDUNES_updateData
  simp [forUp, exUpdateIntervalData, setInterval_self, exDataH]

/-- The data update of the aliased example state with a Hessian supplied, and the start of
the next solve: the value `-42` is written at the four coordinates of the table, both
stages have two variables, and the start reaches the iteration loop. -/
theorem exAliased_start :
    (∀ k i, k ≤ 1 → i < 2 →
      (qpDUNES_indicateDataChange 1 (exQpAliased ℝ)).log.ieqTables
        (((qpDUNES_indicateDataChange 1 (exQpAliased ℝ)).log.itLog 0).prevIeqStatus) k i =
        -42) ∧
    (∀ k, ((qpDUNES_indicateDataChange 1 (exQpAliased ℝ)).intervals k).nD +
      ((qpDUNES_indicateDataChange 1 (exQpAliased ℝ)).intervals k).nV = 2) ∧
    ∃ s, solve_start (exExt ℝ) 1 (qpDUNES_indicateDataChange 1 (exQpAliased ℝ)) =
      Except.ok s := by
  obtain ⟨⟨f1, f2, _⟩, f4⟩ := indicateDataChange_spec 1 (exQpAliased ℝ)
  have hint : (qpDUNES_indicateDataChange 1 (exQpAliased ℝ)).intervals = exStages1 ℝ :=
    congrArg (fun w => w.intervals) f1
  have hdim : ∀ k, (exStages1 ℝ k).nD + (exStages1 ℝ k).nV = 2 := by
    intro k
    unfold exStages1
    split_ifs <;> rfl
  refine ⟨fun k i hk hi => ?_, fun k => ?_, ?_⟩
  · have hi2 : i < ((exQpAliased ℝ).intervals k).nD + ((exQpAliased ℝ).intervals k).nV := by
      show i < (exStages1 ℝ k).nD + (exStages1 ℝ k).nV
      rw [hdim]
      exact hi
    rw [f4, f2, if_pos ⟨rfl, hk, hi2⟩]
  · rw [hint]
    exact hdim k
  · obtain ⟨s, _, hs, _⟩ := solve_start_keepsStages (exExt ℝ) 1
      (qpDUNES_indicateDataChange 1 (exQpAliased ℝ)) (fun _ _ _ => rfl) (fun _ _ => rfl)
      (fun k => by
        rw [hint]
        exact (exStages1_clipping k).2)
    exact ⟨s, hs⟩

end AliasExamples
/-! ## Horizon shift -/

section ShiftLemmas

variable {α : Type}

theorem shiftedLambda_zero (nX : Nat) (qp : qpData_t α) : shiftedLambda nX qp 0 = qp := by
  unfold shiftedLambda
  simp

theorem shiftedLambda_step (nX : Nat) (qp : qpData_t α) (m : Nat) :
    ({ shiftedLambda nX qp m with
      lambda := (shiftedLambda nX qp m).lambda.set m
        ((shiftedLambda nX qp m).lambda.data (m + nX)) } : qpData_t α) =
      shiftedLambda nX qp (m + 1) := by
  unfold shiftedLambda vector_t.set
  simp only [qpData_t.mk.injEq, vector_t.mk.injEq, true_and, and_true]
  funext idx
  rw [if_neg (by omega)]
  by_cases h : idx = m
  · subst h
    rw [Function.update_same, if_pos (by omega)]
  · rw [Function.update_noteq h]
    by_cases h2 : idx < m
    · rw [if_pos h2, if_pos (by omega)]
    · rw [if_neg h2, if_neg (by omega)]

theorem shiftLambda_block (nX : Nat) (qp : qpData_t α) (kk n : Nat) :
    forUp (fun ii (qpData : qpData_t α) =>
      { qpData with lambda :=
          qpData.lambda.set (kk * nX + ii) (qpData.lambda.data ((kk + 1) * nX + ii)) })
      0 n (shiftedLambda nX qp (kk * nX)) = shiftedLambda nX qp (kk * nX + n) := by
  induction n with
  | zero => rfl
  | succ n ih =>
    rw [forUp, ih]
    have e1 : kk * nX + (0 + n) = kk * nX + n := by omega
    have e2 : (kk + 1) * nX + (0 + n) = kk * nX + n + nX := by ring
    rw [e1, e2]
    exact shiftedLambda_step nX qp (kk * nX + n)

theorem shiftLambda_eq (N nX : Nat) (qp : qpData_t α) :
    qpDUNES_shiftLambda N nX qp =
      (return_t.QPDUNES_OK, shiftedLambda nX qp ((N - 1) * nX)) := by
  unfold qpDUNES_shiftLambda
  congr 1
  generalize N - 1 = n
  induction n with
  | zero => rw [Nat.zero_mul, shiftedLambda_zero]; rfl
  | succ n ih =>
    rw [forUp, ih]
    have e : (n + 1) * nX = (0 + n) * nX + nX := by ring
    have e0 : n * nX = (0 + n) * nX := by ring
    rw [e, e0]
    exact shiftLambda_block nX qp (0 + n) nX

end ShiftLemmas

section ShiftIntervalsLemmas

variable {α : Type}

theorem setId_intervals (s : stagePointers_t α) (k : Nat) (i : Int) :
    (s.setId k i).intervals = s.intervals := rfl

theorem setLambdaKDefined_intervals (s : stagePointers_t α) (k : Nat) (b : Bool) :
    (s.setLambdaKDefined k b).intervals = s.intervals := rfl

theorem setPointer_mem (s : stagePointers_t α) (k p : Nat) :
    (s.setPointer k p).mem = s.mem := rfl

theorem setPointer_intervals_same (s : stagePointers_t α) (k p : Nat) :
    (s.setPointer k p).intervals k = p := by
  show Function.update s.intervals k p k = p
  exact Function.update_same _ _ _

theorem setPointer_intervals_other (s : stagePointers_t α) (k p j : Nat) (h : j ≠ k) :
    (s.setPointer k p).intervals j = s.intervals j := by
  show Function.update s.intervals k p j = s.intervals j
  exact Function.update_noteq h _ _

theorem setId_mem_same (s : stagePointers_t α) (k : Nat) (i : Int) :
    (s.setId k i).mem (s.intervals k) = { s.mem (s.intervals k) with id := i } := by
  unfold stagePointers_t.setId
  exact Function.update_same _ _ _

theorem setId_mem_other (s : stagePointers_t α) (k : Nat) (i : Int) (a : Nat)
    (h : a ≠ s.intervals k) : (s.setId k i).mem a = s.mem a := by
  unfold stagePointers_t.setId
  exact Function.update_noteq h _ _

theorem setLambdaKDefined_mem_same (s : stagePointers_t α) (k : Nat) (b : Bool) :
    (s.setLambdaKDefined k b).mem (s.intervals k) =
      { s.mem (s.intervals k) with
        lambdaK := { (s.mem (s.intervals k)).lambdaK with isDefined := b } } := by
  unfold stagePointers_t.setLambdaKDefined
  exact Function.update_same _ _ _

theorem setLambdaKDefined_mem_other (s : stagePointers_t α) (k : Nat) (b : Bool) (a : Nat)
    (h : a ≠ s.intervals k) : (s.setLambdaKDefined k b).mem a = s.mem a := by
  unfold stagePointers_t.setLambdaKDefined
  exact Function.update_noteq h _ _

/-- What a write of `id` or of `lambdaK.isDefined` leaves of a stage. -/
theorem setId_mem_frame (s : stagePointers_t α) (k : Nat) (i : Int) (a : Nat) :
    ∃ j, (s.setId k i).mem a = { s.mem a with id := j } := by
  by_cases h : a = s.intervals k
  · subst h
    exact ⟨i, setId_mem_same s k i⟩
  · exact ⟨(s.mem a).id, by rw [setId_mem_other s k i a h]⟩

theorem setLambdaKDefined_mem_frame (s : stagePointers_t α) (k : Nat) (b : Bool) (a : Nat) :
    ∃ d, (s.setLambdaKDefined k b).mem a =
      { s.mem a with lambdaK := { (s.mem a).lambdaK with isDefined := d } } := by
  by_cases h : a = s.intervals k
  · subst h
    exact ⟨b, setLambdaKDefined_mem_same s k b⟩
  · exact ⟨(s.mem a).lambdaK.isDefined, by rw [setLambdaKDefined_mem_other s k b a h]⟩

/-- The pointer loop of `qpDUNES_shiftIntervals` after `n` passes over pairwise distinct
pointers: the first `n` slots hold the next pointers, the stages moved carry their new
`id`, and nothing but `id` is written. -/
theorem shiftIntervals_loop (N : Nat) (s : stagePointers_t α)
    (hinj : ∀ i j, i ≤ N → j ≤ N → s.intervals i = s.intervals j → i = j)
    (n : Nat) (hn : n + 1 ≤ N) :
    (∀ k, (forUp (fun kk (s : stagePointers_t α) =>
        (s.setPointer kk (s.intervals (kk + 1))).setId kk (kk : Int)) 0 n s).intervals k =
      if k < n then s.intervals (k + 1) else s.intervals k) ∧
    (∀ k, k < n → ((forUp (fun kk (s : stagePointers_t α) =>
        (s.setPointer kk (s.intervals (kk + 1))).setId kk (kk : Int)) 0 n s).mem
          (s.intervals (k + 1))).id = (k : Int)) ∧
    (∀ a, ∃ j, (forUp (fun kk (s : stagePointers_t α) =>
        (s.setPointer kk (s.intervals (kk + 1))).setId kk (kk : Int)) 0 n s).mem a =
      { s.mem a with id := j }) ∧
    (∀ a, (∀ k, k < n → a ≠ s.intervals (k + 1)) →
      (forUp (fun kk (s : stagePointers_t α) =>
        (s.setPointer kk (s.intervals (kk + 1))).setId kk (kk : Int)) 0 n s).mem a =
      s.mem a) := by
  induction n with
  | zero =>
    refine ⟨fun k => by simp [forUp], fun k hk => absurd hk (Nat.not_lt_zero k),
      fun a => ⟨(s.mem a).id, rfl⟩, fun a _ => rfl⟩
  | succ n ih =>
    obtain ⟨h1, h2, h3, h4⟩ := ih (by omega)
    rw [forUp]
    generalize forUp (fun kk (s : stagePointers_t α) =>
        (s.setPointer kk (s.intervals (kk + 1))).setId kk (kk : Int)) 0 n s = r at h1 h2 h3 h4
    have e0 : 0 + n = n := Nat.zero_add n
    rw [e0]
    have hp : r.intervals (n + 1) = s.intervals (n + 1) := by
      rw [h1 (n + 1), if_neg (by omega)]
    have hslot : (r.setPointer n (r.intervals (n + 1))).intervals n = s.intervals (n + 1) := by
      rw [setPointer_intervals_same, hp]
    refine ⟨fun k => ?_, fun k hk => ?_, fun a => ?_, fun a ha => ?_⟩
    · rw [setId_intervals]
      by_cases hk : k = n
      · subst hk
        rw [setPointer_intervals_same, hp, if_pos (by omega)]
      · rw [setPointer_intervals_other _ _ _ _ hk, h1 k]
        by_cases hk2 : k < n
        · rw [if_pos hk2, if_pos (by omega)]
        · rw [if_neg hk2, if_neg (by omega)]
    · by_cases hk2 : k = n
      · subst hk2
        rw [← hslot, setId_mem_same]
      · have hne : s.intervals (k + 1) ≠
            (r.setPointer n (r.intervals (n + 1))).intervals n := by
          rw [hslot]
          intro h
          have := hinj (k + 1) (n + 1) (by omega) (by omega) h
          omega
        rw [setId_mem_other _ _ _ _ hne, setPointer_mem]
        exact h2 k (by omega)
    · obtain ⟨j, hj⟩ := h3 a
      obtain ⟨j2, hj2⟩ := setId_mem_frame (r.setPointer n (r.intervals (n + 1))) n (n : Int) a
      rw [hj2, setPointer_mem, hj]
      exact ⟨j2, rfl⟩
    · have hne : a ≠ (r.setPointer n (r.intervals (n + 1))).intervals n := by
        rw [hslot]
        exact ha n (by omega)
      rw [setId_mem_other _ _ _ _ hne, setPointer_mem]
      exact h4 a (fun k hk => ha k (by omega))

end ShiftIntervalsLemmas

section ShiftIntervalsSpec

variable {α : Type}

theorem setId_mem_at (s : stagePointers_t α) (k : Nat) (i : Int) (a : Nat)
    (h : a = s.intervals k) : (s.setId k i).mem a = { s.mem a with id := i } := by
  subst h
  exact setId_mem_same s k i

theorem setLambdaKDefined_mem_at (s : stagePointers_t α) (k : Nat) (b : Bool) (a : Nat)
    (h : a = s.intervals k) :
    (s.setLambdaKDefined k b).mem a =
      { s.mem a with lambdaK := { (s.mem a).lambdaK with isDefined := b } } := by
  subst h
  exact setLambdaKDefined_mem_same s k b

theorem setLambdaKDefined_mem_id (s : stagePointers_t α) (k : Nat) (b : Bool) (a : Nat) :
    ((s.setLambdaKDefined k b).mem a).id = (s.mem a).id := by
  obtain ⟨d, hd⟩ := setLambdaKDefined_mem_frame s k b a
  rw [hd]

/-- The rotation `qpDUNES_shiftIntervals` performs on `N >= 1` regular stages held by
pairwise distinct pointers. -/
theorem shiftIntervals_spec (N : Nat) (s : stagePointers_t α) (hN : 1 ≤ N)
    (hinj : ∀ i j, i ≤ N → j ≤ N → s.intervals i = s.intervals j → i = j) :
    ∃ r, qpDUNES_shiftIntervals N s = some (return_t.QPDUNES_OK, r) ∧
      (∀ k, k + 1 < N → r.intervals k = s.intervals (k + 1)) ∧
      r.intervals (N - 1) = s.intervals 0 ∧
      (∀ k, N ≤ k → r.intervals k = s.intervals k) ∧
      r.stage N = s.stage N ∧
      (∀ k, k < N → (r.stage k).id = (k : Int)) ∧
      (2 ≤ N → (r.stage 0).lambdaK.isDefined = false) ∧
      (r.stage (N - 1)).lambdaK.isDefined = true ∧
      (∀ a, ∃ j d, r.mem a =
        { s.mem a with id := j, lambdaK := { (s.mem a).lambdaK with isDefined := d } }) := by
  obtain ⟨h1, h2, h3, h4⟩ := shiftIntervals_loop N s hinj (N - 1) (by omega)
  unfold qpDUNES_shiftIntervals
  rw [if_neg (by omega)]
  dsimp only
  generalize forUp (fun kk (s : stagePointers_t α) =>
      (s.setPointer kk (s.intervals (kk + 1))).setId kk (kk : Int)) 0 (N - 1) s = r0
    at h1 h2 h3 h4
  refine ⟨_, rfl, ?_⟩
  -- the pointers after the rotation
  have hI : ∀ k, ((((r0.setPointer (N - 1) (s.intervals 0)).setId (N - 1)
      ((N : Int) - 1)).setLambdaKDefined 0 false).setLambdaKDefined (N - 1) true).intervals k =
      if k = N - 1 then s.intervals 0 else if k < N - 1 then s.intervals (k + 1)
        else s.intervals k := by
    intro k
    rw [setLambdaKDefined_intervals, setLambdaKDefined_intervals, setId_intervals]
    by_cases hk : k = N - 1
    · rw [if_pos hk, hk, setPointer_intervals_same]
    · rw [if_neg hk, setPointer_intervals_other _ _ _ _ hk, h1 k]
  have hI1 : ∀ k, (r0.setPointer (N - 1) (s.intervals 0)).intervals k =
      if k = N - 1 then s.intervals 0 else if k < N - 1 then s.intervals (k + 1)
        else s.intervals k := by
    intro k
    by_cases hk : k = N - 1
    · rw [if_pos hk, hk, setPointer_intervals_same]
    · rw [if_neg hk, setPointer_intervals_other _ _ _ _ hk, h1 k]
  -- the stage at the saved pointer carries the last index
  have hid0 : (((r0.setPointer (N - 1) (s.intervals 0)).setId (N - 1) ((N : Int) - 1)).mem
      (s.intervals 0)).id = (N : Int) - 1 := by
    rw [setId_mem_at _ _ _ _ (setPointer_intervals_same r0 (N - 1) (s.intervals 0)).symm]
  have hidk : ∀ k, k + 1 < N →
      (((r0.setPointer (N - 1) (s.intervals 0)).setId (N - 1) ((N : Int) - 1)).mem
        (s.intervals (k + 1))).id = (k : Int) := by
    intro k hk
    have hne : s.intervals (k + 1) ≠
        (r0.setPointer (N - 1) (s.intervals 0)).intervals (N - 1) := by
      rw [setPointer_intervals_same]
      intro h
      have := hinj (k + 1) 0 (by omega) (by omega) h
      omega
    rw [setId_mem_other _ _ _ _ hne, setPointer_mem]
    exact h2 k (by omega)
  refine ⟨fun k hk => ?_, ?_, fun k hk => ?_, ?_, fun k hk => ?_, fun h2N => ?_, ?_,
    fun a => ?_⟩
  · rw [hI k, if_neg (by omega), if_pos (by omega)]
  · rw [hI (N - 1), if_pos rfl]
  · rw [hI k, if_neg (by omega), if_neg (by omega)]
  · unfold stagePointers_t.stage
    rw [hI N, if_neg (by omega), if_neg (by omega)]
    have hN0 : s.intervals N ≠ s.intervals 0 := by
      intro h
      have := hinj N 0 (by omega) (by omega) h
      omega
    have hNk : ∀ k, k + 1 < N → s.intervals N ≠ s.intervals (k + 1) := by
      intro k hk h
      have := hinj N (k + 1) (by omega) (by omega) h
      omega
    have hslot0 : s.intervals N ≠
        ((r0.setPointer (N - 1) (s.intervals 0)).setId (N - 1) ((N : Int) - 1)).intervals 0 := by
      rw [setId_intervals, hI1 0]
      split_ifs
      · exact hN0
      · exact hNk 0 (by omega)
      · exact hN0
    rw [setLambdaKDefined_mem_other _ _ _ _ (by
        rw [setLambdaKDefined_intervals, setId_intervals, setPointer_intervals_same]
        exact hN0),
      setLambdaKDefined_mem_other _ _ _ _ hslot0,
      setId_mem_other _ _ _ _ (by rw [setPointer_intervals_same]; exact hN0),
      setPointer_mem]
    exact h4 _ (fun k hk => hNk k (by omega))
  · unfold stagePointers_t.stage
    rw [hI k, setLambdaKDefined_mem_id, setLambdaKDefined_mem_id]
    by_cases hk1 : k = N - 1
    · rw [if_pos hk1, hid0, hk1]
      omega
    · rw [if_neg hk1, if_pos (by omega)]
      exact hidk k (by omega)
  · unfold stagePointers_t.stage
    rw [hI 0, if_neg (by omega), if_pos (by omega)]
    have hne : s.intervals (0 + 1) ≠
        (((r0.setPointer (N - 1) (s.intervals 0)).setId (N - 1)
          ((N : Int) - 1)).setLambdaKDefined 0 false).intervals (N - 1) := by
      rw [setLambdaKDefined_intervals, setId_intervals, setPointer_intervals_same]
      intro h
      have := hinj (0 + 1) 0 (by omega) (by omega) h
      omega
    rw [setLambdaKDefined_mem_other _ _ _ _ hne]
    have e : s.intervals (0 + 1) =
        ((r0.setPointer (N - 1) (s.intervals 0)).setId (N - 1) ((N : Int) - 1)).intervals 0 := by
      rw [setId_intervals, hI1 0, if_neg (by omega), if_pos (by omega)]
    rw [setLambdaKDefined_mem_at _ _ _ _ e]
  · unfold stagePointers_t.stage
    rw [hI (N - 1), if_pos rfl]
    have e : s.intervals 0 =
        (((r0.setPointer (N - 1) (s.intervals 0)).setId (N - 1)
          ((N : Int) - 1)).setLambdaKDefined 0 false).intervals (N - 1) := by
      rw [setLambdaKDefined_intervals, setId_intervals, setPointer_intervals_same]
    rw [setLambdaKDefined_mem_at _ _ _ _ e]
  · obtain ⟨d4, hd4⟩ := setLambdaKDefined_mem_frame
      (((r0.setPointer (N - 1) (s.intervals 0)).setId (N - 1)
        ((N : Int) - 1)).setLambdaKDefined 0 false) (N - 1) true a
    obtain ⟨d3, hd3⟩ := setLambdaKDefined_mem_frame
      ((r0.setPointer (N - 1) (s.intervals 0)).setId (N - 1) ((N : Int) - 1)) 0 false a
    obtain ⟨j2, hj2⟩ := setId_mem_frame (r0.setPointer (N - 1) (s.intervals 0)) (N - 1)
      ((N : Int) - 1) a
    obtain ⟨j, hj⟩ := h3 a
    refine ⟨j2, d4, ?_⟩
    rw [hd4, hd3, hj2, setPointer_mem, hj]

/-- With a single regular stage the two flag writes of `qpDUNES_shiftIntervals` go to the
same stage, and the second one stands. -/
theorem shiftIntervals_single (s : stagePointers_t α) :
    ∃ r, qpDUNES_shiftIntervals 1 s = some (return_t.QPDUNES_OK, r) ∧
      r.intervals 0 = s.intervals 0 ∧ (r.stage 0).id = 0 ∧
      (r.stage 0).lambdaK.isDefined = true := by
  refine ⟨_, rfl, ?_, ?_, ?_⟩
  · simp [stagePointers_t.setLambdaKDefined, stagePointers_t.setId,
      stagePointers_t.setPointer, forUp]
  · simp [stagePointers_t.stage, stagePointers_t.setLambdaKDefined, stagePointers_t.setId,
      stagePointers_t.setPointer, forUp]
  · simp [stagePointers_t.stage, stagePointers_t.setLambdaKDefined, stagePointers_t.setId,
      stagePointers_t.setPointer, forUp]

end ShiftIntervalsSpec
/-! ## Kinematics of the vehicle state -/

section SegmentLemmas

variable {α : Type}

theorem setSegment_inside (out : Nat → α) (start n : Nat) (v : Nat → α) (i : Nat) (hi : i < n) :
    setSegment out start n v (start + i) = v i := by
  unfold setSegment
  rw [if_pos ⟨by omega, by omega⟩]
  congr 1
  omega

theorem setSegment_outside (out : Nat → α) (start n : Nat) (v : Nat → α) (j : Nat)
    (hj : j < start ∨ start + n ≤ j) : setSegment out start n v j = out j := by
  unfold setSegment
  rw [if_neg (by omega)]

end SegmentLemmas

section StateModelLemmas

variable {α : Type} [LinearOrderedField α]

/-- The attitude part of the output of `State::model`: half the product of the conjugate
of `(omega, 0)` with the attitude quaternion, in the order `(x, y, z, w)`. -/
theorem State_model_attitude {γ : Type} (evaluate : (Nat → α) → γ → Nat → α)
    (state : Nat → α) (c : γ) (output : Nat → α) (i : Nat) (hi : i < 4) :
    State.model evaluate state c output (6 + i) =
      (if i < 3 then
          ((Quaternionr.ofCoeffs (State.omega_q state)).conjugate.mul
            (Quaternionr.ofCoeffs (State.attitude state))).vec i
        else ((Quaternionr.ofCoeffs (State.omega_q state)).conjugate.mul
            (Quaternionr.ofCoeffs (State.attitude state))).w) * (1 / 2) := by
  unfold State.model
  rw [setSegment_outside _ 13 3 _ _ (by omega), setSegment_outside _ 10 3 _ _ (by omega),
    setSegment_inside _ 6 4 _ i hi]
  unfold segment
  rw [setSegment_inside _ 6 4 _ i hi]

/-- The position part of the output of `State::model`: the velocity. -/
theorem State_model_position {γ : Type} (evaluate : (Nat → α) → γ → Nat → α)
    (state : Nat → α) (c : γ) (output : Nat → α) (i : Nat) (hi : i < 3) :
    State.model evaluate state c output i = state (3 + i) := by
  unfold State.model
  rw [setSegment_outside _ 13 3 _ _ (by omega), setSegment_outside _ 10 3 _ _ (by omega),
    setSegment_outside _ 6 4 _ _ (by omega), setSegment_outside _ 6 4 _ _ (by omega),
    setSegment_outside _ 3 3 _ _ (by omega)]
  have h := setSegment_inside output 0 3 (State.velocity state) i hi
  rw [Nat.zero_add] at h
  rw [h]
  rfl

/-- The wind part of the output of `State::model`: zero. -/
theorem State_model_wind {γ : Type} (evaluate : (Nat → α) → γ → Nat → α)
    (state : Nat → α) (c : γ) (output : Nat → α) (i : Nat) (hi : i < 3) :
    State.model evaluate state c output (13 + i) = 0 := by
  unfold State.model
  rw [setSegment_inside _ 13 3 _ i hi]

end StateModelLemmas

/-! ## Stage Hessian factorization and solve -/

section StageSolveLemmas

variable {α : Type} [LinearOrderedField α]

/-- For a matrix tagged diagonal `factorizePosDefMatrix` returns QPDUNES_OK with the
reciprocal of every one of the first `dim0` entries, whatever the entries are. -/
theorem factorizePosDefMatrix_diagonal (cholM M : matrix_t α) (dim0 : Nat)
    (hM : M.sparsityType = sparsityType_t.QPDUNES_DIAGONAL) :
    ∃ c, factorizePosDefMatrix cholM M dim0 = some (return_t.QPDUNES_OK, c) ∧
      c.sparsityType = sparsityType_t.QPDUNES_DIAGONAL ∧
      (∀ i, i < dim0 → c.data i = recip_f (M.data i)) ∧
      (∀ i, dim0 ≤ i → c.data i = cholM.data i) := by
  unfold factorizePosDefMatrix
  rw [hM]
  refine ⟨_, rfl, rfl, fun i hi => ?_, fun i hi => ?_⟩
  · exact forUp_update_val (fun i => i) (fun i _ => recip_f (M.data i)) 0 dim0 cholM.data
      (fun i j _ hij _ => Nat.ne_of_lt hij) (fun _ _ _ _ _ => rfl) i (Nat.zero_le _) (by omega)
  · exact forUp_update_frame (fun i => i) (fun i _ => recip_f (M.data i)) 0 dim0 cholM.data i
      (fun j _ hj => by show i ≠ j; omega)

/-- The diagonal backsolve multiplies entry by entry with the stored reciprocal. -/
theorem backsolveDiagonal_value (res M b : Nat → α) (n : Nat) (hn : 0 < n) :
    ∃ r, backsolveDiagonal res M b n = some (return_t.QPDUNES_OK, r) ∧
      (∀ i, i < n → r i = b i * M i) ∧ (∀ i, n ≤ i → r i = res i) := by
  unfold backsolveDiagonal
  rw [if_neg (by omega)]
  refine ⟨_, rfl, fun i hi => ?_, fun i hi => ?_⟩
  · exact forUp_update_val (fun i => i) (fun i _ => b i * M i) 0 n res
      (fun i j _ hij _ => Nat.ne_of_lt hij) (fun _ _ _ _ _ => rfl) i (Nat.zero_le _) (by omega)
  · exact forUp_update_frame (fun i => i) (fun i _ => b i * M i) 0 n res i
      (fun j _ hj => by show i ≠ j; omega)

/-- The solve with a diagonal factor returns QPDUNES_OK with `res[i] = x[i] * cholH[i]`. -/
theorem multiplyInvMatrixVector_diagonal (ext : collaborators_t α) (res : vector_t α)
    (cholH : matrix_t α) (x : vector_t α) (dim0 : Nat)
    (hc : cholH.sparsityType = sparsityType_t.QPDUNES_DIAGONAL) (hn : 0 < dim0) :
    ∃ r, multiplyInvMatrixVector ext res cholH x dim0 = some (return_t.QPDUNES_OK, r) ∧
      (∀ i, i < dim0 → r.data i = x.data i * cholH.data i) ∧
      (∀ i, dim0 ≤ i → r.data i = res.data i) := by
  obtain ⟨r, hr, h1, h2⟩ := backsolveDiagonal_value res.data cholH.data x.data dim0 hn
  unfold multiplyInvMatrixVector
  rw [hc]
  simp only [hr]
  exact ⟨_, rfl, h1, h2⟩

/-- Factorization followed by the solve, for a diagonal stage Hessian: both return
QPDUNES_OK, and at every entry that is not zero the factor holds the reciprocal and the
solution satisfies `H[i] * res[i] = x[i]`. -/
theorem factorize_solve_diagonal (ext : collaborators_t α) (res : vector_t α)
    (cholM H : matrix_t α) (x : vector_t α) (dim0 : Nat)
    (hH : H.sparsityType = sparsityType_t.QPDUNES_DIAGONAL) (hn : 0 < dim0) :
    ∃ c r, factorizePosDefMatrix cholM H dim0 = some (return_t.QPDUNES_OK, c) ∧
      multiplyInvMatrixVector ext res c x dim0 = some (return_t.QPDUNES_OK, r) ∧
      ∀ i, i < dim0 → H.data i ≠ 0 →
        c.data i = 1 / H.data i ∧ H.data i * r.data i = x.data i := by
  obtain ⟨c, hc, htag, hval, _⟩ := factorizePosDefMatrix_diagonal cholM H dim0 hH
  obtain ⟨r, hr, hrv, _⟩ := multiplyInvMatrixVector_diagonal ext res c x dim0 htag hn
  refine ⟨c, r, hc, hr, fun i hi hne => ⟨hval i hi, ?_⟩⟩
  rw [hrv i hi, hval i hi]
  unfold recip_f
  field_simp

end StageSolveLemmas

/-! ## Pivots of the reverse factorization -/

section ReversePivots

variable {α : Type} [LinearOrderedField α]

/-- The pivots of a full reverse factorization that returned QPDUNES_OK: the value handed
to `sqrt_f` is the pivot after the on-the-fly regularization, and either the pivot was
regularized (SINGULAR_DIRECTIONS, pivot below `newtonHessDiagRegTolerance`) or it is at
least `100 * equalityTolerance`. -/
theorem factorizeNewtonHessianBottomUp_pivots (sqrt_f : α → α) (opt : qpOptions_t α)
    (N nX : Nat) (c0 h : xn2x_matrix_t α) (flag : Bool)
    (hOK : (qpDUNES_factorizeNewtonHessianBottomUp sqrt_f opt N nX c0 h ((N : Int) - 1) flag).1
      = return_t.QPDUNES_OK) :
    ∀ k j, k < N → j < nX →
      (qpDUNES_factorizeNewtonHessianBottomUp sqrt_f opt N nX c0 h ((N : Int) - 1)
          flag).2.cholHessian (k, 0, j, j) =
        sqrt_f (revReg opt (revSum N nX h
          (qpDUNES_factorizeNewtonHessianBottomUp sqrt_f opt N nX c0 h ((N : Int) - 1)
            flag).2.cholHessian k j j)) ∧
      ((opt.regType = regType_t.QPDUNES_REG_SINGULAR_DIRECTIONS ∧
          revSum N nX h
            (qpDUNES_factorizeNewtonHessianBottomUp sqrt_f opt N nX c0 h ((N : Int) - 1)
              flag).2.cholHessian k j j < opt.newtonHessDiagRegTolerance) ∨
        100 * opt.equalityTolerance ≤ revSum N nX h
          (qpDUNES_factorizeNewtonHessianBottomUp sqrt_f opt N nX c0 h ((N : Int) - 1)
            flag).2.cholHessian k j j) := by
  intro k j hk hj
  have hrow := factorizeNewtonHessianBottomUp_ok_rows sqrt_f opt N nX c0 h ((N : Int) - 1) flag
    (le_of_eq (blockIdxStart_full N).symm) hOK k j hk hj
  refine ⟨hrow.2.1, ?_⟩
  have hnf := hrow.1
  unfold revFails at hnf
  by_cases hs : opt.regType = regType_t.QPDUNES_REG_SINGULAR_DIRECTIONS ∧
      revSum N nX h
        (qpDUNES_factorizeNewtonHessianBottomUp sqrt_f opt N nX c0 h ((N : Int) - 1)
          flag).2.cholHessian k j j < opt.newtonHessDiagRegTolerance
  · exact Or.inl hs
  · refine Or.inr (le_of_not_lt (fun hlt => hnf ⟨hs, hlt⟩))

/-- Without the regularization of singular directions every value a full reverse
factorization that returned QPDUNES_OK handed to `sqrt_f` is at least
`100 * equalityTolerance`, hence positive. -/
theorem factorizeNewtonHessianBottomUp_pivots_positive (sqrt_f : α → α) (opt : qpOptions_t α)
    (N nX : Nat) (c0 h : xn2x_matrix_t α) (flag : Bool)
    (hreg : opt.regType ≠ regType_t.QPDUNES_REG_SINGULAR_DIRECTIONS)
    (htol : 0 < opt.equalityTolerance)
    (hOK : (qpDUNES_factorizeNewtonHessianBottomUp sqrt_f opt N nX c0 h ((N : Int) - 1) flag).1
      = return_t.QPDUNES_OK) :
    ∀ k j, k < N → j < nX →
      (qpDUNES_factorizeNewtonHessianBottomUp sqrt_f opt N nX c0 h ((N : Int) - 1)
          flag).2.cholHessian (k, 0, j, j) =
        sqrt_f (revSum N nX h
          (qpDUNES_factorizeNewtonHessianBottomUp sqrt_f opt N nX c0 h ((N : Int) - 1)
            flag).2.cholHessian k j j) ∧
      0 < revSum N nX h
          (qpDUNES_factorizeNewtonHessianBottomUp sqrt_f opt N nX c0 h ((N : Int) - 1)
            flag).2.cholHessian k j j := by
  intro k j hk hj
  obtain ⟨h1, h2⟩ := factorizeNewtonHessianBottomUp_pivots sqrt_f opt N nX c0 h flag hOK k j hk hj
  have hr : ∀ s, revReg opt s = s := fun s => by
    unfold revReg
    rw [if_neg (fun hc => hreg hc.1)]
  rw [hr] at h1
  refine ⟨h1, ?_⟩
  rcases h2 with h2 | h2
  · exact absurd h2.1 hreg
  · linarith

end ReversePivots

section ReversePivotExample

theorem exNeg_status (sqrt_f : ℝ → ℝ) :
    (qpDUNES_factorizeNewtonHessianBottomUp sqrt_f (exOptSing ℝ) 1 1 (fun _ => 0)
      (exHessianNeg ℝ) (((1 : Nat) : Int) - 1) false).1 = return_t.QPDUNES_OK := by
  norm_num [qpDUNES_factorizeNewtonHessianBottomUp, forDownM,
    factorizeNewtonHessianBottomUp_column, factorizeNewtonHessianBottomUp_pivot,
    factorizeNewtonHessianBottomUp_writeRow, forUp, forDown, blockIdxStart, exOpt, exOptSing,
    exHessianNeg, divide_f]

theorem exNeg_pivot :
    factorizeNewtonHessianBottomUp_pivot 1 1 (exHessianNeg ℝ) (fun _ => 0) 0 0 = -1 := by
  norm_num [factorizeNewtonHessianBottomUp_pivot, forUp, exHessianNeg]

theorem exNeg_entry (sqrt_f : ℝ → ℝ) :
    (qpDUNES_factorizeNewtonHessianBottomUp sqrt_f (exOptSing ℝ) 1 1 (fun _ => 0)
      (exHessianNeg ℝ) (((1 : Nat) : Int) - 1) false).2.cholHessian (0, 0, 0, 0) =
      sqrt_f (-1 + (exOptSing ℝ).regParam) := by
  norm_num [-Prod.mk_zero_zero, -Prod.mk_one_one, setAcc, accCholHessian, accHessian,
    qpDUNES_factorizeNewtonHessianBottomUp, forDownM,
    factorizeNewtonHessianBottomUp_column, factorizeNewtonHessianBottomUp_pivot,
    factorizeNewtonHessianBottomUp_writeRow, forUp, forDown, blockIdxStart, exOpt, exOptSing,
    exHessianNeg, divide_f]

theorem exNeg_flag (sqrt_f : ℝ → ℝ) :
    (qpDUNES_factorizeNewtonHessianBottomUp sqrt_f (exOptSing ℝ) 1 1 (fun _ => 0)
      (exHessianNeg ℝ) (((1 : Nat) : Int) - 1) false).2.isHessianRegularized = true := by
  norm_num [qpDUNES_factorizeNewtonHessianBottomUp, forDownM,
    factorizeNewtonHessianBottomUp_column, factorizeNewtonHessianBottomUp_pivot,
    factorizeNewtonHessianBottomUp_writeRow, forUp, forDown, blockIdxStart, exOpt, exOptSing,
    exHessianNeg, divide_f]

end ReversePivotExample

/-! ## Identity stage Hessians in the assembly -/

section IdentityAssembly

variable {α : Type} [LinearOrderedField α]

theorem addCInvHCT_not_diagonal (opt : qpOptions_t α) (ext : collaborators_t α) (nX nZ : Nat)
    (res cholM1 M2 : matrix_t α) (y : vector_t α) (zxMatTmp : matrix_t α)
    (h : cholM1.sparsityType ≠ sparsityType_t.QPDUNES_DIAGONAL) :
    addCInvHCT opt ext nX nZ res cholM1 M2 y zxMatTmp = none := by
  unfold addCInvHCT
  rw [if_neg h]

theorem getInvQ_identity (opt : qpOptions_t α) (res cholH : matrix_t α) (nV : Nat)
    (h : cholH.sparsityType = sparsityType_t.QPDUNES_IDENTITY) :
    getInvQ opt res cholH nV =
      some (return_t.QPDUNES_OK,
        { res with sparsityType := sparsityType_t.QPDUNES_IDENTITY }) := by
  unfold getInvQ
  rw [h]

theorem multiplyAInvQ_identity (nX nZ : Nat) (res C cholH : matrix_t α)
    (h : cholH.sparsityType = sparsityType_t.QPDUNES_IDENTITY) :
    ∃ r, multiplyAInvQ nX nZ res C cholH = some (return_t.QPDUNES_OK, r) := by
  unfold multiplyAInvQ
  rw [h]
  exact ⟨_, rfl⟩

theorem diagTmp_not_diagonal (ext : collaborators_t α) (nX nZ kk : Nat) (q : qpData_t α)
    (h : (q.intervals kk).cholH.sparsityType ≠ sparsityType_t.QPDUNES_DIAGONAL) :
    setupNewtonSystem_diagTmp ext nX nZ kk q = none := by
  unfold setupNewtonSystem_diagTmp
  cases getInvQ q.options q.xxMatTmp (q.intervals (kk + 1)).cholH (q.intervals (kk + 1)).nV with
  | none => rfl
  | some r1 =>
    dsimp only
    rw [addCInvHCT_not_diagonal _ _ _ _ _ _ _ _ _ h]

theorem diagBlock_not_diagonal (ext : collaborators_t α) (nX nZ kk : Nat) (q : qpData_t α)
    (hch : diagChanged q kk)
    (h : (q.intervals kk).cholH.sparsityType ≠ sparsityType_t.QPDUNES_DIAGONAL) :
    setupNewtonSystem_diagBlock ext nX nZ kk q = none := by
  unfold setupNewtonSystem_diagBlock
  rw [if_pos (show (q.intervals kk).actSetHasChanged = true ∨
    (q.intervals (kk + 1)).actSetHasChanged = true from hch),
    diagTmp_not_diagonal ext nX nZ kk q h]

/-- The diagonal block loop of the assembly fails an assertion as soon as a block to be
recomputed belongs to a stage whose `cholH` is not tagged diagonal. -/
theorem diagLoop_not_diagonal (ext : collaborators_t α) (nX nZ : Nat) (q0 : qpData_t α)
    (n : Nat) (q : qpData_t α) (hq : q.intervals = q0.intervals)
    (hbad : ∃ k, k < n ∧ diagChanged q0 k ∧
      (q0.intervals k).cholH.sparsityType ≠ sparsityType_t.QPDUNES_DIAGONAL) :
    forUpO (setupNewtonSystem_diagBlock ext nX nZ) 0 n q = none := by
  induction n with
  | zero =>
    obtain ⟨k, hk, _⟩ := hbad
    omega
  | succ n ih =>
    rw [forUpO]
    cases hrun : forUpO (setupNewtonSystem_diagBlock ext nX nZ) 0 n q with
    | none => rfl
    | some s1 =>
      dsimp only
      have hs1 : s1.intervals = q0.intervals :=
        forUpO_invariant (setupNewtonSystem_diagBlock ext nX nZ)
          (fun s => s.intervals = q0.intervals)
          (fun i s s2 hP hb => by
            show s2.intervals = q0.intervals
            rw [(diagBlock_frame ext nX nZ i s s2 hb).1]
            exact hP)
          0 n q s1 hq hrun
      obtain ⟨k, hk, hch, hne⟩ := hbad
      by_cases hkn : k < n
      · rw [ih ⟨k, hkn, hch, hne⟩] at hrun
        simp at hrun
      · have e : k = n := by omega
        subst e
        rw [Nat.zero_add]
        refine diagBlock_not_diagonal ext nX nZ k s1 ?_ ?_
        · unfold diagChanged at hch ⊢
          rw [hs1]
          exact hch
        · rw [hs1]
          exact hne

/-- The assembly of the Newton system fails an assertion whenever the gradient is not
below the tolerance and a diagonal block to be recomputed belongs to a stage whose `cholH`
is not tagged diagonal, in particular tagged identity. -/
theorem setupNewtonSystem_not_diagonal (sqrt_f : α → α) (ext : collaborators_t α)
    (N nX nZ : Nat) (qp : qpData_t α)
    (hn : ¬ vectorNorm sqrt_f (setupNewtonSystem_gradient N nX nZ qp).gradient (nX * N) <
      qp.options.stationarityTolerance)
    (hbad : ∃ k, k < N ∧ diagChanged qp k ∧
      (qp.intervals k).cholH.sparsityType ≠ sparsityType_t.QPDUNES_DIAGONAL) :
    qpDUNES_setupNewtonSystem sqrt_f ext N nX nZ qp = none := by
  unfold qpDUNES_setupNewtonSystem
  dsimp only
  have ho : (setupNewtonSystem_gradient N nX nZ qp).options = qp.options := rfl
  rw [ho, if_neg hn,
    diagLoop_not_diagonal ext nX nZ qp N (setupNewtonSystem_gradient N nX nZ qp) rfl hbad]

end IdentityAssembly

section IdentityExample

theorem exGradientIdentity (g p : vector_t ℝ) :
    (qpDUNES_computeNewtonGradient 1 1 2 (exQp ℝ (exStagesIdentity ℝ)) g p).2.1.data 0 = 2 := by
  have h := computeNewtonGradient_entry 1 1 2 (exQp ℝ (exStagesIdentity ℝ)) g p 0 0 (by decide)
    (by decide)
  simp only [Nat.zero_mul, Nat.zero_add] at h
  rw [h]
  simp [exQp, exStagesIdentity, exStageIdentity, exStage, exVec, Finset.sum_range_succ]
  norm_num

theorem exNormIdentity : vectorNorm Real.sqrt
    (setupNewtonSystem_gradient 1 1 2 (exQp ℝ (exStagesIdentity ℝ))).gradient (1 * 1) = 2 := by
  unfold vectorNorm setupNewtonSystem_gradient
  rw [scalarProd_eq_sum]
  simp only [Nat.mul_one, Finset.sum_range_one]
  rw [exGradientIdentity]
  have : (2 : ℝ) * 2 = 4 := by norm_num
  rw [this, sqrt_four]

end IdentityExample
/-! ## The bisection search called with `alphaMin = QPDUNES_INFTY` -/

section BisectionRange

theorem exBisNeg_norm : vectorNorm Real.sqrt (exVec (fun _ => (-1 / 2 : ℝ))) 1 = 1 / 2 := by
  have e : scalarProd (exVec (fun _ => (-1 / 2 : ℝ))) (exVec (fun _ => (-1 / 2 : ℝ))) 1 =
      1 / 2 * (1 / 2) := by
    simp [scalarProd, forUp, exVec]
    norm_num
  unfold vectorNorm
  rw [e]
  exact Real.sqrt_mul_self (by norm_num)

/-- The slope of the example at any trial step length, from any state whose stages are the
example stages up to the trial points: the dual gradient `3/2000` times the step direction
`-1/2`. -/
theorem exBisNeg_slope (q : qpData_t ℝ)
    (hq : ∀ k, ∃ v, q.intervals k = { exStagesBis ℝ k with zVecTmp := v }) (a : ℝ) :
    scalarProd (bisectionIntervalSearch_gradient (exExt ℝ) 1 1 2 q a).xnVecTmp2
      (exVec (fun _ => (-1 / 2 : ℝ))) 1 = -3 / 4000 := by
  obtain ⟨v0, h0⟩ := hq 0
  obtain ⟨v1, h1⟩ := hq 1
  simp [bisectionIntervalSearch_gradient, forUp, h0, h1, exExt, exStagesBis, exStage, exVec,
    scalarProd, multiplyCz, accC, addToVector, subtractFromVector, addVectorScaledVector,
    qpData_t.setInterval, vector_t.set, Function.update_apply]
  norm_num

/-- The trial gradient leaves the example stages as they are up to the trial points. -/
theorem exBisNeg_stages (q : qpData_t ℝ)
    (hq : ∀ k, ∃ v, q.intervals k = { exStagesBis ℝ k with zVecTmp := v }) (a : ℝ) (k : Nat) :
    ∃ v, (bisectionIntervalSearch_gradient (exExt ℝ) 1 1 2 q a).intervals k =
      { exStagesBis ℝ k with zVecTmp := v } := by
  obtain ⟨v0, h0⟩ := hq 0
  obtain ⟨v1, h1⟩ := hq 1
  obtain ⟨vk, hk⟩ := hq k
  by_cases k0 : k = 0
  · subst k0
    refine ⟨((bisectionIntervalSearch_gradient (exExt ℝ) 1 1 2 q a).intervals 0).zVecTmp, ?_⟩
    simp [bisectionIntervalSearch_gradient, forUp, h0, h1, exExt, qpData_t.setInterval,
      Function.update_apply]
  · by_cases k1 : k = 1
    · subst k1
      refine ⟨((bisectionIntervalSearch_gradient (exExt ℝ) 1 1 2 q a).intervals 1).zVecTmp, ?_⟩
      simp [bisectionIntervalSearch_gradient, forUp, h0, h1, exExt, qpData_t.setInterval,
        Function.update_apply]
    · refine ⟨vk, ?_⟩
      simp [bisectionIntervalSearch_gradient, forUp, h0, h1, hk, exExt, qpData_t.setInterval,
        Function.update_apply, k0, k1]

theorem bisectionIntervalSearch_gradient_log {α : Type} [LinearOrderedField α]
    (ext : collaborators_t α) (N nX nZ : Nat) (q : qpData_t α) (a : α) :
    (bisectionIntervalSearch_gradient ext N nX nZ q a).log = q.log := by
  unfold bisectionIntervalSearch_gradient
  dsimp only
  refine forUp_invariant _ (fun (s : qpData_t α) => s.log = q.log)
    (fun i s hs => by exact hs) _ _ _ ?_
  exact forUp_invariant _ (fun (s : qpData_t α) => s.log = q.log)
    (fun i s hs => by exact hs) _ _ _ rfl

theorem exBisInf_cond :
    ¬ abs_f (divide_f (-3 / 4000 : ℝ) (1 / 2)) ≤
      (exQpBisInf ℝ).options.lineSearchStationarityTolerance := by
  rw [show abs_f (divide_f (-3 / 4000 : ℝ) (1 / 2)) = 3 / 2000 by
    unfold abs_f divide_f
    rw [show (-3 / 4000 : ℝ) / (1 / 2) = -(3 / 2000) by norm_num, abs_neg,
      abs_of_pos (by norm_num)]]
  norm_num [exQpBisInf, exOpt]

/-- The bisection search on the example, entered with the counter at 0, one refinement
iteration allowed and any `alphaMin`: the slope at `alphaMax = 1` is negative, the second
loop takes the midpoint once and the search ends at the iteration limit with
`alpha = (alphaMin + 1) / 2`. -/
theorem exBisInf_search (aMin : ℝ) (q : qpData_t ℝ)
    (hq : ∀ k, ∃ v, q.intervals k = { exStagesBis ℝ k with zVecTmp := v })
    (hopt : q.options = (exQpBisInf ℝ).options)
    (hcnt : (q.log.itLog 0).numLineSearchIter = 0) :
    (qpDUNES_bisectionIntervalSearch Real.sqrt (exExt ℝ) 1 1 2 q
      (exVec (fun _ => (-1 / 2 : ℝ))) 1 aMin 1).1 =
      return_t.QPDUNES_ERR_NUMBER_OF_MAX_LINESEARCH_ITERATIONS_REACHED ∧
    (qpDUNES_bisectionIntervalSearch Real.sqrt (exExt ℝ) 1 1 2 q
      (exVec (fun _ => (-1 / 2 : ℝ))) 1 aMin 1).2.alpha = 1 / 2 * (aMin + 1) ∧
    (∀ k, ∃ v, (qpDUNES_bisectionIntervalSearch Real.sqrt (exExt ℝ) 1 1 2 q
      (exVec (fun _ => (-1 / 2 : ℝ))) 1 aMin 1).2.intervals k =
        { exStagesBis ℝ k with zVecTmp := v }) := by
  have hmax : q.options.maxNumLineSearchRefinementIterations = 1 := by rw [hopt]; rfl
  have hfmin : (exExt ℝ).qpDUNES_fmin 1 (vectorNorm Real.sqrt (exVec (fun _ => (-1 / 2 : ℝ))) 1)
      = 1 / 2 := by
    rw [exBisNeg_norm]
    show min (1 : ℝ) (1 / 2) = 1 / 2
    exact min_eq_right (by norm_num)
  have hs1 := exBisNeg_slope (q.setNumLineSearchIter 0) hq 1
  have ho1 : (bisectionIntervalSearch_gradient (exExt ℝ) 1 1 2 (q.setNumLineSearchIter 0)
      1).options = (exQpBisInf ℝ).options :=
    ((bisectionIntervalSearch_gradient_frame (exExt ℝ) 1 1 2 (q.setNumLineSearchIter 0) 1).1).trans
      hopt
  have hl1 : ((bisectionIntervalSearch_gradient (exExt ℝ) 1 1 2 (q.setNumLineSearchIter 0)
      1).log.itLog 0).numLineSearchIter = 0 := by
    rw [bisectionIntervalSearch_gradient_log]
    simp [qpData_t.setNumLineSearchIter, qpData_t.setItLog]
  have hq1 := exBisNeg_stages (q.setNumLineSearchIter 0) hq 1
  unfold qpDUNES_bisectionIntervalSearch
  dsimp only
  rw [hfmin, hcnt, hmax]
  simp only [Nat.sub_zero, forUpM, Nat.add_zero]
  rw [hs1, ho1, if_neg exBisInf_cond, if_pos (by norm_num [divide_f])]
  dsimp only
  generalize bisectionIntervalSearch_gradient (exExt ℝ) 1 1 2 (q.setNumLineSearchIter 0) 1 = g1
    at ho1 hl1 hq1
  have hs2 := exBisNeg_slope (g1.setNumLineSearchIter 0) hq1 (1 / 2 * (aMin + 1))
  have ho2 : (bisectionIntervalSearch_gradient (exExt ℝ) 1 1 2 (g1.setNumLineSearchIter 0)
      (1 / 2 * (aMin + 1))).options = (exQpBisInf ℝ).options :=
    ((bisectionIntervalSearch_gradient_frame (exExt ℝ) 1 1 2 (g1.setNumLineSearchIter 0)
      (1 / 2 * (aMin + 1))).1).trans ho1
  have hq2 := exBisNeg_stages (g1.setNumLineSearchIter 0) hq1 (1 / 2 * (aMin + 1))
  have hmax1 : g1.options.maxNumLineSearchRefinementIterations = 1 := by rw [ho1]; rfl
  unfold bisectionIntervalSearch_bisect
  dsimp only
  rw [hl1, hmax1]
  simp only [Nat.sub_zero, forUpM, Nat.add_zero]
  rw [hs2, ho2, if_neg exBisInf_cond, if_neg (by norm_num)]
  exact ⟨rfl, rfl, hq2⟩

theorem exBisInf_alphaMin :
    determineStepLength_alphaMin (exExt ℝ) 1 (exQpBisInf ℝ) = 1000000000000 := by
  simp [determineStepLength_alphaMin, forUp, exExt, exQpBisInf, exQp, exStagesBis, exStage,
    exOpt]

theorem exBisInf_stages (k : Nat) :
    ∃ v, ((exQpBisInf ℝ).setNumLineSearchIter 0).intervals k =
      { exStagesBis ℝ k with zVecTmp := v } :=
  ⟨(exStagesBis ℝ k).zVecTmp, rfl⟩

/-- The call of the bisection search that `qpDUNES_determineStepLength` makes on the
example: `alphaMin = QPDUNES_INFTY`, `alphaMax = 1`. -/
theorem exBisInf_lineSearch (obj : ℝ) :
    determineStepLength_lineSearch Real.sqrt (exExt ℝ) 1 1 2
        ((exQpBisInf ℝ).setNumLineSearchIter 0) (1 * 1)
        (determineStepLength_alphaMin (exExt ℝ) 1 (exQpBisInf ℝ)) 1 obj =
      some (Except.ok
        ((qpDUNES_bisectionIntervalSearch Real.sqrt (exExt ℝ) 1 1 2
            ((exQpBisInf ℝ).setNumLineSearchIter 0) (exQpBisInf ℝ).deltaLambda (1 * 1)
            (exQpBisInf ℝ).options.QPDUNES_INFTY 1).1,
          (qpDUNES_bisectionIntervalSearch Real.sqrt (exExt ℝ) 1 1 2
            ((exQpBisInf ℝ).setNumLineSearchIter 0) (exQpBisInf ℝ).deltaLambda (1 * 1)
            (exQpBisInf ℝ).options.QPDUNES_INFTY 1).2, obj)) := by
  rw [exBisInf_alphaMin]
  have e : (exQpBisInf ℝ).options.QPDUNES_INFTY = 1000000000000 := by
    simp [exQpBisInf, exOpt]
  rw [e]
  rfl

/-- The step length determination on the example with a regularized Hessian: the bisection
search is entered with `alphaMin = QPDUNES_INFTY`, and the step of the length it reports,
`(QPDUNES_INFTY + 1) / 2`, is taken. -/
theorem exBisInf_determined (obj : ℝ) :
    ∃ q1 obj1, qpDUNES_determineStepLength Real.sqrt (exExt ℝ) 1 1 2 (exQpBisInf ℝ) obj true =
        some (return_t.QPDUNES_ERR_NUMBER_OF_MAX_LINESEARCH_ITERATIONS_REACHED, q1, obj1) ∧
      q1.alpha = 1 / 2 * (1000000000000 + 1) ∧
      q1.lambda.data 0 = 1 / 2 * (1000000000000 + 1) * (-1 / 2) := by
  have hb := exBisInf_search 1000000000000 ((exQpBisInf ℝ).setNumLineSearchIter 0)
    exBisInf_stages rfl rfl
  have e : (exQpBisInf ℝ).options.QPDUNES_INFTY = 1000000000000 := by
    simp [exQpBisInf, exOpt]
  have hls := exBisInf_lineSearch obj
  rw [e] at hls
  have hdl : (exQpBisInf ℝ).deltaLambda = exVec (fun _ => (-1 / 2 : ℝ)) := rfl
  have h11 : (1 : Nat) * 1 = 1 := rfl
  rw [hdl, h11] at hls
  have hfr := bisectionIntervalSearch_frame Real.sqrt (exExt ℝ) 1 1 2
    ((exQpBisInf ℝ).setNumLineSearchIter 0) (exVec (fun _ => (-1 / 2 : ℝ))) 1 1000000000000 1
  generalize qpDUNES_bisectionIntervalSearch Real.sqrt (exExt ℝ) 1 1 2
    ((exQpBisInf ℝ).setNumLineSearchIter 0) (exVec (fun _ => (-1 / 2 : ℝ))) 1 1000000000000 1 = r
    at hb hls hfr
  obtain ⟨hst, hal, hstages⟩ := hb
  rw [hst] at hls
  obtain ⟨q1, obj1, h1, h2, _, _, h5⟩ := determineStepLength_afterSearch Real.sqrt (exExt ℝ) 1 1 2
    (exQpBisInf ℝ) obj true
    return_t.QPDUNES_ERR_NUMBER_OF_MAX_LINESEARCH_ITERATIONS_REACHED r.2 obj
    (fun h => by simp at h) hls
    (fun k _ => by obtain ⟨v, hv⟩ := hstages k; rw [hv]; unfold exStagesBis; split_ifs <;> rfl)
    (fun k => by obtain ⟨v, hv⟩ := hstages k; rw [hv]; unfold exStagesBis; split_ifs <;> rfl)
    exExt_keepsHessianTag
  refine ⟨q1, obj1, h1, by rw [h2, hal], ?_⟩
  rw [h5 0, if_pos (by norm_num), hal, hfr.2.1, hfr.2.2]
  simp [qpData_t.setNumLineSearchIter, qpData_t.setItLog, exQpBisInf, exQp, exVec]

end BisectionRange

variable {α : Type} [LinearOrderedField α]

/-- Entered with the shared counter at `maxNumLineSearchRefinementIterations` or above, the
bisection search runs neither loop and ends at the iteration limit with `alpha = 1`, the
initial value of `alphaC`, whatever the interval is. -/
theorem bisectionIntervalSearch_exhausted (sqrt_f : α → α) (ext : collaborators_t α)
    (N nX nZ : Nat) (q : qpData_t α) (dl : vector_t α) (nV : Nat) (aMin aMax : α)
    (h : q.options.maxNumLineSearchRefinementIterations ≤ (q.log.itLog 0).numLineSearchIter) :
    (qpDUNES_bisectionIntervalSearch sqrt_f ext N nX nZ q dl nV aMin aMax).1 =
      return_t.QPDUNES_ERR_NUMBER_OF_MAX_LINESEARCH_ITERATIONS_REACHED ∧
    (qpDUNES_bisectionIntervalSearch sqrt_f ext N nX nZ q dl nV aMin aMax).2.alpha = 1 := by
  have h0 : q.options.maxNumLineSearchRefinementIterations -
      (q.log.itLog 0).numLineSearchIter = 0 := Nat.sub_eq_zero_of_le h
  unfold qpDUNES_bisectionIntervalSearch
  dsimp only
  rw [h0]
  simp only [forUpM, Nat.add_zero]
  unfold bisectionIntervalSearch_bisect
  dsimp only
  have e1 : ((q.setNumLineSearchIter (q.log.itLog 0).numLineSearchIter).log.itLog
      0).numLineSearchIter = (q.log.itLog 0).numLineSearchIter := by
    simp [qpData_t.setNumLineSearchIter, qpData_t.setItLog]
  have e2 : (q.setNumLineSearchIter (q.log.itLog 0).numLineSearchIter).options = q.options :=
    rfl
  rw [e1, e2, h0]
  exact ⟨rfl, rfl⟩

/-! ## The Hessian check of the stage setup -/

section StageSetupLemmas

variable {α : Type} [LinearOrderedField α]

omit [LinearOrderedField α] in
theorem forUp_keeps_tag (body : Nat → matrix_t α → matrix_t α)
    (h : ∀ i M, (body i M).sparsityType = M.sparsityType) (lo n : Nat) (M : matrix_t α) :
    (forUp body lo n M).sparsityType = M.sparsityType := by
  induction n with
  | zero => rfl
  | succ n ih => rw [forUp, h, ih]

omit [LinearOrderedField α] in
theorem forUp_tag (body : Nat → matrix_t α → matrix_t α) (lo n : Nat) (M : matrix_t α)
    (t : sparsityType_t) (hM : M.sparsityType = t)
    (h : ∀ i M, (body i M).sparsityType = M.sparsityType) :
    (forUp body lo n M).sparsityType = t :=
  (forUp_keeps_tag body h lo n M).trans hM

omit [LinearOrderedField α] in
/-- With `S_` supplied the assembled Hessian is tagged dense. -/
theorem setupRegularInterval_full_tag (hp : setupHelpers_t α) (nX nU : Nat) (regParam : α)
    (H : matrix_t α) (Q_ R_ : Option (Nat → α)) (S_ : Nat → α) :
    (setupRegularInterval_full hp nX nU regParam H Q_ R_ S_).sparsityType =
      sparsityType_t.QPDUNES_DENSE := by
  unfold setupRegularInterval_full
  dsimp only
  cases Q_ <;> cases R_ <;>
    repeat (first | rfl | apply forUp_tag | intro _ _ | dsimp only)

/-- With `Q_` or `R_` detected as dense the Hessian written block by block is tagged
dense. -/
theorem setupRegularInterval_blocks_tag (hp : setupHelpers_t α) (nX nU nZ : Nat)
    (regParam : α) (H : matrix_t α) (Q_ R_ : Option (Nat → α)) :
    (setupRegularInterval_blocks hp nX nU nZ regParam H Q_ R_).sparsityType =
      sparsityType_t.QPDUNES_DENSE := by
  unfold setupRegularInterval_blocks
  dsimp only
  cases Q_ <;> cases R_ <;>
    repeat (first | rfl | apply forUp_tag | intro _ _ | dsimp only)

/-- The diagonal Hessian written into the first line is tagged diagonal. -/
theorem setupRegularInterval_diagonal_tag (hp : setupHelpers_t α) (nX nU : Nat)
    (H : matrix_t α) (Q_ R_ : Option (Nat → α)) (sQ sR : sparsityType_t) :
    (setupRegularInterval_diagonal hp nX nU H Q_ R_ sQ sR).sparsityType =
      sparsityType_t.QPDUNES_DIAGONAL := by
  unfold setupRegularInterval_diagonal
  dsimp only
  cases Q_ <;> cases R_ <;> split_ifs <;>
    repeat (first | rfl | apply forUp_tag | intro _ _ | dsimp only)

/-- The tag of the Hessian assembled from `Q_`, `R_`, `S_` (no `H_`): dense with `S_`
supplied or with `Q_` or `R_` detected as dense, identity with both taken as identity,
diagonal otherwise. -/
theorem setupRegularInterval_assembled_tag (hp : setupHelpers_t α) (nX nU nZ : Nat)
    (regParam : α) (H : matrix_t α) (a : setupArrays_t α) (hH : a.H_ = none) :
    (setupRegularInterval_hessian hp nX nU nZ regParam H a).sparsityType =
      if a.S_.isSome = true ∨
          setupRegularInterval_sparsity hp a.Q_ nX = sparsityType_t.QPDUNES_DENSE ∨
          setupRegularInterval_sparsity hp a.R_ nU = sparsityType_t.QPDUNES_DENSE then
        sparsityType_t.QPDUNES_DENSE
      else if setupRegularInterval_sparsity hp a.Q_ nX = sparsityType_t.QPDUNES_IDENTITY ∧
          setupRegularInterval_sparsity hp a.R_ nU = sparsityType_t.QPDUNES_IDENTITY then
        sparsityType_t.QPDUNES_IDENTITY
      else sparsityType_t.QPDUNES_DIAGONAL := by
  unfold setupRegularInterval_hessian
  rw [hH]
  dsimp only
  cases hS : a.S_ with
  | some S =>
    have c : (some S).isSome = true ∨
        setupRegularInterval_sparsity hp a.Q_ nX = sparsityType_t.QPDUNES_DENSE ∨
        setupRegularInterval_sparsity hp a.R_ nU = sparsityType_t.QPDUNES_DENSE := Or.inl rfl
    rw [if_pos c]
    exact setupRegularInterval_full_tag hp nX nU regParam H a.Q_ a.R_ S
  | none =>
    by_cases hd : setupRegularInterval_sparsity hp a.Q_ nX = sparsityType_t.QPDUNES_DENSE ∨
        setupRegularInterval_sparsity hp a.R_ nU = sparsityType_t.QPDUNES_DENSE
    · have c : (none : Option (Nat → α)).isSome = true ∨
          setupRegularInterval_sparsity hp a.Q_ nX = sparsityType_t.QPDUNES_DENSE ∨
          setupRegularInterval_sparsity hp a.R_ nU = sparsityType_t.QPDUNES_DENSE := Or.inr hd
      rw [if_pos c]
      dsimp only
      rw [if_pos hd]
      exact setupRegularInterval_blocks_tag hp nX nU nZ regParam H a.Q_ a.R_
    · have c : ¬ ((none : Option (Nat → α)).isSome = true ∨
          setupRegularInterval_sparsity hp a.Q_ nX = sparsityType_t.QPDUNES_DENSE ∨
          setupRegularInterval_sparsity hp a.R_ nU = sparsityType_t.QPDUNES_DENSE) := by
        intro h
        rcases h with h | h
        · simp at h
        · exact hd h
      rw [if_neg c]
      dsimp only
      rw [if_neg hd]
      by_cases hi : setupRegularInterval_sparsity hp a.Q_ nX = sparsityType_t.QPDUNES_IDENTITY ∧
          setupRegularInterval_sparsity hp a.R_ nU = sparsityType_t.QPDUNES_IDENTITY
      · rw [if_pos hi, if_pos hi]
      · rw [if_neg hi, if_neg hi]
        exact setupRegularInterval_diagonal_tag hp nX nU H a.Q_ a.R_ _ _

/-- The tag of the Hessian taken from `H_`: what `qpDUNES_updateMatrixData` leaves of the
tag `H` carries, an undefined tag first being replaced by the detected one; `Q_`, `R_`
and `S_` are not read. -/
theorem setupRegularInterval_given_tag (hp : setupHelpers_t α) (nX nU nZ : Nat)
    (regParam : α) (H : matrix_t α) (a : setupArrays_t α) (H_ : Nat → α)
    (hH : a.H_ = some H_) :
    setupRegularInterval_hessian hp nX nU nZ regParam H a =
      hp.qpDUNES_updateMatrixData
        (if H.sparsityType = sparsityType_t.QPDUNES_MATRIX_UNDEFINED then
          { H with sparsityType := hp.qpDUNES_detectMatrixSparsity H_ nZ nZ }
        else H) H_ nZ nZ := by
  unfold setupRegularInterval_hessian
  rw [hH]

/-- The check of `qpDUNES_setupRegularInterval`: a tag below `QPDUNES_DIAGONAL` in the
enumeration ends the function with QPDUNES_ERR_INVALID_ARGUMENT, any other tag lets it go
on with the other stage data. -/
theorem setupRegularInterval_check (hp : setupHelpers_t α) (nX nU nZ : Nat)
    (qpData : qpData_t α) (interval : interval_t α) (a : setupArrays_t α) :
    (hp.sparsityRank (setupRegularInterval_tag hp nX nU nZ qpData interval a) <
        hp.sparsityRank sparsityType_t.QPDUNES_DIAGONAL →
      qpDUNES_setupRegularInterval hp nX nU nZ qpData interval a =
        (return_t.QPDUNES_ERR_INVALID_ARGUMENT,
          { interval with
            H := setupRegularInterval_hessian hp nX nU nZ qpData.options.regParam
              interval.H a })) ∧
    (¬ hp.sparsityRank (setupRegularInterval_tag hp nX nU nZ qpData interval a) <
        hp.sparsityRank sparsityType_t.QPDUNES_DIAGONAL →
      qpDUNES_setupRegularInterval hp nX nU nZ qpData interval a =
        setupRegularInterval_data hp nX nU nZ qpData interval.nD interval.nV
          { interval with
            H := setupRegularInterval_hessian hp nX nU nZ qpData.options.regParam
              interval.H a } a) := by
  unfold qpDUNES_setupRegularInterval setupRegularInterval_tag
  dsimp only
  exact ⟨fun h => by rw [if_pos h], fun h => by rw [if_neg h]⟩

/-- The last parts of `qpDUNES_setupRegularInterval` return QPDUNES_OK and leave the
Hessian. -/
theorem setupRegularInterval_finish_status (hp : setupHelpers_t α) (nX nZ : Nat)
    (qpData : qpData_t α) (nD nV : Nat) (interval : interval_t α) (a : setupArrays_t α) :
    (setupRegularInterval_finish hp nX nZ qpData nD nV interval a).1 = return_t.QPDUNES_OK ∧
    (setupRegularInterval_finish hp nX nZ qpData nD nV interval a).2.H = interval.H := by
  unfold setupRegularInterval_finish
  cases a.D_ <;> exact ⟨rfl, rfl⟩

/-- The status of the parts of `qpDUNES_setupRegularInterval` after the Hessian check:
QPDUNES_OK with `C_` or with both `A_` and `B_` supplied, QPDUNES_ERR_INVALID_ARGUMENT
otherwise; the Hessian is left as it is. -/
theorem setupRegularInterval_data_status (hp : setupHelpers_t α) (nX nU nZ : Nat)
    (qpData : qpData_t α) (nD nV : Nat) (interval : interval_t α) (a : setupArrays_t α) :
    (setupRegularInterval_data hp nX nU nZ qpData nD nV interval a).1 =
      (if a.C_.isSome = true ∨ (a.A_.isSome = true ∧ a.B_.isSome = true) then
        return_t.QPDUNES_OK else return_t.QPDUNES_ERR_INVALID_ARGUMENT) ∧
    (setupRegularInterval_data hp nX nU nZ qpData nD nV interval a).2.H = interval.H := by
  unfold setupRegularInterval_data
  dsimp only
  cases hC : a.C_ with
  | some C =>
    have c : (some C).isSome = true ∨ (a.A_.isSome = true ∧ a.B_.isSome = true) := Or.inl rfl
    rw [if_pos c]
    dsimp only
    refine ⟨(setupRegularInterval_finish_status hp nX nZ qpData nD nV _ a).1, ?_⟩
    rw [(setupRegularInterval_finish_status hp nX nZ qpData nD nV _ a).2]
    dsimp only
    split_ifs <;> rfl
  | none =>
    cases hA : a.A_ with
    | none =>
      have c : ¬ ((none : Option (Nat → α)).isSome = true ∨
          ((none : Option (Nat → α)).isSome = true ∧ a.B_.isSome = true)) := by simp
      rw [if_neg c]
      exact ⟨rfl, by split_ifs <;> rfl⟩
    | some A =>
      cases hB : a.B_ with
      | none =>
        have c : ¬ ((none : Option (Nat → α)).isSome = true ∨
            ((some A).isSome = true ∧ (none : Option (Nat → α)).isSome = true)) := by simp
        rw [if_neg c]
        exact ⟨rfl, by split_ifs <;> rfl⟩
      | some B =>
        have c : (none : Option (Nat → α)).isSome = true ∨
            ((some A).isSome = true ∧ (some B).isSome = true) := Or.inr ⟨rfl, rfl⟩
        rw [if_pos c]
        dsimp only
        refine ⟨(setupRegularInterval_finish_status hp nX nZ qpData nD nV _ a).1, ?_⟩
        rw [(setupRegularInterval_finish_status hp nX nZ qpData nD nV _ a).2]
        dsimp only
        split_ifs <;> rfl

end StageSetupLemmas
/-! ## The iteration counter `log.numIter` through a pass -/

section NumIterFrame

variable {α : Type} [LinearOrderedField α]

omit [LinearOrderedField α] in
theorem SameIterationData_refl (q : qpData_t α) : SameIterationData q q := ⟨rfl, rfl⟩

omit [LinearOrderedField α] in
theorem SameIterationData_trans {q q2 q3 : qpData_t α} (h1 : SameIterationData q q2)
    (h2 : SameIterationData q2 q3) : SameIterationData q q3 :=
  ⟨h2.1.trans h1.1, h2.2.trans h1.2⟩

omit [LinearOrderedField α] in
theorem SameIterationData_of_stages {q q2 : qpData_t α} (h : SameButStages q q2) :
    SameIterationData q q2 := by
  unfold SameIterationData
  rw [h.2.2.2.2]
  exact ⟨rfl, h.1⟩

omit [LinearOrderedField α] in
theorem SameButIntervals_trans {q q2 q3 : qpData_t α} (h1 : SameButIntervals q q2)
    (h2 : SameButIntervals q2 q3) : SameButIntervals q q3 := by
  have h := congrArg (fun (w : qpData_t α) => ({ w with intervals := q.intervals } : qpData_t α)) h2
  exact h.trans h1

omit [LinearOrderedField α] in
theorem SameButIntervals_hessian {q q2 : qpData_t α} (h : SameButIntervals q q2) :
    q2.hessian = q.hessian := by
  unfold SameButIntervals at h
  have h1 := congrArg (fun (w : qpData_t α) => w.hessian) h
  exact h1

omit [LinearOrderedField α] in
theorem SameIterationData_of_intervals {q q2 : qpData_t α} (h : SameButIntervals q q2) :
    SameIterationData q q2 := by
  unfold SameButIntervals at h
  have h1 := congrArg (fun (w : qpData_t α) => w.log.numIter) h
  have h2 := congrArg (fun (w : qpData_t α) => w.options) h
  exact ⟨h1, h2⟩

omit [LinearOrderedField α] in
theorem updateLoop_intervals (ext : collaborators_t α) (N : Nat) (Q q0 : qpData_t α)
    (r : return_t × qpData_t α) (hQ : SameButIntervals q0 Q)
    (h : (match forUpM
      (fun kk (qpData : qpData_t α) =>
        match (qpData.intervals kk).qpSolverSpecification with
        | qp_solver_t.QPDUNES_STAGE_QP_SOLVER_CLIPPING =>
          (Except.ok (qpData.setInterval kk
            (ext.clippingQpSolver_updateStageData qpData kk)) :
            Except (Option (return_t × qpData_t α)) (qpData_t α))
        | qp_solver_t.QPDUNES_STAGE_QP_SOLVER_QPOASES => Except.error none
        | qp_solver_t.QPDUNES_STAGE_QP_SOLVER_UNDEFINED =>
          Except.error (some (return_t.QPDUNES_ERR_UNKNOWN_ERROR, qpData)))
      0 (N + 1) Q with
      | Except.ok qpData => some (return_t.QPDUNES_OK, qpData)
      | Except.error e => e) = some r) :
    SameButIntervals q0 r.2 := by
  have inv := forUpM_invariant
    (fun kk (qpData : qpData_t α) =>
      match (qpData.intervals kk).qpSolverSpecification with
      | qp_solver_t.QPDUNES_STAGE_QP_SOLVER_CLIPPING =>
        (Except.ok (qpData.setInterval kk (ext.clippingQpSolver_updateStageData qpData kk)) :
          Except (Option (return_t × qpData_t α)) (qpData_t α))
      | qp_solver_t.QPDUNES_STAGE_QP_SOLVER_QPOASES => Except.error none
      | qp_solver_t.QPDUNES_STAGE_QP_SOLVER_UNDEFINED =>
        Except.error (some (return_t.QPDUNES_ERR_UNKNOWN_ERROR, qpData)))
    (fun (s : qpData_t α) => SameButIntervals q0 s)
    (fun (e : Option (return_t × qpData_t α)) => ∀ r, e = some r → SameButIntervals q0 r.2)
    0 (N + 1)
    (fun i s s1 hP hb => by
      dsimp only at hb hP ⊢
      split at hb
      · simp only [Except.ok.injEq] at hb
        rw [← hb]
        exact hP
      · simp at hb
      · simp at hb)
    (fun i s e hP hb => by
      dsimp only at hb hP ⊢
      split at hb
      · simp at hb
      · simp only [Except.error.injEq] at hb
        rw [← hb]
        intro r hr
        simp at hr
      · simp only [Except.error.injEq] at hb
        rw [← hb]
        intro r hr
        simp only [Option.some.injEq] at hr
        rw [← hr]
        exact hP)
    Q hQ
  split at h
  · rename_i s hs
    simp only [Option.some.injEq] at h
    rw [← h]
    exact inv.1 s hs
  · rename_i e he
    exact inv.2 e he r h

omit [LinearOrderedField α] in
theorem updateAllLocalQPs_intervals (ext : collaborators_t α) (N nX : Nat) (q : qpData_t α)
    (lam : vector_t α) (r : return_t × qpData_t α)
    (h : qpDUNES_updateAllLocalQPs ext N nX q lam = some r) :
    SameButIntervals q r.2 := by
  unfold qpDUNES_updateAllLocalQPs at h
  dsimp only at h
  refine updateLoop_intervals ext N _ q r ?_ h
  exact forUp_invariant _ (fun (s : qpData_t α) => SameButIntervals q s)
    (fun i s hs => by exact hs) _ _ _ rfl

omit [LinearOrderedField α] in
theorem solveLocalQP_intervals (ext : collaborators_t α) (q : qpData_t α) (kk : Nat)
    (r : return_t × qpData_t α) (h : qpDUNES_solveLocalQP ext q kk = some r) :
    SameButIntervals q r.2 := by
  unfold qpDUNES_solveLocalQP at h
  split at h
  · dsimp only at h
    split_ifs at h <;>
    · simp only [Option.some.injEq] at h
      rw [← h]
      exact rfl
  · simp at h
  · simp only [Option.some.injEq] at h
    rw [← h]
    exact rfl

omit [LinearOrderedField α] in
theorem solveAllLocalQPs_intervals (ext : collaborators_t α) (N nX : Nat) (q : qpData_t α)
    (lam : vector_t α) (r : return_t × qpData_t α)
    (h : qpDUNES_solveAllLocalQPs ext N nX q lam = some r) :
    SameButIntervals q r.2 := by
  unfold qpDUNES_solveAllLocalQPs at h
  cases hu : qpDUNES_updateAllLocalQPs ext N nX q lam with
  | none => rw [hu] at h; simp at h
  | some u =>
    rw [hu] at h
    dsimp only at h
    have h0 := updateAllLocalQPs_intervals ext N nX q lam u hu
    split at h
    · simp at h
    · rename_i s hl
      have hs : SameButIntervals q s.2 :=
        forUpO_invariant _ (fun (s : Nat × qpData_t α) => SameButIntervals q s.2)
          (fun i s s1 hP hb => by
            dsimp only at hb hP ⊢
            cases hq : qpDUNES_solveLocalQP ext s.2 i with
            | none => rw [hq] at hb; simp at hb
            | some r1 =>
              rw [hq] at hb
              simp only [Option.some.injEq] at hb
              rw [← hb]
              exact SameButIntervals_trans hP (solveLocalQP_intervals ext s.2 i r1 hq))
          0 (N + 1) (0, u.2) s h0 hl
      split_ifs at h <;>
      · simp only [Option.some.injEq] at h
        rw [← h]
        exact hs

omit [LinearOrderedField α] in
theorem determineStepLength_doSteps_intervals (ext : collaborators_t α) (N : Nat)
    (q : qpData_t α) :
    (∀ q1, determineStepLength_doSteps ext N q = Except.ok q1 →
      SameButIntervals q q1) ∧
    (∀ e, determineStepLength_doSteps ext N q = Except.error (some e) →
      SameButIntervals q e.2) := by
  unfold determineStepLength_doSteps
  have inv := forUpM_invariant
    (fun kk (qpData : qpData_t α) =>
      match (qpData.intervals kk).qpSolverSpecification with
      | qp_solver_t.QPDUNES_STAGE_QP_SOLVER_CLIPPING =>
        (Except.ok (qpData.setInterval kk (ext.directQpSolver_doStep qpData kk qpData.alpha).2) :
          Except (Option (return_t × qpData_t α)) (qpData_t α))
      | qp_solver_t.QPDUNES_STAGE_QP_SOLVER_QPOASES => Except.error none
      | qp_solver_t.QPDUNES_STAGE_QP_SOLVER_UNDEFINED =>
        Except.error (some (return_t.QPDUNES_ERR_UNKNOWN_ERROR, qpData)))
    (fun (s : qpData_t α) => SameButIntervals q s)
    (fun (e : Option (return_t × qpData_t α)) => ∀ r, e = some r →
      SameButIntervals q r.2) 0 (N + 1)
    (fun i s s1 hP hb => by
      dsimp only at hb hP ⊢
      split at hb
      · simp only [Except.ok.injEq] at hb
        rw [← hb]
        exact hP
      · simp at hb
      · simp at hb)
    (fun i s e hP hb => by
      dsimp only at hb hP ⊢
      split at hb
      · simp at hb
      · simp only [Except.error.injEq] at hb
        rw [← hb]
        intro r hr
        simp at hr
      · simp only [Except.error.injEq] at hb
        rw [← hb]
        intro r hr
        simp only [Option.some.injEq] at hr
        rw [← hr]
        exact hP)
    q rfl
  exact ⟨fun q1 h => inv.1 q1 h, fun e h => inv.2 (some e) h e rfl⟩

omit [LinearOrderedField α] in
theorem solveAllLocalQPs_numIter (ext : collaborators_t α) (N nX : Nat) (q : qpData_t α)
    (lam : vector_t α) (r : return_t × qpData_t α)
    (h : qpDUNES_solveAllLocalQPs ext N nX q lam = some r) :
    SameIterationData q r.2 :=
  SameIterationData_of_intervals (solveAllLocalQPs_intervals ext N nX q lam r h)

omit [LinearOrderedField α] in
theorem determineStepLength_doSteps_numIter (ext : collaborators_t α) (N : Nat)
    (q : qpData_t α) :
    (∀ q1, determineStepLength_doSteps ext N q = Except.ok q1 →
      SameIterationData q q1) ∧
    (∀ e, determineStepLength_doSteps ext N q = Except.error (some e) →
      SameIterationData q e.2) :=
  ⟨fun q1 h => SameIterationData_of_intervals
      ((determineStepLength_doSteps_intervals ext N q).1 q1 h),
    fun e h => SameIterationData_of_intervals
      ((determineStepLength_doSteps_intervals ext N q).2 e h)⟩

/-- The objective value evaluation writes only the stages. -/
theorem computeObjectiveValue_intervals (N : Nat) (qp : qpData_t α) (o : α × qpData_t α)
    (h : qpDUNES_computeObjectiveValue N qp = some o) : SameButIntervals qp o.2 := by
  unfold qpDUNES_computeObjectiveValue at h
  refine forUpO_invariant _ (fun (s : α × qpData_t α) => SameButIntervals qp s.2) ?_ 0 (N + 1)
    (0, qp) o rfl h
  intro i s s1 hP hb
  dsimp only at hb
  split at hb
  · simp at hb
  · simp only [Option.some.injEq] at hb
    rw [← hb]
    exact hP

/-- The trial gradient of the bisection search leaves the iteration counter. -/
theorem bisectionIntervalSearch_gradient_numIter (ext : collaborators_t α) (N nX nZ : Nat)
    (q : qpData_t α) (a : α) :
    SameIterationData q (bisectionIntervalSearch_gradient ext N nX nZ q a) := by
  unfold bisectionIntervalSearch_gradient
  dsimp only
  refine forUp_invariant _ (fun s => SameIterationData q s) (fun i s hs => by exact hs) _ _ _ ?_
  exact forUp_invariant _ (fun s => SameIterationData q s) (fun i s hs => by exact hs) _ _ _
    (SameIterationData_refl q)

/-- The second loop of the bisection search leaves the iteration counter. -/
theorem bisectionIntervalSearch_bisect_numIter (ext : collaborators_t α) (N nX nZ : Nat)
    (q : qpData_t α) (dL : vector_t α) (nV : Nat) (sn aMin aMax : α) :
    SameIterationData q (bisectionIntervalSearch_bisect ext N nX nZ q dL nV sn aMin aMax).2 := by
  unfold bisectionIntervalSearch_bisect
  dsimp only
  have inv := forUpM_invariant
    (fun i (s : qpData_t α × α × α × α) =>
      if abs_f (divide_f (scalarProd (bisectionIntervalSearch_gradient ext N nX nZ
          (s.1.setNumLineSearchIter i) (1 / 2 * (s.2.1 + s.2.2.1))).xnVecTmp2 dL nV) sn) ≤
          (bisectionIntervalSearch_gradient ext N nX nZ (s.1.setNumLineSearchIter i)
            (1 / 2 * (s.2.1 + s.2.2.1))).options.lineSearchStationarityTolerance then
        (Except.error (return_t.QPDUNES_OK,
          ({ bisectionIntervalSearch_gradient ext N nX nZ (s.1.setNumLineSearchIter i)
              (1 / 2 * (s.2.1 + s.2.2.1)) with alpha := 1 / 2 * (s.2.1 + s.2.2.1) } :
            qpData_t α)) : Except (return_t × qpData_t α) (qpData_t α × α × α × α))
      else if scalarProd (bisectionIntervalSearch_gradient ext N nX nZ
          (s.1.setNumLineSearchIter i) (1 / 2 * (s.2.1 + s.2.2.1))).xnVecTmp2 dL nV > 0 then
        Except.ok (bisectionIntervalSearch_gradient ext N nX nZ (s.1.setNumLineSearchIter i)
          (1 / 2 * (s.2.1 + s.2.2.1)), 1 / 2 * (s.2.1 + s.2.2.1), s.2.2.1,
          1 / 2 * (s.2.1 + s.2.2.1))
      else Except.ok (bisectionIntervalSearch_gradient ext N nX nZ
        (s.1.setNumLineSearchIter i) (1 / 2 * (s.2.1 + s.2.2.1)), s.2.1,
        1 / 2 * (s.2.1 + s.2.2.1), 1 / 2 * (s.2.1 + s.2.2.1)))
    (fun (s : qpData_t α × α × α × α) => SameIterationData q s.1)
    (fun (e : return_t × qpData_t α) => SameIterationData q e.2)
    (q.log.itLog 0).numLineSearchIter
    (q.options.maxNumLineSearchRefinementIterations - (q.log.itLog 0).numLineSearchIter)
    (fun i s s1 hP hb => by
      have hg := bisectionIntervalSearch_gradient_numIter ext N nX nZ
        (s.1.setNumLineSearchIter i) (1 / 2 * (s.2.1 + s.2.2.1))
      have hP2 : SameIterationData q (s.1.setNumLineSearchIter i) := hP
      dsimp only at hb
      split_ifs at hb
      · simp only [Except.ok.injEq] at hb
        rw [← hb]
        exact SameIterationData_trans hP2 hg
      · simp only [Except.ok.injEq] at hb
        rw [← hb]
        exact SameIterationData_trans hP2 hg)
    (fun i s e hP hb => by
      have hg := bisectionIntervalSearch_gradient_numIter ext N nX nZ
        (s.1.setNumLineSearchIter i) (1 / 2 * (s.2.1 + s.2.2.1))
      have hP2 : SameIterationData q (s.1.setNumLineSearchIter i) := hP
      dsimp only at hb
      split_ifs at hb
      simp only [Except.error.injEq] at hb
      rw [← hb]
      exact SameIterationData_trans hP2 hg)
    (q, aMin, aMax, 1) (SameIterationData_refl q)
  split
  · rename_i s hs
    exact inv.1 s hs
  · rename_i e he
    exact inv.2 e he

/-- The bisection search leaves the iteration counter. -/
theorem bisectionIntervalSearch_numIter (sqrt_f : α → α) (ext : collaborators_t α)
    (N nX nZ : Nat) (q : qpData_t α) (dL : vector_t α) (nV : Nat) (aMin aMax : α) :
    SameIterationData q
      (qpDUNES_bisectionIntervalSearch sqrt_f ext N nX nZ q dL nV aMin aMax).2 := by
  unfold qpDUNES_bisectionIntervalSearch
  dsimp only
  have hstep : ∀ (i : Nat) (s : qpData_t α × α × α), SameIterationData q s.1 →
      SameIterationData q (bisectionIntervalSearch_gradient ext N nX nZ
        (s.1.setNumLineSearchIter i) s.2.2) := by
    intro i s hP
    have hP2 : SameIterationData q (s.1.setNumLineSearchIter i) := hP
    exact SameIterationData_trans hP2 (bisectionIntervalSearch_gradient_numIter ext N nX nZ _ _)
  have hok : ∀ (i : Nat) (s s1 : qpData_t α × α × α), SameIterationData q s.1 →
      (if abs_f (divide_f (scalarProd (bisectionIntervalSearch_gradient ext N nX nZ
            (s.1.setNumLineSearchIter i) s.2.2).xnVecTmp2 dL nV)
            (ext.qpDUNES_fmin 1 (vectorNorm sqrt_f dL nV))) ≤
          (bisectionIntervalSearch_gradient ext N nX nZ (s.1.setNumLineSearchIter i)
            s.2.2).options.lineSearchStationarityTolerance then
        (Except.error (bisectionExit_t.ret return_t.QPDUNES_OK
          { bisectionIntervalSearch_gradient ext N nX nZ (s.1.setNumLineSearchIter i) s.2.2
            with alpha := s.2.2 }) : Except (bisectionExit_t α) (qpData_t α × α × α))
      else if divide_f (scalarProd (bisectionIntervalSearch_gradient ext N nX nZ
            (s.1.setNumLineSearchIter i) s.2.2).xnVecTmp2 dL nV)
            (ext.qpDUNES_fmin 1 (vectorNorm sqrt_f dL nV)) < 0 then
        Except.error (bisectionExit_t.brk (bisectionIntervalSearch_gradient ext N nX nZ
          (s.1.setNumLineSearchIter i) s.2.2) s.2.1 s.2.2)
      else
        if s.2.2 * (bisectionIntervalSearch_gradient ext N nX nZ (s.1.setNumLineSearchIter i)
            s.2.2).options.lineSearchIncreaseFactor >
            (bisectionIntervalSearch_gradient ext N nX nZ (s.1.setNumLineSearchIter i)
              s.2.2).options.lineSearchMaxStepSize then
          Except.error (bisectionExit_t.ret
            return_t.QPDUNES_ERR_EXCEEDED_MAX_LINESEARCH_STEPSIZE
            { bisectionIntervalSearch_gradient ext N nX nZ (s.1.setNumLineSearchIter i) s.2.2
              with alpha := s.2.2 })
        else Except.ok (bisectionIntervalSearch_gradient ext N nX nZ
          (s.1.setNumLineSearchIter i) s.2.2, s.2.2,
          s.2.2 * (bisectionIntervalSearch_gradient ext N nX nZ (s.1.setNumLineSearchIter i)
            s.2.2).options.lineSearchIncreaseFactor)) = Except.ok s1 →
      SameIterationData q s1.1 := by
    intro i s s1 hP hb
    split_ifs at hb
    simp only [Except.ok.injEq] at hb
    rw [← hb]
    exact hstep i s hP
  have herr : ∀ (i : Nat) (s : qpData_t α × α × α) (e : bisectionExit_t α),
      SameIterationData q s.1 →
      (if abs_f (divide_f (scalarProd (bisectionIntervalSearch_gradient ext N nX nZ
            (s.1.setNumLineSearchIter i) s.2.2).xnVecTmp2 dL nV)
            (ext.qpDUNES_fmin 1 (vectorNorm sqrt_f dL nV))) ≤
          (bisectionIntervalSearch_gradient ext N nX nZ (s.1.setNumLineSearchIter i)
            s.2.2).options.lineSearchStationarityTolerance then
        (Except.error (bisectionExit_t.ret return_t.QPDUNES_OK
          { bisectionIntervalSearch_gradient ext N nX nZ (s.1.setNumLineSearchIter i) s.2.2
            with alpha := s.2.2 }) : Except (bisectionExit_t α) (qpData_t α × α × α))
      else if divide_f (scalarProd (bisectionIntervalSearch_gradient ext N nX nZ
            (s.1.setNumLineSearchIter i) s.2.2).xnVecTmp2 dL nV)
            (ext.qpDUNES_fmin 1 (vectorNorm sqrt_f dL nV)) < 0 then
        Except.error (bisectionExit_t.brk (bisectionIntervalSearch_gradient ext N nX nZ
          (s.1.setNumLineSearchIter i) s.2.2) s.2.1 s.2.2)
      else
        if s.2.2 * (bisectionIntervalSearch_gradient ext N nX nZ (s.1.setNumLineSearchIter i)
            s.2.2).options.lineSearchIncreaseFactor >
            (bisectionIntervalSearch_gradient ext N nX nZ (s.1.setNumLineSearchIter i)
              s.2.2).options.lineSearchMaxStepSize then
          Except.error (bisectionExit_t.ret
            return_t.QPDUNES_ERR_EXCEEDED_MAX_LINESEARCH_STEPSIZE
            { bisectionIntervalSearch_gradient ext N nX nZ (s.1.setNumLineSearchIter i) s.2.2
              with alpha := s.2.2 })
        else Except.ok (bisectionIntervalSearch_gradient ext N nX nZ
          (s.1.setNumLineSearchIter i) s.2.2, s.2.2,
          s.2.2 * (bisectionIntervalSearch_gradient ext N nX nZ (s.1.setNumLineSearchIter i)
            s.2.2).options.lineSearchIncreaseFactor)) = Except.error e →
      SameIterationData q e.state := by
    intro i s e hP hb
    split_ifs at hb
    · simp only [Except.error.injEq] at hb
      rw [← hb]
      exact hstep i s hP
    · simp only [Except.error.injEq] at hb
      rw [← hb]
      exact hstep i s hP
    · simp only [Except.error.injEq] at hb
      rw [← hb]
      exact hstep i s hP
  split
  · rename_i st q1 he
    exact (forUpM_invariant _ (fun (s : qpData_t α × α × α) => SameIterationData q s.1)
      (fun (e : bisectionExit_t α) => SameIterationData q e.state) _ _
      (fun i s s1 hP hb => hok i s s1 hP hb) (fun i s e hP hb => herr i s e hP hb)
      (q, aMin, aMax) (SameIterationData_refl q)).2 _ he
  · rename_i qb a1 a2 he
    have hb : SameIterationData q qb :=
      (forUpM_invariant _ (fun (s : qpData_t α × α × α) => SameIterationData q s.1)
        (fun (e : bisectionExit_t α) => SameIterationData q e.state) _ _
        (fun i s s1 hP hb => hok i s s1 hP hb) (fun i s e hP hb => herr i s e hP hb)
        (q, aMin, aMax) (SameIterationData_refl q)).2 _ he
    exact SameIterationData_trans hb
      (bisectionIntervalSearch_bisect_numIter ext N nX nZ _ _ _ _ _ _)
  · rename_i s hs
    have hb : SameIterationData q s.1 :=
      (forUpM_invariant _ (fun (s : qpData_t α × α × α) => SameIterationData q s.1)
        (fun (e : bisectionExit_t α) => SameIterationData q e.state) _ _
        (fun i s s1 hP hb => hok i s s1 hP hb) (fun i s e hP hb => herr i s e hP hb)
        (q, aMin, aMax) (SameIterationData_refl q)).1 _ hs
    have hb2 : SameIterationData q (s.1.setNumLineSearchIter
      ((q.log.itLog 0).numLineSearchIter +
        (q.options.maxNumLineSearchRefinementIterations -
          (q.log.itLog 0).numLineSearchIter))) := hb
    exact SameIterationData_trans hb2
      (bisectionIntervalSearch_bisect_numIter ext N nX nZ _ _ _ _ _ _)


/-- A pass of the backtracking search leaves the iteration counter, however it ends. -/
theorem backTracking_pass_numIter (sqrt_f : α → α) (ext : collaborators_t α) (N : Nat)
    (qp : qpData_t α) (dL : vector_t α) (nV : Nat) (aMin obj : α) (i : Nat) (s : qpData_t α) :
    (∀ s1, backTracking_pass sqrt_f ext N qp dL nV aMin obj i s = Except.ok s1 →
      SameIterationData s s1) ∧
    (∀ e, backTracking_pass sqrt_f ext N qp dL nV aMin obj i s = Except.error (some e) →
      SameIterationData s e.2) := by
  unfold backTracking_pass
  cases ht : qpDUNES_computeParametricObjectiveValue ext N (s.setNumLineSearchIter i)
      s.alpha with
  | none => exact ⟨fun s1 h => by simp at h, fun e h => by simp at h⟩
  | some r =>
    dsimp only
    have hr0 := SameIterationData_of_stages (computeParametricObjectiveValue_frame ext N
      (s.setNumLineSearchIter i) s.alpha r ht)
    have hr : SameIterationData s r.2 := hr0
    split_ifs
    · refine ⟨fun s1 h => by simp at h, fun e h => ?_⟩
      simp only [Except.error.injEq, Option.some.injEq] at h
      rw [← h]
      exact hr
    · refine ⟨fun s1 h => by simp at h, fun e h => ?_⟩
      simp only [Except.error.injEq, Option.some.injEq] at h
      rw [← h]
      exact hr
    · refine ⟨fun s1 h => ?_, fun e h => by simp at h⟩
      simp only [Except.ok.injEq] at h
      rw [← h]
      exact hr

/-- The backtracking search leaves the iteration counter. -/
theorem backTrackingLineSearch_numIter (sqrt_f : α → α) (ext : collaborators_t α) (N : Nat)
    (qp : qpData_t α) (dL : vector_t α) (nV : Nat) (aMin aMax obj : α)
    (r : return_t × qpData_t α)
    (h : qpDUNES_backTrackingLineSearch sqrt_f ext N qp dL nV aMin aMax obj = some r) :
    SameIterationData qp r.2 := by
  rw [backTrackingLineSearch_eq] at h
  have inv := forUpM_invariant (backTracking_pass sqrt_f ext N qp dL nV aMin obj)
    (fun (s : qpData_t α) => SameIterationData qp s)
    (fun (e : Option (return_t × qpData_t α)) => ∀ r, e = some r → SameIterationData qp r.2)
    (qp.log.itLog 0).numLineSearchIter
    (qp.options.maxNumLineSearchIterations - (qp.log.itLog 0).numLineSearchIter)
    (fun i s s1 hP hb =>
      SameIterationData_trans hP ((backTracking_pass_numIter sqrt_f ext N qp dL nV aMin obj i s).1
        s1 hb))
    (fun i s e hP hb r hr => by
      subst hr
      exact SameIterationData_trans hP
        ((backTracking_pass_numIter sqrt_f ext N qp dL nV aMin obj i s).2 r hb))
    ({ qp with alpha := aMax } : qpData_t α) ⟨rfl, rfl⟩
  cases hl : forUpM (backTracking_pass sqrt_f ext N qp dL nV aMin obj)
      (qp.log.itLog 0).numLineSearchIter
      (qp.options.maxNumLineSearchIterations - (qp.log.itLog 0).numLineSearchIter)
      ({ qp with alpha := aMax } : qpData_t α) with
  | ok s =>
    rw [hl] at h
    simp only [Option.some.injEq] at h
    rw [← h]
    exact inv.1 s hl
  | error e =>
    rw [hl] at h
    exact inv.2 e hl r h

/-- The grid search leaves the iteration counter. -/
theorem gridSearch_numIter (ext : collaborators_t α) (N : Nat) (qp : qpData_t α)
    (obj aMin aMax : α) (r : return_t × qpData_t α × α)
    (h : qpDUNES_gridSearch ext N qp obj aMin aMax = some r) :
    SameIterationData qp r.2.1 := by
  unfold qpDUNES_gridSearch at h
  split at h
  · simp at h
  · rename_i s hs
    simp only [Option.some.injEq] at h
    rw [← h]
    have hP : SameIterationData qp s.1 :=
      forUpO_invariant _ (fun (s : qpData_t α × α) => SameIterationData qp s.1)
        (fun i s s1 hP hb => by
          dsimp only at hb hP ⊢
          split at hb
          · simp at hb
          · rename_i r1 hr1
            have hr : SameIterationData s.1 r1.2 :=
              SameIterationData_of_stages (computeParametricObjectiveValue_frame ext N _ _ r1 hr1)
            split_ifs at hb <;>
            · simp only [Option.some.injEq] at hb
              rw [← hb]
              exact SameIterationData_trans hP hr)
        0 qp.options.lineSearchNbrGridPoints (qp, obj) s ⟨rfl, rfl⟩ hs
    exact hP

/-- The line search switch leaves the iteration counter, whether it goes on to the update
of the variables or returns. -/
theorem determineStepLength_lineSearch_numIter (sqrt_f : α → α) (ext : collaborators_t α)
    (N nX nZ : Nat) (q : qpData_t α) (nV : Nat) (aMin aMax obj : α) :
    (∀ r, determineStepLength_lineSearch sqrt_f ext N nX nZ q nV aMin aMax obj =
        some (Except.ok r) → SameIterationData q r.2.1) ∧
    (∀ e, determineStepLength_lineSearch sqrt_f ext N nX nZ q nV aMin aMax obj =
        some (Except.error e) → SameIterationData q e.2.1) := by
  have hbt : ∀ r, qpDUNES_backTrackingLineSearch sqrt_f ext N q q.deltaLambda nV 0 aMax obj =
      some r → SameIterationData q r.2 :=
    fun r hr => backTrackingLineSearch_numIter sqrt_f ext N q q.deltaLambda nV 0 aMax obj r hr
  unfold determineStepLength_lineSearch
  cases hls : q.options.lsType
  · dsimp only
    cases hb : qpDUNES_backTrackingLineSearch sqrt_f ext N q q.deltaLambda nV 0 aMax obj with
    | none => exact ⟨fun r h => by simp at h, fun e h => by simp at h⟩
    | some b =>
      dsimp only
      split_ifs with c
      · refine ⟨fun r h => by simp at h, fun e h => ?_⟩
        simp only [Option.some.injEq, Except.error.injEq] at h
        rw [← h]
        exact hbt b hb
      · refine ⟨fun r h => ?_, fun e h => by simp at h⟩
        simp only [Option.some.injEq, Except.ok.injEq] at h
        rw [← h]
        exact hbt b hb
  · dsimp only
    cases hb : qpDUNES_backTrackingLineSearch sqrt_f ext N q q.deltaLambda nV 0 aMax obj with
    | none => exact ⟨fun r h => by simp at h, fun e h => by simp at h⟩
    | some b =>
      dsimp only
      split_ifs with c c2
      · refine ⟨fun r h => by simp at h, fun e h => ?_⟩
        simp only [Option.some.injEq, Except.error.injEq] at h
        rw [← h]
        exact hbt b hb
      · refine ⟨fun r h => ?_, fun e h => by simp at h⟩
        simp only [Option.some.injEq, Except.ok.injEq] at h
        rw [← h]
        exact hbt b hb
      · refine ⟨fun r h => ?_, fun e h => by simp at h⟩
        simp only [Option.some.injEq, Except.ok.injEq] at h
        rw [← h]
        exact hbt b hb
  · exact ⟨fun r h => by simp at h, fun e h => by simp at h⟩
  · dsimp only
    refine ⟨fun r h => ?_, fun e h => by simp at h⟩
    simp only [Option.some.injEq, Except.ok.injEq] at h
    rw [← h]
    exact bisectionIntervalSearch_numIter sqrt_f ext N nX nZ q q.deltaLambda nV aMin aMax
  · dsimp only
    cases hb : qpDUNES_backTrackingLineSearch sqrt_f ext N q q.deltaLambda nV 0 aMax obj with
    | none => exact ⟨fun r h => by simp at h, fun e h => by simp at h⟩
    | some b =>
      dsimp only
      split_ifs with c
      · refine ⟨fun r h => by simp at h, fun e h => ?_⟩
        simp only [Option.some.injEq, Except.error.injEq] at h
        rw [← h]
        exact hbt b hb
      · refine ⟨fun r h => ?_, fun e h => by simp at h⟩
        simp only [Option.some.injEq, Except.ok.injEq] at h
        rw [← h]
        exact SameIterationData_trans (hbt b hb)
          (bisectionIntervalSearch_numIter sqrt_f ext N nX nZ b.2 b.2.deltaLambda nV aMin _)
  · dsimp only
    cases hg : qpDUNES_gridSearch ext N q obj aMin aMax with
    | none => exact ⟨fun r h => by simp at h, fun e h => by simp at h⟩
    | some g =>
      dsimp only
      refine ⟨fun r h => ?_, fun e h => by simp at h⟩
      simp only [Option.some.injEq, Except.ok.injEq] at h
      rw [← h]
      exact gridSearch_numIter ext N q obj aMin aMax g hg
  · dsimp only
    cases hb : qpDUNES_backTrackingLineSearch sqrt_f ext N q q.deltaLambda nV 0 aMax obj with
    | none => exact ⟨fun r h => by simp at h, fun e h => by simp at h⟩
    | some b =>
      dsimp only
      split_ifs with c
      · refine ⟨fun r h => by simp at h, fun e h => ?_⟩
        simp only [Option.some.injEq, Except.error.injEq] at h
        rw [← h]
        exact hbt b hb
      · cases hg : qpDUNES_gridSearch ext N b.2 obj aMin
            (ext.qpDUNES_fmin aMax (divide_f b.2.alpha q.options.lineSearchReductionFactor)) with
        | none => exact ⟨fun r h => by simp at h, fun e h => by simp at h⟩
        | some g =>
          dsimp only
          refine ⟨fun r h => ?_, fun e h => by simp at h⟩
          simp only [Option.some.injEq, Except.ok.injEq] at h
          rw [← h]
          exact SameIterationData_trans (hbt b hb) (gridSearch_numIter ext N b.2 obj aMin _ g hg)
  · dsimp only
    refine ⟨fun r h => ?_, fun e h => by simp at h⟩
    simp only [Option.some.injEq, Except.ok.injEq] at h
    rw [← h]
    exact SameIterationData_refl q

/-- The steps of the stages followed by the objective value, as both branches of the step
length determination end (dual_qp.c 948-970 and 1036-1059), leave the iteration counter. -/
theorem determineStepLength_finish_numIter (ext : collaborators_t α) (N : Nat)
    (q : qpData_t α) (st : return_t) (obj : α) (d : return_t × qpData_t α × α)
    (h : (match determineStepLength_doSteps ext N q with
      | Except.error none => none
      | Except.error (some e) => some (e.1, e.2, obj)
      | Except.ok qpData =>
        match qpDUNES_computeObjectiveValue N qpData with
        | none => none
        | some o => some (st, o.2, o.1)) = some d) :
    SameIterationData q d.2.1 := by
  have hd := determineStepLength_doSteps_numIter ext N q
  split at h
  · simp at h
  · rename_i e he
    simp only [Option.some.injEq] at h
    rw [← h]
    exact hd.2 e he
  · rename_i q1 hq1
    split at h
    · simp at h
    · rename_i o ho
      simp only [Option.some.injEq] at h
      rw [← h]
      exact SameIterationData_trans (hd.1 q1 hq1)
        (SameIterationData_of_stages (computeObjectiveValue_frame N q1 o ho))

/-- The step length determination leaves the iteration counter, whatever it returns. -/
theorem determineStepLength_numIter (sqrt_f : α → α) (ext : collaborators_t α) (N nX nZ : Nat)
    (q : qpData_t α) (obj : α) (reg : Bool) (d : return_t × qpData_t α × α)
    (h : qpDUNES_determineStepLength sqrt_f ext N nX nZ q obj reg = some d) :
    SameIterationData q d.2.1 := by
  unfold qpDUNES_determineStepLength at h
  dsimp only at h
  split_ifs at h with c
  · have h2 := determineStepLength_finish_numIter ext N _ _ _ d h
    exact h2
  · have hl := determineStepLength_lineSearch_numIter sqrt_f ext N nX nZ
      (q.setNumLineSearchIter 0) (nX * N)
      (determineStepLength_alphaMin ext N (q.setNumLineSearchIter 0)) 1 obj
    split at h
    · simp at h
    · rename_i e he
      simp only [Option.some.injEq] at h
      rw [← h]
      exact hl.2 e he
    · rename_i r hr
      have h1 : SameIterationData q r.2.1 := hl.1 r hr
      have h2 := determineStepLength_finish_numIter ext N _ _ _ d h
      exact SameIterationData_trans h1 h2

omit [LinearOrderedField α] in
/-- Saving the old active set leaves the iteration counter and the options. -/
theorem solve_savePrevIeqStatus_numIter (N itCntr : Nat) (q : qpData_t α) :
    SameIterationData q (solve_savePrevIeqStatus N itCntr q) := by
  unfold solve_savePrevIeqStatus
  split_ifs
  · exact ⟨rfl, rfl⟩
  · refine forUp_invariant _ (fun (s : qpData_t α) => SameIterationData q s)
      (fun kk s hs => ?_) _ _ _ ⟨rfl, rfl⟩
    refine forUp_invariant _ (fun (s : qpData_t α) => SameIterationData q s)
      (fun ii s2 hs2 => ?_) _ _ _ hs
    exact hs2

omit [LinearOrderedField α] in
theorem compareActSets_numIter (N : Nat) (qp : qpData_t α) (t1 t2 : Nat → Nat → Int) :
    SameIterationData qp (qpDUNES_compareActSets N qp t1 t2).2.1 := by
  unfold qpDUNES_compareActSets
  refine forUp_invariant _ (fun (s : Nat × qpData_t α × Int) => SameIterationData qp s.2.1)
    ?_ _ _ _ ⟨rfl, rfl⟩
  intro kk s hs
  refine forUp_invariant _ (fun (s : Nat × qpData_t α × Int) => SameIterationData qp s.2.1)
    ?_ _ _ _ ?_
  · intro ii s2 hs2
    dsimp only
    split_ifs
    · exact hs2
    · exact hs2
  · exact hs

/-- The active set update leaves the iteration counter and the options. -/
theorem solve_updateActSet_numIter (N : Nat) (qp : qpData_t α) :
    SameIterationData qp (solve_updateActSet N qp).1 := by
  have h1 : SameIterationData qp (solve_getActSet N qp) := ⟨rfl, rfl⟩
  have h2 := compareActSets_numIter N (solve_getActSet N qp)
    ((solve_getActSet N qp).log.ieqTables ((solve_getActSet N qp).log.itLog 0).ieqStatus)
    ((solve_getActSet N qp).log.ieqTables ((solve_getActSet N qp).log.itLog 0).prevIeqStatus)
  exact SameIterationData_trans h1 h2

/-- The end of a pass (dual_qp.c 167-188) leaves the iteration counter and the options. -/
theorem solve_passEnd_numIter (sqrt_f : α → α) (N nX itCntr : Nat) (q : qpData_t α) (obj : α) :
    SameIterationData q (qpDUNES_logIteration sqrt_f N nX
      (solve_updateActSet N (solve_savePrevIeqStatus N itCntr q)).1 obj
      (solve_updateActSet N (solve_savePrevIeqStatus N itCntr q)).2) := by
  have h1 := solve_savePrevIeqStatus_numIter N itCntr q
  have h2 := solve_updateActSet_numIter N (solve_savePrevIeqStatus N itCntr q)
  exact SameIterationData_trans h1 h2

/-- The start of `qpDUNES_solve` (dual_qp.c 43-82) sets the iteration counter to 0 and
leaves the options, whether it goes on to the iteration loop or returns. -/
theorem solve_start_numIter (ext : collaborators_t α) (N : Nat) (qp : qpData_t α) :
    (∀ s, solve_start ext N qp = Except.ok s →
      s.1.log.numIter = 0 ∧ s.1.options = qp.options) ∧
    (∀ e, solve_start ext N qp = Except.error (some e) →
      e.2.log.numIter = 0 ∧ e.2.options = qp.options) := by
  unfold solve_start
  dsimp only
  have hl : ∀ (q0 : qpData_t α), q0.log.numIter = 0 ∧ q0.options = qp.options →
      (forUp (fun ii (s : return_t × qpData_t α) =>
        ((ext.directQpSolver_doStep s.2 ii 1).1,
          s.2.setInterval ii (ext.directQpSolver_doStep s.2 ii 1).2)) 0 (N + 1)
        (return_t.QPDUNES_OK, q0)).2.log.numIter = 0 ∧
      (forUp (fun ii (s : return_t × qpData_t α) =>
        ((ext.directQpSolver_doStep s.2 ii 1).1,
          s.2.setInterval ii (ext.directQpSolver_doStep s.2 ii 1).2)) 0 (N + 1)
        (return_t.QPDUNES_OK, q0)).2.options = qp.options := by
    intro q0 h0
    exact forUp_invariant _
      (fun (s : return_t × qpData_t α) => s.2.log.numIter = 0 ∧ s.2.options = qp.options)
      (fun i s hs => by exact hs) _ _ _ h0
  have h1 := hl _ (⟨rfl, rfl⟩ : (({ qp with log := { qp.log with numIter := 0 } } :
    qpData_t α).setItLog { ({ qp with log := { qp.log with numIter := 0 } } :
      qpData_t α).log.itLog 0 with itNbr := 0 }).log.numIter = 0 ∧ _ = qp.options)
  split
  · exact ⟨fun s h => by simp at h, fun e h => by simp at h⟩
  · rename_i o ho
    have h2 := SameIterationData_of_stages (computeObjectiveValue_frame N _ o ho)
    have h3 : o.2.log.numIter = 0 ∧ o.2.options = qp.options :=
      ⟨h2.1.trans h1.1, h2.2.trans h1.2⟩
    split_ifs
    · refine ⟨fun s h => by simp at h, fun e h => ?_⟩
      simp only [Except.error.injEq, Option.some.injEq] at h
      rw [← h]
      exact h3
    · refine ⟨fun s h => ?_, fun e h => by simp at h⟩
      simp only [Except.ok.injEq] at h
      rw [← h]
      have h4 := solve_updateActSet_numIter N o.2
      exact ⟨h4.1.trans h3.1, h4.2.trans h3.2⟩

/-- The Newton direction leaves the iteration counter and the options, whether it goes on
or returns. -/
theorem solve_newtonDirection_numIter (sqrt_f : α → α) (ext : collaborators_t α)
    (N nX nZ : Nat) (q : qpData_t α) (idx : Int) :
    (∀ q1, solve_newtonDirection sqrt_f ext N nX nZ q idx = Except.ok q1 →
      SameIterationData q q1) ∧
    (∀ e, solve_newtonDirection sqrt_f ext N nX nZ q idx = Except.error (some e) →
      SameIterationData q e.2) := by
  unfold solve_newtonDirection
  cases hsn : qpDUNES_setupNewtonSystem sqrt_f ext N nX nZ q with
  | none => exact ⟨fun s h => by simp at h, fun e h => by simp at h⟩
  | some p =>
    obtain ⟨st, q1⟩ := p
    have hf := setupNewtonSystem_frame sqrt_f ext N nX nZ q q1 st hsn
    have h1 : SameIterationData q q1 := ⟨by rw [hf.2.2.2.2.2.1], hf.1⟩
    have h2 : ∀ (flag : Bool) (i : Int) (e : itLog_t α),
        SameIterationData q
          ((qpDUNES_factorNewtonSystem sqrt_f N nX q1 flag i).2.1.setItLog e) := by
      intro flag i e
      have hq := factorNewtonSystem_frame sqrt_f N nX q1 flag i
      have hlog := congrArg (fun (x : qpData_t α) => x.log.numIter) hq
      have hopt := congrArg (fun (x : qpData_t α) => x.options) hq
      exact ⟨(show _ = q1.log.numIter from hlog).trans h1.1,
        (show _ = q1.options from hopt).trans h1.2⟩
    cases st <;> dsimp only <;>
      (try exact ⟨fun s h => by simp at h, fun e h => by
        simp only [Except.error.injEq, Option.some.injEq] at h
        rw [← h]
        exact h1⟩)
    refine ⟨fun s h => ?_, fun e h => ?_⟩
    · split at h
      · split at h
        · split_ifs at h
          simp only [Except.ok.injEq] at h
          rw [← h]
          exact h2 _ _ _
        · split_ifs at h
          simp only [Except.ok.injEq] at h
          rw [← h]
          exact h2 _ _ _
        · simp at h
      · simp at h
    · split at h
      · split at h
        · split_ifs at h
          simp only [Except.error.injEq, Option.some.injEq] at h
          rw [← h]
          exact h2 _ _ _
        · split_ifs at h
          simp only [Except.error.injEq, Option.some.injEq] at h
          rw [← h]
          exact h2 _ _ _
        · simp only [Except.error.injEq, Option.some.injEq] at h
          rw [← h]
          exact h2 _ _ _
      · simp only [Except.error.injEq, Option.some.injEq] at h
        rw [← h]
        exact h2 _ _ _

/-- The step direction of a pass leaves the iteration counter and the options. -/
theorem solve_direction_numIter (sqrt_f : α → α) (ext : collaborators_t α)
    (N nX nZ : Nat) (itCntr : Nat) (q : qpData_t α) (idx : Int) :
    (∀ q1, solve_direction sqrt_f ext N nX nZ itCntr q idx = Except.ok q1 →
      SameIterationData q q1) ∧
    (∀ e, solve_direction sqrt_f ext N nX nZ itCntr q idx = Except.error (some e) →
      SameIterationData q e.2) := by
  unfold solve_direction
  split_ifs
  · refine ⟨fun s h => ?_, fun e h => by simp at h⟩
    simp only [Except.ok.injEq] at h
    rw [← h]
    exact ⟨rfl, rfl⟩
  · exact solve_newtonDirection_numIter sqrt_f ext N nX nZ q idx

/-- The rest of a pass leaves the iteration counter and the options, whether the pass
goes through or returns. -/
theorem solve_iterationTail_numIter (sqrt_f : α → α) (ext : collaborators_t α)
    (N nX nZ : Nat) (itCntr : Nat) (obj : α) (q : qpData_t α) :
    (∀ s1, solve_iterationTail sqrt_f ext N nX nZ itCntr obj q = Except.ok s1 →
      SameIterationData q s1.1) ∧
    (∀ e, solve_iterationTail sqrt_f ext N nX nZ itCntr obj q = Except.error (some e) →
      SameIterationData q e.2) := by
  unfold solve_iterationTail
  cases hloc : qpDUNES_solveAllLocalQPs ext N nX q q.deltaLambda with
  | none => exact ⟨fun s h => by simp at h, fun e h => by simp at h⟩
  | some a =>
    dsimp only
    have h1 := solveAllLocalQPs_numIter ext N nX q q.deltaLambda a hloc
    cases hdet : qpDUNES_determineStepLength sqrt_f ext N nX nZ a.2 obj
        (a.2.log.itLog 0).isHessianRegularized with
    | none => exact ⟨fun s h => by simp at h, fun e h => by simp at h⟩
    | some d =>
      dsimp only
      have h2 := SameIterationData_trans h1
        (determineStepLength_numIter sqrt_f ext N nX nZ a.2 obj _ d hdet)
      have h3 := SameIterationData_trans h2 (solve_passEnd_numIter sqrt_f N nX itCntr d.2.1 d.2.2)
      obtain ⟨st, qd, o⟩ := d
      cases st <;> dsimp only <;>
        first
        | exact ⟨fun s h => by simp at h, fun e h => by
            simp only [Except.error.injEq, Option.some.injEq] at h
            rw [← h]
            exact h2⟩
        | exact ⟨fun s h => by
            simp only [Except.ok.injEq] at h
            rw [← h]
            exact h3, fun e h => by simp at h⟩

/-- A pass of the iteration loop with `*itCntr = itCntr` has `log.numIter = itCntr` and the
options it started with, whether it goes through or returns. -/
theorem solve_iteration_numIter (sqrt_f : α → α) (ext : collaborators_t α)
    (N nX nZ : Nat) (itCntr : Nat) (s : qpData_t α × Int × α) :
    (∀ s1, solve_iteration sqrt_f ext N nX nZ itCntr s = Except.ok s1 →
      s1.1.log.numIter = (itCntr : Int) ∧ s1.1.options = s.1.options) ∧
    (∀ e, solve_iteration sqrt_f ext N nX nZ itCntr s = Except.error (some e) →
      e.2.log.numIter = (itCntr : Int) ∧ e.2.options = s.1.options) := by
  rw [solve_iteration_eq]
  have hd := solve_direction_numIter sqrt_f ext N nX nZ itCntr (solve_iterationHead itCntr s.1)
    s.2.1
  cases hdir : solve_direction sqrt_f ext N nX nZ itCntr (solve_iterationHead itCntr s.1)
      s.2.1 with
  | error e0 =>
    dsimp only
    refine ⟨fun s1 h => by simp at h, fun e h => ?_⟩
    simp only [Except.error.injEq] at h
    rw [h] at hdir
    exact hd.2 e hdir
  | ok qd =>
    dsimp only
    have h1 : SameIterationData (solve_iterationHead itCntr s.1) qd := hd.1 qd hdir
    have ht := solve_iterationTail_numIter sqrt_f ext N nX nZ itCntr s.2.2 qd
    refine ⟨fun s1 h => ?_, fun e h => ?_⟩
    · exact SameIterationData_trans h1 (ht.1 s1 h)
    · exact SameIterationData_trans h1 (ht.2 e h)

omit [LinearOrderedField α] in
/-- A loop all of whose passes went through has completed all of them. -/
theorem completedPasses_ok {σ ε : Type} (body : Nat → σ → Except ε σ) (lo n : Nat) (s s1 : σ)
    (h : forUpM body lo n s = Except.ok s1) : completedPasses body lo n s = n := by
  cases n with
  | zero => rfl
  | succ n =>
    simp only [completedPasses]
    rw [h]

omit [LinearOrderedField α] in
/-- A loop left in pass `lo + j` has completed `j` passes. -/
theorem completedPasses_exit {σ ε : Type} (body : Nat → σ → Except ε σ) (lo n j : Nat)
    (s0 s : σ) (e : ε) (hj : j < n) (hpre : forUpM body lo j s0 = Except.ok s)
    (hb : body (lo + j) s = Except.error e) : completedPasses body lo n s0 = j := by
  induction n with
  | zero => omega
  | succ n ih =>
    simp only [completedPasses]
    rw [forUpM_exit body lo (n + 1) j s0 s e hj hpre hb]
    dsimp only
    by_cases c : j = n
    · subst c
      exact completedPasses_ok body lo j s0 s hpre
    · exact ih (by omega)

omit [LinearOrderedField α] in
/-- A loop that was left was left in some pass, after the passes before it went through. -/
theorem forUpM_error_split {σ ε : Type} (body : Nat → σ → Except ε σ) (lo n : Nat) (s0 : σ)
    (e : ε) (h : forUpM body lo n s0 = Except.error e) :
    ∃ j s, j < n ∧ forUpM body lo j s0 = Except.ok s ∧ body (lo + j) s = Except.error e := by
  induction n with
  | zero => simp [forUpM] at h
  | succ n ih =>
    simp only [forUpM] at h
    cases hm : forUpM body lo n s0 with
    | ok s =>
      rw [hm] at h
      exact ⟨n, s, by omega, hm, h⟩
    | error e1 =>
      rw [hm] at h
      simp only [Except.error.injEq] at h
      subst h
      obtain ⟨j, s, hj, h1, h2⟩ := ih hm
      exact ⟨j, s, by omega, h1, h2⟩

/-- The passes of the iteration loop leave the options. -/
theorem solve_passes_options (sqrt_f : α → α) (ext : collaborators_t α) (N nX nZ : Nat)
    (n : Nat) (s0 s : qpData_t α × Int × α)
    (h : forUpM (solve_iteration sqrt_f ext N nX nZ) 1 n s0 = Except.ok s) :
    s.1.options = s0.1.options :=
  (forUpM_invariant (solve_iteration sqrt_f ext N nX nZ)
    (fun (s : qpData_t α × Int × α) => s.1.options = s0.1.options)
    (fun (_ : Option (return_t × qpData_t α)) => True) 1 n
    (fun i s s1 hP hb => ((solve_iteration_numIter sqrt_f ext N nX nZ i s).1 s1 hb).2.trans hP)
    (fun _ _ _ _ _ => trivial) s0 rfl).1 s h

/-- The iteration counter at the return of a run of `qpDUNES_solve`: 0 when the run
returns before the iteration loop; the number of completed passes plus one when it returns
in a pass; and `maxIter`, with the status ITERATION_LIMIT_REACHED, when all passes went
through. -/
theorem solve_numIter (sqrt_f : α → α) (ext : collaborators_t α) (N nX nZ : Nat)
    (qp : qpData_t α) (r : return_t × qpData_t α)
    (h : qpDUNES_solve sqrt_f ext N nX nZ qp = some r) :
    (∀ e, solve_start ext N qp = Except.error e → r.2.log.numIter = 0) ∧
    (∀ s0, solve_start ext N qp = Except.ok s0 →
      solve_completedIterations sqrt_f ext N nX nZ qp ≤ qp.options.maxIter.toNat ∧
      (solve_completedIterations sqrt_f ext N nX nZ qp < qp.options.maxIter.toNat →
        r.2.log.numIter = (solve_completedIterations sqrt_f ext N nX nZ qp : Int) + 1) ∧
      (solve_completedIterations sqrt_f ext N nX nZ qp = qp.options.maxIter.toNat →
        r.1 = return_t.QPDUNES_ERR_ITERATION_LIMIT_REACHED ∧
        r.2.log.numIter = qp.options.maxIter)) := by
  have hst := solve_start_numIter ext N qp
  unfold qpDUNES_solve at h
  unfold solve_completedIterations
  cases hs : solve_start ext N qp with
  | error e =>
    rw [hs] at h
    dsimp only at h
    subst h
    exact ⟨fun _ _ => (hst.2 r hs).1, fun s0 h0 => by simp at h0⟩
  | ok s0 =>
    rw [hs] at h
    dsimp only at h ⊢
    have ho : s0.1.options = qp.options := (hst.1 s0 hs).2
    refine ⟨fun e h0 => by simp at h0, fun s1 h1 => ?_⟩
    rw [ho] at h ⊢
    cases hl : forUpM (solve_iteration sqrt_f ext N nX nZ) 1 qp.options.maxIter.toNat s0 with
    | ok s =>
      rw [hl] at h
      simp only [Option.some.injEq] at h
      rw [completedPasses_ok _ 1 _ s0 s hl]
      refine ⟨le_refl _, fun c => absurd c (lt_irrefl _), fun _ => ?_⟩
      rw [← h]
      refine ⟨rfl, ?_⟩
      show s.1.options.maxIter = qp.options.maxIter
      rw [solve_passes_options sqrt_f ext N nX nZ _ s0 s hl, ho]
    | error e =>
      rw [hl] at h
      dsimp only at h
      subst h
      obtain ⟨j, s, hj, hpre, hb⟩ := forUpM_error_split _ 1 _ s0 _ hl
      rw [completedPasses_exit _ 1 _ j s0 s _ hj hpre hb]
      refine ⟨by omega, fun _ => ?_, fun c => absurd c (by omega)⟩
      rw [((solve_iteration_numIter sqrt_f ext N nX nZ (1 + j) s).2 r hb).1]
      push_cast
      ring

/-- The run of `qpDUNES_solve` on the third example returns in its first pass: the start
goes through, and pass 1 returns the optimality status from the assembly. -/
theorem exSolve3_firstPass : ∃ s, solve_start (exExt ℝ) 1 (exQp ℝ (exStages3 ℝ)) = Except.ok s ∧
    0 < s.1.options.maxIter.toNat ∧
    solve_iteration Real.sqrt (exExt ℝ) 1 1 2 1 s =
      Except.error (some (return_t.QPDUNES_SUCC_OPTIMAL_SOLUTION_FOUND,
        setupNewtonSystem_gradient 1 1 2 (solve_iterationHead 1 s.1))) := by
  have hH : ∀ k, ((exQp ℝ (exStages3 ℝ)).intervals k).H.sparsityType =
      sparsityType_t.QPDUNES_DIAGONAL := by
    intro k
    obtain ⟨a, b, c, d, e⟩ := exStages3_form k
    have e1 : (exQp ℝ (exStages3 ℝ)).intervals k = exStage ℝ a b c d := e
    rw [e1]
    rfl
  obtain ⟨s, hs, hc⟩ := solve_start_exExt 1 (exQp ℝ (exStages3 ℝ)) hH
  have hc2 := hc.trans (solve_iterationHead_sameCoupling 1 s.1)
  refine ⟨s, hs, ?_, (solve_iteration_optimal Real.sqrt (exExt ℝ) 1 1 2 1 s _).mpr
    ⟨fun h => absurd h.1 (by simp), rfl, ?_⟩⟩
  · rw [hc.1]
    simp [exQp, exOpt]
  · rw [hc2.1]
    unfold vectorNorm
    rw [scalarProd_eq_sum]
    simp only [Nat.mul_one, Finset.sum_range_one]
    have e := gradient_entry_sameCoupling 1 1 2 _ _ hc2 0 0 (by decide) (by decide)
    simp only [Nat.zero_mul, Nat.zero_add] at e
    rw [e]
    have e3 : (setupNewtonSystem_gradient 1 1 2 (exQp ℝ (exStages3 ℝ))).gradient.data 0 = 0 :=
      exGradient3 _ _
    rw [e3]
    simp [exQp, exOpt]

end NumIterFrame

/-! ## A run whose first step changes the active set -/

section StaleHessian

variable {α : Type} [LinearOrderedField α]

/-- The initial stage steps of `qpDUNES_solve` (dual_qp.c 57-70) with a stage solver whose
step leaves the stages of the state `q0` as they are: the state stays `q0`. -/
theorem solve_startLoop_keeps (ext : collaborators_t α) (q0 : qpData_t α)
    (hkeep : ∀ k, (ext.directQpSolver_doStep q0 k 1).2 = q0.intervals k) (n : Nat) :
    (forUp (fun ii (s : return_t × qpData_t α) =>
      ((ext.directQpSolver_doStep s.2 ii 1).1,
        s.2.setInterval ii (ext.directQpSolver_doStep s.2 ii 1).2)) 0 n
      (return_t.QPDUNES_OK, q0)).2 = q0 := by
  induction n with
  | zero => rfl
  | succ n ih =>
    simp only [forUp]
    rw [ih, hkeep, setInterval_self]

/-- The start of `qpDUNES_solve` with a stage solver whose step leaves the stages of the
state at the start as they are and reports QPDUNES_OK for the last stage: the start goes
through to the iteration loop, writes only the log, the objective values and the change
flags of the stages, and the incumbent is the objective value of the stages. -/
theorem solve_start_keepsStages_at (ext : collaborators_t α) (N : Nat) (qp : qpData_t α)
    (hkeep : ∀ k, (ext.directQpSolver_doStep
      (({ qp with log := { qp.log with numIter := 0 } } : qpData_t α).setItLog
        { ({ qp with log := { qp.log with numIter := 0 } } : qpData_t α).log.itLog 0 with
          itNbr := 0 }) k 1).2 = qp.intervals k)
    (hlast : (ext.directQpSolver_doStep
      (({ qp with log := { qp.log with numIter := 0 } } : qpData_t α).setItLog
        { ({ qp with log := { qp.log with numIter := 0 } } : qpData_t α).log.itLog 0 with
          itNbr := 0 }) N 1).1 = return_t.QPDUNES_OK)
    (hH : ∀ k, (qp.intervals k).H.sparsityType = sparsityType_t.QPDUNES_DIAGONAL) :
    ∃ s o, solve_start ext N qp = Except.ok s ∧ SameButStart qp s.1 ∧
      qpDUNES_computeObjectiveValue N
        (({ qp with log := { qp.log with numIter := 0 } } : qpData_t α).setItLog
          { ({ qp with log := { qp.log with numIter := 0 } } : qpData_t α).log.itLog 0 with
            itNbr := 0 }) = some o ∧
      s.2.2 = o.1 ∧ s.2.1 = (solve_updateActSet N o.2).2 := by
  have hloop := solve_startLoop_keeps ext
    (({ qp with log := { qp.log with numIter := 0 } } : qpData_t α).setItLog
      { ({ qp with log := { qp.log with numIter := 0 } } : qpData_t α).log.itLog 0 with
        itNbr := 0 }) hkeep
  have hstat : (forUp (fun ii (s : return_t × qpData_t α) =>
        ((ext.directQpSolver_doStep s.2 ii 1).1,
          s.2.setInterval ii (ext.directQpSolver_doStep s.2 ii 1).2)) 0 (N + 1)
        (return_t.QPDUNES_OK,
          (({ qp with log := { qp.log with numIter := 0 } } : qpData_t α).setItLog
            { ({ qp with log := { qp.log with numIter := 0 } } : qpData_t α).log.itLog 0 with
              itNbr := 0 }))).1 = return_t.QPDUNES_OK := by
    simp only [forUp, Nat.zero_add]
    rw [hloop N]
    exact hlast
  unfold solve_start
  dsimp only
  rw [hloop (N + 1), hstat]
  obtain ⟨o, ho, _⟩ := computeObjectiveValue_total N
    (({ qp with log := { qp.log with numIter := 0 } } : qpData_t α).setItLog
      { ({ qp with log := { qp.log with numIter := 0 } } : qpData_t α).log.itLog 0 with
        itNbr := 0 }) hH
  have hs := computeObjectiveValue_sameButStart N _ o ho
  rw [ho]
  dsimp only
  rw [if_neg (by simp)]
  refine ⟨_, o, rfl, ?_, rfl, rfl, rfl⟩
  exact SameButStart_trans (SameButStart_trans (by exact SameButStart_of_eq _ _ rfl) hs)
    (solve_updateActSet_sameButStart N o.2)

/-- The factorization driver on a `1 x 1` system with the forward factorization whose entry
and its root are not below the regularization tolerance leaves the stored Hessian. -/
theorem factorNewtonSystem_single_hessian (sqrt_f : α → α) (qp : qpData_t α) (flag : Bool)
    (idx : Int)
    (halg : qp.options.nwtnHssnFacAlg = nwtnHssnFacAlg_t.QPDUNES_NH_FAC_BAND_FORWARD)
    (hp : ¬ qp.hessian (0, 0, 0, 0) < qp.options.newtonHessDiagRegTolerance)
    (hs : ¬ sqrt_f (qp.hessian (0, 0, 0, 0)) < qp.options.newtonHessDiagRegTolerance)
    (hI : ¬ qp.options.QPDUNES_INFTY < qp.options.newtonHessDiagRegTolerance) :
    (qpDUNES_factorNewtonSystem sqrt_f 1 1 qp flag idx).2.1.hessian = qp.hessian := by
  have hfac : factorNewtonSystem_factorize sqrt_f 1 1 qp idx flag =
      some (return_t.QPDUNES_OK,
        ⟨setAcc qp.cholHessian 0 0 0 0 (sqrt_f (qp.hessian (0, 0, 0, 0))), flag⟩) := by
    unfold factorNewtonSystem_factorize
    rw [halg]
    simp only [qpDUNES_factorizeNewtonHessian, forUpM, factorizeNewtonHessian_column,
      factorizeNewtonHessian_pivot, forUp, Nat.zero_add, lt_self_iff_false, if_false,
      gt_iff_lt, hp, and_false, factorizeNewtonHessian_writeColumn, Nat.sub_self,
      Nat.lt_irrefl]
  have hmin : ∀ c : xn2x_matrix_t α, factorNewtonSystem_minDiagElem 1 1
      ({ qp with cholHessian := c } : qpData_t α) return_t.QPDUNES_OK =
      if qp.options.QPDUNES_INFTY > c (0, 0, 0, 0) then c (0, 0, 0, 0)
      else qp.options.QPDUNES_INFTY := by
    intro c
    simp [-Prod.mk_zero_zero, factorNewtonSystem_minDiagElem, forUp]
  have htrig : ∀ c : xn2x_matrix_t α, c (0, 0, 0, 0) = sqrt_f (qp.hessian (0, 0, 0, 0)) →
      ¬ (return_t.QPDUNES_OK = return_t.QPDUNES_ERR_DIVISION_BY_ZERO ∨
        factorNewtonSystem_minDiagElem 1 1 ({ qp with cholHessian := c } : qpData_t α)
          return_t.QPDUNES_OK < qp.options.newtonHessDiagRegTolerance) := by
    intro c hc
    rw [hmin, hc]
    rintro (h | h)
    · cases h
    · split_ifs at h
      · exact hs h
      · exact hI h
  unfold qpDUNES_factorNewtonSystem
  rw [hfac]
  dsimp only
  rw [if_neg (htrig _ (Function.update_same _ _ _)), if_neg (by simp)]

end StaleHessian

section StaleHessianExample

/-- The step direction of the first pass of the example run from a start that wrote only
the log, the objective values and the change flags: the assembly finds the gradient `2`
and the Newton Hessian `3/4`, the factorization goes through without regularization and
leaves the stored Hessian, and the Newton direction is `deltaLambda = 2 / (3/4) = 8/3`. -/
theorem exRun_direction_from (ext : collaborators_t ℝ) (hmd : MakesDense ext 1)
    (ls : lsType_t) (mi : Int) (ml : Nat) (rf : ℝ) (lg : logLevel_t)
    (s0 : qpData_t ℝ × Int × ℝ)
    (hf : SameButStart (exQpRun ℝ (exOptRun ℝ ls mi ml rf lg)) s0.1) :
    ∃ qd, solve_direction Real.sqrt ext 1 1 2 1 (solve_iterationHead 1 s0.1) s0.2.1 =
        Except.ok qd ∧
      qd.hessian (0, 0, 0, 0) = 3 / 4 ∧
      qd.intervals = (solve_iterationHead 1 s0.1).intervals ∧
      qd.options = exOptRun ℝ ls mi ml rf lg ∧
      qd.lambda = (exQpRun ℝ (exOptRun ℝ ls mi ml rf lg)).lambda ∧
      qd.deltaLambda.data 0 = 8 / 3 ∧
      (qd.log.itLog 0).isHessianRegularized = false ∧
      ∀ k, (qd.intervals k).qpSolverSpecification =
          qp_solver_t.QPDUNES_STAGE_QP_SOLVER_CLIPPING ∧
        (qd.intervals k).H.sparsityType = sparsityType_t.QPDUNES_DIAGONAL := by
  have hfh : SameButStart (exQpRun ℝ (exOptRun ℝ ls mi ml rf lg)) (solve_iterationHead 1 s0.1) :=
    SameButStart_trans hf (solve_iterationHead_sameButStart 1 s0.1)
  have hopt0 : s0.1.options = exOptRun ℝ ls mi ml rf lg := congrArg (fun w => w.options) hf.1
  have hopt : (solve_iterationHead 1 s0.1).options = exOptRun ℝ ls mi ml rf lg :=
    congrArg (fun w => w.options) hfh.1
  have hhes : (solve_iterationHead 1 s0.1).hessian =
      (exQpRun ℝ (exOptRun ℝ ls mi ml rf lg)).hessian := congrArg (fun w => w.hessian) hfh.1
  have hlam : (solve_iterationHead 1 s0.1).lambda =
      (exQpRun ℝ (exOptRun ℝ ls mi ml rf lg)).lambda := congrArg (fun w => w.lambda) hfh.1
  have hgr : (setupNewtonSystem_gradient 1 1 2 (solve_iterationHead 1 s0.1)).gradient.data
      (0 * 1 + 0) = 2 := by
    rw [gradient_entry_sameCoupling 1 1 2 _ _ (SameButStart_coupling hfh) 0 0 (by decide)
      (by decide)]
    exact exRun_gradient _
  obtain ⟨q1, h1, hv⟩ := setupNewtonSystem_returns Real.sqrt ext 1 1 2
    (solve_iterationHead 1 s0.1) hmd (SameButStart_guards hfh 1 1 2 (exRun_guards _ rfl))
  have hnorm : vectorNorm Real.sqrt
      (setupNewtonSystem_gradient 1 1 2 (solve_iterationHead 1 s0.1)).gradient (1 * 1) = 2 := by
    unfold vectorNorm
    rw [scalarProd_eq_sum]
    simp only [Nat.mul_one, Finset.sum_range_one]
    have e : (setupNewtonSystem_gradient 1 1 2 (solve_iterationHead 1 s0.1)).gradient.data 0 =
        2 := hgr
    rw [e]
    have : (2 : ℝ) * 2 = 4 := by norm_num
    rw [this, sqrt_four]
  rw [hnorm] at h1 hv
  have hn : ¬ (2 : ℝ) < (solve_iterationHead 1 s0.1).options.stationarityTolerance := by
    rw [hopt]
    norm_num [exOptRun, exOpt]
  rw [if_neg hn] at h1
  obtain ⟨o1, i1, l1, d1, _, g1, gr1⟩ := setupNewtonSystem_frame Real.sqrt ext 1 1 2
    (solve_iterationHead 1 s0.1) q1 _ h1
  have ho1 : q1.options = exOptRun ℝ ls mi ml rf lg := o1.trans hopt
  have hM : q1.hessian (0, 0, 0, 0) = 3 / 4 := by
    by_cases hc : diagChanged (solve_iterationHead 1 s0.1) 0
    · rw [hv hn 0 (by decide) hc 0 0 (by decide) (by decide), SameButStart_diagEntry hfh 2 0 0 0]
      exact exRun_assembled _ rfl
    · have hnr : ¬ Recomputed 1 1 (solve_iterationHead 1 s0.1) 0 0 0 0 := by
        intro h
        rcases h.1 with ⟨_, _, c⟩ | ⟨c, _⟩
        · exact hc c
        · exact absurd c (by decide)
      rw [(setupNewtonSystem_policy Real.sqrt ext 1 1 2 _ q1 h1).1 0 0 0 0 hnr, hhes]
      rfl
  obtain ⟨r1, r2, r3⟩ := sqrt_three_quarters
  obtain ⟨f1, f2, f3⟩ := factorNewtonSystem_single_ok Real.sqrt q1
    (q1.log.itLog 0).isHessianRegularized s0.2.1 (by rw [ho1]; rfl)
    (by rw [hM, ho1]; norm_num [exOptRun, exOpt])
    (by
      rw [hM, ho1]
      have e : (exOptRun ℝ ls mi ml rf lg).newtonHessDiagRegTolerance = 1 / 10000000000 := rfl
      rw [e]
      exact not_lt.mpr (le_of_lt r2))
    (by rw [ho1]; norm_num [exOptRun, exOpt])
  have fh := factorNewtonSystem_single_hessian Real.sqrt q1
    (q1.log.itLog 0).isHessianRegularized s0.2.1 (by rw [ho1]; rfl)
    (by rw [hM, ho1]; norm_num [exOptRun, exOpt])
    (by
      rw [hM, ho1]
      have e : (exOptRun ℝ ls mi ml rf lg).newtonHessDiagRegTolerance = 1 / 10000000000 := rfl
      rw [e]
      exact not_lt.mpr (le_of_lt r2))
    (by rw [ho1]; norm_num [exOptRun, exOpt])
  obtain ⟨qd, hd, k1, k2, k3, k4, k5⟩ := solve_newtonDirection_ok Real.sqrt ext 1 1 2
    (solve_iterationHead 1 s0.1) s0.2.1 q1 h1 (by rw [ho1]; rfl) f1
  have hchol : qd.cholHessian (0, 0, 0, 0) = Real.sqrt (3 / 4) := by
    rw [k3, f2, hM]
  refine ⟨qd, ?_, ?_, ?_, ?_, ?_, ?_, ?_, fun k => ?_⟩
  · rw [solve_direction_newton Real.sqrt ext 1 1 2 1 _ _ (Or.inl rfl)]
    exact hd
  · rw [k2, fh]
    exact hM
  · exact (congrArg (fun w => w.intervals) k1).trans i1
  · exact (congrArg (fun w => w.options) k1).trans ho1
  · exact (congrArg (fun w => w.lambda) k1).trans (l1.trans hlam)
  · rw [k4, solveNewtonEquation_single _ _ _ _ (by
      rw [hchol, ho1]
      have e : (exOptRun ℝ ls mi ml rf lg).QPDUNES_INFTY = 1000000000000 := rfl
      rw [e]
      exact not_lt.mpr (le_trans r3 (by norm_num))), hchol, gr1]
    have e : (setupNewtonSystem_gradient 1 1 2 (solve_iterationHead 1 s0.1)).gradient.data 0 =
        2 := hgr
    rw [e, div_div, r1]
    norm_num
  · rw [k5]
    simp only [Function.update_same]
    rw [f3, g1]
    simp [solve_iterationHead, qpData_t.setItLog]
  · have e : qd.intervals = (solve_iterationHead 1 s0.1).intervals :=
      (congrArg (fun w => w.intervals) k1).trans i1
    rw [e]
    have e1 := hfh.2 k
    have e2 : ((solve_iterationHead 1 s0.1).intervals k).qpSolverSpecification =
        ((exQpRun ℝ (exOptRun ℝ ls mi ml rf lg)).intervals k).qpSolverSpecification :=
      congrArg (fun w => w.qpSolverSpecification) e1
    have e3 : ((solve_iterationHead 1 s0.1).intervals k).H =
        ((exQpRun ℝ (exOptRun ℝ ls mi ml rf lg)).intervals k).H :=
      congrArg (fun w => w.H) e1
    rw [e2, e3]
    exact exRun_stages _ k

/-- The start of the example run with the stage solver `exExtAct`: `lambda[0]` is 0, so
the initial steps leave the stages; the start goes through with the incumbent 33 and
writes only the log, the objective values and the change flags of the stages. -/
theorem exAct_start :
    ∃ s0, solve_start (exExtAct ℝ) 1 (exQpRun ℝ (exOptAct ℝ)) = Except.ok s0 ∧
      SameButStart (exQpRun ℝ (exOptAct ℝ)) s0.1 ∧ s0.2.2 = 33 := by
  obtain ⟨s0, o, hs, hf, ho, hobj, _⟩ := solve_start_keepsStages_at (exExtAct ℝ) 1
    (exQpRun ℝ (exOptAct ℝ)) (fun k => by simp [exExtAct, exQpRun, exQp, exVec, qpData_t.setItLog])
    rfl (fun k => (exRun_stages _ k).2)
  obtain ⟨o2, ho2, hv2⟩ := exRun_objective
    (({ exQpRun ℝ (exOptAct ℝ) with
        log := { (exQpRun ℝ (exOptAct ℝ)).log with numIter := 0 } } :
      qpData_t ℝ).setItLog
      { ({ exQpRun ℝ (exOptAct ℝ) with
          log := { (exQpRun ℝ (exOptAct ℝ)).log with numIter := 0 } } :
        qpData_t ℝ).log.itLog 0 with itNbr := 0 }) rfl
  have hoo : o = o2 := by
    rw [ho] at ho2
    exact Option.some.inj ho2
  refine ⟨s0, hs, hf, ?_⟩
  rw [hobj, hoo]
  exact hv2

/-- The steps of the stages with the stage solver `exExtAct` over two clipping stages once
`lambda[0]` is not 0: both stages become the stages of `exStagesAct`. -/
theorem exAct_doSteps (qs : qpData_t ℝ) (hq : ClippingDiagonal qs)
    (hlam : qs.lambda.data 0 ≠ 0) :
    determineStepLength_doSteps (exExtAct ℝ) 1 qs =
      Except.ok ((qs.setInterval 0 (exStagesAct ℝ 0)).setInterval 1 (exStagesAct ℝ 1)) := by
  have h1 : ((qs.setInterval 0 (exStagesAct ℝ 0)).intervals 1).qpSolverSpecification =
      qp_solver_t.QPDUNES_STAGE_QP_SOLVER_CLIPPING := by
    rw [setInterval_intervals, if_neg (by decide)]
    exact (hq 1).1
  have hl : (qs.setInterval 0 (exStagesAct ℝ 0)).lambda.data 0 ≠ 0 := hlam
  have d0 : ∀ a, ((exExtAct ℝ).directQpSolver_doStep qs 0 a).2 = exStagesAct ℝ 0 := by
    intro a
    show (if qs.lambda.data 0 = 0 then qs.intervals 0 else exStagesAct ℝ 0) = _
    rw [if_neg hlam]
  have d1 : ∀ a, ((exExtAct ℝ).directQpSolver_doStep (qs.setInterval 0 (exStagesAct ℝ 0)) 1
      a).2 = exStagesAct ℝ 1 := by
    intro a
    show (if (qs.setInterval 0 (exStagesAct ℝ 0)).lambda.data 0 = 0 then
      (qs.setInterval 0 (exStagesAct ℝ 0)).intervals 1 else exStagesAct ℝ 1) = _
    rw [if_neg hl]
  unfold determineStepLength_doSteps
  simp only [forUpM, Nat.zero_add, (hq 0).1, d0, h1, d1]

/-- The first pass of the example run with the stage solver `exExtAct` and iteration
logging: the Newton direction is found without regularization on the assembled Hessian
`3/4`, the full step is taken, the stage solver puts the stages of `exStagesAct`, and the
pass goes through; after it the stored Hessian is still `3/4`, the stages are those of
`exStagesAct` but for the objective values and the change flags, and no stage is marked as
changed. -/
theorem exAct_pass1 :
    ∃ (s0 : qpData_t ℝ × Int × ℝ) (qd : qpData_t ℝ) (a : return_t × qpData_t ℝ)
      (o : ℝ × qpData_t ℝ) (s1 : qpData_t ℝ × Int × ℝ),
      solve_start (exExtAct ℝ) 1 (exQpRun ℝ (exOptAct ℝ)) = Except.ok s0 ∧
      solve_direction Real.sqrt (exExtAct ℝ) 1 1 2 1 (solve_iterationHead 1 s0.1) s0.2.1 =
        Except.ok qd ∧
      (qd.log.itLog 0).isHessianRegularized = false ∧
      qd.hessian (0, 0, 0, 0) = 3 / 4 ∧
      qpDUNES_solveAllLocalQPs (exExtAct ℝ) 1 1 qd qd.deltaLambda = some a ∧
      qpDUNES_determineStepLength Real.sqrt (exExtAct ℝ) 1 1 2 a.2 s0.2.2
        (a.2.log.itLog 0).isHessianRegularized = some (return_t.QPDUNES_OK, o.2, o.1) ∧
      solve_iteration Real.sqrt (exExtAct ℝ) 1 1 2 1 s0 = Except.ok s1 ∧
      s1.1.options = exOptAct ℝ ∧
      s1.1.hessian (0, 0, 0, 0) = 3 / 4 ∧
      (∀ k, k ≤ 1 → SameStageButFlags (exStagesAct ℝ k) (s1.1.intervals k)) ∧
      (∀ k, k ≤ 1 → (s1.1.intervals k).actSetHasChanged = false) := by
  obtain ⟨s0, hs, hf, _⟩ := exAct_start
  have hmd : MakesDense (exExtAct ℝ) 1 := exExt_makesDense ℝ 1
  obtain ⟨qd, hd, hM, _, hopt, hlam, hdl, hreg, htags⟩ := exRun_direction_from (exExtAct ℝ) hmd
    lsType_t.QPDUNES_LS_BACKTRACKING_LS 2 19 (1 / 10) logLevel_t.QPDUNES_LOG_ITERATIONS s0 hf
  obtain ⟨a, ha, a2, a3, _, _⟩ := solveAllLocalQPs_keeps (exExtAct ℝ) 1 1 qd qd.deltaLambda
    (fun _ => return_t.QPDUNES_OK) (fun _ _ => rfl) (fun _ _ => rfl) htags
  have ai : SameButIntervals qd a.2 := solveAllLocalQPs_intervals (exExtAct ℝ) 1 1 qd _ a ha
  have ahes : a.2.hessian = qd.hessian := SameButIntervals_hessian ai
  have aopt : a.2.options = exOptAct ℝ := a2.1.trans hopt
  have areg : (a.2.log.itLog 0).isHessianRegularized = false := by
    rw [a2.2.2.2.2]
    exact hreg
  have hamin : determineStepLength_alphaMin (exExtAct ℝ) 1 (a.2.setNumLineSearchIter 0) =
      1000000000000 := by
    have e : (a.2.setNumLineSearchIter 0).options.QPDUNES_INFTY = 1000000000000 := by
      show a.2.options.QPDUNES_INFTY = _
      rw [aopt]
      rfl
    have c0 : ((a.2.setNumLineSearchIter 0).intervals 0).qpSolverSpecification =
        qp_solver_t.QPDUNES_STAGE_QP_SOLVER_CLIPPING := (a3 0).1
    have c1 : ((a.2.setNumLineSearchIter 0).intervals 1).qpSolverSpecification =
        qp_solver_t.QPDUNES_STAGE_QP_SOLVER_CLIPPING := (a3 1).1
    simp [determineStepLength_alphaMin, forUp, c0, c1, exExtAct, exExt, e]
  have hc : determineStepLength_alphaMin (exExtAct ℝ) 1 (a.2.setNumLineSearchIter 0) >
      1 - (a.2.setNumLineSearchIter 0).options.equalityTolerance ∧
      (a.2.log.itLog 0).isHessianRegularized = false := by
    refine ⟨?_, areg⟩
    rw [hamin]
    show (1000000000000 : ℝ) > 1 - a.2.options.equalityTolerance
    rw [aopt]
    norm_num [exOptAct, exOptRun, exOpt]
  have hqs : ClippingDiagonal
      ({ ({ a.2.setNumLineSearchIter 0 with alpha := 1 } : qpData_t ℝ) with
        lambda := addVectorScaledVector (a.2.setNumLineSearchIter 0).lambda
          (a.2.setNumLineSearchIter 0).lambda 1 (a.2.setNumLineSearchIter 0).deltaLambda
          (1 * 1) } : qpData_t ℝ) := a3
  have hql : ({ ({ a.2.setNumLineSearchIter 0 with alpha := 1 } : qpData_t ℝ) with
        lambda := addVectorScaledVector (a.2.setNumLineSearchIter 0).lambda
          (a.2.setNumLineSearchIter 0).lambda 1 (a.2.setNumLineSearchIter 0).deltaLambda
          (1 * 1) } : qpData_t ℝ).lambda.data 0 ≠ 0 := by
    show (addVectorScaledVector a.2.lambda a.2.lambda 1 a.2.deltaLambda (1 * 1)).data 0 ≠ 0
    rw [addVectorScaledVector_data, if_pos (by decide), a2.2.1, a2.2.2.1, hlam, hdl]
    simp [exQpRun, exQp, exVec]
  have hdo := exAct_doSteps _ hqs hql
  have htag := fun k => ((ClippingDiagonal_setInterval _ 1 (exStagesAct ℝ 1)
    (ClippingDiagonal_setInterval _ 0 (exStagesAct ℝ 0) hqs rfl rfl) rfl rfl) k).2
  obtain ⟨o, ho, _⟩ := computeObjectiveValue_total 1 _ htag
  have hdet : qpDUNES_determineStepLength Real.sqrt (exExtAct ℝ) 1 1 2 a.2 s0.2.2
      (a.2.log.itLog 0).isHessianRegularized = some (return_t.QPDUNES_OK, o.2, o.1) := by
    unfold qpDUNES_determineStepLength
    dsimp only
    rw [if_pos hc, hdo]
    dsimp only
    rw [ho]
  have hit := solve_iteration_eq Real.sqrt (exExtAct ℝ) 1 1 2 1 s0
  rw [hd] at hit
  dsimp only at hit
  rw [(solve_iterationTail_of Real.sqrt (exExtAct ℝ) 1 1 2 1 s0.2.2 qd a
    (return_t.QPDUNES_OK, o.2, o.1) ha hdet).1 (Or.inl rfl)] at hit
  have hos := computeObjectiveValue_sameButStart 1 _ o ho
  have hoi := computeObjectiveValue_intervals 1 _ o ho
  have hend := solve_passEnd_frame Real.sqrt 1 1 1 o.2 o.1
  have oopt : o.2.options = exOptAct ℝ := (SameIterationData_of_intervals hoi).2.trans aopt
  have ohes : o.2.hessian = qd.hessian := (SameButIntervals_hessian hoi).trans ahes
  have hal : AliasedActSets (solve_savePrevIeqStatus 1 1 o.2) := by
    unfold AliasedActSets solve_savePrevIeqStatus
    rw [if_pos (by rw [oopt]; decide)]
    simp [qpData_t.setItLog]
  have hflags := (solve_updateActSet_aliased 1 _ hal).2
  obtain ⟨s1, hs1⟩ : ∃ s1 : qpData_t ℝ × Int × ℝ, s1 = (qpDUNES_logIteration Real.sqrt 1 1
      (solve_updateActSet 1 (solve_savePrevIeqStatus 1 1 o.2)).1 o.1
      (solve_updateActSet 1 (solve_savePrevIeqStatus 1 1 o.2)).2,
      (solve_updateActSet 1 (solve_savePrevIeqStatus 1 1 o.2)).2, o.1) := ⟨_, rfl⟩
  have h11 : s1.1 = qpDUNES_logIteration Real.sqrt 1 1
      (solve_updateActSet 1 (solve_savePrevIeqStatus 1 1 o.2)).1 o.1
      (solve_updateActSet 1 (solve_savePrevIeqStatus 1 1 o.2)).2 := by rw [hs1]
  have h1i : s1.1.intervals =
      (solve_updateActSet 1 (solve_savePrevIeqStatus 1 1 o.2)).1.intervals := by
    rw [h11]
    rfl
  rw [← hs1] at hit
  rw [← h11] at hend
  have s1opt : s1.1.options = o.2.options := by
    have e := congrArg (fun (w : qpData_t ℝ) => w.options) hend.1
    exact e
  have s1hes : s1.1.hessian = o.2.hessian := by
    have e := congrArg (fun (w : qpData_t ℝ) => w.hessian) hend.1
    exact e
  refine ⟨s0, qd, a, o, s1, hs, hd, hreg, hM, ha, hdet, hit, s1opt.trans oopt, ?_,
    fun k hk => ?_, fun k hk => ?_⟩
  · rw [s1hes, ohes]
    exact hM
  · have e1 := hos.2 k
    rw [setInterval_intervals, setInterval_intervals] at e1
    have e2 : SameStageButFlags (exStagesAct ℝ k) (o.2.intervals k) := by
      rcases Nat.le_one_iff_eq_zero_or_eq_one.mp hk with c | c
      · subst c
        rw [if_neg (by decide), if_pos rfl] at e1
        exact e1
      · subst c
        rw [if_pos rfl] at e1
        exact e1
    exact SameStageButFlags_trans e2 (hend.2 k)
  · rw [h1i]
    exact hflags k hk

theorem exStagesAct_form : ∀ k, ∃ a b c d, exStagesAct ℝ k = exStage ℝ a b c d := by
  intro k
  unfold exStagesAct
  by_cases h : k = 0
  · exact ⟨_, _, _, _, if_pos h⟩
  · exact ⟨_, _, _, _, if_neg h⟩

/-- What a stage that differs only in its objective value and change flag shares. -/
theorem SameStageButFlags_fields {v v2 : interval_t ℝ} (h : SameStageButFlags v v2) :
    v2.y = v.y ∧ v2.C = v.C ∧ v2.cholH = v.cholH ∧ v2.H = v.H ∧ v2.z = v.z ∧ v2.c = v.c ∧
      v2.nV = v.nV := by
  unfold SameStageButFlags at h
  have h1 := congrArg (fun (w : interval_t ℝ) => w.y) h
  have h2 := congrArg (fun (w : interval_t ℝ) => w.C) h
  have h3 := congrArg (fun (w : interval_t ℝ) => w.cholH) h
  have h4 := congrArg (fun (w : interval_t ℝ) => w.H) h
  have h5 := congrArg (fun (w : interval_t ℝ) => w.z) h
  have h6 := congrArg (fun (w : interval_t ℝ) => w.c) h
  have h7 := congrArg (fun (w : interval_t ℝ) => w.nV) h
  exact ⟨h1, h2, h3, h4, h5, h6, h7⟩

/-- The assembly of the second pass of the example run: on a state with the stages of
`exStagesAct`, no stage marked as changed and the stored Hessian `3/4`, the assembly
returns QPDUNES_OK and leaves the stored entry `3/4`, while the block formula on the
multipliers of the stages gives `1/4`, with either activity test. -/
theorem exAct_pass2 (s1 : qpData_t ℝ)
    (hopt : s1.options = exOptAct ℝ) (hhes : s1.hessian (0, 0, 0, 0) = 3 / 4)
    (hst : ∀ k, k ≤ 1 → SameStageButFlags (exStagesAct ℝ k) (s1.intervals k))
    (hfl : ∀ k, k ≤ 1 → (s1.intervals k).actSetHasChanged = false) :
    ∃ q2, qpDUNES_setupNewtonSystem Real.sqrt (exExtAct ℝ) 1 1 2 (solve_iterationHead 2 s1) =
        some (return_t.QPDUNES_OK, q2) ∧
      q2.hessian (0, 0, 0, 0) = 3 / 4 ∧
      assembledDiagEntry 2 q2 0 0 0 = 1 / 4 ∧
      claimedDiagEntry 2 q2 0 0 0 = 1 / 4 ∧
      (q2.intervals 0).y.data 0 = 1 ∧ (q2.intervals 1).y.data 0 = 1 := by
  have hmd : MakesDense (exExtAct ℝ) 1 := exExt_makesDense ℝ 1
  have hi : (solve_iterationHead 2 s1).intervals = s1.intervals := rfl
  have ho : (solve_iterationHead 2 s1).options = exOptAct ℝ := hopt
  obtain ⟨y0, C0, L0, H0, z0, c0, n0⟩ := SameStageButFlags_fields (hst 0 (by decide))
  obtain ⟨y1, C1, L1, H1, z1, c1, n1⟩ := SameStageButFlags_fields (hst 1 (by decide))
  have hg : AssemblyGuards 1 1 2 (solve_iterationHead 2 s1) := by
    intro k hk
    obtain ⟨y, C, L, _, _, _, n⟩ := SameStageButFlags_fields (hst k hk)
    obtain ⟨a, b, c, d, e⟩ := exStagesAct_form k
    rw [hi, ho, L, n, C, e]
    have hz : (exOptAct ℝ).QPDUNES_ZERO = 1 / 100000000000000000000 := rfl
    rw [hz]
    refine ⟨rfl, by simp [exStage], fun i _ => ?_, fun l j _ _ _ => ?_⟩
    · by_cases hi : i = 0 <;> simp [exStage, abs_f, hi] <;>
        exact le_trans (by norm_num) (le_abs_self _)
    · by_cases hl : l = 0 <;> simp [exStage, abs_f, hl] <;>
        exact le_trans (by norm_num) (le_abs_self _)
  have hgr : (setupNewtonSystem_gradient 1 1 2 (solve_iterationHead 2 s1)).gradient.data 0 =
      2 := by
    have h := computeNewtonGradient_entry 1 1 2 (solve_iterationHead 2 s1)
      (solve_iterationHead 2 s1).gradient (solve_iterationHead 2 s1).xVecTmp 0 0 (by decide)
      (by decide)
    have e : (setupNewtonSystem_gradient 1 1 2 (solve_iterationHead 2 s1)).gradient.data 0 =
        (qpDUNES_computeNewtonGradient 1 1 2 (solve_iterationHead 2 s1)
          (solve_iterationHead 2 s1).gradient
          (solve_iterationHead 2 s1).xVecTmp).2.1.data (0 * 1 + 0) := rfl
    rw [e, h, hi, C0, z0, c0, z1]
    simp [exStagesAct, exStage, exVec, Finset.sum_range_succ]
    norm_num
  obtain ⟨q2, h1, _⟩ := setupNewtonSystem_returns Real.sqrt (exExtAct ℝ) 1 1 2
    (solve_iterationHead 2 s1) hmd hg
  have hnorm : vectorNorm Real.sqrt
      (setupNewtonSystem_gradient 1 1 2 (solve_iterationHead 2 s1)).gradient (1 * 1) = 2 := by
    unfold vectorNorm
    rw [scalarProd_eq_sum]
    simp only [Nat.mul_one, Finset.sum_range_one]
    rw [hgr]
    have : (2 : ℝ) * 2 = 4 := by norm_num
    rw [this, sqrt_four]
  rw [hnorm] at h1
  have hn : ¬ (2 : ℝ) < (solve_iterationHead 2 s1).options.stationarityTolerance := by
    rw [ho]
    norm_num [exOptAct, exOptRun, exOpt]
  rw [if_neg hn] at h1
  obtain ⟨o1, i1, _, _, _, _, _⟩ := setupNewtonSystem_frame Real.sqrt (exExtAct ℝ) 1 1 2
    (solve_iterationHead 2 s1) q2 _ h1
  have hnr : ¬ Recomputed 1 1 (solve_iterationHead 2 s1) 0 0 0 0 := by
    intro h
    rcases h.1 with ⟨_, _, c⟩ | ⟨c, _⟩
    · rcases c with c | c
      · have e : (s1.intervals 0).actSetHasChanged = true := c
        rw [hfl 0 (by decide)] at e
        cases e
      · have e : (s1.intervals 1).actSetHasChanged = true := c
        rw [hfl 1 (by decide)] at e
        cases e
    · exact absurd c (by decide)
  have hq2i : q2.intervals = s1.intervals := i1.trans hi
  have hq2o : q2.options = exOptAct ℝ := o1.trans ho
  have ht : (exOptAct ℝ).equalityTolerance = 1 / 1000000000000 := rfl
  refine ⟨q2, h1, ?_, ?_, ?_, ?_, ?_⟩
  · rw [(setupNewtonSystem_policy Real.sqrt (exExtAct ℝ) 1 1 2 _ q2 h1).1 0 0 0 0 hnr]
    exact hhes
  · unfold assembledDiagEntry
    rw [hq2i, hq2o, ht, y0, y1, C0, L0, L1]
    simp [exStagesAct, exStage, exVec, Finset.sum_range_succ]
    norm_num
  · unfold claimedDiagEntry
    rw [hq2i, hq2o, ht, y0, y1, C0, H0, H1]
    simp [exStagesAct, exStage, exVec, Finset.sum_range_succ]
    norm_num
  · rw [hq2i, y0]
    simp [exStagesAct, exStage, exVec]
  · rw [hq2i, y1]
    simp [exStagesAct, exStage, exVec]

end StaleHessianExample
/-! ## The reverse factorization does not depend on the buffer it starts from -/

section BufferIndependence

variable {α : Type} [LinearOrderedField α]

theorem revSum_sameDone (N nX : Nat) (h c c1 : xn2x_matrix_t α) (kk jj ii : Nat)
    (hkk : kk < N) (hii : ii ≤ jj) (hjj : jj < nX)
    (hag : RevSameDone N nX c c1 kk (jj + 1)) :
    revSum N nX h c1 kk jj ii = revSum N nX h c kk jj ii := by
  unfold revSum
  have e1 : ∑ t in Finset.range (nX - (jj + 1)),
        c1 (kk, 0, jj + 1 + t, ii) * c1 (kk, 0, jj + 1 + t, jj)
      = ∑ t in Finset.range (nX - (jj + 1)),
        c (kk, 0, jj + 1 + t, ii) * c (kk, 0, jj + 1 + t, jj) := by
    apply Finset.sum_congr rfl
    intro t ht
    have ht1 : jj + 1 + t < nX := by
      have := Finset.mem_range.mp ht
      omega
    rw [(hag kk (jj + 1 + t) ii hkk ht1 (Or.inr ⟨rfl, by omega⟩)).1 (by omega),
      (hag kk (jj + 1 + t) jj hkk ht1 (Or.inr ⟨rfl, by omega⟩)).1 (by omega)]
  have e2 : (if kk + 1 < N then
        ∑ l in Finset.range nX, c1 (kk + 1, -1, l, ii) * c1 (kk + 1, -1, l, jj) else 0)
      = (if kk + 1 < N then
        ∑ l in Finset.range nX, c (kk + 1, -1, l, ii) * c (kk + 1, -1, l, jj) else 0) := by
    by_cases hk : kk + 1 < N
    · rw [if_pos hk, if_pos hk]
      apply Finset.sum_congr rfl
      intro l hl
      have hl1 : l < nX := Finset.mem_range.mp hl
      rw [(hag (kk + 1) l ii hk hl1 (Or.inl (by omega))).2 (by omega) (by omega),
        (hag (kk + 1) l jj hk hl1 (Or.inl (by omega))).2 (by omega) hjj]
    · rw [if_neg hk, if_neg hk]
  rw [e1, e2]

theorem revSubSum_sameDone (N nX : Nat) (h c c1 : xn2x_matrix_t α) (kk jj ii : Nat)
    (hkk : kk < N) (hk0 : 0 < kk) (hii : ii < nX) (hjj : jj < nX)
    (hag : RevSameDone N nX c c1 kk (jj + 1)) :
    revSubSum nX h c1 kk jj ii = revSubSum nX h c kk jj ii := by
  unfold revSubSum
  have e1 : ∑ t in Finset.range (nX - (jj + 1)),
        c1 (kk, -1, jj + 1 + t, ii) * c1 (kk, 0, jj + 1 + t, jj)
      = ∑ t in Finset.range (nX - (jj + 1)),
        c (kk, -1, jj + 1 + t, ii) * c (kk, 0, jj + 1 + t, jj) := by
    apply Finset.sum_congr rfl
    intro t ht
    have ht1 : jj + 1 + t < nX := by
      have := Finset.mem_range.mp ht
      omega
    rw [(hag kk (jj + 1 + t) ii hkk ht1 (Or.inr ⟨rfl, by omega⟩)).2 hk0 hii,
      (hag kk (jj + 1 + t) jj hkk ht1 (Or.inr ⟨rfl, by omega⟩)).1 (by omega)]
  rw [e1]

/-- A row of the reverse factor is determined by the Hessian and the rows after it. -/
theorem RevRowOK_unique (sqrt_f : α → α) (opt : qpOptions_t α) (N nX : Nat)
    (h a b : xn2x_matrix_t α) (kk jj : Nat) (hkk : kk < N) (hjj : jj < nX)
    (ha : RevRowOK sqrt_f opt N nX h a kk jj) (hb : RevRowOK sqrt_f opt N nX h b kk jj)
    (hag : RevSameDone N nX a b kk (jj + 1)) :
    RevSameDone N nX a b kk jj := by
  obtain ⟨_, a2, a3, a4⟩ := ha
  obtain ⟨_, b2, b3, b4⟩ := hb
  have hd : b (kk, 0, jj, jj) = a (kk, 0, jj, jj) := by
    rw [a2, b2, revSum_sameDone N nX h a b kk jj jj hkk (le_refl _) hjj hag]
  intro k j i hk hj hlt
  by_cases hrow : k = kk ∧ j = jj
  · obtain ⟨rfl, rfl⟩ := hrow
    constructor
    · intro hi
      rcases Nat.eq_or_lt_of_le hi with e | e
      · rw [e]; exact hd
      · rw [a3 i e, b3 i e, hd, revSum_sameDone N nX h a b k j i hkk hi hjj hag]
    · intro hk0 hi
      rw [a4 hk0 i hi, b4 hk0 i hi, hd, revSubSum_sameDone N nX h a b k j i hkk hk0 hi hjj hag]
  · exact hag k j i hk hj (by omega)

theorem rev_column_sim (sqrt_f : α → α) (opt : qpOptions_t α) (N nX : Nat)
    (h : xn2x_matrix_t α) (kk jj : Nat) (s s1 : cholState_t α) (hkk : kk < N) (hjj : jj < nX)
    (hag : RevSameDone N nX s.cholHessian s1.cholHessian kk (jj + 1)) :
    (∀ e, factorizeNewtonHessianBottomUp_column sqrt_f opt N nX h kk jj s = Except.error e →
      ∃ e1, factorizeNewtonHessianBottomUp_column sqrt_f opt N nX h kk jj s1 = Except.error e1
        ∧ e1.1 = e.1) ∧
    (∀ a, factorizeNewtonHessianBottomUp_column sqrt_f opt N nX h kk jj s = Except.ok a →
      ∃ b, factorizeNewtonHessianBottomUp_column sqrt_f opt N nX h kk jj s1 = Except.ok b
        ∧ RevSameDone N nX a.cholHessian b.cholHessian kk jj) := by
  have hsum := revSum_sameDone N nX h s.cholHessian s1.cholHessian kk jj jj hkk (le_refl _)
    hjj hag
  rcases factorizeNewtonHessianBottomUp_column_spec sqrt_f opt N nX h kk jj s with
    ⟨hfail, h1⟩ | ⟨hnf, flag, h1⟩ <;>
  rcases factorizeNewtonHessianBottomUp_column_spec sqrt_f opt N nX h kk jj s1 with
    ⟨hfail1, h2⟩ | ⟨hnf1, flag1, h2⟩
  · constructor
    · intro e he
      rw [h1] at he
      simp only [Except.error.injEq] at he
      exact ⟨_, h2, by rw [← he]⟩
    · intro a ha
      rw [h1] at ha; cases ha
  · rw [hsum] at hnf1
    exact absurd hfail hnf1
  · rw [hsum] at hfail1
    exact absurd hfail1 hnf
  · constructor
    · intro e he
      rw [h1] at he; cases he
    · intro a ha
      refine ⟨_, h2, ?_⟩
      obtain ⟨ra, fa⟩ := factorizeNewtonHessianBottomUp_column_ok sqrt_f opt N nX h kk jj s a ha
      obtain ⟨rb, fb⟩ := factorizeNewtonHessianBottomUp_column_ok sqrt_f opt N nX h kk jj s1 _
        h2
      apply RevRowOK_unique sqrt_f opt N nX h _ _ kk jj hkk hjj ra rb
      intro k j i hk hj hlt
      have hne : ¬ (k = kk ∧ j = jj) := by omega
      constructor
      · intro hi
        rw [fa (k, 0, j, i) (fun ii _ => by simp; omega) (fun ii _ _ => by simp),
          fb (k, 0, j, i) (fun ii _ => by simp; omega) (fun ii _ _ => by simp)]
        exact (hag k j i hk hj hlt).1 hi
      · intro hk0 hi
        rw [fa (k, -1, j, i) (fun ii _ => by simp) (fun ii _ _ => by simp; omega),
          fb (k, -1, j, i) (fun ii _ => by simp) (fun ii _ _ => by simp; omega)]
        exact (hag k j i hk hj hlt).2 hk0 hi

theorem rev_inner_sim (sqrt_f : α → α) (opt : qpOptions_t α) (N nX : Nat)
    (h : xn2x_matrix_t α) (kk n : Nat) (hkk : kk < N) (hn : n ≤ nX) (s s1 : cholState_t α)
    (hag : RevSameDone N nX s.cholHessian s1.cholHessian kk n) :
    (∀ e, forDownM (fun jj st =>
        factorizeNewtonHessianBottomUp_column sqrt_f opt N nX h kk jj st) 0 n s
          = Except.error e →
      ∃ e1, forDownM (fun jj st =>
        factorizeNewtonHessianBottomUp_column sqrt_f opt N nX h kk jj st) 0 n s1
          = Except.error e1 ∧ e1.1 = e.1) ∧
    (∀ a, forDownM (fun jj st =>
        factorizeNewtonHessianBottomUp_column sqrt_f opt N nX h kk jj st) 0 n s
          = Except.ok a →
      ∃ b, forDownM (fun jj st =>
        factorizeNewtonHessianBottomUp_column sqrt_f opt N nX h kk jj st) 0 n s1
          = Except.ok b ∧ RevSameDone N nX a.cholHessian b.cholHessian kk 0) := by
  induction n generalizing s s1 with
  | zero =>
    constructor
    · intro e he
      simp [forDownM] at he
    · intro a ha
      simp only [forDownM, Except.ok.injEq] at ha
      exact ⟨s1, rfl, by rw [← ha]; exact hag⟩
  | succ n ih =>
    obtain ⟨c1, c2⟩ := rev_column_sim sqrt_f opt N nX h kk n s s1 hkk (by omega) hag
    simp only [forDownM, Nat.zero_add]
    cases hmid : factorizeNewtonHessianBottomUp_column sqrt_f opt N nX h kk n s with
    | error e0 =>
      obtain ⟨e1, he1, he2⟩ := c1 e0 hmid
      rw [he1]
      constructor
      · intro e he
        simp only [Except.error.injEq] at he
        exact ⟨e1, rfl, by rw [← he]; exact he2⟩
      · intro a ha; cases ha
    | ok a0 =>
      obtain ⟨b0, hb0, hb1⟩ := c2 a0 hmid
      rw [hb0]
      exact ih (by omega) a0 b0 hb1

theorem rev_outer_sim (sqrt_f : α → α) (opt : qpOptions_t α) (N nX : Nat)
    (h : xn2x_matrix_t α) (m : Nat) (hm : m ≤ N) (s s1 : cholState_t α)
    (hag : RevSameDone N nX s.cholHessian s1.cholHessian m 0) :
    (∀ e, forDownM (fun kk st =>
        forDownM (fun jj st =>
          factorizeNewtonHessianBottomUp_column sqrt_f opt N nX h kk jj st) 0 nX st) 0 m s
          = Except.error e →
      ∃ e1, forDownM (fun kk st =>
        forDownM (fun jj st =>
          factorizeNewtonHessianBottomUp_column sqrt_f opt N nX h kk jj st) 0 nX st) 0 m s1
          = Except.error e1 ∧ e1.1 = e.1) ∧
    (∀ a, forDownM (fun kk st =>
        forDownM (fun jj st =>
          factorizeNewtonHessianBottomUp_column sqrt_f opt N nX h kk jj st) 0 nX st) 0 m s
          = Except.ok a →
      ∃ b, forDownM (fun kk st =>
        forDownM (fun jj st =>
          factorizeNewtonHessianBottomUp_column sqrt_f opt N nX h kk jj st) 0 nX st) 0 m s1
          = Except.ok b ∧ SameFactor N nX a.cholHessian b.cholHessian) := by
  induction m generalizing s s1 with
  | zero =>
    constructor
    · intro e he
      simp [forDownM] at he
    · intro a ha
      simp only [forDownM, Except.ok.injEq] at ha
      refine ⟨s1, rfl, ?_⟩
      rw [← ha]
      intro k j i hk hj
      exact hag k j i hk hj (by omega)
  | succ m ih =>
    obtain ⟨c1, c2⟩ := rev_inner_sim sqrt_f opt N nX h m nX (by omega) (le_refl _) s s1
      (fun k j i hk hj hlt => hag k j i hk hj (by omega))
    simp only [forDownM, Nat.zero_add]
    cases hmid : forDownM (fun jj st =>
        factorizeNewtonHessianBottomUp_column sqrt_f opt N nX h m jj st) 0 nX s with
    | error e0 =>
      obtain ⟨e1, he1, he2⟩ := c1 e0 hmid
      rw [he1]
      constructor
      · intro e he
        simp only [Except.error.injEq] at he
        exact ⟨e1, rfl, by rw [← he]; exact he2⟩
      · intro a ha; cases ha
    | ok a0 =>
      obtain ⟨b0, hb0, hb1⟩ := c2 a0 hmid
      rw [hb0]
      exact ih (by omega) a0 b0 (fun k j i hk hj hlt => hb1 k j i hk hj (by omega))

/-- Two full reverse factorizations of the same Hessian return the same status, whatever the
buffers they start from hold, and on success the same factor. -/
theorem factorizeNewtonHessianBottomUp_buffer_independent (sqrt_f : α → α)
    (opt : qpOptions_t α) (N nX : Nat) (h c c1 : xn2x_matrix_t α) (f f1 : Bool) :
    (qpDUNES_factorizeNewtonHessianBottomUp sqrt_f opt N nX c h ((N : Int) - 1) f).1
      = (qpDUNES_factorizeNewtonHessianBottomUp sqrt_f opt N nX c1 h ((N : Int) - 1) f1).1 ∧
    ((qpDUNES_factorizeNewtonHessianBottomUp sqrt_f opt N nX c h ((N : Int) - 1) f).1
        = return_t.QPDUNES_OK →
      SameFactor N nX
        (qpDUNES_factorizeNewtonHessianBottomUp sqrt_f opt N nX c h ((N : Int) - 1)
          f).2.cholHessian
        (qpDUNES_factorizeNewtonHessianBottomUp sqrt_f opt N nX c1 h ((N : Int) - 1)
          f1).2.cholHessian) := by
  unfold qpDUNES_factorizeNewtonHessianBottomUp
  rw [blockIdxStart_full]
  obtain ⟨c2, c3⟩ := rev_outer_sim sqrt_f opt N nX h N (le_refl _) ⟨c, f⟩ ⟨c1, f1⟩
    (fun k j i hk hj hlt => by omega)
  cases hrun : forDownM (fun kk st =>
      forDownM (fun jj st =>
        factorizeNewtonHessianBottomUp_column sqrt_f opt N nX h kk jj st) 0 nX st) 0 N
      (⟨c, f⟩ : cholState_t α) with
  | error e =>
    obtain ⟨e1, he1, he2⟩ := c2 e hrun
    rw [he1]
    refine ⟨he2.symm, ?_⟩
    intro hOK
    exfalso
    have h1 : e.1 = return_t.QPDUNES_ERR_DIVISION_BY_ZERO :=
      forDownM_error _ (fun e => e.1 = return_t.QPDUNES_ERR_DIVISION_BY_ZERO)
        (fun kk s e1 he1 => forDownM_error _
          (fun e => e.1 = return_t.QPDUNES_ERR_DIVISION_BY_ZERO)
          (fun jj s2 e2 he2 => by
            rw [factorizeNewtonHessianBottomUp_column_error sqrt_f opt N nX h kk jj s2 e2 he2])
          0 nX s e1 he1) 0 _ _ e hrun
    simp only at hOK
    rw [h1] at hOK
    cases hOK
  | ok a =>
    obtain ⟨b, hb, hb1⟩ := c3 a hrun
    rw [hb]
    exact ⟨rfl, fun _ => hb1⟩

end BufferIndependence

section BufferIndependenceExample

theorem exRev5_status :
    (qpDUNES_factorizeNewtonHessianBottomUp Real.sqrt (exOpt ℝ) 2 1 (fun _ => 0) (exHessian5 ℝ)
      (((2 : Nat) : Int) - 1) false).1 = return_t.QPDUNES_OK := by
  norm_num [-Prod.mk_zero_zero, -Prod.mk_one_one, setAcc, accCholHessian, accHessian,
    qpDUNES_factorizeNewtonHessianBottomUp, forDownM,
    factorizeNewtonHessianBottomUp_column, factorizeNewtonHessianBottomUp_pivot,
    factorizeNewtonHessianBottomUp_writeRow, forUp, forDown, blockIdxStart, exOpt, exHessian5,
    divide_f, sqrt_25, sqrt_nine, Function.update_apply]

end BufferIndependenceExample

/-! ## Claims -/

section Claims

/-- C1: forward block-tridiagonal Cholesky is correct in exact arithmetic. If
`qpDUNES_factorizeNewtonHessian` returns QPDUNES_OK with regType other than
SINGULAR_DIRECTIONS and a positive newtonHessDiagRegTolerance, then with every `L[k,0]`
read as lower-triangular, `(L[k,0] L[k,0]^T + (k>0 ? L[k,-1] L[k,-1]^T : 0))[i,j] = M[k,0][i,j]`
for all `i >= j` of every block-column `k`, and `L[k+1,-1] L[k,0]^T = M[k+1,-1]` for `k < N-1`. -/
theorem C1_factorizeNewtonHessian_correct {α : Type} [LinearOrderedField α]
    (sqrt_f : α → α) (hsqrt : ∀ x, 0 ≤ x → sqrt_f x * sqrt_f x = x)
    (opt : qpOptions_t α) (N nX : Nat) (cholHessian hessian : xn2x_matrix_t α) (flag : Bool)
    (hreg : opt.regType ≠ regType_t.QPDUNES_REG_SINGULAR_DIRECTIONS)
    (htol : 0 < opt.newtonHessDiagRegTolerance)
    (hOK : (qpDUNES_factorizeNewtonHessian sqrt_f opt N nX cholHessian hessian flag).1
      = return_t.QPDUNES_OK) :
    DiagBlockIdentity N nX
      (qpDUNES_factorizeNewtonHessian sqrt_f opt N nX cholHessian hessian flag).2.cholHessian
      hessian ∧
    SubBlockIdentity N nX
      (qpDUNES_factorizeNewtonHessian sqrt_f opt N nX cholHessian hessian flag).2.cholHessian
      hessian := by
  have hcols := factorizeNewtonHessian_ok_cols sqrt_f opt N nX cholHessian hessian flag hOK
  generalize (qpDUNES_factorizeNewtonHessian sqrt_f opt N nX cholHessian hessian
    flag).2.cholHessian = L at hcols
  constructor
  · intro k hk i j hji
    have h1 := fwd_row_identity sqrt_f hsqrt opt N nX hessian L k i j hreg htol
      (hcols k j hk j.2) hji i.2
    rw [Matrix.add_apply, cholDiag_mul_transpose_apply nX L k i j hji]
    by_cases hk0 : k > 0
    · rw [if_pos hk0] at h1 ⊢
      rw [sub_mul_transpose_apply, h1]
      rfl
    · rw [if_neg hk0] at h1 ⊢
      rw [Matrix.zero_apply, h1]
      rfl
  · intro k hk
    ext i j
    rw [sub_mul_cholDiag_transpose_apply,
      fwd_sub_identity sqrt_f hsqrt opt N nX hessian L k i j hreg htol
        (hcols k j (by omega) j.2) hk i.2]
    rfl

/-- Witness of C1: the forward factorization of the example Hessian (`N = 2`, `nX = 1`)
over the reals succeeds and satisfies both factor identities. -/
theorem C1_witness :
    (qpDUNES_factorizeNewtonHessian Real.sqrt (exOpt ℝ) 2 1 (fun _ => 0) (exHessian ℝ) false).1
      = return_t.QPDUNES_OK ∧
    DiagBlockIdentity 2 1
      (qpDUNES_factorizeNewtonHessian Real.sqrt (exOpt ℝ) 2 1 (fun _ => 0) (exHessian ℝ)
        false).2.cholHessian (exHessian ℝ) ∧
    SubBlockIdentity 2 1
      (qpDUNES_factorizeNewtonHessian Real.sqrt (exOpt ℝ) 2 1 (fun _ => 0) (exHessian ℝ)
        false).2.cholHessian (exHessian ℝ) :=
  ⟨exFactorization_ok,
    C1_factorizeNewtonHessian_correct Real.sqrt (fun _ hx => Real.mul_self_sqrt hx) (exOpt ℝ) 2 1
      (fun _ => 0) (exHessian ℝ) false (by simp [exOpt]) (by norm_num [exOpt])
      exFactorization_ok⟩

/-- C2: forward back-substitution solves the factored system. For every factor whose
diagonal entries `L[k,0][i,i]` are nonzero and not greater than QPDUNES_INFTY and every
gradient `g`, `qpDUNES_solveNewtonEquation` returns QPDUNES_OK and `L L^T res = g`, with `L`
the block lower-bidiagonal matrix of the blocks `L[k,0]` (lower-triangular) and `L[k,-1]`. -/
theorem C2_solveNewtonEquation_correct {α : Type} [LinearOrderedField α]
    (opt : qpOptions_t α) (N nX : Nat) (res : Nat → α) (cholHessian : xn2x_matrix_t α)
    (gradient : Nat → α)
    (hd : ∀ k i, k < N → i < nX →
      cholHessian (k, 0, i, i) ≠ 0 ∧ cholHessian (k, 0, i, i) ≤ opt.QPDUNES_INFTY) :
    (qpDUNES_solveNewtonEquation opt N nX res cholHessian gradient).1 = return_t.QPDUNES_OK ∧
    (cholFull N nX cholHessian * (cholFull N nX cholHessian).transpose).mulVec
        (blockVec N nX (qpDUNES_solveNewtonEquation opt N nX res cholHessian gradient).2)
      = blockVec N nX gradient := by
  refine ⟨?_, solveNewtonEquation_mulVec opt N nX res cholHessian gradient hd⟩
  rw [solveNewtonEquation_eq_sweeps opt N nX res cholHessian gradient
    (fun k i hk hi => not_lt.mpr (hd k i hk hi).2)]

theorem exFactor_diag (k i : Nat) (_ : k < 2) (_ : i < 1) :
    exFactor ℚ (k, 0, i, i) ≠ 0 ∧ exFactor ℚ (k, 0, i, i) ≤ (exOpt ℚ).QPDUNES_INFTY := by
  norm_num [exFactor, exOpt]

/-- Witness of C2: the example factor (`N = 2`, `nX = 1`) over the rationals with the
gradient `(1, 1)`. -/
theorem C2_witness :
    (∀ k i, k < 2 → i < 1 →
      exFactor ℚ (k, 0, i, i) ≠ 0 ∧ exFactor ℚ (k, 0, i, i) ≤ (exOpt ℚ).QPDUNES_INFTY) ∧
    (qpDUNES_solveNewtonEquation (exOpt ℚ) 2 1 (fun _ => 0) (exFactor ℚ) (fun _ => 1)).1
      = return_t.QPDUNES_OK ∧
    (cholFull 2 1 (exFactor ℚ) * (cholFull 2 1 (exFactor ℚ)).transpose).mulVec
        (blockVec 2 1
          (qpDUNES_solveNewtonEquation (exOpt ℚ) 2 1 (fun _ => 0) (exFactor ℚ) (fun _ => 1)).2)
      = blockVec 2 1 (fun _ => 1) :=
  ⟨exFactor_diag,
    C2_solveNewtonEquation_correct (exOpt ℚ) 2 1 (fun _ => 0) (exFactor ℚ) (fun _ => 1)
      exFactor_diag⟩

/-- C3 (as stated, refuted): the full reverse factorization of `M[0,0] = [[2, 1], [1, 1]]`
(`N = 1`, `nX = 2`, start index `N - 1`) returns QPDUNES_OK with regType other than
SINGULAR_DIRECTIONS, but its factor does not satisfy the forward identity
`L[k,0] L[k,0]^T + (k>0 ? L[k,-1] L[k,-1]^T : 0) = M[k,0]`: entry `(0,0)` is 1, not 2. -/
theorem C3_counterexample :
    (exOpt ℝ).regType ≠ regType_t.QPDUNES_REG_SINGULAR_DIRECTIONS ∧
    (qpDUNES_factorizeNewtonHessianBottomUp Real.sqrt (exOpt ℝ) 1 2 (fun _ => 0) (exHessian2 ℝ)
      (((1 : Nat) : Int) - 1) false).1 = return_t.QPDUNES_OK ∧
    ¬ DiagBlockIdentity 1 2
      (qpDUNES_factorizeNewtonHessianBottomUp Real.sqrt (exOpt ℝ) 1 2 (fun _ => 0)
        (exHessian2 ℝ) (((1 : Nat) : Int) - 1) false).2.cholHessian (exHessian2 ℝ) := by
  refine ⟨by simp [exOpt], exRev_status, ?_⟩
  intro h
  have h1 := h 0 (by norm_num) 0 0 (le_refl _)
  rw [Matrix.add_apply, Matrix.mul_apply] at h1
  simp only [Fin.sum_univ_two, cholDiagBlock, diagBlock, Matrix.transpose_apply,
    Matrix.of_apply, Fin.val_zero, Fin.val_one, Fin.isValue] at h1
  rw [exRev_entry] at h1
  norm_num [exHessian2] at h1

/-- C3 (amended): when `qpDUNES_factorizeNewtonHessianBottomUp` is run as a full
refactorization (start index `N - 1`) and returns QPDUNES_OK with regType other than
SINGULAR_DIRECTIONS and a positive equalityTolerance, its factor satisfies the transposed
identity `L[k,0]^T L[k,0] + (k<N-1 ? L[k+1,-1]^T L[k+1,-1] : 0) = M[k,0]` on and below the
diagonal of every block-column `k` (`L[k,0]` read as lower-triangular). -/
theorem C3_factorizeNewtonHessianBottomUp_identity {α : Type} [LinearOrderedField α]
    (sqrt_f : α → α) (hsqrt : ∀ x, 0 ≤ x → sqrt_f x * sqrt_f x = x)
    (opt : qpOptions_t α) (N nX : Nat) (cholHessian hessian : xn2x_matrix_t α) (flag : Bool)
    (hreg : opt.regType ≠ regType_t.QPDUNES_REG_SINGULAR_DIRECTIONS)
    (htol : 0 < opt.equalityTolerance)
    (hOK : (qpDUNES_factorizeNewtonHessianBottomUp sqrt_f opt N nX cholHessian hessian
      ((N : Int) - 1) flag).1 = return_t.QPDUNES_OK) :
    RevDiagBlockIdentity N nX
      (qpDUNES_factorizeNewtonHessianBottomUp sqrt_f opt N nX cholHessian hessian
        ((N : Int) - 1) flag).2.cholHessian hessian :=
  rev_diag_identity_of_rows sqrt_f hsqrt opt N nX hessian _ hreg htol
    (factorizeNewtonHessianBottomUp_ok_rows sqrt_f opt N nX cholHessian hessian _ flag
      (le_of_eq (blockIdxStart_full N).symm) hOK)

/-- Witness of C3 (amended): the reverse factor of `M[0,0] = [[2, 1], [1, 1]]` over the
reals satisfies the transposed identity. -/
theorem C3_witness :
    (qpDUNES_factorizeNewtonHessianBottomUp Real.sqrt (exOpt ℝ) 1 2 (fun _ => 0) (exHessian2 ℝ)
      (((1 : Nat) : Int) - 1) false).1 = return_t.QPDUNES_OK ∧
    RevDiagBlockIdentity 1 2
      (qpDUNES_factorizeNewtonHessianBottomUp Real.sqrt (exOpt ℝ) 1 2 (fun _ => 0)
        (exHessian2 ℝ) (((1 : Nat) : Int) - 1) false).2.cholHessian (exHessian2 ℝ) :=
  ⟨exRev_status,
    C3_factorizeNewtonHessianBottomUp_identity Real.sqrt (fun _ hx => Real.mul_self_sqrt hx)
      (exOpt ℝ) 1 2 (fun _ => 0) (exHessian2 ℝ) false (by simp [exOpt]) (by norm_num [exOpt])
      exRev_status⟩

/-- C4: the reverse factorization and its matching solver together solve the Newton
system. If a full `qpDUNES_factorizeNewtonHessianBottomUp` (start index `N - 1`, regType other
than SINGULAR_DIRECTIONS, positive equalityTolerance) returns QPDUNES_OK, then
`qpDUNES_solveNewtonEquationBottomUp` on its factor returns QPDUNES_OK and `Msym res = g`, with
`Msym` the symmetric block-tridiagonal matrix whose lower part is stored in `M`. -/
theorem C4_reverse_solves_newton_system {α : Type} [LinearOrderedField α]
    (sqrt_f : α → α) (hsqrt : ∀ x, 0 ≤ x → sqrt_f x * sqrt_f x = x)
    (opt : qpOptions_t α) (N nX : Nat) (cholHessian hessian : xn2x_matrix_t α) (flag : Bool)
    (res gradient : Nat → α)
    (hreg : opt.regType ≠ regType_t.QPDUNES_REG_SINGULAR_DIRECTIONS)
    (htol : 0 < opt.equalityTolerance)
    (hOK : (qpDUNES_factorizeNewtonHessianBottomUp sqrt_f opt N nX cholHessian hessian
      ((N : Int) - 1) flag).1 = return_t.QPDUNES_OK) :
    (qpDUNES_solveNewtonEquationBottomUp N nX res
      (qpDUNES_factorizeNewtonHessianBottomUp sqrt_f opt N nX cholHessian hessian
        ((N : Int) - 1) flag).2.cholHessian gradient).1 = return_t.QPDUNES_OK ∧
    (symFull N nX hessian).mulVec (blockVec N nX
      (qpDUNES_solveNewtonEquationBottomUp N nX res
        (qpDUNES_factorizeNewtonHessianBottomUp sqrt_f opt N nX cholHessian hessian
          ((N : Int) - 1) flag).2.cholHessian gradient).2) = blockVec N nX gradient := by
  have hrows := factorizeNewtonHessianBottomUp_ok_rows sqrt_f opt N nX cholHessian hessian _ flag
    (le_of_eq (blockIdxStart_full N).symm) hOK
  generalize (qpDUNES_factorizeNewtonHessianBottomUp sqrt_f opt N nX cholHessian hessian
    ((N : Int) - 1) flag).2.cholHessian = L at hrows
  have hd : ∀ k i, k < N → i < nX → L (k, 0, i, i) ≠ 0 := fun k i hk hi =>
    (rev_pivot_facts sqrt_f hsqrt opt N nX hessian L k i hreg htol (hrows k i hk hi)).2
  rw [solveNewtonEquationBottomUp_eq_sweeps]
  refine ⟨rfl, ?_⟩
  rw [← rev_full_identity sqrt_f hsqrt opt N nX hessian L hreg htol hrows,
    ← Matrix.mulVec_mulVec,
    lowerSweep_mulVec (fun r => r) (fun _ _ _ h => h) N nX L _ hd]
  exact upperSweep_mulVec (fun _ => gradient) (fun _ _ _ _ => rfl) N nX L res hd

/-- Witness of C4: the reverse factorization of `M[0,0] = [[2, 1], [1, 1]]` over the reals
followed by the bottom-up solve with gradient `(1, 1)`. -/
theorem C4_witness :
    (qpDUNES_factorizeNewtonHessianBottomUp Real.sqrt (exOpt ℝ) 1 2 (fun _ => 0) (exHessian2 ℝ)
      (((1 : Nat) : Int) - 1) false).1 = return_t.QPDUNES_OK ∧
    (qpDUNES_solveNewtonEquationBottomUp 1 2 (fun _ => 0)
      (qpDUNES_factorizeNewtonHessianBottomUp Real.sqrt (exOpt ℝ) 1 2 (fun _ => 0)
        (exHessian2 ℝ) (((1 : Nat) : Int) - 1) false).2.cholHessian (fun _ => 1)).1
      = return_t.QPDUNES_OK ∧
    (symFull 1 2 (exHessian2 ℝ)).mulVec (blockVec 1 2
      (qpDUNES_solveNewtonEquationBottomUp 1 2 (fun _ => 0)
        (qpDUNES_factorizeNewtonHessianBottomUp Real.sqrt (exOpt ℝ) 1 2 (fun _ => 0)
          (exHessian2 ℝ) (((1 : Nat) : Int) - 1) false).2.cholHessian (fun _ => 1)).2)
      = blockVec 1 2 (fun _ => 1) :=
  ⟨exRev_status,
    C4_reverse_solves_newton_system Real.sqrt (fun _ hx => Real.mul_self_sqrt hx) (exOpt ℝ) 1 2
      (fun _ => 0) (exHessian2 ℝ) false (fun _ => 0) (fun _ => 1) (by simp [exOpt])
      (by norm_num [exOpt]) exRev_status⟩

/-- C5 (as stated, refuted): for `M = [1e26]` (`N = 1`, `nX = 1`) with the default
`QPDUNES_INFTY = 1e12`, both factorizations return QPDUNES_OK without regularization, but the
forward solver zeroes the coordinate whose diagonal `1e13` exceeds QPDUNES_INFTY while the
reverse solver returns `1e-26`. -/
theorem C5_counterexample :
    (qpDUNES_factorizeNewtonHessian Real.sqrt (exOpt ℝ) 1 1 (fun _ => 0) (exHessian3 ℝ)
      false).1 = return_t.QPDUNES_OK ∧
    (qpDUNES_factorizeNewtonHessian Real.sqrt (exOpt ℝ) 1 1 (fun _ => 0) (exHessian3 ℝ)
      false).2.isHessianRegularized = false ∧
    (qpDUNES_factorizeNewtonHessianBottomUp Real.sqrt (exOpt ℝ) 1 1 (fun _ => 0) (exHessian3 ℝ)
      (((1 : Nat) : Int) - 1) false).1 = return_t.QPDUNES_OK ∧
    (qpDUNES_factorizeNewtonHessianBottomUp Real.sqrt (exOpt ℝ) 1 1 (fun _ => 0) (exHessian3 ℝ)
      (((1 : Nat) : Int) - 1) false).2.isHessianRegularized = false ∧
    (qpDUNES_solveNewtonEquation (exOpt ℝ) 1 1 (fun _ => 0)
      (qpDUNES_factorizeNewtonHessian Real.sqrt (exOpt ℝ) 1 1 (fun _ => 0) (exHessian3 ℝ)
        false).2.cholHessian (fun _ => 1)).2 0
    ≠ (qpDUNES_solveNewtonEquationBottomUp 1 1 (fun _ => 0)
      (qpDUNES_factorizeNewtonHessianBottomUp Real.sqrt (exOpt ℝ) 1 1 (fun _ => 0)
        (exHessian3 ℝ) (((1 : Nat) : Int) - 1) false).2.cholHessian (fun _ => 1)).2 0 := by
  norm_num [-Prod.mk_zero_zero, -Prod.mk_one_one, setAcc, accCholHessian, accHessian,
    qpDUNES_factorizeNewtonHessian, forUpM, factorizeNewtonHessian_column,
    factorizeNewtonHessian_pivot, factorizeNewtonHessian_writeColumn,
    qpDUNES_factorizeNewtonHessianBottomUp, forDownM,
    factorizeNewtonHessianBottomUp_column, factorizeNewtonHessianBottomUp_pivot,
    factorizeNewtonHessianBottomUp_writeRow, forUp, forDown, blockIdxStart, exOpt, exHessian3,
    divide_f, qpDUNES_solveNewtonEquation, qpDUNES_solveNewtonEquationBottomUp, sqrt_1e26]


/-- C5 (amended): forward and reverse factorization give the same Newton direction when,
in addition, no diagonal entry of the forward factor exceeds QPDUNES_INFTY. For every stored
Hessian `M` and gradient `g` for which `qpDUNES_factorizeNewtonHessian` and a full
`qpDUNES_factorizeNewtonHessianBottomUp` both return QPDUNES_OK without regularization
(flag isHessianRegularized still FALSE), with positive tolerances, the vector produced by
`qpDUNES_solveNewtonEquation` on the forward factor equals the vector produced by
`qpDUNES_solveNewtonEquationBottomUp` on the reverse factor in all `N * nX` coordinates. -/
theorem C5_forward_reverse_same_direction {α : Type} [LinearOrderedField α]
    (sqrt_f : α → α) (hsqrt : ∀ x, 0 ≤ x → sqrt_f x * sqrt_f x = x)
    (opt : qpOptions_t α) (N nX : Nat) (cF cR hessian : xn2x_matrix_t α)
    (rF rR gradient : Nat → α)
    (htolN : 0 < opt.newtonHessDiagRegTolerance) (htolE : 0 < opt.equalityTolerance)
    (hF : (qpDUNES_factorizeNewtonHessian sqrt_f opt N nX cF hessian false).1
      = return_t.QPDUNES_OK)
    (hFflag : (qpDUNES_factorizeNewtonHessian sqrt_f opt N nX cF hessian
      false).2.isHessianRegularized = false)
    (hR : (qpDUNES_factorizeNewtonHessianBottomUp sqrt_f opt N nX cR hessian ((N : Int) - 1)
      false).1 = return_t.QPDUNES_OK)
    (hRflag : (qpDUNES_factorizeNewtonHessianBottomUp sqrt_f opt N nX cR hessian ((N : Int) - 1)
      false).2.isHessianRegularized = false)
    (hinf : ∀ k i, k < N → i < nX →
      (qpDUNES_factorizeNewtonHessian sqrt_f opt N nX cF hessian false).2.cholHessian
        (k, 0, i, i) ≤ opt.QPDUNES_INFTY) :
    ∀ k i, k < N → i < nX →
      (qpDUNES_solveNewtonEquation opt N nX rF
        (qpDUNES_factorizeNewtonHessian sqrt_f opt N nX cF hessian false).2.cholHessian
        gradient).2 (k * nX + i)
      = (qpDUNES_solveNewtonEquationBottomUp N nX rR
        (qpDUNES_factorizeNewtonHessianBottomUp sqrt_f opt N nX cR hessian ((N : Int) - 1)
          false).2.cholHessian gradient).2 (k * nX + i) := by
  have eF := factorizeNewtonHessian_noSing sqrt_f opt N nX cF hessian hF hFflag
  have eR := factorizeNewtonHessianBottomUp_noSing sqrt_f opt N nX cR hessian _ hR hRflag
  have hcols := factorizeNewtonHessian_ok_cols sqrt_f (noSing opt) N nX cF hessian false
    (by rw [eF]; exact hF)
  have hrows := factorizeNewtonHessianBottomUp_ok_rows sqrt_f (noSing opt) N nX cR hessian _
    false (le_of_eq (blockIdxStart_full N).symm) (by rw [eR]; exact hR)
  rw [eF] at hcols
  rw [eR] at hrows
  intro k i hk hi
  exact same_direction sqrt_f hsqrt (noSing opt) N nX hessian _ _ rF rR gradient
    (by simp [noSing]) htolN htolE hcols hrows hinf k i hk hi

/-- Witness of C5 (amended): the Hessian `[[25, 20], [20, 25]]` (`N = 2`, `nX = 1`) over the
reals; the forward factor is `(5, 4, 3)`, the reverse factor `(3, 4, 5)`. -/
theorem C5_witness :
    (qpDUNES_solveNewtonEquation (exOpt ℝ) 2 1 (fun _ => 0)
        (qpDUNES_factorizeNewtonHessian Real.sqrt (exOpt ℝ) 2 1 (fun _ => 0) (exHessian4 ℝ)
          false).2.cholHessian (fun _ => 1)).2 (1 * 1 + 0)
      = (qpDUNES_solveNewtonEquationBottomUp 2 1 (fun _ => 0)
        (qpDUNES_factorizeNewtonHessianBottomUp Real.sqrt (exOpt ℝ) 2 1 (fun _ => 0)
          (exHessian4 ℝ) (((2 : Nat) : Int) - 1) false).2.cholHessian (fun _ => 1)).2
        (1 * 1 + 0) :=
  C5_forward_reverse_same_direction Real.sqrt (fun _ hx => Real.mul_self_sqrt hx) (exOpt ℝ) 2 1
    (fun _ => 0) (fun _ => 0) (exHessian4 ℝ) (fun _ => 0) (fun _ => 0) (fun _ => 1)
    (by norm_num [exOpt]) (by norm_num [exOpt]) exFwd4_status exFwd4_flag
    exRev4_status exRev4_flag exFwd4_diag 1 0 (by norm_num) (by norm_num)

/-- C6: partial reverse refactorization equals a full one. Let `cholHessian` hold the result
of a successful full reverse factorization of `M_old` and let `M_new` differ from `M_old` only
in blocks `M[k,0]`, `M[k,-1]` with `k <= idx`, `0 <= idx`. Then
`qpDUNES_factorizeNewtonHessianBottomUp` on `M_new` with `lastActSetChangeIdx = idx` starts at
block `min(idx, N-1)`, leaves every entry of the blocks `L[k,.]` with `k > min(idx, N-1)`
unchanged, and yields the same status and the same `cholHessian` as a full reverse
factorization of `M_new` run on the same buffer. Its status is moreover the status of a full
reverse factorization of `M_new` started from any buffer `c1`, and when it is QPDUNES_OK the
result holds the same factor as that run (equal lower triangles of the blocks `L[k,0]` and
equal blocks `L[k,-1]`), every row of every block-column satisfies the recurrences of the
reverse factorization for `M_new`, and (for an exact square root, without on-the-fly
regularization and with a positive tolerance) the block lower-bidiagonal factor `L` satisfies
`L^T L = M_new`. With `lastActSetChangeIdx < 0` the call writes nothing and returns
QPDUNES_OK. -/
theorem C6_partial_refactorization {α : Type} [LinearOrderedField α]
    (sqrt_f : α → α) (opt : qpOptions_t α) (N nX : Nat)
    (c0 M_old M_new : xn2x_matrix_t α) (f0 f : Bool) (idx : Int) :
    (0 ≤ idx →
      (qpDUNES_factorizeNewtonHessianBottomUp sqrt_f opt N nX c0 M_old ((N : Int) - 1) f0).1
        = return_t.QPDUNES_OK →
      (∀ (k : Nat) (l : Int) (i j : Nat), idx < (k : Int) →
        M_new (k, l, i, j) = M_old (k, l, i, j)) →
      blockIdxStart N idx = min idx ((N : Int) - 1) ∧
      (∀ (k : Nat) (l : Int) (i j : Nat), min idx ((N : Int) - 1) < (k : Int) →
        (qpDUNES_factorizeNewtonHessianBottomUp sqrt_f opt N nX
          (qpDUNES_factorizeNewtonHessianBottomUp sqrt_f opt N nX c0 M_old ((N : Int) - 1)
            f0).2.cholHessian M_new idx f).2.cholHessian (k, l, i, j)
        = (qpDUNES_factorizeNewtonHessianBottomUp sqrt_f opt N nX c0 M_old ((N : Int) - 1)
            f0).2.cholHessian (k, l, i, j)) ∧
      (qpDUNES_factorizeNewtonHessianBottomUp sqrt_f opt N nX
          (qpDUNES_factorizeNewtonHessianBottomUp sqrt_f opt N nX c0 M_old ((N : Int) - 1)
            f0).2.cholHessian M_new idx f).1
        = (qpDUNES_factorizeNewtonHessianBottomUp sqrt_f opt N nX
          (qpDUNES_factorizeNewtonHessianBottomUp sqrt_f opt N nX c0 M_old ((N : Int) - 1)
            f0).2.cholHessian M_new ((N : Int) - 1) f).1 ∧
      (qpDUNES_factorizeNewtonHessianBottomUp sqrt_f opt N nX
          (qpDUNES_factorizeNewtonHessianBottomUp sqrt_f opt N nX c0 M_old ((N : Int) - 1)
            f0).2.cholHessian M_new idx f).2.cholHessian
        = (qpDUNES_factorizeNewtonHessianBottomUp sqrt_f opt N nX
          (qpDUNES_factorizeNewtonHessianBottomUp sqrt_f opt N nX c0 M_old ((N : Int) - 1)
            f0).2.cholHessian M_new ((N : Int) - 1) f).2.cholHessian ∧
      (∀ (c1 : xn2x_matrix_t α) (f1 : Bool),
        (qpDUNES_factorizeNewtonHessianBottomUp sqrt_f opt N nX
          (qpDUNES_factorizeNewtonHessianBottomUp sqrt_f opt N nX c0 M_old ((N : Int) - 1)
            f0).2.cholHessian M_new idx f).1
        = (qpDUNES_factorizeNewtonHessianBottomUp sqrt_f opt N nX c1 M_new ((N : Int) - 1)
            f1).1) ∧
      (∀ (c1 : xn2x_matrix_t α) (f1 : Bool),
        (qpDUNES_factorizeNewtonHessianBottomUp sqrt_f opt N nX
          (qpDUNES_factorizeNewtonHessianBottomUp sqrt_f opt N nX c0 M_old ((N : Int) - 1)
            f0).2.cholHessian M_new idx f).1 = return_t.QPDUNES_OK →
        SameFactor N nX
          (qpDUNES_factorizeNewtonHessianBottomUp sqrt_f opt N nX c1 M_new ((N : Int) - 1)
            f1).2.cholHessian
          (qpDUNES_factorizeNewtonHessianBottomUp sqrt_f opt N nX
            (qpDUNES_factorizeNewtonHessianBottomUp sqrt_f opt N nX c0 M_old ((N : Int) - 1)
              f0).2.cholHessian M_new idx f).2.cholHessian) ∧
      ((qpDUNES_factorizeNewtonHessianBottomUp sqrt_f opt N nX
          (qpDUNES_factorizeNewtonHessianBottomUp sqrt_f opt N nX c0 M_old ((N : Int) - 1)
            f0).2.cholHessian M_new idx f).1 = return_t.QPDUNES_OK →
        ∀ k j, k < N → j < nX → RevRowOK sqrt_f opt N nX M_new
          (qpDUNES_factorizeNewtonHessianBottomUp sqrt_f opt N nX
            (qpDUNES_factorizeNewtonHessianBottomUp sqrt_f opt N nX c0 M_old ((N : Int) - 1)
              f0).2.cholHessian M_new idx f).2.cholHessian k j) ∧
      ((∀ x, 0 ≤ x → sqrt_f x * sqrt_f x = x) →
        opt.regType ≠ regType_t.QPDUNES_REG_SINGULAR_DIRECTIONS →
        0 < opt.equalityTolerance →
        (qpDUNES_factorizeNewtonHessianBottomUp sqrt_f opt N nX
          (qpDUNES_factorizeNewtonHessianBottomUp sqrt_f opt N nX c0 M_old ((N : Int) - 1)
            f0).2.cholHessian M_new idx f).1 = return_t.QPDUNES_OK →
        (cholFull N nX
          (qpDUNES_factorizeNewtonHessianBottomUp sqrt_f opt N nX
            (qpDUNES_factorizeNewtonHessianBottomUp sqrt_f opt N nX c0 M_old ((N : Int) - 1)
              f0).2.cholHessian M_new idx f).2.cholHessian).transpose
          * cholFull N nX
            (qpDUNES_factorizeNewtonHessianBottomUp sqrt_f opt N nX
              (qpDUNES_factorizeNewtonHessianBottomUp sqrt_f opt N nX c0 M_old ((N : Int) - 1)
                f0).2.cholHessian M_new idx f).2.cholHessian
        = symFull N nX M_new)) ∧
    (idx < 0 →
      qpDUNES_factorizeNewtonHessianBottomUp sqrt_f opt N nX c0 M_new idx f
        = (return_t.QPDUNES_OK, ⟨c0, f⟩)) := by
  constructor
  · intro h0 hOK hM
    have hrows := factorizeNewtonHessianBottomUp_ok_rows sqrt_f opt N nX c0 M_old _ f0
      (le_of_eq (blockIdxStart_full N).symm) hOK
    generalize (qpDUNES_factorizeNewtonHessianBottomUp sqrt_f opt N nX c0 M_old ((N : Int) - 1)
      f0).2.cholHessian = L at hrows
    have hrows1 : ∀ k j, (blockIdxStart N idx + 1).toNat ≤ k → k < N → j < nX →
        RevRowOK sqrt_f opt N nX M_new L k j := by
      intro k j hk1 hk2 hj
      exact RevRowOK_congr sqrt_f opt N nX M_old M_new L L k j
        (fun _ _ => ⟨fun _ => rfl, fun _ => rfl, rfl⟩)
        (fun l i j1 => hM k l i j1 (blockIdxStart_above N idx k hk2 hk1)) (hrows k j hk2 hj)
    obtain ⟨hst, hch⟩ := partial_eq_full sqrt_f opt N nX L M_new idx f hrows1
    have hnew : (qpDUNES_factorizeNewtonHessianBottomUp sqrt_f opt N nX L M_new idx f).1
          = return_t.QPDUNES_OK →
        ∀ k j, k < N → j < nX → RevRowOK sqrt_f opt N nX M_new
          (qpDUNES_factorizeNewtonHessianBottomUp sqrt_f opt N nX L M_new idx
            f).2.cholHessian k j := by
      intro hP
      rw [hch]
      exact factorizeNewtonHessianBottomUp_ok_rows sqrt_f opt N nX L M_new _ f
        (le_of_eq (blockIdxStart_full N).symm) (hst ▸ hP)
    refine ⟨blockIdxStart_eq_min N idx h0, ?_, hst, hch, ?_, ?_, hnew, ?_⟩
    · intro k l i j hk
      exact partial_frame sqrt_f opt N nX L M_new idx f (k, l, i, j)
        ((blockIdxStart_above_iff N idx h0 k).mp hk)
    · intro c1 f1
      rw [hst]
      exact (factorizeNewtonHessianBottomUp_buffer_independent sqrt_f opt N nX M_new L c1
        f f1).1
    · intro c1 f1 hP
      rw [hch]
      have h1 := factorizeNewtonHessianBottomUp_buffer_independent sqrt_f opt N nX M_new c1 L
        f1 f
      exact h1.2 (h1.1.trans (hst.symm.trans hP))
    · intro hsqrt hreg htol hP
      exact rev_full_identity sqrt_f hsqrt opt N nX M_new _ hreg htol (hnew hP)
  · intro hneg
    unfold qpDUNES_factorizeNewtonHessianBottomUp
    rw [blockIdxStart_neg N idx hneg]
    rfl

/-- Witness of C6: `N = 2`, `nX = 1` over the reals; the factor of `[[25, 20], [20, 25]]` is
refactorized for the Hessian with `M[0,0] = 32` from block index 0: the call returns
QPDUNES_OK and its result is the factor of the new Hessian; the call with index `-1` leaves
the buffer alone. -/
theorem C6_witness :
    (blockIdxStart 2 0 = min 0 (((2 : Nat) : Int) - 1) ∧
      (∀ (k : Nat) (l : Int) (i j : Nat), min 0 (((2 : Nat) : Int) - 1) < (k : Int) →
        (qpDUNES_factorizeNewtonHessianBottomUp Real.sqrt (exOpt ℝ) 2 1
          (qpDUNES_factorizeNewtonHessianBottomUp Real.sqrt (exOpt ℝ) 2 1 (fun _ => 0)
            (exHessian4 ℝ) (((2 : Nat) : Int) - 1) false).2.cholHessian
          (exHessian5 ℝ) 0 false).2.cholHessian (k, l, i, j)
        = (qpDUNES_factorizeNewtonHessianBottomUp Real.sqrt (exOpt ℝ) 2 1 (fun _ => 0)
            (exHessian4 ℝ) (((2 : Nat) : Int) - 1) false).2.cholHessian (k, l, i, j)) ∧
      (qpDUNES_factorizeNewtonHessianBottomUp Real.sqrt (exOpt ℝ) 2 1
          (qpDUNES_factorizeNewtonHessianBottomUp Real.sqrt (exOpt ℝ) 2 1 (fun _ => 0)
            (exHessian4 ℝ) (((2 : Nat) : Int) - 1) false).2.cholHessian
          (exHessian5 ℝ) 0 false).1
        = (qpDUNES_factorizeNewtonHessianBottomUp Real.sqrt (exOpt ℝ) 2 1
          (qpDUNES_factorizeNewtonHessianBottomUp Real.sqrt (exOpt ℝ) 2 1 (fun _ => 0)
            (exHessian4 ℝ) (((2 : Nat) : Int) - 1) false).2.cholHessian
          (exHessian5 ℝ) (((2 : Nat) : Int) - 1) false).1 ∧
      (qpDUNES_factorizeNewtonHessianBottomUp Real.sqrt (exOpt ℝ) 2 1
          (qpDUNES_factorizeNewtonHessianBottomUp Real.sqrt (exOpt ℝ) 2 1 (fun _ => 0)
            (exHessian4 ℝ) (((2 : Nat) : Int) - 1) false).2.cholHessian
          (exHessian5 ℝ) 0 false).2.cholHessian
        = (qpDUNES_factorizeNewtonHessianBottomUp Real.sqrt (exOpt ℝ) 2 1
          (qpDUNES_factorizeNewtonHessianBottomUp Real.sqrt (exOpt ℝ) 2 1 (fun _ => 0)
            (exHessian4 ℝ) (((2 : Nat) : Int) - 1) false).2.cholHessian
          (exHessian5 ℝ) (((2 : Nat) : Int) - 1) false).2.cholHessian ∧
      (qpDUNES_factorizeNewtonHessianBottomUp Real.sqrt (exOpt ℝ) 2 1
          (qpDUNES_factorizeNewtonHessianBottomUp Real.sqrt (exOpt ℝ) 2 1 (fun _ => 0)
            (exHessian4 ℝ) (((2 : Nat) : Int) - 1) false).2.cholHessian
          (exHessian5 ℝ) 0 false).1 = return_t.QPDUNES_OK ∧
      (∀ (c1 : xn2x_matrix_t ℝ) (f1 : Bool),
        (qpDUNES_factorizeNewtonHessianBottomUp Real.sqrt (exOpt ℝ) 2 1 c1 (exHessian5 ℝ)
          (((2 : Nat) : Int) - 1) f1).1 = return_t.QPDUNES_OK ∧
        SameFactor 2 1
          (qpDUNES_factorizeNewtonHessianBottomUp Real.sqrt (exOpt ℝ) 2 1 c1 (exHessian5 ℝ)
            (((2 : Nat) : Int) - 1) f1).2.cholHessian
          (qpDUNES_factorizeNewtonHessianBottomUp Real.sqrt (exOpt ℝ) 2 1
            (qpDUNES_factorizeNewtonHessianBottomUp Real.sqrt (exOpt ℝ) 2 1 (fun _ => 0)
              (exHessian4 ℝ) (((2 : Nat) : Int) - 1) false).2.cholHessian
            (exHessian5 ℝ) 0 false).2.cholHessian) ∧
      (∀ k j, k < 2 → j < 1 → RevRowOK Real.sqrt (exOpt ℝ) 2 1 (exHessian5 ℝ)
        (qpDUNES_factorizeNewtonHessianBottomUp Real.sqrt (exOpt ℝ) 2 1
          (qpDUNES_factorizeNewtonHessianBottomUp Real.sqrt (exOpt ℝ) 2 1 (fun _ => 0)
            (exHessian4 ℝ) (((2 : Nat) : Int) - 1) false).2.cholHessian
          (exHessian5 ℝ) 0 false).2.cholHessian k j) ∧
      (cholFull 2 1
        (qpDUNES_factorizeNewtonHessianBottomUp Real.sqrt (exOpt ℝ) 2 1
          (qpDUNES_factorizeNewtonHessianBottomUp Real.sqrt (exOpt ℝ) 2 1 (fun _ => 0)
            (exHessian4 ℝ) (((2 : Nat) : Int) - 1) false).2.cholHessian
          (exHessian5 ℝ) 0 false).2.cholHessian).transpose
        * cholFull 2 1
          (qpDUNES_factorizeNewtonHessianBottomUp Real.sqrt (exOpt ℝ) 2 1
            (qpDUNES_factorizeNewtonHessianBottomUp Real.sqrt (exOpt ℝ) 2 1 (fun _ => 0)
              (exHessian4 ℝ) (((2 : Nat) : Int) - 1) false).2.cholHessian
            (exHessian5 ℝ) 0 false).2.cholHessian
      = symFull 2 1 (exHessian5 ℝ)) ∧
    qpDUNES_factorizeNewtonHessianBottomUp Real.sqrt (exOpt ℝ) 2 1 (fun _ => 0) (exHessian5 ℝ)
        (-1) false
      = (return_t.QPDUNES_OK, ⟨fun _ => 0, false⟩) :=
  have h := (C6_partial_refactorization Real.sqrt (exOpt ℝ) 2 1 (fun _ => 0) (exHessian4 ℝ)
    (exHessian5 ℝ) false false 0).1 (le_refl _) exRev4_status exHessian5_agrees
  have hst := (h.2.2.2.2.1 (fun _ => 0) false).trans exRev5_status
  ⟨⟨h.1, h.2.1, h.2.2.1, h.2.2.2.1, hst,
      fun c1 f1 => ⟨(h.2.2.2.2.1 c1 f1).symm.trans hst, h.2.2.2.2.2.1 c1 f1 hst⟩,
      h.2.2.2.2.2.2.1 hst,
      h.2.2.2.2.2.2.2 (fun _ hx => Real.mul_self_sqrt hx) (by simp [exOpt])
        (by norm_num [exOpt]) hst⟩,
    (C6_partial_refactorization Real.sqrt (exOpt ℝ) 2 1 (fun _ => 0) (exHessian4 ℝ)
      (exHessian5 ℝ) false false (-1)).2 (by norm_num)⟩

/-- C7: `qpDUNES_computeNewtonGradient` writes the dual gradient. For every stage `k < N`
and every `i < n_X` it leaves `gradient[k * n_X + i] = (C_k z_k)[i] + c_k[i] - z_(k+1)[i]`,
with `(C_k z_k)[i]` the sum over `j < n_Z` of `C_k[i * n_Z + j] * z_k[j]`, and it returns
QPDUNES_OK. -/
theorem C7_computeNewtonGradient_correct {α : Type} [LinearOrderedField α] (N nX nZ : Nat)
    (qpData : qpData_t α) (gradient gradPiece : vector_t α) (k i : Nat)
    (hk : k < N) (hi : i < nX) :
    (qpDUNES_computeNewtonGradient N nX nZ qpData gradient gradPiece).1 = return_t.QPDUNES_OK ∧
    (qpDUNES_computeNewtonGradient N nX nZ qpData gradient gradPiece).2.1.data (k * nX + i) =
      ∑ j in Finset.range nZ,
        (qpData.intervals k).C.data (i * nZ + j) * (qpData.intervals k).z.data j
      + (qpData.intervals k).c.data i - (qpData.intervals (k + 1)).z.data i :=
  ⟨rfl, computeNewtonGradient_entry N nX nZ qpData gradient gradPiece k i hk hi⟩

/-- C7 at the first example (`N = 1`, `n_X = 1`, `n_Z = 2`, stage 0 at `(3, 2)`, stage 1 at
`(4, 0)`): the call returns QPDUNES_OK and writes `gradient[0]`, which is `2`. -/
theorem C7_witness :
    (0 : Nat) < 1 ∧
    ((qpDUNES_computeNewtonGradient 1 1 2 (exQp ℝ (exStages1 ℝ)) (exVec (fun _ => 0))
        (exVec (fun _ => 0))).1 = return_t.QPDUNES_OK ∧
      (qpDUNES_computeNewtonGradient 1 1 2 (exQp ℝ (exStages1 ℝ)) (exVec (fun _ => 0))
        (exVec (fun _ => 0))).2.1.data (0 * 1 + 0) =
      ∑ j in Finset.range 2,
        ((exQp ℝ (exStages1 ℝ)).intervals 0).C.data (0 * 2 + j) *
          ((exQp ℝ (exStages1 ℝ)).intervals 0).z.data j
      + ((exQp ℝ (exStages1 ℝ)).intervals 0).c.data 0 -
        ((exQp ℝ (exStages1 ℝ)).intervals (0 + 1)).z.data 0) ∧
    (qpDUNES_computeNewtonGradient 1 1 2 (exQp ℝ (exStages1 ℝ)) (exVec (fun _ => 0))
        (exVec (fun _ => 0))).2.1.data 0 = 2 :=
  ⟨by decide,
    C7_computeNewtonGradient_correct 1 1 2 (exQp ℝ (exStages1 ℝ)) (exVec (fun _ => 0))
      (exVec (fun _ => 0)) 0 0 (by decide) (by decide),
    exGradient1 _ _⟩

/-- C8: optimality test of the outer driver, with a stage solver step that never reports
the optimality status and a square root `sqrt_f` that is nonnegative with
`sqrt_f x * sqrt_f x = x` on nonnegative `x`. Every run of `qpDUNES_solve` that returns
QPDUNES_SUCC_OPTIMAL_SOLUTION_FOUND has, for every stage `k < N` and every `i < n_X`,
`|(C_k z_k + c_k - z_(k+1))[i]| <= stationarityTolerance * sqrt(n_X)` for the `z` at the
return; the stored gradient is this residual and its Euclidean norm is strictly below
`stationarityTolerance`. The status is returned exactly then: a pass of the iteration loop
returns it if and only if it takes the Newton branch and the norm of the gradient computed
at the top of the Hessian assembly is strictly below `stationarityTolerance`, and
`qpDUNES_setupNewtonSystem` produces it under exactly that condition. -/
theorem C8_solve_optimal_stationarity {α : Type} [LinearOrderedField α]
    (sqrt_f : α → α) (hsqrt : ∀ x, 0 ≤ x → sqrt_f x * sqrt_f x = x)
    (hsqrt0 : ∀ x, 0 ≤ x → 0 ≤ sqrt_f x) (ext : collaborators_t α)
    (hstep : ∀ q kk a, (ext.directQpSolver_doStep q kk a).1 ≠
      return_t.QPDUNES_SUCC_OPTIMAL_SOLUTION_FOUND)
    (N nX nZ : Nat) (qpData qpData1 : qpData_t α)
    (hrun : qpDUNES_solve sqrt_f ext N nX nZ qpData =
      some (return_t.QPDUNES_SUCC_OPTIMAL_SOLUTION_FOUND, qpData1)) :
    (∀ k i, k < N → i < nX →
      |∑ j in Finset.range nZ,
          (qpData1.intervals k).C.data (i * nZ + j) * (qpData1.intervals k).z.data j
        + (qpData1.intervals k).c.data i - (qpData1.intervals (k + 1)).z.data i| ≤
        qpData1.options.stationarityTolerance * sqrt_f (nX : α)) ∧
    (vectorNorm sqrt_f qpData1.gradient (nX * N) < qpData1.options.stationarityTolerance ∧
      ∀ k i, k < N → i < nX → qpData1.gradient.data (k * nX + i) =
        ∑ j in Finset.range nZ,
          (qpData1.intervals k).C.data (i * nZ + j) * (qpData1.intervals k).z.data j
        + (qpData1.intervals k).c.data i - (qpData1.intervals (k + 1)).z.data i) ∧
    (∀ (itCntr : Nat) (s : qpData_t α × Int × α) (q : qpData_t α),
      solve_iteration sqrt_f ext N nX nZ itCntr s =
        Except.error (some (return_t.QPDUNES_SUCC_OPTIMAL_SOLUTION_FOUND, q)) ↔
      (¬ ((itCntr : Int) > 1 ∧ (itCntr : Int) - 1 ≤
          (solve_iterationHead itCntr s.1).options.nbrInitialGradientSteps) ∧
        q = setupNewtonSystem_gradient N nX nZ (solve_iterationHead itCntr s.1) ∧
        vectorNorm sqrt_f
          (setupNewtonSystem_gradient N nX nZ (solve_iterationHead itCntr s.1)).gradient
          (nX * N) < (solve_iterationHead itCntr s.1).options.stationarityTolerance)) ∧
    (∀ q : qpData_t α,
      (∃ q1, qpDUNES_setupNewtonSystem sqrt_f ext N nX nZ q =
        some (return_t.QPDUNES_SUCC_OPTIMAL_SOLUTION_FOUND, q1)) ↔
      vectorNorm sqrt_f (setupNewtonSystem_gradient N nX nZ q).gradient (nX * N) <
        q.options.stationarityTolerance) := by
  obtain ⟨itCntr, s, hit⟩ := solve_optimal_from_iteration sqrt_f ext hstep N nX nZ qpData
    qpData1 hrun
  obtain ⟨_, hq, hnorm⟩ := (solve_iteration_optimal sqrt_f ext N nX nZ itCntr s qpData1).mp hit
  have hi : qpData1.intervals = (solve_iterationHead itCntr s.1).intervals := by rw [hq]; rfl
  have ho : qpData1.options = (solve_iterationHead itCntr s.1).options := by rw [hq]; rfl
  refine ⟨fun k i hk hi2 => ?_, ⟨?_, fun k i hk hi2 => ?_⟩,
    fun itCntr s q => solve_iteration_optimal sqrt_f ext N nX nZ itCntr s q,
    fun q => setupNewtonSystem_optimal_iff sqrt_f ext N nX nZ q⟩
  · rw [hi, ho]
    exact optimal_state_bound sqrt_f hsqrt hsqrt0 N nX nZ _ hnorm k i hk hi2
  · rw [ho, hq]
    exact hnorm
  · rw [hi, hq]
    exact computeNewtonGradient_entry N nX nZ _ _ _ k i hk hi2

/-- C8 at the third example (`N = 1`, `n_X = 1`, `n_Z = 2`, the points `(3, 2)` and
`(6, 0)` with residual `3 + 2 + 1 - 6 = 0`, a stage solver that leaves the stages as they
are): the run returns the optimality status in its first pass, so the bound holds at its
return. -/
theorem C8_witness :
    ∃ qpData1, qpDUNES_solve Real.sqrt (exExt ℝ) 1 1 2 (exQp ℝ (exStages3 ℝ)) =
        some (return_t.QPDUNES_SUCC_OPTIMAL_SOLUTION_FOUND, qpData1) ∧
      (∀ k i, k < 1 → i < 1 →
        |∑ j in Finset.range 2,
            (qpData1.intervals k).C.data (i * 2 + j) * (qpData1.intervals k).z.data j
          + (qpData1.intervals k).c.data i - (qpData1.intervals (k + 1)).z.data i| ≤
          qpData1.options.stationarityTolerance * Real.sqrt ((1 : Nat) : ℝ)) ∧
      vectorNorm Real.sqrt qpData1.gradient (1 * 1) < qpData1.options.stationarityTolerance := by
  obtain ⟨qpData1, h⟩ := exSolve3_optimal
  have hc := C8_solve_optimal_stationarity Real.sqrt (fun x hx => Real.mul_self_sqrt hx)
    (fun x _ => Real.sqrt_nonneg x) (exExt ℝ) (fun q kk a => by simp [exExt]) 1 1 2
    (exQp ℝ (exStages3 ℝ)) qpData1 h
  exact ⟨qpData1, h, hc.1, hc.2.1.1⟩

/-- C9: recomputation policy of the Newton Hessian assembly. On a call of
`qpDUNES_setupNewtonSystem` that returns QPDUNES_OK, a stored entry is overwritten exactly
when it lies in a recomputed block: a diagonal block `M[k,0]` with `actSetHasChanged` in
stage `k` or stage `k + 1`, or a sub-diagonal block `M[k,-1]`, `k >= 1`, with
`actSetHasChanged` in stage `k`. Every other stored entry keeps the value it had before
the call, and the entries of the recomputed blocks do not depend on the Hessian stored
before the call: started from any other stored Hessian, the call returns QPDUNES_OK with
the same entries there. -/
theorem C9_setupNewtonSystem_recomputation_policy {α : Type} [LinearOrderedField α]
    (sqrt_f : α → α) (ext : collaborators_t α) (N nX nZ : Nat) (qpData qpData1 : qpData_t α)
    (hOK : qpDUNES_setupNewtonSystem sqrt_f ext N nX nZ qpData =
      some (return_t.QPDUNES_OK, qpData1)) :
    (∀ (K : Nat) (L : Int) (I J : Nat), ¬ Recomputed N nX qpData K L I J →
      qpData1.hessian (K, L, I, J) = qpData.hessian (K, L, I, J)) ∧
    (∀ hessian2 : xn2x_matrix_t α, ∃ qpData2,
      qpDUNES_setupNewtonSystem sqrt_f ext N nX nZ (setHessian qpData hessian2) =
        some (return_t.QPDUNES_OK, qpData2) ∧
      ∀ (K : Nat) (L : Int) (I J : Nat), Recomputed N nX qpData K L I J →
        qpData2.hessian (K, L, I, J) = qpData1.hessian (K, L, I, J)) :=
  setupNewtonSystem_policy sqrt_f ext N nX nZ qpData qpData1 hOK

/-- C9 at the second example (`N = 2`, only stage 1 changed): the call returns QPDUNES_OK,
so the policy holds for its result. -/
theorem C9_witness :
    ∃ qpData1, qpDUNES_setupNewtonSystem Real.sqrt (exExt ℝ) 2 1 2 (exQp ℝ (exStages2 ℝ)) =
        some (return_t.QPDUNES_OK, qpData1) ∧
      ((∀ (K : Nat) (L : Int) (I J : Nat), ¬ Recomputed 2 1 (exQp ℝ (exStages2 ℝ)) K L I J →
        qpData1.hessian (K, L, I, J) = (exQp ℝ (exStages2 ℝ)).hessian (K, L, I, J)) ∧
      (∀ hessian2 : xn2x_matrix_t ℝ, ∃ qpData2,
        qpDUNES_setupNewtonSystem Real.sqrt (exExt ℝ) 2 1 2
            (setHessian (exQp ℝ (exStages2 ℝ)) hessian2) =
          some (return_t.QPDUNES_OK, qpData2) ∧
        ∀ (K : Nat) (L : Int) (I J : Nat), Recomputed 2 1 (exQp ℝ (exStages2 ℝ)) K L I J →
          qpData2.hessian (K, L, I, J) = qpData1.hessian (K, L, I, J))) := by
  obtain ⟨qpData1, h⟩ := exSetup2_ok
  exact ⟨qpData1, h, C9_setupNewtonSystem_recomputation_policy Real.sqrt (exExt ℝ) 2 1 2
    (exQp ℝ (exStages2 ℝ)) qpData1 h⟩

/-- C10 at a state bound whose multiplier equals `equalityTolerance` (`N = 1`, `n_X = 1`,
`n_Z = 2`, diagonal stage Hessians `diag(2, 4)`, `C_0 = [1 1]`, both stages changed, the
lower bound multiplier of the state of stage 1 equal to `equalityTolerance`): the call
returns QPDUNES_OK and stores `M[0,0] = 3/4`, the sum `1/2 + 1/4` over the two inactive
variables of stage 0 without the term of stage 1, while the stated block, with a variable
active exactly when a multiplier exceeds `equalityTolerance`, is `1/2 + 3/4 = 5/4`. -/
theorem C10_weakly_active_state_bound :
    ∃ qpData1, qpDUNES_setupNewtonSystem Real.sqrt (exExt ℝ) 1 1 2 (exQp ℝ (exStages1 ℝ)) =
        some (return_t.QPDUNES_OK, qpData1) ∧
      qpData1.hessian (0, 0, 0, 0) = 3 / 4 ∧
      ¬ isActive (exQp ℝ (exStages1 ℝ)) 1 0 ∧
      claimedDiagEntry 2 (exQp ℝ (exStages1 ℝ)) 0 0 0 = 5 / 4 := by
  obtain ⟨qpData1, h, hv⟩ := exSetup1_value
  refine ⟨qpData1, h, hv, ?_, ?_⟩
  · simp [isActive, exQp, exStages1, exStage, exVec, exOpt]
  · simp [claimedDiagEntry, exQp, exStages1, exStage, exVec, exOpt, Finset.sum_range_succ]
    norm_num

/-- C11: for stages with a diagonal or identity Hessian and the `cholH` that `factorizeH`
leaves for it, the sub-diagonal block loop of `qpDUNES_setupNewtonSystem`
(dual_qp.c 401-422) goes through and writes `M[k,-1][i][j] = - C_k[i,j] / H_k,jj` when both
bound multipliers of state variable `j` of stage `k` are at most `equalityTolerance` and
`0` otherwise, for every block `1 <= k < N` whose stage reports a changed active set and
all `i, j < n_X`; and every call of `qpDUNES_setupNewtonSystem` that returns QPDUNES_OK
leaves these entries in the recomputed sub-diagonal blocks. -/
theorem C11_setupNewtonSystem_subdiagonal_blocks {α : Type} [LinearOrderedField α]
    (sqrt_f : α → α) (ext : collaborators_t α) (N nX nZ : Nat) (qpData : qpData_t α)
    (hfac : ∀ k, 1 ≤ k → k < N → (qpData.intervals k).actSetHasChanged = true →
      FactorizedStage (qpData.intervals k) ∧ nX ≤ (qpData.intervals k).nV) :
    (∃ q2, forUpO (setupNewtonSystem_subBlock nX nZ) 1 (N - 1) qpData = some q2 ∧
      ∀ k, 1 ≤ k → k < N → (qpData.intervals k).actSetHasChanged = true →
        ∀ i j, i < nX → j < nX →
          q2.hessian (k, -1, i, j) = claimedSubEntry nZ qpData k i j) ∧
    (∀ qpData1, qpDUNES_setupNewtonSystem sqrt_f ext N nX nZ qpData =
        some (return_t.QPDUNES_OK, qpData1) →
      ∀ k, 1 ≤ k → k < N → (qpData.intervals k).actSetHasChanged = true →
        ∀ i j, i < nX → j < nX →
          qpData1.hessian (k, -1, i, j) = claimedSubEntry nZ qpData k i j) := by
  constructor
  · obtain ⟨q2, h1, _, _, h2⟩ := subLoop_value nX nZ qpData (N - 1)
      (fun k hk1 hk2 => hfac k hk1 (by omega)) qpData rfl rfl
    exact ⟨q2, h1, fun k hk1 hk2 => h2 k hk1 (by omega)⟩
  · intro qpData1 hrun
    exact setupNewtonSystem_subValue sqrt_f ext N nX nZ qpData qpData1 hfac hrun

/-- C11 at the second example (`N = 2`, `n_X = 1`, stage 1 changed, `H_1 = diag(2, 4)`,
`C_1 = [1 1]`, no active bound): the call returns QPDUNES_OK and stores
`M[1,-1][0][0] = -1/2`. -/
theorem C11_witness :
    ∃ qpData1, qpDUNES_setupNewtonSystem Real.sqrt (exExt ℝ) 2 1 2 (exQp ℝ (exStages2 ℝ)) =
        some (return_t.QPDUNES_OK, qpData1) ∧
      qpData1.hessian (1, -1, 0, 0) = -(1 / 2) := by
  obtain ⟨qpData1, h⟩ := exSetup2_ok
  refine ⟨qpData1, h, ?_⟩
  rw [(C11_setupNewtonSystem_subdiagonal_blocks Real.sqrt (exExt ℝ) 2 1 2
    (exQp ℝ (exStages2 ℝ)) (fun k _ _ _ => exStages2_factorized k)).2 qpData1 h 1
    (by decide) (by decide) (by simp [exQp, exStages2, exStage]) 0 0 (by decide) (by decide)]
  exact exSub2_claimed

/-- C12: status of the forward factorization. With `s(k, j)` the pivot
`M[k,0][j,j] - sum_(l<j) L[k,0][j,l]^2 - (k>0 ? sum_l L[k,-1][j,l]^2 : 0)` over the
returned factor `L`: when regType is not SINGULAR_DIRECTIONS,
`qpDUNES_factorizeNewtonHessian` returns DIVISION_BY_ZERO if and only if some pivot
`s(k, j)`, `k < N`, `j < n_X`, is strictly below newtonHessDiagRegTolerance while every
column before it in the order `k = 0..N-1`, `j = 0..n_X-1` has a pivot not below the
tolerance and `L[k,0][j,j] = sqrt(s)`; otherwise it returns QPDUNES_OK with no pivot below
the tolerance and `L[k,0][j,j] = sqrt(s(k, j))` for every `(k, j)`. Under
SINGULAR_DIRECTIONS it returns QPDUNES_OK: every pivot below the tolerance is increased by
`QPDUNES_INFTY^2 + 1` before the square root and isHessianRegularized is set. -/
theorem C12_factorizeNewtonHessian_status {α : Type} [LinearOrderedField α]
    (sqrt_f : α → α) (opt : qpOptions_t α) (N nX : Nat) (cholHessian hessian : xn2x_matrix_t α)
    (flag : Bool) :
    (opt.regType ≠ regType_t.QPDUNES_REG_SINGULAR_DIRECTIONS →
      ((qpDUNES_factorizeNewtonHessian sqrt_f opt N nX cholHessian hessian flag).1 =
          return_t.QPDUNES_ERR_DIVISION_BY_ZERO ↔
        ∃ k j, k < N ∧ j < nX ∧
          fwdSum nX hessian
            (qpDUNES_factorizeNewtonHessian sqrt_f opt N nX cholHessian hessian
              flag).2.cholHessian k j j < opt.newtonHessDiagRegTolerance ∧
          ∀ k1 j1, k1 < N → j1 < nX → (k1 < k ∨ (k1 = k ∧ j1 < j)) →
            ¬ fwdSum nX hessian
              (qpDUNES_factorizeNewtonHessian sqrt_f opt N nX cholHessian hessian
                flag).2.cholHessian k1 j1 j1 < opt.newtonHessDiagRegTolerance ∧
            (qpDUNES_factorizeNewtonHessian sqrt_f opt N nX cholHessian hessian
                flag).2.cholHessian (k1, 0, j1, j1) =
              sqrt_f (fwdSum nX hessian
                (qpDUNES_factorizeNewtonHessian sqrt_f opt N nX cholHessian hessian
                  flag).2.cholHessian k1 j1 j1)) ∧
      ((qpDUNES_factorizeNewtonHessian sqrt_f opt N nX cholHessian hessian flag).1 ≠
          return_t.QPDUNES_ERR_DIVISION_BY_ZERO →
        (qpDUNES_factorizeNewtonHessian sqrt_f opt N nX cholHessian hessian flag).1 =
          return_t.QPDUNES_OK ∧
        ∀ k j, k < N → j < nX →
          ¬ fwdSum nX hessian
            (qpDUNES_factorizeNewtonHessian sqrt_f opt N nX cholHessian hessian
              flag).2.cholHessian k j j < opt.newtonHessDiagRegTolerance ∧
          (qpDUNES_factorizeNewtonHessian sqrt_f opt N nX cholHessian hessian
              flag).2.cholHessian (k, 0, j, j) =
            sqrt_f (fwdSum nX hessian
              (qpDUNES_factorizeNewtonHessian sqrt_f opt N nX cholHessian hessian
                flag).2.cholHessian k j j))) ∧
    (opt.regType = regType_t.QPDUNES_REG_SINGULAR_DIRECTIONS →
      (qpDUNES_factorizeNewtonHessian sqrt_f opt N nX cholHessian hessian flag).1 =
        return_t.QPDUNES_OK ∧
      ∀ k j, k < N → j < nX →
        (fwdSum nX hessian
            (qpDUNES_factorizeNewtonHessian sqrt_f opt N nX cholHessian hessian
              flag).2.cholHessian k j j < opt.newtonHessDiagRegTolerance →
          (qpDUNES_factorizeNewtonHessian sqrt_f opt N nX cholHessian hessian
              flag).2.cholHessian (k, 0, j, j) =
            sqrt_f (fwdSum nX hessian
              (qpDUNES_factorizeNewtonHessian sqrt_f opt N nX cholHessian hessian
                flag).2.cholHessian k j j + (opt.QPDUNES_INFTY * opt.QPDUNES_INFTY + 1)) ∧
          (qpDUNES_factorizeNewtonHessian sqrt_f opt N nX cholHessian hessian
              flag).2.isHessianRegularized = true) ∧
        (¬ fwdSum nX hessian
            (qpDUNES_factorizeNewtonHessian sqrt_f opt N nX cholHessian hessian
              flag).2.cholHessian k j j < opt.newtonHessDiagRegTolerance →
          (qpDUNES_factorizeNewtonHessian sqrt_f opt N nX cholHessian hessian
              flag).2.cholHessian (k, 0, j, j) =
            sqrt_f (fwdSum nX hessian
              (qpDUNES_factorizeNewtonHessian sqrt_f opt N nX cholHessian hessian
                flag).2.cholHessian k j j))) :=
  factorizeNewtonHessian_contract sqrt_f opt N nX cholHessian hessian flag _ _ _ rfl

/-- C12 at the first example Hessian (`N = 2`, `n_X = 1`, `M[0,0] = 4`, `M[1,-1] = 2`,
`M[1,0] = 5`, Levenberg-Marquardt): the factorization returns QPDUNES_OK and every diagonal
entry of the factor is the square root of its pivot. -/
theorem C12_witness :
    (qpDUNES_factorizeNewtonHessian Real.sqrt (exOpt ℝ) 2 1 (fun _ => 0) (exHessian ℝ)
      false).1 = return_t.QPDUNES_OK ∧
    ∀ k j, k < 2 → j < 1 →
      (qpDUNES_factorizeNewtonHessian Real.sqrt (exOpt ℝ) 2 1 (fun _ => 0) (exHessian ℝ)
        false).2.cholHessian (k, 0, j, j) =
      Real.sqrt (fwdSum 1 (exHessian ℝ)
        (qpDUNES_factorizeNewtonHessian Real.sqrt (exOpt ℝ) 2 1 (fun _ => 0) (exHessian ℝ)
          false).2.cholHessian k j j) :=
  ⟨exFactorization_ok, fun k j hk hj =>
    ((((C12_factorizeNewtonHessian_status Real.sqrt (exOpt ℝ) 2 1 (fun _ => 0) (exHessian ℝ)
      false).1 (by simp [exOpt])).2 (by rw [exFactorization_ok]; simp)).2 k j hk hj).2⟩

/-- C13: Levenberg-Marquardt outer regularization. With regType LEVENBERG_MARQUARDT and a
first factorization attempt `r` of the selected variant, let `minDiagElem` be the minimum
diagonal entry of `L` that `qpDUNES_factorNewtonSystem` looks for after a successful
attempt (dual_qp.c 489-498). If `r` returned DIVISION_BY_ZERO or `minDiagElem` is below
newtonHessDiagRegTolerance, then `qpDUNES_factorNewtonSystem` leaves `M[k,0][j,j] + regParam`
in every diagonal entry (`k < N`, `j < n_X`) and every other entry of `M` as it was, sets
isHessianRegularized, and returns the status and the factor of a second factorization of
the regularized `M` by the selected variant, started from the factor of the first attempt
with the start index `N + 1` (all `N` block columns, also for the reverse variant);
otherwise `M` is unchanged and status, factor and flag are those of the first attempt. The
search for `minDiagElem` starts from QPDUNES_INFTY: `minDiagElem` is below the tolerance
exactly when QPDUNES_INFTY is, or the attempt returned QPDUNES_OK and some `L[k,0][i,i]`,
`k < N`, `i < n_X`, is below it. -/
theorem C13_levenberg_marquardt_regularization {α : Type} [LinearOrderedField α]
    (sqrt_f : α → α) (N nX : Nat) (qpData : qpData_t α) (isHessianRegularized : Bool)
    (lastActSetChangeIdx : Int) (r : return_t × cholState_t α)
    (hreg : qpData.options.regType = regType_t.QPDUNES_REG_LEVENBERG_MARQUARDT)
    (hfirst : factorNewtonSystem_factorize sqrt_f N nX qpData lastActSetChangeIdx
      isHessianRegularized = some r) :
    ((r.1 = return_t.QPDUNES_ERR_DIVISION_BY_ZERO ∨
        factorNewtonSystem_minDiagElem N nX
          ({ qpData with cholHessian := r.2.cholHessian } : qpData_t α) r.1 <
          qpData.options.newtonHessDiagRegTolerance) →
      (∀ (K : Nat) (L : Int) (I J : Nat),
        (qpDUNES_factorNewtonSystem sqrt_f N nX qpData isHessianRegularized
            lastActSetChangeIdx).2.1.hessian (K, L, I, J) =
          if L = 0 ∧ K < N ∧ I = J ∧ I < nX then
            qpData.hessian (K, L, I, J) + qpData.options.regParam
          else qpData.hessian (K, L, I, J)) ∧
      (qpDUNES_factorNewtonSystem sqrt_f N nX qpData isHessianRegularized
          lastActSetChangeIdx).2.2 = true ∧
      (blockIdxStart N ((N : Int) + 1) + 1).toNat = N ∧
      ∃ r2, factorNewtonSystem_factorize sqrt_f N nX
          ({ (qpDUNES_factorNewtonSystem sqrt_f N nX qpData isHessianRegularized
              lastActSetChangeIdx).2.1 with cholHessian := r.2.cholHessian } : qpData_t α)
          ((N : Int) + 1) true = some r2 ∧
        (qpDUNES_factorNewtonSystem sqrt_f N nX qpData isHessianRegularized
          lastActSetChangeIdx).1 = r2.1 ∧
        (qpDUNES_factorNewtonSystem sqrt_f N nX qpData isHessianRegularized
          lastActSetChangeIdx).2.1.cholHessian = r2.2.cholHessian) ∧
    (¬ (r.1 = return_t.QPDUNES_ERR_DIVISION_BY_ZERO ∨
        factorNewtonSystem_minDiagElem N nX
          ({ qpData with cholHessian := r.2.cholHessian } : qpData_t α) r.1 <
          qpData.options.newtonHessDiagRegTolerance) →
      (qpDUNES_factorNewtonSystem sqrt_f N nX qpData isHessianRegularized
        lastActSetChangeIdx).2.1.hessian = qpData.hessian ∧
      (qpDUNES_factorNewtonSystem sqrt_f N nX qpData isHessianRegularized
        lastActSetChangeIdx).1 = r.1 ∧
      (qpDUNES_factorNewtonSystem sqrt_f N nX qpData isHessianRegularized
        lastActSetChangeIdx).2.1.cholHessian = r.2.cholHessian ∧
      (qpDUNES_factorNewtonSystem sqrt_f N nX qpData isHessianRegularized
        lastActSetChangeIdx).2.2 = r.2.isHessianRegularized) ∧
    (factorNewtonSystem_minDiagElem N nX
        ({ qpData with cholHessian := r.2.cholHessian } : qpData_t α) r.1 <
        qpData.options.newtonHessDiagRegTolerance ↔
      (qpData.options.QPDUNES_INFTY < qpData.options.newtonHessDiagRegTolerance ∨
        (r.1 = return_t.QPDUNES_OK ∧ ∃ k i, k < N ∧ i < nX ∧
          r.2.cholHessian (k, 0, i, i) < qpData.options.newtonHessDiagRegTolerance))) := by
  obtain ⟨h1, h2⟩ := factorNewtonSystem_LM sqrt_f N nX qpData isHessianRegularized
    lastActSetChangeIdx r hreg hfirst
  refine ⟨fun ht => ?_, h2, minDiagElem_lt_iff N nX
    ({ qpData with cholHessian := r.2.cholHessian } : qpData_t α) r.1
    qpData.options.newtonHessDiagRegTolerance⟩
  obtain ⟨a, b, c⟩ := h1 ht
  exact ⟨a, b, blockIdxStart_refactor N, c⟩

/-- C13 at a singular Newton Hessian (`N = 1`, `n_X = 1`, `M[0,0] = 0`, the default
`regParam = 1e-6` and tolerance `1e-10`, forward variant): the first factorization returns
DIVISION_BY_ZERO, the driver leaves `M[0,0] = 1e-6` and the sub-diagonal entry as it was,
sets isHessianRegularized and returns QPDUNES_OK from the second factorization. -/
theorem C13_witness :
    (qpDUNES_factorizeNewtonHessian Real.sqrt (exOpt ℝ) 1 1 (fun _ => 0) (fun _ => 0) false).1 =
      return_t.QPDUNES_ERR_DIVISION_BY_ZERO ∧
    (qpDUNES_factorNewtonSystem Real.sqrt 1 1
      (exQpHessian ℝ (exStages1 ℝ) (fun _ => 0)) false 1).1 = return_t.QPDUNES_OK ∧
    (qpDUNES_factorNewtonSystem Real.sqrt 1 1
      (exQpHessian ℝ (exStages1 ℝ) (fun _ => 0)) false 1).2.2 = true ∧
    (qpDUNES_factorNewtonSystem Real.sqrt 1 1
      (exQpHessian ℝ (exStages1 ℝ) (fun _ => 0)) false 1).2.1.hessian (0, 0, 0, 0) =
      1 / 1000000 ∧
    (qpDUNES_factorNewtonSystem Real.sqrt 1 1
      (exQpHessian ℝ (exStages1 ℝ) (fun _ => 0)) false 1).2.1.hessian (0, -1, 0, 0) = 0 := by
  have h := (C13_levenberg_marquardt_regularization Real.sqrt 1 1
    (exQpHessian ℝ (exStages1 ℝ) (fun _ => 0)) false 1
    (qpDUNES_factorizeNewtonHessian Real.sqrt (exOpt ℝ) 1 1 (fun _ => 0) (fun _ => 0) false)
    rfl rfl).1 (Or.inl exLM_first)
  refine ⟨exLM_first, exLM_status, h.2.1, ?_, ?_⟩
  · rw [h.1 0 0 0 0]
    norm_num [exQpHessian, exQp, exOpt]
  · rw [h.1 0 (-1) 0 0]
    norm_num [exQpHessian, exQp, exOpt]

/-- C15 (as stated, refuted): for the factor `L[0,0] = [[2e12, 0], [1, 1]]` (`N = 1`,
`n_X = 2`) with the default `QPDUNES_INFTY = 1e12` and the gradient `(1, 1)`, the diagonal
entry of coordinate `(0, 0)` exceeds QPDUNES_INFTY, but the vector returned by
`qpDUNES_solveNewtonEquation` holds `-1/2e12` there, not 0: the second solve overwrites the
zero of the first. -/
theorem C15_counterexample :
    exFactor6 ℝ (0, 0, 0, 0) > (exOpt ℝ).QPDUNES_INFTY ∧
    (qpDUNES_solveNewtonEquation (exOpt ℝ) 1 2 (fun _ => 0) (exFactor6 ℝ) (fun _ => 1)).2
      (0 * 2 + 0) ≠ 0 := by
  refine ⟨by norm_num [exFactor6, exOpt], ?_⟩
  rw [exSentinel_value]
  norm_num

/-- C15 (amended): zero-curvature sentinel. For every factor `L`, gradient `g` and
coordinate `(k, i)`, `k < N`, `i < n_X`, whose diagonal entry `L[k,0][i,i]` is greater than
QPDUNES_INFTY: the coordinate is 0 after the first triangular solve `L x = g` of
`qpDUNES_solveNewtonEquation`; the second solve `L^T res = x` then leaves
`res[k n_X + i] = - (sum_(j>i) L[k,0][j,i] res[k n_X + j]
  + (k < N-1 ? sum_j L[k+1,-1][j,i] res[(k+1) n_X + j] : 0)) / L[k,0][i,i]`
in the returned vector, which is 0 when column `(k, i)` of `L` is zero below the
diagonal. -/
theorem C15_sentinel_coordinate {α : Type} [LinearOrderedField α]
    (opt : qpOptions_t α) (N nX : Nat) (res : Nat → α) (cholHessian : xn2x_matrix_t α)
    (gradient : Nat → α) (k i : Nat) (hk : k < N) (hi : i < nX)
    (hbig : cholHessian (k, 0, i, i) > opt.QPDUNES_INFTY) :
    solveNewtonEquation_forward opt N nX res cholHessian gradient (k * nX + i) = 0 ∧
    (qpDUNES_solveNewtonEquation opt N nX res cholHessian gradient).2 (k * nX + i) =
      - upPart N nX cholHessian
          (qpDUNES_solveNewtonEquation opt N nX res cholHessian gradient).2 k i /
        cholHessian (k, 0, i, i) ∧
    ((∀ j, i < j → j < nX → cholHessian (k, 0, j, i) = 0) →
      (k + 1 < N → ∀ j, j < nX → cholHessian (k + 1, -1, j, i) = 0) →
      (qpDUNES_solveNewtonEquation opt N nX res cholHessian gradient).2 (k * nX + i) = 0) := by
  have h := solveNewtonEquation_sentinel_value opt N nX res cholHessian gradient k i hk hi hbig
  refine ⟨solveNewtonEquation_forward_sentinel opt N nX res cholHessian gradient k i hk hi hbig,
    h, fun h1 h2 => ?_⟩
  rw [h, upPart_eq_zero N nX cholHessian _ k i h1 h2]
  simp

/-- C15 (amended) at the example factor: coordinate `(0, 0)` is 0 after the first solve, and
the returned value is the coupling with coordinate `(0, 1)` divided by the diagonal entry. -/
theorem C15_witness :
    exFactor6 ℝ (0, 0, 0, 0) > (exOpt ℝ).QPDUNES_INFTY ∧
    solveNewtonEquation_forward (exOpt ℝ) 1 2 (fun _ => 0) (exFactor6 ℝ) (fun _ => 1)
      (0 * 2 + 0) = 0 ∧
    (qpDUNES_solveNewtonEquation (exOpt ℝ) 1 2 (fun _ => 0) (exFactor6 ℝ) (fun _ => 1)).2
        (0 * 2 + 0) =
      - upPart 1 2 (exFactor6 ℝ)
          (qpDUNES_solveNewtonEquation (exOpt ℝ) 1 2 (fun _ => 0) (exFactor6 ℝ)
            (fun _ => 1)).2 0 0 / exFactor6 ℝ (0, 0, 0, 0) :=
  ⟨by norm_num [exFactor6, exOpt],
    (C15_sentinel_coordinate (exOpt ℝ) 1 2 (fun _ => 0) (exFactor6 ℝ) (fun _ => 1) 0 0
      (by decide) (by decide) (by norm_num [exFactor6, exOpt])).1,
    (C15_sentinel_coordinate (exOpt ℝ) 1 2 (fun _ => 0) (exFactor6 ℝ) (fun _ => 1) 0 0
      (by decide) (by decide) (by norm_num [exFactor6, exOpt])).2.1⟩

/-- C16 (as stated, refuted): with `nbrInitialGradientSteps = 1` on the third example
(whose dual gradient vanishes), pass `i = 1` lies in `1 <= i <= nbrInitialGradientSteps`
but is not the gradient step: it takes the Newton branch, which returns the optimality
status; and pass `i = 2 > nbrInitialGradientSteps` is the gradient step, not the Newton
direction. -/
theorem C16_counterexample :
    ((1 : Int) ≤ 1 ∧ (1 : Int) ≤ (exQpOpt ℝ (exStages3 ℝ) (exOptSteps ℝ)).options.nbrInitialGradientSteps) ∧
    solve_direction Real.sqrt (exExt ℝ) 1 1 2 1 (exQpOpt ℝ (exStages3 ℝ) (exOptSteps ℝ)) 0 ≠
      Except.ok (solve_gradientStep (exExt ℝ) 1 1 2 (exQpOpt ℝ (exStages3 ℝ) (exOptSteps ℝ))) ∧
    (2 : Int) > (exQpOpt ℝ (exStages3 ℝ) (exOptSteps ℝ)).options.nbrInitialGradientSteps ∧
    solve_direction Real.sqrt (exExt ℝ) 1 1 2 2 (exQpOpt ℝ (exStages3 ℝ) (exOptSteps ℝ)) 0 ≠
      solve_newtonDirection Real.sqrt (exExt ℝ) 1 1 2
        (exQpOpt ℝ (exStages3 ℝ) (exOptSteps ℝ)) 0 := by
  refine ⟨⟨le_refl _, by simp [exQpOpt, exOptSteps]⟩, ?_, by simp [exQpOpt, exOptSteps], ?_⟩
  · rw [solve_direction_newton Real.sqrt (exExt ℝ) 1 1 2 1 _ 0 (Or.inl rfl), exSteps_newton]
    simp
  · rw [solve_direction_gradient Real.sqrt (exExt ℝ) 1 1 2 2 _ 0
      ⟨le_refl _, by simp [exQpOpt, exOptSteps]⟩, exSteps_newton]
    simp

/-- C16 (amended): direction selection in `qpDUNES_solve`. Every pass of the iteration
loop is its head, the step direction and the rest of the pass. The first pass (`i = 1`)
and every pass `i > nbrInitialGradientSteps + 1` take the Newton direction (assembly,
factorization, back-substitution); every pass `2 <= i <= nbrInitialGradientSteps + 1` is a
gradient step: the dual gradient is computed and copied into `deltaLambda`, and the stored
Hessian and its factor are left as they are. -/
theorem C16_direction_selection {α : Type} [LinearOrderedField α]
    (sqrt_f : α → α) (ext : collaborators_t α) (N nX nZ : Nat) (itCntr : Nat)
    (qpData : qpData_t α) (lastActSetChangeIdx : Int) (objValIncumbent : α) :
    solve_iteration sqrt_f ext N nX nZ itCntr (qpData, lastActSetChangeIdx, objValIncumbent) =
      (match solve_direction sqrt_f ext N nX nZ itCntr (solve_iterationHead itCntr qpData)
          lastActSetChangeIdx with
        | Except.error e => Except.error e
        | Except.ok q => solve_iterationTail sqrt_f ext N nX nZ itCntr objValIncumbent q) ∧
    ((itCntr = 1 ∨ (itCntr : Int) > qpData.options.nbrInitialGradientSteps + 1) →
      solve_direction sqrt_f ext N nX nZ itCntr qpData lastActSetChangeIdx =
        solve_newtonDirection sqrt_f ext N nX nZ qpData lastActSetChangeIdx) ∧
    ((2 ≤ itCntr ∧ (itCntr : Int) ≤ qpData.options.nbrInitialGradientSteps + 1) →
      solve_direction sqrt_f ext N nX nZ itCntr qpData lastActSetChangeIdx =
        Except.ok (solve_gradientStep ext N nX nZ qpData) ∧
      (solve_gradientStep ext N nX nZ qpData).gradient =
        (qpDUNES_computeNewtonGradient N nX nZ qpData qpData.gradient qpData.xVecTmp).2.1 ∧
      (solve_gradientStep ext N nX nZ qpData).deltaLambda =
        ext.qpDUNES_copyVector qpData.deltaLambda
          (qpDUNES_computeNewtonGradient N nX nZ qpData qpData.gradient qpData.xVecTmp).2.1
          (N * nX) ∧
      (solve_gradientStep ext N nX nZ qpData).hessian = qpData.hessian ∧
      (solve_gradientStep ext N nX nZ qpData).cholHessian = qpData.cholHessian) :=
  ⟨solve_iteration_eq sqrt_f ext N nX nZ itCntr (qpData, lastActSetChangeIdx, objValIncumbent),
    solve_direction_newton sqrt_f ext N nX nZ itCntr qpData lastActSetChangeIdx,
    fun h => ⟨solve_direction_gradient sqrt_f ext N nX nZ itCntr qpData lastActSetChangeIdx h,
      rfl, rfl, rfl, rfl⟩⟩

/-- C16 (amended) at the third example with `nbrInitialGradientSteps = 1`: pass 1 takes the
Newton direction and pass 2 is the gradient step. -/
theorem C16_witness :
    solve_direction Real.sqrt (exExt ℝ) 1 1 2 1 (exQpOpt ℝ (exStages3 ℝ) (exOptSteps ℝ)) 0 =
      solve_newtonDirection Real.sqrt (exExt ℝ) 1 1 2
        (exQpOpt ℝ (exStages3 ℝ) (exOptSteps ℝ)) 0 ∧
    solve_direction Real.sqrt (exExt ℝ) 1 1 2 2 (exQpOpt ℝ (exStages3 ℝ) (exOptSteps ℝ)) 0 =
      Except.ok (solve_gradientStep (exExt ℝ) 1 1 2
        (exQpOpt ℝ (exStages3 ℝ) (exOptSteps ℝ))) :=
  ⟨(C16_direction_selection Real.sqrt (exExt ℝ) 1 1 2 1
      (exQpOpt ℝ (exStages3 ℝ) (exOptSteps ℝ)) 0 0).2.1 (Or.inl rfl),
    ((C16_direction_selection Real.sqrt (exExt ℝ) 1 1 2 2
      (exQpOpt ℝ (exStages3 ℝ) (exOptSteps ℝ)) 0 0).2.2
        ⟨le_refl _, by simp [exQpOpt, exOptSteps]⟩).1⟩

/-- C17: full-step shortcut. Over stages that all use the clipping solver and carry a
diagonal Hessian (whose tag `directQpSolver_doStep` leaves), if the minimum
active-set-change step `alphaMin` satisfies `alphaMin > 1 - equalityTolerance` and
newtonHessianRegularized is FALSE, then `qpDUNES_determineStepLength` returns QPDUNES_OK
with `alpha = 1`, the line search counter 0 and `lambda + 1 * deltaLambda` in the first
`n_X N` entries of `lambda`; no line search routine is invoked: the outcome is the same
whatever the trial step and the trial clipping functions, which only the line search
routines call, are; and `alphaMin` is the minimum of QPDUNES_INFTY and the values that
`directQpSolver_getMinStepsize` reports for the stages `0..N`. -/
theorem C17_full_step_shortcut {α : Type} [LinearOrderedField α]
    (sqrt_f : α → α) (ext : collaborators_t α) (N nX nZ : Nat) (qpData : qpData_t α)
    (objValIncumbent : α) (newtonHessianRegularized : Bool)
    (hclip : ∀ k, k ≤ N → (qpData.intervals k).qpSolverSpecification =
      qp_solver_t.QPDUNES_STAGE_QP_SOLVER_CLIPPING)
    (hH : ∀ k, (qpData.intervals k).H.sparsityType = sparsityType_t.QPDUNES_DIAGONAL)
    (hstep : KeepsHessianTag ext)
    (hshort : determineStepLength_alphaMin ext N qpData > 1 - qpData.options.equalityTolerance)
    (hreg : newtonHessianRegularized = false) :
    (∃ q1 obj1, qpDUNES_determineStepLength sqrt_f ext N nX nZ qpData objValIncumbent
          newtonHessianRegularized = some (return_t.QPDUNES_OK, q1, obj1) ∧
      q1.alpha = 1 ∧ (q1.log.itLog 0).numLineSearchIter = 0 ∧
      ∀ i, i < nX * N →
        q1.lambda.data i = qpData.lambda.data i + 1 * qpData.deltaLambda.data i) ∧
    (∀ (doStepTry : qpData_t α → Nat → α → return_t × interval_t α × α)
        (saturateVector : qpData_t α → vector_t α → vector_t α → vector_t α → vector_t α →
          Nat → vector_t α × vector_t α),
      qpDUNES_determineStepLength sqrt_f
          (withLineSearchCollaborators ext doStepTry saturateVector) N nX nZ qpData
          objValIncumbent newtonHessianRegularized =
        qpDUNES_determineStepLength sqrt_f ext N nX nZ qpData objValIncumbent
          newtonHessianRegularized) ∧
    (determineStepLength_alphaMin ext N qpData ≤ qpData.options.QPDUNES_INFTY ∧
      (∀ k, k ≤ N →
        determineStepLength_alphaMin ext N qpData ≤ reportedMinStepsize ext qpData k) ∧
      (determineStepLength_alphaMin ext N qpData = qpData.options.QPDUNES_INFTY ∨
        ∃ k, k ≤ N ∧
          determineStepLength_alphaMin ext N qpData = reportedMinStepsize ext qpData k)) := by
  refine ⟨?_, fun f g => determineStepLength_shortcut_indep sqrt_f ext N nX nZ qpData
    objValIncumbent newtonHessianRegularized hshort hreg f g,
    determineStepLength_alphaMin_min ext N qpData hclip⟩
  obtain ⟨q1, obj1, h1, h2, h3, _, _, h6⟩ := determineStepLength_shortcut sqrt_f ext N nX nZ
    qpData objValIncumbent newtonHessianRegularized hclip hH hstep hshort hreg
  refine ⟨q1, obj1, h1, h2, h3, fun i hi => ?_⟩
  rw [h6 i, if_pos hi]

/-- C17 at the first example (`N = 1`, no stage reports a step size below QPDUNES_INFTY,
the Hessian not regularized): the call returns QPDUNES_OK with `alpha = 1` and the counter
0. -/
theorem C17_witness :
    ∃ q1 obj1, qpDUNES_determineStepLength Real.sqrt (exExt ℝ) 1 1 2 (exQp ℝ (exStages1 ℝ)) 0
        false = some (return_t.QPDUNES_OK, q1, obj1) ∧
      q1.alpha = 1 ∧ (q1.log.itLog 0).numLineSearchIter = 0 := by
  obtain ⟨q1, obj1, h1, h2, h3, _⟩ := (C17_full_step_shortcut Real.sqrt (exExt ℝ) 1 1 2
    (exQp ℝ (exStages1 ℝ)) 0 false (fun k _ => (exStages1_clipping k).1)
    (fun k => (exStages1_clipping k).2) exExt_keepsHessianTag
    (by rw [exAlphaMin1]; norm_num [exQp, exOpt]) rfl).1
  exact ⟨q1, obj1, h1, h2, h3⟩

/-- C18: backtracking line search. With `minProgress =
lineSearchMinRelProgress * |objValIncumbent| + lineSearchMinAbsProgress` and `j` counting
the passes from the start value of the counter: the trial of pass `j` is evaluated at
`alpha = alphaMax * reductionFactor^j`; `qpDUNES_backTrackingLineSearch` returns QPDUNES_OK
at the first pass `j` below the iteration cap whose objective value is strictly greater than
`objValIncumbent + minProgress`, reporting that `alpha` and the counter of that pass; it
returns DECEEDED_MIN_LINESEARCH_STEPSIZE with `alpha := alphaMin` at the first pass whose
trial is rejected and whose reduced step length satisfies
`|deltaLambda| * (alpha - alphaMin) < equalityTolerance`; and it returns
NUMBER_OF_MAX_LINESEARCH_ITERATIONS_REACHED, the counter at maxNumLineSearchIterations,
when every pass below the cap rejects its trial and keeps the step length. -/
theorem C18_backTrackingLineSearch_outcome {α : Type} [LinearOrderedField α]
    (sqrt_f : α → α) (ext : collaborators_t α) (N : Nat) (qpData : qpData_t α)
    (deltaLambdaFS : vector_t α) (nV : Nat) (alphaMin alphaMax objValIncumbent : α) :
    (∀ j s, backTracking_head ext N qpData alphaMax j = some s →
      s.alpha = alphaMax * qpData.options.lineSearchReductionFactor ^ j) ∧
    (∀ j r,
      j < qpData.options.maxNumLineSearchIterations - (qpData.log.itLog 0).numLineSearchIter →
      (∀ i, i < j → backTracking_continues sqrt_f ext N qpData deltaLambdaFS nV alphaMin
        alphaMax objValIncumbent i) →
      backTracking_trial ext N qpData alphaMax j = some r →
      r.1 > objValIncumbent + backTracking_minimumProgress qpData objValIncumbent →
      qpDUNES_backTrackingLineSearch sqrt_f ext N qpData deltaLambdaFS nV alphaMin alphaMax
          objValIncumbent = some (return_t.QPDUNES_OK, r.2) ∧
        r.2.alpha = alphaMax * qpData.options.lineSearchReductionFactor ^ j ∧
        (r.2.log.itLog 0).numLineSearchIter = (qpData.log.itLog 0).numLineSearchIter + j) ∧
    (∀ j r,
      j < qpData.options.maxNumLineSearchIterations - (qpData.log.itLog 0).numLineSearchIter →
      (∀ i, i < j → backTracking_continues sqrt_f ext N qpData deltaLambdaFS nV alphaMin
        alphaMax objValIncumbent i) →
      backTracking_trial ext N qpData alphaMax j = some r →
      ¬ r.1 > objValIncumbent + backTracking_minimumProgress qpData objValIncumbent →
      vectorNorm sqrt_f deltaLambdaFS nV *
        (alphaMax * qpData.options.lineSearchReductionFactor ^ (j + 1) - alphaMin) <
        qpData.options.equalityTolerance →
      ∃ q, qpDUNES_backTrackingLineSearch sqrt_f ext N qpData deltaLambdaFS nV alphaMin
          alphaMax objValIncumbent =
          some (return_t.QPDUNES_ERR_DECEEDED_MIN_LINESEARCH_STEPSIZE, q) ∧
        q.alpha = alphaMin) ∧
    ((∀ j,
        j < qpData.options.maxNumLineSearchIterations -
          (qpData.log.itLog 0).numLineSearchIter →
        backTracking_continues sqrt_f ext N qpData deltaLambdaFS nV alphaMin alphaMax
          objValIncumbent j) →
      ∃ q, qpDUNES_backTrackingLineSearch sqrt_f ext N qpData deltaLambdaFS nV alphaMin
          alphaMax objValIncumbent =
          some (return_t.QPDUNES_ERR_NUMBER_OF_MAX_LINESEARCH_ITERATIONS_REACHED, q) ∧
        (q.log.itLog 0).numLineSearchIter = (qpData.log.itLog 0).numLineSearchIter +
          (qpData.options.maxNumLineSearchIterations -
            (qpData.log.itLog 0).numLineSearchIter)) := by
  obtain ⟨h1, h2, h3⟩ := backTrackingLineSearch_outcome sqrt_f ext N qpData deltaLambdaFS nV
    alphaMin alphaMax objValIncumbent
  refine ⟨fun j s hs => (backTracking_head_frame ext N qpData alphaMax j s hs).2.2.2,
    fun j r hj hc hr ha => ?_, fun j r hj hc hr hn hs => ?_, fun hc => ?_⟩
  · obtain ⟨a, b, c, _⟩ := h1 j r hj hc hr ha
    exact ⟨a, b, c⟩
  · obtain ⟨q, a, b, _⟩ := h2 j r hj hc hr hn hs
    exact ⟨q, a, b⟩
  · obtain ⟨q, a, b, _⟩ := h3 hc
    exact ⟨q, a, b⟩

/-- C18 at the line search example (`N = 1`, `alphaMax = 1`, `alphaMin = 0`, reduction
factor 1/10, incumbent 40, trial objective 33 at `alpha = 1` and 233 at any other step
length): pass 0 rejects `alpha = 1`, pass 1 accepts, and the search returns QPDUNES_OK with
`alpha = 1/10` and the counter 1. -/
theorem C18_witness :
    ∃ r, backTracking_trial (exExtLS ℝ (1 / 4)) 1
        ((exQpLS ℝ (exOptAS ℝ)).setNumLineSearchIter 0) 1 1 = some r ∧
      qpDUNES_backTrackingLineSearch Real.sqrt (exExtLS ℝ (1 / 4)) 1
        ((exQpLS ℝ (exOptAS ℝ)).setNumLineSearchIter 0) (exQpLS ℝ (exOptAS ℝ)).deltaLambda
        (1 * 1) 0 1 40 = some (return_t.QPDUNES_OK, r.2) ∧
      r.2.alpha = 1 / 10 ∧ (r.2.log.itLog 0).numLineSearchIter = 1 := by
  obtain ⟨r1, t1, hacc, _, hj, hc⟩ := exBacktrackingAS_passes (1 / 4)
  obtain ⟨h1, h2, h3⟩ := (C18_backTrackingLineSearch_outcome Real.sqrt (exExtLS ℝ (1 / 4)) 1
    ((exQpLS ℝ (exOptAS ℝ)).setNumLineSearchIter 0) (exQpLS ℝ (exOptAS ℝ)).deltaLambda
    (1 * 1) 0 1 40).2.1 1 r1 hj hc t1 hacc
  refine ⟨r1, t1, h1, h2.trans exReductionAS, ?_⟩
  rw [h3, (setNumLineSearchIter_frame _ 0).2.2.2.2.2]

/-- C19: backtracking with active set change. With lsType BACKTRACKING_LS_WITH_AS_CHANGE,
`alphaMin < 1 - equalityTolerance` (so the full-step shortcut is not taken) and a
backtracking search (started with the counter 0, minimum 0 and maximum 1) that returns a
status other than DECEEDED_MIN_LINESEARCH_STEPSIZE and the step length `alphaBT`, over
clipping stages with diagonal Hessians: `qpDUNES_determineStepLength` returns the status of
the search, and the step length it reports and applies to `lambda` is `alphaMin` if
`alphaBT < alphaMin` and `alphaBT` otherwise, so it is never below `alphaMin`; the first
`n_X N` entries of `lambda` are `lambda + alpha * deltaLambda`. -/
theorem C19_backtracking_with_active_set_change {α : Type} [LinearOrderedField α]
    (sqrt_f : α → α) (ext : collaborators_t α) (N nX nZ : Nat) (qpData : qpData_t α)
    (objValIncumbent : α) (newtonHessianRegularized : Bool) (statusFlag : return_t)
    (qpDataBT : qpData_t α)
    (hls : qpData.options.lsType = lsType_t.QPDUNES_LS_BACKTRACKING_LS_WITH_AS_CHANGE)
    (hmin : determineStepLength_alphaMin ext N qpData < 1 - qpData.options.equalityTolerance)
    (hbt : qpDUNES_backTrackingLineSearch sqrt_f ext N (qpData.setNumLineSearchIter 0)
      qpData.deltaLambda (nX * N) 0 1 objValIncumbent = some (statusFlag, qpDataBT))
    (hst : statusFlag ≠ return_t.QPDUNES_ERR_DECEEDED_MIN_LINESEARCH_STEPSIZE)
    (hclip : ∀ k, k ≤ N → (qpDataBT.intervals k).qpSolverSpecification =
      qp_solver_t.QPDUNES_STAGE_QP_SOLVER_CLIPPING)
    (hH : ∀ k, (qpDataBT.intervals k).H.sparsityType = sparsityType_t.QPDUNES_DIAGONAL)
    (hstep : KeepsHessianTag ext) :
    ¬ (determineStepLength_alphaMin ext N qpData > 1 - qpData.options.equalityTolerance ∧
      newtonHessianRegularized = false) ∧
    ∃ q1 obj1, qpDUNES_determineStepLength sqrt_f ext N nX nZ qpData objValIncumbent
        newtonHessianRegularized = some (statusFlag, q1, obj1) ∧
      q1.alpha = (if qpDataBT.alpha < determineStepLength_alphaMin ext N qpData then
          determineStepLength_alphaMin ext N qpData
        else qpDataBT.alpha) ∧
      determineStepLength_alphaMin ext N qpData ≤ q1.alpha ∧
      ∀ i, i < nX * N →
        q1.lambda.data i = qpData.lambda.data i + q1.alpha * qpData.deltaLambda.data i := by
  have hno : ¬ (determineStepLength_alphaMin ext N qpData >
      1 - qpData.options.equalityTolerance ∧ newtonHessianRegularized = false) :=
    fun h => absurd h.1 (not_lt.mpr (le_of_lt hmin))
  obtain ⟨q1, obj1, h1, h2, h3⟩ := determineStepLength_backtrackingAS sqrt_f ext N nX nZ
    qpData objValIncumbent newtonHessianRegularized statusFlag qpDataBT hls hno hbt hst hclip
    hH hstep
  have h4 : q1.alpha = (if qpDataBT.alpha < determineStepLength_alphaMin ext N qpData then
      determineStepLength_alphaMin ext N qpData else qpDataBT.alpha) := by
    rw [h2]
    by_cases c : qpDataBT.alpha < determineStepLength_alphaMin ext N qpData
    · have c2 : determineStepLength_alphaMin ext N qpData <
          1 - qpData.options.equalityTolerance ∧
          qpDataBT.alpha < determineStepLength_alphaMin ext N qpData := ⟨hmin, c⟩
      rw [if_pos c, if_pos c2]
    · have c2 : ¬ (determineStepLength_alphaMin ext N qpData <
          1 - qpData.options.equalityTolerance ∧
          qpDataBT.alpha < determineStepLength_alphaMin ext N qpData) := fun h => c h.2
      rw [if_neg c, if_neg c2]
  refine ⟨hno, q1, obj1, h1, h4, ?_, fun i hi => ?_⟩
  · rw [h4]
    by_cases c : qpDataBT.alpha < determineStepLength_alphaMin ext N qpData
    · rw [if_pos c]
    · rw [if_neg c]
      exact not_lt.mp c
  · rw [h3 i, if_pos hi]

/-- C19 at the line search example (`N = 1`, every stage reports the active-set-change
step 1/4, reduction factor 1/10, incumbent 40, trial objective 33 at `alpha = 1` and 233
at any other step length): the search rejects `alpha = 1` and accepts `alpha = 1/10`, and
`qpDUNES_determineStepLength` returns QPDUNES_OK with `alpha = 1/4` and
`lambda[0] = 0 + 1/4 * 1`. -/
theorem C19_witness :
    ∃ q1 obj1, qpDUNES_determineStepLength Real.sqrt (exExtLS ℝ (1 / 4)) 1 1 2
        (exQpLS ℝ (exOptAS ℝ)) 40 false = some (return_t.QPDUNES_OK, q1, obj1) ∧
      q1.alpha = 1 / 4 ∧ q1.lambda.data 0 = 1 / 4 := by
  obtain ⟨qb, hbt, ha, hq⟩ := exBacktrackingAS (1 / 4)
  obtain ⟨_, q1, obj1, h1, h2, _, h4⟩ := C19_backtracking_with_active_set_change Real.sqrt
    (exExtLS ℝ (1 / 4)) 1 1 2 (exQpLS ℝ (exOptAS ℝ)) 40 false return_t.QPDUNES_OK qb rfl
    (by rw [exAlphaMinAS]; norm_num [exQpLS, exQpOpt, exQp, exOptAS, exOpt]) hbt (by decide)
    (fun k _ => (hq k).1) (fun k => (hq k).2) (exExtLS_keepsHessianTag (1 / 4))
  have h5 : q1.alpha = 1 / 4 := by
    rw [h2, ha, exAlphaMinAS]
    norm_num
  refine ⟨q1, obj1, h1, h5, ?_⟩
  rw [h4 0 (by decide), h5]
  norm_num [exQpLS, exQpOpt, exQp, exVec]

/-- C20 (as stated, refuted): at the line search example with every stage reporting the
active-set-change step 0, so `alphaMin = 0`, lsType BACKTRACKING_LS and the incumbent 0,
the trial at `alpha = 1` has the objective 33 and is accepted:
`qpDUNES_determineStepLength` returns QPDUNES_OK, not DECEEDED_MIN_LINESEARCH_STEPSIZE, and
takes the full step `alpha = 1`, `lambda[0] = 0 + 1 * 1`. -/
theorem C20_counterexample :
    determineStepLength_alphaMin (exExtLS ℝ 0) 1 (exQpLS ℝ (exOpt ℝ)) = 0 ∧
    (exQpLS ℝ (exOpt ℝ)).options.lsType = lsType_t.QPDUNES_LS_BACKTRACKING_LS ∧
    ∃ q1 obj1, qpDUNES_determineStepLength Real.sqrt (exExtLS ℝ 0) 1 1 2
        (exQpLS ℝ (exOpt ℝ)) 0 false = some (return_t.QPDUNES_OK, q1, obj1) ∧
      q1.alpha = 1 ∧ q1.lambda.data 0 = 1 ∧ (exQpLS ℝ (exOpt ℝ)).lambda.data 0 = 0 := by
  refine ⟨exAlphaMin0, rfl, ?_⟩
  obtain ⟨r, t0, v0, hq⟩ := exTrial0 0 (exOpt ℝ)
  obtain ⟨q1, obj1, h1, h2, h3⟩ := determineStepLength_firstTrial Real.sqrt (exExtLS ℝ 0)
    1 1 2 (exQpLS ℝ (exOpt ℝ)) 0 false r (Or.inl rfl)
    (by rw [exAlphaMin0]; norm_num [exQpLS, exQpOpt, exQp, exOpt])
    (by rw [exAlphaMin0]; norm_num) (by decide) t0
    (by rw [v0]; norm_num [backTracking_minimumProgress, abs_f, exQpLS, exQpOpt, exQp, exOpt])
    (fun k _ => (hq k).1) (fun k => (hq k).2) (exExtLS_keepsHessianTag 0)
  refine ⟨q1, obj1, h1, h2, ?_, rfl⟩
  rw [h3 0]
  norm_num [exQpLS, exQpOpt, exQp, exVec]

/-- C20 (amended): boundary `alphaMin = 0`. With `alphaMin = 0`, `equalityTolerance <= 1`
and lsType BACKTRACKING_LS or BACKTRACKING_LS_WITH_AS_CHANGE the full-step shortcut is not
taken and the outcome is that of the backtracking search (started with the counter 0,
minimum 0 and maximum 1), which depends on the trial objective values: if the search
reports DECEEDED_MIN_LINESEARCH_STEPSIZE, `qpDUNES_determineStepLength` returns that status
at once with `alpha = 0`, `lambda` and `*objValIncumbent` as they were; if the first
trial, at `alpha = 1`, has an objective value above `objValIncumbent + minProgress`
(iteration cap at least 1, clipping stages with diagonal Hessians), it returns QPDUNES_OK
with `alpha = 1` and `lambda + 1 * deltaLambda` in the first `n_X N` entries of
`lambda`. -/
theorem C20_alphaMin_zero {α : Type} [LinearOrderedField α]
    (sqrt_f : α → α) (ext : collaborators_t α) (N nX nZ : Nat) (qpData : qpData_t α)
    (objValIncumbent : α) (newtonHessianRegularized : Bool)
    (hls : qpData.options.lsType = lsType_t.QPDUNES_LS_BACKTRACKING_LS ∨
      qpData.options.lsType = lsType_t.QPDUNES_LS_BACKTRACKING_LS_WITH_AS_CHANGE)
    (hmin : determineStepLength_alphaMin ext N qpData = 0)
    (htol : qpData.options.equalityTolerance ≤ 1) :
    ¬ (determineStepLength_alphaMin ext N qpData > 1 - qpData.options.equalityTolerance ∧
      newtonHessianRegularized = false) ∧
    (∀ qpDataBT, qpDUNES_backTrackingLineSearch sqrt_f ext N (qpData.setNumLineSearchIter 0)
        qpData.deltaLambda (nX * N) 0 1 objValIncumbent =
        some (return_t.QPDUNES_ERR_DECEEDED_MIN_LINESEARCH_STEPSIZE, qpDataBT) →
      qpDUNES_determineStepLength sqrt_f ext N nX nZ qpData objValIncumbent
          newtonHessianRegularized =
        some (return_t.QPDUNES_ERR_DECEEDED_MIN_LINESEARCH_STEPSIZE, qpDataBT,
          objValIncumbent) ∧
      qpDataBT.alpha = 0 ∧ qpDataBT.lambda = qpData.lambda) ∧
    (∀ r, 0 < qpData.options.maxNumLineSearchIterations →
      backTracking_trial ext N (qpData.setNumLineSearchIter 0) 1 0 = some r →
      r.1 > objValIncumbent + backTracking_minimumProgress qpData objValIncumbent →
      (∀ k, k ≤ N → (r.2.intervals k).qpSolverSpecification =
        qp_solver_t.QPDUNES_STAGE_QP_SOLVER_CLIPPING) →
      (∀ k, (r.2.intervals k).H.sparsityType = sparsityType_t.QPDUNES_DIAGONAL) →
      KeepsHessianTag ext →
      ∃ q1 obj1, qpDUNES_determineStepLength sqrt_f ext N nX nZ qpData objValIncumbent
          newtonHessianRegularized = some (return_t.QPDUNES_OK, q1, obj1) ∧
        q1.alpha = 1 ∧
        ∀ i, i < nX * N →
          q1.lambda.data i = qpData.lambda.data i + 1 * qpData.deltaLambda.data i) := by
  have hno : ¬ (determineStepLength_alphaMin ext N qpData >
      1 - qpData.options.equalityTolerance ∧ newtonHessianRegularized = false) := by
    rw [hmin]
    intro h
    have h1 := h.1
    have h2 : (0 : α) ≤ 1 - qpData.options.equalityTolerance := sub_nonneg.mpr htol
    exact absurd h1 (not_lt.mpr h2)
  refine ⟨hno, fun qb hbt => ?_, fun r hmax htrial hacc hclip hH hk => ?_⟩
  · exact determineStepLength_deceeded sqrt_f ext N nX nZ qpData objValIncumbent
      newtonHessianRegularized qb hls hno hbt
  · obtain ⟨q1, obj1, h1, h2, h3⟩ := determineStepLength_firstTrial sqrt_f ext N nX nZ qpData
      objValIncumbent newtonHessianRegularized r hls hno (by rw [hmin]; exact zero_le_one)
      hmax htrial hacc hclip hH hk
    refine ⟨q1, obj1, h1, h2, fun i hi => ?_⟩
    rw [h3 i, if_pos hi]

/-- C20 (amended) at the line search example with the active-set-change step 0, lsType
BACKTRACKING_LS_WITH_AS_CHANGE and the incumbent 0: the first trial (objective 33) is
accepted and the call returns QPDUNES_OK with `alpha = 1`. -/
theorem C20_witness :
    determineStepLength_alphaMin (exExtLS ℝ 0) 1 (exQpLS ℝ (exOptAS ℝ)) = 0 ∧
    ∃ q1 obj1, qpDUNES_determineStepLength Real.sqrt (exExtLS ℝ 0) 1 1 2
        (exQpLS ℝ (exOptAS ℝ)) 0 false = some (return_t.QPDUNES_OK, q1, obj1) ∧
      q1.alpha = 1 := by
  have hm : determineStepLength_alphaMin (exExtLS ℝ 0) 1 (exQpLS ℝ (exOptAS ℝ)) = 0 := by
    norm_num [determineStepLength_alphaMin, forUp, exExtLS, exExt, exQpLS, exQpOpt, exQp,
      exStages1, exStage, exOptAS, exOpt]
  obtain ⟨r, t0, v0, hq⟩ := exTrial0 0 (exOptAS ℝ)
  obtain ⟨q1, obj1, h1, h2, _⟩ := (C20_alphaMin_zero Real.sqrt (exExtLS ℝ 0) 1 1 2
    (exQpLS ℝ (exOptAS ℝ)) 0 false (Or.inr rfl) hm
    (by norm_num [exQpLS, exQpOpt, exQp, exOptAS, exOpt])).2.2 r (by decide) t0
    (by rw [v0]; norm_num [backTracking_minimumProgress, abs_f, exQpLS, exQpOpt, exQp,
      exOptAS, exOpt])
    (fun k _ => (hq k).1) (fun k => (hq k).2) (exExtLS_keepsHessianTag 0)
  exact ⟨hm, q1, obj1, h1, h2⟩

/-- C14 at a singular Newton Hessian (`N = 1`, `n_X = 1`, `n_Z = 2`, regType GRADIENT_STEP,
every variable of both stages at an active lower bound, zero stored Hessian, dual gradient
2): in its first pass `qpDUNES_solve` assembles `M[0,0] = 0`, below the tolerance `1e-10`,
sets isHessianRegularized and returns QPDUNES_ERR_DIVISION_BY_ZERO; `deltaLambda` is not set
to the gradient (it keeps `deltaLambda[0] = 0` while `gradient[0] = 2`) and `lambda` is as
it was: no stage solve and no line search follow. -/
theorem C14_gradient_step_type_ends_solve :
    (exQpGS ℝ).options.regType = regType_t.QPDUNES_REG_GRADIENT_STEP ∧
    ∃ q, qpDUNES_solve Real.sqrt (exExt ℝ) 1 1 2 (exQpGS ℝ) =
        some (return_t.QPDUNES_ERR_DIVISION_BY_ZERO, q) ∧
      q.log.numIter = 1 ∧ (q.log.itLog 0).isHessianRegularized = true ∧
      q.hessian (0, 0, 0, 0) = 0 ∧ (0 : ℝ) < q.options.newtonHessDiagRegTolerance ∧
      q.gradient.data 0 = 2 ∧ q.deltaLambda.data 0 = 0 ∧ q.lambda = (exQpGS ℝ).lambda := by
  refine ⟨rfl, ?_⟩
  obtain ⟨s, hs, hf⟩ := solve_start_exExt_sameButStart 1 (exQpGS ℝ) exGS_diagonal
  have hfh : SameButStart (exQpGS ℝ) (solve_iterationHead 1 s.1) :=
    SameButStart_trans hf (solve_iterationHead_sameButStart 1 s.1)
  have hopt : (solve_iterationHead 1 s.1).options = (exQpGS ℝ).options :=
    congrArg (fun w => w.options) hfh.1
  have hhes : (solve_iterationHead 1 s.1).hessian = (exQpGS ℝ).hessian :=
    congrArg (fun w => w.hessian) hfh.1
  have hdl : (solve_iterationHead 1 s.1).deltaLambda = (exQpGS ℝ).deltaLambda :=
    congrArg (fun w => w.deltaLambda) hfh.1
  have hlam : (solve_iterationHead 1 s.1).lambda = (exQpGS ℝ).lambda :=
    congrArg (fun w => w.lambda) hfh.1
  have hgr : (setupNewtonSystem_gradient 1 1 2 (solve_iterationHead 1 s.1)).gradient.data
      (0 * 1 + 0) = 2 := by
    rw [gradient_entry_sameCoupling 1 1 2 _ _ (SameButStart_coupling hfh) 0 0 (by decide) (by decide)]
    exact exGS_gradient
  obtain ⟨q1, h1, hv⟩ := setupNewtonSystem_returns Real.sqrt (exExt ℝ) 1 1 2
    (solve_iterationHead 1 s.1) (exExt_makesDense ℝ 1) (SameButStart_guards hfh 1 1 2 exGS_guards)
  have hnorm : vectorNorm Real.sqrt
      (setupNewtonSystem_gradient 1 1 2 (solve_iterationHead 1 s.1)).gradient (1 * 1) = 2 := by
    unfold vectorNorm
    rw [scalarProd_eq_sum]
    simp only [Nat.mul_one, Finset.sum_range_one]
    have e : (setupNewtonSystem_gradient 1 1 2 (solve_iterationHead 1 s.1)).gradient.data 0 =
        2 := hgr
    rw [e]
    have : (2 : ℝ) * 2 = 4 := by norm_num
    rw [this, sqrt_four]
  rw [hnorm] at h1 hv
  have hn : ¬ (2 : ℝ) < (solve_iterationHead 1 s.1).options.stationarityTolerance := by
    rw [hopt]
    norm_num [exQpGS, exOptGS, exOpt]
  rw [if_neg hn] at h1
  obtain ⟨o1, _, l1, d1, _, g1, gr1⟩ := setupNewtonSystem_frame Real.sqrt (exExt ℝ) 1 1 2
    (solve_iterationHead 1 s.1) q1 _ h1
  have hM : q1.hessian (0, 0, 0, 0) = 0 := by
    by_cases hc : diagChanged (solve_iterationHead 1 s.1) 0
    · rw [hv hn 0 (by decide) hc 0 0 (by decide) (by decide), SameButStart_diagEntry hfh 2 0 0 0]
      exact exGS_assembled
    · have hnr : ¬ Recomputed 1 1 (solve_iterationHead 1 s.1) 0 0 0 0 := by
        intro h
        rcases h.1 with ⟨_, _, c⟩ | ⟨c, _⟩
        · exact hc c
        · exact absurd c (by decide)
      rw [(setupNewtonSystem_policy Real.sqrt (exExt ℝ) 1 1 2 _ q1 h1).1 0 0 0 0 hnr, hhes]
      rfl
  have ho1 : q1.options = exOptGS ℝ := by
    rw [o1, hopt]
    rfl
  have hfirst : factorNewtonSystem_factorize Real.sqrt 1 1 q1 s.2.1
      (q1.log.itLog 0).isHessianRegularized =
      some (qpDUNES_factorizeNewtonHessian Real.sqrt q1.options 1 1 q1.cholHessian q1.hessian
        (q1.log.itLog 0).isHessianRegularized) := by
    unfold factorNewtonSystem_factorize
    rw [ho1]
    rfl
  have htol : (0 : ℝ) < q1.options.newtonHessDiagRegTolerance := by
    rw [ho1]
    norm_num [exOptGS, exOpt]
  have hdir := solve_newtonDirection_gradientStepType Real.sqrt (exExt ℝ) 1 1 2
    (solve_iterationHead 1 s.1) s.2.1 q1 _ h1 (by rw [ho1]; rfl) hfirst
    (Or.inl (factorizeNewtonHessian_single Real.sqrt q1.options _ _ _
      (by rw [ho1]; decide) (by rw [hM]; exact htol)))
  have hit := solve_iteration_eq Real.sqrt (exExt ℝ) 1 1 2 1 s
  rw [solve_direction_newton Real.sqrt (exExt ℝ) 1 1 2 1 _ _ (Or.inl rfl), hdir] at hit
  have hmax : 0 < s.1.options.maxIter.toNat := by
    have e : s.1.options = (exQpGS ℝ).options := congrArg (fun w => w.options) hf.1
    rw [e]
    decide
  refine ⟨_, solve_first_pass_return Real.sqrt (exExt ℝ) 1 1 2 (exQpGS ℝ) s _ hs hmax hit,
    ?_, ?_, hM, htol, ?_, ?_, ?_⟩
  · have e : q1.log.numIter = 1 := by
      rw [g1]
      rfl
    exact e
  · simp [qpData_t.setItLog]
  · have e : q1.gradient.data 0 = 2 := by
      rw [gr1]
      exact hgr
    exact e
  · have e : q1.deltaLambda.data 0 = 0 := by
      rw [d1, hdl]
      rfl
    exact e
  · exact l1.trans hlam


/-- C29: `qpDUNES_getActSet` writes a ternary status for every coordinate `i < nD + nV` of
every stage `k <= N`: `-1` when the lower multiplier `y_k[2 i]` exceeds
`equalityTolerance`, otherwise `1` when the upper multiplier `y_k[2 i + 1]` exceeds it,
otherwise `0`; every other entry of the table is left as it was; and the returned count is
the number of coordinates it set to a non-zero value. -/
theorem C29_getActSet_ternary_count {α : Type} [LinearOrderedField α] (N : Nat)
    (qpData : qpData_t α)
    (actSetStatus : Nat → Nat → Int) :
    (∀ k i, k ≤ N → i < (qpData.intervals k).nD + (qpData.intervals k).nV →
      (qpDUNES_getActSet N qpData actSetStatus).2 k i =
        if (qpData.intervals k).y.data (2 * i) > qpData.options.equalityTolerance then -1
        else if (qpData.intervals k).y.data (2 * i + 1) > qpData.options.equalityTolerance
          then 1
        else 0) ∧
    (∀ k i, ¬ (k ≤ N ∧ i < (qpData.intervals k).nD + (qpData.intervals k).nV) →
      (qpDUNES_getActSet N qpData actSetStatus).2 k i = actSetStatus k i) ∧
    (qpDUNES_getActSet N qpData actSetStatus).1 =
      ∑ k in Finset.range (N + 1),
        ((Finset.range ((qpData.intervals k).nD + (qpData.intervals k).nV)).filter
          (fun i => (qpDUNES_getActSet N qpData actSetStatus).2 k i ≠ 0)).card := by
  rw [getActSet_eq]
  refine ⟨fun k i hk hi => ?_, fun k i h => ?_, ?_⟩
  · show (if k ≤ N ∧ i < actSetDim qpData k then ternaryStatus qpData k i
      else actSetStatus k i) = _
    rw [if_pos ⟨hk, hi⟩]
    rfl
  · show (if k ≤ N ∧ i < actSetDim qpData k then ternaryStatus qpData k i
      else actSetStatus k i) = _
    rw [if_neg (show ¬ (k ≤ N ∧ i < actSetDim qpData k) from h)]
  · dsimp only
    refine Finset.sum_congr rfl (fun k hk => ?_)
    congr 1
    refine Finset.filter_congr (fun i hi => ?_)
    have hk1 : k ≤ N := Nat.lt_succ_iff.mp (Finset.mem_range.mp hk)
    have hi1 : i < actSetDim qpData k := Finset.mem_range.mp hi
    show _ ↔ (if k ≤ N ∧ i < actSetDim qpData k then ternaryStatus qpData k i
      else actSetStatus k i) ≠ 0
    rw [if_pos ⟨hk1, hi1⟩]

/-- C28: for every pair of active set tables `qpDUNES_compareActSets` returns the number of
coordinates `(k, i)`, `k <= N`, `i < nD + nV`, at which the new and the old status differ;
it sets `actSetHasChanged` of every stage `k <= N` to TRUE exactly when a coordinate of
stage `k` differs; and `lastActSetChangeIdx` is at least every stage index whose flag is
TRUE and is one of them, or is `-1` with no coordinate differing. Nothing else of the state
is written. -/
theorem C28_compareActSets_counts_and_flags {α : Type} (N : Nat) (qpData : qpData_t α)
    (newActSetStatus oldActSetStatus : Nat → Nat → Int) :
    (qpDUNES_compareActSets N qpData newActSetStatus oldActSetStatus).1 =
      ∑ k in Finset.range (N + 1),
        ((Finset.range ((qpData.intervals k).nD + (qpData.intervals k).nV)).filter
          (fun i => newActSetStatus k i ≠ oldActSetStatus k i)).card ∧
    (∀ k, k ≤ N →
      (((qpDUNES_compareActSets N qpData newActSetStatus oldActSetStatus).2.1.intervals
          k).actSetHasChanged = true ↔
        ∃ i, i < (qpData.intervals k).nD + (qpData.intervals k).nV ∧
          newActSetStatus k i ≠ oldActSetStatus k i)) ∧
    (∀ k, k ≤ N →
      ((qpDUNES_compareActSets N qpData newActSetStatus oldActSetStatus).2.1.intervals
          k).actSetHasChanged = true →
      (k : Int) ≤ (qpDUNES_compareActSets N qpData newActSetStatus oldActSetStatus).2.2) ∧
    (((qpDUNES_compareActSets N qpData newActSetStatus oldActSetStatus).2.2 = -1 ∧
        ∀ k i, k ≤ N → i < (qpData.intervals k).nD + (qpData.intervals k).nV →
          newActSetStatus k i = oldActSetStatus k i) ∨
      ∃ k, k ≤ N ∧
        (qpDUNES_compareActSets N qpData newActSetStatus oldActSetStatus).2.2 = (k : Int) ∧
        ((qpDUNES_compareActSets N qpData newActSetStatus oldActSetStatus).2.1.intervals
          k).actSetHasChanged = true) ∧
    (∀ k, ({ (qpDUNES_compareActSets N qpData newActSetStatus oldActSetStatus).2.1.intervals k
        with actSetHasChanged := (qpData.intervals k).actSetHasChanged } : interval_t α) =
      qpData.intervals k) ∧
    ({ (qpDUNES_compareActSets N qpData newActSetStatus oldActSetStatus).2.1 with
        intervals := qpData.intervals } : qpData_t α) = qpData := by
  rw [compareActSets_eq]
  have hflag : ∀ k, k ≤ N →
      (((withChangeFlags qpData newActSetStatus oldActSetStatus (N + 1)).intervals
          k).actSetHasChanged = true ↔
        (changedCoords newActSetStatus oldActSetStatus k (actSetDim qpData k)).Nonempty) := by
    intro k hk
    have hlt : k < N + 1 := Nat.lt_succ_of_le hk
    simp only [withChangeFlags, if_pos hlt, decide_eq_true_eq]
  obtain ⟨s1, s2⟩ := lastChangedStage_spec qpData newActSetStatus oldActSetStatus (N + 1)
  refine ⟨rfl, fun k hk => ?_, fun k hk hf => ?_, ?_, fun k => ?_, rfl⟩
  · exact (hflag k hk).trans (changedCoords_nonempty_iff _ _ _ _)
  · exact s1 k (Nat.lt_succ_of_le hk) ((hflag k hk).mp hf)
  · rcases s2 with ⟨h1, h2⟩ | ⟨k, hk, h1, h2⟩
    · refine Or.inl ⟨h1, fun k i hk hi => ?_⟩
      by_contra hne
      exact h2 k (Nat.lt_succ_of_le hk)
        ((changedCoords_nonempty_iff _ _ _ _).mpr ⟨i, hi, hne⟩)
    · exact Or.inr ⟨k, Nat.lt_succ_iff.mp hk, h1,
        (hflag k (Nat.lt_succ_iff.mp hk)).mpr h2⟩
  · show ({ (withChangeFlags qpData newActSetStatus oldActSetStatus (N + 1)).intervals k
        with actSetHasChanged := (qpData.intervals k).actSetHasChanged } : interval_t α) = _
    unfold withChangeFlags
    dsimp only
    split_ifs <;> rfl

/-- C24: in each of the four line search types that start with the backtracking search
(BACKTRACKING, BACKTRACKING_WITH_AS_CHANGE, ACCELERATED_GRADIENT_BISECTION,
ACCELERATED_GRID), when the full-step shortcut is not taken and the backtracking search
reports DECEEDED_MIN_LINESEARCH_STEPSIZE, `qpDUNES_determineStepLength` returns that status
with `lambda` as at entry (and the incumbent unchanged); and when
`qpDUNES_determineStepLength` returns that status in pass `1 + j` of a run of
`qpDUNES_solve` (after the start and `j` passes that went through), `qpDUNES_solve` returns
QPDUNES_ERR_NEWTON_SYSTEM_NO_ASCENT_DIRECTION from that pass. -/
theorem C24_deceeded_step_size_is_no_ascent_direction {α : Type} [LinearOrderedField α]
    (sqrt_f : α → α) (ext : collaborators_t α) (N nX nZ : Nat) :
    (∀ (qp : qpData_t α) (obj : α) (reg : Bool) (qb : qpData_t α),
      (qp.options.lsType = lsType_t.QPDUNES_LS_BACKTRACKING_LS ∨
        qp.options.lsType = lsType_t.QPDUNES_LS_BACKTRACKING_LS_WITH_AS_CHANGE ∨
        qp.options.lsType = lsType_t.QPDUNES_LS_ACCELERATED_GRADIENT_BISECTION_LS ∨
        qp.options.lsType = lsType_t.QPDUNES_LS_ACCELERATED_GRID_LS) →
      ¬ (determineStepLength_alphaMin ext N qp > 1 - qp.options.equalityTolerance ∧
        reg = false) →
      qpDUNES_backTrackingLineSearch sqrt_f ext N (qp.setNumLineSearchIter 0)
        qp.deltaLambda (nX * N) 0 1 obj =
        some (return_t.QPDUNES_ERR_DECEEDED_MIN_LINESEARCH_STEPSIZE, qb) →
      qpDUNES_determineStepLength sqrt_f ext N nX nZ qp obj reg =
        some (return_t.QPDUNES_ERR_DECEEDED_MIN_LINESEARCH_STEPSIZE, qb, obj) ∧
      qb.lambda = qp.lambda) ∧
    (∀ (qp : qpData_t α) (s0 s : qpData_t α × Int × α) (j : Nat) (qd : qpData_t α)
      (a : return_t × qpData_t α) (d : qpData_t α × α),
      solve_start ext N qp = Except.ok s0 →
      j < s0.1.options.maxIter.toNat →
      forUpM (solve_iteration sqrt_f ext N nX nZ) 1 j s0 = Except.ok s →
      solve_direction sqrt_f ext N nX nZ (1 + j) (solve_iterationHead (1 + j) s.1) s.2.1 =
        Except.ok qd →
      qpDUNES_solveAllLocalQPs ext N nX qd qd.deltaLambda = some a →
      qpDUNES_determineStepLength sqrt_f ext N nX nZ a.2 s.2.2
        (a.2.log.itLog 0).isHessianRegularized =
        some (return_t.QPDUNES_ERR_DECEEDED_MIN_LINESEARCH_STEPSIZE, d) →
      qpDUNES_solve sqrt_f ext N nX nZ qp =
        some (return_t.QPDUNES_ERR_NEWTON_SYSTEM_NO_ASCENT_DIRECTION, d.1)) := by
  refine ⟨fun qp obj reg qb hls hno hbt => ?_, fun qp s0 s j qd a d hstart hj hpre hdir hloc hdet => ?_⟩
  · obtain ⟨h1, _, h3⟩ := determineStepLength_deceeded_any sqrt_f ext N nX nZ qp obj reg qb hls
      hno hbt
    exact ⟨h1, h3⟩
  · have hit := solve_iteration_eq sqrt_f ext N nX nZ (1 + j) s
    rw [hdir] at hit
    dsimp only at hit
    rw [(solve_iterationTail_of sqrt_f ext N nX nZ (1 + j) s.2.2 qd a _ hloc hdet).2.1 rfl]
      at hit
    exact solve_pass_return sqrt_f ext N nX nZ qp s0 s j _ hstart hj hpre hit

/-- Witness for C24: the example run (`N = 1`, `n_X = 1`, `n_Z = 2`, dual gradient 2, Newton
Hessian 3/4, Newton direction 8/3, backtracking search with the reduction factor `1e-13`):
the first trial does not improve on the incumbent, the reduced step length is below the
minimum, and `qpDUNES_solve` returns QPDUNES_ERR_NEWTON_SYSTEM_NO_ASCENT_DIRECTION with
`lambda` as at entry. -/
theorem C24_witness :
    ∃ q, qpDUNES_solve Real.sqrt (exExtLS ℝ 0) 1 1 2
        (exQpRun ℝ (exOptRun ℝ lsType_t.QPDUNES_LS_BACKTRACKING_LS 100 19
          (1 / 10000000000000) logLevel_t.QPDUNES_LOG_OFF)) =
        some (return_t.QPDUNES_ERR_NEWTON_SYSTEM_NO_ASCENT_DIRECTION, q) ∧
      q.lambda = (exQpRun ℝ (exOptRun ℝ lsType_t.QPDUNES_LS_BACKTRACKING_LS 100 19
        (1 / 10000000000000) logLevel_t.QPDUNES_LOG_OFF)).lambda := by
  obtain ⟨s0, qd, a, qb, h1, h2, h3, h4, h5, h6, h7, h8⟩ :=
    exRun_deceeded 100 logLevel_t.QPDUNES_LOG_OFF
  obtain ⟨c1, c2⟩ := C24_deceeded_step_size_is_no_ascent_direction Real.sqrt (exExtLS ℝ 0) 1 1 2
  obtain ⟨d1, d2⟩ := c1 a.2 s0.2.2 (a.2.log.itLog 0).isHessianRegularized qb (Or.inl h5) h6 h7
  refine ⟨qb, c2 _ s0 s0 0 qd a (qb, s0.2.2) h1 ?_ rfl h3 h4 d1, d2.trans h8⟩
  rw [h2]
  decide

/-- C27 (amended): when `qpDUNES_determineStepLength` returns
NUMBER_OF_MAX_LINESEARCH_ITERATIONS_REACHED or EXCEEDED_MAX_LINESEARCH_STEPSIZE in pass
`1 + j` of a run of `qpDUNES_solve`, the pass does not return: it goes through with the
objective value of the determination as incumbent, writing after it only the log and the
change flags of the stages; when it was the last pass that `maxIter` allows,
`qpDUNES_solve` returns QPDUNES_ERR_ITERATION_LIMIT_REACHED, and otherwise the loop goes on
with pass `1 + (j + 1)`. -/
theorem C27_line_search_exhaustion_continues {α : Type} [LinearOrderedField α]
    (sqrt_f : α → α) (ext : collaborators_t α) (N nX nZ : Nat) (qp : qpData_t α)
    (s0 s : qpData_t α × Int × α) (j : Nat) (qd : qpData_t α) (a : return_t × qpData_t α)
    (d : return_t × qpData_t α × α)
    (hstart : solve_start ext N qp = Except.ok s0)
    (hpre : forUpM (solve_iteration sqrt_f ext N nX nZ) 1 j s0 = Except.ok s)
    (hdir : solve_direction sqrt_f ext N nX nZ (1 + j) (solve_iterationHead (1 + j) s.1) s.2.1 =
      Except.ok qd)
    (hloc : qpDUNES_solveAllLocalQPs ext N nX qd qd.deltaLambda = some a)
    (hdet : qpDUNES_determineStepLength sqrt_f ext N nX nZ a.2 s.2.2
      (a.2.log.itLog 0).isHessianRegularized = some d)
    (hst : d.1 = return_t.QPDUNES_ERR_NUMBER_OF_MAX_LINESEARCH_ITERATIONS_REACHED ∨
      d.1 = return_t.QPDUNES_ERR_EXCEEDED_MAX_LINESEARCH_STEPSIZE) :
    ∃ s1, solve_iteration sqrt_f ext N nX nZ (1 + j) s = Except.ok s1 ∧
      s1.2.2 = d.2.2 ∧ SameButStart d.2.1 s1.1 ∧
      (j + 1 = s0.1.options.maxIter.toNat →
        qpDUNES_solve sqrt_f ext N nX nZ qp =
          some (return_t.QPDUNES_ERR_ITERATION_LIMIT_REACHED,
            { s1.1 with log := { s1.1.log with numIter := s1.1.options.maxIter } })) ∧
      (j + 1 < s0.1.options.maxIter.toNat →
        forUpM (solve_iteration sqrt_f ext N nX nZ) 1 (j + 2) s0 =
          solve_iteration sqrt_f ext N nX nZ (1 + (j + 1)) s1) := by
  obtain ⟨s1, h1, h2, h3, h4⟩ := solve_pass_continues sqrt_f ext N nX nZ s0 s j qd a d hpre hdir
    hloc hdet (Or.inr hst)
  refine ⟨s1, h1, h3, h4, fun hlast => ?_, fun _ => ?_⟩
  · refine solve_iteration_limit sqrt_f ext N nX nZ qp s0 s1 hstart ?_
    rw [← hlast]
    exact h2
  · show forUpM (solve_iteration sqrt_f ext N nX nZ) 1 (j + 1 + 1) s0 = _
    simp only [forUpM]
    have h2b : forUpM (solve_iteration sqrt_f ext N nX nZ) 1 (j + 1) s0 = Except.ok s1 := h2
    simp only [forUpM] at h2b
    rw [h2b]

/-- Counterexample to C27: in the example run with the backtracking search limited to one
iteration and `maxIter = 1`, `qpDUNES_determineStepLength` returns
NUMBER_OF_MAX_LINESEARCH_ITERATIONS_REACHED in the first pass (step length 1/10), yet
`qpDUNES_solve` does not return that status: the pass goes through and the run ends with
QPDUNES_ERR_ITERATION_LIMIT_REACHED, with the step taken (`lambda[0] = 4/15`). -/
theorem C27_counterexample :
    ∃ s0 qd a q1 obj1 q,
      solve_start (exExtLS ℝ 0) 1
        (exQpRun ℝ (exOptRun ℝ lsType_t.QPDUNES_LS_BACKTRACKING_LS 1 1 (1 / 10)
          logLevel_t.QPDUNES_LOG_OFF)) = Except.ok s0 ∧
      solve_direction Real.sqrt (exExtLS ℝ 0) 1 1 2 1 (solve_iterationHead 1 s0.1) s0.2.1 =
        Except.ok qd ∧
      qpDUNES_solveAllLocalQPs (exExtLS ℝ 0) 1 1 qd qd.deltaLambda = some a ∧
      qpDUNES_determineStepLength Real.sqrt (exExtLS ℝ 0) 1 1 2 a.2 s0.2.2
        (a.2.log.itLog 0).isHessianRegularized =
        some (return_t.QPDUNES_ERR_NUMBER_OF_MAX_LINESEARCH_ITERATIONS_REACHED, q1, obj1) ∧
      qpDUNES_solve Real.sqrt (exExtLS ℝ 0) 1 1 2
        (exQpRun ℝ (exOptRun ℝ lsType_t.QPDUNES_LS_BACKTRACKING_LS 1 1 (1 / 10)
          logLevel_t.QPDUNES_LOG_OFF)) =
        some (return_t.QPDUNES_ERR_ITERATION_LIMIT_REACHED, q) ∧
      q.alpha = 1 / 10 ∧ q.lambda.data 0 = 4 / 15 := by
  obtain ⟨s0, qd, a, q1, obj1, h1, h2, h3, h4, h5, h6, h7, h8⟩ :=
    exRun_exhausted 1 logLevel_t.QPDUNES_LOG_OFF
  obtain ⟨s1, _, k2, _, k4⟩ := solve_pass_continues Real.sqrt (exExtLS ℝ 0) 1 1 2 s0 s0 0 qd a
    (return_t.QPDUNES_ERR_NUMBER_OF_MAX_LINESEARCH_ITERATIONS_REACHED, q1, obj1) rfl h3 h4 h5
    (Or.inr (Or.inl rfl))
  have hmax : s0.1.options.maxIter.toNat = 0 + 1 := by
    rw [h2]
    rfl
  rw [← hmax] at k2
  refine ⟨s0, qd, a, q1, obj1, _, h1, h3, h4, h5,
    solve_iteration_limit Real.sqrt (exExtLS ℝ 0) 1 1 2 _ s0 s1 h1 k2, ?_, ?_⟩
  · have e : s1.1.alpha = q1.alpha := congrArg (fun w => w.alpha) k4.1
    exact e.trans h6
  · have e : s1.1.lambda = q1.lambda := congrArg (fun w => w.lambda) k4.1
    show s1.1.lambda.data 0 = 4 / 15
    rw [e]
    exact h7

/-- Witness for C27 (amended): the example run with the backtracking search limited to one
iteration and `maxIter = 1`; the first pass goes through after
NUMBER_OF_MAX_LINESEARCH_ITERATIONS_REACHED and the run returns
QPDUNES_ERR_ITERATION_LIMIT_REACHED. -/
theorem C27_witness :
    ∃ s0 s1 q, solve_start (exExtLS ℝ 0) 1
        (exQpRun ℝ (exOptRun ℝ lsType_t.QPDUNES_LS_BACKTRACKING_LS 1 1 (1 / 10)
          logLevel_t.QPDUNES_LOG_OFF)) = Except.ok s0 ∧
      solve_iteration Real.sqrt (exExtLS ℝ 0) 1 1 2 (1 + 0) s0 = Except.ok s1 ∧
      qpDUNES_solve Real.sqrt (exExtLS ℝ 0) 1 1 2
        (exQpRun ℝ (exOptRun ℝ lsType_t.QPDUNES_LS_BACKTRACKING_LS 1 1 (1 / 10)
          logLevel_t.QPDUNES_LOG_OFF)) =
        some (return_t.QPDUNES_ERR_ITERATION_LIMIT_REACHED, q) := by
  obtain ⟨s0, qd, a, q1, obj1, h1, h2, h3, h4, h5, _, _, _⟩ :=
    exRun_exhausted 1 logLevel_t.QPDUNES_LOG_OFF
  obtain ⟨s1, k1, _, _, k4, _⟩ := C27_line_search_exhaustion_continues Real.sqrt (exExtLS ℝ 0)
    1 1 2 _ s0 s0 0 qd a
    (return_t.QPDUNES_ERR_NUMBER_OF_MAX_LINESEARCH_ITERATIONS_REACHED, q1, obj1) h1 rfl h3 h4 h5
    (Or.inl rfl)
  exact ⟨s0, s1, _, h1, k1, k4 (by rw [h2]; rfl)⟩

/-- C25 on an example (`N = 1`, `n_X = 1`, `n_Z = 2`, `maxIter = 1`, a stage solver whose
`directQpSolver_solveUnconstrained` fails in stage 0): in the first pass
`qpDUNES_solveAllLocalQPs` returns QPDUNES_ERR_STAGE_QP_INFEASIBLE, yet the pass goes on:
`qpDUNES_determineStepLength` is called and takes the full step (`alpha = 1`,
`lambda[0] = 8/3`), and `qpDUNES_solve` returns QPDUNES_ERR_ITERATION_LIMIT_REACHED, not
QPDUNES_ERR_STAGE_QP_INFEASIBLE. -/
theorem C25_stage_failure_not_propagated :
    ∃ s0 qd a q1 obj1 q,
      solve_start (exExtInfeasible ℝ) 1
        (exQpRun ℝ (exOptRun ℝ lsType_t.QPDUNES_LS_BACKTRACKING_LS 1 19 (1 / 10)
          logLevel_t.QPDUNES_LOG_OFF)) = Except.ok s0 ∧
      solve_direction Real.sqrt (exExtInfeasible ℝ) 1 1 2 1 (solve_iterationHead 1 s0.1)
        s0.2.1 = Except.ok qd ∧
      qpDUNES_solveAllLocalQPs (exExtInfeasible ℝ) 1 1 qd qd.deltaLambda = some a ∧
      a.1 = return_t.QPDUNES_ERR_STAGE_QP_INFEASIBLE ∧
      qpDUNES_determineStepLength Real.sqrt (exExtInfeasible ℝ) 1 1 2 a.2 s0.2.2
        (a.2.log.itLog 0).isHessianRegularized = some (return_t.QPDUNES_OK, q1, obj1) ∧
      qpDUNES_solve Real.sqrt (exExtInfeasible ℝ) 1 1 2
        (exQpRun ℝ (exOptRun ℝ lsType_t.QPDUNES_LS_BACKTRACKING_LS 1 19 (1 / 10)
          logLevel_t.QPDUNES_LOG_OFF)) =
        some (return_t.QPDUNES_ERR_ITERATION_LIMIT_REACHED, q) ∧
      q.alpha = 1 ∧ q.lambda.data 0 = 8 / 3 := by
  obtain ⟨s0, qd, a, q1, obj1, h1, h2, h3, h4, h5, h6, h7, h8, _⟩ :=
    exRun_infeasible 1 logLevel_t.QPDUNES_LOG_OFF
  obtain ⟨s1, _, k2, _, k4⟩ := solve_pass_continues Real.sqrt (exExtInfeasible ℝ) 1 1 2 s0 s0 0
    qd a (return_t.QPDUNES_OK, q1, obj1) rfl h3 h4 h6 (Or.inl rfl)
  have hmax : s0.1.options.maxIter.toNat = 0 + 1 := by
    rw [h2]
    rfl
  rw [← hmax] at k2
  refine ⟨s0, qd, a, q1, obj1, _, h1, h3, h4, h5, h6,
    solve_iteration_limit Real.sqrt (exExtInfeasible ℝ) 1 1 2 _ s0 s1 h1 k2, ?_, ?_⟩
  · have e : s1.1.alpha = q1.alpha := congrArg (fun w => w.alpha) k4.1
    exact e.trans h7
  · have e : s1.1.lambda = q1.lambda := congrArg (fun w => w.lambda) k4.1
    show s1.1.lambda.data 0 = 8 / 3
    rw [e]
    exact h8

/-- C26 on an example (`N = 1`, `n_X = 1`, `n_Z = 2`, vanishing dual gradient, a stage
solver whose `directQpSolver_doStep` reports QPDUNES_ERR_STAGE_QP_INFEASIBLE for stage 0
and QPDUNES_OK for stage 1): the initial pass of `qpDUNES_solve` does not return; the start
goes through to the iteration loop, and the run returns
QPDUNES_SUCC_OPTIMAL_SOLUTION_FOUND from its first pass. -/
theorem C26_initial_step_failure_not_propagated :
    (∀ (q : qpData_t ℝ) (a : ℝ), ((exExtStepFails ℝ).directQpSolver_doStep q 0 a).1 =
      return_t.QPDUNES_ERR_STAGE_QP_INFEASIBLE) ∧
    (∀ (q : qpData_t ℝ) (a : ℝ), ((exExtStepFails ℝ).directQpSolver_doStep q 1 a).1 =
      return_t.QPDUNES_OK) ∧
    ∃ s0 q, solve_start (exExtStepFails ℝ) 1 (exQp ℝ (exStages3 ℝ)) = Except.ok s0 ∧
      qpDUNES_solve Real.sqrt (exExtStepFails ℝ) 1 1 2 (exQp ℝ (exStages3 ℝ)) =
        some (return_t.QPDUNES_SUCC_OPTIMAL_SOLUTION_FOUND, q) :=
  ⟨fun _ _ => rfl, fun _ _ => rfl, exStepFails_optimal⟩

/-- C23: whenever `qpDUNES_determineStepLength` returns QPDUNES_OK, through the full step
shortcut or through any line search, every component of `lambda` at exit is its value at
entry plus `alpha * deltaLambda` with `alpha` the reported step size (entries past the
`nX * N` components are left alone), and after the search a state `qs` carrying that
`alpha` and these multipliers went through the stage loop: every stage `k <= N` is a
clipping stage that executed `directQpSolver_doStep` with `alpha`, its result being the
stage the objective evaluation then read, and the objective value recomputed from these
stages is the returned one. -/
theorem C23_step_length_success_contract {α : Type} [LinearOrderedField α]
    (sqrt_f : α → α) (ext : collaborators_t α) (N nX nZ : Nat) (qpData : qpData_t α)
    (objValIncumbent : α) (newtonHessianRegularized : Bool) (q1 : qpData_t α) (obj1 : α)
    (h : qpDUNES_determineStepLength sqrt_f ext N nX nZ qpData objValIncumbent
      newtonHessianRegularized = some (return_t.QPDUNES_OK, q1, obj1)) :
    (∀ i, q1.lambda.data i =
      if i < nX * N then qpData.lambda.data i + q1.alpha * qpData.deltaLambda.data i
      else qpData.lambda.data i) ∧
    ∃ qs : qpData_t α, qs.alpha = q1.alpha ∧ qs.lambda = q1.lambda ∧
      (∀ k, k ≤ N → ((doSteps_before ext qs k).intervals k).qpSolverSpecification =
        qp_solver_t.QPDUNES_STAGE_QP_SOLVER_CLIPPING) ∧
      (∀ k, k ≤ N → (doSteps_before ext qs (N + 1)).intervals k =
        (ext.directQpSolver_doStep (doSteps_before ext qs k) k q1.alpha).2) ∧
      determineStepLength_doSteps ext N qs = Except.ok (doSteps_before ext qs (N + 1)) ∧
      qpDUNES_computeObjectiveValue N (doSteps_before ext qs (N + 1)) = some (obj1, q1) := by
  obtain ⟨qs, a1, a2, a3, a4, a5⟩ := determineStepLength_ok_contract sqrt_f ext N nX nZ
    qpData objValIncumbent newtonHessianRegularized q1 obj1 h
  refine ⟨fun i => ?_, qs, a1, a2, ?_, fun k hk => ?_, a4, a5⟩
  · rw [← a2, ← a1]
    exact a3 i
  · exact (determineStepLength_doSteps_ok ext N qs _ a4).2
  · rw [← a1]
    exact doSteps_before_stage ext qs k (N + 1) (Nat.lt_succ_of_le hk)

/-- C23 at the first example (`N = 1`, the full step is taken): the call returns
QPDUNES_OK and the multiplier has moved by the reported step size along the direction. -/
theorem C23_witness :
    ∃ q1 obj1, qpDUNES_determineStepLength Real.sqrt (exExt ℝ) 1 1 2 (exQp ℝ (exStages1 ℝ))
        0 false = some (return_t.QPDUNES_OK, q1, obj1) ∧
      q1.alpha = 1 ∧
      ∀ i, q1.lambda.data i =
        if i < 1 * 1 then (exQp ℝ (exStages1 ℝ)).lambda.data i +
          q1.alpha * (exQp ℝ (exStages1 ℝ)).deltaLambda.data i
        else (exQp ℝ (exStages1 ℝ)).lambda.data i := by
  obtain ⟨q1, obj1, h1, h2, _⟩ := determineStepLength_shortcut Real.sqrt (exExt ℝ) 1 1 2
    (exQp ℝ (exStages1 ℝ)) 0 false (fun k _ => (exStages1_clipping k).1)
    (fun k => (exStages1_clipping k).2) exExt_keepsHessianTag
    (by rw [exAlphaMin1]; norm_num [exQp, exOpt]) rfl
  exact ⟨q1, obj1, h1, h2, (C23_step_length_success_contract Real.sqrt (exExt ℝ) 1 1 2
    (exQp ℝ (exStages1 ℝ)) 0 false q1 obj1 h1).1⟩

/-- C22 (amended): `qpDUNES_gridSearch` keeps the best grid point above the incumbent. When
each of the `nGrid = lineSearchNbrGridPoints` evaluations returns a value, the call returns
QPDUNES_OK with the iteration counter grown by `nGrid`; the returned objective value is at
least the value of `*objValIncumbent` at entry and at least the value at every grid point
`alphaMin + kk * (alphaMax - alphaMin) / (nGrid - 1)`; and either no grid value is strictly
above the incumbent at entry, and then the incumbent and `alpha` are left as they were at
entry, or the returned value is strictly above it and is the value at the first grid point
that attains it, which is the reported `alpha`. -/
theorem C22_gridSearch_keeps_best_above_incumbent {α : Type} [LinearOrderedField α]
    (ext : collaborators_t α) (N : Nat) (qpData : qpData_t α)
    (objValIncumbent alphaMin alphaMax : α)
    (hval : ∀ kk, kk < qpData.options.lineSearchNbrGridPoints →
      ∃ x, gridSearch_value ext N qpData objValIncumbent alphaMin alphaMax kk = some x) :
    ∃ q1 obj1, qpDUNES_gridSearch ext N qpData objValIncumbent alphaMin alphaMax =
        some (return_t.QPDUNES_OK, q1, obj1) ∧
      (q1.log.itLog 0).numLineSearchIter =
        (qpData.log.itLog 0).numLineSearchIter + qpData.options.lineSearchNbrGridPoints ∧
      objValIncumbent ≤ obj1 ∧
      (∀ kk, kk < qpData.options.lineSearchNbrGridPoints →
        ∃ x, gridSearch_value ext N qpData objValIncumbent alphaMin alphaMax kk = some x ∧
          x ≤ obj1) ∧
      ((obj1 = objValIncumbent ∧ q1.alpha = qpData.alpha ∧
          ∀ kk, kk < qpData.options.lineSearchNbrGridPoints →
            ∀ x, gridSearch_value ext N qpData objValIncumbent alphaMin alphaMax kk = some x →
              x ≤ objValIncumbent) ∨
        ∃ kk, kk < qpData.options.lineSearchNbrGridPoints ∧
          gridSearch_value ext N qpData objValIncumbent alphaMin alphaMax kk = some obj1 ∧
          objValIncumbent < obj1 ∧
          q1.alpha = gridSearch_point qpData alphaMin alphaMax kk ∧
          ∀ j, j < kk → ∀ x,
            gridSearch_value ext N qpData objValIncumbent alphaMin alphaMax j = some x →
              x < obj1) := by
  obtain ⟨s, hs⟩ := gridSearch_before_total ext N qpData objValIncumbent alphaMin alphaMax
    qpData.options.lineSearchNbrGridPoints hval
  obtain ⟨_, p2, p3, p4, p5⟩ := gridSearch_before_spec ext N qpData objValIncumbent alphaMin
    alphaMax qpData.options.lineSearchNbrGridPoints s hs
  refine ⟨s.1.setNumLineSearchIter
    ((s.1.log.itLog 0).numLineSearchIter + qpData.options.lineSearchNbrGridPoints), s.2, ?_, ?_,
    p3, p4, ?_⟩
  · rw [gridSearch_eq, hs]
  · rw [(setNumLineSearchIter_frame s.1 _).2.2.2.2.2, p2]
  · rcases p5 with ⟨a1, a2⟩ | ⟨kk, b1, b2, b3, b4, b5⟩
    · refine Or.inl ⟨a1, a2, fun kk hk x hx => ?_⟩
      obtain ⟨y, hy1, hy2⟩ := p4 kk hk
      rw [hy1] at hx
      rw [← Option.some.inj hx, ← a1]
      exact hy2
    · exact Or.inr ⟨kk, b1, b2, b3, b4, b5⟩

/-- Counterexample to C22: on the example (`N = 1`, `nGrid = 5` points on `[0, 1]`, the
objective value 233 at the points 0, 1/4, 1/2, 3/4 and 33 at the point 1) with the incumbent
300 and `alpha = 7` at entry, `qpDUNES_gridSearch` returns QPDUNES_OK with the objective
value 300 and `alpha = 7`: the reported step length is none of the grid points and the
returned value is above the value at every grid point. -/
theorem C22_counterexample :
    2 ≤ (exQpGrid ℝ).options.lineSearchNbrGridPoints ∧
    ∃ q1, qpDUNES_gridSearch (exExtLS ℝ 0) 1 (exQpGrid ℝ) 300 0 1 =
        some (return_t.QPDUNES_OK, q1, 300) ∧
      q1.alpha = 7 ∧
      (∀ kk, kk < (exQpGrid ℝ).options.lineSearchNbrGridPoints →
        q1.alpha ≠ gridSearch_point (exQpGrid ℝ) 0 1 kk) ∧
      ∀ kk, kk < (exQpGrid ℝ).options.lineSearchNbrGridPoints →
        ∃ x, gridSearch_value (exExtLS ℝ 0) 1 (exQpGrid ℝ) 300 0 1 kk = some x ∧ x < 300 := by
  refine ⟨by decide, ?_⟩
  obtain ⟨s, hs, _⟩ := exGrid_before 300 (exQpGrid ℝ).options.lineSearchNbrGridPoints
  obtain ⟨_, _, _, _, p5⟩ := gridSearch_before_spec (exExtLS ℝ 0) 1 (exQpGrid ℝ) 300 0 1
    (exQpGrid ℝ).options.lineSearchNbrGridPoints s hs
  have hcase : s.2 = 300 ∧ s.1.alpha = 7 := by
    rcases p5 with ⟨a1, a2⟩ | ⟨kk, _, b2, b3, _, _⟩
    · exact ⟨a1, a2⟩
    · rcases exGrid_value_le 300 kk s.2 b2 with e | e
      · rw [e] at b3
        norm_num at b3
      · rw [e] at b3
        norm_num at b3
  refine ⟨s.1.setNumLineSearchIter
    ((s.1.log.itLog 0).numLineSearchIter + (exQpGrid ℝ).options.lineSearchNbrGridPoints), ?_,
    hcase.2, fun kk hk => ?_, fun kk _ => ?_⟩
  · rw [gridSearch_eq, hs, ← hcase.1]
  · have e : (s.1.setNumLineSearchIter
        ((s.1.log.itLog 0).numLineSearchIter +
          (exQpGrid ℝ).options.lineSearchNbrGridPoints)).alpha = 7 := hcase.2
    rw [e, exGrid_point]
    have hk5 : kk < 5 := hk
    have hle : (kk : ℝ) ≤ 5 := by exact_mod_cast (le_of_lt hk5)
    intro h7
    linarith
  · refine ⟨_, exGrid_value 300 kk, ?_⟩
    split_ifs <;> norm_num

/-- Witness for C22 (amended): the example with the incumbent 40 at entry; the search
returns the value 233 of the first grid point, the step length 0. -/
theorem C22_witness :
    ∃ q1, qpDUNES_gridSearch (exExtLS ℝ 0) 1 (exQpGrid ℝ) 40 0 1 =
        some (return_t.QPDUNES_OK, q1, 233) ∧ q1.alpha = 0 := by
  obtain ⟨q1, obj1, h1, _, _, h4, h5⟩ := C22_gridSearch_keeps_best_above_incumbent
    (exExtLS ℝ 0) 1 (exQpGrid ℝ) 40 0 1 (fun kk _ => ⟨_, exGrid_value 40 kk⟩)
  have h0 : gridSearch_value (exExtLS ℝ 0) 1 (exQpGrid ℝ) 40 0 1 0 = some 233 := by
    rw [exGrid_value]
    norm_num
  rcases h5 with ⟨a1, _, a3⟩ | ⟨kk, _, b2, b3, b4, b5⟩
  · have := a3 0 (by decide) 233 h0
    norm_num at this
  · have e : obj1 = 233 := by
      rcases exGrid_value_le 40 kk obj1 b2 with e | e
      · rw [e] at b3
        norm_num at b3
      · exact e
    have hk : kk = 0 := by
      by_contra c
      have := b5 0 (Nat.pos_of_ne_zero c) 233 h0
      rw [e] at this
      exact lt_irrefl _ this
    refine ⟨q1, ?_, ?_⟩
    · rw [h1, e]
    · rw [b4, hk, exGrid_point]
      norm_num

/-- C21 (amended): the divisor of the slope in `qpDUNES_bisectionIntervalSearch` is
`qpDUNES_fmin(1, |deltaLambda|)`. With `qpDUNES_fmin` the minimum of its arguments, the
divisor is `min(1, |deltaLambda|)`: it is at most 1 and it is zero when `|deltaLambda|` is
zero; and when `|deltaLambda|` is positive the divisor is positive and the search is the
one that divides the slope by `min(1, |deltaLambda|)` in both phases before the comparison
with the tolerance and before the sign test (the second phase tests the sign of the
undivided slope, which is then the same sign). -/
theorem C21_bisection_slope_divisor {α : Type} [LinearOrderedField α]
    (sqrt_f : α → α) (ext : collaborators_t α) (N nX nZ : Nat) (qpData : qpData_t α)
    (deltaLambdaFS : vector_t α) (nV : Nat) (alphaMin alphaMax : α)
    (hmin : ∀ a b : α, ext.qpDUNES_fmin a b = min a b) :
    ext.qpDUNES_fmin 1 (vectorNorm sqrt_f deltaLambdaFS nV) =
      min 1 (vectorNorm sqrt_f deltaLambdaFS nV) ∧
    min 1 (vectorNorm sqrt_f deltaLambdaFS nV) ≤ 1 ∧
    (vectorNorm sqrt_f deltaLambdaFS nV = 0 →
      min 1 (vectorNorm sqrt_f deltaLambdaFS nV) = 0) ∧
    (0 < vectorNorm sqrt_f deltaLambdaFS nV →
      0 < min 1 (vectorNorm sqrt_f deltaLambdaFS nV) ∧
      qpDUNES_bisectionIntervalSearch sqrt_f ext N nX nZ qpData deltaLambdaFS nV alphaMin
          alphaMax =
        bisectionIntervalSearch_dividedBy ext N nX nZ qpData deltaLambdaFS nV
          (min 1 (vectorNorm sqrt_f deltaLambdaFS nV)) alphaMin alphaMax) := by
  refine ⟨hmin _ _, min_le_left _ _, fun h0 => ?_, fun hpos => ?_⟩
  · rw [h0]
    exact min_eq_right zero_le_one
  · have hd : 0 < min 1 (vectorNorm sqrt_f deltaLambdaFS nV) := lt_min zero_lt_one hpos
    refine ⟨hd, ?_⟩
    have hd2 : 0 < ext.qpDUNES_fmin 1 (vectorNorm sqrt_f deltaLambdaFS nV) := by
      rw [hmin]
      exact hd
    rw [bisectionIntervalSearch_eq_dividedBy sqrt_f ext N nX nZ qpData deltaLambdaFS nV
      alphaMin alphaMax hd2, hmin]

/-- Counterexample to C21: on the example (`N = 1`, dual gradient `3/2000` at every step
length, step direction `deltaLambda = (1/2)`, tolerance `1e-3`, increase factor `3/2`,
maximum step size 1) the divisor of the code is `min(1, 1/2) = 1/2`: the divided slope
`3/2000` is above the tolerance and the search returns EXCEEDED_MAX_LINESEARCH_STEPSIZE,
whereas the search that divides by `max(1, 1/2) = 1` finds the slope `3/4000` within the
tolerance and returns QPDUNES_OK. -/
theorem C21_counterexample :
    vectorNorm Real.sqrt (exVec (fun _ => (1 / 2 : ℝ))) 1 = 1 / 2 ∧
    (exExt ℝ).qpDUNES_fmin 1 (vectorNorm Real.sqrt (exVec (fun _ => (1 / 2 : ℝ))) 1) = 1 / 2 ∧
    (qpDUNES_bisectionIntervalSearch Real.sqrt (exExt ℝ) 1 1 2 (exQp ℝ (exStagesBis ℝ))
      (exVec (fun _ => (1 / 2 : ℝ))) 1 0 1).1 =
      return_t.QPDUNES_ERR_EXCEEDED_MAX_LINESEARCH_STEPSIZE ∧
    (bisectionIntervalSearch_spec Real.sqrt (exExt ℝ) 1 1 2 (exQp ℝ (exStagesBis ℝ))
      (exVec (fun _ => (1 / 2 : ℝ))) 1 0 1).1 = return_t.QPDUNES_OK := by
  have hf : (exExt ℝ).qpDUNES_fmin 1 (vectorNorm Real.sqrt (exVec (fun _ => (1 / 2 : ℝ))) 1) =
      1 / 2 := by
    rw [exBis_norm]
    show min (1 : ℝ) (1 / 2) = 1 / 2
    exact min_eq_right (by norm_num)
  refine ⟨exBis_norm, hf, ?_, ?_⟩
  · rw [bisectionIntervalSearch_eq_dividedBy Real.sqrt (exExt ℝ) 1 1 2 _ _ 1 0 1
      (by rw [hf]; norm_num), hf]
    exact exBis_half
  · unfold bisectionIntervalSearch_spec
    rw [exBis_norm, max_eq_left (by norm_num : (1 / 2 : ℝ) ≤ 1)]
    exact exBis_one

/-- Witness for C21 (amended): the example with the step direction `(1/2)`; the search is
the one that divides by `min(1, |deltaLambda|)`. -/
theorem C21_witness :
    qpDUNES_bisectionIntervalSearch Real.sqrt (exExt ℝ) 1 1 2 (exQp ℝ (exStagesBis ℝ))
        (exVec (fun _ => (1 / 2 : ℝ))) 1 0 1 =
      bisectionIntervalSearch_dividedBy (exExt ℝ) 1 1 2 (exQp ℝ (exStagesBis ℝ))
        (exVec (fun _ => (1 / 2 : ℝ))) 1
        (min 1 (vectorNorm Real.sqrt (exVec (fun _ => (1 / 2 : ℝ))) 1)) 0 1 :=
  ((C21_bisection_slope_divisor Real.sqrt (exExt ℝ) 1 1 2 (exQp ℝ (exStagesBis ℝ))
    (exVec (fun _ => (1 / 2 : ℝ))) 1 0 1 (fun _ _ => rfl)).2.2.2
    (by rw [exBis_norm]; norm_num)).2

/-- C30 on the code: the invalidation is lost when both active set pointers of `itLog[0]`
point to the same table. The example run with iteration logging and `maxIter = 1` ends in
such a state (dual_qp.c 171 with `*itCntr = 1`); from every such state, whatever the data
update writes, a start of the next `qpDUNES_solve` that reaches the initial comparison
marks no stage and sets `lastActSetChangeIdx = -1`; and on the aliased example state the
update with a Hessian supplied writes `-42` at all four coordinates of the table, both
stages have two variables, and the next start reaches the comparison with no stage marked
and `lastActSetChangeIdx = -1`. -/
theorem C30_data_change_hidden_by_aliased_tables :
    (∃ q1, qpDUNES_solve Real.sqrt (exExtLS ℝ 0) 1 1 2
        (exQpRun ℝ (exOptRun ℝ lsType_t.QPDUNES_LS_BACKTRACKING_LS 1 1 (1 / 10)
          logLevel_t.QPDUNES_LOG_ITERATIONS)) =
        some (return_t.QPDUNES_ERR_ITERATION_LIMIT_REACHED, q1) ∧
      AliasedActSets q1) ∧
    (∀ (upd : qpData_t ℝ → Nat → dataArrays_t ℝ → interval_t ℝ)
      (off : Option (Nat → ℝ) → Nat → Option (Nat → ℝ)) (ext : collaborators_t ℝ)
      (N nX nZ : Nat) (q : qpData_t ℝ) (d : dataArrays_t ℝ) (s : qpData_t ℝ × Int × ℝ),
      AliasedActSets q →
      solve_start ext N (qpDUNES_updateData upd off N nX nZ q d).2 = Except.ok s →
      s.2.1 = -1 ∧ ∀ k, k ≤ N → (s.1.intervals k).actSetHasChanged = false) ∧
    (exDataH ℝ).H_.isSome = true ∧
    (∀ k i, k ≤ 1 → i < 2 →
      (qpDUNES_updateData (exUpdateIntervalData ℝ) (exOffsetArray ℝ) 1 1 2 (exQpAliased ℝ)
        (exDataH ℝ)).2.log.ieqTables
        (((qpDUNES_updateData (exUpdateIntervalData ℝ) (exOffsetArray ℝ) 1 1 2
          (exQpAliased ℝ) (exDataH ℝ)).2.log.itLog 0).prevIeqStatus) k i = -42) ∧
    (∀ k, ((qpDUNES_updateData (exUpdateIntervalData ℝ) (exOffsetArray ℝ) 1 1 2
        (exQpAliased ℝ) (exDataH ℝ)).2.intervals k).nD +
      ((qpDUNES_updateData (exUpdateIntervalData ℝ) (exOffsetArray ℝ) 1 1 2
        (exQpAliased ℝ) (exDataH ℝ)).2.intervals k).nV = 2) ∧
    ∃ s, solve_start (exExt ℝ) 1
        (qpDUNES_updateData (exUpdateIntervalData ℝ) (exOffsetArray ℝ) 1 1 2 (exQpAliased ℝ)
          (exDataH ℝ)).2 = Except.ok s ∧
      s.2.1 = -1 ∧ ∀ k, k ≤ 1 → (s.1.intervals k).actSetHasChanged = false := by
  have hgen : ∀ (upd : qpData_t ℝ → Nat → dataArrays_t ℝ → interval_t ℝ)
      (off : Option (Nat → ℝ) → Nat → Option (Nat → ℝ)) (ext : collaborators_t ℝ)
      (N nX nZ : Nat) (q : qpData_t ℝ) (d : dataArrays_t ℝ) (s : qpData_t ℝ × Int × ℝ),
      AliasedActSets q →
      solve_start ext N (qpDUNES_updateData upd off N nX nZ q d).2 = Except.ok s →
      s.2.1 = -1 ∧ ∀ k, k ≤ N → (s.1.intervals k).actSetHasChanged = false :=
    fun upd off ext N nX nZ q d s hal hs =>
      solve_start_aliased ext N _ s (updateData_aliased upd off N nX nZ q d hal) hs
  obtain ⟨e1, e2, s, hs⟩ := exAliased_start
  rw [← exAliased_update] at e1 e2 hs
  exact ⟨exRun_aliased, hgen, rfl, e1, e2, s, hs,
    hgen _ _ _ 1 1 2 (exQpAliased ℝ) (exDataH ℝ) s rfl hs⟩

/-- C28 on an example: the tables with every entry 1 and every entry 0 over the two stages
of the first example (two coordinates each) differ at four coordinates. -/
theorem C28_witness :
    (qpDUNES_compareActSets 1 (exQp ℝ (exStages1 ℝ)) (fun _ _ => 1) (fun _ _ => 0)).1 = 4 := by
  rw [(C28_compareActSets_counts_and_flags 1 (exQp ℝ (exStages1 ℝ)) (fun _ _ => 1)
    (fun _ _ => 0)).1]
  have hdim : ∀ k, ((exQp ℝ (exStages1 ℝ)).intervals k).nD +
      ((exQp ℝ (exStages1 ℝ)).intervals k).nV = 2 := by
    intro k
    show (exStages1 ℝ k).nD + (exStages1 ℝ k).nV = 2
    unfold exStages1
    split_ifs <;> rfl
  simp [Finset.sum_range_succ, hdim]

/-- C29 on the first example: no multiplier of stage 0 exceeds the tolerance, and the
entry of its first coordinate is set to 0. -/
theorem C29_witness :
    (qpDUNES_getActSet 1 (exQp ℝ (exStages1 ℝ)) (fun _ _ => 5)).2 0 0 = 0 := by
  rw [(C29_getActSet_ternary_count 1 (exQp ℝ (exStages1 ℝ)) (fun _ _ => 5)).1 0 0
    (by decide) (by decide)]
  norm_num [exQp, exStages1, exStage, exVec, exOpt]
/-- C31: `qpDUNES_shiftLambda` returns QPDUNES_OK and shifts the multiplier blocks left by
one block: for every `k` in `0 .. N - 2` and `i < nX` the new `lambda[k * nX + i]` is the
old `lambda[(k + 1) * nX + i]`; the last block `k = N - 1`, and every entry from
`(N - 1) * nX` on, keeps its old value; nothing else of the state is written. -/
theorem C31_shiftLambda_shifts_blocks {α : Type} (N nX : Nat) (qpData : qpData_t α) :
    (qpDUNES_shiftLambda N nX qpData).1 = return_t.QPDUNES_OK ∧
    (∀ k i, k + 1 < N → i < nX →
      (qpDUNES_shiftLambda N nX qpData).2.lambda.data (k * nX + i) =
        qpData.lambda.data ((k + 1) * nX + i)) ∧
    (∀ i, i < nX →
      (qpDUNES_shiftLambda N nX qpData).2.lambda.data ((N - 1) * nX + i) =
        qpData.lambda.data ((N - 1) * nX + i)) ∧
    (∀ idx, (N - 1) * nX ≤ idx →
      (qpDUNES_shiftLambda N nX qpData).2.lambda.data idx = qpData.lambda.data idx) ∧
    (qpDUNES_shiftLambda N nX qpData).2.lambda.isDefined = qpData.lambda.isDefined ∧
    ({ (qpDUNES_shiftLambda N nX qpData).2 with lambda := qpData.lambda } : qpData_t α) =
      qpData := by
  rw [shiftLambda_eq]
  refine ⟨rfl, fun k i hk hi => ?_, fun i _ => ?_, fun idx hidx => ?_, rfl, rfl⟩
  · show (if k * nX + i < (N - 1) * nX then qpData.lambda.data (k * nX + i + nX)
      else qpData.lambda.data (k * nX + i)) = _
    have h1 : (k + 1) * nX ≤ (N - 1) * nX := Nat.mul_le_mul_right nX (by omega)
    have h2 : (k + 1) * nX = k * nX + nX := by ring
    rw [if_pos (by omega)]
    congr 1
    omega
  · show (if (N - 1) * nX + i < (N - 1) * nX then qpData.lambda.data ((N - 1) * nX + i + nX)
      else qpData.lambda.data ((N - 1) * nX + i)) = _
    rw [if_neg (by omega)]
  · show (if idx < (N - 1) * nX then qpData.lambda.data (idx + nX)
      else qpData.lambda.data idx) = _
    rw [if_neg (by omega)]

/-- Witness of C31: with three blocks of one multiplier, `lambda = (0, 1, 2)`, the shift
returns QPDUNES_OK with `lambda = (1, 2, 2)`. -/
theorem C31_witness :
    (qpDUNES_shiftLambda 3 1 (exQpShift ℝ)).1 = return_t.QPDUNES_OK ∧
    (qpDUNES_shiftLambda 3 1 (exQpShift ℝ)).2.lambda.data 0 = 1 ∧
    (qpDUNES_shiftLambda 3 1 (exQpShift ℝ)).2.lambda.data 1 = 2 ∧
    (qpDUNES_shiftLambda 3 1 (exQpShift ℝ)).2.lambda.data 2 = 2 := by
  have h := C31_shiftLambda_shifts_blocks 3 1 (exQpShift ℝ)
  refine ⟨h.1, ?_, ?_, ?_⟩
  · have h0 := h.2.1 0 0 (by norm_num) (by norm_num)
    simp only [Nat.zero_mul, Nat.zero_add, Nat.one_mul, Nat.add_zero] at h0
    rw [h0]
    simp [exQpShift, exVec]
  · have h1 := h.2.1 1 0 (by norm_num) (by norm_num)
    simp only [Nat.one_mul, Nat.add_zero] at h1
    rw [h1]
    simp [exQpShift, exVec]
  · have h2 := h.2.2.1 0 (by norm_num)
    simp only [Nat.add_zero] at h2
    rw [h2]
    simp [exQpShift, exVec]

/-- C32 (counterexample): with a single regular stage (`N = 1`) `qpDUNES_shiftIntervals`
returns QPDUNES_OK, the stage stays in slot 0 with `id = 0`, and the `lambdaK` of the new
stage 0 is marked defined, not undefined: slot `0` and slot `N - 1` are the same slot and
the second flag write stands. -/
theorem C32_counterexample :
    ∃ r, qpDUNES_shiftIntervals 1 (exPointers ℝ) = some (return_t.QPDUNES_OK, r) ∧
      r.intervals 0 = (exPointers ℝ).intervals 0 ∧ (r.stage 0).id = 0 ∧
      (r.stage 0).lambdaK.isDefined = true :=
  shiftIntervals_single (exPointers ℝ)

/-- C32 (amended): for every `N >= 1` and pairwise distinct stage pointers
`intervals[0 .. N]`, `qpDUNES_shiftIntervals` returns QPDUNES_OK and rotates the regular
stages by one: afterwards `intervals[k]` is the former `intervals[k+1]` for `k` in
`0 .. N - 2`, `intervals[N - 1]` is the former `intervals[0]`, the pointer and the stage of
the final slot `N` (and every pointer past it) are untouched, `intervals[k]->id = k` for
every `k` in `0 .. N - 1`, the `lambdaK` of the new stage `N - 1` is marked defined, and
for `N >= 2` the `lambdaK` of the new stage 0 is marked undefined; of every stage nothing
but `id` and `lambdaK.isDefined` is written. -/
theorem C32_shiftIntervals_rotates {α : Type} (N : Nat) (s : stagePointers_t α) (hN : 1 ≤ N)
    (hinj : ∀ i j, i ≤ N → j ≤ N → s.intervals i = s.intervals j → i = j) :
    ∃ r, qpDUNES_shiftIntervals N s = some (return_t.QPDUNES_OK, r) ∧
      (∀ k, k + 1 < N → r.intervals k = s.intervals (k + 1)) ∧
      r.intervals (N - 1) = s.intervals 0 ∧
      (∀ k, N ≤ k → r.intervals k = s.intervals k) ∧
      r.stage N = s.stage N ∧
      (∀ k, k < N → (r.stage k).id = (k : Int)) ∧
      (2 ≤ N → (r.stage 0).lambdaK.isDefined = false) ∧
      (r.stage (N - 1)).lambdaK.isDefined = true ∧
      (∀ a, ∃ j d, r.mem a =
        { s.mem a with id := j, lambdaK := { (s.mem a).lambdaK with isDefined := d } }) :=
  shiftIntervals_spec N s hN hinj

/-- Witness of C32 (amended): three regular stages at the addresses 10, 11, 12 and the
final stage at 13. -/
theorem C32_witness :
    (1 ≤ 3 ∧ ∀ i j, i ≤ 3 → j ≤ 3 →
      (exPointers ℝ).intervals i = (exPointers ℝ).intervals j → i = j) ∧
    ∃ r, qpDUNES_shiftIntervals 3 (exPointers ℝ) = some (return_t.QPDUNES_OK, r) ∧
      r.intervals 0 = 11 ∧ r.intervals 1 = 12 ∧ r.intervals 2 = 10 ∧ r.intervals 3 = 13 ∧
      (r.stage 0).id = 0 ∧ (r.stage 1).id = 1 ∧ (r.stage 2).id = 2 ∧
      (r.stage 0).lambdaK.isDefined = false ∧ (r.stage 2).lambdaK.isDefined = true := by
  have hinj : ∀ i j, i ≤ 3 → j ≤ 3 →
      (exPointers ℝ).intervals i = (exPointers ℝ).intervals j → i = j := by
    intro i j _ _ h
    simpa [exPointers] using h
  refine ⟨⟨by norm_num, hinj⟩, ?_⟩
  obtain ⟨r, hr, ha, hb, hc, _, hid, hf0, hf2, _⟩ :=
    C32_shiftIntervals_rotates 3 (exPointers ℝ) (by norm_num) hinj
  refine ⟨r, hr, ?_, ?_, ?_, ?_, ?_, ?_, ?_, hf0 (by norm_num), hf2⟩
  · rw [ha 0 (by norm_num)]; rfl
  · rw [ha 1 (by norm_num)]; rfl
  · rw [hb]; rfl
  · rw [hc 3 (by norm_num)]; rfl
  · exact hid 0 (by norm_num)
  · exact hid 1 (by norm_num)
  · exact hid 2 (by norm_num)

/-- C40: for every state vector and control, the attitude part of the output of
`State::model` (components 6..9) is `0.5 * conj((omega, 0)) * q` with `q` the attitude
quaternion `(x, y, z, w)` of the state and `omega` its angular velocity, and its Euclidean
inner product with the attitude `q` is zero; the position rate (components 0..2) is the
velocity of the state and the wind velocity rate (components 13..15) is zero. -/
theorem C40_attitude_rate_orthogonal {α : Type} [LinearOrderedField α] {γ : Type}
    (evaluate : (Nat → α) → γ → Nat → α) (state : Nat → α) (c : γ) (output : Nat → α) :
    State.model evaluate state c output 6 =
      ((Quaternionr.ofCoeffs (State.omega_q state)).conjugate.mul
        (Quaternionr.ofCoeffs (State.attitude state))).x * (1 / 2) ∧
    State.model evaluate state c output 7 =
      ((Quaternionr.ofCoeffs (State.omega_q state)).conjugate.mul
        (Quaternionr.ofCoeffs (State.attitude state))).y * (1 / 2) ∧
    State.model evaluate state c output 8 =
      ((Quaternionr.ofCoeffs (State.omega_q state)).conjugate.mul
        (Quaternionr.ofCoeffs (State.attitude state))).z * (1 / 2) ∧
    State.model evaluate state c output 9 =
      ((Quaternionr.ofCoeffs (State.omega_q state)).conjugate.mul
        (Quaternionr.ofCoeffs (State.attitude state))).w * (1 / 2) ∧
    (∑ i in Finset.range 4, State.model evaluate state c output (6 + i) * state (6 + i)) = 0 ∧
    (∀ i, i < 3 → State.model evaluate state c output i = state (3 + i)) ∧
    (∀ i, i < 3 → State.model evaluate state c output (13 + i) = 0) := by
  have h6 := State_model_attitude evaluate state c output 0 (by norm_num)
  have h7 := State_model_attitude evaluate state c output 1 (by norm_num)
  have h8 := State_model_attitude evaluate state c output 2 (by norm_num)
  have h9 := State_model_attitude evaluate state c output 3 (by norm_num)
  simp only [Nat.add_zero] at h6
  refine ⟨?_, ?_, ?_, ?_, ?_, fun i hi => State_model_position evaluate state c output i hi,
    fun i hi => State_model_wind evaluate state c output i hi⟩
  · rw [h6]; simp [Quaternionr.vec]
  · rw [h7]; simp [Quaternionr.vec]
  · rw [h8]; simp [Quaternionr.vec]
  · rw [h9]; simp
  · rw [Finset.sum_range_succ, Finset.sum_range_succ, Finset.sum_range_succ,
      Finset.sum_range_one, h6, h7, h8, h9]
    simp [Quaternionr.vec, Quaternionr.mul, Quaternionr.conjugate, Quaternionr.ofCoeffs,
      State.omega_q, State.attitude, State.angular_velocity, segment]
    ring

/-- Witness of C40: for the example state with attitude `(0, 0, 0, 1)` and angular velocity
`(1, 0, 0)` the attitude rate is `(-1/2, 0, 0, 0)`, orthogonal to the attitude, and the
first component of the position rate is the first component `1` of the velocity. -/
theorem C40_witness :
    State.model (exEvaluate ℝ) (exStateVector ℝ) () (fun _ => 0) 6 = -1 / 2 ∧
    (∑ i in Finset.range 4,
      State.model (exEvaluate ℝ) (exStateVector ℝ) () (fun _ => 0) (6 + i) *
        exStateVector ℝ (6 + i)) = 0 ∧
    State.model (exEvaluate ℝ) (exStateVector ℝ) () (fun _ => 0) 0 = 1 := by
  have h := C40_attitude_rate_orthogonal (exEvaluate ℝ) (exStateVector ℝ) () (fun _ => 0)
  refine ⟨?_, h.2.2.2.2.1, ?_⟩
  · rw [h.1]
    simp [Quaternionr.mul, Quaternionr.conjugate, Quaternionr.ofCoeffs, State.omega_q,
      State.attitude, State.angular_velocity, segment, exStateVector]
    norm_num
  · rw [h.2.2.2.2.2.1 0 (by norm_num)]
    simp [exStateVector]

/-- C39: `factorizePosDefMatrix` does not guard singular diagonals. For every matrix tagged
diagonal it returns QPDUNES_OK, zero entries or not; at the entries that are not zero the
factor holds `1 / H[i]` and `multiplyInvMatrixVector` returns `res` with
`H[i] * res[i] = x[i]`. For the positive semi-definite `H = diag(0, 1)` both functions
return QPDUNES_OK although `H[0] = 0`, the reciprocal of zero is taken, and the returned
`res` has `H[0] * res[0] = 0`, not `x[0] = 1`; no value of `res[0]` satisfies the
equation. -/
theorem C39_singular_diagonal_not_guarded :
    (∀ (cholM M : matrix_t ℝ) (dim0 : Nat),
      M.sparsityType = sparsityType_t.QPDUNES_DIAGONAL →
      ∃ c, factorizePosDefMatrix cholM M dim0 = some (return_t.QPDUNES_OK, c) ∧
        c.sparsityType = sparsityType_t.QPDUNES_DIAGONAL ∧
        ∀ i, i < dim0 → c.data i = recip_f (M.data i)) ∧
    (∀ (ext : collaborators_t ℝ) (res : vector_t ℝ) (cholM H : matrix_t ℝ) (x : vector_t ℝ)
      (dim0 : Nat), H.sparsityType = sparsityType_t.QPDUNES_DIAGONAL → 0 < dim0 →
      ∃ c r, factorizePosDefMatrix cholM H dim0 = some (return_t.QPDUNES_OK, c) ∧
        multiplyInvMatrixVector ext res c x dim0 = some (return_t.QPDUNES_OK, r) ∧
        ∀ i, i < dim0 → H.data i ≠ 0 →
          c.data i = 1 / H.data i ∧ H.data i * r.data i = x.data i) ∧
    (exHSingular ℝ).data 0 = 0 ∧ (exHSingular ℝ).data 1 = 1 ∧
    (∃ c r, factorizePosDefMatrix (exMatEmpty ℝ) (exHSingular ℝ) 2 =
        some (return_t.QPDUNES_OK, c) ∧
      c.data 0 = recip_f 0 ∧ c.data 1 = 1 ∧
      multiplyInvMatrixVector (exExt ℝ) (exVec (fun _ => 0)) c (exVec (fun _ => 1)) 2 =
        some (return_t.QPDUNES_OK, r) ∧
      (exHSingular ℝ).data 0 * r.data 0 = 0 ∧ (exVec (fun _ => (1 : ℝ))).data 0 = 1 ∧
      (exHSingular ℝ).data 1 * r.data 1 = 1) ∧
    (∀ v : ℝ, (exHSingular ℝ).data 0 * v ≠ (exVec (fun _ => (1 : ℝ))).data 0) := by
  refine ⟨fun cholM M dim0 hM => ?_, fun ext res cholM H x dim0 hH hn =>
    factorize_solve_diagonal ext res cholM H x dim0 hH hn, by simp [exHSingular],
    by simp [exHSingular], ?_, fun v => by simp [exHSingular, exVec]⟩
  · obtain ⟨c, hc, htag, hval, _⟩ := factorizePosDefMatrix_diagonal cholM M dim0 hM
    exact ⟨c, hc, htag, hval⟩
  · obtain ⟨c, hc, htag, hval, _⟩ :=
      factorizePosDefMatrix_diagonal (exMatEmpty ℝ) (exHSingular ℝ) 2 rfl
    obtain ⟨r, hr, hrv, _⟩ := multiplyInvMatrixVector_diagonal (exExt ℝ)
      (exVec (fun _ => 0)) c (exVec (fun _ => (1 : ℝ))) 2 htag (by norm_num)
    have h0 := hval 0 (by norm_num)
    have h1 := hval 1 (by norm_num)
    refine ⟨c, r, hc, ?_, ?_, hr, ?_, rfl, ?_⟩
    · rw [h0]; simp [exHSingular]
    · rw [h1]; simp [exHSingular, recip_f]
    · simp [exHSingular]
    · rw [hrv 1 (by norm_num), h1]
      simp [exHSingular, recip_f, exVec]

/-- C38: the reverse factorization does not check a regularized pivot. With a regType other
than SINGULAR_DIRECTIONS and a positive equalityTolerance, every value that a full
`qpDUNES_factorizeNewtonHessianBottomUp` returning QPDUNES_OK handed to the square root is
positive. With SINGULAR_DIRECTIONS, `regParam = 1e-6 > 0`, `equalityTolerance = 1e-12 > 0`
and the stored Hessian `M[0,0] = -1` (`N = 1`, `nX = 1`) the pivot `-1` is below
`newtonHessDiagRegTolerance`, `regParam` is added, and the function returns QPDUNES_OK with
the flag set, having handed the negative value `-1 + regParam` to the square root; with the
real square root the diagonal entry it wrote is `0`, the divisor of
`qpDUNES_solveNewtonEquationBottomUp`, which returns QPDUNES_OK as well. -/
theorem C38_regularized_pivot_not_checked :
    (∀ (sqrt_f : ℝ → ℝ) (opt : qpOptions_t ℝ) (N nX : Nat) (c0 h : xn2x_matrix_t ℝ)
      (flag : Bool),
      opt.regType ≠ regType_t.QPDUNES_REG_SINGULAR_DIRECTIONS →
      0 < opt.equalityTolerance →
      (qpDUNES_factorizeNewtonHessianBottomUp sqrt_f opt N nX c0 h ((N : Int) - 1) flag).1 =
        return_t.QPDUNES_OK →
      ∀ k j, k < N → j < nX →
        (qpDUNES_factorizeNewtonHessianBottomUp sqrt_f opt N nX c0 h ((N : Int) - 1)
            flag).2.cholHessian (k, 0, j, j) =
          sqrt_f (revSum N nX h
            (qpDUNES_factorizeNewtonHessianBottomUp sqrt_f opt N nX c0 h ((N : Int) - 1)
              flag).2.cholHessian k j j) ∧
        0 < revSum N nX h
          (qpDUNES_factorizeNewtonHessianBottomUp sqrt_f opt N nX c0 h ((N : Int) - 1)
            flag).2.cholHessian k j j) ∧
    (exOptSing ℝ).regType = regType_t.QPDUNES_REG_SINGULAR_DIRECTIONS ∧
    0 < (exOptSing ℝ).regParam ∧ 0 < (exOptSing ℝ).equalityTolerance ∧
    factorizeNewtonHessianBottomUp_pivot 1 1 (exHessianNeg ℝ) (fun _ => 0) 0 0 = -1 ∧
    (-1 : ℝ) < (exOptSing ℝ).newtonHessDiagRegTolerance ∧
    -1 + (exOptSing ℝ).regParam < 0 ∧
    (∀ sqrt_f : ℝ → ℝ,
      (qpDUNES_factorizeNewtonHessianBottomUp sqrt_f (exOptSing ℝ) 1 1 (fun _ => 0)
        (exHessianNeg ℝ) (((1 : Nat) : Int) - 1) false).1 = return_t.QPDUNES_OK ∧
      (qpDUNES_factorizeNewtonHessianBottomUp sqrt_f (exOptSing ℝ) 1 1 (fun _ => 0)
        (exHessianNeg ℝ) (((1 : Nat) : Int) - 1) false).2.cholHessian (0, 0, 0, 0) =
        sqrt_f (-1 + (exOptSing ℝ).regParam) ∧
      (qpDUNES_factorizeNewtonHessianBottomUp sqrt_f (exOptSing ℝ) 1 1 (fun _ => 0)
        (exHessianNeg ℝ) (((1 : Nat) : Int) - 1) false).2.isHessianRegularized = true) ∧
    (qpDUNES_factorizeNewtonHessianBottomUp Real.sqrt (exOptSing ℝ) 1 1 (fun _ => 0)
      (exHessianNeg ℝ) (((1 : Nat) : Int) - 1) false).2.cholHessian (0, 0, 0, 0) = 0 ∧
    (∀ res gradient : Nat → ℝ,
      (qpDUNES_solveNewtonEquationBottomUp 1 1 res
        (qpDUNES_factorizeNewtonHessianBottomUp Real.sqrt (exOptSing ℝ) 1 1 (fun _ => 0)
          (exHessianNeg ℝ) (((1 : Nat) : Int) - 1) false).2.cholHessian gradient).1 =
        return_t.QPDUNES_OK) := by
  refine ⟨fun sqrt_f opt N nX c0 h flag hreg htol hOK =>
      factorizeNewtonHessianBottomUp_pivots_positive sqrt_f opt N nX c0 h flag hreg htol hOK,
    rfl, by norm_num [exOptSing, exOpt], by norm_num [exOptSing, exOpt], exNeg_pivot,
    by norm_num [exOptSing, exOpt], by norm_num [exOptSing, exOpt],
    fun sqrt_f => ⟨exNeg_status sqrt_f, exNeg_entry sqrt_f, exNeg_flag sqrt_f⟩, ?_,
    fun _ _ => rfl⟩
  rw [exNeg_entry Real.sqrt]
  exact Real.sqrt_eq_zero_of_nonpos (by norm_num [exOptSing, exOpt])

/-- C35: identity stage Hessians are not supported by the assembly. `getInvQ` and
`multiplyAInvQ` accept a `cholH` tagged identity, but `addCInvHCT` asserts that it is
tagged diagonal: with an identity `cholH` its assertion fails. Hence whenever the gradient
is not below the stationarity tolerance and some diagonal block is to be recomputed,
`qpDUNES_setupNewtonSystem` over stages whose Hessians are all identity does not run to
completion; so for the example problem with `N = 1`, identity Hessians in both stages
(clipping stages without affine constraints) and dual gradient `2`. -/
theorem C35_identity_hessian_fails_assertion :
    (∀ (opt : qpOptions_t ℝ) (ext : collaborators_t ℝ) (nX nZ : Nat)
      (res cholM1 M2 : matrix_t ℝ) (y : vector_t ℝ) (zxMatTmp : matrix_t ℝ),
      cholM1.sparsityType = sparsityType_t.QPDUNES_IDENTITY →
      addCInvHCT opt ext nX nZ res cholM1 M2 y zxMatTmp = none) ∧
    (∀ (opt : qpOptions_t ℝ) (res cholH : matrix_t ℝ) (nV : Nat),
      cholH.sparsityType = sparsityType_t.QPDUNES_IDENTITY →
      ∃ r, getInvQ opt res cholH nV = some (return_t.QPDUNES_OK, r)) ∧
    (∀ (nX nZ : Nat) (res C cholH : matrix_t ℝ),
      cholH.sparsityType = sparsityType_t.QPDUNES_IDENTITY →
      ∃ r, multiplyAInvQ nX nZ res C cholH = some (return_t.QPDUNES_OK, r)) ∧
    (∀ (sqrt_f : ℝ → ℝ) (ext : collaborators_t ℝ) (N nX nZ : Nat) (qp : qpData_t ℝ),
      (∀ k, k ≤ N →
        (qp.intervals k).H.sparsityType = sparsityType_t.QPDUNES_IDENTITY ∧
        (qp.intervals k).cholH.sparsityType = sparsityType_t.QPDUNES_IDENTITY) →
      ¬ vectorNorm sqrt_f (setupNewtonSystem_gradient N nX nZ qp).gradient (nX * N) <
        qp.options.stationarityTolerance →
      (∃ k, k < N ∧ diagChanged qp k) →
      qpDUNES_setupNewtonSystem sqrt_f ext N nX nZ qp = none) ∧
    (∀ k, ((exQp ℝ (exStagesIdentity ℝ)).intervals k).H.sparsityType =
        sparsityType_t.QPDUNES_IDENTITY ∧
      ((exQp ℝ (exStagesIdentity ℝ)).intervals k).cholH.sparsityType =
        sparsityType_t.QPDUNES_IDENTITY ∧
      ((exQp ℝ (exStagesIdentity ℝ)).intervals k).nD = 0 ∧
      ((exQp ℝ (exStagesIdentity ℝ)).intervals k).qpSolverSpecification =
        qp_solver_t.QPDUNES_STAGE_QP_SOLVER_CLIPPING) ∧
    vectorNorm Real.sqrt
      (setupNewtonSystem_gradient 1 1 2 (exQp ℝ (exStagesIdentity ℝ))).gradient (1 * 1) = 2 ∧
    qpDUNES_setupNewtonSystem Real.sqrt (exExt ℝ) 1 1 2 (exQp ℝ (exStagesIdentity ℝ)) =
      none := by
  have hex : ∀ k, ((exQp ℝ (exStagesIdentity ℝ)).intervals k).H.sparsityType =
        sparsityType_t.QPDUNES_IDENTITY ∧
      ((exQp ℝ (exStagesIdentity ℝ)).intervals k).cholH.sparsityType =
        sparsityType_t.QPDUNES_IDENTITY ∧
      ((exQp ℝ (exStagesIdentity ℝ)).intervals k).nD = 0 ∧
      ((exQp ℝ (exStagesIdentity ℝ)).intervals k).qpSolverSpecification =
        qp_solver_t.QPDUNES_STAGE_QP_SOLVER_CLIPPING := by
    intro k
    show (exStagesIdentity ℝ k).H.sparsityType = _ ∧ (exStagesIdentity ℝ k).cholH.sparsityType = _ ∧
      (exStagesIdentity ℝ k).nD = 0 ∧ (exStagesIdentity ℝ k).qpSolverSpecification = _
    unfold exStagesIdentity
    split_ifs <;> exact ⟨rfl, rfl, rfl, rfl⟩
  have hne : sparsityType_t.QPDUNES_IDENTITY ≠ sparsityType_t.QPDUNES_DIAGONAL := by decide
  refine ⟨fun opt ext nX nZ res cholM1 M2 y zx h =>
      addCInvHCT_not_diagonal opt ext nX nZ res cholM1 M2 y zx (by rw [h]; exact hne),
    fun opt res cholH nV h => ⟨_, getInvQ_identity opt res cholH nV h⟩,
    fun nX nZ res C cholH h => multiplyAInvQ_identity nX nZ res C cholH h,
    fun sqrt_f ext N nX nZ qp hid hn hch => ?_, hex, exNormIdentity, ?_⟩
  · obtain ⟨k, hk, hc⟩ := hch
    exact setupNewtonSystem_not_diagonal sqrt_f ext N nX nZ qp hn
      ⟨k, hk, hc, by rw [(hid k (by omega)).2]; exact hne⟩
  · refine setupNewtonSystem_not_diagonal Real.sqrt (exExt ℝ) 1 1 2 _ ?_
      ⟨0, by norm_num, Or.inl rfl, by rw [(hex 0).2.1]; exact hne⟩
    rw [exNormIdentity]
    norm_num [exQp, exOpt]

/-- C37: the step size reported by `qpDUNES_bisectionIntervalSearch` can lie outside the
stated range. Entered with the shared counter at `maxNumLineSearchRefinementIterations`,
the search reports `alpha = 1` whatever the interval `[alphaMin, alphaMax]` is. Entered
with `alphaMin = QPDUNES_INFTY`, as `qpDUNES_determineStepLength` calls it when the Hessian
was regularized and no stage reports a smaller step (example: `N = 1`, dual gradient
`3/2000`, `deltaLambda = -1/2`, gradient bisection search, one refinement iteration,
`QPDUNES_INFTY = 1e12`, `alphaMax = lineSearchMaxStepSize = 1`), the search returns
NUMBER_OF_MAX_LINESEARCH_ITERATIONS_REACHED with `alpha = (1e12 + 1) / 2`, above
`max(alphaMax, lineSearchMaxStepSize) = 1`, and `qpDUNES_determineStepLength` takes the
step of that length. -/
theorem C37_bisection_result_outside_range :
    (∀ (sqrt_f : ℝ → ℝ) (ext : collaborators_t ℝ) (N nX nZ : Nat) (q : qpData_t ℝ)
      (dl : vector_t ℝ) (nV : Nat) (aMin aMax : ℝ),
      q.options.maxNumLineSearchRefinementIterations ≤ (q.log.itLog 0).numLineSearchIter →
      (qpDUNES_bisectionIntervalSearch sqrt_f ext N nX nZ q dl nV aMin aMax).1 =
        return_t.QPDUNES_ERR_NUMBER_OF_MAX_LINESEARCH_ITERATIONS_REACHED ∧
      (qpDUNES_bisectionIntervalSearch sqrt_f ext N nX nZ q dl nV aMin aMax).2.alpha = 1) ∧
    (exQpBisInf ℝ).options.lsType = lsType_t.QPDUNES_LS_GRADIENT_BISECTION_LS ∧
    (exQpBisInf ℝ).options.QPDUNES_INFTY = 1000000000000 ∧
    (exQpBisInf ℝ).options.lineSearchMaxStepSize = 1 ∧
    determineStepLength_alphaMin (exExt ℝ) 1 (exQpBisInf ℝ) =
      (exQpBisInf ℝ).options.QPDUNES_INFTY ∧
    (∀ obj : ℝ, determineStepLength_lineSearch Real.sqrt (exExt ℝ) 1 1 2
        ((exQpBisInf ℝ).setNumLineSearchIter 0) (1 * 1)
        (determineStepLength_alphaMin (exExt ℝ) 1 (exQpBisInf ℝ)) 1 obj =
      some (Except.ok
        ((qpDUNES_bisectionIntervalSearch Real.sqrt (exExt ℝ) 1 1 2
            ((exQpBisInf ℝ).setNumLineSearchIter 0) (exQpBisInf ℝ).deltaLambda (1 * 1)
            (exQpBisInf ℝ).options.QPDUNES_INFTY 1).1,
          (qpDUNES_bisectionIntervalSearch Real.sqrt (exExt ℝ) 1 1 2
            ((exQpBisInf ℝ).setNumLineSearchIter 0) (exQpBisInf ℝ).deltaLambda (1 * 1)
            (exQpBisInf ℝ).options.QPDUNES_INFTY 1).2, obj))) ∧
    (qpDUNES_bisectionIntervalSearch Real.sqrt (exExt ℝ) 1 1 2
      ((exQpBisInf ℝ).setNumLineSearchIter 0) (exQpBisInf ℝ).deltaLambda (1 * 1)
      (exQpBisInf ℝ).options.QPDUNES_INFTY 1).1 =
      return_t.QPDUNES_ERR_NUMBER_OF_MAX_LINESEARCH_ITERATIONS_REACHED ∧
    (qpDUNES_bisectionIntervalSearch Real.sqrt (exExt ℝ) 1 1 2
      ((exQpBisInf ℝ).setNumLineSearchIter 0) (exQpBisInf ℝ).deltaLambda (1 * 1)
      (exQpBisInf ℝ).options.QPDUNES_INFTY 1).2.alpha = 1000000000001 / 2 ∧
    max (1 : ℝ) (exQpBisInf ℝ).options.lineSearchMaxStepSize <
      (qpDUNES_bisectionIntervalSearch Real.sqrt (exExt ℝ) 1 1 2
        ((exQpBisInf ℝ).setNumLineSearchIter 0) (exQpBisInf ℝ).deltaLambda (1 * 1)
        (exQpBisInf ℝ).options.QPDUNES_INFTY 1).2.alpha ∧
    (∀ obj : ℝ, ∃ q1 obj1,
      qpDUNES_determineStepLength Real.sqrt (exExt ℝ) 1 1 2 (exQpBisInf ℝ) obj true =
        some (return_t.QPDUNES_ERR_NUMBER_OF_MAX_LINESEARCH_ITERATIONS_REACHED, q1, obj1) ∧
      q1.alpha = 1000000000001 / 2 ∧ q1.lambda.data 0 = -1000000000001 / 4) := by
  have e : (exQpBisInf ℝ).options.QPDUNES_INFTY = 1000000000000 := by
    simp [exQpBisInf, exOpt]
  have em : (exQpBisInf ℝ).options.lineSearchMaxStepSize = 1 := by
    simp [exQpBisInf, exOpt]
  have hb := exBisInf_search 1000000000000 ((exQpBisInf ℝ).setNumLineSearchIter 0)
    exBisInf_stages rfl rfl
  have hdl : (exQpBisInf ℝ).deltaLambda = exVec (fun _ => (-1 / 2 : ℝ)) := rfl
  have h11 : (1 : Nat) * 1 = 1 := rfl
  refine ⟨fun sqrt_f ext N nX nZ q dl nV aMin aMax h =>
      bisectionIntervalSearch_exhausted sqrt_f ext N nX nZ q dl nV aMin aMax h,
    rfl, e, em, by rw [exBisInf_alphaMin, e], exBisInf_lineSearch, ?_, ?_, ?_, fun obj => ?_⟩
  · rw [e, hdl, h11]
    exact hb.1
  · rw [e, hdl, h11, hb.2.1]
    norm_num
  · rw [e, hdl, h11, hb.2.1, em]
    norm_num
  · obtain ⟨q1, obj1, h1, h2, h3⟩ := exBisInf_determined obj
    refine ⟨q1, obj1, h1, ?_, ?_⟩
    · rw [h2]; norm_num
    · rw [h3]; norm_num

/-- C34 (counterexample): with `H_` supplied the arrays `Q_`, `R_`, `S_` are not read. For
the example stage, whose Hessian is tagged diagonal, with `H_ = diag(2, 4)`, `S_` and `C_`
supplied (tags numbered so that dense, sparse, all-zeros and undefined lie below diagonal),
`qpDUNES_setupRegularInterval` returns QPDUNES_OK with the Hessian tagged diagonal,
although `S_` is supplied. -/
theorem C34_counterexample :
    RejectedBelowDiagonal (exHelpers ℝ) ∧
    (exArraysHS ℝ).S_.isSome = true ∧
    (qpDUNES_setupRegularInterval (exHelpers ℝ) 1 1 2 (exQp ℝ (exStages1 ℝ))
      (exStage ℝ 0 0 0 false) (exArraysHS ℝ)).1 = return_t.QPDUNES_OK ∧
    (qpDUNES_setupRegularInterval (exHelpers ℝ) 1 1 2 (exQp ℝ (exStages1 ℝ))
      (exStage ℝ 0 0 0 false) (exArraysHS ℝ)).2.H.sparsityType =
      sparsityType_t.QPDUNES_DIAGONAL := by
  refine ⟨by simp [RejectedBelowDiagonal, exHelpers], rfl, ?_, ?_⟩
  · have h := (setupRegularInterval_check (exHelpers ℝ) 1 1 2 (exQp ℝ (exStages1 ℝ))
      (exStage ℝ 0 0 0 false) (exArraysHS ℝ)).2 (by
        simp [setupRegularInterval_tag, setupRegularInterval_hessian, exArraysHS, exHelpers,
          exStage])
    rw [h, (setupRegularInterval_data_status _ _ _ _ _ _ _ _ _).1]
    rfl
  · have h := (setupRegularInterval_check (exHelpers ℝ) 1 1 2 (exQp ℝ (exStages1 ℝ))
      (exStage ℝ 0 0 0 false) (exArraysHS ℝ)).2 (by
        simp [setupRegularInterval_tag, setupRegularInterval_hessian, exArraysHS, exHelpers,
          exStage])
    rw [h, (setupRegularInterval_data_status _ _ _ _ _ _ _ _ _).2]
    rfl

/-- C34 (amended): for every numbering of the sparsity tags in which dense, sparse,
all-zeros and undefined lie below diagonal and identity does not,
`qpDUNES_setupRegularInterval` returns QPDUNES_ERR_INVALID_ARGUMENT whenever the tag the
stage Hessian has at the check is dense, sparse, all-zeros or undefined. When `H_` is not
supplied this is the case, with the tag dense, whenever `S_` is supplied or `Q_` or `R_` is
detected as dense, and otherwise the tag resolves to identity or diagonal; when `H_` is
supplied the arrays `Q_`, `R_`, `S_` are not read and the tag is the one
`qpDUNES_updateMatrixData` leaves of the tag the stage carries (an undefined one first
replaced by the detected one). With the tag diagonal or identity the Hessian is not
rejected: the function goes on to the other stage data, keeps the Hessian, and returns
QPDUNES_OK when `C_` or both `A_` and `B_` are supplied (QPDUNES_ERR_INVALID_ARGUMENT for
the missing coupling matrix otherwise). -/
theorem C34_setup_rejects_tags_below_diagonal {α : Type} [LinearOrderedField α]
    (hp : setupHelpers_t α) (nX nU nZ : Nat) (qpData : qpData_t α) (interval : interval_t α)
    (a : setupArrays_t α) (hrank : RejectedBelowDiagonal hp) :
    ((setupRegularInterval_tag hp nX nU nZ qpData interval a = sparsityType_t.QPDUNES_DENSE ∨
        setupRegularInterval_tag hp nX nU nZ qpData interval a =
          sparsityType_t.QPDUNES_SPARSE ∨
        setupRegularInterval_tag hp nX nU nZ qpData interval a =
          sparsityType_t.QPDUNES_ALLZEROS ∨
        setupRegularInterval_tag hp nX nU nZ qpData interval a =
          sparsityType_t.QPDUNES_MATRIX_UNDEFINED) →
      (qpDUNES_setupRegularInterval hp nX nU nZ qpData interval a).1 =
        return_t.QPDUNES_ERR_INVALID_ARGUMENT) ∧
    (a.H_ = none →
      (a.S_.isSome = true ∨
        setupRegularInterval_sparsity hp a.Q_ nX = sparsityType_t.QPDUNES_DENSE ∨
        setupRegularInterval_sparsity hp a.R_ nU = sparsityType_t.QPDUNES_DENSE) →
      setupRegularInterval_tag hp nX nU nZ qpData interval a = sparsityType_t.QPDUNES_DENSE ∧
      (qpDUNES_setupRegularInterval hp nX nU nZ qpData interval a).1 =
        return_t.QPDUNES_ERR_INVALID_ARGUMENT) ∧
    (a.H_ = none →
      ¬ (a.S_.isSome = true ∨
        setupRegularInterval_sparsity hp a.Q_ nX = sparsityType_t.QPDUNES_DENSE ∨
        setupRegularInterval_sparsity hp a.R_ nU = sparsityType_t.QPDUNES_DENSE) →
      setupRegularInterval_tag hp nX nU nZ qpData interval a =
          sparsityType_t.QPDUNES_IDENTITY ∨
        setupRegularInterval_tag hp nX nU nZ qpData interval a =
          sparsityType_t.QPDUNES_DIAGONAL) ∧
    (∀ H_, a.H_ = some H_ →
      setupRegularInterval_tag hp nX nU nZ qpData interval a =
        (hp.qpDUNES_updateMatrixData
          (if interval.H.sparsityType = sparsityType_t.QPDUNES_MATRIX_UNDEFINED then
            { interval.H with sparsityType := hp.qpDUNES_detectMatrixSparsity H_ nZ nZ }
          else interval.H) H_ nZ nZ).sparsityType) ∧
    ((setupRegularInterval_tag hp nX nU nZ qpData interval a =
          sparsityType_t.QPDUNES_DIAGONAL ∨
        setupRegularInterval_tag hp nX nU nZ qpData interval a =
          sparsityType_t.QPDUNES_IDENTITY) →
      qpDUNES_setupRegularInterval hp nX nU nZ qpData interval a =
        setupRegularInterval_data hp nX nU nZ qpData interval.nD interval.nV
          { interval with
            H := setupRegularInterval_hessian hp nX nU nZ qpData.options.regParam
              interval.H a } a ∧
      (qpDUNES_setupRegularInterval hp nX nU nZ qpData interval a).1 =
        (if a.C_.isSome = true ∨ (a.A_.isSome = true ∧ a.B_.isSome = true) then
          return_t.QPDUNES_OK else return_t.QPDUNES_ERR_INVALID_ARGUMENT) ∧
      (qpDUNES_setupRegularInterval hp nX nU nZ qpData interval a).2.H.sparsityType =
        setupRegularInterval_tag hp nX nU nZ qpData interval a) := by
  obtain ⟨r1, r2, r3, r4, r5⟩ := hrank
  have hchk := setupRegularInterval_check hp nX nU nZ qpData interval a
  have hrej : (setupRegularInterval_tag hp nX nU nZ qpData interval a =
        sparsityType_t.QPDUNES_DENSE ∨
      setupRegularInterval_tag hp nX nU nZ qpData interval a = sparsityType_t.QPDUNES_SPARSE ∨
      setupRegularInterval_tag hp nX nU nZ qpData interval a =
        sparsityType_t.QPDUNES_ALLZEROS ∨
      setupRegularInterval_tag hp nX nU nZ qpData interval a =
        sparsityType_t.QPDUNES_MATRIX_UNDEFINED) →
      (qpDUNES_setupRegularInterval hp nX nU nZ qpData interval a).1 =
        return_t.QPDUNES_ERR_INVALID_ARGUMENT := by
    intro h
    have hlt : hp.sparsityRank (setupRegularInterval_tag hp nX nU nZ qpData interval a) <
        hp.sparsityRank sparsityType_t.QPDUNES_DIAGONAL := by
      rcases h with h | h | h | h <;> rw [h] <;> assumption
    rw [hchk.1 hlt]
  refine ⟨hrej, fun hH hS => ?_, fun hH hS => ?_, fun H_ hH => ?_, fun hp2 => ?_⟩
  · have ht : setupRegularInterval_tag hp nX nU nZ qpData interval a =
        sparsityType_t.QPDUNES_DENSE := by
      unfold setupRegularInterval_tag
      rw [setupRegularInterval_assembled_tag hp nX nU nZ _ _ a hH, if_pos hS]
    exact ⟨ht, hrej (Or.inl ht)⟩
  · unfold setupRegularInterval_tag
    rw [setupRegularInterval_assembled_tag hp nX nU nZ _ _ a hH, if_neg hS]
    split_ifs
    · exact Or.inl rfl
    · exact Or.inr rfl
  · unfold setupRegularInterval_tag
    rw [setupRegularInterval_given_tag hp nX nU nZ _ _ a H_ hH]
  · have hge : ¬ hp.sparsityRank (setupRegularInterval_tag hp nX nU nZ qpData interval a) <
        hp.sparsityRank sparsityType_t.QPDUNES_DIAGONAL := by
      rcases hp2 with h | h <;> rw [h]
      · exact lt_irrefl _
      · exact not_lt.mpr r5
    rw [hchk.2 hge]
    exact ⟨rfl, (setupRegularInterval_data_status _ _ _ _ _ _ _ _ _).1,
      by rw [(setupRegularInterval_data_status _ _ _ _ _ _ _ _ _).2]; rfl⟩

/-- Witness of C34 (amended): with the example numbering of the tags and no `H_`, the
setup of the example stage returns QPDUNES_ERR_INVALID_ARGUMENT when `S_` is supplied, and
QPDUNES_OK with a Hessian tagged diagonal when the diagonal `Q_`, `R_` and `A_`, `B_` are
supplied. -/
theorem C34_witness :
    RejectedBelowDiagonal (exHelpers ℝ) ∧
    (qpDUNES_setupRegularInterval (exHelpers ℝ) 1 1 2 (exQp ℝ (exStages1 ℝ))
      (exStage ℝ 0 0 0 false) (exArraysS ℝ)).1 = return_t.QPDUNES_ERR_INVALID_ARGUMENT ∧
    (qpDUNES_setupRegularInterval (exHelpers ℝ) 1 1 2 (exQp ℝ (exStages1 ℝ))
      (exStage ℝ 0 0 0 false) (exArraysQR ℝ)).1 = return_t.QPDUNES_OK ∧
    (qpDUNES_setupRegularInterval (exHelpers ℝ) 1 1 2 (exQp ℝ (exStages1 ℝ))
      (exStage ℝ 0 0 0 false) (exArraysQR ℝ)).2.H.sparsityType =
      sparsityType_t.QPDUNES_DIAGONAL := by
  have hr : RejectedBelowDiagonal (exHelpers ℝ) := by
    simp [RejectedBelowDiagonal, exHelpers]
  have hS := C34_setup_rejects_tags_below_diagonal (exHelpers ℝ) 1 1 2 (exQp ℝ (exStages1 ℝ))
    (exStage ℝ 0 0 0 false) (exArraysS ℝ) hr
  have hQ := C34_setup_rejects_tags_below_diagonal (exHelpers ℝ) 1 1 2 (exQp ℝ (exStages1 ℝ))
    (exStage ℝ 0 0 0 false) (exArraysQR ℝ) hr
  have ht : setupRegularInterval_tag (exHelpers ℝ) 1 1 2 (exQp ℝ (exStages1 ℝ))
      (exStage ℝ 0 0 0 false) (exArraysQR ℝ) = sparsityType_t.QPDUNES_DIAGONAL := by
    unfold setupRegularInterval_tag
    rw [setupRegularInterval_assembled_tag _ _ _ _ _ _ _ rfl]
    simp [exArraysQR, exArraysNone, setupRegularInterval_sparsity, exHelpers]
  refine ⟨hr, (hS.2.1 rfl (Or.inl rfl)).2, ?_, ?_⟩
  · rw [(hQ.2.2.2.2 (Or.inl ht)).2.1]
    rfl
  · rw [(hQ.2.2.2.2 (Or.inl ht)).2.2, ht]

/-- C33, as stated, fails on the code: the run of `qpDUNES_solve` on the third example
detects optimality in its first pass, so no outer iteration was completed (no line search
step, no active set update, no logging), yet `log.numIter` is 1 at the return. -/
theorem C33_counterexample :
    ∃ q1, qpDUNES_solve Real.sqrt (exExt ℝ) 1 1 2 (exQp ℝ (exStages3 ℝ)) =
        some (return_t.QPDUNES_SUCC_OPTIMAL_SOLUTION_FOUND, q1) ∧
      q1.log.numIter = 1 ∧
      solve_completedIterations Real.sqrt (exExt ℝ) 1 1 2 (exQp ℝ (exStages3 ℝ)) = 0 := by
  obtain ⟨s, hs, hmax, hit⟩ := exSolve3_firstPass
  refine ⟨_, solve_pass_return Real.sqrt (exExt ℝ) 1 1 2 _ s s 0 _ hs hmax rfl hit, ?_, ?_⟩
  · exact ((solve_iteration_numIter Real.sqrt (exExt ℝ) 1 1 2 1 s).2 _ hit).1
  · unfold solve_completedIterations
    rw [hs]
    exact completedPasses_exit _ 1 _ 0 s s _ hmax rfl hit

/-- C33, amended: for every run of `qpDUNES_solve` that returns, `log.numIter` at the
return is 0 when the run returns before the iteration loop (the initial stage steps
failed), it is the number of completed outer iterations plus one (the index of the pass
that returned) when the run returns inside the loop, and when all `maxIter` iterations
complete the status is QPDUNES_ERR_ITERATION_LIMIT_REACHED and `log.numIter = maxIter`. -/
theorem C33_numIter_is_index_of_returning_pass {α : Type} [LinearOrderedField α]
    (sqrt_f : α → α) (ext : collaborators_t α) (N nX nZ : Nat) (qp : qpData_t α)
    (r : return_t × qpData_t α)
    (h : qpDUNES_solve sqrt_f ext N nX nZ qp = some r) :
    (∀ e, solve_start ext N qp = Except.error e → r.2.log.numIter = 0) ∧
    (∀ s0, solve_start ext N qp = Except.ok s0 →
      solve_completedIterations sqrt_f ext N nX nZ qp ≤ qp.options.maxIter.toNat ∧
      (solve_completedIterations sqrt_f ext N nX nZ qp < qp.options.maxIter.toNat →
        r.2.log.numIter = (solve_completedIterations sqrt_f ext N nX nZ qp : Int) + 1) ∧
      (solve_completedIterations sqrt_f ext N nX nZ qp = qp.options.maxIter.toNat →
        r.1 = return_t.QPDUNES_ERR_ITERATION_LIMIT_REACHED ∧
        r.2.log.numIter = qp.options.maxIter)) :=
  solve_numIter sqrt_f ext N nX nZ qp r h

/-- C33 on the third example: the run returns, its start goes through, no pass is
completed, and `log.numIter` is 0 + 1 at the return. -/
theorem C33_witness :
    ∃ r, qpDUNES_solve Real.sqrt (exExt ℝ) 1 1 2 (exQp ℝ (exStages3 ℝ)) = some r ∧
      (∀ e, solve_start (exExt ℝ) 1 (exQp ℝ (exStages3 ℝ)) = Except.error e →
        r.2.log.numIter = 0) ∧
      (∀ s0, solve_start (exExt ℝ) 1 (exQp ℝ (exStages3 ℝ)) = Except.ok s0 →
        solve_completedIterations Real.sqrt (exExt ℝ) 1 1 2 (exQp ℝ (exStages3 ℝ)) ≤
          (exQp ℝ (exStages3 ℝ)).options.maxIter.toNat ∧
        (solve_completedIterations Real.sqrt (exExt ℝ) 1 1 2 (exQp ℝ (exStages3 ℝ)) <
            (exQp ℝ (exStages3 ℝ)).options.maxIter.toNat →
          r.2.log.numIter =
            (solve_completedIterations Real.sqrt (exExt ℝ) 1 1 2 (exQp ℝ (exStages3 ℝ)) : Int)
              + 1) ∧
        (solve_completedIterations Real.sqrt (exExt ℝ) 1 1 2 (exQp ℝ (exStages3 ℝ)) =
            (exQp ℝ (exStages3 ℝ)).options.maxIter.toNat →
          r.1 = return_t.QPDUNES_ERR_ITERATION_LIMIT_REACHED ∧
          r.2.log.numIter = (exQp ℝ (exStages3 ℝ)).options.maxIter)) := by
  obtain ⟨q1, h⟩ := exSolve3_optimal
  exact ⟨_, h, C33_numIter_is_index_of_returning_pass Real.sqrt (exExt ℝ) 1 1 2 _ _ h⟩

/-- C36 on the code: a stored block goes stale. The example run (`N = 1`, `n_X = 1`,
`n_Z = 2`, iteration logging, `nbrInitialGradientSteps = 0`, `maxIter = 2`) uses a stage
solver whose step makes the lower bound of the state active in both stages once
`lambda[0]` is not 0. Pass 1 assembles `M[0,0] = 3/4` (the block formula on the
multipliers at that time), factorizes without regularization and takes the full step, after
which the bound multipliers `y[0]` of both stages are 1. At the end of pass 1
`prevIeqStatus` is set to the table of `itLog[0]`, which is the table `ieqStatus` points to
(dual_qp.c 171 with `*itCntr = 1`), so the new active set is compared with itself and no
stage is marked as changed. Pass 2 takes the Newton branch, `qpDUNES_setupNewtonSystem`
returns QPDUNES_OK, and the stored `M[0,0]` is still `3/4`, while the block formula on the
current multipliers gives `1/4`, with the activity test of the code and with that of the
specification. -/
theorem C36_stale_block_after_aliased_comparison :
    ∃ (s0 : qpData_t ℝ × Int × ℝ) (qd : qpData_t ℝ) (a : return_t × qpData_t ℝ)
      (o : ℝ × qpData_t ℝ) (s1 : qpData_t ℝ × Int × ℝ) (q2 : qpData_t ℝ),
      (exQpRun ℝ (exOptAct ℝ)).options.nbrInitialGradientSteps = 0 ∧
      (exQpRun ℝ (exOptAct ℝ)).options.maxIter = 2 ∧
      assembledDiagEntry 2 (exQpRun ℝ (exOptAct ℝ)) 0 0 0 = 3 / 4 ∧
      solve_start (exExtAct ℝ) 1 (exQpRun ℝ (exOptAct ℝ)) = Except.ok s0 ∧
      solve_direction Real.sqrt (exExtAct ℝ) 1 1 2 1 (solve_iterationHead 1 s0.1) s0.2.1 =
        Except.ok qd ∧
      (qd.log.itLog 0).isHessianRegularized = false ∧
      qd.hessian (0, 0, 0, 0) = 3 / 4 ∧
      qpDUNES_solveAllLocalQPs (exExtAct ℝ) 1 1 qd qd.deltaLambda = some a ∧
      qpDUNES_determineStepLength Real.sqrt (exExtAct ℝ) 1 1 2 a.2 s0.2.2
        (a.2.log.itLog 0).isHessianRegularized = some (return_t.QPDUNES_OK, o.2, o.1) ∧
      solve_iteration Real.sqrt (exExtAct ℝ) 1 1 2 1 s0 = Except.ok s1 ∧
      (∀ k, k ≤ 1 → (s1.1.intervals k).actSetHasChanged = false) ∧
      solve_direction Real.sqrt (exExtAct ℝ) 1 1 2 2 (solve_iterationHead 2 s1.1) s1.2.1 =
        solve_newtonDirection Real.sqrt (exExtAct ℝ) 1 1 2 (solve_iterationHead 2 s1.1)
          s1.2.1 ∧
      qpDUNES_setupNewtonSystem Real.sqrt (exExtAct ℝ) 1 1 2 (solve_iterationHead 2 s1.1) =
        some (return_t.QPDUNES_OK, q2) ∧
      (q2.intervals 0).y.data 0 = 1 ∧ (q2.intervals 1).y.data 0 = 1 ∧
      q2.hessian (0, 0, 0, 0) = 3 / 4 ∧
      assembledDiagEntry 2 q2 0 0 0 = 1 / 4 ∧
      claimedDiagEntry 2 q2 0 0 0 = 1 / 4 := by
  obtain ⟨s0, qd, a, o, s1, h1, h2, h3, h4, h5, h6, h7, h8, h9, h10, h11⟩ := exAct_pass1
  obtain ⟨q2, k1, k2, k3, k4, k5, k6⟩ := exAct_pass2 s1.1 h8 h9 h10 h11
  refine ⟨s0, qd, a, o, s1, q2, rfl, rfl, exRun_assembled _ rfl, h1, h2, h3, h4, h5, h6, h7,
    h11, ?_, k1, k5, k6, k2, k3, k4⟩
  refine solve_direction_newton Real.sqrt (exExtAct ℝ) 1 1 2 2 _ _ (Or.inr ?_)
  have e : (solve_iterationHead 2 s1.1).options = exOptAct ℝ := h8
  rw [e]
  decide
end Claims

end QpDunes
